import Mathlib

/-!
# stm8mu: assembler, object codec and linker

A shallow embedding of the parts of `src/common`, `src/asm` and `src/lkr` that the
verified properties talk about, followed by the theorems.

Conventions of the embedding

* a C string is the list of its bytes without the terminating NUL (`CStr`);
* a `llist_t` list is a Lean `List` (`llist_add` appends at the tail);
* fixed-width integers are `Nat`/`Int` with explicit reduction modulo `2^w`;
* a run that ends in `app_close(APP_EXITCODE_ERROR)` or in `return -1` is
  `Except.error msg`, where `msg` is the diagnostic text given to `debug_emsg`;
* a pointer to a list element that the C code writes through is modelled by an
  update of the first element carrying that name (`symbol_find` and `section_find`
  return the first match).
-/

deriving instance DecidableEq for Except

namespace Stm8mu

/-- A C string: its bytes, the terminating NUL excluded. -/
abbrev CStr := List Nat

/-- A computation that either yields a value or stops with a diagnostic. -/
abbrev Run := Except String

/-! ## Fixed-width integers -/

/-- Conversion to `uint8_t`. -/
def u8 (x : Int) : Nat := (x % 256).toNat

/-- Conversion to `uint16_t`. -/
def u16 (x : Int) : Nat := (x % 65536).toNat

/-- Conversion to `uint32_t`. -/
def u32 (x : Int) : Nat := (x % 4294967296).toNat

/-- Conversion to `uint64_t`. -/
def u64 (x : Int) : Nat := (x % 18446744073709551616).toNat

/-- Conversion to `int32_t` (two's complement). -/
def i32 (x : Int) : Int := (x + 2147483648) % 4294967296 - 2147483648

/-- Conversion to `int64_t` (two's complement). -/
def i64 (x : Int) : Int :=
  (x + 9223372036854775808) % 18446744073709551616 - 9223372036854775808

/-- The first `n` bytes of the in-memory image of the integer `v` on the
little-endian host: byte `i` is `v / 256^i % 256`. -/
def le_bytes (v : Nat) : Nat → List Nat
  | 0 => []
  | n + 1 => v % 256 :: le_bytes (v / 256) n

/-- The value whose little-endian image is the given byte list. -/
def le_value : List Nat → Nat
  | [] => 0
  | b :: bs => b + 256 * le_value bs

/-- The `n` low bytes of `v`, most significant byte first. -/
def be_bytes (v : Nat) (n : Nat) : List Nat := (le_bytes v n).reverse

/-! ## btorder.h

Modelled from the spec: `btorder.h` is not among the sources. The spec calls the
host-little-endian macros a no-op on the (little-endian) host and the `tobe`
macros the big-endian encodings of the stated width, so `host_tobeN x` is the
value whose in-memory image starts with the `N/8` low bytes of `x`, most
significant first. -/

/-- Modelled from the spec: `host_tole16` of `btorder.h`, a no-op on the host. -/
def host_tole16 (x : Nat) : Nat := x

/-- Modelled from the spec: `host_tole24` of `btorder.h`, a no-op on the host. -/
def host_tole24 (x : Nat) : Nat := x

/-- Modelled from the spec: `host_tole32` of `btorder.h`, a no-op on the host. -/
def host_tole32 (x : Nat) : Nat := x

/-- Modelled from the spec: `host_tole64` of `btorder.h`, a no-op on the host. -/
def host_tole64 (x : Nat) : Nat := x

/-- Modelled from the spec: `host_tobe16` of `btorder.h`, the two low bytes swapped. -/
def host_tobe16 (x : Nat) : Nat := le_value (be_bytes x 2)

/-- Modelled from the spec: `host_tobe24` of `btorder.h`, the three low bytes reversed. -/
def host_tobe24 (x : Nat) : Nat := le_value (be_bytes x 3)

/-- Modelled from the spec: `host_tobe32` of `btorder.h`, the four low bytes reversed. -/
def host_tobe32 (x : Nat) : Nat := le_value (be_bytes x 4)

/-- Modelled from the spec: `host_tobe64` of `btorder.h`, the eight bytes reversed. -/
def host_tobe64 (x : Nat) : Nat := le_value (be_bytes x 8)

/-! ## symbol.h, symbol.c -/

/-- The anonymous enum of `struct symbol_t`. -/
inductive symbol_type where
  | SYMBOL_TYPE_NONE
  | SYMBOL_TYPE_CONST
  | SYMBOL_TYPE_EXTERN
  | SYMBOL_TYPE_LABEL
  deriving DecidableEq, Repr

open symbol_type

/-- The `struct symbol_t`; `sect` is the C field `section` (`none` is `NULL`),
`val64` is the union of `val64` and `offset`. -/
structure symbol_t where
  type : symbol_type
  name : CStr
  sect : Option CStr
  exp : Nat
  val64 : Int
  width : Nat
  attr : List (CStr × Option CStr) := []
  deriving DecidableEq, Repr

/-- The list `struct symbols_t`. -/
abbrev symbols_t := List symbol_t

/-- The function `symbol_find`: the first symbol with that name. -/
def symbol_find (sl : symbols_t) (name : CStr) : Option symbol_t :=
  sl.find? (fun s => s.name = name)

/-- The function `_symbol_create`: zeroed, then `symbol_set_width(s, "w8")`. -/
def _symbol_create (name : CStr) : symbol_t :=
  { type := SYMBOL_TYPE_NONE, name := name, sect := none, exp := 0, val64 := 0, width := 1 }

/-- The function `symbols_add`: refuses a name already present, else appends a fresh
symbol. The writes the caller makes through the returned pointer are `f`. -/
def symbols_add (sl : symbols_t) (name : CStr) (f : symbol_t → symbol_t) : Run symbols_t :=
  match symbol_find sl name with
  | some _ => .error "Symbol redefined"
  | none => .ok (sl ++ [f (_symbol_create name)])

/-- Writes through a pointer obtained from `symbol_find`: the first symbol with that
name is replaced by its image under `f`. -/
def symbol_update (sl : symbols_t) (name : CStr) (f : symbol_t → symbol_t) : symbols_t :=
  match sl with
  | [] => []
  | s :: rest => if s.name = name then f s :: rest else s :: symbol_update rest name f

/-- The function `symbol_set_const`. -/
def symbol_set_const (s : symbol_t) (value : Int) : symbol_t :=
  { s with type := SYMBOL_TYPE_CONST, val64 := value }

/-- The function `symbol_set_section`: at most once per symbol. -/
def symbol_set_section (s : symbol_t) (sect : CStr) : Run symbol_t :=
  match s.sect with
  | some _ => .error "Symbol already assigned to section"
  | none => .ok { s with sect := some sect }

/-- The byte strings "w8", "w16" and "w24". -/
def SYMBOL_WIDTH_SHORT : CStr := [119, 56]

/-- The byte string "w16". -/
def SYMBOL_WIDTH_LONG : CStr := [119, 49, 54]

/-- The byte string "w24". -/
def SYMBOL_WIDTH_EXT : CStr := [119, 50, 52]

/-- The function `symbol_set_width`. -/
def symbol_set_width (s : symbol_t) (width : CStr) : Run symbol_t :=
  if width = SYMBOL_WIDTH_SHORT then .ok { s with width := 1 }
  else if width = SYMBOL_WIDTH_LONG then .ok { s with width := 2 }
  else if width = SYMBOL_WIDTH_EXT then .ok { s with width := 3 }
  else .error "Invalid symbol width"

/-! ## section.h, section.c -/

/-- The `struct section_t`. `data` holds the bytes stored so far; the allocation
size `alength` is not modelled (allocation is assumed to succeed). The field
`offset` is left uninitialised by `_section_create`; the model starts it at 0. -/
structure section_t where
  name : CStr
  noload : Nat
  data : List Nat
  length : Nat
  placed : Int := 0
  offset : Nat := 0
  lma : Nat := 0
  vma : Nat := 0
  deriving DecidableEq, Repr

/-- The list `struct sections_t`. -/
abbrev sections_t := List section_t

/-- The function `section_find`: the first section with that name. -/
def section_find (sl : sections_t) (name : CStr) : Option section_t :=
  sl.find? (fun s => s.name = name)

/-- The function `_section_create`. -/
def _section_create (name : CStr) : section_t :=
  { name := name, noload := 0, data := [], length := 0 }

/-- The function `section_select` (with `section_add`): the list after the section
was created when it did not exist. -/
def section_select (sl : sections_t) (name : CStr) : sections_t :=
  match section_find sl name with
  | some _ => sl
  | none => sl ++ [_section_create name]

/-- Writes through a pointer obtained from `section_find` or `section_select`. -/
def section_update (sl : sections_t) (name : CStr) (f : section_t → section_t) : sections_t :=
  match sl with
  | [] => []
  | s :: rest => if s.name = name then f s :: rest else s :: section_update rest name f

/-- The call `memcpy(&buf[off], src, n)` on a buffer of which `buf` is the known
part: bytes of the buffer never written before read as 0, bytes of `src` beyond
its known part read as 0. -/
def memcpy_at (buf : List Nat) (off : Nat) (src : List Nat) (n : Nat) : List Nat :=
  (buf.take off ++ List.replicate (off - buf.length) 0)
    ++ ((src.take n) ++ List.replicate (n - src.length) 0)
    ++ buf.drop (off + n)

/-- The function `section_pushdata(s, data, length)`. -/
def section_pushdata (s : section_t) (data : List Nat) (length : Nat) : section_t :=
  let s1 := if s.noload = 0 ∧ 0 < length
    then { s with data := memcpy_at s.data s.length data length } else s
  { s1 with length := (s.length + length) % 4294967296 }

/-- The function `section_patch(s, offset, data, length)`. -/
def section_patch (s : section_t) (offset : Nat) (data : List Nat) (length : Nat) :
    Run section_t :=
  if s.noload ≠ 0 then .ok s
  else if (offset + length) % 4294967296 > s.length then .error "Failed to patch section"
  else .ok { s with data := memcpy_at s.data offset data length }

/-! ## relocation.h, relocation.c -/

/-- The enumerator `RELOCATION_TYPE_ABOSULTE`. -/
def RELOCATION_TYPE_ABOSULTE : Nat := 0

/-- The enumerator `RELOCATION_TYPE_RELATIVE`. -/
def RELOCATION_TYPE_RELATIVE : Nat := 1

/-- The `struct relocation_t`; `type` holds the enumerator as an integer, `sect` is
the C field `section`. -/
structure relocation_t where
  type : Nat
  sect : CStr
  symbol : CStr
  offset : Nat
  length : Nat
  adjust : Int
  deriving DecidableEq, Repr

/-- The list `struct relocations_t`. -/
abbrev relocations_t := List relocation_t

/-- The function `relocations_add`. -/
def relocations_add (rl : relocations_t) (sect symbol : CStr) (offset length : Nat)
    (adjust : Int) (type : Nat) : relocations_t :=
  rl ++ [{ type := type, sect := sect, symbol := symbol, offset := offset,
           length := length, adjust := adjust }]

/-! ## lkr/linker.h, lkr/linker.c -/

/-- The `struct linker_file_data_t`. -/
structure linker_file_data_t where
  fname : CStr
  symbols : symbols_t
  sections : sections_t
  relocations : relocations_t
  deriving DecidableEq, Repr

/-- The member `result` of `struct linker_context_t`. -/
structure linker_result_t where
  symbols : symbols_t
  sections : sections_t
  relocations : relocations_t
  deriving DecidableEq, Repr

/-- The `struct linker_context_t` (the token list apart); `symbols` are the
constants of the command line and of the linker script. -/
structure linker_context_t where
  flist : List linker_file_data_t
  symbols : symbols_t
  result : linker_result_t
  deriving DecidableEq, Repr

/-- The function `linker_init` followed by the `_load_file` calls of `linker_run`:
the files in command-line order, everything else empty. -/
def linker_init (files : List linker_file_data_t) : linker_context_t :=
  { flist := files, symbols := [], result := { symbols := [], sections := [], relocations := [] } }

/-- The file part of `_symbol_find_extern`: `acc` is the pair (`sext`, `find->ffound`)
so far; symbols of one file. -/
def _symbol_find_extern_syms (sname fname : CStr) :
    symbols_t → Option symbol_t × Option CStr → Run (Option symbol_t × Option CStr)
  | [], acc => .ok acc
  | s :: rest, acc =>
    if s.name = sname ∧ s.exp ≠ 0 then
      match acc.1 with
      | some _ => .error "Symbol redefined"
      | none => _symbol_find_extern_syms sname fname rest (some s, some fname)
    else _symbol_find_extern_syms sname fname rest acc

/-- The file loop of `_symbol_find_extern`. -/
def _symbol_find_extern_files (sname fexclude : CStr) :
    List linker_file_data_t → Option symbol_t × Option CStr →
      Run (Option symbol_t × Option CStr)
  | [], acc => .ok acc
  | fd :: rest, acc =>
    if fd.fname = fexclude then _symbol_find_extern_files sname fexclude rest acc
    else
      match _symbol_find_extern_syms sname fd.fname fd.symbols acc with
      | .error e => .error e
      | .ok acc1 => _symbol_find_extern_files sname fexclude rest acc1

/-- The linker-context loop of `_symbol_find_extern`. -/
def _symbol_find_extern_ctx (sname : CStr) :
    symbols_t → Option symbol_t × Option CStr → Run (Option symbol_t × Option CStr)
  | [], acc => .ok acc
  | s :: rest, acc =>
    if s.name = sname then
      match acc.1 with
      | some _ => .error "Symbol redefined"
      | none => _symbol_find_extern_ctx sname rest (some s, acc.2)
    else _symbol_find_extern_ctx sname rest acc

/-- The function `_symbol_find_extern`: the pair (`find->symbol`, `find->ffound`). -/
def _symbol_find_extern (ctx : linker_context_t) (sname fexclude : CStr) :
    Run (Option symbol_t × Option CStr) :=
  match _symbol_find_extern_files sname fexclude ctx.flist (none, none) with
  | .error e => .error e
  | .ok acc => _symbol_find_extern_ctx sname ctx.symbols acc

/-- The function `_mkname`: the file name, a colon, the symbol name. -/
def _mkname (f s : CStr) : CStr := f ++ [58] ++ s

/-- The loop of `_add_relocation` over the relocations of the file. -/
def _add_relocation_loop (rsections : sections_t) (s : symbol_t) (rsname : CStr) :
    relocations_t → relocations_t → Run relocations_t
  | [], out => .ok out
  | r :: rest, out =>
    if r.symbol ≠ s.name then _add_relocation_loop rsections s rsname rest out
    else
      match section_find rsections r.sect with
      | none => .error "Section not found for relocation"
      | some sect =>
        if r.length ≠ s.width then .error "Relocation mismatch symbol width"
        else
          _add_relocation_loop rsections s rsname rest
            (relocations_add out sect.name rsname ((r.offset + sect.offset) % 4294967296)
              r.length r.adjust r.type)

/-- The function `_add_relocation`. -/
def _add_relocation (ctx : linker_context_t) (fd : linker_file_data_t) (s : symbol_t)
    (rsname : CStr) : Run linker_context_t :=
  match _add_relocation_loop ctx.result.sections s rsname fd.relocations
      ctx.result.relocations with
  | .error e => .error e
  | .ok rl => .ok { ctx with result := { ctx.result with relocations := rl } }

/-- The body of the loop of `_add_symbols` for one symbol `s` of the file `fd`. -/
def _add_symbols_step (ctx : linker_context_t) (fd : linker_file_data_t) (s : symbol_t) :
    Run linker_context_t :=
  if s.type = SYMBOL_TYPE_EXTERN then
    match _symbol_find_extern ctx s.name fd.fname with
    | .error e => .error e
    | .ok (some _, some ffound) => _add_relocation ctx fd s (_mkname ffound s.name)
    | .ok (some sext, none) =>
      match symbol_find ctx.result.symbols s.name with
      | some _ => _add_relocation ctx fd s s.name
      | none =>
        match symbols_add ctx.result.symbols s.name
            (fun ns => { symbol_set_const ns sext.val64 with width := s.width }) with
        | .error e => .error e
        | .ok sl =>
          _add_relocation { ctx with result := { ctx.result with symbols := sl } } fd s s.name
    | .ok (none, _) =>
      match symbol_find ctx.result.symbols s.name with
      | some _ => _add_relocation ctx fd s s.name
      | none =>
        match symbols_add ctx.result.symbols s.name
            (fun ns => { ns with type := SYMBOL_TYPE_EXTERN, width := s.width }) with
        | .error e => .error e
        | .ok sl =>
          _add_relocation { ctx with result := { ctx.result with symbols := sl } } fd s s.name
  else
    match s.sect with
    | none => .error "Symbol has not section"
    | some ssect =>
      match section_find ctx.result.sections ssect with
      | none => .error "Section not found"
      | some rs =>
        match symbols_add ctx.result.symbols (_mkname fd.fname s.name)
            (fun ns => { ns with type := SYMBOL_TYPE_LABEL, width := s.width,
                                 val64 := i64 (s.val64 + rs.offset), exp := s.exp,
                                 sect := some ssect }) with
        | .error e => .error e
        | .ok sl =>
          _add_relocation { ctx with result := { ctx.result with symbols := sl } } fd s
            (_mkname fd.fname s.name)

/-- The loop of `_add_symbols` over the symbols of the file. -/
def _add_symbols_loop (fd : linker_file_data_t) :
    symbols_t → linker_context_t → Run linker_context_t
  | [], ctx => .ok ctx
  | s :: rest, ctx =>
    match _add_symbols_step ctx fd s with
    | .error e => .error e
    | .ok ctx1 => _add_symbols_loop fd rest ctx1

/-- The function `_add_symbols`. -/
def _add_symbols (ctx : linker_context_t) (fd : linker_file_data_t) : Run linker_context_t :=
  _add_symbols_loop fd fd.symbols ctx

/-- The first loop of `_glue_sections` for one file: every section of the file is
appended to the output section of the same name. -/
def _glue_file_sections : sections_t → sections_t → Run sections_t
  | [], rsl => .ok rsl
  | sect :: rest, rsl =>
    let rsl1 := section_select rsl sect.name
    match section_find rsl1 sect.name with
    | none => .error "Can not select section"
    | some rsection =>
      let rsection1 :=
        if rsection.noload = 0 then { rsection with noload := sect.noload } else rsection
      if rsection1.noload ≠ sect.noload then .error "NOLOAD attribute of section mismatch"
      else
        _glue_file_sections rest
          (section_update rsl1 sect.name
            (fun _ => section_pushdata rsection1 sect.data sect.length))

/-- The last loop of `_glue_sections` for one file: `section->offset += section->length`
on every output section. -/
def _glue_add_offsets (rsl : sections_t) : sections_t :=
  rsl.map (fun s => { s with offset := (s.offset + s.length) % 4294967296 })

/-- The body of the file loop of `_glue_sections`. -/
def _glue_file (ctx : linker_context_t) (fd : linker_file_data_t) : Run linker_context_t :=
  match _glue_file_sections fd.sections ctx.result.sections with
  | .error e => .error e
  | .ok rsl =>
    match _add_symbols { ctx with result := { ctx.result with sections := rsl } } fd with
    | .error e => .error e
    | .ok ctx1 =>
      .ok { ctx1 with
        result := { ctx1.result with sections := _glue_add_offsets ctx1.result.sections } }

/-- The file loop of `_glue_sections`. -/
def _glue_files : List linker_file_data_t → linker_context_t → Run linker_context_t
  | [], ctx => .ok ctx
  | fd :: rest, ctx =>
    match _glue_file ctx fd with
    | .error e => .error e
    | .ok ctx1 => _glue_files rest ctx1

/-- The function `_glue_sections`. -/
def _glue_sections (ctx : linker_context_t) : Run linker_context_t :=
  _glue_files ctx.flist ctx

/-- The offset that `_glue_sections` holds for the output section `name` when it
turns to the file number `i` (counted from 0): the value of `section->offset` that
`_add_symbols` adds to the labels and relocations of that file. -/
def glue_start_offset (files : List linker_file_data_t) (i : Nat) (name : CStr) :
    Run (Option Nat) :=
  match _glue_files (files.take i) (linker_init files) with
  | .error e => .error e
  | .ok ctx =>
    match files.get? i with
    | none => .ok none
    | some fd =>
      match _glue_file_sections fd.sections ctx.result.sections with
      | .error e => .error e
      | .ok rsl => .ok ((section_find rsl name).map (fun s => s.offset))

/-- The function `_mkpatch`. -/
def _mkpatch (value : Nat) (width : Nat) : Run Nat :=
  if width = 1 then .ok (host_tole32 value)
  else if width = 2 then .ok (host_tobe16 value)
  else if width = 3 then .ok (host_tobe24 value)
  else .error "Invalid width"

/-- The function `_smaxnum`. -/
def _smaxnum (width : Nat) : Run Int :=
  if width = 1 then .ok 127 else .error "Invalid width"

/-- The function `_sminnum`. -/
def _sminnum (width : Nat) : Run Int :=
  if width = 1 then .ok (-128) else .error "Invalid width"

/-- The test for one pair of sections in the overlap check of `_patch_sections`. -/
def _overlap_pair (s0 s1 : section_t) : Run Unit :=
  if s0.name = s1.name then .ok ()
  else if s0.noload = 0 ∧ s1.noload = 0 ∧
      ((s0.lma < s1.lma ∧ (s0.lma + s0.length) % 4294967296 > s1.lma) ∨
       (s0.lma ≥ s1.lma ∧ (s1.lma + s1.length) % 4294967296 > s0.lma)) then
    .error "LMA of sections overlaps"
  else if (s0.vma < s1.vma ∧ (s0.vma + s0.length) % 4294967296 > s1.vma) ∨
      (s0.vma ≥ s1.vma ∧ (s1.vma + s1.length) % 4294967296 > s0.vma) then
    .error "VMA of sections overlaps"
  else .ok ()

/-- The inner loop of the overlap check. -/
def _overlap_inner (s0 : section_t) : sections_t → Run Unit
  | [] => .ok ()
  | s1 :: rest =>
    match _overlap_pair s0 s1 with
    | .error e => .error e
    | .ok _ => _overlap_inner s0 rest

/-- The outer loop of the overlap check; `all` is the whole list of output sections. -/
def _overlap_outer (all : sections_t) : sections_t → Run Unit
  | [] => .ok ()
  | s0 :: rest =>
    match _overlap_inner s0 all with
    | .error e => .error e
    | .ok _ => _overlap_outer all rest

/-- The block "fix symbols" of `_patch_sections`: the VMA of its section is added to
the value of every label. -/
def _fix_symbols (sections : sections_t) : symbols_t → Run symbols_t
  | [] => .ok []
  | s :: rest =>
    if s.type ≠ SYMBOL_TYPE_LABEL then
      match _fix_symbols sections rest with
      | .error e => .error e
      | .ok out => .ok (s :: out)
    else
      match s.sect.bind (section_find sections) with
      | none => .error "Section not found"
      | some sect =>
        match _fix_symbols sections rest with
        | .error e => .error e
        | .ok out => .ok ({ s with val64 := i64 (s.val64 + sect.vma) } :: out)

/-- The value `patch` that the relocation loop of `_patch_sections` computes for one
relocation, `symbol` being the target after the resolution of an extern. -/
def _relocation_patch (sections : sections_t) (symbol : symbol_t) (rsection : section_t)
    (relocation : relocation_t) : Run Nat :=
  if symbol.type = SYMBOL_TYPE_CONST then _mkpatch (u64 symbol.val64) symbol.width
  else
    match symbol.sect.bind (section_find sections) with
    | none => .error "NULL"
    | some _ =>
      if relocation.type = RELOCATION_TYPE_ABOSULTE then
        _mkpatch (u64 symbol.val64) symbol.width
      else
        let jump : Int :=
          i64 (symbol.val64 - u32 (rsection.vma + relocation.offset + relocation.adjust))
        let bound : Run Bool :=
          if jump < 0 then
            match _sminnum relocation.length with
            | .error e => .error e
            | .ok m => .ok (decide (jump < m))
          else
            match _smaxnum relocation.length with
            | .error e => .error e
            | .ok m => .ok (decide (jump > m))
        match bound with
        | .error e => .error e
        | .ok true => .error "Symbol jump too long"
        | .ok false => _mkpatch (u64 jump) symbol.width

/-- The body of the relocation loop of `_patch_sections`. -/
def _apply_relocation (ctx : linker_context_t) (relocation : relocation_t) :
    Run linker_context_t :=
  match symbol_find ctx.result.symbols relocation.symbol with
  | none => .error "NULL"
  | some symbol0 =>
    let resolved : Run symbol_t :=
      if symbol0.type = SYMBOL_TYPE_EXTERN then
        match symbol_find ctx.symbols relocation.symbol with
        | none => .error "Undefined reference to symbol"
        | some ns => .ok { symbol0 with val64 := ns.val64, type := SYMBOL_TYPE_CONST }
      else .ok symbol0
    match resolved with
    | .error e => .error e
    | .ok symbol =>
      match section_find ctx.result.sections relocation.sect with
      | none => .error "NULL"
      | some rsection =>
        match _relocation_patch ctx.result.sections symbol rsection relocation with
        | .error e => .error e
        | .ok patch =>
          match section_patch rsection relocation.offset (le_bytes patch 8)
              relocation.length with
          | .error e => .error e
          | .ok rsection1 =>
            .ok { ctx with result :=
              { ctx.result with
                symbols := symbol_update ctx.result.symbols relocation.symbol (fun _ => symbol)
                sections :=
                  section_update ctx.result.sections relocation.sect (fun _ => rsection1) } }

/-- The relocation loop of `_patch_sections`. -/
def _apply_relocations : relocations_t → linker_context_t → Run linker_context_t
  | [], ctx => .ok ctx
  | r :: rest, ctx =>
    match _apply_relocation ctx r with
    | .error e => .error e
    | .ok ctx1 => _apply_relocations rest ctx1

/-- The function `_patch_sections`. -/
def _patch_sections (ctx : linker_context_t) : Run linker_context_t :=
  match _overlap_outer ctx.result.sections ctx.result.sections with
  | .error e => .error e
  | .ok _ =>
    match _fix_symbols ctx.result.sections ctx.result.symbols with
    | .error e => .error e
    | .ok sl =>
      _apply_relocations ctx.result.relocations
        { ctx with result := { ctx.result with symbols := sl } }

/-- The directive `.place "NAME" LMA VMA` of `lkr/lang.c` with two numbers as operands. -/
def place (ctx : linker_context_t) (name : CStr) (lma vma : Int) : Run linker_context_t :=
  match section_find ctx.result.sections name with
  | none => .error "Section not found"
  | some s =>
    if s.placed ≠ 0 then .error "Section already placed"
    else
      .ok { ctx with result := { ctx.result with
        sections := section_update ctx.result.sections name
          (fun s => { s with lma := u32 lma, vma := u32 vma, placed := 1 }) } }

/-- The function `linker_add_symbol`: a constant of the script or of the command line. -/
def linker_add_symbol (ctx : linker_context_t) (name : CStr) (value : Int) :
    Run linker_context_t :=
  match symbol_find ctx.symbols name with
  | some _ => .error "Symbol redefined"
  | none =>
    match symbols_add ctx.symbols name (fun s => symbol_set_const s value) with
    | .error e => .error e
    | .ok sl => .ok { ctx with symbols := sl }


/-- A statement of the linker script after parsing, operands evaluated: the
definition of a constant (`NAME = NUMBER`) or `.place "SECTION" LMA VMA`. -/
inductive script_item where
  | define (name : CStr) (value : Int)
  | place (name : CStr) (lma vma : Int)
  deriving DecidableEq, Repr

/-- The function `lang_const_symbol` of lkr/lang.c on a statement `NAME = VALUE`
whose value was evaluated: the name `NOLOAD` (the bytes 78 79 76 79 65 68) is
refused; the symbol of that name is looked up among the constants of the linker and
added when there is none, and `symbol_set_const` writes the value to it, so a second
definition of a name replaces the value. -/
def lang_const_symbol (ctx : linker_context_t) (name : CStr) (value : Int) :
    Run linker_context_t :=
  if name = [78, 79, 76, 79, 65, 68] then
    .error "NOLOAD is reserved symbol name - can not define such symbol"
  else
    match symbol_find ctx.symbols name with
    | some _ =>
      .ok { ctx with symbols :=
        symbol_update ctx.symbols name (fun s => symbol_set_const s value) }
    | none =>
      match symbols_add ctx.symbols name (fun s => symbol_set_const s value) with
      | .error e => .error e
      | .ok sl => .ok { ctx with symbols := sl }

/-- The function `_lscript` on a parsed script: the statements in order. -/
def _lscript : List script_item → linker_context_t → Run linker_context_t
  | [], ctx => .ok ctx
  | script_item.define name value :: rest, ctx =>
    match lang_const_symbol ctx name value with
    | .error e => .error e
    | .ok ctx1 => _lscript rest ctx1
  | script_item.place name lma vma :: rest, ctx =>
    match place ctx name lma vma with
    | .error e => .error e
    | .ok ctx1 => _lscript rest ctx1

/-- The function `linker_run` up to the patched output sections: load, glue,
script, patch. -/
def linker_run (files : List linker_file_data_t) (script : List script_item) :
    Run linker_context_t :=
  match _glue_sections (linker_init files) with
  | .error e => .error e
  | .ok ctx1 =>
    match _lscript script ctx1 with
    | .error e => .error e
    | .ok ctx2 => _patch_sections ctx2

/-! ## bmem.c -/

/-- The `struct bmem_t` together with what is known of the buffer: `buf` are the bytes
of `bm->buf` written so far (a byte never written reads as 0), `is_static` tells
whether `bm->buf` is still `bmem_static_buf`. -/
structure bmem_t where
  buf : List Nat
  size : Nat
  is_static : Bool
  deriving DecidableEq, Repr

/-- The constant `BMEM_STATIC_BUF_SIZE`. -/
def BMEM_STATIC_BUF_SIZE : Nat := 128 * 1024

/-- The function `bmem_init`; `sbuf` is the present content of `bmem_static_buf`. -/
def bmem_init (sbuf : List Nat) : bmem_t :=
  { buf := sbuf, size := BMEM_STATIC_BUF_SIZE, is_static := true }

/-- The function `bmem_alloc` (allocation succeeds): growing away from the static
buffer gives fresh memory, growing a heap buffer keeps its content. -/
def bmem_alloc (bm : bmem_t) (size : Nat) : bmem_t :=
  if size > bm.size then
    { buf := if bm.is_static then [] else bm.buf, size := size, is_static := false }
  else bm

/-- The call `read(fd, bm->buf, n)` that delivered `bytes`. -/
def bmem_read (bm : bmem_t) (bytes : List Nat) : bmem_t :=
  { bm with buf := bytes ++ bm.buf.drop bytes.length }

/-! ## l0.c -/

/-- The constant `L0_HEAD_MAGIC`. -/
def L0_HEAD_MAGIC : Nat := 0x00306C2E

/-- The constant `CURRENT_VERSION`. -/
def CURRENT_VERSION : Nat := 0x0001

/-- The constant `L0_SYMBOL_MAGIC`. -/
def L0_SYMBOL_MAGIC : Nat := 0xAC10

/-- The constant `L0_RELOCATION_MAGIC`. -/
def L0_RELOCATION_MAGIC : Nat := 0xAC11

/-- The constant `L0_SECTION_MAGIC`. -/
def L0_SECTION_MAGIC : Nat := 0xAC12

/-- The packed `struct l0_file_head_t` as written by `l0_save`: magic, version,
26 reserved zero bytes. -/
def l0_file_head : List Nat :=
  le_bytes L0_HEAD_MAGIC 4 ++ le_bytes CURRENT_VERSION 2 ++ List.replicate 26 0

/-- The field `length` of the `struct l0_block_info_t` at the start of `buf`. -/
def block_length (buf : List Nat) : Nat := le_value ((buf.drop 2).take 4)

/-- The field `cs` of the `struct l0_block_info_t` at the start of `buf`. -/
def block_cs_field (buf : List Nat) : Nat := le_value ((buf.drop 6).take 2)

/-- The field `magic` of the `struct l0_block_info_t` at the start of `buf`. -/
def block_magic (buf : List Nat) : Nat := le_value (buf.take 2)

/-- The buffer with the two bytes of the field `cs` set to zero. -/
def block_zero_cs (buf : List Nat) : List Nat := memcpy_at buf 6 [0, 0] 2

/-- The function `_block_cs`: with the field `cs` zeroed, the sum modulo 2^16 of the
first `length` bytes of the buffer, `length` being the block's own length field. -/
def _block_cs (buf : List Nat) : Nat :=
  ((block_zero_cs buf).take (block_length buf)).sum % 65536

/-- The packed `struct l0_block_info_t` with the given magic, length and checksum. -/
def l0_block_info (magic length cs : Nat) : List Nat :=
  le_bytes magic 2 ++ le_bytes length 4 ++ le_bytes cs 2 ++ List.replicate 24 0

/-- A NUL-terminated string as `strcpy` stores it. -/
def cstr_bytes (s : CStr) : List Nat := s ++ [0]

/-- How `l0_save` makes one block from the bytes `body` that follow the block header:
the length field is the `uint32_t` sum of the sizes, the checksum is `_block_cs` of
the buffer with `cs` still zero. A body that does not fit the `uint32_t` length
would be copied past the end of the allocated buffer, which is undefined; the
model stops there. -/
def l0_make_block (magic : Nat) (body : List Nat) : Run (List Nat) :=
  if 32 + body.length ≥ 4294967296 then .error "buffer overrun"
  else
    let length := 32 + body.length
    .ok (l0_block_info magic length (_block_cs (l0_block_info magic length 0 ++ body)) ++ body)

/-- The packed `struct l0_symbol_block_t` of a symbol: the flag bits `exp` (bit 0) and
`ext` (bit 1) in a 16-bit field, `width`, `value`. -/
def l0_symbol_head (s : symbol_t) : List Nat :=
  [s.exp % 2 + 2 * (if s.type = SYMBOL_TYPE_EXTERN then 1 else 0), 0] ++ [s.width % 256]
    ++ le_bytes (u64 s.val64) 8

/-- The body of the block that `l0_save` writes for a symbol with section name `sect`. -/
def l0_symbol_body (s : symbol_t) (sect : CStr) : List Nat :=
  l0_symbol_head s ++ (cstr_bytes s.name ++ cstr_bytes sect)

/-- The packed `struct l0_relocation_block_t` of a relocation. -/
def l0_relocation_head (r : relocation_t) : List Nat :=
  [r.type % 256] ++ le_bytes (r.offset % 4294967296) 4 ++ le_bytes (r.length % 4294967296) 4
    ++ le_bytes (u32 r.adjust) 4

/-- The body of the block that `l0_save` writes for a relocation. -/
def l0_relocation_body (r : relocation_t) : List Nat :=
  l0_relocation_head r ++ (cstr_bytes r.symbol ++ cstr_bytes r.sect)

/-- The packed `struct l0_section_block_t` of a section: the flag bit `noload` in a
16-bit field, `length`. -/
def l0_section_head (s : section_t) : List Nat :=
  [s.noload % 2, 0] ++ le_bytes (s.length % 4294967296) 4

/-- The body of the block that `l0_save` writes for a section: for a loadable
section the `length` bytes of `data` follow the name. -/
def l0_section_body (s : section_t) : List Nat :=
  l0_section_head s ++ (cstr_bytes s.name ++
    (if s.noload = 0 then s.data.take s.length ++ List.replicate (s.length - s.data.length) 0
     else []))

/-- The loop "write symbols" of `l0_save`: the blocks written, in order. -/
def l0_save_symbols : symbols_t → Run (List (List Nat))
  | [] => .ok []
  | s :: rest =>
    if s.type = SYMBOL_TYPE_NONE then l0_save_symbols rest
    else if s.type ≠ SYMBOL_TYPE_LABEL ∧ s.type ≠ SYMBOL_TYPE_EXTERN then l0_save_symbols rest
    else
      let sect : Option CStr :=
        match s.sect with
        | some n => some n
        | none => if s.type ≠ SYMBOL_TYPE_LABEL then some [] else none
      match sect with
      | none => .error "Symbol has not section attribute"
      | some n =>
        match l0_make_block L0_SYMBOL_MAGIC (l0_symbol_body s n) with
        | .error e => .error e
        | .ok b =>
          match l0_save_symbols rest with
          | .error e => .error e
          | .ok bs => .ok (b :: bs)

/-- The loop "write relocations" of `l0_save`. -/
def l0_save_relocations : relocations_t → Run (List (List Nat))
  | [] => .ok []
  | r :: rest =>
    match l0_make_block L0_RELOCATION_MAGIC (l0_relocation_body r) with
    | .error e => .error e
    | .ok b =>
      match l0_save_relocations rest with
      | .error e => .error e
      | .ok bs => .ok (b :: bs)

/-- The loop "write sections" of `l0_save`; empty sections are dropped. -/
def l0_save_sections : sections_t → Run (List (List Nat))
  | [] => .ok []
  | s :: rest =>
    if s.length = 0 then l0_save_sections rest
    else
      match l0_make_block L0_SECTION_MAGIC (l0_section_body s) with
      | .error e => .error e
      | .ok b =>
        match l0_save_sections rest with
        | .error e => .error e
        | .ok bs => .ok (b :: bs)

/-- The blocks that `l0_save` writes after the file header, in file order. -/
def l0_save_blocks (symbols : symbols_t) (relocations : relocations_t)
    (sections : sections_t) : Run (List (List Nat)) :=
  match l0_save_symbols symbols with
  | .error e => .error e
  | .ok b1 =>
    match l0_save_relocations relocations with
    | .error e => .error e
    | .ok b2 =>
      match l0_save_sections sections with
      | .error e => .error e
      | .ok b3 => .ok (b1 ++ b2 ++ b3)

/-- The function `l0_save` (file system calls succeed): the bytes of the file. -/
def l0_save (symbols : symbols_t) (relocations : relocations_t) (sections : sections_t) :
    Run (List Nat) :=
  match l0_save_blocks symbols relocations sections with
  | .error e => .error e
  | .ok bs => .ok (l0_file_head ++ bs.flatten)

/-- The three lists that `l0_load` fills. -/
structure l0_data_t where
  symbols : symbols_t
  sections : sections_t
  relocations : relocations_t
  deriving DecidableEq, Repr

/-- The C string that starts at index `i` of the buffer (`strlen` stops at the first
zero byte; a byte never written reads as 0). -/
def cstr_at (buf : List Nat) (i : Nat) : CStr := (buf.drop i).takeWhile (fun b => b ≠ 0)

/-- The `n` bytes at index `i` of the buffer. -/
def bytes_at (buf : List Nat) (i n : Nat) : List Nat :=
  (buf.drop i).take n ++ List.replicate (n - (buf.length - i)) 0

/-- The `switch` of `l0_load` on the magic of the block held in `buf`. -/
def l0_load_block (buf : List Nat) (st : l0_data_t) : Run l0_data_t :=
  if block_magic buf = L0_SYMBOL_MAGIC then
    let flags := buf.getD 32 0
    let name := cstr_at buf 43
    let sect := cstr_at buf (43 + name.length + 1)
    match symbols_add st.symbols name
        (fun s => { s with
          exp := flags % 2,
          width := buf.getD 34 0,
          val64 := i64 (le_value (bytes_at buf 35 8)),
          type := if flags / 2 % 2 = 1 then SYMBOL_TYPE_EXTERN else SYMBOL_TYPE_LABEL,
          sect := if sect.length ≠ 0 then some sect else none }) with
    | .error e => .error e
    | .ok sl => .ok { st with symbols := sl }
  else if block_magic buf = L0_RELOCATION_MAGIC then
    let symbol := cstr_at buf 45
    let sect := cstr_at buf (45 + symbol.length + 1)
    let rl := relocations_add st.relocations sect symbol
      (le_value (bytes_at buf 33 4)) (le_value (bytes_at buf 37 4))
      (i32 (le_value (bytes_at buf 41 4))) (buf.getD 32 0)
    .ok { st with relocations := rl }
  else if block_magic buf = L0_SECTION_MAGIC then
    let name := cstr_at buf 38
    let length := le_value (bytes_at buf 34 4)
    let noload := buf.getD 32 0 % 2
    let sl := section_update (section_select st.sections name) name (fun s =>
      let s1 := { s with noload := noload }
      if noload = 0 then section_pushdata s1 (bytes_at buf (38 + name.length + 1) length) length
      else { s1 with length := length })
    .ok { st with sections := sl }
  else .ok st

/-- The block loop of `l0_load`; `rest` is the file from the current position on.
The result is `none` when the loop is still running after `fuel` iterations. -/
def l0_load_loop : Nat → List Nat → bmem_t → l0_data_t → Option (Run l0_data_t)
  | 0, _, _, _ => none
  | fuel + 1, rest, bm, st =>
    if rest.length = 0 then some (.ok st)
    else if rest.length < 32 then some (.error "Failed to read file")
    else
      let bm1 := bmem_read (bmem_alloc bm 32) (rest.take 32)
      let length := block_length bm1.buf
      let bm2 := bmem_alloc bm1 length
      if length ≥ 2147483648 ∨ rest.length < length then some (.error "Failed to read file")
      else
        let bm3 := bmem_read bm2 (rest.take length)
        if block_cs_field bm3.buf ≠ _block_cs bm3.buf then
          some (.error "Block checksum mismatch")
        else
          match l0_load_block bm3.buf st with
          | .error e => some (.error e)
          | .ok st1 => l0_load_loop fuel (rest.drop length) bm3 st1

/-- The function `l0_load` on the bytes `file`, the three lists being `st` at entry
and `sbuf` the content of the static buffer; `none` when the block loop is still
running after `fuel` iterations. -/
def l0_load (fuel : Nat) (sbuf : List Nat) (file : List Nat) (st : l0_data_t) :
    Option (Run l0_data_t) :=
  if file.length < 32 then some (.error "Failed to read file")
  else
    let bm := bmem_read (bmem_alloc (bmem_init sbuf) 32) (file.take 32)
    if le_value (bm.buf.take 4) ≠ L0_HEAD_MAGIC then some (.error "File format error")
    else if le_value ((bm.buf.drop 4).take 2) ≠ CURRENT_VERSION then
      some (.error "File format version mismatch")
    else l0_load_loop fuel (file.drop 32) bm st

/-! ## asm/assembler.h -/

/-- The enumerator `DB_ENDIAN_BIG`. -/
def DB_ENDIAN_BIG : Nat := 0

/-- The enumerator `DB_ENDIAN_LITTLE`. -/
def DB_ENDIAN_LITTLE : Nat := 1

/-- The `struct asm_context_t` (the token list apart). `sect` is the name of the
section that `ctx->section` points to. -/
structure asm_context_t where
  pass : Nat
  dbendian : Nat
  symbols : symbols_t
  sections : sections_t
  relocations : relocations_t
  sect : CStr
  deriving DecidableEq, Repr

/-- The bytes of an ASCII string literal. -/
def cstr (s : String) : CStr := s.toList.map Char.toNat

/-- The function `assembler_init`: pass 0, big endian, the section "text" selected. -/
def assembler_init : asm_context_t :=
  { pass := 0, dbendian := DB_ENDIAN_BIG, symbols := [],
    sections := section_select [] (cstr "text"), relocations := [], sect := cstr "text" }

/-- The call `section_pushdata(ctx->section, data, length)`. -/
def ctx_pushdata (ctx : asm_context_t) (data : List Nat) (length : Nat) : asm_context_t :=
  let sl := section_update ctx.sections ctx.sect (fun s => section_pushdata s data length)
  { ctx with sections := sl }

/-- The value `ctx->section->length`. -/
def ctx_section_length (ctx : asm_context_t) : Nat :=
  ((section_find ctx.sections ctx.sect).map (fun s => s.length)).getD 0

/-- The call `relocations_add(&ctx->relocations, ctx->section->name, symbol->name,
ctx->section->length, length, adjust, type)`. -/
def ctx_relocations_add (ctx : asm_context_t) (symbol : symbol_t) (length : Nat)
    (adjust : Int) (type : Nat) : asm_context_t :=
  let rl := relocations_add ctx.relocations ctx.sect symbol.name (ctx_section_length ctx)
    length adjust type
  { ctx with relocations := rl }

/-! ## asm/lang_instruction.c: the encoders -/

/-- The `enum arg_type_t`. -/
inductive arg_type_t where
  | ARG_TYPE_NONE
  | ARG_TYPE_A
  | ARG_TYPE_X
  | ARG_TYPE_Y
  | ARG_TYPE_SP
  | ARG_TYPE_XL
  | ARG_TYPE_YL
  | ARG_TYPE_XH
  | ARG_TYPE_YH
  | ARG_TYPE_CC
  | ARG_TYPE_SHORTMEM
  | ARG_TYPE_LONGMEM
  | ARG_TYPE_EXTMEM
  | ARG_TYPE_BYTE
  | ARG_TYPE_WORD
  | ARG_TYPE_OFF_X
  | ARG_TYPE_OFF_Y
  | ARG_TYPE_SHORTOFF_X
  | ARG_TYPE_LONGOFF_X
  | ARG_TYPE_EXTOFF_X
  | ARG_TYPE_SHORTOFF_Y
  | ARG_TYPE_LONGOFF_Y
  | ARG_TYPE_EXTOFF_Y
  | ARG_TYPE_SHORTOFF_SP
  | ARG_TYPE_SHORTPTR_X
  | ARG_TYPE_LONGPTR_X
  | ARG_TYPE_SHORTPTR_Y
  | ARG_TYPE_LONGPTR_Y
  | ARG_TYPE_SHORTPTR
  | ARG_TYPE_LONGPTR
  deriving DecidableEq, Repr

open arg_type_t

/-- The `struct arg_t`; `symbol` is the symbol pointed to, `none` for `NULL`. -/
structure arg_t where
  type : arg_type_t
  value : Int
  symbol : Option symbol_t
  deriving DecidableEq, Repr

/-- An argument slot after `memset(args, 0, ...)`. -/
def arg_zero : arg_t := { type := ARG_TYPE_NONE, value := 0, symbol := none }

/-- The element `args[i]` of the array of `ARGS_MAX` = 4 slots. -/
def arg_at (args : List arg_t) (i : Nat) : arg_t := args.getD i arg_zero

/-- The constant `PREBYTE_NONE`. -/
def PREBYTE_NONE : Nat := 0x00

/-- The constant `PREBYTE_PDY`. -/
def PREBYTE_PDY : Nat := 0x90

/-- The constant `PREBYTE_PIX`. -/
def PREBYTE_PIX : Nat := 0x92

/-- The constant `PREBYTE_PIY`. -/
def PREBYTE_PIY : Nat := 0x91

/-- The constant `PREBYTE_PWSP`. -/
def PREBYTE_PWSP : Nat := 0x72

/-- The `struct gen_info_t`. -/
structure gen_info_t where
  arg0 : arg_type_t
  arg1 : arg_type_t
  arg2 : arg_type_t
  arg3 : arg_type_t
  prebyte : Nat
  opcode : Nat
  arglen : Nat
  flag : Nat
  deriving DecidableEq, Repr

/-- The constant `GEN_FLAG_NONE`. -/
def GEN_FLAG_NONE : Nat := 0

/-- The constant `GEN_FLAG_ODD`. -/
def GEN_FLAG_ODD : Nat := 1

/-- The constant `GEN_FLAG_EVEN`. -/
def GEN_FLAG_EVEN : Nat := 0

/-- The constant `GEN_FLAG_CHECK_LONG`. -/
def GEN_FLAG_CHECK_LONG : Nat := 2

/-- The constant `GEN_FLAG_ARG_DST`. -/
def GEN_FLAG_ARG_DST : Nat := 4

/-- The constant `GEN_FLAG_CHECK_EXT`. -/
def GEN_FLAG_CHECK_EXT : Nat := 8

/-- The constant `GEN_FLAG_END`, bit 31. -/
def GEN_FLAG_END : Nat := 2147483648

/-- The test `gen->flag & bit`. -/
def gen_flag (gen : gen_info_t) (bit : Nat) : Bool := gen.flag &&& bit != 0

/-- The test of `_assemble_uni` and `_assemble_jr` that the four kinds of the row are
those of the arguments. -/
def gen_match (args : List arg_t) (gen : gen_info_t) : Bool :=
  (arg_at args 0).type = gen.arg0 ∧ (arg_at args 1).type = gen.arg1 ∧
  (arg_at args 2).type = gen.arg2 ∧ (arg_at args 3).type = gen.arg3

/-- The body of the loop of `_assemble_uni` for a row whose kinds match. -/
def _assemble_uni_row (ctx : asm_context_t) (args : List arg_t) (gen : gen_info_t) :
    Run asm_context_t :=
  let arg := if gen_flag gen GEN_FLAG_ARG_DST then arg_at args 0 else arg_at args 1
  let ctx1 := if gen.prebyte ≠ PREBYTE_NONE then ctx_pushdata ctx [gen.prebyte] 1 else ctx
  let ctx2 := ctx_pushdata ctx1 [gen.opcode] 1
  if gen.arglen ≠ 0 then
    match arg.symbol with
    | some symbol =>
      if gen_flag gen GEN_FLAG_CHECK_LONG ∧ arg.type ≠ ARG_TYPE_LONGMEM then
        .error "Symbol not longmem"
      else if gen_flag gen GEN_FLAG_CHECK_EXT ∧ arg.type ≠ ARG_TYPE_EXTMEM then
        .error "Symbol not extmem"
      else
        .ok (ctx_pushdata
          (ctx_relocations_add ctx2 symbol gen.arglen 0 RELOCATION_TYPE_ABOSULTE)
          (le_bytes 0 8) gen.arglen)
    | none =>
      let value :=
        if gen.arglen = 2 then host_tobe16 (u64 arg.value)
        else if gen.arglen = 3 then host_tobe24 (u64 arg.value)
        else u64 arg.value
      .ok (ctx_pushdata ctx2 (le_bytes value 8) gen.arglen)
  else .ok ctx2

/-- The function `_assemble_uni`: the rows are scanned up to the row flagged
`GEN_FLAG_END`; the first row whose kinds match decides. -/
def _assemble_uni (ctx : asm_context_t) (args : List arg_t) :
    List gen_info_t → Run asm_context_t
  | [] => .error "no row"
  | gen :: rest =>
    if gen_flag gen GEN_FLAG_END then .error "no row"
    else if gen_match args gen then _assemble_uni_row ctx args gen
    else _assemble_uni ctx args rest

/-- The function `_assemble_jr`; only the first row of the table is used. -/
def _assemble_jr (ctx : asm_context_t) (args : List arg_t) (geninfo : List gen_info_t) :
    Run asm_context_t :=
  match geninfo with
  | [] => .error "no row"
  | gen :: _ =>
    if (arg_at args 2).type ≠ ARG_TYPE_NONE then .error "no row"
    else if gen_match args gen then
      let arg := arg_at args 0
      let ctx1 := if gen.prebyte ≠ PREBYTE_NONE then ctx_pushdata ctx [gen.prebyte] 1 else ctx
      let ctx2 := ctx_pushdata ctx1 [gen.opcode] 1
      if gen.arglen ≠ 0 then
        match arg.symbol with
        | some symbol =>
          .ok (ctx_pushdata
            (ctx_relocations_add ctx2 symbol gen.arglen 1 RELOCATION_TYPE_RELATIVE)
            (le_bytes 0 8) gen.arglen)
        | none => .ok (ctx_pushdata ctx2 (le_bytes (host_tole64 (u64 arg.value)) 8) gen.arglen)
      else .ok ctx2
    else .error "no row"

/-- The function `_assemble_bit`; only the first row of the table is used. The bit
number is held in a `uint8_t`. -/
def _assemble_bit (ctx : asm_context_t) (args : List arg_t) (geninfo : List gen_info_t) :
    Run asm_context_t :=
  match geninfo with
  | [] => .error "no row"
  | gen :: _ =>
    if (gen.arg0 ≠ ARG_TYPE_NONE ∧ (arg_at args 0).type = ARG_TYPE_NONE) ∨
        gen.arg1 ≠ (arg_at args 1).type ∨ gen.arg2 ≠ (arg_at args 2).type then .error "no row"
    else if (arg_at args 1).type ≠ ARG_TYPE_BYTE then .error "no row"
    else
      let argmem := arg_at args 0
      let argbit := arg_at args 1
      let arglabel := arg_at args 2
      let ctx1 := if gen.prebyte ≠ PREBYTE_NONE then ctx_pushdata ctx [gen.prebyte] 1 else ctx
      let bit : Run Nat :=
        match argbit.symbol with
        | some symbol =>
          if symbol.type ≠ SYMBOL_TYPE_CONST then .error "Symbol not constant"
          else .ok (u8 symbol.val64)
        | none => .ok (u8 argbit.value)
      match bit with
      | .error e => .error e
      | .ok bit =>
        if bit > 7 then .error "Bit out of range (0-7)"
        else
          let opcode :=
            if gen_flag gen GEN_FLAG_ODD then (gen.opcode ||| (1 + 2 * bit)) % 256
            else (gen.opcode ||| (2 * bit)) % 256
          let ctx2 := ctx_pushdata ctx1 [opcode] 1
          let mem : Run (asm_context_t × Nat) :=
            match argmem.symbol with
            | some symbol =>
              if argmem.type ≠ ARG_TYPE_LONGMEM then .error "Symbol not longmem"
              else .ok (ctx_relocations_add ctx2 symbol 2 0 RELOCATION_TYPE_ABOSULTE, 0)
            | none =>
              if argmem.value < 0 ∨ argmem.value > 0xffff then
                .error "Longmem value out of range"
              else .ok (ctx2, u64 argmem.value)
          match mem with
          | .error e => .error e
          | .ok (ctx3, value) =>
            let ctx4 := ctx_pushdata ctx3 (le_bytes (host_tobe16 value) 8) 2
            if arglabel.type ≠ ARG_TYPE_NONE then
              match arglabel.symbol with
              | some symbol =>
                if arglabel.type ≠ ARG_TYPE_SHORTMEM then .error "Symbol not shortmem"
                else
                  .ok (ctx_pushdata
                    (ctx_relocations_add ctx4 symbol 1 1 RELOCATION_TYPE_RELATIVE)
                    (le_bytes 0 8) 1)
              | none =>
                .ok (ctx_pushdata ctx4 (le_bytes (host_tole64 (u64 arglabel.value)) 8) 1)
            else .ok ctx4

/-- The step of `_assemble_mov` for one operand: a symbol gives a relocation of
`length` bytes and the value 0, a constant its value; then the value, converted
by `conv`, is pushed with `length` bytes. -/
def _assemble_mov_operand (ctx : asm_context_t) (arg : arg_t) (length : Nat)
    (conv : Nat → Nat) : asm_context_t :=
  match arg.symbol with
  | some symbol =>
    ctx_pushdata (ctx_relocations_add ctx symbol length 0 RELOCATION_TYPE_ABOSULTE)
      (le_bytes (conv 0) 8) length
  | none => ctx_pushdata ctx (le_bytes (conv (u64 arg.value)) 8) length

/-- The function `_assemble_mov`. -/
def _assemble_mov (ctx : asm_context_t) (args : List arg_t) (_geninfo : List gen_info_t) :
    Run asm_context_t :=
  let a0 := arg_at args 0
  let a1 := arg_at args 1
  if a0.type = ARG_TYPE_NONE ∨ a1.type = ARG_TYPE_NONE ∨ (arg_at args 2).type ≠ ARG_TYPE_NONE then
    .error "no row"
  else if a0.type = ARG_TYPE_LONGMEM then
    if a1.type = ARG_TYPE_BYTE then
      let c1 := ctx_pushdata ctx [0x35] 1
      let c2 := _assemble_mov_operand c1 a1 1 host_tole64
      .ok (_assemble_mov_operand c2 a0 2 host_tobe16)
    else if a1.type = ARG_TYPE_SHORTMEM ∨ a1.type = ARG_TYPE_LONGMEM then
      let c1 := ctx_pushdata ctx [0x55] 1
      if a1.type ≠ ARG_TYPE_LONGMEM ∧ a1.symbol.isSome then .error "Symbol not longmem"
      else
        let c2 := _assemble_mov_operand c1 a1 2 host_tobe16
        .ok (_assemble_mov_operand c2 a0 2 host_tobe16)
    else .error "no row"
  else if a0.type = ARG_TYPE_SHORTMEM then
    if a0.symbol.isNone ∧ a1.type = ARG_TYPE_BYTE then
      let c1 := ctx_pushdata ctx [0x35] 1
      let c2 := _assemble_mov_operand c1 a1 1 host_tole64
      .ok (ctx_pushdata c2 (le_bytes (host_tobe16 (u64 a0.value)) 8) 2)
    else if a1.type = ARG_TYPE_SHORTMEM then
      let c1 := ctx_pushdata ctx [0x45] 1
      let c2 := _assemble_mov_operand c1 a1 1 host_tole64
      .ok (_assemble_mov_operand c2 a0 1 host_tole64)
    else if a0.symbol.isNone ∧ a1.type = ARG_TYPE_LONGMEM then
      let c1 := ctx_pushdata ctx [0x55] 1
      let c2 := _assemble_mov_operand c1 a1 2 host_tobe16
      .ok (ctx_pushdata c2 (le_bytes (host_tobe16 (u64 a0.value)) 8) 2)
    else .error "no row"
  else .error "no row"

/-- The three encoder functions that `_gen_functions` names, and `_assemble_mov`. -/
inductive gen_func_t where
  | _assemble_uni
  | _assemble_jr
  | _assemble_bit
  | _assemble_mov
  deriving DecidableEq, Repr

/-- The `struct gen_functions_t`. -/
structure gen_functions_t where
  name : CStr
  func : gen_func_t
  geninfo : List gen_info_t
  deriving DecidableEq, Repr

/-- The call `(*gf->func)(ctx, args, gf->geninfo)`. -/
def gen_func_call (f : gen_func_t) (ctx : asm_context_t) (args : List arg_t)
    (geninfo : List gen_info_t) : Run asm_context_t :=
  match f with
  | gen_func_t._assemble_uni => _assemble_uni ctx args geninfo
  | gen_func_t._assemble_jr => _assemble_jr ctx args geninfo
  | gen_func_t._assemble_bit => _assemble_bit ctx args geninfo
  | gen_func_t._assemble_mov => _assemble_mov ctx args geninfo

/-- The function `_assemble` over a list of encoder entries: the first entry with the
name of the instruction decides; a failure of its encoder is reported as
"Invalid arguments to instruction". -/
def _assemble_in (gfs : List gen_functions_t) (ctx : asm_context_t) (name : CStr)
    (args : List arg_t) : Run asm_context_t :=
  match gfs with
  | [] => .error "Unknown instruction"
  | gf :: rest =>
    if gf.name ≠ name then _assemble_in rest ctx name args
    else
      match gen_func_call gf.func ctx args gf.geninfo with
      | .error _ => .error "Invalid arguments to instruction"
      | .ok ctx1 => .ok ctx1

/-! ## asm/lang_instruction.c: the tables -/

/-- The table `_gen_info_adc`. -/
def _gen_info_adc : List gen_info_t := [
  ⟨ARG_TYPE_A, ARG_TYPE_BYTE, ARG_TYPE_NONE, ARG_TYPE_NONE, PREBYTE_NONE, 0xA9, 1, GEN_FLAG_NONE⟩,
  ⟨ARG_TYPE_A, ARG_TYPE_SHORTMEM, ARG_TYPE_NONE, ARG_TYPE_NONE, PREBYTE_NONE, 0xB9, 1, GEN_FLAG_NONE⟩,
  ⟨ARG_TYPE_A, ARG_TYPE_LONGMEM, ARG_TYPE_NONE, ARG_TYPE_NONE, PREBYTE_NONE, 0xC9, 2, GEN_FLAG_NONE⟩,
  ⟨ARG_TYPE_A, ARG_TYPE_OFF_X, ARG_TYPE_NONE, ARG_TYPE_NONE, PREBYTE_NONE, 0xF9, 0, GEN_FLAG_NONE⟩,
  ⟨ARG_TYPE_A, ARG_TYPE_SHORTOFF_X, ARG_TYPE_NONE, ARG_TYPE_NONE, PREBYTE_NONE, 0xE9, 1, GEN_FLAG_NONE⟩,
  ⟨ARG_TYPE_A, ARG_TYPE_LONGOFF_X, ARG_TYPE_NONE, ARG_TYPE_NONE, PREBYTE_NONE, 0xD9, 2, GEN_FLAG_NONE⟩,
  ⟨ARG_TYPE_A, ARG_TYPE_OFF_Y, ARG_TYPE_NONE, ARG_TYPE_NONE, PREBYTE_PDY, 0xF9, 0, GEN_FLAG_NONE⟩,
  ⟨ARG_TYPE_A, ARG_TYPE_SHORTOFF_Y, ARG_TYPE_NONE, ARG_TYPE_NONE, PREBYTE_PDY, 0xE9, 1, GEN_FLAG_NONE⟩,
  ⟨ARG_TYPE_A, ARG_TYPE_LONGOFF_Y, ARG_TYPE_NONE, ARG_TYPE_NONE, PREBYTE_PDY, 0xD9, 2, GEN_FLAG_NONE⟩,
  ⟨ARG_TYPE_A, ARG_TYPE_SHORTOFF_SP, ARG_TYPE_NONE, ARG_TYPE_NONE, PREBYTE_NONE, 0x19, 1, GEN_FLAG_NONE⟩,
  ⟨ARG_TYPE_A, ARG_TYPE_SHORTPTR, ARG_TYPE_NONE, ARG_TYPE_NONE, PREBYTE_PIX, 0xC9, 1, GEN_FLAG_NONE⟩,
  ⟨ARG_TYPE_A, ARG_TYPE_LONGPTR, ARG_TYPE_NONE, ARG_TYPE_NONE, PREBYTE_PWSP, 0xC9, 2, GEN_FLAG_NONE⟩,
  ⟨ARG_TYPE_A, ARG_TYPE_SHORTPTR_X, ARG_TYPE_NONE, ARG_TYPE_NONE, PREBYTE_PIX, 0xD9, 1, GEN_FLAG_NONE⟩,
  ⟨ARG_TYPE_A, ARG_TYPE_LONGPTR_X, ARG_TYPE_NONE, ARG_TYPE_NONE, PREBYTE_PWSP, 0xD9, 2, GEN_FLAG_NONE⟩,
  ⟨ARG_TYPE_A, ARG_TYPE_SHORTPTR_Y, ARG_TYPE_NONE, ARG_TYPE_NONE, PREBYTE_PIY, 0xD9, 1, GEN_FLAG_NONE⟩,
  ⟨ARG_TYPE_NONE, ARG_TYPE_NONE, ARG_TYPE_NONE, ARG_TYPE_NONE, PREBYTE_NONE, 0x00, 0, GEN_FLAG_END⟩]

/-- The table `_gen_info_add`. -/
def _gen_info_add : List gen_info_t := [
  ⟨ARG_TYPE_A, ARG_TYPE_BYTE, ARG_TYPE_NONE, ARG_TYPE_NONE, PREBYTE_NONE, 0xAB, 1, GEN_FLAG_NONE⟩,
  ⟨ARG_TYPE_A, ARG_TYPE_SHORTMEM, ARG_TYPE_NONE, ARG_TYPE_NONE, PREBYTE_NONE, 0xBB, 1, GEN_FLAG_NONE⟩,
  ⟨ARG_TYPE_A, ARG_TYPE_LONGMEM, ARG_TYPE_NONE, ARG_TYPE_NONE, PREBYTE_NONE, 0xCB, 2, GEN_FLAG_NONE⟩,
  ⟨ARG_TYPE_A, ARG_TYPE_OFF_X, ARG_TYPE_NONE, ARG_TYPE_NONE, PREBYTE_NONE, 0xFB, 0, GEN_FLAG_NONE⟩,
  ⟨ARG_TYPE_A, ARG_TYPE_SHORTOFF_X, ARG_TYPE_NONE, ARG_TYPE_NONE, PREBYTE_NONE, 0xEB, 1, GEN_FLAG_NONE⟩,
  ⟨ARG_TYPE_A, ARG_TYPE_LONGOFF_X, ARG_TYPE_NONE, ARG_TYPE_NONE, PREBYTE_NONE, 0xDB, 2, GEN_FLAG_NONE⟩,
  ⟨ARG_TYPE_A, ARG_TYPE_OFF_Y, ARG_TYPE_NONE, ARG_TYPE_NONE, PREBYTE_PDY, 0xFB, 0, GEN_FLAG_NONE⟩,
  ⟨ARG_TYPE_A, ARG_TYPE_SHORTOFF_Y, ARG_TYPE_NONE, ARG_TYPE_NONE, PREBYTE_PDY, 0xEB, 1, GEN_FLAG_NONE⟩,
  ⟨ARG_TYPE_A, ARG_TYPE_LONGOFF_Y, ARG_TYPE_NONE, ARG_TYPE_NONE, PREBYTE_PDY, 0xDB, 2, GEN_FLAG_NONE⟩,
  ⟨ARG_TYPE_A, ARG_TYPE_SHORTOFF_SP, ARG_TYPE_NONE, ARG_TYPE_NONE, PREBYTE_NONE, 0x1B, 1, GEN_FLAG_NONE⟩,
  ⟨ARG_TYPE_A, ARG_TYPE_SHORTPTR, ARG_TYPE_NONE, ARG_TYPE_NONE, PREBYTE_PIX, 0xCB, 1, GEN_FLAG_NONE⟩,
  ⟨ARG_TYPE_A, ARG_TYPE_LONGPTR, ARG_TYPE_NONE, ARG_TYPE_NONE, PREBYTE_PWSP, 0xCB, 2, GEN_FLAG_NONE⟩,
  ⟨ARG_TYPE_A, ARG_TYPE_SHORTPTR_X, ARG_TYPE_NONE, ARG_TYPE_NONE, PREBYTE_PIX, 0xDB, 1, GEN_FLAG_NONE⟩,
  ⟨ARG_TYPE_A, ARG_TYPE_LONGPTR_X, ARG_TYPE_NONE, ARG_TYPE_NONE, PREBYTE_PWSP, 0xDB, 2, GEN_FLAG_NONE⟩,
  ⟨ARG_TYPE_A, ARG_TYPE_SHORTPTR_Y, ARG_TYPE_NONE, ARG_TYPE_NONE, PREBYTE_PIY, 0xDB, 1, GEN_FLAG_NONE⟩,
  ⟨ARG_TYPE_NONE, ARG_TYPE_NONE, ARG_TYPE_NONE, ARG_TYPE_NONE, PREBYTE_NONE, 0x00, 0, GEN_FLAG_END⟩]

/-- The table `_gen_info_and`. -/
def _gen_info_and : List gen_info_t := [
  ⟨ARG_TYPE_A, ARG_TYPE_BYTE, ARG_TYPE_NONE, ARG_TYPE_NONE, PREBYTE_NONE, 0xA4, 1, GEN_FLAG_NONE⟩,
  ⟨ARG_TYPE_A, ARG_TYPE_SHORTMEM, ARG_TYPE_NONE, ARG_TYPE_NONE, PREBYTE_NONE, 0xB4, 1, GEN_FLAG_NONE⟩,
  ⟨ARG_TYPE_A, ARG_TYPE_LONGMEM, ARG_TYPE_NONE, ARG_TYPE_NONE, PREBYTE_NONE, 0xC4, 2, GEN_FLAG_NONE⟩,
  ⟨ARG_TYPE_A, ARG_TYPE_OFF_X, ARG_TYPE_NONE, ARG_TYPE_NONE, PREBYTE_NONE, 0xF4, 0, GEN_FLAG_NONE⟩,
  ⟨ARG_TYPE_A, ARG_TYPE_SHORTOFF_X, ARG_TYPE_NONE, ARG_TYPE_NONE, PREBYTE_NONE, 0xE4, 1, GEN_FLAG_NONE⟩,
  ⟨ARG_TYPE_A, ARG_TYPE_LONGOFF_X, ARG_TYPE_NONE, ARG_TYPE_NONE, PREBYTE_NONE, 0xD4, 2, GEN_FLAG_NONE⟩,
  ⟨ARG_TYPE_A, ARG_TYPE_OFF_Y, ARG_TYPE_NONE, ARG_TYPE_NONE, PREBYTE_PDY, 0xF4, 0, GEN_FLAG_NONE⟩,
  ⟨ARG_TYPE_A, ARG_TYPE_SHORTOFF_Y, ARG_TYPE_NONE, ARG_TYPE_NONE, PREBYTE_PDY, 0xE4, 1, GEN_FLAG_NONE⟩,
  ⟨ARG_TYPE_A, ARG_TYPE_LONGOFF_Y, ARG_TYPE_NONE, ARG_TYPE_NONE, PREBYTE_PDY, 0xD4, 2, GEN_FLAG_NONE⟩,
  ⟨ARG_TYPE_A, ARG_TYPE_SHORTOFF_SP, ARG_TYPE_NONE, ARG_TYPE_NONE, PREBYTE_NONE, 0x14, 1, GEN_FLAG_NONE⟩,
  ⟨ARG_TYPE_A, ARG_TYPE_SHORTPTR, ARG_TYPE_NONE, ARG_TYPE_NONE, PREBYTE_PIX, 0xC4, 1, GEN_FLAG_NONE⟩,
  ⟨ARG_TYPE_A, ARG_TYPE_LONGPTR, ARG_TYPE_NONE, ARG_TYPE_NONE, PREBYTE_PWSP, 0xC4, 2, GEN_FLAG_NONE⟩,
  ⟨ARG_TYPE_A, ARG_TYPE_SHORTPTR_X, ARG_TYPE_NONE, ARG_TYPE_NONE, PREBYTE_PIX, 0xD4, 1, GEN_FLAG_NONE⟩,
  ⟨ARG_TYPE_A, ARG_TYPE_LONGPTR_X, ARG_TYPE_NONE, ARG_TYPE_NONE, PREBYTE_PWSP, 0xD4, 2, GEN_FLAG_NONE⟩,
  ⟨ARG_TYPE_A, ARG_TYPE_SHORTPTR_Y, ARG_TYPE_NONE, ARG_TYPE_NONE, PREBYTE_PIY, 0xD4, 1, GEN_FLAG_NONE⟩,
  ⟨ARG_TYPE_NONE, ARG_TYPE_NONE, ARG_TYPE_NONE, ARG_TYPE_NONE, PREBYTE_NONE, 0x00, 0, GEN_FLAG_END⟩]

/-- The table `_gen_info_bcp`. -/
def _gen_info_bcp : List gen_info_t := [
  ⟨ARG_TYPE_A, ARG_TYPE_BYTE, ARG_TYPE_NONE, ARG_TYPE_NONE, PREBYTE_NONE, 0xA5, 1, GEN_FLAG_NONE⟩,
  ⟨ARG_TYPE_A, ARG_TYPE_SHORTMEM, ARG_TYPE_NONE, ARG_TYPE_NONE, PREBYTE_NONE, 0xB5, 1, GEN_FLAG_NONE⟩,
  ⟨ARG_TYPE_A, ARG_TYPE_LONGMEM, ARG_TYPE_NONE, ARG_TYPE_NONE, PREBYTE_NONE, 0xC5, 2, GEN_FLAG_NONE⟩,
  ⟨ARG_TYPE_A, ARG_TYPE_OFF_X, ARG_TYPE_NONE, ARG_TYPE_NONE, PREBYTE_NONE, 0xF5, 0, GEN_FLAG_NONE⟩,
  ⟨ARG_TYPE_A, ARG_TYPE_SHORTOFF_X, ARG_TYPE_NONE, ARG_TYPE_NONE, PREBYTE_NONE, 0xE5, 1, GEN_FLAG_NONE⟩,
  ⟨ARG_TYPE_A, ARG_TYPE_LONGOFF_X, ARG_TYPE_NONE, ARG_TYPE_NONE, PREBYTE_NONE, 0xD5, 2, GEN_FLAG_NONE⟩,
  ⟨ARG_TYPE_A, ARG_TYPE_OFF_Y, ARG_TYPE_NONE, ARG_TYPE_NONE, PREBYTE_PDY, 0xF5, 0, GEN_FLAG_NONE⟩,
  ⟨ARG_TYPE_A, ARG_TYPE_SHORTOFF_Y, ARG_TYPE_NONE, ARG_TYPE_NONE, PREBYTE_PDY, 0xE5, 1, GEN_FLAG_NONE⟩,
  ⟨ARG_TYPE_A, ARG_TYPE_LONGOFF_Y, ARG_TYPE_NONE, ARG_TYPE_NONE, PREBYTE_PDY, 0xD5, 2, GEN_FLAG_NONE⟩,
  ⟨ARG_TYPE_A, ARG_TYPE_SHORTOFF_SP, ARG_TYPE_NONE, ARG_TYPE_NONE, PREBYTE_NONE, 0x15, 1, GEN_FLAG_NONE⟩,
  ⟨ARG_TYPE_A, ARG_TYPE_SHORTPTR, ARG_TYPE_NONE, ARG_TYPE_NONE, PREBYTE_PIX, 0xC5, 1, GEN_FLAG_NONE⟩,
  ⟨ARG_TYPE_A, ARG_TYPE_LONGPTR, ARG_TYPE_NONE, ARG_TYPE_NONE, PREBYTE_PWSP, 0xC5, 2, GEN_FLAG_NONE⟩,
  ⟨ARG_TYPE_A, ARG_TYPE_SHORTPTR_X, ARG_TYPE_NONE, ARG_TYPE_NONE, PREBYTE_PIX, 0xD5, 1, GEN_FLAG_NONE⟩,
  ⟨ARG_TYPE_A, ARG_TYPE_LONGPTR_X, ARG_TYPE_NONE, ARG_TYPE_NONE, PREBYTE_PWSP, 0xD5, 2, GEN_FLAG_NONE⟩,
  ⟨ARG_TYPE_A, ARG_TYPE_SHORTPTR_Y, ARG_TYPE_NONE, ARG_TYPE_NONE, PREBYTE_PIY, 0xD5, 1, GEN_FLAG_NONE⟩,
  ⟨ARG_TYPE_NONE, ARG_TYPE_NONE, ARG_TYPE_NONE, ARG_TYPE_NONE, PREBYTE_NONE, 0x00, 0, GEN_FLAG_END⟩]

/-- The table `_gen_info_int`. -/
def _gen_info_int : List gen_info_t := [
  ⟨ARG_TYPE_EXTMEM, ARG_TYPE_NONE, ARG_TYPE_NONE, ARG_TYPE_NONE, PREBYTE_NONE, 0x82, 3, GEN_FLAG_ARG_DST ||| GEN_FLAG_NONE⟩,
  ⟨ARG_TYPE_NONE, ARG_TYPE_NONE, ARG_TYPE_NONE, ARG_TYPE_NONE, PREBYTE_NONE, 0x00, 0, GEN_FLAG_END⟩]

/-- The table `_gen_info_ld`. -/
def _gen_info_ld : List gen_info_t := [
  ⟨ARG_TYPE_A, ARG_TYPE_BYTE, ARG_TYPE_NONE, ARG_TYPE_NONE, PREBYTE_NONE, 0xA6, 1, GEN_FLAG_NONE⟩,
  ⟨ARG_TYPE_A, ARG_TYPE_SHORTMEM, ARG_TYPE_NONE, ARG_TYPE_NONE, PREBYTE_NONE, 0xB6, 1, GEN_FLAG_NONE⟩,
  ⟨ARG_TYPE_A, ARG_TYPE_LONGMEM, ARG_TYPE_NONE, ARG_TYPE_NONE, PREBYTE_NONE, 0xC6, 2, GEN_FLAG_NONE⟩,
  ⟨ARG_TYPE_A, ARG_TYPE_OFF_X, ARG_TYPE_NONE, ARG_TYPE_NONE, PREBYTE_NONE, 0xF6, 0, GEN_FLAG_NONE⟩,
  ⟨ARG_TYPE_A, ARG_TYPE_SHORTOFF_X, ARG_TYPE_NONE, ARG_TYPE_NONE, PREBYTE_NONE, 0xE6, 1, GEN_FLAG_NONE⟩,
  ⟨ARG_TYPE_A, ARG_TYPE_LONGOFF_X, ARG_TYPE_NONE, ARG_TYPE_NONE, PREBYTE_NONE, 0xD6, 2, GEN_FLAG_NONE⟩,
  ⟨ARG_TYPE_A, ARG_TYPE_OFF_Y, ARG_TYPE_NONE, ARG_TYPE_NONE, PREBYTE_PDY, 0xF6, 0, GEN_FLAG_NONE⟩,
  ⟨ARG_TYPE_A, ARG_TYPE_SHORTOFF_Y, ARG_TYPE_NONE, ARG_TYPE_NONE, PREBYTE_PDY, 0xE6, 1, GEN_FLAG_NONE⟩,
  ⟨ARG_TYPE_A, ARG_TYPE_LONGOFF_Y, ARG_TYPE_NONE, ARG_TYPE_NONE, PREBYTE_PDY, 0xD6, 2, GEN_FLAG_NONE⟩,
  ⟨ARG_TYPE_A, ARG_TYPE_SHORTOFF_SP, ARG_TYPE_NONE, ARG_TYPE_NONE, PREBYTE_NONE, 0x7B, 1, GEN_FLAG_NONE⟩,
  ⟨ARG_TYPE_A, ARG_TYPE_SHORTPTR, ARG_TYPE_NONE, ARG_TYPE_NONE, PREBYTE_PIX, 0xC6, 1, GEN_FLAG_NONE⟩,
  ⟨ARG_TYPE_A, ARG_TYPE_LONGPTR, ARG_TYPE_NONE, ARG_TYPE_NONE, PREBYTE_PWSP, 0xC6, 2, GEN_FLAG_NONE⟩,
  ⟨ARG_TYPE_A, ARG_TYPE_SHORTPTR_X, ARG_TYPE_NONE, ARG_TYPE_NONE, PREBYTE_PIX, 0xD6, 1, GEN_FLAG_NONE⟩,
  ⟨ARG_TYPE_A, ARG_TYPE_LONGPTR_X, ARG_TYPE_NONE, ARG_TYPE_NONE, PREBYTE_PWSP, 0xD6, 2, GEN_FLAG_NONE⟩,
  ⟨ARG_TYPE_A, ARG_TYPE_SHORTPTR_Y, ARG_TYPE_NONE, ARG_TYPE_NONE, PREBYTE_PIY, 0xD6, 1, GEN_FLAG_NONE⟩,
  ⟨ARG_TYPE_SHORTMEM, ARG_TYPE_A, ARG_TYPE_NONE, ARG_TYPE_NONE, PREBYTE_NONE, 0xB7, 1, GEN_FLAG_ARG_DST ||| GEN_FLAG_NONE⟩,
  ⟨ARG_TYPE_LONGMEM, ARG_TYPE_A, ARG_TYPE_NONE, ARG_TYPE_NONE, PREBYTE_NONE, 0xC7, 2, GEN_FLAG_ARG_DST ||| GEN_FLAG_NONE⟩,
  ⟨ARG_TYPE_OFF_X, ARG_TYPE_A, ARG_TYPE_NONE, ARG_TYPE_NONE, PREBYTE_NONE, 0xF7, 0, GEN_FLAG_NONE⟩,
  ⟨ARG_TYPE_SHORTOFF_X, ARG_TYPE_A, ARG_TYPE_NONE, ARG_TYPE_NONE, PREBYTE_NONE, 0xE7, 1, GEN_FLAG_ARG_DST ||| GEN_FLAG_NONE⟩,
  ⟨ARG_TYPE_LONGOFF_X, ARG_TYPE_A, ARG_TYPE_NONE, ARG_TYPE_NONE, PREBYTE_NONE, 0xD7, 2, GEN_FLAG_ARG_DST ||| GEN_FLAG_NONE⟩,
  ⟨ARG_TYPE_OFF_Y, ARG_TYPE_A, ARG_TYPE_NONE, ARG_TYPE_NONE, PREBYTE_PDY, 0xF7, 0, GEN_FLAG_NONE⟩,
  ⟨ARG_TYPE_SHORTOFF_Y, ARG_TYPE_A, ARG_TYPE_NONE, ARG_TYPE_NONE, PREBYTE_PDY, 0xE7, 1, GEN_FLAG_ARG_DST ||| GEN_FLAG_NONE⟩,
  ⟨ARG_TYPE_LONGOFF_Y, ARG_TYPE_A, ARG_TYPE_NONE, ARG_TYPE_NONE, PREBYTE_PDY, 0xD7, 2, GEN_FLAG_ARG_DST ||| GEN_FLAG_NONE⟩,
  ⟨ARG_TYPE_SHORTOFF_SP, ARG_TYPE_A, ARG_TYPE_NONE, ARG_TYPE_NONE, PREBYTE_NONE, 0x6B, 1, GEN_FLAG_ARG_DST ||| GEN_FLAG_NONE⟩,
  ⟨ARG_TYPE_SHORTPTR, ARG_TYPE_A, ARG_TYPE_NONE, ARG_TYPE_NONE, PREBYTE_PIX, 0xC7, 1, GEN_FLAG_ARG_DST ||| GEN_FLAG_NONE⟩,
  ⟨ARG_TYPE_LONGPTR, ARG_TYPE_A, ARG_TYPE_NONE, ARG_TYPE_NONE, PREBYTE_PWSP, 0xC7, 2, GEN_FLAG_ARG_DST ||| GEN_FLAG_NONE⟩,
  ⟨ARG_TYPE_SHORTPTR_X, ARG_TYPE_A, ARG_TYPE_NONE, ARG_TYPE_NONE, PREBYTE_PIX, 0xD7, 1, GEN_FLAG_ARG_DST ||| GEN_FLAG_NONE⟩,
  ⟨ARG_TYPE_LONGPTR_X, ARG_TYPE_A, ARG_TYPE_NONE, ARG_TYPE_NONE, PREBYTE_PWSP, 0xD7, 2, GEN_FLAG_ARG_DST ||| GEN_FLAG_NONE⟩,
  ⟨ARG_TYPE_SHORTPTR_Y, ARG_TYPE_A, ARG_TYPE_NONE, ARG_TYPE_NONE, PREBYTE_PIY, 0xD7, 1, GEN_FLAG_ARG_DST ||| GEN_FLAG_NONE⟩,
  ⟨ARG_TYPE_XL, ARG_TYPE_A, ARG_TYPE_NONE, ARG_TYPE_NONE, PREBYTE_NONE, 0x97, 0, GEN_FLAG_NONE⟩,
  ⟨ARG_TYPE_A, ARG_TYPE_XL, ARG_TYPE_NONE, ARG_TYPE_NONE, PREBYTE_NONE, 0x9F, 0, GEN_FLAG_NONE⟩,
  ⟨ARG_TYPE_YL, ARG_TYPE_A, ARG_TYPE_NONE, ARG_TYPE_NONE, PREBYTE_PDY, 0x97, 0, GEN_FLAG_NONE⟩,
  ⟨ARG_TYPE_A, ARG_TYPE_YL, ARG_TYPE_NONE, ARG_TYPE_NONE, PREBYTE_PDY, 0x9F, 0, GEN_FLAG_NONE⟩,
  ⟨ARG_TYPE_XH, ARG_TYPE_A, ARG_TYPE_NONE, ARG_TYPE_NONE, PREBYTE_NONE, 0x95, 0, GEN_FLAG_NONE⟩,
  ⟨ARG_TYPE_A, ARG_TYPE_XH, ARG_TYPE_NONE, ARG_TYPE_NONE, PREBYTE_NONE, 0x9E, 0, GEN_FLAG_NONE⟩,
  ⟨ARG_TYPE_YH, ARG_TYPE_A, ARG_TYPE_NONE, ARG_TYPE_NONE, PREBYTE_PDY, 0x95, 0, GEN_FLAG_NONE⟩,
  ⟨ARG_TYPE_A, ARG_TYPE_YH, ARG_TYPE_NONE, ARG_TYPE_NONE, PREBYTE_PDY, 0x9E, 0, GEN_FLAG_NONE⟩,
  ⟨ARG_TYPE_NONE, ARG_TYPE_NONE, ARG_TYPE_NONE, ARG_TYPE_NONE, PREBYTE_NONE, 0x00, 0, GEN_FLAG_END⟩]

/-- The table `_gen_info_nop`. -/
def _gen_info_nop : List gen_info_t := [
  ⟨ARG_TYPE_NONE, ARG_TYPE_NONE, ARG_TYPE_NONE, ARG_TYPE_NONE, PREBYTE_NONE, 0x9D, 0, GEN_FLAG_NONE⟩,
  ⟨ARG_TYPE_NONE, ARG_TYPE_NONE, ARG_TYPE_NONE, ARG_TYPE_NONE, PREBYTE_NONE, 0x00, 0, GEN_FLAG_END⟩]

/-- The table `_gen_info_sim`. -/
def _gen_info_sim : List gen_info_t := [
  ⟨ARG_TYPE_NONE, ARG_TYPE_NONE, ARG_TYPE_NONE, ARG_TYPE_NONE, PREBYTE_NONE, 0x9B, 0, GEN_FLAG_NONE⟩,
  ⟨ARG_TYPE_NONE, ARG_TYPE_NONE, ARG_TYPE_NONE, ARG_TYPE_NONE, PREBYTE_NONE, 0x00, 0, GEN_FLAG_END⟩]

/-- The table `_gen_info_rim`. -/
def _gen_info_rim : List gen_info_t := [
  ⟨ARG_TYPE_NONE, ARG_TYPE_NONE, ARG_TYPE_NONE, ARG_TYPE_NONE, PREBYTE_NONE, 0x9A, 0, GEN_FLAG_NONE⟩,
  ⟨ARG_TYPE_NONE, ARG_TYPE_NONE, ARG_TYPE_NONE, ARG_TYPE_NONE, PREBYTE_NONE, 0x00, 0, GEN_FLAG_END⟩]

/-- The table `_gen_info_halt`. -/
def _gen_info_halt : List gen_info_t := [
  ⟨ARG_TYPE_NONE, ARG_TYPE_NONE, ARG_TYPE_NONE, ARG_TYPE_NONE, PREBYTE_NONE, 0x8E, 0, GEN_FLAG_NONE⟩,
  ⟨ARG_TYPE_NONE, ARG_TYPE_NONE, ARG_TYPE_NONE, ARG_TYPE_NONE, PREBYTE_NONE, 0x00, 0, GEN_FLAG_END⟩]

/-- The table `_gen_info_rvf`. -/
def _gen_info_rvf : List gen_info_t := [
  ⟨ARG_TYPE_NONE, ARG_TYPE_NONE, ARG_TYPE_NONE, ARG_TYPE_NONE, PREBYTE_NONE, 0x9C, 0, GEN_FLAG_NONE⟩,
  ⟨ARG_TYPE_NONE, ARG_TYPE_NONE, ARG_TYPE_NONE, ARG_TYPE_NONE, PREBYTE_NONE, 0x00, 0, GEN_FLAG_END⟩]

/-- The table `_gen_info_rcf`. -/
def _gen_info_rcf : List gen_info_t := [
  ⟨ARG_TYPE_NONE, ARG_TYPE_NONE, ARG_TYPE_NONE, ARG_TYPE_NONE, PREBYTE_NONE, 0x98, 0, GEN_FLAG_NONE⟩,
  ⟨ARG_TYPE_NONE, ARG_TYPE_NONE, ARG_TYPE_NONE, ARG_TYPE_NONE, PREBYTE_NONE, 0x00, 0, GEN_FLAG_END⟩]

/-- The table `_gen_info_scf`. -/
def _gen_info_scf : List gen_info_t := [
  ⟨ARG_TYPE_NONE, ARG_TYPE_NONE, ARG_TYPE_NONE, ARG_TYPE_NONE, PREBYTE_NONE, 0x99, 0, GEN_FLAG_NONE⟩,
  ⟨ARG_TYPE_NONE, ARG_TYPE_NONE, ARG_TYPE_NONE, ARG_TYPE_NONE, PREBYTE_NONE, 0x00, 0, GEN_FLAG_END⟩]

/-- The table `_gen_info_wfi`. -/
def _gen_info_wfi : List gen_info_t := [
  ⟨ARG_TYPE_NONE, ARG_TYPE_NONE, ARG_TYPE_NONE, ARG_TYPE_NONE, PREBYTE_NONE, 0x8F, 0, GEN_FLAG_NONE⟩,
  ⟨ARG_TYPE_NONE, ARG_TYPE_NONE, ARG_TYPE_NONE, ARG_TYPE_NONE, PREBYTE_NONE, 0x00, 0, GEN_FLAG_END⟩]

/-- The table `_gen_info_wfe`. -/
def _gen_info_wfe : List gen_info_t := [
  ⟨ARG_TYPE_NONE, ARG_TYPE_NONE, ARG_TYPE_NONE, ARG_TYPE_NONE, PREBYTE_PWSP, 0x8F, 0, GEN_FLAG_NONE⟩,
  ⟨ARG_TYPE_NONE, ARG_TYPE_NONE, ARG_TYPE_NONE, ARG_TYPE_NONE, PREBYTE_NONE, 0x00, 0, GEN_FLAG_END⟩]

/-- The table `_gen_info_ret`. -/
def _gen_info_ret : List gen_info_t := [
  ⟨ARG_TYPE_NONE, ARG_TYPE_NONE, ARG_TYPE_NONE, ARG_TYPE_NONE, PREBYTE_NONE, 0x81, 0, GEN_FLAG_NONE⟩,
  ⟨ARG_TYPE_NONE, ARG_TYPE_NONE, ARG_TYPE_NONE, ARG_TYPE_NONE, PREBYTE_NONE, 0x00, 0, GEN_FLAG_END⟩]

/-- The table `_gen_info_retf`. -/
def _gen_info_retf : List gen_info_t := [
  ⟨ARG_TYPE_NONE, ARG_TYPE_NONE, ARG_TYPE_NONE, ARG_TYPE_NONE, PREBYTE_NONE, 0x87, 0, GEN_FLAG_NONE⟩,
  ⟨ARG_TYPE_NONE, ARG_TYPE_NONE, ARG_TYPE_NONE, ARG_TYPE_NONE, PREBYTE_NONE, 0x00, 0, GEN_FLAG_END⟩]

/-- The table `_gen_info_mul`. -/
def _gen_info_mul : List gen_info_t := [
  ⟨ARG_TYPE_X, ARG_TYPE_A, ARG_TYPE_NONE, ARG_TYPE_NONE, PREBYTE_NONE, 0x42, 0, GEN_FLAG_NONE⟩,
  ⟨ARG_TYPE_Y, ARG_TYPE_A, ARG_TYPE_NONE, ARG_TYPE_NONE, PREBYTE_PDY, 0x42, 0, GEN_FLAG_NONE⟩,
  ⟨ARG_TYPE_NONE, ARG_TYPE_NONE, ARG_TYPE_NONE, ARG_TYPE_NONE, PREBYTE_NONE, 0x00, 0, GEN_FLAG_END⟩]

/-- The table `_gen_info_div`. -/
def _gen_info_div : List gen_info_t := [
  ⟨ARG_TYPE_X, ARG_TYPE_A, ARG_TYPE_NONE, ARG_TYPE_NONE, PREBYTE_NONE, 0x62, 0, GEN_FLAG_NONE⟩,
  ⟨ARG_TYPE_Y, ARG_TYPE_A, ARG_TYPE_NONE, ARG_TYPE_NONE, PREBYTE_PDY, 0x62, 0, GEN_FLAG_NONE⟩,
  ⟨ARG_TYPE_NONE, ARG_TYPE_NONE, ARG_TYPE_NONE, ARG_TYPE_NONE, PREBYTE_NONE, 0x00, 0, GEN_FLAG_END⟩]

/-- The table `_gen_info_exgw`. -/
def _gen_info_exgw : List gen_info_t := [
  ⟨ARG_TYPE_X, ARG_TYPE_Y, ARG_TYPE_NONE, ARG_TYPE_NONE, PREBYTE_NONE, 0x51, 0, GEN_FLAG_NONE⟩,
  ⟨ARG_TYPE_NONE, ARG_TYPE_NONE, ARG_TYPE_NONE, ARG_TYPE_NONE, PREBYTE_NONE, 0x00, 0, GEN_FLAG_END⟩]

/-- The table `_gen_info_divw`. -/
def _gen_info_divw : List gen_info_t := [
  ⟨ARG_TYPE_X, ARG_TYPE_Y, ARG_TYPE_NONE, ARG_TYPE_NONE, PREBYTE_NONE, 0x65, 0, GEN_FLAG_NONE⟩,
  ⟨ARG_TYPE_NONE, ARG_TYPE_NONE, ARG_TYPE_NONE, ARG_TYPE_NONE, PREBYTE_NONE, 0x00, 0, GEN_FLAG_END⟩]

/-- The table `_gen_info_decw`. -/
def _gen_info_decw : List gen_info_t := [
  ⟨ARG_TYPE_X, ARG_TYPE_NONE, ARG_TYPE_NONE, ARG_TYPE_NONE, PREBYTE_NONE, 0x5A, 0, GEN_FLAG_NONE⟩,
  ⟨ARG_TYPE_Y, ARG_TYPE_NONE, ARG_TYPE_NONE, ARG_TYPE_NONE, PREBYTE_PDY, 0x5A, 0, GEN_FLAG_NONE⟩,
  ⟨ARG_TYPE_NONE, ARG_TYPE_NONE, ARG_TYPE_NONE, ARG_TYPE_NONE, PREBYTE_NONE, 0x00, 0, GEN_FLAG_END⟩]

/-- The table `_gen_info_cplw`. -/
def _gen_info_cplw : List gen_info_t := [
  ⟨ARG_TYPE_X, ARG_TYPE_NONE, ARG_TYPE_NONE, ARG_TYPE_NONE, PREBYTE_NONE, 0x53, 0, GEN_FLAG_NONE⟩,
  ⟨ARG_TYPE_Y, ARG_TYPE_NONE, ARG_TYPE_NONE, ARG_TYPE_NONE, PREBYTE_PDY, 0x53, 0, GEN_FLAG_NONE⟩,
  ⟨ARG_TYPE_NONE, ARG_TYPE_NONE, ARG_TYPE_NONE, ARG_TYPE_NONE, PREBYTE_NONE, 0x00, 0, GEN_FLAG_END⟩]

/-- The table `_gen_info_clrw`. -/
def _gen_info_clrw : List gen_info_t := [
  ⟨ARG_TYPE_X, ARG_TYPE_NONE, ARG_TYPE_NONE, ARG_TYPE_NONE, PREBYTE_NONE, 0x5F, 0, GEN_FLAG_NONE⟩,
  ⟨ARG_TYPE_Y, ARG_TYPE_NONE, ARG_TYPE_NONE, ARG_TYPE_NONE, PREBYTE_PDY, 0x5F, 0, GEN_FLAG_NONE⟩,
  ⟨ARG_TYPE_NONE, ARG_TYPE_NONE, ARG_TYPE_NONE, ARG_TYPE_NONE, PREBYTE_NONE, 0x00, 0, GEN_FLAG_END⟩]

/-- The table `_gen_info_ccf`. -/
def _gen_info_ccf : List gen_info_t := [
  ⟨ARG_TYPE_NONE, ARG_TYPE_NONE, ARG_TYPE_NONE, ARG_TYPE_NONE, PREBYTE_NONE, 0x8C, 0, GEN_FLAG_NONE⟩,
  ⟨ARG_TYPE_NONE, ARG_TYPE_NONE, ARG_TYPE_NONE, ARG_TYPE_NONE, PREBYTE_NONE, 0x00, 0, GEN_FLAG_END⟩]

/-- The table `_gen_info_callf`. -/
def _gen_info_callf : List gen_info_t := [
  ⟨ARG_TYPE_EXTMEM, ARG_TYPE_NONE, ARG_TYPE_NONE, ARG_TYPE_NONE, PREBYTE_NONE, 0x8D, 3, GEN_FLAG_ARG_DST ||| GEN_FLAG_NONE⟩,
  ⟨ARG_TYPE_LONGPTR, ARG_TYPE_NONE, ARG_TYPE_NONE, ARG_TYPE_NONE, PREBYTE_PIX, 0x8D, 2, GEN_FLAG_ARG_DST ||| GEN_FLAG_NONE⟩,
  ⟨ARG_TYPE_NONE, ARG_TYPE_NONE, ARG_TYPE_NONE, ARG_TYPE_NONE, PREBYTE_NONE, 0x00, 0, GEN_FLAG_END⟩]

/-- The table `_gen_info_break`. -/
def _gen_info_break : List gen_info_t := [
  ⟨ARG_TYPE_NONE, ARG_TYPE_NONE, ARG_TYPE_NONE, ARG_TYPE_NONE, PREBYTE_NONE, 0x8B, 0, GEN_FLAG_NONE⟩,
  ⟨ARG_TYPE_NONE, ARG_TYPE_NONE, ARG_TYPE_NONE, ARG_TYPE_NONE, PREBYTE_NONE, 0x00, 0, GEN_FLAG_END⟩]

/-- The table `_gen_info_sllw`. -/
def _gen_info_sllw : List gen_info_t := [
  ⟨ARG_TYPE_X, ARG_TYPE_NONE, ARG_TYPE_NONE, ARG_TYPE_NONE, PREBYTE_NONE, 0x58, 0, GEN_FLAG_NONE⟩,
  ⟨ARG_TYPE_Y, ARG_TYPE_NONE, ARG_TYPE_NONE, ARG_TYPE_NONE, PREBYTE_PDY, 0x58, 0, GEN_FLAG_NONE⟩,
  ⟨ARG_TYPE_NONE, ARG_TYPE_NONE, ARG_TYPE_NONE, ARG_TYPE_NONE, PREBYTE_NONE, 0x00, 0, GEN_FLAG_END⟩]

/-- The table `_gen_info_sraw`. -/
def _gen_info_sraw : List gen_info_t := [
  ⟨ARG_TYPE_X, ARG_TYPE_NONE, ARG_TYPE_NONE, ARG_TYPE_NONE, PREBYTE_NONE, 0x57, 0, GEN_FLAG_NONE⟩,
  ⟨ARG_TYPE_Y, ARG_TYPE_NONE, ARG_TYPE_NONE, ARG_TYPE_NONE, PREBYTE_PDY, 0x57, 0, GEN_FLAG_NONE⟩,
  ⟨ARG_TYPE_NONE, ARG_TYPE_NONE, ARG_TYPE_NONE, ARG_TYPE_NONE, PREBYTE_NONE, 0x00, 0, GEN_FLAG_END⟩]

/-- The table `_gen_info_srlw`. -/
def _gen_info_srlw : List gen_info_t := [
  ⟨ARG_TYPE_X, ARG_TYPE_NONE, ARG_TYPE_NONE, ARG_TYPE_NONE, PREBYTE_NONE, 0x54, 0, GEN_FLAG_NONE⟩,
  ⟨ARG_TYPE_Y, ARG_TYPE_NONE, ARG_TYPE_NONE, ARG_TYPE_NONE, PREBYTE_PDY, 0x54, 0, GEN_FLAG_NONE⟩,
  ⟨ARG_TYPE_NONE, ARG_TYPE_NONE, ARG_TYPE_NONE, ARG_TYPE_NONE, PREBYTE_NONE, 0x00, 0, GEN_FLAG_END⟩]

/-- The table `_gen_info_swapw`. -/
def _gen_info_swapw : List gen_info_t := [
  ⟨ARG_TYPE_X, ARG_TYPE_NONE, ARG_TYPE_NONE, ARG_TYPE_NONE, PREBYTE_NONE, 0x5E, 0, GEN_FLAG_NONE⟩,
  ⟨ARG_TYPE_Y, ARG_TYPE_NONE, ARG_TYPE_NONE, ARG_TYPE_NONE, PREBYTE_PDY, 0x5E, 0, GEN_FLAG_NONE⟩,
  ⟨ARG_TYPE_NONE, ARG_TYPE_NONE, ARG_TYPE_NONE, ARG_TYPE_NONE, PREBYTE_NONE, 0x00, 0, GEN_FLAG_END⟩]

/-- The table `_gen_info_tnzw`. -/
def _gen_info_tnzw : List gen_info_t := [
  ⟨ARG_TYPE_X, ARG_TYPE_NONE, ARG_TYPE_NONE, ARG_TYPE_NONE, PREBYTE_NONE, 0x5D, 0, GEN_FLAG_NONE⟩,
  ⟨ARG_TYPE_Y, ARG_TYPE_NONE, ARG_TYPE_NONE, ARG_TYPE_NONE, PREBYTE_PDY, 0x5D, 0, GEN_FLAG_NONE⟩,
  ⟨ARG_TYPE_NONE, ARG_TYPE_NONE, ARG_TYPE_NONE, ARG_TYPE_NONE, PREBYTE_NONE, 0x00, 0, GEN_FLAG_END⟩]

/-- The table `_gen_info_trap`. -/
def _gen_info_trap : List gen_info_t := [
  ⟨ARG_TYPE_NONE, ARG_TYPE_NONE, ARG_TYPE_NONE, ARG_TYPE_NONE, PREBYTE_NONE, 0x83, 0, GEN_FLAG_NONE⟩,
  ⟨ARG_TYPE_NONE, ARG_TYPE_NONE, ARG_TYPE_NONE, ARG_TYPE_NONE, PREBYTE_NONE, 0x00, 0, GEN_FLAG_END⟩]

/-- The table `_gen_info_rrcw`. -/
def _gen_info_rrcw : List gen_info_t := [
  ⟨ARG_TYPE_X, ARG_TYPE_NONE, ARG_TYPE_NONE, ARG_TYPE_NONE, PREBYTE_NONE, 0x56, 0, GEN_FLAG_NONE⟩,
  ⟨ARG_TYPE_Y, ARG_TYPE_NONE, ARG_TYPE_NONE, ARG_TYPE_NONE, PREBYTE_PDY, 0x56, 0, GEN_FLAG_NONE⟩,
  ⟨ARG_TYPE_NONE, ARG_TYPE_NONE, ARG_TYPE_NONE, ARG_TYPE_NONE, PREBYTE_NONE, 0x00, 0, GEN_FLAG_END⟩]

/-- The table `_gen_info_rrwa`. -/
def _gen_info_rrwa : List gen_info_t := [
  ⟨ARG_TYPE_X, ARG_TYPE_NONE, ARG_TYPE_NONE, ARG_TYPE_NONE, PREBYTE_NONE, 0x01, 0, GEN_FLAG_NONE⟩,
  ⟨ARG_TYPE_Y, ARG_TYPE_NONE, ARG_TYPE_NONE, ARG_TYPE_NONE, PREBYTE_PDY, 0x01, 0, GEN_FLAG_NONE⟩,
  ⟨ARG_TYPE_NONE, ARG_TYPE_NONE, ARG_TYPE_NONE, ARG_TYPE_NONE, PREBYTE_NONE, 0x00, 0, GEN_FLAG_END⟩]

/-- The table `_gen_info_rlwa`. -/
def _gen_info_rlwa : List gen_info_t := [
  ⟨ARG_TYPE_X, ARG_TYPE_NONE, ARG_TYPE_NONE, ARG_TYPE_NONE, PREBYTE_NONE, 0x02, 0, GEN_FLAG_NONE⟩,
  ⟨ARG_TYPE_Y, ARG_TYPE_NONE, ARG_TYPE_NONE, ARG_TYPE_NONE, PREBYTE_PDY, 0x02, 0, GEN_FLAG_NONE⟩,
  ⟨ARG_TYPE_NONE, ARG_TYPE_NONE, ARG_TYPE_NONE, ARG_TYPE_NONE, PREBYTE_NONE, 0x00, 0, GEN_FLAG_END⟩]

/-- The table `_gen_info_rlcw`. -/
def _gen_info_rlcw : List gen_info_t := [
  ⟨ARG_TYPE_X, ARG_TYPE_NONE, ARG_TYPE_NONE, ARG_TYPE_NONE, PREBYTE_NONE, 0x59, 0, GEN_FLAG_NONE⟩,
  ⟨ARG_TYPE_Y, ARG_TYPE_NONE, ARG_TYPE_NONE, ARG_TYPE_NONE, PREBYTE_PDY, 0x59, 0, GEN_FLAG_NONE⟩,
  ⟨ARG_TYPE_NONE, ARG_TYPE_NONE, ARG_TYPE_NONE, ARG_TYPE_NONE, PREBYTE_NONE, 0x00, 0, GEN_FLAG_END⟩]

/-- The table `_gen_info_iret`. -/
def _gen_info_iret : List gen_info_t := [
  ⟨ARG_TYPE_NONE, ARG_TYPE_NONE, ARG_TYPE_NONE, ARG_TYPE_NONE, PREBYTE_NONE, 0x80, 0, GEN_FLAG_NONE⟩,
  ⟨ARG_TYPE_NONE, ARG_TYPE_NONE, ARG_TYPE_NONE, ARG_TYPE_NONE, PREBYTE_NONE, 0x00, 0, GEN_FLAG_END⟩]

/-- The table `_gen_info_call`. -/
def _gen_info_call : List gen_info_t := [
  ⟨ARG_TYPE_SHORTMEM, ARG_TYPE_NONE, ARG_TYPE_NONE, ARG_TYPE_NONE, PREBYTE_NONE, 0xCD, 2, GEN_FLAG_ARG_DST ||| GEN_FLAG_CHECK_LONG⟩,
  ⟨ARG_TYPE_LONGMEM, ARG_TYPE_NONE, ARG_TYPE_NONE, ARG_TYPE_NONE, PREBYTE_NONE, 0xCD, 2, GEN_FLAG_ARG_DST ||| GEN_FLAG_NONE⟩,
  ⟨ARG_TYPE_OFF_X, ARG_TYPE_NONE, ARG_TYPE_NONE, ARG_TYPE_NONE, PREBYTE_NONE, 0xFD, 0, GEN_FLAG_NONE⟩,
  ⟨ARG_TYPE_SHORTOFF_X, ARG_TYPE_NONE, ARG_TYPE_NONE, ARG_TYPE_NONE, PREBYTE_NONE, 0xED, 1, GEN_FLAG_ARG_DST ||| GEN_FLAG_NONE⟩,
  ⟨ARG_TYPE_LONGOFF_X, ARG_TYPE_NONE, ARG_TYPE_NONE, ARG_TYPE_NONE, PREBYTE_NONE, 0xDD, 2, GEN_FLAG_ARG_DST ||| GEN_FLAG_NONE⟩,
  ⟨ARG_TYPE_OFF_Y, ARG_TYPE_NONE, ARG_TYPE_NONE, ARG_TYPE_NONE, PREBYTE_PDY, 0xFD, 0, GEN_FLAG_NONE⟩,
  ⟨ARG_TYPE_SHORTOFF_Y, ARG_TYPE_NONE, ARG_TYPE_NONE, ARG_TYPE_NONE, PREBYTE_PDY, 0xED, 1, GEN_FLAG_ARG_DST ||| GEN_FLAG_NONE⟩,
  ⟨ARG_TYPE_LONGOFF_Y, ARG_TYPE_NONE, ARG_TYPE_NONE, ARG_TYPE_NONE, PREBYTE_PDY, 0xDD, 2, GEN_FLAG_ARG_DST ||| GEN_FLAG_NONE⟩,
  ⟨ARG_TYPE_SHORTPTR, ARG_TYPE_NONE, ARG_TYPE_NONE, ARG_TYPE_NONE, PREBYTE_PIX, 0xCD, 1, GEN_FLAG_ARG_DST ||| GEN_FLAG_NONE⟩,
  ⟨ARG_TYPE_LONGPTR, ARG_TYPE_NONE, ARG_TYPE_NONE, ARG_TYPE_NONE, PREBYTE_PWSP, 0xCD, 2, GEN_FLAG_ARG_DST ||| GEN_FLAG_NONE⟩,
  ⟨ARG_TYPE_SHORTPTR_X, ARG_TYPE_NONE, ARG_TYPE_NONE, ARG_TYPE_NONE, PREBYTE_PIX, 0xDD, 1, GEN_FLAG_ARG_DST ||| GEN_FLAG_NONE⟩,
  ⟨ARG_TYPE_LONGPTR_X, ARG_TYPE_NONE, ARG_TYPE_NONE, ARG_TYPE_NONE, PREBYTE_PWSP, 0xDD, 2, GEN_FLAG_ARG_DST ||| GEN_FLAG_NONE⟩,
  ⟨ARG_TYPE_SHORTPTR_Y, ARG_TYPE_NONE, ARG_TYPE_NONE, ARG_TYPE_NONE, PREBYTE_PIY, 0xDD, 1, GEN_FLAG_ARG_DST ||| GEN_FLAG_NONE⟩,
  ⟨ARG_TYPE_NONE, ARG_TYPE_NONE, ARG_TYPE_NONE, ARG_TYPE_NONE, PREBYTE_NONE, 0x00, 0, GEN_FLAG_END⟩]

/-- The table `_gen_info_addw`. -/
def _gen_info_addw : List gen_info_t := [
  ⟨ARG_TYPE_X, ARG_TYPE_BYTE, ARG_TYPE_NONE, ARG_TYPE_NONE, PREBYTE_NONE, 0x1C, 2, GEN_FLAG_CHECK_LONG⟩,
  ⟨ARG_TYPE_X, ARG_TYPE_WORD, ARG_TYPE_NONE, ARG_TYPE_NONE, PREBYTE_NONE, 0x1C, 2, GEN_FLAG_NONE⟩,
  ⟨ARG_TYPE_X, ARG_TYPE_SHORTMEM, ARG_TYPE_NONE, ARG_TYPE_NONE, PREBYTE_PWSP, 0xBB, 2, GEN_FLAG_CHECK_LONG⟩,
  ⟨ARG_TYPE_X, ARG_TYPE_LONGMEM, ARG_TYPE_NONE, ARG_TYPE_NONE, PREBYTE_PWSP, 0xBB, 2, GEN_FLAG_NONE⟩,
  ⟨ARG_TYPE_X, ARG_TYPE_SHORTOFF_SP, ARG_TYPE_NONE, ARG_TYPE_NONE, PREBYTE_PWSP, 0xFB, 1, GEN_FLAG_NONE⟩,
  ⟨ARG_TYPE_Y, ARG_TYPE_BYTE, ARG_TYPE_NONE, ARG_TYPE_NONE, PREBYTE_PWSP, 0xA9, 2, GEN_FLAG_CHECK_LONG⟩,
  ⟨ARG_TYPE_Y, ARG_TYPE_WORD, ARG_TYPE_NONE, ARG_TYPE_NONE, PREBYTE_PWSP, 0xA9, 2, GEN_FLAG_NONE⟩,
  ⟨ARG_TYPE_Y, ARG_TYPE_SHORTMEM, ARG_TYPE_NONE, ARG_TYPE_NONE, PREBYTE_PWSP, 0xB9, 2, GEN_FLAG_CHECK_LONG⟩,
  ⟨ARG_TYPE_Y, ARG_TYPE_LONGMEM, ARG_TYPE_NONE, ARG_TYPE_NONE, PREBYTE_PWSP, 0xB9, 2, GEN_FLAG_NONE⟩,
  ⟨ARG_TYPE_Y, ARG_TYPE_SHORTOFF_SP, ARG_TYPE_NONE, ARG_TYPE_NONE, PREBYTE_PWSP, 0xF9, 1, GEN_FLAG_NONE⟩,
  ⟨ARG_TYPE_SP, ARG_TYPE_BYTE, ARG_TYPE_NONE, ARG_TYPE_NONE, PREBYTE_NONE, 0x5B, 1, GEN_FLAG_NONE⟩,
  ⟨ARG_TYPE_NONE, ARG_TYPE_NONE, ARG_TYPE_NONE, ARG_TYPE_NONE, PREBYTE_NONE, 0x00, 0, GEN_FLAG_END⟩]

/-- The table `_gen_info_clr`. -/
def _gen_info_clr : List gen_info_t := [
  ⟨ARG_TYPE_A, ARG_TYPE_NONE, ARG_TYPE_NONE, ARG_TYPE_NONE, PREBYTE_NONE, 0x4F, 0, GEN_FLAG_NONE⟩,
  ⟨ARG_TYPE_SHORTMEM, ARG_TYPE_NONE, ARG_TYPE_NONE, ARG_TYPE_NONE, PREBYTE_NONE, 0x3F, 1, GEN_FLAG_ARG_DST ||| GEN_FLAG_NONE⟩,
  ⟨ARG_TYPE_LONGMEM, ARG_TYPE_NONE, ARG_TYPE_NONE, ARG_TYPE_NONE, PREBYTE_PWSP, 0x5F, 2, GEN_FLAG_ARG_DST ||| GEN_FLAG_NONE⟩,
  ⟨ARG_TYPE_OFF_X, ARG_TYPE_NONE, ARG_TYPE_NONE, ARG_TYPE_NONE, PREBYTE_NONE, 0x7F, 0, GEN_FLAG_NONE⟩,
  ⟨ARG_TYPE_SHORTOFF_X, ARG_TYPE_NONE, ARG_TYPE_NONE, ARG_TYPE_NONE, PREBYTE_NONE, 0x6F, 1, GEN_FLAG_ARG_DST ||| GEN_FLAG_NONE⟩,
  ⟨ARG_TYPE_LONGOFF_X, ARG_TYPE_NONE, ARG_TYPE_NONE, ARG_TYPE_NONE, PREBYTE_PWSP, 0x4F, 2, GEN_FLAG_ARG_DST ||| GEN_FLAG_NONE⟩,
  ⟨ARG_TYPE_OFF_Y, ARG_TYPE_NONE, ARG_TYPE_NONE, ARG_TYPE_NONE, PREBYTE_PDY, 0x7F, 0, GEN_FLAG_NONE⟩,
  ⟨ARG_TYPE_SHORTOFF_Y, ARG_TYPE_NONE, ARG_TYPE_NONE, ARG_TYPE_NONE, PREBYTE_PDY, 0x6F, 1, GEN_FLAG_ARG_DST ||| GEN_FLAG_NONE⟩,
  ⟨ARG_TYPE_LONGOFF_Y, ARG_TYPE_NONE, ARG_TYPE_NONE, ARG_TYPE_NONE, PREBYTE_PDY, 0x4F, 2, GEN_FLAG_ARG_DST ||| GEN_FLAG_NONE⟩,
  ⟨ARG_TYPE_SHORTOFF_SP, ARG_TYPE_NONE, ARG_TYPE_NONE, ARG_TYPE_NONE, PREBYTE_NONE, 0x0F, 1, GEN_FLAG_ARG_DST ||| GEN_FLAG_NONE⟩,
  ⟨ARG_TYPE_SHORTPTR, ARG_TYPE_NONE, ARG_TYPE_NONE, ARG_TYPE_NONE, PREBYTE_PIX, 0x3F, 1, GEN_FLAG_ARG_DST ||| GEN_FLAG_NONE⟩,
  ⟨ARG_TYPE_LONGPTR, ARG_TYPE_NONE, ARG_TYPE_NONE, ARG_TYPE_NONE, PREBYTE_PWSP, 0x3F, 2, GEN_FLAG_ARG_DST ||| GEN_FLAG_NONE⟩,
  ⟨ARG_TYPE_SHORTPTR_X, ARG_TYPE_NONE, ARG_TYPE_NONE, ARG_TYPE_NONE, PREBYTE_PIX, 0x6F, 1, GEN_FLAG_ARG_DST ||| GEN_FLAG_NONE⟩,
  ⟨ARG_TYPE_LONGPTR_X, ARG_TYPE_NONE, ARG_TYPE_NONE, ARG_TYPE_NONE, PREBYTE_PWSP, 0x6F, 2, GEN_FLAG_ARG_DST ||| GEN_FLAG_NONE⟩,
  ⟨ARG_TYPE_SHORTPTR_Y, ARG_TYPE_NONE, ARG_TYPE_NONE, ARG_TYPE_NONE, PREBYTE_PIY, 0x6F, 1, GEN_FLAG_ARG_DST ||| GEN_FLAG_NONE⟩,
  ⟨ARG_TYPE_NONE, ARG_TYPE_NONE, ARG_TYPE_NONE, ARG_TYPE_NONE, PREBYTE_NONE, 0x00, 0, GEN_FLAG_END⟩]

/-- The table `_gen_info_cp`. -/
def _gen_info_cp : List gen_info_t := [
  ⟨ARG_TYPE_A, ARG_TYPE_BYTE, ARG_TYPE_NONE, ARG_TYPE_NONE, PREBYTE_NONE, 0xA1, 1, GEN_FLAG_NONE⟩,
  ⟨ARG_TYPE_A, ARG_TYPE_SHORTMEM, ARG_TYPE_NONE, ARG_TYPE_NONE, PREBYTE_NONE, 0xB1, 1, GEN_FLAG_NONE⟩,
  ⟨ARG_TYPE_A, ARG_TYPE_LONGMEM, ARG_TYPE_NONE, ARG_TYPE_NONE, PREBYTE_NONE, 0xC1, 2, GEN_FLAG_NONE⟩,
  ⟨ARG_TYPE_A, ARG_TYPE_OFF_X, ARG_TYPE_NONE, ARG_TYPE_NONE, PREBYTE_NONE, 0xF1, 0, GEN_FLAG_NONE⟩,
  ⟨ARG_TYPE_A, ARG_TYPE_SHORTOFF_X, ARG_TYPE_NONE, ARG_TYPE_NONE, PREBYTE_NONE, 0xE1, 1, GEN_FLAG_NONE⟩,
  ⟨ARG_TYPE_A, ARG_TYPE_LONGOFF_X, ARG_TYPE_NONE, ARG_TYPE_NONE, PREBYTE_NONE, 0xD1, 2, GEN_FLAG_NONE⟩,
  ⟨ARG_TYPE_A, ARG_TYPE_OFF_Y, ARG_TYPE_NONE, ARG_TYPE_NONE, PREBYTE_PDY, 0xF1, 0, GEN_FLAG_NONE⟩,
  ⟨ARG_TYPE_A, ARG_TYPE_SHORTOFF_Y, ARG_TYPE_NONE, ARG_TYPE_NONE, PREBYTE_PDY, 0xE1, 1, GEN_FLAG_NONE⟩,
  ⟨ARG_TYPE_A, ARG_TYPE_LONGOFF_Y, ARG_TYPE_NONE, ARG_TYPE_NONE, PREBYTE_PDY, 0xD1, 2, GEN_FLAG_NONE⟩,
  ⟨ARG_TYPE_A, ARG_TYPE_SHORTOFF_SP, ARG_TYPE_NONE, ARG_TYPE_NONE, PREBYTE_NONE, 0x11, 1, GEN_FLAG_NONE⟩,
  ⟨ARG_TYPE_A, ARG_TYPE_SHORTPTR, ARG_TYPE_NONE, ARG_TYPE_NONE, PREBYTE_PIX, 0xC1, 1, GEN_FLAG_NONE⟩,
  ⟨ARG_TYPE_A, ARG_TYPE_LONGPTR, ARG_TYPE_NONE, ARG_TYPE_NONE, PREBYTE_PWSP, 0xC1, 2, GEN_FLAG_NONE⟩,
  ⟨ARG_TYPE_A, ARG_TYPE_SHORTPTR_X, ARG_TYPE_NONE, ARG_TYPE_NONE, PREBYTE_PIX, 0xD1, 1, GEN_FLAG_NONE⟩,
  ⟨ARG_TYPE_A, ARG_TYPE_LONGPTR_X, ARG_TYPE_NONE, ARG_TYPE_NONE, PREBYTE_PWSP, 0xD1, 2, GEN_FLAG_NONE⟩,
  ⟨ARG_TYPE_A, ARG_TYPE_SHORTPTR_Y, ARG_TYPE_NONE, ARG_TYPE_NONE, PREBYTE_PIY, 0xD1, 1, GEN_FLAG_NONE⟩,
  ⟨ARG_TYPE_NONE, ARG_TYPE_NONE, ARG_TYPE_NONE, ARG_TYPE_NONE, PREBYTE_NONE, 0x00, 0, GEN_FLAG_END⟩]

/-- The table `_gen_info_cpw`. -/
def _gen_info_cpw : List gen_info_t := [
  ⟨ARG_TYPE_X, ARG_TYPE_BYTE, ARG_TYPE_NONE, ARG_TYPE_NONE, PREBYTE_NONE, 0xA3, 2, GEN_FLAG_CHECK_LONG ||| GEN_FLAG_NONE⟩,
  ⟨ARG_TYPE_X, ARG_TYPE_WORD, ARG_TYPE_NONE, ARG_TYPE_NONE, PREBYTE_NONE, 0xA3, 2, GEN_FLAG_NONE⟩,
  ⟨ARG_TYPE_X, ARG_TYPE_SHORTMEM, ARG_TYPE_NONE, ARG_TYPE_NONE, PREBYTE_NONE, 0xB3, 1, GEN_FLAG_NONE⟩,
  ⟨ARG_TYPE_X, ARG_TYPE_LONGMEM, ARG_TYPE_NONE, ARG_TYPE_NONE, PREBYTE_NONE, 0xC3, 2, GEN_FLAG_NONE⟩,
  ⟨ARG_TYPE_X, ARG_TYPE_OFF_Y, ARG_TYPE_NONE, ARG_TYPE_NONE, PREBYTE_PDY, 0xF3, 0, GEN_FLAG_NONE⟩,
  ⟨ARG_TYPE_X, ARG_TYPE_SHORTOFF_Y, ARG_TYPE_NONE, ARG_TYPE_NONE, PREBYTE_PDY, 0xE3, 1, GEN_FLAG_NONE⟩,
  ⟨ARG_TYPE_X, ARG_TYPE_LONGOFF_Y, ARG_TYPE_NONE, ARG_TYPE_NONE, PREBYTE_PDY, 0xD3, 2, GEN_FLAG_NONE⟩,
  ⟨ARG_TYPE_X, ARG_TYPE_SHORTOFF_SP, ARG_TYPE_NONE, ARG_TYPE_NONE, PREBYTE_NONE, 0x13, 1, GEN_FLAG_NONE⟩,
  ⟨ARG_TYPE_X, ARG_TYPE_SHORTPTR, ARG_TYPE_NONE, ARG_TYPE_NONE, PREBYTE_PIX, 0xC3, 1, GEN_FLAG_NONE⟩,
  ⟨ARG_TYPE_X, ARG_TYPE_LONGPTR, ARG_TYPE_NONE, ARG_TYPE_NONE, PREBYTE_PWSP, 0xC3, 2, GEN_FLAG_NONE⟩,
  ⟨ARG_TYPE_X, ARG_TYPE_SHORTPTR_Y, ARG_TYPE_NONE, ARG_TYPE_NONE, PREBYTE_PIY, 0xD3, 1, GEN_FLAG_NONE⟩,
  ⟨ARG_TYPE_Y, ARG_TYPE_BYTE, ARG_TYPE_NONE, ARG_TYPE_NONE, PREBYTE_PDY, 0xA3, 2, GEN_FLAG_CHECK_LONG ||| GEN_FLAG_NONE⟩,
  ⟨ARG_TYPE_Y, ARG_TYPE_WORD, ARG_TYPE_NONE, ARG_TYPE_NONE, PREBYTE_PDY, 0xA3, 2, GEN_FLAG_NONE⟩,
  ⟨ARG_TYPE_Y, ARG_TYPE_SHORTMEM, ARG_TYPE_NONE, ARG_TYPE_NONE, PREBYTE_PDY, 0xB3, 1, GEN_FLAG_NONE⟩,
  ⟨ARG_TYPE_Y, ARG_TYPE_LONGMEM, ARG_TYPE_NONE, ARG_TYPE_NONE, PREBYTE_PDY, 0xC3, 2, GEN_FLAG_NONE⟩,
  ⟨ARG_TYPE_Y, ARG_TYPE_OFF_X, ARG_TYPE_NONE, ARG_TYPE_NONE, PREBYTE_NONE, 0xF3, 0, GEN_FLAG_NONE⟩,
  ⟨ARG_TYPE_Y, ARG_TYPE_SHORTOFF_X, ARG_TYPE_NONE, ARG_TYPE_NONE, PREBYTE_NONE, 0xE3, 1, GEN_FLAG_NONE⟩,
  ⟨ARG_TYPE_Y, ARG_TYPE_LONGOFF_X, ARG_TYPE_NONE, ARG_TYPE_NONE, PREBYTE_NONE, 0xD3, 2, GEN_FLAG_NONE⟩,
  ⟨ARG_TYPE_Y, ARG_TYPE_SHORTPTR, ARG_TYPE_NONE, ARG_TYPE_NONE, PREBYTE_PIY, 0xC3, 1, GEN_FLAG_NONE⟩,
  ⟨ARG_TYPE_Y, ARG_TYPE_SHORTPTR_X, ARG_TYPE_NONE, ARG_TYPE_NONE, PREBYTE_PIX, 0xD3, 1, GEN_FLAG_NONE⟩,
  ⟨ARG_TYPE_Y, ARG_TYPE_LONGPTR_X, ARG_TYPE_NONE, ARG_TYPE_NONE, PREBYTE_PWSP, 0xD3, 2, GEN_FLAG_NONE⟩,
  ⟨ARG_TYPE_NONE, ARG_TYPE_NONE, ARG_TYPE_NONE, ARG_TYPE_NONE, PREBYTE_NONE, 0x00, 0, GEN_FLAG_END⟩]

/-- The table `_gen_info_cpl`. -/
def _gen_info_cpl : List gen_info_t := [
  ⟨ARG_TYPE_A, ARG_TYPE_NONE, ARG_TYPE_NONE, ARG_TYPE_NONE, PREBYTE_NONE, 0x43, 0, GEN_FLAG_NONE⟩,
  ⟨ARG_TYPE_SHORTMEM, ARG_TYPE_NONE, ARG_TYPE_NONE, ARG_TYPE_NONE, PREBYTE_NONE, 0x33, 1, GEN_FLAG_ARG_DST ||| GEN_FLAG_NONE⟩,
  ⟨ARG_TYPE_LONGMEM, ARG_TYPE_NONE, ARG_TYPE_NONE, ARG_TYPE_NONE, PREBYTE_PWSP, 0x53, 2, GEN_FLAG_ARG_DST ||| GEN_FLAG_NONE⟩,
  ⟨ARG_TYPE_OFF_X, ARG_TYPE_NONE, ARG_TYPE_NONE, ARG_TYPE_NONE, PREBYTE_NONE, 0x73, 0, GEN_FLAG_NONE⟩,
  ⟨ARG_TYPE_SHORTOFF_X, ARG_TYPE_NONE, ARG_TYPE_NONE, ARG_TYPE_NONE, PREBYTE_NONE, 0x63, 1, GEN_FLAG_ARG_DST ||| GEN_FLAG_NONE⟩,
  ⟨ARG_TYPE_LONGOFF_X, ARG_TYPE_NONE, ARG_TYPE_NONE, ARG_TYPE_NONE, PREBYTE_PWSP, 0x43, 2, GEN_FLAG_ARG_DST ||| GEN_FLAG_NONE⟩,
  ⟨ARG_TYPE_OFF_Y, ARG_TYPE_NONE, ARG_TYPE_NONE, ARG_TYPE_NONE, PREBYTE_PDY, 0x73, 0, GEN_FLAG_NONE⟩,
  ⟨ARG_TYPE_SHORTOFF_Y, ARG_TYPE_NONE, ARG_TYPE_NONE, ARG_TYPE_NONE, PREBYTE_PDY, 0x63, 1, GEN_FLAG_ARG_DST ||| GEN_FLAG_NONE⟩,
  ⟨ARG_TYPE_LONGOFF_Y, ARG_TYPE_NONE, ARG_TYPE_NONE, ARG_TYPE_NONE, PREBYTE_PDY, 0x43, 2, GEN_FLAG_ARG_DST ||| GEN_FLAG_NONE⟩,
  ⟨ARG_TYPE_SHORTOFF_SP, ARG_TYPE_NONE, ARG_TYPE_NONE, ARG_TYPE_NONE, PREBYTE_NONE, 0x03, 1, GEN_FLAG_ARG_DST ||| GEN_FLAG_NONE⟩,
  ⟨ARG_TYPE_SHORTPTR, ARG_TYPE_NONE, ARG_TYPE_NONE, ARG_TYPE_NONE, PREBYTE_PIX, 0x33, 1, GEN_FLAG_ARG_DST ||| GEN_FLAG_NONE⟩,
  ⟨ARG_TYPE_LONGPTR, ARG_TYPE_NONE, ARG_TYPE_NONE, ARG_TYPE_NONE, PREBYTE_PWSP, 0x33, 2, GEN_FLAG_ARG_DST ||| GEN_FLAG_NONE⟩,
  ⟨ARG_TYPE_SHORTPTR_X, ARG_TYPE_NONE, ARG_TYPE_NONE, ARG_TYPE_NONE, PREBYTE_PIX, 0x63, 1, GEN_FLAG_ARG_DST ||| GEN_FLAG_NONE⟩,
  ⟨ARG_TYPE_LONGPTR_X, ARG_TYPE_NONE, ARG_TYPE_NONE, ARG_TYPE_NONE, PREBYTE_PWSP, 0x63, 2, GEN_FLAG_ARG_DST ||| GEN_FLAG_NONE⟩,
  ⟨ARG_TYPE_SHORTPTR_Y, ARG_TYPE_NONE, ARG_TYPE_NONE, ARG_TYPE_NONE, PREBYTE_PIY, 0x63, 1, GEN_FLAG_ARG_DST ||| GEN_FLAG_NONE⟩,
  ⟨ARG_TYPE_NONE, ARG_TYPE_NONE, ARG_TYPE_NONE, ARG_TYPE_NONE, PREBYTE_NONE, 0x00, 0, GEN_FLAG_END⟩]

/-- The table `_gen_info_dec`. -/
def _gen_info_dec : List gen_info_t := [
  ⟨ARG_TYPE_A, ARG_TYPE_NONE, ARG_TYPE_NONE, ARG_TYPE_NONE, PREBYTE_NONE, 0x4A, 0, GEN_FLAG_NONE⟩,
  ⟨ARG_TYPE_SHORTMEM, ARG_TYPE_NONE, ARG_TYPE_NONE, ARG_TYPE_NONE, PREBYTE_NONE, 0x3A, 1, GEN_FLAG_ARG_DST ||| GEN_FLAG_NONE⟩,
  ⟨ARG_TYPE_LONGMEM, ARG_TYPE_NONE, ARG_TYPE_NONE, ARG_TYPE_NONE, PREBYTE_PWSP, 0x5A, 2, GEN_FLAG_ARG_DST ||| GEN_FLAG_NONE⟩,
  ⟨ARG_TYPE_OFF_X, ARG_TYPE_NONE, ARG_TYPE_NONE, ARG_TYPE_NONE, PREBYTE_NONE, 0x7A, 0, GEN_FLAG_NONE⟩,
  ⟨ARG_TYPE_SHORTOFF_X, ARG_TYPE_NONE, ARG_TYPE_NONE, ARG_TYPE_NONE, PREBYTE_NONE, 0x6A, 1, GEN_FLAG_ARG_DST ||| GEN_FLAG_NONE⟩,
  ⟨ARG_TYPE_LONGOFF_X, ARG_TYPE_NONE, ARG_TYPE_NONE, ARG_TYPE_NONE, PREBYTE_PWSP, 0x4A, 2, GEN_FLAG_ARG_DST ||| GEN_FLAG_NONE⟩,
  ⟨ARG_TYPE_OFF_Y, ARG_TYPE_NONE, ARG_TYPE_NONE, ARG_TYPE_NONE, PREBYTE_PDY, 0x7A, 0, GEN_FLAG_NONE⟩,
  ⟨ARG_TYPE_SHORTOFF_Y, ARG_TYPE_NONE, ARG_TYPE_NONE, ARG_TYPE_NONE, PREBYTE_PDY, 0x6A, 1, GEN_FLAG_ARG_DST ||| GEN_FLAG_NONE⟩,
  ⟨ARG_TYPE_LONGOFF_Y, ARG_TYPE_NONE, ARG_TYPE_NONE, ARG_TYPE_NONE, PREBYTE_PDY, 0x4A, 2, GEN_FLAG_ARG_DST ||| GEN_FLAG_NONE⟩,
  ⟨ARG_TYPE_SHORTOFF_SP, ARG_TYPE_NONE, ARG_TYPE_NONE, ARG_TYPE_NONE, PREBYTE_NONE, 0x0A, 1, GEN_FLAG_ARG_DST ||| GEN_FLAG_NONE⟩,
  ⟨ARG_TYPE_SHORTPTR, ARG_TYPE_NONE, ARG_TYPE_NONE, ARG_TYPE_NONE, PREBYTE_PIX, 0x3A, 1, GEN_FLAG_ARG_DST ||| GEN_FLAG_NONE⟩,
  ⟨ARG_TYPE_LONGPTR, ARG_TYPE_NONE, ARG_TYPE_NONE, ARG_TYPE_NONE, PREBYTE_PWSP, 0x3A, 2, GEN_FLAG_ARG_DST ||| GEN_FLAG_NONE⟩,
  ⟨ARG_TYPE_SHORTPTR_X, ARG_TYPE_NONE, ARG_TYPE_NONE, ARG_TYPE_NONE, PREBYTE_PIX, 0x6A, 1, GEN_FLAG_ARG_DST ||| GEN_FLAG_NONE⟩,
  ⟨ARG_TYPE_LONGPTR_X, ARG_TYPE_NONE, ARG_TYPE_NONE, ARG_TYPE_NONE, PREBYTE_PWSP, 0x6A, 2, GEN_FLAG_ARG_DST ||| GEN_FLAG_NONE⟩,
  ⟨ARG_TYPE_SHORTPTR_Y, ARG_TYPE_NONE, ARG_TYPE_NONE, ARG_TYPE_NONE, PREBYTE_PIY, 0x6A, 1, GEN_FLAG_ARG_DST ||| GEN_FLAG_NONE⟩,
  ⟨ARG_TYPE_NONE, ARG_TYPE_NONE, ARG_TYPE_NONE, ARG_TYPE_NONE, PREBYTE_NONE, 0x00, 0, GEN_FLAG_END⟩]

/-- The table `_gen_info_exg`. -/
def _gen_info_exg : List gen_info_t := [
  ⟨ARG_TYPE_A, ARG_TYPE_XL, ARG_TYPE_NONE, ARG_TYPE_NONE, PREBYTE_NONE, 0x41, 0, GEN_FLAG_NONE⟩,
  ⟨ARG_TYPE_A, ARG_TYPE_YL, ARG_TYPE_NONE, ARG_TYPE_NONE, PREBYTE_NONE, 0x61, 0, GEN_FLAG_NONE⟩,
  ⟨ARG_TYPE_A, ARG_TYPE_SHORTMEM, ARG_TYPE_NONE, ARG_TYPE_NONE, PREBYTE_NONE, 0x31, 2, GEN_FLAG_CHECK_LONG ||| GEN_FLAG_NONE⟩,
  ⟨ARG_TYPE_A, ARG_TYPE_LONGMEM, ARG_TYPE_NONE, ARG_TYPE_NONE, PREBYTE_NONE, 0x31, 2, GEN_FLAG_CHECK_LONG ||| GEN_FLAG_NONE⟩,
  ⟨ARG_TYPE_NONE, ARG_TYPE_NONE, ARG_TYPE_NONE, ARG_TYPE_NONE, PREBYTE_NONE, 0x00, 0, GEN_FLAG_END⟩]

/-- The table `_gen_info_inc`. -/
def _gen_info_inc : List gen_info_t := [
  ⟨ARG_TYPE_A, ARG_TYPE_NONE, ARG_TYPE_NONE, ARG_TYPE_NONE, PREBYTE_NONE, 0x4C, 0, GEN_FLAG_NONE⟩,
  ⟨ARG_TYPE_SHORTMEM, ARG_TYPE_NONE, ARG_TYPE_NONE, ARG_TYPE_NONE, PREBYTE_NONE, 0x3C, 1, GEN_FLAG_ARG_DST ||| GEN_FLAG_NONE⟩,
  ⟨ARG_TYPE_LONGMEM, ARG_TYPE_NONE, ARG_TYPE_NONE, ARG_TYPE_NONE, PREBYTE_PWSP, 0x5C, 2, GEN_FLAG_ARG_DST ||| GEN_FLAG_NONE⟩,
  ⟨ARG_TYPE_OFF_X, ARG_TYPE_NONE, ARG_TYPE_NONE, ARG_TYPE_NONE, PREBYTE_NONE, 0x7C, 0, GEN_FLAG_NONE⟩,
  ⟨ARG_TYPE_SHORTOFF_X, ARG_TYPE_NONE, ARG_TYPE_NONE, ARG_TYPE_NONE, PREBYTE_NONE, 0x6C, 1, GEN_FLAG_ARG_DST ||| GEN_FLAG_NONE⟩,
  ⟨ARG_TYPE_LONGOFF_X, ARG_TYPE_NONE, ARG_TYPE_NONE, ARG_TYPE_NONE, PREBYTE_PWSP, 0x4C, 2, GEN_FLAG_ARG_DST ||| GEN_FLAG_NONE⟩,
  ⟨ARG_TYPE_OFF_Y, ARG_TYPE_NONE, ARG_TYPE_NONE, ARG_TYPE_NONE, PREBYTE_PDY, 0x7C, 0, GEN_FLAG_NONE⟩,
  ⟨ARG_TYPE_SHORTOFF_Y, ARG_TYPE_NONE, ARG_TYPE_NONE, ARG_TYPE_NONE, PREBYTE_PDY, 0x6C, 1, GEN_FLAG_ARG_DST ||| GEN_FLAG_NONE⟩,
  ⟨ARG_TYPE_LONGOFF_Y, ARG_TYPE_NONE, ARG_TYPE_NONE, ARG_TYPE_NONE, PREBYTE_PDY, 0x4C, 2, GEN_FLAG_ARG_DST ||| GEN_FLAG_NONE⟩,
  ⟨ARG_TYPE_SHORTOFF_SP, ARG_TYPE_NONE, ARG_TYPE_NONE, ARG_TYPE_NONE, PREBYTE_NONE, 0x0C, 1, GEN_FLAG_ARG_DST ||| GEN_FLAG_NONE⟩,
  ⟨ARG_TYPE_SHORTPTR, ARG_TYPE_NONE, ARG_TYPE_NONE, ARG_TYPE_NONE, PREBYTE_PIX, 0x3C, 1, GEN_FLAG_ARG_DST ||| GEN_FLAG_NONE⟩,
  ⟨ARG_TYPE_LONGPTR, ARG_TYPE_NONE, ARG_TYPE_NONE, ARG_TYPE_NONE, PREBYTE_PWSP, 0x3C, 2, GEN_FLAG_ARG_DST ||| GEN_FLAG_NONE⟩,
  ⟨ARG_TYPE_SHORTPTR_X, ARG_TYPE_NONE, ARG_TYPE_NONE, ARG_TYPE_NONE, PREBYTE_PIX, 0x6C, 1, GEN_FLAG_ARG_DST ||| GEN_FLAG_NONE⟩,
  ⟨ARG_TYPE_LONGPTR_X, ARG_TYPE_NONE, ARG_TYPE_NONE, ARG_TYPE_NONE, PREBYTE_PWSP, 0x6C, 2, GEN_FLAG_ARG_DST ||| GEN_FLAG_NONE⟩,
  ⟨ARG_TYPE_SHORTPTR_Y, ARG_TYPE_NONE, ARG_TYPE_NONE, ARG_TYPE_NONE, PREBYTE_PIY, 0x6C, 1, GEN_FLAG_ARG_DST ||| GEN_FLAG_NONE⟩,
  ⟨ARG_TYPE_NONE, ARG_TYPE_NONE, ARG_TYPE_NONE, ARG_TYPE_NONE, PREBYTE_NONE, 0x00, 0, GEN_FLAG_END⟩]

/-- The table `_gen_info_incw`. -/
def _gen_info_incw : List gen_info_t := [
  ⟨ARG_TYPE_X, ARG_TYPE_NONE, ARG_TYPE_NONE, ARG_TYPE_NONE, PREBYTE_NONE, 0x5C, 0, GEN_FLAG_NONE⟩,
  ⟨ARG_TYPE_Y, ARG_TYPE_NONE, ARG_TYPE_NONE, ARG_TYPE_NONE, PREBYTE_PDY, 0x5C, 0, GEN_FLAG_NONE⟩,
  ⟨ARG_TYPE_NONE, ARG_TYPE_NONE, ARG_TYPE_NONE, ARG_TYPE_NONE, PREBYTE_NONE, 0x00, 0, GEN_FLAG_END⟩]

/-- The table `_gen_info_jp`. -/
def _gen_info_jp : List gen_info_t := [
  ⟨ARG_TYPE_SHORTMEM, ARG_TYPE_NONE, ARG_TYPE_NONE, ARG_TYPE_NONE, PREBYTE_NONE, 0xCC, 2, GEN_FLAG_ARG_DST ||| GEN_FLAG_CHECK_LONG ||| GEN_FLAG_NONE⟩,
  ⟨ARG_TYPE_LONGMEM, ARG_TYPE_NONE, ARG_TYPE_NONE, ARG_TYPE_NONE, PREBYTE_NONE, 0xCC, 2, GEN_FLAG_ARG_DST ||| GEN_FLAG_NONE⟩,
  ⟨ARG_TYPE_OFF_X, ARG_TYPE_NONE, ARG_TYPE_NONE, ARG_TYPE_NONE, PREBYTE_NONE, 0xFC, 0, GEN_FLAG_NONE⟩,
  ⟨ARG_TYPE_SHORTOFF_X, ARG_TYPE_NONE, ARG_TYPE_NONE, ARG_TYPE_NONE, PREBYTE_NONE, 0xEC, 1, GEN_FLAG_ARG_DST ||| GEN_FLAG_NONE⟩,
  ⟨ARG_TYPE_LONGOFF_X, ARG_TYPE_NONE, ARG_TYPE_NONE, ARG_TYPE_NONE, PREBYTE_NONE, 0xDC, 2, GEN_FLAG_ARG_DST ||| GEN_FLAG_NONE⟩,
  ⟨ARG_TYPE_OFF_Y, ARG_TYPE_NONE, ARG_TYPE_NONE, ARG_TYPE_NONE, PREBYTE_PDY, 0xFC, 0, GEN_FLAG_NONE⟩,
  ⟨ARG_TYPE_SHORTOFF_Y, ARG_TYPE_NONE, ARG_TYPE_NONE, ARG_TYPE_NONE, PREBYTE_PDY, 0xEC, 1, GEN_FLAG_ARG_DST ||| GEN_FLAG_NONE⟩,
  ⟨ARG_TYPE_LONGOFF_Y, ARG_TYPE_NONE, ARG_TYPE_NONE, ARG_TYPE_NONE, PREBYTE_PDY, 0xDC, 2, GEN_FLAG_ARG_DST ||| GEN_FLAG_NONE⟩,
  ⟨ARG_TYPE_SHORTPTR, ARG_TYPE_NONE, ARG_TYPE_NONE, ARG_TYPE_NONE, PREBYTE_PIX, 0xCC, 1, GEN_FLAG_ARG_DST ||| GEN_FLAG_NONE⟩,
  ⟨ARG_TYPE_LONGPTR, ARG_TYPE_NONE, ARG_TYPE_NONE, ARG_TYPE_NONE, PREBYTE_PWSP, 0xCC, 2, GEN_FLAG_ARG_DST ||| GEN_FLAG_NONE⟩,
  ⟨ARG_TYPE_SHORTPTR_X, ARG_TYPE_NONE, ARG_TYPE_NONE, ARG_TYPE_NONE, PREBYTE_PIX, 0xDC, 1, GEN_FLAG_ARG_DST ||| GEN_FLAG_NONE⟩,
  ⟨ARG_TYPE_LONGPTR_X, ARG_TYPE_NONE, ARG_TYPE_NONE, ARG_TYPE_NONE, PREBYTE_PWSP, 0xDC, 2, GEN_FLAG_ARG_DST ||| GEN_FLAG_NONE⟩,
  ⟨ARG_TYPE_SHORTPTR_Y, ARG_TYPE_NONE, ARG_TYPE_NONE, ARG_TYPE_NONE, PREBYTE_PIY, 0xDC, 1, GEN_FLAG_ARG_DST ||| GEN_FLAG_NONE⟩,
  ⟨ARG_TYPE_NONE, ARG_TYPE_NONE, ARG_TYPE_NONE, ARG_TYPE_NONE, PREBYTE_NONE, 0x00, 0, GEN_FLAG_END⟩]

/-- The table `_gen_info_jpf`. -/
def _gen_info_jpf : List gen_info_t := [
  ⟨ARG_TYPE_SHORTMEM, ARG_TYPE_NONE, ARG_TYPE_NONE, ARG_TYPE_NONE, PREBYTE_NONE, 0xAC, 3, GEN_FLAG_ARG_DST ||| GEN_FLAG_CHECK_EXT ||| GEN_FLAG_NONE⟩,
  ⟨ARG_TYPE_LONGMEM, ARG_TYPE_NONE, ARG_TYPE_NONE, ARG_TYPE_NONE, PREBYTE_NONE, 0xAC, 3, GEN_FLAG_ARG_DST ||| GEN_FLAG_CHECK_EXT ||| GEN_FLAG_NONE⟩,
  ⟨ARG_TYPE_EXTMEM, ARG_TYPE_NONE, ARG_TYPE_NONE, ARG_TYPE_NONE, PREBYTE_NONE, 0xAC, 3, GEN_FLAG_ARG_DST ||| GEN_FLAG_NONE⟩,
  ⟨ARG_TYPE_SHORTPTR, ARG_TYPE_NONE, ARG_TYPE_NONE, ARG_TYPE_NONE, PREBYTE_PIX, 0xAC, 2, GEN_FLAG_ARG_DST ||| GEN_FLAG_CHECK_LONG ||| GEN_FLAG_NONE⟩,
  ⟨ARG_TYPE_LONGPTR, ARG_TYPE_NONE, ARG_TYPE_NONE, ARG_TYPE_NONE, PREBYTE_PIX, 0xAC, 2, GEN_FLAG_ARG_DST ||| GEN_FLAG_NONE⟩,
  ⟨ARG_TYPE_NONE, ARG_TYPE_NONE, ARG_TYPE_NONE, ARG_TYPE_NONE, PREBYTE_NONE, 0x00, 0, GEN_FLAG_END⟩]

/-- The table `_gen_info_ldf`. -/
def _gen_info_ldf : List gen_info_t := [
  ⟨ARG_TYPE_A, ARG_TYPE_SHORTMEM, ARG_TYPE_NONE, ARG_TYPE_NONE, PREBYTE_NONE, 0xBC, 3, GEN_FLAG_CHECK_EXT ||| GEN_FLAG_NONE⟩,
  ⟨ARG_TYPE_A, ARG_TYPE_LONGMEM, ARG_TYPE_NONE, ARG_TYPE_NONE, PREBYTE_NONE, 0xBC, 3, GEN_FLAG_CHECK_EXT ||| GEN_FLAG_NONE⟩,
  ⟨ARG_TYPE_A, ARG_TYPE_EXTMEM, ARG_TYPE_NONE, ARG_TYPE_NONE, PREBYTE_NONE, 0xBC, 3, GEN_FLAG_NONE⟩,
  ⟨ARG_TYPE_A, ARG_TYPE_SHORTOFF_X, ARG_TYPE_NONE, ARG_TYPE_NONE, PREBYTE_NONE, 0xAF, 3, GEN_FLAG_CHECK_EXT ||| GEN_FLAG_NONE⟩,
  ⟨ARG_TYPE_A, ARG_TYPE_LONGOFF_X, ARG_TYPE_NONE, ARG_TYPE_NONE, PREBYTE_NONE, 0xAF, 3, GEN_FLAG_CHECK_EXT ||| GEN_FLAG_NONE⟩,
  ⟨ARG_TYPE_A, ARG_TYPE_EXTOFF_X, ARG_TYPE_NONE, ARG_TYPE_NONE, PREBYTE_NONE, 0xAF, 3, GEN_FLAG_NONE⟩,
  ⟨ARG_TYPE_A, ARG_TYPE_SHORTOFF_Y, ARG_TYPE_NONE, ARG_TYPE_NONE, PREBYTE_PDY, 0xAF, 3, GEN_FLAG_CHECK_EXT ||| GEN_FLAG_NONE⟩,
  ⟨ARG_TYPE_A, ARG_TYPE_LONGOFF_Y, ARG_TYPE_NONE, ARG_TYPE_NONE, PREBYTE_PDY, 0xAF, 3, GEN_FLAG_CHECK_EXT ||| GEN_FLAG_NONE⟩,
  ⟨ARG_TYPE_A, ARG_TYPE_EXTOFF_Y, ARG_TYPE_NONE, ARG_TYPE_NONE, PREBYTE_PDY, 0xAF, 3, GEN_FLAG_NONE⟩,
  ⟨ARG_TYPE_A, ARG_TYPE_SHORTPTR_X, ARG_TYPE_NONE, ARG_TYPE_NONE, PREBYTE_PIX, 0xAF, 2, GEN_FLAG_CHECK_LONG ||| GEN_FLAG_NONE⟩,
  ⟨ARG_TYPE_A, ARG_TYPE_LONGPTR_X, ARG_TYPE_NONE, ARG_TYPE_NONE, PREBYTE_PIX, 0xAF, 2, GEN_FLAG_NONE⟩,
  ⟨ARG_TYPE_A, ARG_TYPE_SHORTPTR_Y, ARG_TYPE_NONE, ARG_TYPE_NONE, PREBYTE_PIY, 0xAF, 2, GEN_FLAG_CHECK_LONG ||| GEN_FLAG_NONE⟩,
  ⟨ARG_TYPE_A, ARG_TYPE_LONGPTR_Y, ARG_TYPE_NONE, ARG_TYPE_NONE, PREBYTE_PIY, 0xAF, 2, GEN_FLAG_NONE⟩,
  ⟨ARG_TYPE_A, ARG_TYPE_SHORTPTR, ARG_TYPE_NONE, ARG_TYPE_NONE, PREBYTE_PIX, 0xBC, 2, GEN_FLAG_CHECK_LONG ||| GEN_FLAG_NONE⟩,
  ⟨ARG_TYPE_A, ARG_TYPE_LONGPTR, ARG_TYPE_NONE, ARG_TYPE_NONE, PREBYTE_PIX, 0xBC, 2, GEN_FLAG_NONE⟩,
  ⟨ARG_TYPE_SHORTMEM, ARG_TYPE_A, ARG_TYPE_NONE, ARG_TYPE_NONE, PREBYTE_NONE, 0xBD, 3, GEN_FLAG_ARG_DST ||| GEN_FLAG_CHECK_EXT ||| GEN_FLAG_NONE⟩,
  ⟨ARG_TYPE_LONGMEM, ARG_TYPE_A, ARG_TYPE_NONE, ARG_TYPE_NONE, PREBYTE_NONE, 0xBD, 3, GEN_FLAG_ARG_DST ||| GEN_FLAG_CHECK_EXT ||| GEN_FLAG_NONE⟩,
  ⟨ARG_TYPE_EXTMEM, ARG_TYPE_A, ARG_TYPE_NONE, ARG_TYPE_NONE, PREBYTE_NONE, 0xBD, 3, GEN_FLAG_ARG_DST ||| GEN_FLAG_NONE⟩,
  ⟨ARG_TYPE_SHORTOFF_X, ARG_TYPE_A, ARG_TYPE_NONE, ARG_TYPE_NONE, PREBYTE_NONE, 0xA7, 3, GEN_FLAG_ARG_DST ||| GEN_FLAG_CHECK_EXT ||| GEN_FLAG_NONE⟩,
  ⟨ARG_TYPE_LONGOFF_X, ARG_TYPE_A, ARG_TYPE_NONE, ARG_TYPE_NONE, PREBYTE_NONE, 0xA7, 3, GEN_FLAG_ARG_DST ||| GEN_FLAG_CHECK_EXT ||| GEN_FLAG_NONE⟩,
  ⟨ARG_TYPE_EXTOFF_X, ARG_TYPE_A, ARG_TYPE_NONE, ARG_TYPE_NONE, PREBYTE_NONE, 0xA7, 3, GEN_FLAG_ARG_DST ||| GEN_FLAG_NONE⟩,
  ⟨ARG_TYPE_SHORTOFF_Y, ARG_TYPE_A, ARG_TYPE_NONE, ARG_TYPE_NONE, PREBYTE_PDY, 0xA7, 3, GEN_FLAG_ARG_DST ||| GEN_FLAG_CHECK_EXT ||| GEN_FLAG_NONE⟩,
  ⟨ARG_TYPE_LONGOFF_Y, ARG_TYPE_A, ARG_TYPE_NONE, ARG_TYPE_NONE, PREBYTE_PDY, 0xA7, 3, GEN_FLAG_ARG_DST ||| GEN_FLAG_CHECK_EXT ||| GEN_FLAG_NONE⟩,
  ⟨ARG_TYPE_EXTOFF_Y, ARG_TYPE_A, ARG_TYPE_NONE, ARG_TYPE_NONE, PREBYTE_PDY, 0xA7, 3, GEN_FLAG_ARG_DST ||| GEN_FLAG_NONE⟩,
  ⟨ARG_TYPE_SHORTPTR_X, ARG_TYPE_A, ARG_TYPE_NONE, ARG_TYPE_NONE, PREBYTE_PIX, 0xA7, 2, GEN_FLAG_ARG_DST ||| GEN_FLAG_CHECK_LONG ||| GEN_FLAG_NONE⟩,
  ⟨ARG_TYPE_LONGPTR_X, ARG_TYPE_A, ARG_TYPE_NONE, ARG_TYPE_NONE, PREBYTE_PIX, 0xA7, 2, GEN_FLAG_ARG_DST ||| GEN_FLAG_NONE⟩,
  ⟨ARG_TYPE_SHORTPTR_Y, ARG_TYPE_A, ARG_TYPE_NONE, ARG_TYPE_NONE, PREBYTE_PIY, 0xA7, 2, GEN_FLAG_ARG_DST ||| GEN_FLAG_CHECK_LONG ||| GEN_FLAG_NONE⟩,
  ⟨ARG_TYPE_LONGPTR_Y, ARG_TYPE_A, ARG_TYPE_NONE, ARG_TYPE_NONE, PREBYTE_PIY, 0xA7, 2, GEN_FLAG_ARG_DST ||| GEN_FLAG_NONE⟩,
  ⟨ARG_TYPE_SHORTPTR, ARG_TYPE_A, ARG_TYPE_NONE, ARG_TYPE_NONE, PREBYTE_PIX, 0xBD, 2, GEN_FLAG_ARG_DST ||| GEN_FLAG_CHECK_LONG ||| GEN_FLAG_NONE⟩,
  ⟨ARG_TYPE_LONGPTR, ARG_TYPE_A, ARG_TYPE_NONE, ARG_TYPE_NONE, PREBYTE_PIX, 0xBD, 2, GEN_FLAG_ARG_DST ||| GEN_FLAG_NONE⟩,
  ⟨ARG_TYPE_NONE, ARG_TYPE_NONE, ARG_TYPE_NONE, ARG_TYPE_NONE, PREBYTE_NONE, 0x00, 0, GEN_FLAG_END⟩]

/-- The table `_gen_info_ldw`. -/
def _gen_info_ldw : List gen_info_t := [
  ⟨ARG_TYPE_X, ARG_TYPE_BYTE, ARG_TYPE_NONE, ARG_TYPE_NONE, PREBYTE_NONE, 0xAE, 2, GEN_FLAG_CHECK_LONG ||| GEN_FLAG_NONE⟩,
  ⟨ARG_TYPE_X, ARG_TYPE_WORD, ARG_TYPE_NONE, ARG_TYPE_NONE, PREBYTE_NONE, 0xAE, 2, GEN_FLAG_NONE⟩,
  ⟨ARG_TYPE_X, ARG_TYPE_SHORTMEM, ARG_TYPE_NONE, ARG_TYPE_NONE, PREBYTE_NONE, 0xBE, 1, GEN_FLAG_NONE⟩,
  ⟨ARG_TYPE_X, ARG_TYPE_LONGMEM, ARG_TYPE_NONE, ARG_TYPE_NONE, PREBYTE_NONE, 0xCE, 2, GEN_FLAG_NONE⟩,
  ⟨ARG_TYPE_X, ARG_TYPE_OFF_X, ARG_TYPE_NONE, ARG_TYPE_NONE, PREBYTE_NONE, 0xFE, 0, GEN_FLAG_NONE⟩,
  ⟨ARG_TYPE_X, ARG_TYPE_SHORTOFF_X, ARG_TYPE_NONE, ARG_TYPE_NONE, PREBYTE_NONE, 0xEE, 1, GEN_FLAG_NONE⟩,
  ⟨ARG_TYPE_X, ARG_TYPE_LONGOFF_X, ARG_TYPE_NONE, ARG_TYPE_NONE, PREBYTE_NONE, 0xDE, 2, GEN_FLAG_NONE⟩,
  ⟨ARG_TYPE_X, ARG_TYPE_SHORTOFF_SP, ARG_TYPE_NONE, ARG_TYPE_NONE, PREBYTE_NONE, 0x1E, 1, GEN_FLAG_NONE⟩,
  ⟨ARG_TYPE_X, ARG_TYPE_SHORTPTR, ARG_TYPE_NONE, ARG_TYPE_NONE, PREBYTE_PIX, 0xCE, 1, GEN_FLAG_NONE⟩,
  ⟨ARG_TYPE_X, ARG_TYPE_LONGPTR, ARG_TYPE_NONE, ARG_TYPE_NONE, PREBYTE_PWSP, 0xCE, 2, GEN_FLAG_NONE⟩,
  ⟨ARG_TYPE_X, ARG_TYPE_SHORTPTR_X, ARG_TYPE_NONE, ARG_TYPE_NONE, PREBYTE_PIX, 0xDE, 1, GEN_FLAG_NONE⟩,
  ⟨ARG_TYPE_X, ARG_TYPE_LONGPTR_X, ARG_TYPE_NONE, ARG_TYPE_NONE, PREBYTE_PWSP, 0xDE, 2, GEN_FLAG_NONE⟩,
  ⟨ARG_TYPE_SHORTMEM, ARG_TYPE_X, ARG_TYPE_NONE, ARG_TYPE_NONE, PREBYTE_NONE, 0xBF, 1, GEN_FLAG_ARG_DST ||| GEN_FLAG_NONE⟩,
  ⟨ARG_TYPE_LONGMEM, ARG_TYPE_X, ARG_TYPE_NONE, ARG_TYPE_NONE, PREBYTE_NONE, 0xCF, 2, GEN_FLAG_ARG_DST ||| GEN_FLAG_NONE⟩,
  ⟨ARG_TYPE_OFF_X, ARG_TYPE_Y, ARG_TYPE_NONE, ARG_TYPE_NONE, PREBYTE_NONE, 0xFF, 0, GEN_FLAG_NONE⟩,
  ⟨ARG_TYPE_SHORTOFF_X, ARG_TYPE_Y, ARG_TYPE_NONE, ARG_TYPE_NONE, PREBYTE_NONE, 0xEF, 1, GEN_FLAG_ARG_DST ||| GEN_FLAG_NONE⟩,
  ⟨ARG_TYPE_LONGOFF_X, ARG_TYPE_Y, ARG_TYPE_NONE, ARG_TYPE_NONE, PREBYTE_NONE, 0xDF, 2, GEN_FLAG_ARG_DST ||| GEN_FLAG_NONE⟩,
  ⟨ARG_TYPE_SHORTOFF_SP, ARG_TYPE_X, ARG_TYPE_NONE, ARG_TYPE_NONE, PREBYTE_NONE, 0x1F, 1, GEN_FLAG_ARG_DST ||| GEN_FLAG_NONE⟩,
  ⟨ARG_TYPE_SHORTPTR, ARG_TYPE_X, ARG_TYPE_NONE, ARG_TYPE_NONE, PREBYTE_PIX, 0xCF, 1, GEN_FLAG_ARG_DST ||| GEN_FLAG_NONE⟩,
  ⟨ARG_TYPE_LONGPTR, ARG_TYPE_X, ARG_TYPE_NONE, ARG_TYPE_NONE, PREBYTE_PWSP, 0xCF, 2, GEN_FLAG_ARG_DST ||| GEN_FLAG_NONE⟩,
  ⟨ARG_TYPE_SHORTPTR_X, ARG_TYPE_Y, ARG_TYPE_NONE, ARG_TYPE_NONE, PREBYTE_PIX, 0xDF, 1, GEN_FLAG_ARG_DST ||| GEN_FLAG_NONE⟩,
  ⟨ARG_TYPE_LONGPTR_X, ARG_TYPE_Y, ARG_TYPE_NONE, ARG_TYPE_NONE, PREBYTE_PWSP, 0xDF, 2, GEN_FLAG_ARG_DST ||| GEN_FLAG_NONE⟩,
  ⟨ARG_TYPE_Y, ARG_TYPE_BYTE, ARG_TYPE_NONE, ARG_TYPE_NONE, PREBYTE_PDY, 0xAE, 2, GEN_FLAG_CHECK_LONG ||| GEN_FLAG_NONE⟩,
  ⟨ARG_TYPE_Y, ARG_TYPE_WORD, ARG_TYPE_NONE, ARG_TYPE_NONE, PREBYTE_PDY, 0xAE, 2, GEN_FLAG_NONE⟩,
  ⟨ARG_TYPE_Y, ARG_TYPE_SHORTMEM, ARG_TYPE_NONE, ARG_TYPE_NONE, PREBYTE_PDY, 0xBE, 1, GEN_FLAG_NONE⟩,
  ⟨ARG_TYPE_Y, ARG_TYPE_LONGMEM, ARG_TYPE_NONE, ARG_TYPE_NONE, PREBYTE_PDY, 0xCE, 2, GEN_FLAG_NONE⟩,
  ⟨ARG_TYPE_Y, ARG_TYPE_OFF_Y, ARG_TYPE_NONE, ARG_TYPE_NONE, PREBYTE_PDY, 0xFE, 0, GEN_FLAG_NONE⟩,
  ⟨ARG_TYPE_Y, ARG_TYPE_SHORTOFF_Y, ARG_TYPE_NONE, ARG_TYPE_NONE, PREBYTE_PDY, 0xEE, 1, GEN_FLAG_NONE⟩,
  ⟨ARG_TYPE_Y, ARG_TYPE_LONGOFF_Y, ARG_TYPE_NONE, ARG_TYPE_NONE, PREBYTE_PDY, 0xDE, 2, GEN_FLAG_NONE⟩,
  ⟨ARG_TYPE_Y, ARG_TYPE_SHORTOFF_SP, ARG_TYPE_NONE, ARG_TYPE_NONE, PREBYTE_NONE, 0x16, 1, GEN_FLAG_NONE⟩,
  ⟨ARG_TYPE_Y, ARG_TYPE_SHORTPTR, ARG_TYPE_NONE, ARG_TYPE_NONE, PREBYTE_PIY, 0xCE, 1, GEN_FLAG_NONE⟩,
  ⟨ARG_TYPE_Y, ARG_TYPE_SHORTPTR_Y, ARG_TYPE_NONE, ARG_TYPE_NONE, PREBYTE_PIY, 0xDE, 1, GEN_FLAG_NONE⟩,
  ⟨ARG_TYPE_SHORTMEM, ARG_TYPE_Y, ARG_TYPE_NONE, ARG_TYPE_NONE, PREBYTE_PDY, 0xBF, 1, GEN_FLAG_ARG_DST ||| GEN_FLAG_NONE⟩,
  ⟨ARG_TYPE_LONGMEM, ARG_TYPE_Y, ARG_TYPE_NONE, ARG_TYPE_NONE, PREBYTE_PDY, 0xCF, 2, GEN_FLAG_ARG_DST ||| GEN_FLAG_NONE⟩,
  ⟨ARG_TYPE_OFF_Y, ARG_TYPE_X, ARG_TYPE_NONE, ARG_TYPE_NONE, PREBYTE_PDY, 0xFF, 0, GEN_FLAG_NONE⟩,
  ⟨ARG_TYPE_SHORTOFF_Y, ARG_TYPE_X, ARG_TYPE_NONE, ARG_TYPE_NONE, PREBYTE_PDY, 0xEF, 1, GEN_FLAG_ARG_DST ||| GEN_FLAG_NONE⟩,
  ⟨ARG_TYPE_LONGOFF_Y, ARG_TYPE_X, ARG_TYPE_NONE, ARG_TYPE_NONE, PREBYTE_PDY, 0xDF, 2, GEN_FLAG_ARG_DST ||| GEN_FLAG_NONE⟩,
  ⟨ARG_TYPE_SHORTOFF_SP, ARG_TYPE_Y, ARG_TYPE_NONE, ARG_TYPE_NONE, PREBYTE_NONE, 0x17, 1, GEN_FLAG_ARG_DST ||| GEN_FLAG_NONE⟩,
  ⟨ARG_TYPE_SHORTPTR, ARG_TYPE_Y, ARG_TYPE_NONE, ARG_TYPE_NONE, PREBYTE_PIY, 0xCF, 1, GEN_FLAG_ARG_DST ||| GEN_FLAG_NONE⟩,
  ⟨ARG_TYPE_SHORTPTR_Y, ARG_TYPE_X, ARG_TYPE_NONE, ARG_TYPE_NONE, PREBYTE_PIY, 0xDF, 1, GEN_FLAG_ARG_DST ||| GEN_FLAG_NONE⟩,
  ⟨ARG_TYPE_Y, ARG_TYPE_X, ARG_TYPE_NONE, ARG_TYPE_NONE, PREBYTE_PDY, 0x93, 0, GEN_FLAG_NONE⟩,
  ⟨ARG_TYPE_X, ARG_TYPE_Y, ARG_TYPE_NONE, ARG_TYPE_NONE, PREBYTE_NONE, 0x93, 0, GEN_FLAG_NONE⟩,
  ⟨ARG_TYPE_X, ARG_TYPE_SP, ARG_TYPE_NONE, ARG_TYPE_NONE, PREBYTE_NONE, 0x96, 0, GEN_FLAG_NONE⟩,
  ⟨ARG_TYPE_SP, ARG_TYPE_X, ARG_TYPE_NONE, ARG_TYPE_NONE, PREBYTE_NONE, 0x94, 0, GEN_FLAG_NONE⟩,
  ⟨ARG_TYPE_Y, ARG_TYPE_SP, ARG_TYPE_NONE, ARG_TYPE_NONE, PREBYTE_PDY, 0x96, 0, GEN_FLAG_NONE⟩,
  ⟨ARG_TYPE_SP, ARG_TYPE_Y, ARG_TYPE_NONE, ARG_TYPE_NONE, PREBYTE_PDY, 0x94, 0, GEN_FLAG_NONE⟩,
  ⟨ARG_TYPE_NONE, ARG_TYPE_NONE, ARG_TYPE_NONE, ARG_TYPE_NONE, PREBYTE_NONE, 0x00, 0, GEN_FLAG_END⟩]

/-- The table `_gen_info_neg`. -/
def _gen_info_neg : List gen_info_t := [
  ⟨ARG_TYPE_A, ARG_TYPE_NONE, ARG_TYPE_NONE, ARG_TYPE_NONE, PREBYTE_NONE, 0x40, 0, GEN_FLAG_NONE⟩,
  ⟨ARG_TYPE_SHORTMEM, ARG_TYPE_NONE, ARG_TYPE_NONE, ARG_TYPE_NONE, PREBYTE_NONE, 0x30, 1, GEN_FLAG_ARG_DST ||| GEN_FLAG_NONE⟩,
  ⟨ARG_TYPE_LONGMEM, ARG_TYPE_NONE, ARG_TYPE_NONE, ARG_TYPE_NONE, PREBYTE_PWSP, 0x50, 2, GEN_FLAG_ARG_DST ||| GEN_FLAG_NONE⟩,
  ⟨ARG_TYPE_OFF_X, ARG_TYPE_NONE, ARG_TYPE_NONE, ARG_TYPE_NONE, PREBYTE_NONE, 0x70, 0, GEN_FLAG_NONE⟩,
  ⟨ARG_TYPE_SHORTOFF_X, ARG_TYPE_NONE, ARG_TYPE_NONE, ARG_TYPE_NONE, PREBYTE_NONE, 0x60, 1, GEN_FLAG_ARG_DST ||| GEN_FLAG_NONE⟩,
  ⟨ARG_TYPE_LONGOFF_X, ARG_TYPE_NONE, ARG_TYPE_NONE, ARG_TYPE_NONE, PREBYTE_PWSP, 0x40, 2, GEN_FLAG_ARG_DST ||| GEN_FLAG_NONE⟩,
  ⟨ARG_TYPE_OFF_Y, ARG_TYPE_NONE, ARG_TYPE_NONE, ARG_TYPE_NONE, PREBYTE_PDY, 0x70, 0, GEN_FLAG_NONE⟩,
  ⟨ARG_TYPE_SHORTOFF_Y, ARG_TYPE_NONE, ARG_TYPE_NONE, ARG_TYPE_NONE, PREBYTE_PDY, 0x60, 1, GEN_FLAG_ARG_DST ||| GEN_FLAG_NONE⟩,
  ⟨ARG_TYPE_LONGOFF_Y, ARG_TYPE_NONE, ARG_TYPE_NONE, ARG_TYPE_NONE, PREBYTE_PDY, 0x40, 2, GEN_FLAG_ARG_DST ||| GEN_FLAG_NONE⟩,
  ⟨ARG_TYPE_SHORTOFF_SP, ARG_TYPE_NONE, ARG_TYPE_NONE, ARG_TYPE_NONE, PREBYTE_NONE, 0x00, 1, GEN_FLAG_ARG_DST ||| GEN_FLAG_NONE⟩,
  ⟨ARG_TYPE_SHORTPTR, ARG_TYPE_NONE, ARG_TYPE_NONE, ARG_TYPE_NONE, PREBYTE_PIX, 0x30, 1, GEN_FLAG_ARG_DST ||| GEN_FLAG_NONE⟩,
  ⟨ARG_TYPE_LONGPTR, ARG_TYPE_NONE, ARG_TYPE_NONE, ARG_TYPE_NONE, PREBYTE_PWSP, 0x30, 2, GEN_FLAG_ARG_DST ||| GEN_FLAG_NONE⟩,
  ⟨ARG_TYPE_SHORTPTR_X, ARG_TYPE_NONE, ARG_TYPE_NONE, ARG_TYPE_NONE, PREBYTE_PIX, 0x60, 1, GEN_FLAG_ARG_DST ||| GEN_FLAG_NONE⟩,
  ⟨ARG_TYPE_LONGPTR_X, ARG_TYPE_NONE, ARG_TYPE_NONE, ARG_TYPE_NONE, PREBYTE_PWSP, 0x60, 2, GEN_FLAG_ARG_DST ||| GEN_FLAG_NONE⟩,
  ⟨ARG_TYPE_SHORTPTR_Y, ARG_TYPE_NONE, ARG_TYPE_NONE, ARG_TYPE_NONE, PREBYTE_PIY, 0x60, 1, GEN_FLAG_ARG_DST ||| GEN_FLAG_NONE⟩,
  ⟨ARG_TYPE_NONE, ARG_TYPE_NONE, ARG_TYPE_NONE, ARG_TYPE_NONE, PREBYTE_NONE, 0x00, 0, GEN_FLAG_END⟩]

/-- The table `_gen_info_negw`. -/
def _gen_info_negw : List gen_info_t := [
  ⟨ARG_TYPE_X, ARG_TYPE_NONE, ARG_TYPE_NONE, ARG_TYPE_NONE, PREBYTE_NONE, 0x50, 0, GEN_FLAG_NONE⟩,
  ⟨ARG_TYPE_Y, ARG_TYPE_NONE, ARG_TYPE_NONE, ARG_TYPE_NONE, PREBYTE_PDY, 0x50, 0, GEN_FLAG_NONE⟩,
  ⟨ARG_TYPE_NONE, ARG_TYPE_NONE, ARG_TYPE_NONE, ARG_TYPE_NONE, PREBYTE_NONE, 0x00, 0, GEN_FLAG_END⟩]

/-- The table `_gen_info_or`. -/
def _gen_info_or : List gen_info_t := [
  ⟨ARG_TYPE_A, ARG_TYPE_BYTE, ARG_TYPE_NONE, ARG_TYPE_NONE, PREBYTE_NONE, 0xAA, 1, GEN_FLAG_NONE⟩,
  ⟨ARG_TYPE_A, ARG_TYPE_SHORTMEM, ARG_TYPE_NONE, ARG_TYPE_NONE, PREBYTE_NONE, 0xBA, 1, GEN_FLAG_NONE⟩,
  ⟨ARG_TYPE_A, ARG_TYPE_LONGMEM, ARG_TYPE_NONE, ARG_TYPE_NONE, PREBYTE_NONE, 0xCA, 2, GEN_FLAG_NONE⟩,
  ⟨ARG_TYPE_A, ARG_TYPE_OFF_X, ARG_TYPE_NONE, ARG_TYPE_NONE, PREBYTE_NONE, 0xFA, 0, GEN_FLAG_NONE⟩,
  ⟨ARG_TYPE_A, ARG_TYPE_SHORTOFF_X, ARG_TYPE_NONE, ARG_TYPE_NONE, PREBYTE_NONE, 0xEA, 1, GEN_FLAG_NONE⟩,
  ⟨ARG_TYPE_A, ARG_TYPE_LONGOFF_X, ARG_TYPE_NONE, ARG_TYPE_NONE, PREBYTE_NONE, 0xDA, 2, GEN_FLAG_NONE⟩,
  ⟨ARG_TYPE_A, ARG_TYPE_OFF_Y, ARG_TYPE_NONE, ARG_TYPE_NONE, PREBYTE_PDY, 0xFA, 0, GEN_FLAG_NONE⟩,
  ⟨ARG_TYPE_A, ARG_TYPE_SHORTOFF_Y, ARG_TYPE_NONE, ARG_TYPE_NONE, PREBYTE_PDY, 0xEA, 1, GEN_FLAG_NONE⟩,
  ⟨ARG_TYPE_A, ARG_TYPE_LONGOFF_Y, ARG_TYPE_NONE, ARG_TYPE_NONE, PREBYTE_PDY, 0xDA, 2, GEN_FLAG_NONE⟩,
  ⟨ARG_TYPE_A, ARG_TYPE_SHORTOFF_SP, ARG_TYPE_NONE, ARG_TYPE_NONE, PREBYTE_NONE, 0x1A, 1, GEN_FLAG_NONE⟩,
  ⟨ARG_TYPE_A, ARG_TYPE_SHORTPTR, ARG_TYPE_NONE, ARG_TYPE_NONE, PREBYTE_PIX, 0xCA, 1, GEN_FLAG_NONE⟩,
  ⟨ARG_TYPE_A, ARG_TYPE_LONGPTR, ARG_TYPE_NONE, ARG_TYPE_NONE, PREBYTE_PWSP, 0xCA, 2, GEN_FLAG_NONE⟩,
  ⟨ARG_TYPE_A, ARG_TYPE_SHORTPTR_X, ARG_TYPE_NONE, ARG_TYPE_NONE, PREBYTE_PIX, 0xDA, 1, GEN_FLAG_NONE⟩,
  ⟨ARG_TYPE_A, ARG_TYPE_LONGPTR_X, ARG_TYPE_NONE, ARG_TYPE_NONE, PREBYTE_PWSP, 0xDA, 2, GEN_FLAG_NONE⟩,
  ⟨ARG_TYPE_A, ARG_TYPE_SHORTPTR_Y, ARG_TYPE_NONE, ARG_TYPE_NONE, PREBYTE_PIY, 0xDA, 1, GEN_FLAG_NONE⟩,
  ⟨ARG_TYPE_NONE, ARG_TYPE_NONE, ARG_TYPE_NONE, ARG_TYPE_NONE, PREBYTE_NONE, 0x00, 0, GEN_FLAG_END⟩]

/-- The table `_gen_info_pop`. -/
def _gen_info_pop : List gen_info_t := [
  ⟨ARG_TYPE_A, ARG_TYPE_NONE, ARG_TYPE_NONE, ARG_TYPE_NONE, PREBYTE_NONE, 0x84, 0, GEN_FLAG_NONE⟩,
  ⟨ARG_TYPE_CC, ARG_TYPE_NONE, ARG_TYPE_NONE, ARG_TYPE_NONE, PREBYTE_NONE, 0x86, 0, GEN_FLAG_NONE⟩,
  ⟨ARG_TYPE_SHORTMEM, ARG_TYPE_NONE, ARG_TYPE_NONE, ARG_TYPE_NONE, PREBYTE_NONE, 0x32, 2, GEN_FLAG_ARG_DST ||| GEN_FLAG_CHECK_LONG⟩,
  ⟨ARG_TYPE_LONGMEM, ARG_TYPE_NONE, ARG_TYPE_NONE, ARG_TYPE_NONE, PREBYTE_NONE, 0x32, 2, GEN_FLAG_ARG_DST ||| GEN_FLAG_NONE⟩,
  ⟨ARG_TYPE_NONE, ARG_TYPE_NONE, ARG_TYPE_NONE, ARG_TYPE_NONE, PREBYTE_NONE, 0x00, 0, GEN_FLAG_END⟩]

/-- The table `_gen_info_popw`. -/
def _gen_info_popw : List gen_info_t := [
  ⟨ARG_TYPE_X, ARG_TYPE_NONE, ARG_TYPE_NONE, ARG_TYPE_NONE, PREBYTE_NONE, 0x85, 0, GEN_FLAG_NONE⟩,
  ⟨ARG_TYPE_Y, ARG_TYPE_NONE, ARG_TYPE_NONE, ARG_TYPE_NONE, PREBYTE_PDY, 0x85, 0, GEN_FLAG_NONE⟩,
  ⟨ARG_TYPE_NONE, ARG_TYPE_NONE, ARG_TYPE_NONE, ARG_TYPE_NONE, PREBYTE_NONE, 0x00, 0, GEN_FLAG_END⟩]

/-- The table `_gen_info_push`. -/
def _gen_info_push : List gen_info_t := [
  ⟨ARG_TYPE_A, ARG_TYPE_NONE, ARG_TYPE_NONE, ARG_TYPE_NONE, PREBYTE_NONE, 0x88, 0, GEN_FLAG_NONE⟩,
  ⟨ARG_TYPE_CC, ARG_TYPE_NONE, ARG_TYPE_NONE, ARG_TYPE_NONE, PREBYTE_NONE, 0x8A, 0, GEN_FLAG_NONE⟩,
  ⟨ARG_TYPE_BYTE, ARG_TYPE_NONE, ARG_TYPE_NONE, ARG_TYPE_NONE, PREBYTE_NONE, 0x4B, 1, GEN_FLAG_ARG_DST ||| GEN_FLAG_NONE⟩,
  ⟨ARG_TYPE_SHORTMEM, ARG_TYPE_NONE, ARG_TYPE_NONE, ARG_TYPE_NONE, PREBYTE_NONE, 0x3B, 2, GEN_FLAG_ARG_DST ||| GEN_FLAG_CHECK_LONG⟩,
  ⟨ARG_TYPE_LONGMEM, ARG_TYPE_NONE, ARG_TYPE_NONE, ARG_TYPE_NONE, PREBYTE_NONE, 0x3B, 2, GEN_FLAG_ARG_DST ||| GEN_FLAG_NONE⟩,
  ⟨ARG_TYPE_NONE, ARG_TYPE_NONE, ARG_TYPE_NONE, ARG_TYPE_NONE, PREBYTE_NONE, 0x00, 0, GEN_FLAG_END⟩]

/-- The table `_gen_info_pushw`. -/
def _gen_info_pushw : List gen_info_t := [
  ⟨ARG_TYPE_X, ARG_TYPE_NONE, ARG_TYPE_NONE, ARG_TYPE_NONE, PREBYTE_NONE, 0x89, 0, GEN_FLAG_NONE⟩,
  ⟨ARG_TYPE_Y, ARG_TYPE_NONE, ARG_TYPE_NONE, ARG_TYPE_NONE, PREBYTE_PDY, 0x89, 0, GEN_FLAG_NONE⟩,
  ⟨ARG_TYPE_NONE, ARG_TYPE_NONE, ARG_TYPE_NONE, ARG_TYPE_NONE, PREBYTE_NONE, 0x00, 0, GEN_FLAG_END⟩]

/-- The table `_gen_info_rlc`. -/
def _gen_info_rlc : List gen_info_t := [
  ⟨ARG_TYPE_A, ARG_TYPE_NONE, ARG_TYPE_NONE, ARG_TYPE_NONE, PREBYTE_NONE, 0x49, 0, GEN_FLAG_NONE⟩,
  ⟨ARG_TYPE_SHORTMEM, ARG_TYPE_NONE, ARG_TYPE_NONE, ARG_TYPE_NONE, PREBYTE_NONE, 0x39, 1, GEN_FLAG_ARG_DST ||| GEN_FLAG_NONE⟩,
  ⟨ARG_TYPE_LONGMEM, ARG_TYPE_NONE, ARG_TYPE_NONE, ARG_TYPE_NONE, PREBYTE_PWSP, 0x59, 2, GEN_FLAG_ARG_DST ||| GEN_FLAG_NONE⟩,
  ⟨ARG_TYPE_OFF_X, ARG_TYPE_NONE, ARG_TYPE_NONE, ARG_TYPE_NONE, PREBYTE_NONE, 0x79, 0, GEN_FLAG_NONE⟩,
  ⟨ARG_TYPE_SHORTOFF_X, ARG_TYPE_NONE, ARG_TYPE_NONE, ARG_TYPE_NONE, PREBYTE_NONE, 0x69, 1, GEN_FLAG_ARG_DST ||| GEN_FLAG_NONE⟩,
  ⟨ARG_TYPE_LONGOFF_X, ARG_TYPE_NONE, ARG_TYPE_NONE, ARG_TYPE_NONE, PREBYTE_PWSP, 0x49, 2, GEN_FLAG_ARG_DST ||| GEN_FLAG_NONE⟩,
  ⟨ARG_TYPE_OFF_Y, ARG_TYPE_NONE, ARG_TYPE_NONE, ARG_TYPE_NONE, PREBYTE_PDY, 0x79, 0, GEN_FLAG_NONE⟩,
  ⟨ARG_TYPE_SHORTOFF_Y, ARG_TYPE_NONE, ARG_TYPE_NONE, ARG_TYPE_NONE, PREBYTE_PDY, 0x69, 1, GEN_FLAG_ARG_DST ||| GEN_FLAG_NONE⟩,
  ⟨ARG_TYPE_LONGOFF_Y, ARG_TYPE_NONE, ARG_TYPE_NONE, ARG_TYPE_NONE, PREBYTE_PDY, 0x49, 2, GEN_FLAG_ARG_DST ||| GEN_FLAG_NONE⟩,
  ⟨ARG_TYPE_SHORTOFF_SP, ARG_TYPE_NONE, ARG_TYPE_NONE, ARG_TYPE_NONE, PREBYTE_NONE, 0x09, 1, GEN_FLAG_ARG_DST ||| GEN_FLAG_NONE⟩,
  ⟨ARG_TYPE_SHORTPTR, ARG_TYPE_NONE, ARG_TYPE_NONE, ARG_TYPE_NONE, PREBYTE_PIX, 0x39, 1, GEN_FLAG_ARG_DST ||| GEN_FLAG_NONE⟩,
  ⟨ARG_TYPE_LONGPTR, ARG_TYPE_NONE, ARG_TYPE_NONE, ARG_TYPE_NONE, PREBYTE_PWSP, 0x39, 2, GEN_FLAG_ARG_DST ||| GEN_FLAG_NONE⟩,
  ⟨ARG_TYPE_SHORTPTR_X, ARG_TYPE_NONE, ARG_TYPE_NONE, ARG_TYPE_NONE, PREBYTE_PIX, 0x69, 1, GEN_FLAG_ARG_DST ||| GEN_FLAG_NONE⟩,
  ⟨ARG_TYPE_LONGPTR_X, ARG_TYPE_NONE, ARG_TYPE_NONE, ARG_TYPE_NONE, PREBYTE_PWSP, 0x69, 2, GEN_FLAG_ARG_DST ||| GEN_FLAG_NONE⟩,
  ⟨ARG_TYPE_SHORTPTR_Y, ARG_TYPE_NONE, ARG_TYPE_NONE, ARG_TYPE_NONE, PREBYTE_PIY, 0x69, 1, GEN_FLAG_ARG_DST ||| GEN_FLAG_NONE⟩,
  ⟨ARG_TYPE_NONE, ARG_TYPE_NONE, ARG_TYPE_NONE, ARG_TYPE_NONE, PREBYTE_NONE, 0x00, 0, GEN_FLAG_END⟩]

/-- The table `_gen_info_rrc`. -/
def _gen_info_rrc : List gen_info_t := [
  ⟨ARG_TYPE_A, ARG_TYPE_NONE, ARG_TYPE_NONE, ARG_TYPE_NONE, PREBYTE_NONE, 0x46, 0, GEN_FLAG_NONE⟩,
  ⟨ARG_TYPE_SHORTMEM, ARG_TYPE_NONE, ARG_TYPE_NONE, ARG_TYPE_NONE, PREBYTE_NONE, 0x36, 1, GEN_FLAG_ARG_DST ||| GEN_FLAG_NONE⟩,
  ⟨ARG_TYPE_LONGMEM, ARG_TYPE_NONE, ARG_TYPE_NONE, ARG_TYPE_NONE, PREBYTE_PWSP, 0x56, 2, GEN_FLAG_ARG_DST ||| GEN_FLAG_NONE⟩,
  ⟨ARG_TYPE_OFF_X, ARG_TYPE_NONE, ARG_TYPE_NONE, ARG_TYPE_NONE, PREBYTE_NONE, 0x76, 0, GEN_FLAG_NONE⟩,
  ⟨ARG_TYPE_SHORTOFF_X, ARG_TYPE_NONE, ARG_TYPE_NONE, ARG_TYPE_NONE, PREBYTE_NONE, 0x66, 1, GEN_FLAG_ARG_DST ||| GEN_FLAG_NONE⟩,
  ⟨ARG_TYPE_LONGOFF_X, ARG_TYPE_NONE, ARG_TYPE_NONE, ARG_TYPE_NONE, PREBYTE_PWSP, 0x46, 2, GEN_FLAG_ARG_DST ||| GEN_FLAG_NONE⟩,
  ⟨ARG_TYPE_OFF_Y, ARG_TYPE_NONE, ARG_TYPE_NONE, ARG_TYPE_NONE, PREBYTE_PDY, 0x76, 0, GEN_FLAG_NONE⟩,
  ⟨ARG_TYPE_SHORTOFF_Y, ARG_TYPE_NONE, ARG_TYPE_NONE, ARG_TYPE_NONE, PREBYTE_PDY, 0x66, 1, GEN_FLAG_ARG_DST ||| GEN_FLAG_NONE⟩,
  ⟨ARG_TYPE_LONGOFF_Y, ARG_TYPE_NONE, ARG_TYPE_NONE, ARG_TYPE_NONE, PREBYTE_PDY, 0x46, 2, GEN_FLAG_ARG_DST ||| GEN_FLAG_NONE⟩,
  ⟨ARG_TYPE_SHORTOFF_SP, ARG_TYPE_NONE, ARG_TYPE_NONE, ARG_TYPE_NONE, PREBYTE_NONE, 0x06, 1, GEN_FLAG_ARG_DST ||| GEN_FLAG_NONE⟩,
  ⟨ARG_TYPE_SHORTPTR, ARG_TYPE_NONE, ARG_TYPE_NONE, ARG_TYPE_NONE, PREBYTE_PIX, 0x36, 1, GEN_FLAG_ARG_DST ||| GEN_FLAG_NONE⟩,
  ⟨ARG_TYPE_LONGPTR, ARG_TYPE_NONE, ARG_TYPE_NONE, ARG_TYPE_NONE, PREBYTE_PWSP, 0x36, 2, GEN_FLAG_ARG_DST ||| GEN_FLAG_NONE⟩,
  ⟨ARG_TYPE_SHORTPTR_X, ARG_TYPE_NONE, ARG_TYPE_NONE, ARG_TYPE_NONE, PREBYTE_PIX, 0x66, 1, GEN_FLAG_ARG_DST ||| GEN_FLAG_NONE⟩,
  ⟨ARG_TYPE_LONGPTR_X, ARG_TYPE_NONE, ARG_TYPE_NONE, ARG_TYPE_NONE, PREBYTE_PWSP, 0x66, 2, GEN_FLAG_ARG_DST ||| GEN_FLAG_NONE⟩,
  ⟨ARG_TYPE_SHORTPTR_Y, ARG_TYPE_NONE, ARG_TYPE_NONE, ARG_TYPE_NONE, PREBYTE_PIY, 0x66, 1, GEN_FLAG_ARG_DST ||| GEN_FLAG_NONE⟩,
  ⟨ARG_TYPE_NONE, ARG_TYPE_NONE, ARG_TYPE_NONE, ARG_TYPE_NONE, PREBYTE_NONE, 0x00, 0, GEN_FLAG_END⟩]

/-- The table `_gen_info_sbc`. -/
def _gen_info_sbc : List gen_info_t := [
  ⟨ARG_TYPE_A, ARG_TYPE_BYTE, ARG_TYPE_NONE, ARG_TYPE_NONE, PREBYTE_NONE, 0xA2, 1, GEN_FLAG_NONE⟩,
  ⟨ARG_TYPE_A, ARG_TYPE_SHORTMEM, ARG_TYPE_NONE, ARG_TYPE_NONE, PREBYTE_NONE, 0xB2, 1, GEN_FLAG_NONE⟩,
  ⟨ARG_TYPE_A, ARG_TYPE_LONGMEM, ARG_TYPE_NONE, ARG_TYPE_NONE, PREBYTE_NONE, 0xC2, 2, GEN_FLAG_NONE⟩,
  ⟨ARG_TYPE_A, ARG_TYPE_OFF_X, ARG_TYPE_NONE, ARG_TYPE_NONE, PREBYTE_NONE, 0xF2, 0, GEN_FLAG_NONE⟩,
  ⟨ARG_TYPE_A, ARG_TYPE_SHORTOFF_X, ARG_TYPE_NONE, ARG_TYPE_NONE, PREBYTE_NONE, 0xE2, 1, GEN_FLAG_NONE⟩,
  ⟨ARG_TYPE_A, ARG_TYPE_LONGOFF_X, ARG_TYPE_NONE, ARG_TYPE_NONE, PREBYTE_NONE, 0xD2, 2, GEN_FLAG_NONE⟩,
  ⟨ARG_TYPE_A, ARG_TYPE_OFF_Y, ARG_TYPE_NONE, ARG_TYPE_NONE, PREBYTE_PDY, 0xF2, 0, GEN_FLAG_NONE⟩,
  ⟨ARG_TYPE_A, ARG_TYPE_SHORTOFF_Y, ARG_TYPE_NONE, ARG_TYPE_NONE, PREBYTE_PDY, 0xE2, 1, GEN_FLAG_NONE⟩,
  ⟨ARG_TYPE_A, ARG_TYPE_LONGOFF_Y, ARG_TYPE_NONE, ARG_TYPE_NONE, PREBYTE_PDY, 0xD2, 2, GEN_FLAG_NONE⟩,
  ⟨ARG_TYPE_A, ARG_TYPE_SHORTOFF_SP, ARG_TYPE_NONE, ARG_TYPE_NONE, PREBYTE_NONE, 0x12, 1, GEN_FLAG_NONE⟩,
  ⟨ARG_TYPE_A, ARG_TYPE_SHORTPTR, ARG_TYPE_NONE, ARG_TYPE_NONE, PREBYTE_PIX, 0xC2, 1, GEN_FLAG_NONE⟩,
  ⟨ARG_TYPE_A, ARG_TYPE_LONGPTR, ARG_TYPE_NONE, ARG_TYPE_NONE, PREBYTE_PWSP, 0xC2, 2, GEN_FLAG_NONE⟩,
  ⟨ARG_TYPE_A, ARG_TYPE_SHORTPTR_X, ARG_TYPE_NONE, ARG_TYPE_NONE, PREBYTE_PIX, 0xD2, 1, GEN_FLAG_NONE⟩,
  ⟨ARG_TYPE_A, ARG_TYPE_LONGPTR_X, ARG_TYPE_NONE, ARG_TYPE_NONE, PREBYTE_PWSP, 0xD2, 2, GEN_FLAG_NONE⟩,
  ⟨ARG_TYPE_A, ARG_TYPE_SHORTPTR_Y, ARG_TYPE_NONE, ARG_TYPE_NONE, PREBYTE_PIY, 0xD2, 1, GEN_FLAG_NONE⟩,
  ⟨ARG_TYPE_NONE, ARG_TYPE_NONE, ARG_TYPE_NONE, ARG_TYPE_NONE, PREBYTE_NONE, 0x00, 0, GEN_FLAG_END⟩]

/-- The table `_gen_info_sll`. -/
def _gen_info_sll : List gen_info_t := [
  ⟨ARG_TYPE_A, ARG_TYPE_NONE, ARG_TYPE_NONE, ARG_TYPE_NONE, PREBYTE_NONE, 0x48, 0, GEN_FLAG_NONE⟩,
  ⟨ARG_TYPE_SHORTMEM, ARG_TYPE_NONE, ARG_TYPE_NONE, ARG_TYPE_NONE, PREBYTE_NONE, 0x38, 1, GEN_FLAG_ARG_DST ||| GEN_FLAG_NONE⟩,
  ⟨ARG_TYPE_LONGMEM, ARG_TYPE_NONE, ARG_TYPE_NONE, ARG_TYPE_NONE, PREBYTE_PWSP, 0x58, 2, GEN_FLAG_ARG_DST ||| GEN_FLAG_NONE⟩,
  ⟨ARG_TYPE_OFF_X, ARG_TYPE_NONE, ARG_TYPE_NONE, ARG_TYPE_NONE, PREBYTE_NONE, 0x78, 0, GEN_FLAG_NONE⟩,
  ⟨ARG_TYPE_SHORTOFF_X, ARG_TYPE_NONE, ARG_TYPE_NONE, ARG_TYPE_NONE, PREBYTE_NONE, 0x68, 1, GEN_FLAG_ARG_DST ||| GEN_FLAG_NONE⟩,
  ⟨ARG_TYPE_LONGOFF_X, ARG_TYPE_NONE, ARG_TYPE_NONE, ARG_TYPE_NONE, PREBYTE_PWSP, 0x48, 2, GEN_FLAG_ARG_DST ||| GEN_FLAG_NONE⟩,
  ⟨ARG_TYPE_OFF_Y, ARG_TYPE_NONE, ARG_TYPE_NONE, ARG_TYPE_NONE, PREBYTE_PDY, 0x78, 0, GEN_FLAG_NONE⟩,
  ⟨ARG_TYPE_SHORTOFF_Y, ARG_TYPE_NONE, ARG_TYPE_NONE, ARG_TYPE_NONE, PREBYTE_PDY, 0x68, 1, GEN_FLAG_ARG_DST ||| GEN_FLAG_NONE⟩,
  ⟨ARG_TYPE_LONGOFF_Y, ARG_TYPE_NONE, ARG_TYPE_NONE, ARG_TYPE_NONE, PREBYTE_PDY, 0x48, 2, GEN_FLAG_ARG_DST ||| GEN_FLAG_NONE⟩,
  ⟨ARG_TYPE_SHORTOFF_SP, ARG_TYPE_NONE, ARG_TYPE_NONE, ARG_TYPE_NONE, PREBYTE_NONE, 0x08, 1, GEN_FLAG_ARG_DST ||| GEN_FLAG_NONE⟩,
  ⟨ARG_TYPE_SHORTPTR, ARG_TYPE_NONE, ARG_TYPE_NONE, ARG_TYPE_NONE, PREBYTE_PIX, 0x38, 1, GEN_FLAG_ARG_DST ||| GEN_FLAG_NONE⟩,
  ⟨ARG_TYPE_LONGPTR, ARG_TYPE_NONE, ARG_TYPE_NONE, ARG_TYPE_NONE, PREBYTE_PWSP, 0x38, 2, GEN_FLAG_ARG_DST ||| GEN_FLAG_NONE⟩,
  ⟨ARG_TYPE_SHORTPTR_X, ARG_TYPE_NONE, ARG_TYPE_NONE, ARG_TYPE_NONE, PREBYTE_PIX, 0x68, 1, GEN_FLAG_ARG_DST ||| GEN_FLAG_NONE⟩,
  ⟨ARG_TYPE_LONGPTR_X, ARG_TYPE_NONE, ARG_TYPE_NONE, ARG_TYPE_NONE, PREBYTE_PWSP, 0x68, 2, GEN_FLAG_ARG_DST ||| GEN_FLAG_NONE⟩,
  ⟨ARG_TYPE_SHORTPTR_Y, ARG_TYPE_NONE, ARG_TYPE_NONE, ARG_TYPE_NONE, PREBYTE_PIY, 0x68, 1, GEN_FLAG_ARG_DST ||| GEN_FLAG_NONE⟩,
  ⟨ARG_TYPE_NONE, ARG_TYPE_NONE, ARG_TYPE_NONE, ARG_TYPE_NONE, PREBYTE_NONE, 0x00, 0, GEN_FLAG_END⟩]

/-- The table `_gen_info_sra`. -/
def _gen_info_sra : List gen_info_t := [
  ⟨ARG_TYPE_A, ARG_TYPE_NONE, ARG_TYPE_NONE, ARG_TYPE_NONE, PREBYTE_NONE, 0x47, 0, GEN_FLAG_NONE⟩,
  ⟨ARG_TYPE_SHORTMEM, ARG_TYPE_NONE, ARG_TYPE_NONE, ARG_TYPE_NONE, PREBYTE_NONE, 0x37, 1, GEN_FLAG_ARG_DST ||| GEN_FLAG_NONE⟩,
  ⟨ARG_TYPE_LONGMEM, ARG_TYPE_NONE, ARG_TYPE_NONE, ARG_TYPE_NONE, PREBYTE_PWSP, 0x57, 2, GEN_FLAG_ARG_DST ||| GEN_FLAG_NONE⟩,
  ⟨ARG_TYPE_OFF_X, ARG_TYPE_NONE, ARG_TYPE_NONE, ARG_TYPE_NONE, PREBYTE_NONE, 0x77, 0, GEN_FLAG_NONE⟩,
  ⟨ARG_TYPE_SHORTOFF_X, ARG_TYPE_NONE, ARG_TYPE_NONE, ARG_TYPE_NONE, PREBYTE_NONE, 0x67, 1, GEN_FLAG_ARG_DST ||| GEN_FLAG_NONE⟩,
  ⟨ARG_TYPE_LONGOFF_X, ARG_TYPE_NONE, ARG_TYPE_NONE, ARG_TYPE_NONE, PREBYTE_PWSP, 0x47, 2, GEN_FLAG_ARG_DST ||| GEN_FLAG_NONE⟩,
  ⟨ARG_TYPE_OFF_Y, ARG_TYPE_NONE, ARG_TYPE_NONE, ARG_TYPE_NONE, PREBYTE_PDY, 0x77, 0, GEN_FLAG_NONE⟩,
  ⟨ARG_TYPE_SHORTOFF_Y, ARG_TYPE_NONE, ARG_TYPE_NONE, ARG_TYPE_NONE, PREBYTE_PDY, 0x67, 1, GEN_FLAG_ARG_DST ||| GEN_FLAG_NONE⟩,
  ⟨ARG_TYPE_LONGOFF_Y, ARG_TYPE_NONE, ARG_TYPE_NONE, ARG_TYPE_NONE, PREBYTE_PDY, 0x47, 2, GEN_FLAG_ARG_DST ||| GEN_FLAG_NONE⟩,
  ⟨ARG_TYPE_SHORTOFF_SP, ARG_TYPE_NONE, ARG_TYPE_NONE, ARG_TYPE_NONE, PREBYTE_NONE, 0x07, 1, GEN_FLAG_ARG_DST ||| GEN_FLAG_NONE⟩,
  ⟨ARG_TYPE_SHORTPTR, ARG_TYPE_NONE, ARG_TYPE_NONE, ARG_TYPE_NONE, PREBYTE_PIX, 0x37, 1, GEN_FLAG_ARG_DST ||| GEN_FLAG_NONE⟩,
  ⟨ARG_TYPE_LONGPTR, ARG_TYPE_NONE, ARG_TYPE_NONE, ARG_TYPE_NONE, PREBYTE_PWSP, 0x37, 2, GEN_FLAG_ARG_DST ||| GEN_FLAG_NONE⟩,
  ⟨ARG_TYPE_SHORTPTR_X, ARG_TYPE_NONE, ARG_TYPE_NONE, ARG_TYPE_NONE, PREBYTE_PIX, 0x67, 1, GEN_FLAG_ARG_DST ||| GEN_FLAG_NONE⟩,
  ⟨ARG_TYPE_LONGPTR_X, ARG_TYPE_NONE, ARG_TYPE_NONE, ARG_TYPE_NONE, PREBYTE_PWSP, 0x67, 2, GEN_FLAG_ARG_DST ||| GEN_FLAG_NONE⟩,
  ⟨ARG_TYPE_SHORTPTR_Y, ARG_TYPE_NONE, ARG_TYPE_NONE, ARG_TYPE_NONE, PREBYTE_PIY, 0x67, 1, GEN_FLAG_ARG_DST ||| GEN_FLAG_NONE⟩,
  ⟨ARG_TYPE_NONE, ARG_TYPE_NONE, ARG_TYPE_NONE, ARG_TYPE_NONE, PREBYTE_NONE, 0x00, 0, GEN_FLAG_END⟩]

/-- The table `_gen_info_srl`. -/
def _gen_info_srl : List gen_info_t := [
  ⟨ARG_TYPE_A, ARG_TYPE_NONE, ARG_TYPE_NONE, ARG_TYPE_NONE, PREBYTE_NONE, 0x44, 0, GEN_FLAG_NONE⟩,
  ⟨ARG_TYPE_SHORTMEM, ARG_TYPE_NONE, ARG_TYPE_NONE, ARG_TYPE_NONE, PREBYTE_NONE, 0x34, 1, GEN_FLAG_ARG_DST ||| GEN_FLAG_NONE⟩,
  ⟨ARG_TYPE_LONGMEM, ARG_TYPE_NONE, ARG_TYPE_NONE, ARG_TYPE_NONE, PREBYTE_PWSP, 0x54, 2, GEN_FLAG_ARG_DST ||| GEN_FLAG_NONE⟩,
  ⟨ARG_TYPE_OFF_X, ARG_TYPE_NONE, ARG_TYPE_NONE, ARG_TYPE_NONE, PREBYTE_NONE, 0x74, 0, GEN_FLAG_NONE⟩,
  ⟨ARG_TYPE_SHORTOFF_X, ARG_TYPE_NONE, ARG_TYPE_NONE, ARG_TYPE_NONE, PREBYTE_NONE, 0x64, 1, GEN_FLAG_ARG_DST ||| GEN_FLAG_NONE⟩,
  ⟨ARG_TYPE_LONGOFF_X, ARG_TYPE_NONE, ARG_TYPE_NONE, ARG_TYPE_NONE, PREBYTE_PWSP, 0x44, 2, GEN_FLAG_ARG_DST ||| GEN_FLAG_NONE⟩,
  ⟨ARG_TYPE_OFF_Y, ARG_TYPE_NONE, ARG_TYPE_NONE, ARG_TYPE_NONE, PREBYTE_PDY, 0x74, 0, GEN_FLAG_NONE⟩,
  ⟨ARG_TYPE_SHORTOFF_Y, ARG_TYPE_NONE, ARG_TYPE_NONE, ARG_TYPE_NONE, PREBYTE_PDY, 0x64, 1, GEN_FLAG_ARG_DST ||| GEN_FLAG_NONE⟩,
  ⟨ARG_TYPE_LONGOFF_Y, ARG_TYPE_NONE, ARG_TYPE_NONE, ARG_TYPE_NONE, PREBYTE_PDY, 0x44, 2, GEN_FLAG_ARG_DST ||| GEN_FLAG_NONE⟩,
  ⟨ARG_TYPE_SHORTOFF_SP, ARG_TYPE_NONE, ARG_TYPE_NONE, ARG_TYPE_NONE, PREBYTE_NONE, 0x04, 1, GEN_FLAG_ARG_DST ||| GEN_FLAG_NONE⟩,
  ⟨ARG_TYPE_SHORTPTR, ARG_TYPE_NONE, ARG_TYPE_NONE, ARG_TYPE_NONE, PREBYTE_PIX, 0x34, 1, GEN_FLAG_ARG_DST ||| GEN_FLAG_NONE⟩,
  ⟨ARG_TYPE_LONGPTR, ARG_TYPE_NONE, ARG_TYPE_NONE, ARG_TYPE_NONE, PREBYTE_PWSP, 0x34, 2, GEN_FLAG_ARG_DST ||| GEN_FLAG_NONE⟩,
  ⟨ARG_TYPE_SHORTPTR_X, ARG_TYPE_NONE, ARG_TYPE_NONE, ARG_TYPE_NONE, PREBYTE_PIX, 0x64, 1, GEN_FLAG_ARG_DST ||| GEN_FLAG_NONE⟩,
  ⟨ARG_TYPE_LONGPTR_X, ARG_TYPE_NONE, ARG_TYPE_NONE, ARG_TYPE_NONE, PREBYTE_PWSP, 0x64, 2, GEN_FLAG_ARG_DST ||| GEN_FLAG_NONE⟩,
  ⟨ARG_TYPE_SHORTPTR_Y, ARG_TYPE_NONE, ARG_TYPE_NONE, ARG_TYPE_NONE, PREBYTE_PIY, 0x64, 1, GEN_FLAG_ARG_DST ||| GEN_FLAG_NONE⟩,
  ⟨ARG_TYPE_NONE, ARG_TYPE_NONE, ARG_TYPE_NONE, ARG_TYPE_NONE, PREBYTE_NONE, 0x00, 0, GEN_FLAG_END⟩]

/-- The table `_gen_info_sub`. -/
def _gen_info_sub : List gen_info_t := [
  ⟨ARG_TYPE_A, ARG_TYPE_BYTE, ARG_TYPE_NONE, ARG_TYPE_NONE, PREBYTE_NONE, 0xA0, 1, GEN_FLAG_NONE⟩,
  ⟨ARG_TYPE_A, ARG_TYPE_SHORTMEM, ARG_TYPE_NONE, ARG_TYPE_NONE, PREBYTE_NONE, 0xB0, 1, GEN_FLAG_NONE⟩,
  ⟨ARG_TYPE_A, ARG_TYPE_LONGMEM, ARG_TYPE_NONE, ARG_TYPE_NONE, PREBYTE_NONE, 0xC0, 2, GEN_FLAG_NONE⟩,
  ⟨ARG_TYPE_A, ARG_TYPE_OFF_X, ARG_TYPE_NONE, ARG_TYPE_NONE, PREBYTE_NONE, 0xF0, 0, GEN_FLAG_NONE⟩,
  ⟨ARG_TYPE_A, ARG_TYPE_SHORTOFF_X, ARG_TYPE_NONE, ARG_TYPE_NONE, PREBYTE_NONE, 0xE0, 1, GEN_FLAG_NONE⟩,
  ⟨ARG_TYPE_A, ARG_TYPE_LONGOFF_X, ARG_TYPE_NONE, ARG_TYPE_NONE, PREBYTE_NONE, 0xD0, 2, GEN_FLAG_NONE⟩,
  ⟨ARG_TYPE_A, ARG_TYPE_OFF_Y, ARG_TYPE_NONE, ARG_TYPE_NONE, PREBYTE_PDY, 0xF0, 0, GEN_FLAG_NONE⟩,
  ⟨ARG_TYPE_A, ARG_TYPE_SHORTOFF_Y, ARG_TYPE_NONE, ARG_TYPE_NONE, PREBYTE_PDY, 0xE0, 1, GEN_FLAG_NONE⟩,
  ⟨ARG_TYPE_A, ARG_TYPE_LONGOFF_Y, ARG_TYPE_NONE, ARG_TYPE_NONE, PREBYTE_PDY, 0xD0, 2, GEN_FLAG_NONE⟩,
  ⟨ARG_TYPE_A, ARG_TYPE_SHORTOFF_SP, ARG_TYPE_NONE, ARG_TYPE_NONE, PREBYTE_NONE, 0x10, 1, GEN_FLAG_NONE⟩,
  ⟨ARG_TYPE_A, ARG_TYPE_SHORTPTR, ARG_TYPE_NONE, ARG_TYPE_NONE, PREBYTE_PIX, 0xC0, 1, GEN_FLAG_NONE⟩,
  ⟨ARG_TYPE_A, ARG_TYPE_LONGPTR, ARG_TYPE_NONE, ARG_TYPE_NONE, PREBYTE_PWSP, 0xC0, 2, GEN_FLAG_NONE⟩,
  ⟨ARG_TYPE_A, ARG_TYPE_SHORTPTR_X, ARG_TYPE_NONE, ARG_TYPE_NONE, PREBYTE_PIX, 0xD0, 1, GEN_FLAG_NONE⟩,
  ⟨ARG_TYPE_A, ARG_TYPE_LONGPTR_X, ARG_TYPE_NONE, ARG_TYPE_NONE, PREBYTE_PWSP, 0xD0, 2, GEN_FLAG_NONE⟩,
  ⟨ARG_TYPE_A, ARG_TYPE_SHORTPTR_Y, ARG_TYPE_NONE, ARG_TYPE_NONE, PREBYTE_PIY, 0xD0, 1, GEN_FLAG_NONE⟩,
  ⟨ARG_TYPE_SP, ARG_TYPE_BYTE, ARG_TYPE_NONE, ARG_TYPE_NONE, PREBYTE_NONE, 0x52, 1, GEN_FLAG_NONE⟩,
  ⟨ARG_TYPE_NONE, ARG_TYPE_NONE, ARG_TYPE_NONE, ARG_TYPE_NONE, PREBYTE_NONE, 0x00, 0, GEN_FLAG_END⟩]

/-- The table `_gen_info_subw`. -/
def _gen_info_subw : List gen_info_t := [
  ⟨ARG_TYPE_X, ARG_TYPE_BYTE, ARG_TYPE_NONE, ARG_TYPE_NONE, PREBYTE_NONE, 0x1D, 2, GEN_FLAG_CHECK_LONG⟩,
  ⟨ARG_TYPE_X, ARG_TYPE_WORD, ARG_TYPE_NONE, ARG_TYPE_NONE, PREBYTE_NONE, 0x1D, 2, GEN_FLAG_NONE⟩,
  ⟨ARG_TYPE_X, ARG_TYPE_SHORTMEM, ARG_TYPE_NONE, ARG_TYPE_NONE, PREBYTE_PWSP, 0xB0, 2, GEN_FLAG_CHECK_LONG⟩,
  ⟨ARG_TYPE_X, ARG_TYPE_LONGMEM, ARG_TYPE_NONE, ARG_TYPE_NONE, PREBYTE_PWSP, 0xB0, 2, GEN_FLAG_NONE⟩,
  ⟨ARG_TYPE_X, ARG_TYPE_SHORTOFF_SP, ARG_TYPE_NONE, ARG_TYPE_NONE, PREBYTE_PWSP, 0xF0, 1, GEN_FLAG_NONE⟩,
  ⟨ARG_TYPE_Y, ARG_TYPE_BYTE, ARG_TYPE_NONE, ARG_TYPE_NONE, PREBYTE_PWSP, 0xA2, 2, GEN_FLAG_CHECK_LONG⟩,
  ⟨ARG_TYPE_Y, ARG_TYPE_WORD, ARG_TYPE_NONE, ARG_TYPE_NONE, PREBYTE_PWSP, 0xA2, 2, GEN_FLAG_NONE⟩,
  ⟨ARG_TYPE_Y, ARG_TYPE_SHORTMEM, ARG_TYPE_NONE, ARG_TYPE_NONE, PREBYTE_PWSP, 0xB2, 2, GEN_FLAG_CHECK_LONG⟩,
  ⟨ARG_TYPE_Y, ARG_TYPE_LONGMEM, ARG_TYPE_NONE, ARG_TYPE_NONE, PREBYTE_PWSP, 0xB2, 2, GEN_FLAG_NONE⟩,
  ⟨ARG_TYPE_Y, ARG_TYPE_SHORTOFF_SP, ARG_TYPE_NONE, ARG_TYPE_NONE, PREBYTE_PWSP, 0xF2, 1, GEN_FLAG_NONE⟩,
  ⟨ARG_TYPE_NONE, ARG_TYPE_NONE, ARG_TYPE_NONE, ARG_TYPE_NONE, PREBYTE_NONE, 0x00, 0, GEN_FLAG_END⟩]

/-- The table `_gen_info_swap`. -/
def _gen_info_swap : List gen_info_t := [
  ⟨ARG_TYPE_A, ARG_TYPE_NONE, ARG_TYPE_NONE, ARG_TYPE_NONE, PREBYTE_NONE, 0x4E, 0, GEN_FLAG_NONE⟩,
  ⟨ARG_TYPE_SHORTMEM, ARG_TYPE_NONE, ARG_TYPE_NONE, ARG_TYPE_NONE, PREBYTE_NONE, 0x3E, 1, GEN_FLAG_ARG_DST ||| GEN_FLAG_NONE⟩,
  ⟨ARG_TYPE_LONGMEM, ARG_TYPE_NONE, ARG_TYPE_NONE, ARG_TYPE_NONE, PREBYTE_PWSP, 0x5E, 2, GEN_FLAG_ARG_DST ||| GEN_FLAG_NONE⟩,
  ⟨ARG_TYPE_OFF_X, ARG_TYPE_NONE, ARG_TYPE_NONE, ARG_TYPE_NONE, PREBYTE_NONE, 0x7E, 0, GEN_FLAG_NONE⟩,
  ⟨ARG_TYPE_SHORTOFF_X, ARG_TYPE_NONE, ARG_TYPE_NONE, ARG_TYPE_NONE, PREBYTE_NONE, 0x6E, 1, GEN_FLAG_ARG_DST ||| GEN_FLAG_NONE⟩,
  ⟨ARG_TYPE_LONGOFF_X, ARG_TYPE_NONE, ARG_TYPE_NONE, ARG_TYPE_NONE, PREBYTE_PWSP, 0x4E, 2, GEN_FLAG_ARG_DST ||| GEN_FLAG_NONE⟩,
  ⟨ARG_TYPE_OFF_Y, ARG_TYPE_NONE, ARG_TYPE_NONE, ARG_TYPE_NONE, PREBYTE_PDY, 0x7E, 0, GEN_FLAG_NONE⟩,
  ⟨ARG_TYPE_SHORTOFF_Y, ARG_TYPE_NONE, ARG_TYPE_NONE, ARG_TYPE_NONE, PREBYTE_PDY, 0x6E, 1, GEN_FLAG_ARG_DST ||| GEN_FLAG_NONE⟩,
  ⟨ARG_TYPE_LONGOFF_Y, ARG_TYPE_NONE, ARG_TYPE_NONE, ARG_TYPE_NONE, PREBYTE_PDY, 0x4E, 2, GEN_FLAG_ARG_DST ||| GEN_FLAG_NONE⟩,
  ⟨ARG_TYPE_SHORTOFF_SP, ARG_TYPE_NONE, ARG_TYPE_NONE, ARG_TYPE_NONE, PREBYTE_NONE, 0x0E, 1, GEN_FLAG_ARG_DST ||| GEN_FLAG_NONE⟩,
  ⟨ARG_TYPE_SHORTPTR, ARG_TYPE_NONE, ARG_TYPE_NONE, ARG_TYPE_NONE, PREBYTE_PIX, 0x3E, 1, GEN_FLAG_ARG_DST ||| GEN_FLAG_NONE⟩,
  ⟨ARG_TYPE_LONGPTR, ARG_TYPE_NONE, ARG_TYPE_NONE, ARG_TYPE_NONE, PREBYTE_PWSP, 0x3E, 2, GEN_FLAG_ARG_DST ||| GEN_FLAG_NONE⟩,
  ⟨ARG_TYPE_SHORTPTR_X, ARG_TYPE_NONE, ARG_TYPE_NONE, ARG_TYPE_NONE, PREBYTE_PIX, 0x6E, 1, GEN_FLAG_ARG_DST ||| GEN_FLAG_NONE⟩,
  ⟨ARG_TYPE_LONGPTR_X, ARG_TYPE_NONE, ARG_TYPE_NONE, ARG_TYPE_NONE, PREBYTE_PWSP, 0x6E, 2, GEN_FLAG_ARG_DST ||| GEN_FLAG_NONE⟩,
  ⟨ARG_TYPE_SHORTPTR_Y, ARG_TYPE_NONE, ARG_TYPE_NONE, ARG_TYPE_NONE, PREBYTE_PIY, 0x6E, 1, GEN_FLAG_ARG_DST ||| GEN_FLAG_NONE⟩,
  ⟨ARG_TYPE_NONE, ARG_TYPE_NONE, ARG_TYPE_NONE, ARG_TYPE_NONE, PREBYTE_NONE, 0x00, 0, GEN_FLAG_END⟩]

/-- The table `_gen_info_tnz`. -/
def _gen_info_tnz : List gen_info_t := [
  ⟨ARG_TYPE_A, ARG_TYPE_NONE, ARG_TYPE_NONE, ARG_TYPE_NONE, PREBYTE_NONE, 0x4D, 0, GEN_FLAG_NONE⟩,
  ⟨ARG_TYPE_SHORTMEM, ARG_TYPE_NONE, ARG_TYPE_NONE, ARG_TYPE_NONE, PREBYTE_NONE, 0x3D, 1, GEN_FLAG_ARG_DST ||| GEN_FLAG_NONE⟩,
  ⟨ARG_TYPE_LONGMEM, ARG_TYPE_NONE, ARG_TYPE_NONE, ARG_TYPE_NONE, PREBYTE_PWSP, 0x5D, 2, GEN_FLAG_ARG_DST ||| GEN_FLAG_NONE⟩,
  ⟨ARG_TYPE_OFF_X, ARG_TYPE_NONE, ARG_TYPE_NONE, ARG_TYPE_NONE, PREBYTE_NONE, 0x7D, 0, GEN_FLAG_NONE⟩,
  ⟨ARG_TYPE_SHORTOFF_X, ARG_TYPE_NONE, ARG_TYPE_NONE, ARG_TYPE_NONE, PREBYTE_NONE, 0x6D, 1, GEN_FLAG_ARG_DST ||| GEN_FLAG_NONE⟩,
  ⟨ARG_TYPE_LONGOFF_X, ARG_TYPE_NONE, ARG_TYPE_NONE, ARG_TYPE_NONE, PREBYTE_PWSP, 0x4D, 2, GEN_FLAG_ARG_DST ||| GEN_FLAG_NONE⟩,
  ⟨ARG_TYPE_OFF_Y, ARG_TYPE_NONE, ARG_TYPE_NONE, ARG_TYPE_NONE, PREBYTE_PDY, 0x7D, 0, GEN_FLAG_NONE⟩,
  ⟨ARG_TYPE_SHORTOFF_Y, ARG_TYPE_NONE, ARG_TYPE_NONE, ARG_TYPE_NONE, PREBYTE_PDY, 0x6D, 1, GEN_FLAG_ARG_DST ||| GEN_FLAG_NONE⟩,
  ⟨ARG_TYPE_LONGOFF_Y, ARG_TYPE_NONE, ARG_TYPE_NONE, ARG_TYPE_NONE, PREBYTE_PDY, 0x4D, 2, GEN_FLAG_ARG_DST ||| GEN_FLAG_NONE⟩,
  ⟨ARG_TYPE_SHORTOFF_SP, ARG_TYPE_NONE, ARG_TYPE_NONE, ARG_TYPE_NONE, PREBYTE_NONE, 0x0D, 1, GEN_FLAG_ARG_DST ||| GEN_FLAG_NONE⟩,
  ⟨ARG_TYPE_SHORTPTR, ARG_TYPE_NONE, ARG_TYPE_NONE, ARG_TYPE_NONE, PREBYTE_PIX, 0x3D, 1, GEN_FLAG_ARG_DST ||| GEN_FLAG_NONE⟩,
  ⟨ARG_TYPE_LONGPTR, ARG_TYPE_NONE, ARG_TYPE_NONE, ARG_TYPE_NONE, PREBYTE_PWSP, 0x3D, 2, GEN_FLAG_ARG_DST ||| GEN_FLAG_NONE⟩,
  ⟨ARG_TYPE_SHORTPTR_X, ARG_TYPE_NONE, ARG_TYPE_NONE, ARG_TYPE_NONE, PREBYTE_PIX, 0x6D, 1, GEN_FLAG_ARG_DST ||| GEN_FLAG_NONE⟩,
  ⟨ARG_TYPE_LONGPTR_X, ARG_TYPE_NONE, ARG_TYPE_NONE, ARG_TYPE_NONE, PREBYTE_PWSP, 0x6D, 2, GEN_FLAG_ARG_DST ||| GEN_FLAG_NONE⟩,
  ⟨ARG_TYPE_SHORTPTR_Y, ARG_TYPE_NONE, ARG_TYPE_NONE, ARG_TYPE_NONE, PREBYTE_PIY, 0x6D, 1, GEN_FLAG_ARG_DST ||| GEN_FLAG_NONE⟩,
  ⟨ARG_TYPE_NONE, ARG_TYPE_NONE, ARG_TYPE_NONE, ARG_TYPE_NONE, PREBYTE_NONE, 0x00, 0, GEN_FLAG_END⟩]

/-- The table `_gen_info_xor`. -/
def _gen_info_xor : List gen_info_t := [
  ⟨ARG_TYPE_A, ARG_TYPE_BYTE, ARG_TYPE_NONE, ARG_TYPE_NONE, PREBYTE_NONE, 0xA8, 1, GEN_FLAG_NONE⟩,
  ⟨ARG_TYPE_A, ARG_TYPE_SHORTMEM, ARG_TYPE_NONE, ARG_TYPE_NONE, PREBYTE_NONE, 0xB8, 1, GEN_FLAG_NONE⟩,
  ⟨ARG_TYPE_A, ARG_TYPE_LONGMEM, ARG_TYPE_NONE, ARG_TYPE_NONE, PREBYTE_NONE, 0xC8, 2, GEN_FLAG_NONE⟩,
  ⟨ARG_TYPE_A, ARG_TYPE_OFF_X, ARG_TYPE_NONE, ARG_TYPE_NONE, PREBYTE_NONE, 0xF8, 0, GEN_FLAG_NONE⟩,
  ⟨ARG_TYPE_A, ARG_TYPE_SHORTOFF_X, ARG_TYPE_NONE, ARG_TYPE_NONE, PREBYTE_NONE, 0xE8, 1, GEN_FLAG_NONE⟩,
  ⟨ARG_TYPE_A, ARG_TYPE_LONGOFF_X, ARG_TYPE_NONE, ARG_TYPE_NONE, PREBYTE_NONE, 0xD8, 2, GEN_FLAG_NONE⟩,
  ⟨ARG_TYPE_A, ARG_TYPE_OFF_Y, ARG_TYPE_NONE, ARG_TYPE_NONE, PREBYTE_PDY, 0xF8, 0, GEN_FLAG_NONE⟩,
  ⟨ARG_TYPE_A, ARG_TYPE_SHORTOFF_Y, ARG_TYPE_NONE, ARG_TYPE_NONE, PREBYTE_PDY, 0xE8, 1, GEN_FLAG_NONE⟩,
  ⟨ARG_TYPE_A, ARG_TYPE_LONGOFF_Y, ARG_TYPE_NONE, ARG_TYPE_NONE, PREBYTE_PDY, 0xD8, 2, GEN_FLAG_NONE⟩,
  ⟨ARG_TYPE_A, ARG_TYPE_SHORTOFF_SP, ARG_TYPE_NONE, ARG_TYPE_NONE, PREBYTE_NONE, 0x18, 1, GEN_FLAG_NONE⟩,
  ⟨ARG_TYPE_A, ARG_TYPE_SHORTPTR, ARG_TYPE_NONE, ARG_TYPE_NONE, PREBYTE_PIX, 0xC8, 1, GEN_FLAG_NONE⟩,
  ⟨ARG_TYPE_A, ARG_TYPE_LONGPTR, ARG_TYPE_NONE, ARG_TYPE_NONE, PREBYTE_PWSP, 0xC8, 2, GEN_FLAG_NONE⟩,
  ⟨ARG_TYPE_A, ARG_TYPE_SHORTPTR_X, ARG_TYPE_NONE, ARG_TYPE_NONE, PREBYTE_PIX, 0xD8, 1, GEN_FLAG_NONE⟩,
  ⟨ARG_TYPE_A, ARG_TYPE_LONGPTR_X, ARG_TYPE_NONE, ARG_TYPE_NONE, PREBYTE_PWSP, 0xD8, 2, GEN_FLAG_NONE⟩,
  ⟨ARG_TYPE_A, ARG_TYPE_SHORTPTR_Y, ARG_TYPE_NONE, ARG_TYPE_NONE, PREBYTE_PIY, 0xD8, 1, GEN_FLAG_NONE⟩,
  ⟨ARG_TYPE_NONE, ARG_TYPE_NONE, ARG_TYPE_NONE, ARG_TYPE_NONE, PREBYTE_NONE, 0x00, 0, GEN_FLAG_END⟩]

/-- The table `_gen_info_callr`. -/
def _gen_info_callr : List gen_info_t := [
  ⟨ARG_TYPE_SHORTMEM, ARG_TYPE_NONE, ARG_TYPE_NONE, ARG_TYPE_NONE, PREBYTE_NONE, 0xAD, 1, GEN_FLAG_NONE⟩]

/-- The table `_gen_info_jra`. -/
def _gen_info_jra : List gen_info_t := [
  ⟨ARG_TYPE_SHORTMEM, ARG_TYPE_NONE, ARG_TYPE_NONE, ARG_TYPE_NONE, PREBYTE_NONE, 0x20, 1, GEN_FLAG_NONE⟩]

/-- The table `_gen_info_jreq`. -/
def _gen_info_jreq : List gen_info_t := [
  ⟨ARG_TYPE_SHORTMEM, ARG_TYPE_NONE, ARG_TYPE_NONE, ARG_TYPE_NONE, PREBYTE_NONE, 0x27, 1, GEN_FLAG_NONE⟩]

/-- The table `_gen_info_jrf`. -/
def _gen_info_jrf : List gen_info_t := [
  ⟨ARG_TYPE_SHORTMEM, ARG_TYPE_NONE, ARG_TYPE_NONE, ARG_TYPE_NONE, PREBYTE_NONE, 0x21, 1, GEN_FLAG_NONE⟩]

/-- The table `_gen_info_jrh`. -/
def _gen_info_jrh : List gen_info_t := [
  ⟨ARG_TYPE_SHORTMEM, ARG_TYPE_NONE, ARG_TYPE_NONE, ARG_TYPE_NONE, PREBYTE_PDY, 0x29, 1, GEN_FLAG_NONE⟩]

/-- The table `_gen_info_jrih`. -/
def _gen_info_jrih : List gen_info_t := [
  ⟨ARG_TYPE_SHORTMEM, ARG_TYPE_NONE, ARG_TYPE_NONE, ARG_TYPE_NONE, PREBYTE_PDY, 0x2F, 1, GEN_FLAG_NONE⟩]

/-- The table `_gen_info_jril`. -/
def _gen_info_jril : List gen_info_t := [
  ⟨ARG_TYPE_SHORTMEM, ARG_TYPE_NONE, ARG_TYPE_NONE, ARG_TYPE_NONE, PREBYTE_PDY, 0x2E, 1, GEN_FLAG_NONE⟩]

/-- The table `_gen_info_jrm`. -/
def _gen_info_jrm : List gen_info_t := [
  ⟨ARG_TYPE_SHORTMEM, ARG_TYPE_NONE, ARG_TYPE_NONE, ARG_TYPE_NONE, PREBYTE_PDY, 0x2D, 1, GEN_FLAG_NONE⟩]

/-- The table `_gen_info_jrmi`. -/
def _gen_info_jrmi : List gen_info_t := [
  ⟨ARG_TYPE_SHORTMEM, ARG_TYPE_NONE, ARG_TYPE_NONE, ARG_TYPE_NONE, PREBYTE_NONE, 0x2B, 1, GEN_FLAG_NONE⟩]

/-- The table `_gen_info_jrnc`. -/
def _gen_info_jrnc : List gen_info_t := [
  ⟨ARG_TYPE_SHORTMEM, ARG_TYPE_NONE, ARG_TYPE_NONE, ARG_TYPE_NONE, PREBYTE_NONE, 0x24, 1, GEN_FLAG_NONE⟩]

/-- The table `_gen_info_jrne`. -/
def _gen_info_jrne : List gen_info_t := [
  ⟨ARG_TYPE_SHORTMEM, ARG_TYPE_NONE, ARG_TYPE_NONE, ARG_TYPE_NONE, PREBYTE_NONE, 0x26, 1, GEN_FLAG_NONE⟩]

/-- The table `_gen_info_jrnh`. -/
def _gen_info_jrnh : List gen_info_t := [
  ⟨ARG_TYPE_SHORTMEM, ARG_TYPE_NONE, ARG_TYPE_NONE, ARG_TYPE_NONE, PREBYTE_PDY, 0x28, 1, GEN_FLAG_NONE⟩]

/-- The table `_gen_info_jrnm`. -/
def _gen_info_jrnm : List gen_info_t := [
  ⟨ARG_TYPE_SHORTMEM, ARG_TYPE_NONE, ARG_TYPE_NONE, ARG_TYPE_NONE, PREBYTE_PDY, 0x2C, 1, GEN_FLAG_NONE⟩]

/-- The table `_gen_info_jrnv`. -/
def _gen_info_jrnv : List gen_info_t := [
  ⟨ARG_TYPE_SHORTMEM, ARG_TYPE_NONE, ARG_TYPE_NONE, ARG_TYPE_NONE, PREBYTE_NONE, 0x28, 1, GEN_FLAG_NONE⟩]

/-- The table `_gen_info_jrpl`. -/
def _gen_info_jrpl : List gen_info_t := [
  ⟨ARG_TYPE_SHORTMEM, ARG_TYPE_NONE, ARG_TYPE_NONE, ARG_TYPE_NONE, PREBYTE_NONE, 0x2A, 1, GEN_FLAG_NONE⟩]

/-- The table `_gen_info_jrsge`. -/
def _gen_info_jrsge : List gen_info_t := [
  ⟨ARG_TYPE_SHORTMEM, ARG_TYPE_NONE, ARG_TYPE_NONE, ARG_TYPE_NONE, PREBYTE_NONE, 0x2E, 1, GEN_FLAG_NONE⟩]

/-- The table `_gen_info_jrsgt`. -/
def _gen_info_jrsgt : List gen_info_t := [
  ⟨ARG_TYPE_SHORTMEM, ARG_TYPE_NONE, ARG_TYPE_NONE, ARG_TYPE_NONE, PREBYTE_NONE, 0x2C, 1, GEN_FLAG_NONE⟩]

/-- The table `_gen_info_jrsle`. -/
def _gen_info_jrsle : List gen_info_t := [
  ⟨ARG_TYPE_SHORTMEM, ARG_TYPE_NONE, ARG_TYPE_NONE, ARG_TYPE_NONE, PREBYTE_NONE, 0x2D, 1, GEN_FLAG_NONE⟩]

/-- The table `_gen_info_jrslt`. -/
def _gen_info_jrslt : List gen_info_t := [
  ⟨ARG_TYPE_SHORTMEM, ARG_TYPE_NONE, ARG_TYPE_NONE, ARG_TYPE_NONE, PREBYTE_NONE, 0x2F, 1, GEN_FLAG_NONE⟩]

/-- The table `_gen_info_jrt`. -/
def _gen_info_jrt : List gen_info_t := [
  ⟨ARG_TYPE_SHORTMEM, ARG_TYPE_NONE, ARG_TYPE_NONE, ARG_TYPE_NONE, PREBYTE_NONE, 0x20, 1, GEN_FLAG_NONE⟩]

/-- The table `_gen_info_jruge`. -/
def _gen_info_jruge : List gen_info_t := [
  ⟨ARG_TYPE_SHORTMEM, ARG_TYPE_NONE, ARG_TYPE_NONE, ARG_TYPE_NONE, PREBYTE_NONE, 0x24, 1, GEN_FLAG_NONE⟩]

/-- The table `_gen_info_jrugt`. -/
def _gen_info_jrugt : List gen_info_t := [
  ⟨ARG_TYPE_SHORTMEM, ARG_TYPE_NONE, ARG_TYPE_NONE, ARG_TYPE_NONE, PREBYTE_NONE, 0x22, 1, GEN_FLAG_NONE⟩]

/-- The table `_gen_info_jrule`. -/
def _gen_info_jrule : List gen_info_t := [
  ⟨ARG_TYPE_SHORTMEM, ARG_TYPE_NONE, ARG_TYPE_NONE, ARG_TYPE_NONE, PREBYTE_NONE, 0x23, 1, GEN_FLAG_NONE⟩]

/-- The table `_gen_info_jrc`. -/
def _gen_info_jrc : List gen_info_t := [
  ⟨ARG_TYPE_SHORTMEM, ARG_TYPE_NONE, ARG_TYPE_NONE, ARG_TYPE_NONE, PREBYTE_NONE, 0x25, 1, GEN_FLAG_NONE⟩]

/-- The table `_gen_info_jrult`. -/
def _gen_info_jrult : List gen_info_t := [
  ⟨ARG_TYPE_SHORTMEM, ARG_TYPE_NONE, ARG_TYPE_NONE, ARG_TYPE_NONE, PREBYTE_NONE, 0x25, 1, GEN_FLAG_NONE⟩]

/-- The table `_gen_info_jrv`. -/
def _gen_info_jrv : List gen_info_t := [
  ⟨ARG_TYPE_SHORTMEM, ARG_TYPE_NONE, ARG_TYPE_NONE, ARG_TYPE_NONE, PREBYTE_NONE, 0x29, 1, GEN_FLAG_NONE⟩]

/-- The table `_gen_info_btjt`. -/
def _gen_info_btjt : List gen_info_t := [
  ⟨ARG_TYPE_LONGMEM, ARG_TYPE_BYTE, ARG_TYPE_SHORTMEM, ARG_TYPE_NONE, PREBYTE_PWSP, 0x00, 0, GEN_FLAG_EVEN⟩]

/-- The table `_gen_info_btjf`. -/
def _gen_info_btjf : List gen_info_t := [
  ⟨ARG_TYPE_LONGMEM, ARG_TYPE_BYTE, ARG_TYPE_SHORTMEM, ARG_TYPE_NONE, PREBYTE_PWSP, 0x00, 0, GEN_FLAG_ODD⟩]

/-- The table `_gen_info_bset`. -/
def _gen_info_bset : List gen_info_t := [
  ⟨ARG_TYPE_LONGMEM, ARG_TYPE_BYTE, ARG_TYPE_NONE, ARG_TYPE_NONE, PREBYTE_PWSP, 0x10, 0, GEN_FLAG_EVEN⟩]

/-- The table `_gen_info_bres`. -/
def _gen_info_bres : List gen_info_t := [
  ⟨ARG_TYPE_LONGMEM, ARG_TYPE_BYTE, ARG_TYPE_NONE, ARG_TYPE_NONE, PREBYTE_PWSP, 0x10, 0, GEN_FLAG_ODD⟩]

/-- The table `_gen_info_bccm`. -/
def _gen_info_bccm : List gen_info_t := [
  ⟨ARG_TYPE_LONGMEM, ARG_TYPE_BYTE, ARG_TYPE_NONE, ARG_TYPE_NONE, PREBYTE_PDY, 0x10, 0, GEN_FLAG_ODD⟩]

/-- The table `_gen_info_bcpl`. -/
def _gen_info_bcpl : List gen_info_t := [
  ⟨ARG_TYPE_LONGMEM, ARG_TYPE_BYTE, ARG_TYPE_NONE, ARG_TYPE_NONE, PREBYTE_PDY, 0x10, 0, GEN_FLAG_EVEN⟩]

/-- The table `_gen_functions`, entries 1 to 35. -/
def _gen_functions_1 : List gen_functions_t := [
  ⟨cstr "adc", gen_func_t._assemble_uni, _gen_info_adc⟩,
  ⟨cstr "add", gen_func_t._assemble_uni, _gen_info_add⟩,
  ⟨cstr "addw", gen_func_t._assemble_uni, _gen_info_addw⟩,
  ⟨cstr "and", gen_func_t._assemble_uni, _gen_info_and⟩,
  ⟨cstr "bccm", gen_func_t._assemble_bit, _gen_info_bccm⟩,
  ⟨cstr "bcp", gen_func_t._assemble_uni, _gen_info_bcp⟩,
  ⟨cstr "bcpl", gen_func_t._assemble_bit, _gen_info_bcpl⟩,
  ⟨cstr "break", gen_func_t._assemble_uni, _gen_info_break⟩,
  ⟨cstr "bres", gen_func_t._assemble_bit, _gen_info_bres⟩,
  ⟨cstr "bset", gen_func_t._assemble_bit, _gen_info_bset⟩,
  ⟨cstr "btjf", gen_func_t._assemble_bit, _gen_info_btjf⟩,
  ⟨cstr "btjt", gen_func_t._assemble_bit, _gen_info_btjt⟩,
  ⟨cstr "call", gen_func_t._assemble_uni, _gen_info_call⟩,
  ⟨cstr "callf", gen_func_t._assemble_uni, _gen_info_callf⟩,
  ⟨cstr "callr", gen_func_t._assemble_jr, _gen_info_callr⟩,
  ⟨cstr "ccf", gen_func_t._assemble_uni, _gen_info_ccf⟩,
  ⟨cstr "clr", gen_func_t._assemble_uni, _gen_info_clr⟩,
  ⟨cstr "clrw", gen_func_t._assemble_uni, _gen_info_clrw⟩,
  ⟨cstr "cp", gen_func_t._assemble_uni, _gen_info_cp⟩,
  ⟨cstr "cpw", gen_func_t._assemble_uni, _gen_info_cpw⟩,
  ⟨cstr "cpl", gen_func_t._assemble_uni, _gen_info_cpl⟩,
  ⟨cstr "cplw", gen_func_t._assemble_uni, _gen_info_cplw⟩,
  ⟨cstr "dec", gen_func_t._assemble_uni, _gen_info_dec⟩,
  ⟨cstr "decw", gen_func_t._assemble_uni, _gen_info_decw⟩,
  ⟨cstr "div", gen_func_t._assemble_uni, _gen_info_div⟩,
  ⟨cstr "divw", gen_func_t._assemble_uni, _gen_info_divw⟩,
  ⟨cstr "exg", gen_func_t._assemble_uni, _gen_info_exg⟩,
  ⟨cstr "exgw", gen_func_t._assemble_uni, _gen_info_exgw⟩,
  ⟨cstr "halt", gen_func_t._assemble_uni, _gen_info_halt⟩,
  ⟨cstr "inc", gen_func_t._assemble_uni, _gen_info_inc⟩,
  ⟨cstr "incw", gen_func_t._assemble_uni, _gen_info_incw⟩,
  ⟨cstr "int", gen_func_t._assemble_uni, _gen_info_int⟩,
  ⟨cstr "iret", gen_func_t._assemble_uni, _gen_info_iret⟩,
  ⟨cstr "jp", gen_func_t._assemble_uni, _gen_info_jp⟩,
  ⟨cstr "jpf", gen_func_t._assemble_uni, _gen_info_jpf⟩]

/-- The table `_gen_functions`, entries 36 to 70. -/
def _gen_functions_2 : List gen_functions_t := [
  ⟨cstr "jra", gen_func_t._assemble_jr, _gen_info_jra⟩,
  ⟨cstr "jreq", gen_func_t._assemble_jr, _gen_info_jreq⟩,
  ⟨cstr "jrf", gen_func_t._assemble_jr, _gen_info_jrf⟩,
  ⟨cstr "jrh", gen_func_t._assemble_jr, _gen_info_jrh⟩,
  ⟨cstr "jrih", gen_func_t._assemble_jr, _gen_info_jrih⟩,
  ⟨cstr "jril", gen_func_t._assemble_jr, _gen_info_jril⟩,
  ⟨cstr "jrm", gen_func_t._assemble_jr, _gen_info_jrm⟩,
  ⟨cstr "jrmi", gen_func_t._assemble_jr, _gen_info_jrmi⟩,
  ⟨cstr "jrnc", gen_func_t._assemble_jr, _gen_info_jrnc⟩,
  ⟨cstr "jrne", gen_func_t._assemble_jr, _gen_info_jrne⟩,
  ⟨cstr "jrnh", gen_func_t._assemble_jr, _gen_info_jrnh⟩,
  ⟨cstr "jrnm", gen_func_t._assemble_jr, _gen_info_jrnm⟩,
  ⟨cstr "jrnv", gen_func_t._assemble_jr, _gen_info_jrnv⟩,
  ⟨cstr "jrpl", gen_func_t._assemble_jr, _gen_info_jrpl⟩,
  ⟨cstr "jrsge", gen_func_t._assemble_jr, _gen_info_jrsge⟩,
  ⟨cstr "jrsgt", gen_func_t._assemble_jr, _gen_info_jrsgt⟩,
  ⟨cstr "jrsle", gen_func_t._assemble_jr, _gen_info_jrsle⟩,
  ⟨cstr "jrslt", gen_func_t._assemble_jr, _gen_info_jrslt⟩,
  ⟨cstr "jrt", gen_func_t._assemble_jr, _gen_info_jrt⟩,
  ⟨cstr "jruge", gen_func_t._assemble_jr, _gen_info_jruge⟩,
  ⟨cstr "jrugt", gen_func_t._assemble_jr, _gen_info_jrugt⟩,
  ⟨cstr "jrule", gen_func_t._assemble_jr, _gen_info_jrule⟩,
  ⟨cstr "jrc", gen_func_t._assemble_jr, _gen_info_jrc⟩,
  ⟨cstr "jrult", gen_func_t._assemble_jr, _gen_info_jrult⟩,
  ⟨cstr "jrv", gen_func_t._assemble_jr, _gen_info_jrv⟩,
  ⟨cstr "ld", gen_func_t._assemble_uni, _gen_info_ld⟩,
  ⟨cstr "ldf", gen_func_t._assemble_uni, _gen_info_ldf⟩,
  ⟨cstr "ldw", gen_func_t._assemble_uni, _gen_info_ldw⟩,
  ⟨cstr "mov", gen_func_t._assemble_mov, []⟩,
  ⟨cstr "neg", gen_func_t._assemble_uni, _gen_info_neg⟩,
  ⟨cstr "negw", gen_func_t._assemble_uni, _gen_info_negw⟩,
  ⟨cstr "mul", gen_func_t._assemble_uni, _gen_info_mul⟩,
  ⟨cstr "nop", gen_func_t._assemble_uni, _gen_info_nop⟩,
  ⟨cstr "or", gen_func_t._assemble_uni, _gen_info_or⟩,
  ⟨cstr "pop", gen_func_t._assemble_uni, _gen_info_pop⟩]

/-- The table `_gen_functions`, entries 71 to 105. -/
def _gen_functions_3 : List gen_functions_t := [
  ⟨cstr "popw", gen_func_t._assemble_uni, _gen_info_popw⟩,
  ⟨cstr "push", gen_func_t._assemble_uni, _gen_info_push⟩,
  ⟨cstr "pushw", gen_func_t._assemble_uni, _gen_info_pushw⟩,
  ⟨cstr "rcf", gen_func_t._assemble_uni, _gen_info_rcf⟩,
  ⟨cstr "ret", gen_func_t._assemble_uni, _gen_info_ret⟩,
  ⟨cstr "retf", gen_func_t._assemble_uni, _gen_info_retf⟩,
  ⟨cstr "rim", gen_func_t._assemble_uni, _gen_info_rim⟩,
  ⟨cstr "rlc", gen_func_t._assemble_uni, _gen_info_rlc⟩,
  ⟨cstr "rlcw", gen_func_t._assemble_uni, _gen_info_rlcw⟩,
  ⟨cstr "rlwa", gen_func_t._assemble_uni, _gen_info_rlwa⟩,
  ⟨cstr "rrc", gen_func_t._assemble_uni, _gen_info_rrc⟩,
  ⟨cstr "rrcw", gen_func_t._assemble_uni, _gen_info_rrcw⟩,
  ⟨cstr "rrwa", gen_func_t._assemble_uni, _gen_info_rrwa⟩,
  ⟨cstr "rvf", gen_func_t._assemble_uni, _gen_info_rvf⟩,
  ⟨cstr "sbc", gen_func_t._assemble_uni, _gen_info_sbc⟩,
  ⟨cstr "scf", gen_func_t._assemble_uni, _gen_info_scf⟩,
  ⟨cstr "sim", gen_func_t._assemble_uni, _gen_info_sim⟩,
  ⟨cstr "sll", gen_func_t._assemble_uni, _gen_info_sll⟩,
  ⟨cstr "sla", gen_func_t._assemble_uni, _gen_info_sll⟩,
  ⟨cstr "sllw", gen_func_t._assemble_uni, _gen_info_sllw⟩,
  ⟨cstr "slaw", gen_func_t._assemble_uni, _gen_info_sllw⟩,
  ⟨cstr "sra", gen_func_t._assemble_uni, _gen_info_sra⟩,
  ⟨cstr "sraw", gen_func_t._assemble_uni, _gen_info_sraw⟩,
  ⟨cstr "srl", gen_func_t._assemble_uni, _gen_info_srl⟩,
  ⟨cstr "srlw", gen_func_t._assemble_uni, _gen_info_srlw⟩,
  ⟨cstr "sub", gen_func_t._assemble_uni, _gen_info_sub⟩,
  ⟨cstr "subw", gen_func_t._assemble_uni, _gen_info_subw⟩,
  ⟨cstr "swap", gen_func_t._assemble_uni, _gen_info_swap⟩,
  ⟨cstr "swapw", gen_func_t._assemble_uni, _gen_info_swapw⟩,
  ⟨cstr "tnz", gen_func_t._assemble_uni, _gen_info_tnz⟩,
  ⟨cstr "tnzw", gen_func_t._assemble_uni, _gen_info_tnzw⟩,
  ⟨cstr "trap", gen_func_t._assemble_uni, _gen_info_trap⟩,
  ⟨cstr "wfi", gen_func_t._assemble_uni, _gen_info_wfi⟩,
  ⟨cstr "wfe", gen_func_t._assemble_uni, _gen_info_wfe⟩,
  ⟨cstr "xor", gen_func_t._assemble_uni, _gen_info_xor⟩]

/-- The table `_gen_functions` (given in three parts); the table of `mov` is `NULL`. -/
def _gen_functions : List gen_functions_t :=
  _gen_functions_1 ++ _gen_functions_2 ++ _gen_functions_3

/-- The function `_assemble`. -/
def _assemble (ctx : asm_context_t) (name : CStr) (args : List arg_t) : Run asm_context_t :=
  _assemble_in _gen_functions ctx name args

/-! ## token.h, token.c -/

/-- The `enum token_type_t`. -/
inductive token_type_t where
  | TOKEN_TYPE_SYMBOL
  | TOKEN_TYPE_LINE
  | TOKEN_TYPE_EOF
  | TOKEN_TYPE_DOT
  | TOKEN_TYPE_EQUAL
  | TOKEN_TYPE_COMMA
  | TOKEN_TYPE_HASH
  | TOKEN_TYPE_COLON
  | TOKEN_TYPE_CURLY_OPEN
  | TOKEN_TYPE_CURLY_CLOSE
  | TOKEN_TYPE_BRACKET_OPEN
  | TOKEN_TYPE_BRACKET_CLOSE
  | TOKEN_TYPE_ROUND_OPEN
  | TOKEN_TYPE_ROUND_CLOSE
  | TOKEN_TYPE_NUMBER
  | TOKEN_TYPE_STRING
  | TOKEN_TYPE_CHAR
  | TOKEN_TYPE_COMMENT
  | TOKEN_TYPE_PLUS
  | TOKEN_TYPE_MINUS
  | TOKEN_TYPE_OR
  | TOKEN_TYPE_XOR
  | TOKEN_TYPE_AND
  | TOKEN_TYPE_SHIFT_LEFT
  | TOKEN_TYPE_SHIFT_RIGHT
  | TOKEN_TYPE_MUL
  | TOKEN_TYPE_DIV
  | TOKEN_TYPE_MOD
  | TOKEN_TYPE_NEGATE
  deriving DecidableEq, Repr

open token_type_t

/-- The `enum token_number_format_t`. -/
inductive token_number_format_t where
  | TOKEN_NUMBER_FORMAT_DECIMAL
  | TOKEN_NUMBER_FORMAT_HEX
  | TOKEN_NUMBER_FORMAT_BINARY
  | TOKEN_NUMBER_FORMAT_OCTAL
  deriving DecidableEq, Repr

open token_number_format_t

/-- The enumerator `TOKEN_CURRENT`. -/
def TOKEN_CURRENT : Nat := 0

/-- The enumerator `TOKEN_NEXT`. -/
def TOKEN_NEXT : Nat := 1

/-- The constant `TOKEN_MAX_NAME_SIZE`. -/
def TOKEN_MAX_NAME_SIZE : Nat := 1024

/-- The constant `TOKEN_TRACE_SIZE`. -/
def TOKEN_TRACE_SIZE : Nat := 2048

/-- The result that stands for a loop of the model that ran out of iterations; no
run of the program gives it. -/
def out_of_fuel : String := "model: out of fuel"

/-- The `struct token_t`. `file` holds the bytes of the file that were not read yet
(the read buffer included). `current` and `next` are the last
`trace.ncurrent + trace.nnext` bytes written to the ring `trace.buf`, oldest first:
the bytes of the current token, then the bytes read after it. `rollback` is
`trace.rollback`. The line counter and the file name serve messages only. -/
structure token_t where
  file : List Nat
  current : List Nat
  next : List Nat
  rollback : Nat
  deriving DecidableEq, Repr

/-- The functions `token_new` and `token_prepare` on a file with the given bytes. -/
def token_prepare (content : List Nat) : token_t :=
  { file := content, current := [], next := [], rollback := 0 }

/-- The function `token_getchar`: the next byte of the replayed window while
`rollback` is not 0, else the next byte of the file, which is appended to the
window; `none` at the end of the file. -/
def token_getchar (t : token_t) : Run (Option Nat × token_t) :=
  if t.rollback ≠ 0 then
    let w := t.current ++ t.next
    .ok (some (w.getD (w.length - t.rollback) 0), { t with rollback := t.rollback - 1 })
  else
    match t.file with
    | [] => .ok (none, t)
    | ch :: rest =>
      let t1 := { t with file := rest, next := t.next ++ [ch] }
      if t1.next.length + t1.current.length > TOKEN_TRACE_SIZE then .error "Rollback exceed"
      else .ok (some ch, t1)

/-- The locals of `token_get`: the bytes stored in `token->name` (`tpayload` is their
number), `tlength`, `drop` and `format`. -/
structure token_scan_t where
  name : List Nat
  tlength : Nat
  drop : Nat
  escape : Bool
  number : token_number_format_t
  deriving DecidableEq, Repr

/-- The locals of `token_get` before the loop. -/
def token_scan_init : token_scan_t :=
  { name := [], tlength := 0, drop := 0, escape := false,
    number := TOKEN_NUMBER_FORMAT_DECIMAL }

/-- The ways in which one pass through the body of the loop of `token_get` ends. -/
inductive token_step_t where
  | next (st : token_scan_t)
  | brk (st : token_scan_t)
  | ret_null
  | fatal (msg : String)
  deriving DecidableEq, Repr

/-- The test `*ch == '_' || (*ch >= 'a' && *ch <= 'z') || (*ch >= 'A' && *ch <= 'Z')`. -/
def is_symbol_start (ch : Nat) : Bool :=
  ch = 95 ∨ (97 ≤ ch ∧ ch ≤ 122) ∨ (65 ≤ ch ∧ ch ≤ 90)

/-- The test `*ch >= '0' && *ch <= '9'`. -/
def is_digit (ch : Nat) : Bool := 48 ≤ ch ∧ ch ≤ 57

/-- The escape `switch` of the string and character tokens. -/
def token_escape (ch : Nat) : Nat :=
  if ch = 110 then 10 else if ch = 114 then 13 else if ch = 48 then 0 else ch

/-- The `switch` of `token_get` that gives the character of a one-character token. -/
def token_cmp (type : token_type_t) : Option Nat :=
  match type with
  | TOKEN_TYPE_MINUS => some 45
  | TOKEN_TYPE_PLUS => some 43
  | TOKEN_TYPE_DOT => some 46
  | TOKEN_TYPE_EQUAL => some 61
  | TOKEN_TYPE_COMMA => some 44
  | TOKEN_TYPE_HASH => some 35
  | TOKEN_TYPE_COLON => some 58
  | TOKEN_TYPE_CURLY_OPEN => some 123
  | TOKEN_TYPE_CURLY_CLOSE => some 125
  | TOKEN_TYPE_BRACKET_OPEN => some 91
  | TOKEN_TYPE_BRACKET_CLOSE => some 93
  | TOKEN_TYPE_ROUND_OPEN => some 40
  | TOKEN_TYPE_ROUND_CLOSE => some 41
  | TOKEN_TYPE_OR => some 124
  | TOKEN_TYPE_XOR => some 94
  | TOKEN_TYPE_AND => some 38
  | TOKEN_TYPE_MUL => some 42
  | TOKEN_TYPE_DIV => some 47
  | TOKEN_TYPE_MOD => some 37
  | TOKEN_TYPE_NEGATE => some 126
  | _ => none

/-- The statement `token->name[tpayload++] = c; tlength++`. -/
def token_push (st : token_scan_t) (c : Nat) : token_scan_t :=
  { st with name := st.name ++ [c], tlength := st.tlength + 1 }

/-- The statement `tlength++`. -/
def token_skip (st : token_scan_t) : token_scan_t :=
  { st with tlength := st.tlength + 1 }

/-- The branch of the loop of `token_get` for `TOKEN_TYPE_NUMBER`. -/
def token_step_number (ch : Nat) (st : token_scan_t) : token_step_t :=
  if st.tlength = 0 then
    if ch = 36 then .next (token_push { st with number := TOKEN_NUMBER_FORMAT_HEX } ch)
    else if ch = 37 then .next (token_push { st with number := TOKEN_NUMBER_FORMAT_BINARY } ch)
    else if ch = 64 then .next (token_push { st with number := TOKEN_NUMBER_FORMAT_OCTAL } ch)
    else if is_digit ch then
      .next (token_push { st with number := TOKEN_NUMBER_FORMAT_DECIMAL } ch)
    else .ret_null
  else if ch = 95 then .next (token_skip st)
  else
    let ok : Bool :=
      match st.number with
      | TOKEN_NUMBER_FORMAT_HEX =>
        (97 ≤ ch ∧ ch ≤ 102) ∨ (65 ≤ ch ∧ ch ≤ 70) ∨ (48 ≤ ch ∧ ch ≤ 57)
      | TOKEN_NUMBER_FORMAT_BINARY => ch = 48 ∨ ch = 49
      | TOKEN_NUMBER_FORMAT_OCTAL => 48 ≤ ch ∧ ch ≤ 55
      | TOKEN_NUMBER_FORMAT_DECIMAL => 48 ≤ ch ∧ ch ≤ 57
    if ok then .next (token_push st ch) else .brk st

/-- The branch of the loop of `token_get` for `TOKEN_TYPE_STRING`. -/
def token_step_string (ch : Nat) (st : token_scan_t) : token_step_t :=
  if st.tlength = 0 then
    if ch ≠ 34 then .ret_null else .next (token_skip st)
  else if st.escape then .next (token_push { st with escape := false } (token_escape ch))
  else if ch = 92 then .next (token_skip { st with escape := true })
  else if ch = 34 then .brk (token_skip st)
  else .next (token_push st ch)

/-- The branch of the loop of `token_get` for `TOKEN_TYPE_CHAR`. -/
def token_step_char (ch : Nat) (st : token_scan_t) : token_step_t :=
  if st.tlength = 0 then
    if ch ≠ 39 then .ret_null else .next (token_skip st)
  else if st.name.length ≠ 0 then
    if ch ≠ 39 then .ret_null else .brk (token_skip st)
  else if st.escape then .next (token_push { st with escape := false } (token_escape ch))
  else if ch = 92 then .next (token_skip { st with escape := true })
  else .next (token_push st ch)

/-- The body of the loop of `token_get` after the byte `ch` was read, the size of the
name was checked and leading blanks were dropped. -/
def token_step (type : token_type_t) (ch : Nat) (st : token_scan_t) : token_step_t :=
  match type with
  | TOKEN_TYPE_EOF => .ret_null
  | TOKEN_TYPE_SYMBOL =>
    if st.tlength = 0 then
      if ¬ is_symbol_start ch then .ret_null else .next (token_push st ch)
    else if ¬ (is_symbol_start ch ∨ is_digit ch) then .brk st
    else .next (token_push st ch)
  | TOKEN_TYPE_NUMBER => token_step_number ch st
  | TOKEN_TYPE_STRING => token_step_string ch st
  | TOKEN_TYPE_CHAR => token_step_char ch st
  | TOKEN_TYPE_COMMENT =>
    if ch = 10 then .brk (token_push st ch)
    else if st.tlength = 0 ∧ ch ≠ 59 then .ret_null
    else .next (token_push st ch)
  | TOKEN_TYPE_LINE =>
    if ch = 10 then .brk (token_push st ch) else .next (token_push st ch)
  | TOKEN_TYPE_SHIFT_LEFT =>
    if ch ≠ 60 then .ret_null
    else if (token_push st ch).name.length = 2 then .brk (token_push st ch)
    else .next (token_push st ch)
  | TOKEN_TYPE_SHIFT_RIGHT =>
    if ch ≠ 62 then .ret_null
    else if (token_push st ch).name.length = 2 then .brk (token_push st ch)
    else .next (token_push st ch)
  | _ =>
    match token_cmp type with
    | none => .fatal "Unspecified token type"
    | some cmp => if ch ≠ cmp then .ret_null else .brk (token_push st ch)

/-- The loop `while (1)` of `token_get`, at most `fuel` passes. The result is the
locals at the `break` (`none` for `return NULL`) and the token state. -/
def token_get_loop (type : token_type_t) :
    Nat → token_t → token_scan_t → Run (Option token_scan_t × token_t)
  | 0, _, _ => .error out_of_fuel
  | fuel + 1, t, st =>
    match token_getchar t with
    | .error e => .error e
    | .ok (none, t1) =>
      if type = TOKEN_TYPE_EOF then .ok (some st, t1) else .ok (none, t1)
    | .ok (some ch, t1) =>
      if st.name.length ≥ TOKEN_MAX_NAME_SIZE then .error "Token size exceed"
      else if st.tlength = 0 ∧ (ch = 32 ∨ ch = 9 ∨ ch = 13) then
        token_get_loop type fuel t1 { st with drop := st.drop + 1 }
      else
        match token_step type ch st with
        | .next st1 => token_get_loop type fuel t1 st1
        | .brk st1 => .ok (some st1, t1)
        | .ret_null => .ok (none, t1)
        | .fatal e => .error e

/-- The string that a `char *` to the bytes `name` followed by a zero byte denotes. -/
def c_string (name : List Nat) : CStr := name.takeWhile (fun b => b ≠ 0)

/-- The function `token_get`. The result is the name of the token (`none` for
`NULL`) and the token state. Every pass of the loop takes a byte of the replayed
window or of the file, so the loop makes at most `rollback + file.length + 1`
passes. -/
def token_get (t : token_t) (type : token_type_t) (whence : Nat) :
    Run (Option CStr × token_t) :=
  let rollback :=
    if whence = TOKEN_CURRENT then t.current.length + t.next.length else t.next.length
  let t0 := { t with rollback := rollback }
  match token_get_loop type (rollback + t.file.length + 1) t0 token_scan_init with
  | .error e => .error e
  | .ok (none, t1) => .ok (none, t1)
  | .ok (some st, t1) =>
    let w := if whence = TOKEN_CURRENT then t1.current ++ t1.next else t1.next
    if st.drop + st.tlength > w.length then .error "Token tlength overflow"
    else
      .ok (some (c_string st.name),
        { t1 with current := (w.drop st.drop).take st.tlength,
                  next := w.drop (st.drop + st.tlength) })

/-- The function `token_drop`. -/
def token_drop (t : token_t) : token_t := { t with current := [] }

/-! ## common/lang_util.c -/

/-- The digit loops of `lang_util_str2num`, from the last character to the first:
`result += digit * weight`, then the weight is advanced, all in `uint64_t`. The
argument is the reversed digit string. -/
def str2num_loop (digit : Nat → Option Nat) (advance : Nat → Nat) :
    List Nat → Nat → Nat → Option Nat
  | [], _, result => some result
  | c :: cs, weight, result =>
    match digit c with
    | none => none
    | some d =>
      str2num_loop digit advance cs (advance weight % 18446744073709551616)
        ((result + d * weight) % 18446744073709551616)

/-- The decimal digit test of `lang_util_str2num`. -/
def digit_decimal (c : Nat) : Option Nat := if 48 ≤ c ∧ c ≤ 57 then some (c - 48) else none

/-- The hexadecimal digit test of `lang_util_str2num`. -/
def digit_hex (c : Nat) : Option Nat :=
  if 48 ≤ c ∧ c ≤ 57 then some (c - 48)
  else if 97 ≤ c ∧ c ≤ 102 then some (c - 97 + 10)
  else if 65 ≤ c ∧ c ≤ 70 then some (c - 65 + 10)
  else none

/-- The binary digit test of `lang_util_str2num`. -/
def digit_binary (c : Nat) : Option Nat := if 48 ≤ c ∧ c ≤ 49 then some (c - 48) else none

/-- The octal digit test of `lang_util_str2num`. -/
def digit_octal (c : Nat) : Option Nat := if 48 ≤ c ∧ c ≤ 55 then some (c - 48) else none

/-- The function `lang_util_str2num`. A first character other than `$`, `%` and `@`
selects the decimal format (the test `*sdata >= '0' || *sdata <= '9'` always
holds). -/
def lang_util_str2num (sdata : CStr) : Run Int :=
  match sdata with
  | [] => .error "Failed to convert to number"
  | c :: rest =>
    let r : Option Nat :=
      if c = 36 then
        if rest.length < 1 then none
        else str2num_loop digit_hex (fun w => w * 16) rest.reverse 1 0
      else if c = 37 then
        if rest.length < 1 then none
        else str2num_loop digit_binary (fun w => w * 2) rest.reverse 1 0
      else if c = 64 then
        if rest.length < 1 then none
        else str2num_loop digit_octal (fun w => w * 8) rest.reverse 1 0
      else str2num_loop digit_decimal (fun w => w * 10) sdata.reverse 1 0
    match r with
    | none => .error "Failed to convert to number"
    | some v => .ok (i64 v)

/-- The loop of the binary branch of `lang_util_num2str`: `weight` is `2 ^ k` for the
bits `k` given, highest first; `num` is the number as `uint64_t`. -/
def num2str_binary_loop (num : Nat) : List Nat → Bool → List Nat
  | [], _ => []
  | k :: ks, print =>
    if num / 2 ^ k % 2 = 1 then 49 :: num2str_binary_loop num ks true
    else if k = 0 ∨ print then 48 :: num2str_binary_loop num ks print
    else num2str_binary_loop num ks print

/-- The loop of the octal branch of `lang_util_num2str`: `weight` is `8 ^ k` for the
exponents `k` given, highest first; `num` is held as `uint64_t` in the comparison,
the division and the subtraction. -/
def num2str_octal_loop : List Nat → Nat → Bool → List Nat
  | [], _, _ => []
  | k :: ks, num, print =>
    let weight := 8 ^ k
    let div := num / weight
    let print1 := if div ≠ 0 then true else print
    let num1 := if num > weight then num - weight else num
    if weight < 8 ∨ print1 then ((div + 48) % 256) :: num2str_octal_loop ks num1 print1
    else num2str_octal_loop ks num1 print1

/-- The function `lang_util_num2str`: the string written to `st`. -/
def lang_util_num2str (num : Int) (format : token_number_format_t) : CStr :=
  match format with
  | TOKEN_NUMBER_FORMAT_BINARY =>
    c_string (37 :: num2str_binary_loop (u64 num) (List.range 64).reverse false)
  | TOKEN_NUMBER_FORMAT_OCTAL =>
    c_string (64 :: num2str_octal_loop (List.range 21).reverse (u64 num) false)
  | _ => []

/-- The name `SYMBOL_CURRENT_LABEL` of symbol.h. -/
def SYMBOL_CURRENT_LABEL : CStr := cstr "##current_label##"

/-- Modelled from the spec: the function `lang_util_question_expand`, whose source is
not among the files. A name that does not start with `?` is left as it is, and a
name that starts with `?` is replaced by the label that the entry
`SYMBOL_CURRENT_LABEL` of the table is bound to (here: the value of the first
attribute of that entry), which is an error when there is no such entry. The name
of a symbol token never starts with `?`. -/
def lang_util_question_expand (sl : symbols_t) (name : CStr) : Run CStr :=
  if name.head? ≠ some 63 then .ok name
  else
    match symbol_find sl SYMBOL_CURRENT_LABEL with
    | none => .error "No current label"
    | some s =>
      match s.attr.head? with
      | some (_, some v) => .ok v
      | _ => .error "No current label"

/-! ## common/symbol.c, continued -/

/-- The function `symbol_get_const`: `none` when there is no symbol of that name; a
symbol that is not a constant is fatal. -/
def symbol_get_const (sl : symbols_t) (name : CStr) : Run (Option Int) :=
  match symbol_find sl name with
  | none => .ok none
  | some s =>
    if s.type ≠ SYMBOL_TYPE_CONST then .error "Symbol not constant" else .ok (some s.val64)

/-! ## common/lang_constexpr.c -/

/-- The constant `EXPR_STACK_SIZE`. -/
def EXPR_STACK_SIZE : Nat := 1024

/-- The state of the evaluator: the token state and the values on `exprstack`,
bottom first (`exprstack.depth` is the length). -/
structure expr_state_t where
  token : token_t
  stack : List Int
  deriving DecidableEq, Repr

/-- The function `_exprstack_push`. The test is `depth > EXPR_STACK_SIZE`; a push at
depth 1024 passes it and writes behind the array, which the model treats as a
plain push. -/
def _exprstack_push (s : expr_state_t) (value : Int) : Run expr_state_t :=
  if s.stack.length > EXPR_STACK_SIZE then .error "Expression stack overflow"
  else .ok { s with stack := s.stack ++ [value] }

/-- The function `_exprstack_pop`. -/
def _exprstack_pop (s : expr_state_t) : Run (Int × expr_state_t) :=
  match s.stack.reverse with
  | [] => .error "Expression stack underflow"
  | v :: rest => .ok (v, { s with stack := rest.reverse })

/-- The call `token_get(token, type, TOKEN_NEXT)` of the evaluator: whether the token
was there. -/
def expr_token (s : expr_state_t) (type : token_type_t) : Run (Option CStr × expr_state_t) :=
  match token_get s.token type TOKEN_NEXT with
  | .error e => .error e
  | .ok (r, t) => .ok (r, { s with token := t })

/-- The operators of the evaluator. -/
inductive expr_op_t where
  | OP_OR | OP_XOR | OP_AND | OP_SHIFT_LEFT | OP_SHIFT_RIGHT | OP_ADD | OP_SUBSTRUCT
  | OP_MUL | OP_DIV | OP_MOD
  deriving DecidableEq, Repr

open expr_op_t

/-- The C expression `operand1 op operand2` on `int64_t`. Sums, differences and
products wrap around; a shift takes the count modulo 64 and `>>` keeps the sign
(the behaviour of the x86-64 instructions where C leaves the result open);
a division or remainder by zero, or of the least value by -1, stops the program
with the signal SIGFPE. -/
def expr_apply (op : expr_op_t) (operand1 operand2 : Int) : Run Int :=
  match op with
  | OP_OR => .ok (i64 (Int.ofNat (u64 operand1 ||| u64 operand2)))
  | OP_XOR => .ok (i64 (Int.ofNat (u64 operand1 ^^^ u64 operand2)))
  | OP_AND => .ok (i64 (Int.ofNat (u64 operand1 &&& u64 operand2)))
  | OP_SHIFT_LEFT => .ok (i64 (operand1 * 2 ^ (u64 operand2 % 64)))
  | OP_SHIFT_RIGHT => .ok (operand1 / 2 ^ (u64 operand2 % 64))
  | OP_ADD => .ok (i64 (operand1 + operand2))
  | OP_SUBSTRUCT => .ok (i64 (operand1 - operand2))
  | OP_MUL => .ok (i64 (operand1 * operand2))
  | OP_DIV =>
    if operand2 = 0 ∨ (operand1 = -9223372036854775808 ∧ operand2 = -1) then .error "SIGFPE"
    else .ok (Int.tdiv operand1 operand2)
  | OP_MOD =>
    if operand2 = 0 ∨ (operand1 = -9223372036854775808 ∧ operand2 = -1) then .error "SIGFPE"
    else .ok (Int.tmod operand1 operand2)

/-- The statements `operand2 = pop(); operand1 = pop(); push(operand1 op operand2)`. -/
def expr_binary (s : expr_state_t) (op : expr_op_t) : Run expr_state_t := do
  let (operand2, s1) ← _exprstack_pop s
  let (operand1, s2) ← _exprstack_pop s1
  let v ← expr_apply op operand1 operand2
  _exprstack_push s2 v

mutual

/-- The function `_expr`. The first argument bounds the depth of the calls. -/
def _expr (sl : symbols_t) : Nat → expr_state_t → Run expr_state_t
  | 0, _ => .error out_of_fuel
  | fuel + 1, s => do
    let s1 ← _or_opd sl fuel s
    _exprr sl fuel s1

/-- The function `_exprr`. -/
def _exprr (sl : symbols_t) : Nat → expr_state_t → Run expr_state_t
  | 0, _ => .error out_of_fuel
  | fuel + 1, s => do
    let (r, s1) ← expr_token s TOKEN_TYPE_OR
    match r with
    | none => pure s1
    | some _ =>
      let s2 ← _or_opd sl fuel s1
      let s3 ← expr_binary s2 OP_OR
      _exprr sl fuel s3

/-- The function `_or_opd`. -/
def _or_opd (sl : symbols_t) : Nat → expr_state_t → Run expr_state_t
  | 0, _ => .error out_of_fuel
  | fuel + 1, s => do
    let s1 ← _xor_opd sl fuel s
    _or_opdr sl fuel s1

/-- The function `_or_opdr`. -/
def _or_opdr (sl : symbols_t) : Nat → expr_state_t → Run expr_state_t
  | 0, _ => .error out_of_fuel
  | fuel + 1, s => do
    let (r, s1) ← expr_token s TOKEN_TYPE_XOR
    match r with
    | none => pure s1
    | some _ =>
      let s2 ← _xor_opd sl fuel s1
      let s3 ← expr_binary s2 OP_XOR
      _or_opdr sl fuel s3

/-- The function `_xor_opd`. -/
def _xor_opd (sl : symbols_t) : Nat → expr_state_t → Run expr_state_t
  | 0, _ => .error out_of_fuel
  | fuel + 1, s => do
    let s1 ← _and_opd sl fuel s
    _xor_opdr sl fuel s1

/-- The function `_xor_opdr`. -/
def _xor_opdr (sl : symbols_t) : Nat → expr_state_t → Run expr_state_t
  | 0, _ => .error out_of_fuel
  | fuel + 1, s => do
    let (r, s1) ← expr_token s TOKEN_TYPE_AND
    match r with
    | none => pure s1
    | some _ =>
      let s2 ← _and_opd sl fuel s1
      let s3 ← expr_binary s2 OP_AND
      _xor_opdr sl fuel s3

/-- The function `_and_opd`. -/
def _and_opd (sl : symbols_t) : Nat → expr_state_t → Run expr_state_t
  | 0, _ => .error out_of_fuel
  | fuel + 1, s => do
    let s1 ← _shift_opd sl fuel s
    _and_opdr sl fuel s1

/-- The function `_and_opdr`. -/
def _and_opdr (sl : symbols_t) : Nat → expr_state_t → Run expr_state_t
  | 0, _ => .error out_of_fuel
  | fuel + 1, s => do
    let (r1, s1) ← expr_token s TOKEN_TYPE_SHIFT_LEFT
    let (op, s2) ←
      match r1 with
      | some _ => pure (some OP_SHIFT_LEFT, s1)
      | none => do
        let (r2, s2) ← expr_token s1 TOKEN_TYPE_SHIFT_RIGHT
        match r2 with
        | some _ => pure (some OP_SHIFT_RIGHT, s2)
        | none => pure (none, s2)
    match op with
    | none => pure s2
    | some operation =>
      let s3 ← _shift_opd sl fuel s2
      let s4 ← expr_binary s3 operation
      _and_opdr sl fuel s4

/-- The function `_shift_opd`. -/
def _shift_opd (sl : symbols_t) : Nat → expr_state_t → Run expr_state_t
  | 0, _ => .error out_of_fuel
  | fuel + 1, s => do
    let s1 ← _add_opd sl fuel s
    _shift_opdr sl fuel s1

/-- The function `_shift_opdr`. -/
def _shift_opdr (sl : symbols_t) : Nat → expr_state_t → Run expr_state_t
  | 0, _ => .error out_of_fuel
  | fuel + 1, s => do
    let (r1, s1) ← expr_token s TOKEN_TYPE_PLUS
    let (op, s2) ←
      match r1 with
      | some _ => pure (some OP_ADD, s1)
      | none => do
        let (r2, s2) ← expr_token s1 TOKEN_TYPE_MINUS
        match r2 with
        | some _ => pure (some OP_SUBSTRUCT, s2)
        | none => pure (none, s2)
    match op with
    | none => pure s2
    | some operation =>
      let s3 ← _add_opd sl fuel s2
      let s4 ← expr_binary s3 operation
      _shift_opdr sl fuel s4

/-- The function `_add_opd`. -/
def _add_opd (sl : symbols_t) : Nat → expr_state_t → Run expr_state_t
  | 0, _ => .error out_of_fuel
  | fuel + 1, s => do
    let s1 ← _mul_opd sl fuel s
    _add_opdr sl fuel s1

/-- The function `_add_opdr`. -/
def _add_opdr (sl : symbols_t) : Nat → expr_state_t → Run expr_state_t
  | 0, _ => .error out_of_fuel
  | fuel + 1, s => do
    let (r1, s1) ← expr_token s TOKEN_TYPE_MUL
    let (op, s3) ←
      match r1 with
      | some _ => pure (some OP_MUL, s1)
      | none => do
        let (r2, s2) ← expr_token s1 TOKEN_TYPE_DIV
        match r2 with
        | some _ => pure (some OP_DIV, s2)
        | none => do
          let (r3, s3) ← expr_token s2 TOKEN_TYPE_MOD
          match r3 with
          | some _ => pure (some OP_MOD, s3)
          | none => pure (none, s3)
    match op with
    | none => pure s3
    | some operation =>
      let s4 ← _mul_opd sl fuel s3
      let s5 ← expr_binary s4 operation
      _add_opdr sl fuel s5

/-- The function `_mul_opd`. -/
def _mul_opd (sl : symbols_t) : Nat → expr_state_t → Run expr_state_t
  | 0, _ => .error out_of_fuel
  | fuel + 1, s => do
    let (r, s1) ← expr_token s TOKEN_TYPE_NEGATE
    match r with
    | some _ =>
      let s2 ← _not_opd sl fuel s1
      let (operand, s3) ← _exprstack_pop s2
      _exprstack_push s3 (-operand - 1)
    | none => _not_opd sl fuel s1

/-- The function `_not_opd`. -/
def _not_opd (sl : symbols_t) : Nat → expr_state_t → Run expr_state_t
  | 0, _ => .error out_of_fuel
  | fuel + 1, s => do
    let (r1, s1) ← expr_token s TOKEN_TYPE_NUMBER
    match r1 with
    | some tname =>
      let value ← lang_util_str2num tname
      _exprstack_push s1 value
    | none =>
      let (r2, s2) ← expr_token s1 TOKEN_TYPE_SYMBOL
      match r2 with
      | some tname =>
        let name ← lang_util_question_expand sl tname
        let v ← symbol_get_const sl name
        match v with
        | none => .error "Symbol not found"
        | some value => _exprstack_push s2 value
      | none =>
        let (r3, s3) ← expr_token s2 TOKEN_TYPE_ROUND_OPEN
        match r3 with
        | some _ =>
          let s4 ← _expr sl fuel s3
          let (r4, s5) ← expr_token s4 TOKEN_TYPE_ROUND_CLOSE
          match r4 with
          | none => .error "Missing \")\" in expr"
          | some _ => pure s5
        | none => .error "Empty expression"

end

/-- The function `lang_constexpr`: the value (`none` for the result -1, when no `{`
follows) and the token state. The depth of the calls of `_expr` is bounded by 16
calls for each byte that the expression can take from the window and the file. -/
def lang_constexpr (sl : symbols_t) (token : token_t) : Run (Option Int × token_t) := do
  let (r, t1) ← token_get token TOKEN_TYPE_CURLY_OPEN TOKEN_NEXT
  match r with
  | none => pure (none, t1)
  | some _ =>
    let s ← _expr sl (16 * (t1.next.length + t1.file.length + 2)) { token := t1, stack := [] }
    let (value, s1) ← _exprstack_pop s
    let (r2, t2) ← token_get s1.token TOKEN_TYPE_CURLY_CLOSE TOKEN_NEXT
    match r2 with
    | none => .error "Missing \"\x7d\" in expr"
    | some _ => pure (some value, token_drop t2)

/-! ## asm/lang.c

A result of type `int` is 0 or -1 as in the source; a call of `app_close` is an error
of `Run`. -/

/-- The function `lang_comment`. -/
def lang_comment (token : token_t) : Run (Int × token_t) :=
  match token_get token TOKEN_TYPE_COMMENT TOKEN_NEXT with
  | .error e => .error e
  | .ok (some _, t) => .ok (0, t)
  | .ok (none, t) => .ok (-1, t)

/-- The function `lang_eof`. -/
def lang_eof (token : token_t) : Run (Int × token_t) :=
  match token_get token TOKEN_TYPE_EOF TOKEN_NEXT with
  | .error e => .error e
  | .ok (some _, t) => .ok (0, t)
  | .ok (none, t) => .ok (-1, t)

/-- The part of `lang_label` after the name, the attribute and the colon were read:
the symbol is created in pass 0 and gets its value and its section in pass 1; a
comment or the end of the line has to follow. -/
def lang_label_define (ctx : asm_context_t) (token : token_t) (name attr : CStr) :
    Run (Int × asm_context_t × token_t) :=
  let r : Run asm_context_t :=
    if ctx.pass = 0 then
      match symbols_add ctx.symbols name (fun s => s) with
      | .error e => .error e
      | .ok sl =>
        let s := { _symbol_create name with type := SYMBOL_TYPE_LABEL }
        if attr ≠ [] then
          match symbol_set_width s attr with
          | .error e => .error e
          | .ok s1 => .ok { ctx with symbols := symbol_update sl name (fun _ => s1) }
        else .ok { ctx with symbols := symbol_update sl name (fun _ => s) }
    else
      match symbol_find ctx.symbols name with
      | none => .error "Label not found"
      | some s =>
        if s.type ≠ SYMBOL_TYPE_LABEL then .error "Label not found"
        else
          match symbol_set_section { s with val64 := ctx_section_length ctx } ctx.sect with
          | .error e => .error e
          | .ok s1 => .ok { ctx with symbols := symbol_update ctx.symbols name (fun _ => s1) }
  match r with
  | .error e => .error e
  | .ok ctx1 =>
    match lang_comment token with
    | .error e => .error e
    | .ok (c, t) =>
      if c < 0 then .error "Unexpected symbols after label" else .ok (0, ctx1, t)

/-- The function `lang_label`. -/
def lang_label (ctx : asm_context_t) (token : token_t) :
    Run (Int × asm_context_t × token_t) :=
  match token_get token TOKEN_TYPE_SYMBOL TOKEN_CURRENT with
  | .error e => .error e
  | .ok (none, t1) => .ok (-1, ctx, t1)
  | .ok (some tname, t1) =>
    let clash : Bool :=
      match symbol_find ctx.symbols tname with
      | some s => (s.type = SYMBOL_TYPE_LABEL ∧ ctx.pass = 0) ∨ s.type ≠ SYMBOL_TYPE_LABEL
      | none => false
    if clash then .error "Symbol already exists"
    else
      match token_get t1 TOKEN_TYPE_DOT TOKEN_NEXT with
      | .error e => .error e
      | .ok (none, t2) =>
        match token_get t2 TOKEN_TYPE_COLON TOKEN_NEXT with
        | .error e => .error e
        | .ok (none, t3) => .ok (-1, ctx, t3)
        | .ok (some _, t3) => lang_label_define ctx t3 tname []
      | .ok (some _, t2) =>
        match token_get t2 TOKEN_TYPE_SYMBOL TOKEN_NEXT with
        | .error e => .error e
        | .ok (none, _) => .error "Attribute name missing in label after \".\""
        | .ok (some attr, t3) =>
          match token_get t3 TOKEN_TYPE_COLON TOKEN_NEXT with
          | .error e => .error e
          | .ok (none, _) => .error "Missing \":\""
          | .ok (some _, t4) => lang_label_define ctx t4 tname attr

/-! ## asm/lang_instruction.c: the operands -/

/-- The results of `_get_arg`. -/
inductive getarg_result_t where
  | GETARG_RESULT_NOTOKEN
  | GETARG_RESULT_ERROR
  | GETARG_RESULT_OK
  deriving DecidableEq, Repr

open getarg_result_t

/-- The register names of `_get_arg`. -/
def arg_register (tname : CStr) : Option arg_type_t :=
  if tname = cstr "A" then some ARG_TYPE_A
  else if tname = cstr "X" then some ARG_TYPE_X
  else if tname = cstr "Y" then some ARG_TYPE_Y
  else if tname = cstr "XL" then some ARG_TYPE_XL
  else if tname = cstr "YL" then some ARG_TYPE_YL
  else if tname = cstr "XH" then some ARG_TYPE_XH
  else if tname = cstr "YH" then some ARG_TYPE_YH
  else if tname = cstr "SP" then some ARG_TYPE_SP
  else if tname = cstr "CC" then some ARG_TYPE_CC
  else none

/-- The branch of `_get_arg` for a symbol token that is not a register name. -/
def _get_arg_symbol (ctx : asm_context_t) (arg : arg_t) (tname : CStr) :
    getarg_result_t × arg_t :=
  match lang_util_question_expand ctx.symbols tname with
  | .error _ => (GETARG_RESULT_ERROR, arg)
  | .ok name =>
    match symbol_find ctx.symbols name with
    | none => (GETARG_RESULT_ERROR, arg)
    | some symbol =>
      let r : Option arg_t :=
        if symbol.type = SYMBOL_TYPE_CONST then some { arg with value := symbol.val64 }
        else if symbol.type = SYMBOL_TYPE_EXTERN then some { arg with symbol := some symbol }
        else if symbol.type = SYMBOL_TYPE_LABEL then some { arg with symbol := some symbol }
        else none
      match r with
      | none => (GETARG_RESULT_ERROR, arg)
      | some arg1 =>
        if symbol.width = 1 then (GETARG_RESULT_OK, { arg1 with type := ARG_TYPE_SHORTMEM })
        else if symbol.width = 2 then (GETARG_RESULT_OK, { arg1 with type := ARG_TYPE_LONGMEM })
        else if symbol.width = 3 then (GETARG_RESULT_OK, { arg1 with type := ARG_TYPE_EXTMEM })
        else (GETARG_RESULT_ERROR, arg1)

/-- The function `_get_arg`: a register, a symbol, a number or an expression in
braces with an optional width attribute. The argument slot keeps what an earlier
call wrote to the fields that this call does not write. -/
def _get_arg (ctx : asm_context_t) (arg : arg_t) (token : token_t) :
    Run (getarg_result_t × arg_t × token_t) := do
  let (r1, t1) ← token_get token TOKEN_TYPE_SYMBOL TOKEN_NEXT
  match r1 with
  | some tname =>
    match arg_register tname with
    | some type => pure (GETARG_RESULT_OK, { arg with type := type }, t1)
    | none =>
      let (res, arg1) := _get_arg_symbol ctx arg tname
      pure (res, arg1, t1)
  | none =>
    let (r2, t2) ← token_get t1 TOKEN_TYPE_NUMBER TOKEN_NEXT
    match r2 with
    | some tname =>
      match lang_util_str2num tname with
      | .error _ => pure (GETARG_RESULT_ERROR, arg, t2)
      | .ok value =>
        let type :=
          if value < 0x100 then ARG_TYPE_SHORTMEM
          else if value < 0x10000 then ARG_TYPE_LONGMEM
          else ARG_TYPE_EXTMEM
        pure (GETARG_RESULT_OK, { arg with value := value, type := type }, t2)
    | none =>
      let (v, t3) ← lang_constexpr ctx.symbols t2
      match v with
      | none => pure (GETARG_RESULT_NOTOKEN, arg, t3)
      | some value =>
        let arg1 := { arg with type := ARG_TYPE_SHORTMEM, value := value }
        let (r4, t4) ← token_get t3 TOKEN_TYPE_DOT TOKEN_NEXT
        match r4 with
        | none => pure (GETARG_RESULT_OK, arg1, t4)
        | some _ =>
          let (r5, t5) ← token_get t4 TOKEN_TYPE_SYMBOL TOKEN_NEXT
          match r5 with
          | none => pure (GETARG_RESULT_ERROR, arg1, t5)
          | some tname =>
            if tname = SYMBOL_WIDTH_SHORT then
              pure (GETARG_RESULT_OK, { arg1 with type := ARG_TYPE_SHORTMEM }, t5)
            else if tname = SYMBOL_WIDTH_LONG then
              pure (GETARG_RESULT_OK, { arg1 with type := ARG_TYPE_LONGMEM }, t5)
            else if tname = SYMBOL_WIDTH_EXT then
              pure (GETARG_RESULT_OK, { arg1 with type := ARG_TYPE_EXTMEM }, t5)
            else pure (GETARG_RESULT_ERROR, arg1, t5)

/-- The call of `_get_arg` inside an operand that has to be there: the result -1 of
`_get_args` is `none`. -/
def _get_arg_required (ctx : asm_context_t) (arg : arg_t) (token : token_t) :
    Run (Option (arg_t × token_t)) := do
  let (res, arg1, t1) ← _get_arg ctx arg token
  if res = GETARG_RESULT_OK then pure (some (arg1, t1)) else pure none

/-- The second operand of the form `(… , X)`, `(… , Y)` or `(… , SP)`: the `switch` on
the register and on the kind found before the comma. -/
def arg_index_type (reg pretype : arg_type_t) : Option arg_type_t :=
  match reg with
  | ARG_TYPE_X =>
    if pretype = ARG_TYPE_SHORTOFF_X then some ARG_TYPE_SHORTOFF_X
    else if pretype = ARG_TYPE_LONGOFF_X then some ARG_TYPE_LONGOFF_X
    else if pretype = ARG_TYPE_EXTOFF_X then some ARG_TYPE_EXTOFF_X
    else if pretype = ARG_TYPE_SHORTPTR_X then some ARG_TYPE_SHORTPTR_X
    else if pretype = ARG_TYPE_LONGPTR_X then some ARG_TYPE_LONGPTR_X
    else none
  | ARG_TYPE_Y =>
    if pretype = ARG_TYPE_SHORTOFF_X then some ARG_TYPE_SHORTOFF_Y
    else if pretype = ARG_TYPE_LONGOFF_X then some ARG_TYPE_LONGOFF_Y
    else if pretype = ARG_TYPE_EXTOFF_X then some ARG_TYPE_EXTOFF_Y
    else if pretype = ARG_TYPE_SHORTPTR_X then some ARG_TYPE_SHORTPTR_Y
    else if pretype = ARG_TYPE_LONGPTR_X then some ARG_TYPE_LONGPTR_Y
    else none
  | ARG_TYPE_SP =>
    if pretype = ARG_TYPE_SHORTOFF_X then some ARG_TYPE_SHORTOFF_SP else none
  | _ => none

/-- The branch of `_get_args` after `(`: `none` is the result -1. -/
def _get_args_round (ctx : asm_context_t) (arg : arg_t) (token : token_t) :
    Run (Option (arg_t × token_t)) := do
  let (rb, t1) ← token_get token TOKEN_TYPE_BRACKET_OPEN TOKEN_NEXT
  let bracket := rb.isSome
  let r1 ← _get_arg_required ctx arg t1
  match r1 with
  | none => pure none
  | some (arg1, t2) =>
    if arg1.type = ARG_TYPE_X ∨ arg1.type = ARG_TYPE_Y then
      if bracket then pure none
      else
        let type := if arg1.type = ARG_TYPE_X then ARG_TYPE_OFF_X else ARG_TYPE_OFF_Y
        let (rc, t3) ← token_get t2 TOKEN_TYPE_ROUND_CLOSE TOKEN_NEXT
        match rc with
        | none => pure none
        | some _ => pure (some ({ arg1 with type := type }, t3))
    else
      let pre : Option arg_type_t :=
        if arg1.type = ARG_TYPE_SHORTMEM then
          some (if bracket then ARG_TYPE_SHORTPTR_X else ARG_TYPE_SHORTOFF_X)
        else if arg1.type = ARG_TYPE_LONGMEM then
          some (if bracket then ARG_TYPE_LONGPTR_X else ARG_TYPE_LONGOFF_X)
        else if arg1.type = ARG_TYPE_EXTMEM then
          if bracket then none else some ARG_TYPE_EXTOFF_X
        else none
      match pre with
      | none => pure none
      | some pretype =>
        let arg2 := { arg1 with type := pretype }
        let (rbc, t3) ←
          if bracket then token_get t2 TOKEN_TYPE_BRACKET_CLOSE TOKEN_NEXT
          else pure (some [], t2)
        match rbc with
        | none => pure none
        | some _ =>
          let (rcm, t4) ← token_get t3 TOKEN_TYPE_COMMA TOKEN_NEXT
          match rcm with
          | none => pure none
          | some _ =>
            let r2 ← _get_arg_required ctx arg2 t4
            match r2 with
            | none => pure none
            | some (arg3, t5) =>
              match arg_index_type arg3.type pretype with
              | none => pure none
              | some type =>
                let (rc, t6) ← token_get t5 TOKEN_TYPE_ROUND_CLOSE TOKEN_NEXT
                match rc with
                | none => pure none
                | some _ => pure (some ({ arg3 with type := type }, t6))

/-- One operand of `_get_args`, the part of the loop before the label `next`: `none`
is the result -1. -/
def _get_args_one (ctx : asm_context_t) (arg : arg_t) (token : token_t) :
    Run (Option (arg_t × token_t)) := do
  let (res, arg1, t1) ← _get_arg ctx arg token
  if res = GETARG_RESULT_OK then pure (some (arg1, t1))
  else if res = GETARG_RESULT_ERROR then pure none
  else
    let (rh, t2) ← token_get t1 TOKEN_TYPE_HASH TOKEN_NEXT
    match rh with
    | some _ =>
      let r ← _get_arg_required ctx arg1 t2
      match r with
      | none => pure none
      | some (arg2, t3) =>
        if arg2.type = ARG_TYPE_SHORTMEM then pure (some ({ arg2 with type := ARG_TYPE_BYTE }, t3))
        else if arg2.type = ARG_TYPE_LONGMEM then
          pure (some ({ arg2 with type := ARG_TYPE_WORD }, t3))
        else pure none
    | none =>
      let (rr, t3) ← token_get t2 TOKEN_TYPE_ROUND_OPEN TOKEN_NEXT
      match rr with
      | some _ => _get_args_round ctx arg1 t3
      | none =>
        let (rb, t4) ← token_get t3 TOKEN_TYPE_BRACKET_OPEN TOKEN_NEXT
        match rb with
        | none => pure none
        | some _ =>
          let r ← _get_arg_required ctx arg1 t4
          match r with
          | none => pure none
          | some (arg2, t5) =>
            let type : Option arg_type_t :=
              if arg2.type = ARG_TYPE_SHORTMEM then some ARG_TYPE_SHORTPTR
              else if arg2.type = ARG_TYPE_LONGMEM then some ARG_TYPE_LONGPTR
              else none
            match type with
            | none => pure none
            | some ty =>
              let (rc, t6) ← token_get t5 TOKEN_TYPE_BRACKET_CLOSE TOKEN_NEXT
              match rc with
              | none => pure none
              | some _ => pure (some ({ arg2 with type := ty }, t6))

/-- The loop of `_get_args`; `i` is the index of the slot that `arg` points to. The
result is 0 or -1, the slots and the token state. -/
def _get_args_loop (ctx : asm_context_t) :
    Nat → Nat → List arg_t → token_t → Run (Int × List arg_t × token_t)
  | 0, _, _, _ => .error "Too much args for instruction"
  | nmax + 1, i, args, token => do
    let r ← _get_args_one ctx (arg_at args i) token
    match r with
    | none => pure (-1, args, token)
    | some (arg, t1) =>
      let args1 := args.set i arg
      let (rc, t2) ← token_get t1 TOKEN_TYPE_COMMA TOKEN_NEXT
      match rc with
      | none => pure (0, args1, t2)
      | some _ =>
        if nmax ≤ 1 then .error "Too much args for instruction"
        else _get_args_loop ctx nmax (i + 1) args1 t2

/-- The function `_get_args`. -/
def _get_args (ctx : asm_context_t) (args : List arg_t) (token : token_t) (nmax : Nat) :
    Run (Int × List arg_t × token_t) :=
  _get_args_loop ctx nmax 0 args token

/-- The constant `ARGS_MAX`. -/
def ARGS_MAX : Nat := 4

/-- The list `noarg` of the instructions without operands. -/
def noarg : List CStr :=
  [cstr "break", cstr "ccf", cstr "halt", cstr "iret", cstr "nop", cstr "rcf", cstr "ret",
   cstr "retf", cstr "rim", cstr "rvf", cstr "sim", cstr "scf", cstr "trap", cstr "wfe",
   cstr "wfi"]

/-- The loop of `lang_instruction`, at most `fuel` instructions on the line. -/
def lang_instruction_loop :
    Nat → Bool → asm_context_t → token_t → Run (Int × asm_context_t × token_t)
  | 0, _, _, _ => .error out_of_fuel
  | fuel + 1, first, ctx, token => do
    let (r, t1) ← token_get token TOKEN_TYPE_SYMBOL (if first then TOKEN_CURRENT else TOKEN_NEXT)
    match r with
    | none =>
      if ¬ first then .error "No instruction follows \"|\"" else pure (-1, ctx, t1)
    | some name =>
      let args0 := List.replicate ARGS_MAX arg_zero
      let (g, args, t2) ←
        if name ∈ noarg then pure ((0 : Int), args0, t1) else _get_args ctx args0 t1 ARGS_MAX
      if g < 0 then .error "Failed to get instruction arguments"
      else
        let ctx1 ← _assemble ctx name args
        let t3 := token_drop t2
        let (ro, t4) ← token_get t3 TOKEN_TYPE_OR TOKEN_NEXT
        match ro with
        | none =>
          let (c, t5) ← lang_comment t4
          if c < 0 then .error "Unexpected symbols after instruction" else pure (0, ctx1, t5)
        | some _ => lang_instruction_loop fuel false ctx1 t4

/-- The function `lang_instruction`. Every instruction of the line takes at least one
byte, which bounds the passes of the loop. -/
def lang_instruction (ctx : asm_context_t) (token : token_t) :
    Run (Int × asm_context_t × token_t) :=
  lang_instruction_loop (token.current.length + token.next.length + token.file.length + 1)
    true ctx token

/-! ## asm/lang.c: the directives -/

/-- Modelled from the spec: the global `app` of the assembler, whose declaration
(`asm/app.h`) is not among the files; the fields are those that `main.c` and
`lang.c` use. With it goes the world around the program: `noprint`, the files that
can be opened (path and bytes) and the bytes written to the standard output by
`.print`. -/
structure asm_app_t where
  noprint : Nat
  files : List (CStr × List Nat)
  out : List Nat
  deriving DecidableEq, Repr

/-- The function `_dot_print` on the text that the format produces. -/
def _dot_print (app : asm_app_t) (text : List Nat) : asm_app_t :=
  if app.noprint = 0 then { app with out := app.out ++ text } else app

/-- The character of a digit in the conversions `%lld` and `%llX`. -/
def digit_char (d : Nat) : Nat := if d < 10 then 48 + d else 55 + d

/-- The digits of `n` in the given base, most significant first, before `acc`; at
most `fuel` digits. -/
def num_digits (base : Nat) : Nat → Nat → List Nat → List Nat
  | 0, _, acc => acc
  | fuel + 1, n, acc =>
    if n / base = 0 then digit_char (n % base) :: acc
    else num_digits base fuel (n / base) (digit_char (n % base) :: acc)

/-- The conversion `%lld` of an `int64_t`. -/
def print_lld (v : Int) : List Nat :=
  if v < 0 then 45 :: num_digits 10 20 (-v).toNat [] else num_digits 10 20 v.toNat []

/-- The conversion `%llX` of an `int64_t`. -/
def print_llX (v : Int) : List Nat := num_digits 16 16 (u64 v) []

/-- The optional attribute `.name` after a symbol name in `.define` and `.extern`:
the empty string when there is no dot. -/
def directive_attr (token : token_t) (msg : String) : Run (CStr × token_t) := do
  let (r, t1) ← token_get token TOKEN_TYPE_DOT TOKEN_NEXT
  match r with
  | none => pure ([], t1)
  | some _ =>
    let (r2, t2) ← token_get t1 TOKEN_TYPE_SYMBOL TOKEN_NEXT
    match r2 with
    | none => .error msg
    | some attr => pure (attr, t2)

/-- The statements `if (*attr) symbol_set_width(s, attr)`. -/
def symbol_set_width_opt (s : symbol_t) (attr : CStr) : Run symbol_t :=
  if attr ≠ [] then symbol_set_width s attr else .ok s

/-- The branch "define" of `lang_directive`. The symbol is added before its value is
read. -/
def directive_define (ctx : asm_context_t) (token : token_t) :
    Run (asm_context_t × token_t) := do
  let (r, t1) ← token_get token TOKEN_TYPE_SYMBOL TOKEN_NEXT
  match r with
  | none => .error "Symbol name missing in \"define\""
  | some name =>
    if (symbol_find ctx.symbols name).isSome then .error "Symbol already exists"
    else
      let (attr, t2) ← directive_attr t1 "Attribute name missing in \"define\" after \".\""
      let sl ← symbols_add ctx.symbols name (fun s => s)
      let (v, t3) ← lang_constexpr sl t2
      let (value, t6) ←
        match v with
        | some value => pure (value, t3)
        | none => do
          let (r4, t4) ← token_get t3 TOKEN_TYPE_NUMBER TOKEN_NEXT
          match r4 with
          | some tname =>
            let value ← lang_util_str2num tname
            pure (value, t4)
          | none =>
            let (r5, t5) ← token_get t4 TOKEN_TYPE_SYMBOL TOKEN_NEXT
            match r5 with
            | some tname =>
              match symbol_find sl tname with
              | none => .error "Symbol not exists"
              | some sd =>
                if sd.type ≠ SYMBOL_TYPE_CONST then .error "Symbol not constant"
                else pure (sd.val64, t5)
            | none => pure (0, t5)
      let s ← symbol_set_width_opt (symbol_set_const (_symbol_create name) value) attr
      pure ({ ctx with symbols := symbol_update sl name (fun _ => s) }, t6)

/-- The loop of the branch "print" of `lang_directive`. -/
def directive_print_loop (sl : symbols_t) :
    Nat → Bool → token_number_format_t → asm_app_t → token_t → Run (asm_app_t × token_t)
  | 0, _, _, _, _ => .error out_of_fuel
  | fuel + 1, arg, format, app, token => do
    let (v, t1) ← lang_constexpr sl token
    match v with
    | some value =>
      let text :=
        match format with
        | TOKEN_NUMBER_FORMAT_DECIMAL => print_lld value
        | TOKEN_NUMBER_FORMAT_HEX => 36 :: print_llX value
        | TOKEN_NUMBER_FORMAT_BINARY => lang_util_num2str value TOKEN_NUMBER_FORMAT_BINARY
        | TOKEN_NUMBER_FORMAT_OCTAL => lang_util_num2str value TOKEN_NUMBER_FORMAT_OCTAL
      directive_print_loop sl fuel true format (_dot_print app text) t1
    | none =>
      let (r, t2) ← token_get t1 TOKEN_TYPE_STRING TOKEN_NEXT
      match r with
      | some name =>
        if name = cstr "%" then
          directive_print_loop sl fuel true TOKEN_NUMBER_FORMAT_DECIMAL app t2
        else if name = cstr "%$" then
          directive_print_loop sl fuel true TOKEN_NUMBER_FORMAT_HEX app t2
        else if name = cstr "%%" then
          directive_print_loop sl fuel true TOKEN_NUMBER_FORMAT_BINARY app t2
        else if name = cstr "%~" then
          directive_print_loop sl fuel true TOKEN_NUMBER_FORMAT_OCTAL app t2
        else directive_print_loop sl fuel true format (_dot_print app name) t2
      | none =>
        if ¬ arg then .error "String or expression should follow \".print\""
        else pure (_dot_print app [10], t2)

/-- The branch "print" of `lang_directive`; every argument takes at least one byte. -/
def directive_print (ctx : asm_context_t) (app : asm_app_t) (token : token_t) :
    Run (asm_app_t × token_t) :=
  directive_print_loop ctx.symbols (token.next.length + token.file.length + 1) false
    TOKEN_NUMBER_FORMAT_DECIMAL app token

/-- The branch "extern" of `lang_directive`. -/
def directive_extern (ctx : asm_context_t) (token : token_t) :
    Run (asm_context_t × token_t) := do
  let (r, t1) ← token_get token TOKEN_TYPE_SYMBOL TOKEN_NEXT
  match r with
  | none => .error "Symbol name missing in \".extern\" directive"
  | some name =>
    if (symbol_find ctx.symbols name).isSome then .error "Symbol already exists"
    else
      let (attr, t2) ← directive_attr t1 "Attribute name missing in \"extern\" after \".\""
      let sl ← symbols_add ctx.symbols name (fun s => s)
      let s ← symbol_set_width_opt { _symbol_create name with type := SYMBOL_TYPE_EXTERN } attr
      pure ({ ctx with symbols := symbol_update sl name (fun _ => s) }, t2)

/-- The branch "export" of `lang_directive`. -/
def directive_export (ctx : asm_context_t) (token : token_t) :
    Run (asm_context_t × token_t) := do
  let (r, t1) ← token_get token TOKEN_TYPE_SYMBOL TOKEN_NEXT
  match r with
  | none => .error "Symbol name missing in \".export\" directive"
  | some tname =>
    match symbol_find ctx.symbols tname with
    | none => .error "Symbol not found"
    | some s =>
      if s.type ≠ SYMBOL_TYPE_LABEL then .error "Only label symbol can be exported"
      else
        pure ({ ctx with symbols := symbol_update ctx.symbols tname (fun x => { x with exp := 1 }) },
          t1)

/-- The branch "section" of `lang_directive`. -/
def directive_section (ctx : asm_context_t) (token : token_t) :
    Run (asm_context_t × token_t) := do
  let (r, t1) ← token_get token TOKEN_TYPE_STRING TOKEN_NEXT
  match r with
  | none => .error "Section name should follow \".section\" directive"
  | some name =>
    let s := section_find ctx.sections name
    let noload := match s with
      | some x => x.noload
      | none => 0
    let ctx1 := { ctx with sections := section_select ctx.sections name, sect := name }
    let (r2, t2) ← token_get t1 TOKEN_TYPE_SYMBOL TOKEN_NEXT
    match r2 with
    | none =>
      if s.isSome ∧ noload ≠ 0 then .error "Section redefined without NOLOAD attribute"
      else pure (ctx1, t2)
    | some tname =>
      if tname = cstr "NOLOAD" then
        if s.isSome ∧ noload = 0 then .error "Section redefined with NOLOAD attribute"
        else
          pure ({ ctx1 with
            sections := section_update ctx1.sections name (fun x => { x with noload := 1 }) },
            t2)
      else .error "Unknown section attribute"

/-- The branch "dbendian" of `lang_directive`. -/
def directive_dbendian (ctx : asm_context_t) (token : token_t) :
    Run (asm_context_t × token_t) := do
  let (r, t1) ← token_get token TOKEN_TYPE_STRING TOKEN_NEXT
  match r with
  | none => .error "No endian value given after \".dbendian\" directive"
  | some tname =>
    if tname = cstr "big" then pure ({ ctx with dbendian := DB_ENDIAN_BIG }, t1)
    else if tname = cstr "little" then pure ({ ctx with dbendian := DB_ENDIAN_LITTLE }, t1)
    else .error "Invalid endian value should be \"big\" or \"little\""

/-- The function `_cutvalue` on the `uint64_t` value. -/
def _cutvalue (ctx : asm_context_t) (value : Nat) (width : Nat) : Nat :=
  if width = 2 then
    if ctx.dbendian = DB_ENDIAN_BIG then host_tobe16 value else host_tole16 value
  else if width = 3 then
    if ctx.dbendian = DB_ENDIAN_BIG then host_tobe24 value else host_tole24 value
  else if width = 4 then
    if ctx.dbendian = DB_ENDIAN_BIG then host_tobe32 value else host_tole32 value
  else if width = 8 then
    if ctx.dbendian = DB_ENDIAN_BIG then host_tobe64 value else host_tole64 value
  else host_tole64 value

/-- The statements `_cutvalue(ctx, &value, width); section_pushdata(ctx->section,
&value, width)`. -/
def db_push_value (ctx : asm_context_t) (value : Int) (width : Nat) : asm_context_t :=
  ctx_pushdata ctx (le_bytes (_cutvalue ctx (u64 value) width) 8) width

/-- One item of `_lang_db`, the part of the loop before the label `next`: `none` is
the result -1. -/
def _lang_db_item (ctx : asm_context_t) (token : token_t) (width : Nat) :
    Run (Option (asm_context_t × token_t)) := do
  let (r1, t1) ← token_get token TOKEN_TYPE_STRING TOKEN_NEXT
  match r1 with
  | some tname =>
    if width ≠ 1 then pure none
    else pure (some (ctx_pushdata ctx (tname ++ [0]) (tname.length + 1), t1))
  | none =>
    let (r2, t2) ← token_get t1 TOKEN_TYPE_CHAR TOKEN_NEXT
    match r2 with
    | some tname =>
      if width ≠ 1 then pure none
      else pure (some (ctx_pushdata ctx (tname ++ [0]) 1, t2))
    | none =>
      let (v, t3) ← lang_constexpr ctx.symbols t2
      match v with
      | some value => pure (some (db_push_value ctx value width, t3))
      | none =>
        let (r4, t4) ← token_get t3 TOKEN_TYPE_NUMBER TOKEN_NEXT
        match r4 with
        | some tname =>
          match lang_util_str2num tname with
          | .error _ => pure none
          | .ok value => pure (some (db_push_value ctx value width, t4))
        | none =>
          let (r5, t5) ← token_get t4 TOKEN_TYPE_SYMBOL TOKEN_NEXT
          match r5 with
          | none => pure none
          | some tname =>
            match symbol_find ctx.symbols tname with
            | none => pure none
            | some s =>
              if s.type = SYMBOL_TYPE_CONST then
                pure (some (db_push_value ctx s.val64 width, t5))
              else if s.type = SYMBOL_TYPE_LABEL ∨ s.type = SYMBOL_TYPE_EXTERN then
                let ctx1 := ctx_relocations_add ctx s width 0 RELOCATION_TYPE_ABOSULTE
                pure (some (ctx_pushdata ctx1 (le_bytes 0 8) width, t5))
              else pure none

/-- The loop of `_lang_db`, at most `fuel` items. -/
def _lang_db_loop (width : Nat) :
    Nat → asm_context_t → token_t → Run (Int × asm_context_t × token_t)
  | 0, _, _ => .error out_of_fuel
  | fuel + 1, ctx, token => do
    let r ← _lang_db_item ctx token width
    match r with
    | none => pure (-1, ctx, token)
    | some (ctx1, t1) =>
      let (rc, t2) ← token_get t1 TOKEN_TYPE_COMMA TOKEN_NEXT
      match rc with
      | none => pure (0, ctx1, t2)
      | some _ => _lang_db_loop width fuel ctx1 t2

/-- The function `_lang_db`; every item takes at least one byte. -/
def _lang_db (ctx : asm_context_t) (token : token_t) (width : Nat) :
    Run (Int × asm_context_t × token_t) :=
  _lang_db_loop width (token.next.length + token.file.length + 1) ctx token

/-- The width of the directives `.d8`, `.d16`, `.d24`, `.d32` and `.d64`. -/
def directive_db_width (tname : CStr) : Option Nat :=
  if tname = cstr "d8" then some 1
  else if tname = cstr "d16" then some 2
  else if tname = cstr "d24" then some 3
  else if tname = cstr "d32" then some 4
  else if tname = cstr "d64" then some 8
  else none

/-- The loop `while (cnt-- > 0) section_pushdata(ctx->section, &v8, 1)`. -/
def directive_fill_loop (v8 : Nat) : Nat → asm_context_t → asm_context_t
  | 0, ctx => ctx
  | cnt + 1, ctx => directive_fill_loop v8 cnt (ctx_pushdata ctx [v8] 1)

/-- The branch "fill" of `lang_directive`. -/
def directive_fill (ctx : asm_context_t) (token : token_t) :
    Run (asm_context_t × token_t) := do
  let (v, t1) ← lang_constexpr ctx.symbols token
  let (cnt, t3) ←
    match v with
    | some value => pure (value, t1)
    | none => do
      let (r, t2) ← token_get t1 TOKEN_TYPE_NUMBER TOKEN_NEXT
      match r with
      | some tname =>
        let cnt ← lang_util_str2num tname
        pure (cnt, t2)
      | none => .error "Missing count of data in \".fill\" directive"
  let (v2, t4) ← lang_constexpr ctx.symbols t3
  let (value, t6) ←
    match v2 with
    | some value => pure (value, t4)
    | none => do
      let (r, t5) ← token_get t4 TOKEN_TYPE_NUMBER TOKEN_NEXT
      match r with
      | some tname =>
        let value ← lang_util_str2num tname
        pure (value, t5)
      | none => .error "Data missing in \".fill\" directive"
  pure (directive_fill_loop (u8 value) cnt.toNat ctx, t6)

/-- The test of `lang_directive` for the names of the `.if` family. -/
def directive_is_if (tname : CStr) : Bool :=
  tname = cstr "ifdef" ∨ tname = cstr "ifndef" ∨ tname = cstr "if" ∨ tname = cstr "ifeq" ∨
    tname = cstr "ifneq"

/-- The value that the branch of the `.if` family of `lang_directive` computes: the
lines that follow are skipped when it is 0. -/
def directive_if_value (ctx : asm_context_t) (token : token_t) (tname : CStr) :
    Run (Int × token_t) := do
  if tname = cstr "ifdef" ∨ tname = cstr "ifndef" then
    let value : Int := if tname = cstr "ifndef" then 1 else 0
    let (r, t1) ← token_get token TOKEN_TYPE_SYMBOL TOKEN_NEXT
    match r with
    | none => .error "Symbol name missing in \".if(n)def\" directive"
    | some name =>
      let found : Int := if (symbol_find ctx.symbols name).isSome then 1 else 0
      pure (if value = found then 0 else 1, t1)
  else if tname = cstr "ifeq" ∨ tname = cstr "ifneq" then
    let value : Int := if tname = cstr "ifneq" then 0 else 1
    let (v0, t1) ← lang_constexpr ctx.symbols token
    match v0 with
    | none => .error "No valid first expression follows \"ifeq\" directive"
    | some val0 =>
      let (v1, t2) ← lang_constexpr ctx.symbols t1
      match v1 with
      | none => .error "No valid second expression follows \"ifeq\" directive"
      | some val1 =>
        let differ : Int := if val0 = val1 then 0 else 1
        pure (if value = differ then 0 else 1, t2)
  else
    let (v, t1) ← lang_constexpr ctx.symbols token
    match v with
    | none => .error "No valid expression follows \"if\" directive"
    | some value => pure (value, t1)

/-- The loop of `lang_directive` that skips the lines up to the matching `.endif` or
the end of the file, at most `fuel` lines. -/
def directive_skip_loop : Nat → Nat → token_t → Run token_t
  | 0, _, _ => .error out_of_fuel
  | fuel + 1, skipend, token => do
    let (r, t1) ← token_get token TOKEN_TYPE_LINE TOKEN_NEXT
    match r with
    | none => pure t1
    | some tname =>
      let skipend1 := if tname.take 3 = cstr ".if" then skipend + 1 else skipend
      if tname.take 6 = cstr ".endif" then
        if skipend1 = 0 then pure t1 else directive_skip_loop fuel (skipend1 - 1) t1
      else directive_skip_loop fuel skipend1 t1

/-- The skipping of `lang_directive`; every line takes at least one byte. -/
def directive_skip (token : token_t) : Run token_t :=
  directive_skip_loop (token.next.length + token.file.length + 1) 0 token

/-! ## asm/lang.c: `lang_directive`; asm/assembler.c: `assembler` -/

/-- The end of `lang_directive`: a comment or the end of the line has to follow. -/
def directive_end (app : asm_app_t) (ctx : asm_context_t) (token : token_t) :
    Run (Int × asm_app_t × asm_context_t × token_t) :=
  match lang_comment token with
  | .error e => .error e
  | .ok (c, t) =>
    if c < 0 then .error "Unexpected symbols after directive" else .ok (0, app, ctx, t)

mutual

/-- The function `lang_directive`. The first argument bounds the depth of the
`.include` directives and the passes of the loop of `assembler`. -/
def lang_directive :
    Nat → asm_app_t → asm_context_t → token_t →
      Run (Int × asm_app_t × asm_context_t × token_t)
  | 0, _, _, _ => .error out_of_fuel
  | fuel + 1, app, ctx, token => do
    let (r, t1) ← token_get token TOKEN_TYPE_DOT TOKEN_CURRENT
    match r with
    | none => pure (-1, app, ctx, t1)
    | some _ =>
      let (r2, t2) ← token_get t1 TOKEN_TYPE_SYMBOL TOKEN_NEXT
      match r2 with
      | none => .error "Symbol name missing in directive name"
      | some tname =>
        if tname = cstr "define" then do
          let (ctx1, t3) ← directive_define ctx t2
          directive_end app ctx1 t3
        else if tname = cstr "print" then do
          let (app1, t3) ← directive_print ctx app t2
          directive_end app1 ctx t3
        else if tname = cstr "extern" then do
          let (ctx1, t3) ← directive_extern ctx t2
          directive_end app ctx1 t3
        else if tname = cstr "export" then do
          let (ctx1, t3) ← directive_export ctx t2
          directive_end app ctx1 t3
        else if tname = cstr "section" then do
          let (ctx1, t3) ← directive_section ctx t2
          directive_end app ctx1 t3
        else if tname = cstr "include" then do
          let (r3, t3) ← token_get t2 TOKEN_TYPE_STRING TOKEN_NEXT
          match r3 with
          | none => .error "No file name given after \".include\" directive"
          | some infile =>
            let (app1, ctx1) ← assembler fuel app ctx infile
            directive_end app1 ctx1 t3
        else if tname = cstr "dbendian" then do
          let (ctx1, t3) ← directive_dbendian ctx t2
          directive_end app ctx1 t3
        else if (directive_db_width tname).isSome then do
          let (d, ctx1, t3) ← _lang_db ctx t2 ((directive_db_width tname).getD 0)
          if d < 0 then .error "Error in \".dX\" directive" else directive_end app ctx1 t3
        else if tname = cstr "fill" then do
          let (ctx1, t3) ← directive_fill ctx t2
          directive_end app ctx1 t3
        else if directive_is_if tname then do
          let (value, t3) ← directive_if_value ctx t2 tname
          if value = 0 then
            let t4 ← directive_skip t3
            pure (0, app, ctx, t4)
          else directive_end app ctx t3
        else if tname = cstr "endif" then directive_end app ctx t2
        else .error "Unknown directive"

/-- The loop of `assembler`, at most as many passes as the first argument says. -/
def assembler_loop :
    Nat → asm_app_t → asm_context_t → token_t → Run (asm_app_t × asm_context_t)
  | 0, _, _, _ => .error out_of_fuel
  | fuel + 1, app, ctx, token => do
    let (e, t1) ← lang_eof (token_drop token)
    if e = 0 then pure (app, ctx)
    else
      let (c, t2) ← lang_comment t1
      if c = 0 then assembler_loop fuel app ctx t2
      else
        let (l, ctx1, t3) ← lang_label ctx t2
        if l = 0 then assembler_loop fuel app ctx1 t3
        else if ctx1.pass ≠ 0 then
          let (d, app1, ctx2, t4) ← lang_directive fuel app ctx1 t3
          if d = 0 then assembler_loop fuel app1 ctx2 t4
          else
            let (i, ctx3, t5) ← lang_instruction ctx2 t4
            if i = 0 then assembler_loop fuel app1 ctx3 t5
            else .error "Unknown program construction"
        else
          let (r, t4) ← token_get t3 TOKEN_TYPE_LINE TOKEN_CURRENT
          match r with
          | some _ => assembler_loop fuel app ctx1 t4
          | none => .error "Unknown program construction"

/-- The function `assembler` on the file `infile`; the result -1 is the error
"Unknown program construction", which every caller makes fatal. -/
def assembler :
    Nat → asm_app_t → asm_context_t → CStr → Run (asm_app_t × asm_context_t)
  | 0, _, _, _ => .error out_of_fuel
  | fuel + 1, app, ctx, infile =>
    match app.files.lookup infile with
    | none => .error "Failed to open file"
    | some content => assembler_loop fuel app ctx (token_prepare content)

end

/-! ## asm/main.c -/

/-- The function `app_run` (the option `--info` apart): both passes over the input
file, the test for output data, then the bytes that `l0_save` writes. -/
def app_run (fuel : Nat) (app : asm_app_t) (ctx : asm_context_t) (inputfile : CStr) :
    Run (List Nat) := do
  let (app1, ctx1) ← assembler fuel app ctx inputfile
  let ctx2 := { ctx1 with pass := ctx1.pass + 1 }
  let (_, ctx3) ← assembler fuel app1 ctx2 inputfile
  if ctx3.sections.all (fun s => s.length = 0) then .error "No output data"
  else l0_save ctx3.symbols ctx3.relocations ctx3.sections

/-! ## common/memdata.h, common/srec.c: the S-record writer -/

/-- The `struct memdata_row_t`: `length` bytes `data` to be loaded at the address
`offset`, and the mark that `memdata_pack` uses (0 in every row that `memdata_add`
makes). -/
structure memdata_row_t where
  offset : Nat
  data : List Nat
  length : Nat
  mark : Nat := 0
  deriving DecidableEq, Repr

/-- The record type `RTYPE_S0` of `enum srec_record_type_t`. -/
def RTYPE_S0 : Nat := 0

/-- The record type `RTYPE_S1`. -/
def RTYPE_S1 : Nat := 1

/-- The record type `RTYPE_S2`. -/
def RTYPE_S2 : Nat := 2

/-- The record type `RTYPE_S3`. -/
def RTYPE_S3 : Nat := 3

/-- The constant `DATASPLIT`. -/
def DATASPLIT : Nat := 16

/-- The constant `CS_WIDTH`. -/
def CS_WIDTH : Nat := 1

/-- The constant `BYTECOUNT_WIDTH`. -/
def BYTECOUNT_WIDTH : Nat := 1

/-- The character that `_num2str` stores for a digit: `digit + 48` below 10,
`digit + 65 - 10` from 10 on. -/
def _num2str_digit (digit : Nat) : Nat := if digit < 10 then digit + 48 else digit + 65 - 10

/-- The loop `while (width--)` of `_num2str`: two characters for the low byte of
`num`, the high nibble first, then `num >>= 8`. -/
def _num2str_loop : Nat → Nat → List Nat
  | 0, _ => []
  | width + 1, num =>
    _num2str_digit ((num >>> 4) &&& 0x0f) :: _num2str_digit (num &&& 0x0f) ::
      _num2str_loop width (num >>> 8)

/-- The function `_num2str` on a `uint32_t`: the `2 * width` characters that the
callers write; an invalid width leaves the buffer empty. -/
def _num2str (num : Nat) (width : Nat) : List Nat :=
  if width > 4 ∨ width = 0 then []
  else
    _num2str_loop width
      (if width = 1 then host_tole32 num
       else if width = 2 then host_tobe16 num
       else if width = 3 then host_tobe24 num
       else host_tobe32 num)

/-- The function `_mkcs`: the sum of the first `len` bytes in a `uint8_t`. -/
def _mkcs (data : List Nat) (len : Nat) : Nat :=
  ((List.range len).map (fun i => data.getD i 0)).foldl (fun cs b => (cs + b) % 256) 0

/-- The block "write data" of `_write_data`: the text of `n` bytes from `pdata` on,
and the checksum after they were added to `cs`. -/
def _write_data_bytes : Nat → List Nat → Nat → List Nat × Nat
  | 0, _, cs => ([], cs)
  | n + 1, pdata, cs =>
    let num := pdata.getD 0 0 % 256
    let r := _write_data_bytes n (pdata.drop 1) ((cs + num) % 256)
    (_num2str num 1 ++ r.1, r.2)

/-- The loop `while (length)` of `_write_data`, at most as many records as the first
argument says: the bytes written to the file. A failing `fwrite` is left out. -/
def _write_data_loop (rchar addrwidth : Nat) : Nat → Nat → List Nat → Nat → Option (List Nat)
  | 0, _, _, length => if length = 0 then some [] else none
  | fuel + 1, address, pdata, length =>
    if length = 0 then some []
    else
      let bytecount := if length > DATASPLIT then DATASPLIT else length
      let cs0 := (bytecount + addrwidth + CS_WIDTH) % 256
      let cs1 := (cs0 + _mkcs (le_bytes address 4) addrwidth) % 256
      let body := _write_data_bytes bytecount pdata cs1
      let cs2 := body.2 ^^^ 0xff
      match _write_data_loop rchar addrwidth fuel ((address + bytecount) % 4294967296)
          (pdata.drop bytecount) (length - bytecount) with
      | none => none
      | some rest =>
        some ([83, rchar] ++ _num2str (bytecount + addrwidth + CS_WIDTH) BYTECOUNT_WIDTH ++
          _num2str address addrwidth ++ body.1 ++ _num2str cs2 1 ++ [13, 10] ++ rest)

/-- The function `_write_data`: the record type and the width of the address, then
the records; every record takes at least one byte, so `length` passes of the loop
are enough. -/
def _write_data (rtype : Nat) (address : Nat) (data : List Nat) (length : Nat) :
    Option (List Nat) :=
  let address1 := if rtype = RTYPE_S0 then 0 else address
  let rtype1 :=
    if rtype = RTYPE_S0 then rtype
    else if length < 0x010000 then RTYPE_S1
    else if length < 0x01000000 then RTYPE_S2
    else RTYPE_S3
  let addrwidth :=
    if rtype = RTYPE_S0 then 2
    else if length < 0x010000 then 2
    else if length < 0x01000000 then 3
    else 4
  _write_data_loop ((rtype1 + 48) % 256) addrwidth length address1 data length

/-- The row loop of `srec_write`. -/
def srec_write_rows : List memdata_row_t → Option (List Nat)
  | [] => some []
  | row :: rest =>
    match _write_data RTYPE_S1 row.offset row.data row.length with
    | none => none
    | some a =>
      match srec_write_rows rest with
      | none => none
      | some b => some (a ++ b)

/-- The function `srec_write`: the bytes of the file, the records of the comment
first when there is one (`strlen(comment)` bytes of it). -/
def srec_write (memdata : List memdata_row_t) (comment : Option CStr) : Option (List Nat) :=
  match (match comment with
         | none => some []
         | some c => _write_data RTYPE_S0 0 c c.length) with
  | none => none
  | some head =>
    match srec_write_rows memdata with
    | none => none
    | some body => some (head ++ body)

/-! ## common/llist.c: `llist_sort` -/

/-- The loop `for (ll = head; ll && ll->next; ll = ll->next)` of `llist_sort`: the
list after the first pair of neighbours for which `f` holds was swapped, `none` when
there is no such pair (`swaped` stays 0). -/
def llist_sort_pass {α : Type} (f : α → α → Bool) : List α → Option (List α)
  | e0 :: e1 :: rest =>
    if f e0 e1 then some (e1 :: e0 :: rest)
    else
      match llist_sort_pass f (e1 :: rest) with
      | none => none
      | some l => some (e0 :: l)
  | _ => none

/-- The function `llist_sort`: the loop `while (1)` runs the pass until no pair was
swapped; `none` when it is still running after `fuel` passes. -/
def llist_sort {α : Type} (f : α → α → Bool) : Nat → List α → Option (List α)
  | 0, _ => none
  | fuel + 1, head =>
    match llist_sort_pass f head with
    | none => some head
    | some l => llist_sort f fuel l

/-! ## common/memdata.c -/

/-- The `row->length` bytes at `row->data` (a byte never written reads as 0). -/
def memdata_row_bytes (row : memdata_row_t) : List Nat :=
  row.data.take row.length ++ List.replicate (row.length - row.data.length) 0

/-- The function `memdata_add` (allocation succeeds): a row with a copy of the
`length` bytes at `buf` is appended to the list. -/
def memdata_add (md : List memdata_row_t) (offset : Nat) (buf : List Nat) (length : Nat) :
    List memdata_row_t :=
  md ++ [{ offset := offset,
           data := buf.take length ++ List.replicate (length - buf.length) 0,
           length := length, mark := 0 }]

/-- The function `_compare_row`. -/
def _compare_row (first second : memdata_row_t) : Bool := first.offset > second.offset

/-- The loop "find first entry for new data block" of `memdata_pack`: the local
`chunk` (its fields `data`, `offset`, `length`, held in a row) taken from the first
row without mark, and the rows with that row marked; `none` when every row is
marked (`chunk.data` stays NULL). -/
def memdata_pack_first : List memdata_row_t → Option (memdata_row_t × List memdata_row_t)
  | [] => none
  | row :: rest =>
    if row.mark = 0 then
      some ({ offset := row.offset, data := memdata_row_bytes row, length := row.length },
        { row with mark := 1 } :: rest)
    else
      match memdata_pack_first rest with
      | none => none
      | some (chunk, rest1) => some (chunk, row :: rest1)

/-- The loop `for (ll = (*md)->rows; ll; ll = ll->next)` inside "find contiguous
memory chunks": the rows, the chunk and the flag `marked` after the rows were
visited in order. The sums are `uint32_t`. -/
def memdata_pack_pass :
    List memdata_row_t → memdata_row_t → Bool →
      Run (List memdata_row_t × memdata_row_t × Bool)
  | [], chunk, marked => .ok ([], chunk, marked)
  | row :: rest, chunk, marked =>
    if row.length = 0 then
      match memdata_pack_pass rest chunk true with
      | .error e => .error e
      | .ok (rest1, chunk1, marked1) => .ok ({ row with mark := 1 } :: rest1, chunk1, marked1)
    else if row.mark = 0 then
      if (row.offset < chunk.offset ∧ (row.offset + row.length) % 4294967296 > chunk.offset) ∨
          (row.offset ≥ chunk.offset ∧
            row.offset < (chunk.offset + chunk.length) % 4294967296) then
        .error "Memory overlap at"
      else if row.offset = (chunk.offset + chunk.length) % 4294967296 then
        match memdata_pack_pass rest
            { chunk with data := chunk.data ++ memdata_row_bytes row,
                         length := (chunk.length + row.length) % 4294967296 } true with
        | .error e => .error e
        | .ok (rest1, chunk1, marked1) =>
          .ok ({ row with mark := 1 } :: rest1, chunk1, marked1)
      else if (row.offset + row.length) % 4294967296 = chunk.offset then
        match memdata_pack_pass rest
            { chunk with data := memdata_row_bytes row ++ chunk.data,
                         offset := row.offset,
                         length := (chunk.length + row.length) % 4294967296 } true with
        | .error e => .error e
        | .ok (rest1, chunk1, marked1) =>
          .ok ({ row with mark := 1 } :: rest1, chunk1, marked1)
      else
        match memdata_pack_pass rest chunk marked with
        | .error e => .error e
        | .ok (rest1, chunk1, marked1) => .ok (row :: rest1, chunk1, marked1)
    else
      match memdata_pack_pass rest chunk marked with
      | .error e => .error e
      | .ok (rest1, chunk1, marked1) => .ok (row :: rest1, chunk1, marked1)

/-- The loop `while (1)` "find contiguous memory chunks": the pass is repeated until
it marks no row; `none` when it is still running after `fuel` passes. -/
def memdata_pack_grow :
    Nat → List memdata_row_t → memdata_row_t →
      Option (Run (List memdata_row_t × memdata_row_t))
  | 0, _, _ => none
  | fuel + 1, rows, chunk =>
    match memdata_pack_pass rows chunk false with
    | .error e => some (.error e)
    | .ok (rows1, chunk1, marked) =>
      if marked then memdata_pack_grow fuel rows1 chunk1 else some (.ok (rows1, chunk1))

/-- The outer loop `while (1)` of `memdata_pack`: `newmd` are the rows of the new
list; `none` when a loop is still running after `fuel` passes. -/
def memdata_pack_loop :
    Nat → Nat → List memdata_row_t → List memdata_row_t → Option (Run (List memdata_row_t))
  | 0, _, _, _ => none
  | n + 1, fuel, rows, newmd =>
    match memdata_pack_first rows with
    | none => some (.ok newmd)
    | some (chunk, rows1) =>
      match memdata_pack_grow fuel rows1 chunk with
      | none => none
      | some (.error e) => some (.error e)
      | some (.ok (rows2, chunk1)) =>
        memdata_pack_loop n fuel rows2
          (memdata_add newmd chunk1.offset chunk1.data chunk1.length)

/-- The function `memdata_pack` (allocation succeeds): the rows of the new list,
an error for the result -1, `none` when one of its loops is still running after
`fuel` passes. -/
def memdata_pack (fuel : Nat) (md : List memdata_row_t) : Option (Run (List memdata_row_t)) :=
  match memdata_pack_loop fuel fuel (md.map (fun row => { row with mark := 0 })) [] with
  | none => none
  | some (.error e) => some (.error e)
  | some (.ok newmd) =>
    match llist_sort _compare_row fuel newmd with
    | none => none
    | some rows => some (.ok rows)

/-! ## common/srec.c: the S-record reader -/

/-- The constant `MAX_TOKEN_SIZE`. -/
def MAX_TOKEN_SIZE : Nat := 1024

/-- The state `STATE_NONE` of the parser. -/
def STATE_NONE : Nat := 0

/-- The state `STATE_S`. -/
def STATE_S : Nat := 1

/-- The state `STATE_BYTE_COUNT`. -/
def STATE_BYTE_COUNT : Nat := 2

/-- The state `STATE_ADDRESS`. -/
def STATE_ADDRESS : Nat := 3

/-- The state `STATE_DATA`. -/
def STATE_DATA : Nat := 4

/-- The state `STATE_CS`. -/
def STATE_CS : Nat := 5

/-- The `struct srec_parser_t`: the state and the record. `data` are the bytes of
`record.data` before `record.pdata` and `cur` is the byte at `record.pdata`. -/
structure srec_parser_t where
  state : Nat
  type : Nat
  length : Nat
  address : Nat
  cs0 : Nat
  cs1 : Nat
  data : List Nat
  cur : Nat
  dlen : Nat
  deriving DecidableEq, Repr

/-- The function `_ch2num` (the result is a `uint8_t`). -/
def _ch2num (ch : Nat) : Nat :=
  if 48 ≤ ch ∧ ch ≤ 57 then ch - 48 else (ch + 256 - 65 + 10) % 256

/-- The test `(ch >= '0' && ch <= '9') || (ch >= 'A' && ch <= 'F')`. -/
def srec_is_hex (ch : Nat) : Bool := (48 ≤ ch ∧ ch ≤ 57) ∨ (65 ≤ ch ∧ ch ≤ 70)

/-- The statement `num = tlen % 2 ? _ch2num(ch) << 4 : _ch2num(ch)`. -/
def srec_num (tlen ch : Nat) : Nat := if tlen % 2 ≠ 0 then _ch2num ch * 16 else _ch2num ch

/-- The `switch` of the state `STATE_ADDRESS` on the record type. -/
def srec_addrlen (type : Nat) : Option Nat :=
  if type = 0 then some 2
  else if type = 1 then some 2
  else if type = 2 then some 3
  else if type = 3 then some 4
  else if type = 5 then some 2
  else if type = 6 then some 3
  else if type = 7 then some 4
  else if type = 8 then some 3
  else if type = 9 then some 2
  else none

/-- The loop of `srec_read` on the bytes of the file that are left; `tlen` is the
length of the token and `md` are the rows added so far. The result is the list of
rows, an error when the function returns NULL. -/
def srec_read_loop :
    List Nat → srec_parser_t → Nat → List memdata_row_t → Run (List memdata_row_t)
  | [], parser, tlen, md =>
    if tlen ≥ MAX_TOKEN_SIZE then .error "MAX_TOKEN_SIZE exceed"
    else if parser.state ≠ STATE_NONE then .error "Unexpected end of file reached"
    else .ok md
  | ch :: rest, parser, tlen0, md =>
    if tlen0 ≥ MAX_TOKEN_SIZE then .error "MAX_TOKEN_SIZE exceed"
    else if ch = 13 then srec_read_loop rest parser tlen0 md
    else
      let tlen := tlen0 + 1
      if parser.state = STATE_NONE then
        if ch = 10 then srec_read_loop rest parser tlen md
        else if ch = 83 then srec_read_loop rest { parser with state := STATE_S } tlen md
        else .error "Unexpected character"
      else if parser.state = STATE_S then
        if 48 ≤ ch ∧ ch ≤ 57 ∧ ch ≠ 52 then
          srec_read_loop rest
            { parser with state := STATE_BYTE_COUNT, type := ch - 48, length := 0,
                          address := 0, cs0 := 0, cs1 := 0, data := [], cur := 0 } 0 md
        else .error "Unexpected character"
      else if parser.state = STATE_BYTE_COUNT then
        if srec_is_hex ch then
          let num := srec_num tlen ch
          let parser1 := { parser with cs0 := (parser.cs0 + num) % 256,
                                       length := parser.length ||| num }
          if tlen ≥ 2 then
            if parser1.length < 3 then .error "Invalid byte cound"
            else srec_read_loop rest { parser1 with state := STATE_ADDRESS } 0 md
          else srec_read_loop rest parser1 tlen md
        else .error "Unexpected character"
      else if parser.state = STATE_ADDRESS then
        if ¬ srec_is_hex ch then .error "Unexpected character"
        else
          match srec_addrlen parser.type with
          | none => .error "Unknown record type"
          | some addrlen =>
            let num := srec_num tlen ch
            let shift := 8 * ((addrlen + 4294967296 - (tlen - 1) / 2 - 1) % 4294967296)
            let parser1 := { parser with
              cs0 := (parser.cs0 + num) % 256,
              address := parser.address ||| ((num <<< (shift % 32)) % 4294967296) }
            if tlen ≥ addrlen * 2 then
              let dlen := (parser1.length + 4294967296 - addrlen - 1) % 4294967296
              srec_read_loop rest
                { parser1 with dlen := dlen,
                               state := if dlen = 0 then STATE_CS else STATE_DATA } 0 md
            else srec_read_loop rest parser1 tlen md
      else if parser.state = STATE_DATA then
        if ¬ srec_is_hex ch then .error "Unexpected character"
        else
          let num := srec_num tlen ch
          let cur := parser.cur ||| num
          let parser1 := { parser with cs0 := (parser.cs0 + num) % 256, cur := cur }
          let parser2 :=
            if tlen % 2 = 0 then { parser1 with data := parser1.data ++ [cur], cur := 0 }
            else parser1
          if tlen ≥ (parser.dlen * 2) % 4294967296 then
            srec_read_loop rest { parser2 with state := STATE_CS } 0 md
          else srec_read_loop rest parser2 tlen md
      else if parser.state = STATE_CS then
        if ¬ srec_is_hex ch then .error "Unexpected character"
        else
          let num := srec_num tlen ch
          let parser1 := { parser with cs1 := parser.cs1 ||| num }
          if tlen ≥ 2 then
            if (parser1.cs0 ^^^ parser1.cs1 ^^^ 0xFF) ≠ 0 then .error "Checksum mismatch"
            else
              let md1 :=
                if parser1.type = 1 ∨ parser1.type = 2 ∨ parser1.type = 3 then
                  memdata_add md parser1.address (parser1.data ++ [parser1.cur]) parser1.dlen
                else md
              srec_read_loop rest { parser1 with state := STATE_NONE } 0 md1
          else srec_read_loop rest parser1 tlen md
      else srec_read_loop rest parser tlen md

/-- The function `srec_read` on the bytes of the file (the file can be opened). -/
def srec_read (file : List Nat) : Run (List memdata_row_t) :=
  srec_read_loop file
    { state := STATE_NONE, type := 0, length := 0, address := 0, cs0 := 0, cs1 := 0,
      data := [], cur := 0, dlen := 0 } 0 []
/-! ## lkr/linker.c: `_write_srec` -/

/-- The loop "make memdata from sections" of `_write_srec`: the rows added for the
sections that are loaded and not empty, and the flag `havedata`. -/
def _write_srec_rows :
    sections_t → List memdata_row_t → Bool → List memdata_row_t × Bool
  | [], md, havedata => (md, havedata)
  | s :: rest, md, havedata =>
    if s.noload ≠ 0 ∨ s.length = 0 then _write_srec_rows rest md havedata
    else _write_srec_rows rest (memdata_add md s.lma s.data s.length) true

/-- The function `_write_srec` on the output sections, with the text `app.s19head`:
the bytes written to the output file; `none` when `memdata_pack` is still running
after `fuel` passes. An error is the first message printed before the linker
exits. -/
def _write_srec (fuel : Nat) (sections : sections_t) (s19head : CStr) :
    Option (Run (List Nat)) :=
  let r := _write_srec_rows sections [] false
  if r.2 = false then some (.error "No output data")
  else
    match memdata_pack fuel r.1 with
    | none => none
    | some (.error _) => some (.error "Faile to pack memory data")
    | some (.ok md) =>
      match srec_write md (if s19head ≠ [] then some s19head else none) with
      | none => none
      | some file => some (.ok file)


/-! ## Auxiliary definitions of the proofs -/

/-- Everything of a section but its stored bytes. -/
def section_frame (s : section_t) : section_t := { s with data := [] }

/-- The block that `l0_make_block` yields for a body that fits. -/
def block_of (magic : Nat) (body : List Nat) : List Nat :=
  l0_block_info magic (32 + body.length)
    ((l0_block_info magic (32 + body.length) 0 ++ body).sum % 65536) ++ body

/-- The buffer state of `l0_load` after it has read the block `b`: the header
first, then the whole block. -/
def bmem_after (bm : bmem_t) (b : List Nat) : bmem_t :=
  bmem_read (bmem_alloc (bmem_read (bmem_alloc bm 32) (b.take 32)) b.length) b

/-- A list of bytes that can be a C string: no zero byte. -/
def cstr_ok (s : CStr) : Prop := ∀ b ∈ s, b ≠ 0

/-- What `l0_load` makes of a saved symbol: the fields of the symbol block, no attribute. -/
def l0_symbol_image (s : symbol_t) : symbol_t := { s with attr := [] }

/-- What `l0_load` makes of a saved section: name, flag, length, and the bytes of a
loadable section; the linker fields are those of `_section_create`. -/
def l0_section_image (s : section_t) : section_t :=
  { name := s.name, noload := s.noload, data := if s.noload = 0 then s.data else [],
    length := s.length }

/-- A label or extern symbol as the symbol block can hold it: the name is a C
string, the export flag is 0 or 1, the width fits a byte, the value 64 bits; a
section name, when there is one, is a non-empty C string, and a label has one. -/
def l0_symbol_ok (s : symbol_t) : Prop :=
  (s.type = SYMBOL_TYPE_LABEL ∨ s.type = SYMBOL_TYPE_EXTERN) ∧ cstr_ok s.name ∧ s.exp < 2 ∧
  s.width < 256 ∧ -9223372036854775808 ≤ s.val64 ∧ s.val64 < 9223372036854775808 ∧
  (∀ n, s.sect = some n → cstr_ok n ∧ n ≠ []) ∧
  (s.sect = none → s.type = SYMBOL_TYPE_EXTERN) ∧
  32 + (l0_symbol_body s (s.sect.getD [])).length < 2147483648

/-- A relocation as the relocation block can hold it. -/
def l0_relocation_ok (r : relocation_t) : Prop :=
  r.type < 256 ∧ r.offset < 4294967296 ∧ r.length < 4294967296 ∧
  -2147483648 ≤ r.adjust ∧ r.adjust < 2147483648 ∧ cstr_ok r.symbol ∧ cstr_ok r.sect ∧
  32 + (l0_relocation_body r).length < 2147483648

/-- A non-empty section as the section block can hold it: the name is a C string,
the flag is 0 or 1, a loadable section stores `length` bytes. -/
def l0_section_ok (s : section_t) : Prop :=
  cstr_ok s.name ∧ s.noload < 2 ∧ 0 < s.length ∧ s.length < 4294967296 ∧
  (s.noload = 0 → s.data.length = s.length) ∧
  32 + (l0_section_body s).length < 2147483648

/-- The section after the bytes `bytes` were appended to it: a loadable section
stores them behind its data, a NOLOAD section only grows in length. -/
def push_bytes (s : section_t) (bytes : List Nat) : section_t :=
  { s with data := if s.noload = 0 then s.data ++ bytes else s.data,
           length := s.length + bytes.length }

/-- The bytes that `_assemble_uni` emits before the payload: the prebyte when the row
has one, then the opcode. -/
def uni_head (gen : gen_info_t) : List Nat :=
  (if gen.prebyte ≠ PREBYTE_NONE then [gen.prebyte] else []) ++ [gen.opcode]

/-- The argument that the row takes its payload from: argument 0 when the row is
flagged `GEN_FLAG_ARG_DST`, argument 1 otherwise. -/
def uni_arg (args : List arg_t) (gen : gen_info_t) : arg_t :=
  if gen_flag gen GEN_FLAG_ARG_DST then arg_at args 0 else arg_at args 1

/-- The row's `CHECK_LONG` or `CHECK_EXT` flag rejects a symbol operand of that kind. -/
def uni_rejects (gen : gen_info_t) (arg : arg_t) : Prop :=
  (gen_flag gen GEN_FLAG_CHECK_LONG = true ∧ arg.type ≠ ARG_TYPE_LONGMEM) ∨
  (gen_flag gen GEN_FLAG_CHECK_EXT = true ∧ arg.type ≠ ARG_TYPE_EXTMEM)

/-- A section as the assembler keeps it: a loadable section stores `length` bytes,
and five more bytes do not overflow the 32-bit length. -/
def section_wf (s : section_t) : Prop :=
  (s.noload = 0 → s.data.length = s.length) ∧ s.length + 5 < 4294967296

/-- The context in which the current section, `sec` before, has the bytes `bytes`
appended; everything else is as in `ctx`. -/
def ctx_append (ctx : asm_context_t) (sec : section_t) (bytes : List Nat) : asm_context_t :=
  { ctx with
    sections := section_update ctx.sections ctx.sect (fun _ => push_bytes sec bytes) }

/-- The payload that the spec describes for a row: `arglen` zero bytes when the
operand is a symbol, else the `arglen` low bytes of the operand value, most
significant byte first. -/
def uni_payload (args : List arg_t) (gen : gen_info_t) : List Nat :=
  match (uni_arg args gen).symbol with
  | some _ => List.replicate gen.arglen 0
  | none => be_bytes (u64 (uni_arg args gen).value) gen.arglen

/-- The row that the spec names: the first row of the table, the end marker and what
follows it apart, whose four kinds are those of the arguments. -/
def uni_first_row (args : List arg_t) (table : List gen_info_t) : Option gen_info_t :=
  (table.takeWhile (fun r => !gen_flag r GEN_FLAG_END)).find? (fun r => gen_match args r)

/-- The absolute relocation that the spec describes for a symbol operand: `length`
bytes at `offset` of the current section against the symbol, no adjustment. -/
def uni_relocation (ctx : asm_context_t) (sym : symbol_t) (offset length : Nat) :
    relocation_t :=
  { type := RELOCATION_TYPE_ABOSULTE, sect := ctx.sect, symbol := sym.name,
    offset := offset, length := length, adjust := 0 }

instance uni_rejects_decidable (gen : gen_info_t) (arg : arg_t) :
    Decidable (uni_rejects gen arg) := by
  unfold uni_rejects
  exact inferInstance

instance section_wf_decidable (s : section_t) : Decidable (section_wf s) := by
  unfold section_wf
  exact inferInstance

/-- The token state `token` starts with a label definition: `token_get` finds the
symbol `name` at the current position and then either no dot and a colon (`attr`
is empty), or a dot, the symbol `attr` and a colon; `t` is the token state after
the colon. -/
def label_lexed (token : token_t) (name attr : CStr) (t : token_t) : Prop :=
  ∃ t1, token_get token TOKEN_TYPE_SYMBOL TOKEN_CURRENT = .ok (some name, t1) ∧
    ((attr = [] ∧ ∃ t2 c, token_get t1 TOKEN_TYPE_DOT TOKEN_NEXT = .ok (none, t2) ∧
        token_get t2 TOKEN_TYPE_COLON TOKEN_NEXT = .ok (some c, t)) ∨
     (∃ d t2 t3 c, token_get t1 TOKEN_TYPE_DOT TOKEN_NEXT = .ok (some d, t2) ∧
        token_get t2 TOKEN_TYPE_SYMBOL TOKEN_NEXT = .ok (some attr, t3) ∧
        token_get t3 TOKEN_TYPE_COLON TOKEN_NEXT = .ok (some c, t)))

/-- The symbol `s` with the value `value` and the section `sect`. -/
def symbol_placed (s : symbol_t) (value : Nat) (sect : CStr) : symbol_t :=
  { s with val64 := value, sect := some sect }

/-- The context in which the first symbol named `name` is replaced by `s1`. -/
def ctx_with_symbol (ctx : asm_context_t) (name : CStr) (s1 : symbol_t) : asm_context_t :=
  { ctx with symbols := symbol_update ctx.symbols name (fun _ => s1) }

/-! ### The lexer as a function of the bytes ahead -/

/-- The bytes that `token_getchar` gives next, in order: the rest of the replayed
window, then the bytes of the file. -/
def token_pending (t : token_t) : List Nat :=
  (t.current ++ t.next).drop ((t.current ++ t.next).length - t.rollback) ++ t.file

/-- The bytes ahead of the current token: those read already and those of the file. -/
def token_stream (t : token_t) : List Nat := t.next ++ t.file

/-- The loop of `token_get` as a function of the bytes it is given: the locals at the
`break` (`none` for `return NULL`) and the number of bytes taken. -/
def token_scan (type : token_type_t) :
    List Nat → token_scan_t → Run (Option token_scan_t × Nat)
  | [], st => .ok (if type = TOKEN_TYPE_EOF then some st else none, 0)
  | ch :: rest, st =>
    if st.name.length ≥ TOKEN_MAX_NAME_SIZE then .error "Token size exceed"
    else if st.tlength = 0 ∧ (ch = 32 ∨ ch = 9 ∨ ch = 13) then
      match token_scan type rest { st with drop := st.drop + 1 } with
      | .error e => .error e
      | .ok (r, m) => .ok (r, m + 1)
    else
      match token_step type ch st with
      | .next st1 =>
        match token_scan type rest st1 with
        | .error e => .error e
        | .ok (r, m) => .ok (r, m + 1)
      | .brk st1 => .ok (some st1, 1)
      | .ret_null => .ok (none, 1)
      | .fatal e => .error e

/-- The token state after `token_get` took `m` bytes: the bytes beyond the replayed
window moved from the file to `next`. -/
def token_taken (a : token_t) (m : Nat) : token_t :=
  { file := a.file.drop (m - a.rollback), current := a.current,
    next := a.next ++ a.file.take (m - a.rollback), rollback := a.rollback - m }

/-- A blank of the lexer: space, tab or carriage return. -/
def is_blank (c : Nat) : Bool := c = 32 ∨ c = 9 ∨ c = 13

/-- The locals of `token_get` after `d` leading blanks were dropped. -/
def token_scan_at (d : Nat) : token_scan_t := { token_scan_init with drop := d }

/-- A byte that continues a symbol token. -/
def is_symbol_char (c : Nat) : Bool := is_symbol_start c || is_digit c

/-- The text of a symbol token: a letter or underscore, then letters, digits and
underscores. -/
def symbol_text (name : List Nat) : Bool :=
  match name with
  | [] => false
  | c :: cs => is_symbol_start c && cs.all is_symbol_char

/-- The number format that the first byte of a number token selects. -/
def number_format (p : Nat) : Option token_number_format_t :=
  if p = 36 then some TOKEN_NUMBER_FORMAT_HEX
  else if p = 37 then some TOKEN_NUMBER_FORMAT_BINARY
  else if p = 64 then some TOKEN_NUMBER_FORMAT_OCTAL
  else if is_digit p then some TOKEN_NUMBER_FORMAT_DECIMAL
  else none

/-- A digit of the number format. -/
def number_digit (f : token_number_format_t) (c : Nat) : Bool :=
  match f with
  | TOKEN_NUMBER_FORMAT_HEX => (97 ≤ c ∧ c ≤ 102) ∨ (65 ≤ c ∧ c ≤ 70) ∨ (48 ≤ c ∧ c ≤ 57)
  | TOKEN_NUMBER_FORMAT_BINARY => c = 48 ∨ c = 49
  | TOKEN_NUMBER_FORMAT_OCTAL => 48 ≤ c ∧ c ≤ 55
  | TOKEN_NUMBER_FORMAT_DECIMAL => 48 ≤ c ∧ c ≤ 57

/-- The text of a number token without `_` separators: the first byte selects the
format, digits of the format follow. -/
def number_text (text : List Nat) : Bool :=
  match text with
  | [] => false
  | p :: ds =>
    match number_format p with
    | none => false
    | some f => ds.all (number_digit f)

/-- A token state whose window leaves room for the tokens and blank runs of an
expression: the current token has at most 500 bytes and at most 1002 bytes were
read ahead. -/
def token_small (t : token_t) : Prop := t.current.length ≤ 500 ∧ t.next.length ≤ 1002

/-- A run of at most 500 blanks. -/
def blanks (ws : List Nat) : Prop := ws.all is_blank = true ∧ ws.length ≤ 500

/-- The first byte after the leading blanks, when there is one. -/
def stream_head (s : List Nat) : Option Nat := (s.dropWhile is_blank).head?

/-- The number of leading blanks. -/
def blank_run (s : List Nat) : Nat := (s.takeWhile is_blank).length

/-! ## The expressions of the evaluator as trees -/

/-- The precedence level of a binary operator: 0 for `|` (loosest), then `^`, `&`,
the shifts, `+ -`, and 5 for `* / %` (tightest). -/
def op_level : expr_op_t → Nat
  | OP_OR => 0
  | OP_XOR => 1
  | OP_AND => 2
  | OP_SHIFT_LEFT => 3
  | OP_SHIFT_RIGHT => 3
  | OP_ADD => 4
  | OP_SUBSTRUCT => 4
  | OP_MUL => 5
  | OP_DIV => 5
  | OP_MOD => 5

/-- The text of a binary operator. -/
def op_text : expr_op_t → List Nat
  | OP_OR => [124]
  | OP_XOR => [94]
  | OP_AND => [38]
  | OP_SHIFT_LEFT => [60, 60]
  | OP_SHIFT_RIGHT => [62, 62]
  | OP_ADD => [43]
  | OP_SUBSTRUCT => [45]
  | OP_MUL => [42]
  | OP_DIV => [47]
  | OP_MOD => [37]

/-- Whether the byte `c` starts a binary operator of the level `j`. -/
def op_char (j : Nat) (c : Nat) : Bool :=
  match j with
  | 0 => c = 124
  | 1 => c = 94
  | 2 => c = 38
  | 3 => c = 60 ∨ c = 62
  | 4 => c = 43 ∨ c = 45
  | 5 => c = 42 ∨ c = 47 ∨ c = 37
  | _ => false

/-- An expression with the blanks written before each of its tokens: a numeric
literal, a symbol, a parenthesised expression (with the blanks before the closing
parenthesis), the complement of an operand, and a binary operation (with the blanks
before the operator). -/
inductive cexpr where
  | num (ws : List Nat) (text : List Nat)
  | sym (ws : List Nat) (name : List Nat)
  | paren (ws : List Nat) (e : cexpr) (ws2 : List Nat)
  | neg (ws : List Nat) (e : cexpr)
  | bin (op : expr_op_t) (l : cexpr) (ws : List Nat) (r : cexpr)
  deriving DecidableEq, Repr

open cexpr

/-- The text of an expression. -/
def cprint : cexpr → List Nat
  | num ws text => ws ++ text
  | sym ws name => ws ++ name
  | paren ws e ws2 => ws ++ 40 :: (cprint e ++ (ws2 ++ [41]))
  | neg ws e => ws ++ 126 :: cprint e
  | bin op l ws r => cprint l ++ (ws ++ (op_text op ++ cprint r))

/-- The value of an expression, operation by operation as the tree groups them. -/
def ceval (sl : symbols_t) : cexpr → Run Int
  | num _ text => lang_util_str2num text
  | sym _ name => do
    let nm ← lang_util_question_expand sl name
    let v ← symbol_get_const sl nm
    match v with
    | none => .error "Symbol not found"
    | some value => pure value
  | paren _ e _ => ceval sl e
  | neg _ e => do
    let v ← ceval sl e
    pure (-v - 1)
  | bin op l _ r => do
    let a ← ceval sl l
    let b ← ceval sl r
    expr_apply op a b

/-- At most 500 blanks. -/
def blanks_ok (ws : List Nat) : Bool := ws.all is_blank && decide (ws.length ≤ 500)

/-- The tree is the grouping by precedence of its text, read as an operand of the
level `k`: an operator of the tree is of the level `k` or tighter, its left operand
is read at the operator's level (operators of one level group to the left) and its
right operand one level tighter; `~` (level 6) is applied to a literal, a symbol or
a parenthesised expression (level 7); the inside of parentheses is read at level 0.
Literals and symbols take at most 500 bytes, and at most 500 blanks precede a
token. -/
def cfits : Nat → cexpr → Bool
  | _, num ws text => blanks_ok ws && number_text text && decide (text.length ≤ 500)
  | _, sym ws name => blanks_ok ws && symbol_text name && decide (name.length ≤ 500)
  | _, paren ws e ws2 => blanks_ok ws && blanks_ok ws2 && cfits 0 e
  | k, neg ws e => decide (k ≤ 6) && blanks_ok ws && cfits 7 e
  | k, bin op l ws r =>
    decide (k ≤ op_level op) && blanks_ok ws && cfits (op_level op) l
      && cfits (op_level op + 1) r

/-- The number of entries of `exprstack` that the evaluation of the expression
takes at most. -/
def cdepth : cexpr → Nat
  | num _ _ => 1
  | sym _ _ => 1
  | paren _ e _ => cdepth e
  | neg _ e => cdepth e
  | bin _ l _ r => max (cdepth l) (cdepth r + 1)

/-- A bound of the depth of the calls that the evaluation of the expression takes. -/
def cfuel : cexpr → Nat
  | num _ _ => 14
  | sym _ _ => 14
  | paren _ e _ => cfuel e + 16
  | neg _ e => cfuel e + 14
  | bin _ l _ r => cfuel l + cfuel r + 14

/-- The functions `_expr`, `_or_opd`, `_xor_opd`, `_and_opd`, `_shift_opd`,
`_add_opd`, `_mul_opd` and `_not_opd` by the level of the operand they read. -/
def expr_F (sl : symbols_t) : Nat → Nat → expr_state_t → Run expr_state_t
  | 0 => _expr sl
  | 1 => _or_opd sl
  | 2 => _xor_opd sl
  | 3 => _and_opd sl
  | 4 => _shift_opd sl
  | 5 => _add_opd sl
  | 6 => _mul_opd sl
  | _ => _not_opd sl

/-- The functions `_exprr`, `_or_opdr`, `_xor_opdr`, `_and_opdr`, `_shift_opdr` and
`_add_opdr` by the level of the operators they read; nothing for the levels 6
and 7. -/
def expr_R (sl : symbols_t) : Nat → Nat → expr_state_t → Run expr_state_t
  | 0 => _exprr sl
  | 1 => _or_opdr sl
  | 2 => _xor_opdr sl
  | 3 => _and_opdr sl
  | 4 => _shift_opdr sl
  | 5 => _add_opdr sl
  | _ => fun _ s => .ok s

/-- Every depth bound from `n` on gives the result `r`. -/
def EvN (F : Nat → expr_state_t → Run expr_state_t) (n : Nat) (s r : expr_state_t) : Prop :=
  ∀ f, n ≤ f → F f s = .ok r

/-- What follows an operand read at the level `k`: a byte that cannot continue a
symbol or a number, at most 500 blanks, and then no operator tighter than the
level `k`. -/
def follows (k : Nat) (rest : List Nat) : Prop :=
  (∃ d0 r, rest = d0 :: r ∧ is_symbol_char d0 = false) ∧ blank_run rest ≤ 500 ∧
    ∀ c, stream_head rest = some c → ∀ j, k < j → op_char j c = false

/-- The operand of the level `k` at the token state `t` is read with the value `v`
up to the stream `rest`, within `c` more calls than what follows it takes. -/
def parses (sl : symbols_t) (k c : Nat) (t : token_t) (st : List Int) (v : Int)
    (rest : List Nat) : Prop :=
  ∃ u, token_stream u = rest ∧ token_small u ∧
    ∀ n r, EvN (expr_R sl k) n { token := u, stack := st ++ [v] } r →
      EvN (expr_F sl k) (n + c) { token := t, stack := st } r

/-! ## The kinds of the operands -/

/-- The kind of a memory operand by its value, as `_get_arg` selects it for a
numeric literal (the comparison is that of `int64_t`). -/
def value_kind (v : Int) : arg_type_t :=
  if v < 0x100 then ARG_TYPE_SHORTMEM
  else if v < 0x10000 then ARG_TYPE_LONGMEM
  else ARG_TYPE_EXTMEM

/-- The kind of a memory operand by a width in bytes. -/
def width_kind (w : Nat) : Option arg_type_t :=
  if w = 1 then some ARG_TYPE_SHORTMEM
  else if w = 2 then some ARG_TYPE_LONGMEM
  else if w = 3 then some ARG_TYPE_EXTMEM
  else none

/-- The kind that the attribute `w8`, `w16` or `w24` after an expression selects. -/
def suffix_kind (name : CStr) : Option arg_type_t :=
  if name = SYMBOL_WIDTH_SHORT then some ARG_TYPE_SHORTMEM
  else if name = SYMBOL_WIDTH_LONG then some ARG_TYPE_LONGMEM
  else if name = SYMBOL_WIDTH_EXT then some ARG_TYPE_EXTMEM
  else none

/-- The kind of an immediate operand: what `_get_args` makes of the kind of the
operand after `#`. -/
def hash_kind (k : arg_type_t) : Option arg_type_t :=
  if k = ARG_TYPE_SHORTMEM then some ARG_TYPE_BYTE
  else if k = ARG_TYPE_LONGMEM then some ARG_TYPE_WORD
  else none

/-- What `_get_arg` writes to the argument slot for a symbol operand: the value of a
constant, the symbol itself for a label or an extern. -/
def symbol_operand (arg : arg_t) (s : symbol_t) : arg_t :=
  if s.type = SYMBOL_TYPE_CONST then { arg with value := s.val64 }
  else { arg with symbol := some s }

/-! ## Whole source texts -/

/-- The context after both passes of `assembler` over a file "a.s" with the text
`src`, as `app_run` runs them. -/
def assemble_source (src : String) : Run asm_context_t := do
  let app : asm_app_t := { noprint := 0, files := [(cstr "a.s", cstr src)], out := [] }
  let (app1, ctx1) ← assembler 100 app assembler_init (cstr "a.s")
  let ctx2 := { ctx1 with pass := ctx1.pass + 1 }
  let (_, ctx3) ← assembler 100 app1 ctx2 (cstr "a.s")
  pure ctx3

/-- The bytes of the section "text" after both passes over the text `src`. -/
def assemble_text (src : String) : Run (List Nat) :=
  (assemble_source src).map
    (fun c => ((section_find c.sections (cstr "text")).map (fun s => s.data)).getD [])

/-- The relocations after both passes over the text `src`: type, symbol, offset,
length and adjust of each. -/
def assemble_relocations (src : String) : Run (List (Nat × CStr × Nat × Nat × Int)) :=
  (assemble_source src).map
    (fun c => c.relocations.map (fun r => (r.type, r.symbol, r.offset, r.length, r.adjust)))

/-! ## The relative jump to a label three bytes on -/

/-- The label, of the default width, at offset `o + 3` of the section `sn`. -/
def jra_label (tn sn : CStr) (o : Nat) : symbol_t :=
  { type := SYMBOL_TYPE_LABEL, name := tn, sect := some sn, exp := 0, val64 := o + 3,
    width := 1 }

/-- The relocation that `jra` at offset `o` of the section `sn` records for its
operand: relative, one byte at offset `o + 1`, adjust 1. -/
def jra_relocation (tn sn : CStr) (o : Nat) : relocation_t :=
  { type := RELOCATION_TYPE_RELATIVE, sect := sn, symbol := tn, offset := o + 1, length := 1,
    adjust := 1 }

/-- The linker context before `_patch_sections` for one output section `R` that
holds `jra` at offset `o`, with the target label three bytes on. -/
def jra_linked (R : section_t) (tn : CStr) (o : Nat) : linker_context_t :=
  { flist := [], symbols := [],
    result := { symbols := [jra_label tn R.name o], sections := [R],
                relocations := [jra_relocation tn R.name o] } }

/-- The bytes of the section "text" after the object that `app_run` writes for the
source text `src` was read back by `l0_load` and linked alone, as the file "a",
under the script `script`. -/
def link_source (src : String) (script : List script_item) : Run (List Nat) := do
  let app : asm_app_t := { noprint := 0, files := [(cstr "a.s", cstr src)], out := [] }
  let bytes ← app_run 100 app assembler_init (cstr "a.s")
  match l0_load 100 [] bytes { symbols := [], sections := [], relocations := [] } with
  | some (.ok d) =>
    let ctx ← linker_run
      [{ fname := cstr "a", symbols := d.symbols, sections := d.sections,
         relocations := d.relocations }] script
    pure (((section_find ctx.result.sections (cstr "text")).map (fun s => s.data)).getD [])
  | some (.error e) => .error e
  | none => .error out_of_fuel

/-! ## The bit instructions -/

/-- The encoding of the bit instructions as the spec gives it: prebyte, base of the
opcode, parity, and whether a displacement byte follows. -/
def bit_form (name : CStr) : Option (Nat × Nat × Nat × Bool) :=
  if name = cstr "btjt" then some (0x72, 0x00, 0, true)
  else if name = cstr "btjf" then some (0x72, 0x00, 1, true)
  else if name = cstr "bset" then some (0x72, 0x10, 0, false)
  else if name = cstr "bres" then some (0x72, 0x10, 1, false)
  else if name = cstr "bccm" then some (0x90, 0x10, 1, false)
  else if name = cstr "bcpl" then some (0x90, 0x10, 0, false)
  else none

/-! ## The instruction `mov` -/

/-- The bytes of one operand of `mov` as the spec gives them: `n` zero bytes for a
symbol, else the `n` low bytes of the value, most significant first. -/
def mov_bytes (a : arg_t) (n : Nat) : List Nat :=
  match a.symbol with
  | some _ => List.replicate n 0
  | none => be_bytes (u64 a.value) n

/-- The relocation of one operand of `mov` as the spec gives it: for a symbol one
absolute relocation of `n` bytes at the offset of the operand's bytes. -/
def mov_relocations (sect : CStr) (a : arg_t) (offset n : Nat) : relocations_t :=
  match a.symbol with
  | some s =>
    [{ type := RELOCATION_TYPE_ABOSULTE, sect := sect, symbol := s.name, offset := offset,
       length := n, adjust := 0 }]
  | none => []

/-! ## Objects and links from source texts -/

/-- The object that the linker reads for the source text `src`: both passes of the
assembler, `l0_save`, then `l0_load`, under the file name `fname`. -/
def object_of_source (fname : String) (src : String) : Run linker_file_data_t := do
  let app : asm_app_t := { noprint := 0, files := [(cstr "a.s", cstr src)], out := [] }
  let bytes ← app_run 100 app assembler_init (cstr "a.s")
  match l0_load 100 [] bytes { symbols := [], sections := [], relocations := [] } with
  | some (.ok d) =>
    pure { fname := cstr fname, symbols := d.symbols, sections := d.sections,
           relocations := d.relocations }
  | some (.error e) => .error e
  | none => .error out_of_fuel

/-- The objects of a list of pairs of file name and source text, in that order. -/
def objects_of_sources : List (String × String) → Run (List linker_file_data_t)
  | [] => pure []
  | (fname, src) :: rest => do
    let o ← object_of_source fname src
    let r ← objects_of_sources rest
    pure (o :: r)

/-- The function `linker_run` on the objects of the source texts `srcs`. -/
def link_sources (srcs : List (String × String)) (script : List script_item) :
    Run linker_context_t := do
  let files ← objects_of_sources srcs
  linker_run files script

/-! ## Lines and conditional blocks -/

/-- The text of a line as the lexer takes it after the leading blanks: it does not
start with a blank, holds no line feed and no zero byte, and is at most 499 bytes
long. -/
def line_text (body : List Nat) : Bool :=
  (match body with
   | [] => true
   | c :: _ => !is_blank c) && body.all (fun c => c ≠ 10 ∧ c ≠ 0) &&
    decide (body.length ≤ 499)

/-- A source line: its leading blanks and its text, without the line feed. -/
abbrev src_line := List Nat × List Nat

/-- The bytes of a list of source lines, each followed by a line feed. -/
def lines_text : List src_line → List Nat
  | [] => []
  | l :: rest => l.1 ++ (l.2 ++ 10 :: lines_text rest)

/-- A line the lexer can take: at most 500 leading blanks, then a line text. -/
def line_ok (l : src_line) : Bool := blanks_ok l.1 && line_text l.2

/-- The line starts with `.if`. -/
def opens_if (l : src_line) : Bool := l.2.take 3 = cstr ".if"

/-- The line starts with `.endif`. -/
def closes_if (l : src_line) : Bool := l.2.take 6 = cstr ".endif"

/-- The number of lines that start with `.if`. -/
def count_if (ls : List src_line) : Nat := ls.countP opens_if

/-- The number of lines that start with `.endif`. -/
def count_endif (ls : List src_line) : Nat := ls.countP closes_if

/-- The lines `pre` lie inside a conditional block that is entered `d` levels deep
in skipped `.if` lines, and the line after them can be its `.endif`: up to there
as many `.endif` lines as `.if` lines and levels were met, and no `.endif` line
among `pre` was in that position before. -/
def block_body (d : Nat) (pre : List src_line) : Prop :=
  count_if pre + d = count_endif pre ∧
  ∀ j, j < pre.length → closes_if (pre.getD j ([], [])) = true →
    count_if (pre.take j) + d ≠ count_endif (pre.take j)

instance block_body_decidable (d : Nat) (pre : List src_line) : Decidable (block_body d pre) := by
  unfold block_body
  exact inferInstance

/-! ## The resolution of extern references -/

/-- The exported definitions of the name `sname` in the files other than `fexclude`,
file by file in command-line order: pairs of file name and symbol. -/
def exported_defs (sname fexclude : CStr) (files : List linker_file_data_t) :
    List (CStr × symbol_t) :=
  (files.filter (fun fd => fd.fname ≠ fexclude)).flatMap
    (fun fd => (fd.symbols.filter (fun s => s.name = sname ∧ s.exp ≠ 0)).map
      (fun s => (fd.fname, s)))

/-- The offset that the output section `name` holds, 0 when there is none. -/
def section_offset (rsections : sections_t) (name : CStr) : Nat :=
  ((section_find rsections name).map (fun s => s.offset)).getD 0

/-- The relocations of a file against the symbol `sname` as the output takes them:
the symbol replaced by `rsname`, the offset moved by the offset of the output
section, in 32 bits. -/
def retarget (rsections : sections_t) (sname rsname : CStr) (rl : relocations_t) :
    relocations_t :=
  (rl.filter (fun r => r.symbol = sname)).map
    (fun r => { r with symbol := rsname,
                       offset := (r.offset + section_offset rsections r.sect) % 4294967296 })

/-- The scan of `_symbol_find_extern` as a fold over the exported definitions. -/
def find_fold : Option symbol_t × Option CStr → List (CStr × symbol_t) →
    Run (Option symbol_t × Option CStr)
  | acc, [] => .ok acc
  | acc, (g, s) :: rest =>
    match acc.1 with
    | some _ => .error "Symbol redefined"
    | none => find_fold (some s, some g) rest

/-- The linker context with the output relocations replaced by `rl`. -/
def with_relocations (ctx : linker_context_t) (rl : relocations_t) : linker_context_t :=
  { ctx with result := { ctx.result with relocations := rl } }

/-- The output of `.print` for the arguments given as text, from an empty output. -/
def print_output (args : String) : Run (List Nat) :=
  match directive_print assembler_init { noprint := 0, files := [], out := [] }
      (token_prepare (cstr args)) with
  | .error e => .error e
  | .ok (app, _) => .ok app.out

/-! ## The spellings of a number -/

/-- The character of a digit with the lower-case letters `a` to `f`. -/
def digit_lower (d : Nat) : Nat := if d < 10 then 48 + d else 87 + d

/-- The digits of `n` in the given base, most significant first, written with the
characters `ch`, after `k` zeros; the number 0 is the digit `0`. -/
def spelling (base : Nat) (ch : Nat → Nat) (k n : Nat) : List Nat :=
  List.replicate k 48 ++ (if n = 0 then [48] else (Nat.digits base n).reverse.map ch)

/-! ### The lexer with the bound of its window -/

/-- The number of bytes that `token_get` can take before `token_getchar` stops the
program with "Rollback exceed": the bytes of the replayed window, then the bytes of
the file for which the window has room. -/
def token_limit (a : token_t) : Nat :=
  a.rollback + (TOKEN_TRACE_SIZE - (a.current.length + a.next.length))

/-- The loop of `token_get` as a function of the bytes it is given, of which at most
`lim` can be taken: the locals at the `break` (`none` for `return NULL`) and the
number of bytes taken. -/
def token_scan_lim (type : token_type_t) :
    List Nat → token_scan_t → Nat → Run (Option token_scan_t × Nat)
  | [], st, _ => .ok (if type = TOKEN_TYPE_EOF then some st else none, 0)
  | _ :: _, _, 0 => .error "Rollback exceed"
  | ch :: rest, st, lim + 1 =>
    if st.name.length ≥ TOKEN_MAX_NAME_SIZE then .error "Token size exceed"
    else if st.tlength = 0 ∧ (ch = 32 ∨ ch = 9 ∨ ch = 13) then
      match token_scan_lim type rest { st with drop := st.drop + 1 } lim with
      | .error e => .error e
      | .ok (r, m) => .ok (r, m + 1)
    else
      match token_step type ch st with
      | .next st1 =>
        match token_scan_lim type rest st1 lim with
        | .error e => .error e
        | .ok (r, m) => .ok (r, m + 1)
      | .brk st1 => .ok (some st1, 1)
      | .ret_null => .ok (none, 1)
      | .fatal e => .error e

/-- The result of the loop of `token_get` from the result of the scan: the token
state after the bytes were taken. -/
def token_loop_result (a : token_t) :
    Run (Option token_scan_t × Nat) → Run (Option token_scan_t × token_t)
  | .error e => .error e
  | .ok (r, m) => .ok (r, token_taken a m)

/-- The result of `token_get` with `TOKEN_NEXT` from the result of the scan. -/
def token_next_result (t : token_t) :
    Run (Option token_scan_t × Nat) → Run (Option CStr × token_t)
  | .error e => .error e
  | .ok (none, m) => .ok (none, token_taken { t with rollback := t.next.length } m)
  | .ok (some st, m) =>
    .ok (some (c_string st.name),
      { token_taken { t with rollback := t.next.length } m with
        current := ((token_stream t).drop st.drop).take st.tlength,
        next := ((token_stream t).take (max t.next.length m)).drop (st.drop + st.tlength) })

/-! ### The lexemes of the token kinds -/

/-- The bytes that the body of a string token stands for: a backslash takes the next
byte through the escape `switch`, any other byte but the quote mark stands for
itself; `none` when the body holds a quote mark that is not escaped or ends in a
backslash. -/
def string_body : List Nat → Option (List Nat)
  | [] => some []
  | [92] => none
  | 92 :: c :: r => (string_body r).map (fun p => token_escape c :: p)
  | c :: r => if c = 34 then none else (string_body r).map (fun p => c :: p)

/-- The lexemes of a token kind: `lexeme K L` is `some p` when the bytes `L` are a
token of the kind `K`, and `p` are the bytes that the token stands for. A symbol is a
letter or underscore followed by letters, digits and underscores; a number is a
prefix `$`, `%`, `@` or a decimal digit followed by digits of the format and `_`
separators, which are left out; a string is a body between quote marks; a character
is one byte or one escape between apostrophes; a comment is a line feed, or a
semicolon with all bytes up to and with the line feed; a line is all bytes up to and
with the line feed, the first of them not a blank; the end of the file is the empty
lexeme; the other kinds are `<<`, `>>` and the single characters. -/
def lexeme (K : token_type_t) (L : List Nat) : Option (List Nat) :=
  match K with
  | TOKEN_TYPE_SYMBOL => if symbol_text L then some L else none
  | TOKEN_TYPE_NUMBER =>
    match L with
    | [] => none
    | p :: tl =>
      match number_format p with
      | none => none
      | some f =>
        if tl.all (fun c => c = 95 || number_digit f c) then
          some (p :: tl.filter (fun c => c ≠ 95))
        else none
  | TOKEN_TYPE_STRING =>
    match L with
    | 34 :: tl => if tl.getLast? = some 34 then string_body tl.dropLast else none
    | _ => none
  | TOKEN_TYPE_CHAR =>
    match L with
    | [39, c, 39] => if c = 92 then none else some [c]
    | [39, 92, c, 39] => some [token_escape c]
    | _ => none
  | TOKEN_TYPE_COMMENT =>
    match L with
    | [10] => some L
    | 59 :: tl =>
      if tl.getLast? = some 10 ∧ tl.dropLast.all (fun c => c ≠ 10) then some L else none
    | _ => none
  | TOKEN_TYPE_LINE =>
    match L with
    | [] => none
    | c :: _ =>
      if ¬ is_blank c ∧ L.getLast? = some 10 ∧ L.dropLast.all (fun c => c ≠ 10) then some L
      else none
  | TOKEN_TYPE_EOF => if L = [] then some [] else none
  | TOKEN_TYPE_SHIFT_LEFT => if L = [60, 60] then some L else none
  | TOKEN_TYPE_SHIFT_RIGHT => if L = [62, 62] then some L else none
  | _ =>
    match token_cmp K with
    | none => none
    | some c => if L = [c] then some L else none

/-- Whether the lexeme `L` of the kind `K` ends before the bytes `rest`: a symbol
and a number end before a byte that cannot continue them, the end of the file is
where no byte follows, and the other kinds end by themselves. -/
def lexeme_end (K : token_type_t) (L rest : List Nat) : Bool :=
  match K with
  | TOKEN_TYPE_SYMBOL =>
    match rest with
    | [] => false
    | d0 :: _ => !is_symbol_char d0
  | TOKEN_TYPE_NUMBER =>
    match L.head?.bind number_format, rest with
    | some f, d0 :: _ => d0 ≠ 95 && !number_digit f d0
    | _, _ => false
  | TOKEN_TYPE_EOF => rest = []
  | _ => true

/-- The number of bytes after the lexeme that `token_get` reads to find its end. -/
def lexeme_ahead (K : token_type_t) : Nat :=
  match K with
  | TOKEN_TYPE_SYMBOL => 1
  | TOKEN_TYPE_NUMBER => 1
  | _ => 0

/-- The greatest number of bytes that a token of the kind can stand for: the test
`tpayload >= TOKEN_MAX_NAME_SIZE` is made before each byte is looked at, so a
comment or a line, which end with their last byte, can have 1024 bytes, the other
kinds 1023. -/
def lexeme_max (K : token_type_t) : Nat :=
  match K with
  | TOKEN_TYPE_COMMENT => TOKEN_MAX_NAME_SIZE
  | TOKEN_TYPE_LINE => TOKEN_MAX_NAME_SIZE
  | _ => TOKEN_MAX_NAME_SIZE - 1

/-! ### The memory map of a list of rows -/

/-- The address `a` lies in the range of the row. -/
def row_covers (x : memdata_row_t) (a : Nat) : Prop :=
  x.offset ≤ a ∧ a < x.offset + x.length

/-- The byte that the row holds for the address `a` of its range. -/
def row_byte (x : memdata_row_t) (a : Nat) : Nat :=
  (memdata_row_bytes x).getD (a - x.offset) 0

/-- The row holds the byte `b` for the address `a`. -/
def row_holds (x : memdata_row_t) (a b : Nat) : Prop := row_covers x a ∧ row_byte x a = b

/-- The address ranges of two rows are disjoint. -/
def rows_disjoint (x y : memdata_row_t) : Prop :=
  x.offset + x.length ≤ y.offset ∨ y.offset + y.length ≤ x.offset

/-- The address ranges of two rows are disjoint and neither ends where the other
begins. -/
def rows_apart (x y : memdata_row_t) : Prop :=
  x.offset + x.length < y.offset ∨ y.offset + y.length < x.offset

/-- A row of non-zero length whose range ends below 2^32. -/
def row_ok (x : memdata_row_t) : Prop := x.length ≠ 0 ∧ x.offset + x.length < 4294967296

/-- A chunk of `memdata_pack`: `length` bytes of data, not empty, ending below 2^32. -/
def chunk_ok (c : memdata_row_t) : Prop := c.data.length = c.length ∧ c.mark = 0 ∧ row_ok c

/-- The byte that a list of rows holds for the address `a`: that of the first row
whose range holds `a`, `none` when no row does. -/
def memdata_at (rows : List memdata_row_t) (a : Nat) : Option Nat :=
  match rows.find? (fun x => decide (x.offset ≤ a ∧ a < x.offset + x.length)) with
  | none => none
  | some x => some (row_byte x a)

/-- The number of rows without mark. -/
def unmarked (rows : List memdata_row_t) : Nat := rows.countP (fun x => x.mark = 0)

/-- A marked row of the list holds the byte `b` for the address `a`. -/
def marked_holds (rows : List memdata_row_t) (a b : Nat) : Prop :=
  ∃ x ∈ rows, x.mark ≠ 0 ∧ row_holds x a b

/-- The row with its mark cleared. -/
def row_clear (x : memdata_row_t) : memdata_row_t := { x with mark := 0 }

instance rows_disjoint_decidable (x y : memdata_row_t) : Decidable (rows_disjoint x y) := by
  unfold rows_disjoint
  exact inferInstance

instance row_ok_decidable (x : memdata_row_t) : Decidable (row_ok x) := by
  unfold row_ok
  exact inferInstance

/-- The state of `memdata_pack` between two rows: the marked rows hold what the
chunks `cs` hold, marked rows are pairwise disjoint, and the chunks are well formed. -/
def pack_inv (rows cs : List memdata_row_t) : Prop :=
  (∀ a b, (∃ x ∈ cs, row_holds x a b) ↔ marked_holds rows a b) ∧
  rows.Pairwise (fun x y => x.mark ≠ 0 → y.mark ≠ 0 → rows_disjoint x y) ∧
  (∀ x ∈ cs, chunk_ok x)

/-- The finished chunks `new` lie apart from each other and from every row without
mark. -/
def pack_apart (rows new : List memdata_row_t) : Prop :=
  (∀ x ∈ new, ∀ r ∈ rows, r.mark = 0 → rows_apart x r) ∧ new.Pairwise rows_apart

/-- The result of the loop over the rows `rest` inside "find contiguous memory
chunks", `pre` being the rows before them and `new` the finished chunks: what holds
when the loop ends, that its only error is the overlap, and that it ends without
error on rows that are pairwise disjoint. -/
def pack_pass_post (new pre rest : List memdata_row_t) (c : memdata_row_t) (marked : Bool)
    (res : Run (List memdata_row_t × memdata_row_t × Bool)) : Prop :=
  (∀ rest1 c1 m1, res = .ok (rest1, c1, m1) →
    rest1.map row_clear = rest.map row_clear ∧
    (∀ x ∈ rest1, x.mark = 0 → x ∈ rest) ∧
    pack_inv (pre ++ rest1) (c1 :: new) ∧ (∀ x ∈ new, rows_apart x c1) ∧
    (marked = true → m1 = true) ∧
    (m1 = false → c1 = c ∧ rest1 = rest ∧ ∀ r ∈ rest, r.mark = 0 → rows_apart c r) ∧
    unmarked rest1 ≤ unmarked rest ∧
    (m1 = true → marked = false → unmarked rest1 < unmarked rest)) ∧
  (∀ e, res = .error e → e = "Memory overlap at") ∧
  ((pre ++ rest).Pairwise rows_disjoint → ∃ r, res = .ok r)

/-- The result of the loop over a row and the rows after it from the result for
the rows after it. -/
def pack_pass_wrap (r2 : memdata_row_t) :
    Run (List memdata_row_t × memdata_row_t × Bool) →
      Run (List memdata_row_t × memdata_row_t × Bool)
  | .error e => .error e
  | .ok (rest1, chunk1, marked1) => .ok (r2 :: rest1, chunk1, marked1)

/-- The number of pairs of the list, the first before the second, for which `f`
holds. -/
def llist_inversions {α : Type} (f : α → α → Bool) : List α → Nat
  | [] => 0
  | a :: l => l.countP (fun b => f a b) + llist_inversions f l

/-- The memory map read back from an S-record file: `srec_read`, then
`memdata_pack`. -/
def srec_reread (fuel : Nat) (file : List Nat) : Option (Run (List memdata_row_t)) :=
  match srec_read file with
  | .error e => some (.error e)
  | .ok md => memdata_pack fuel md

/-! ## Concrete inputs used by the evaluation theorems -/

/-- The section name "text". -/
def str_text : CStr := [116, 101, 120, 116]

/-- Object `a`: section text holding `nop`, `ret`; the exported label `F` (declared
without a width, hence `w8`) at offset 1. -/
def c1_file_a : linker_file_data_t :=
  { fname := [97]
    symbols := [{ type := SYMBOL_TYPE_LABEL, name := [70], sect := some str_text, exp := 1,
                  val64 := 1, width := 1 }]
    sections := [{ name := str_text, noload := 0, data := [0x9D, 0x81], length := 2 }]
    relocations := [] }

/-- Object `b`: `.extern F.w16` and `call F`, that is the opcode 0xCD, two
placeholder bytes and an absolute relocation of length 2 at offset 1. -/
def c1_file_b : linker_file_data_t :=
  { fname := [98]
    symbols := [{ type := SYMBOL_TYPE_EXTERN, name := [70], sect := none, exp := 0,
                  val64 := 0, width := 2 }]
    sections := [{ name := str_text, noload := 0, data := [0xCD, 0, 0], length := 3 }]
    relocations := [{ type := RELOCATION_TYPE_ABOSULTE, sect := str_text, symbol := [70],
                      offset := 1, length := 2, adjust := 0 }] }

/-- The script `.place "text" $8000 $8000`. -/
def script_text_8000 : List script_item := [script_item.place str_text 0x8000 0x8000]

/-- Object `b` of the relative case: `.extern T` and `jra T`, that is the opcode
0x20, one placeholder byte and a relative relocation of length 1, adjust 1, at
offset 1. -/
def c2_file_b : linker_file_data_t :=
  { fname := [98]
    symbols := [{ type := SYMBOL_TYPE_EXTERN, name := [84], sect := none, exp := 0,
                  val64 := 0, width := 1 }]
    sections := [{ name := str_text, noload := 0, data := [0x20, 0], length := 2 }]
    relocations := [{ type := RELOCATION_TYPE_RELATIVE, sect := str_text, symbol := [84],
                      offset := 1, length := 1, adjust := 1 }] }

/-- The script `T = $1234` followed by `.place "text" $8000 $8000`. -/
def c2_script : List script_item :=
  [script_item.define [84] 0x1234, script_item.place str_text 0x8000 0x8000]

/-- An object with one byte `b` in section text and the label `L` at offset 0. -/
def c3_file (fname : CStr) (b : Nat) : linker_file_data_t :=
  { fname := fname
    symbols := [{ type := SYMBOL_TYPE_LABEL, name := [76], sect := some str_text, exp := 0,
                  val64 := 0, width := 1 }]
    sections := [{ name := str_text, noload := 0, data := [b], length := 1 }]
    relocations := [] }

/-- Three objects `a`, `b`, `c` in command-line order. -/
def c3_files : List linker_file_data_t := [c3_file [97] 1, c3_file [98] 2, c3_file [99] 3]

/-- The relative relocation of `jra L`: opcode at offset 0, displacement byte at
offset 1, adjust 1. -/
def c2w_reloc : relocation_t :=
  { type := RELOCATION_TYPE_RELATIVE, sect := str_text, symbol := [102, 58, 76],
    offset := 1, length := 1, adjust := 1 }

/-- The label `f:L` at merged offset 3 of text. -/
def c2w_label : symbol_t :=
  { type := SYMBOL_TYPE_LABEL, name := [102, 58, 76], sect := some str_text, exp := 0,
    val64 := 3, width := 1 }

/-- Section text of `jra L | nop`, `L: nop`, placed at 0x8000. -/
def c2w_text : section_t :=
  { name := str_text, noload := 0, data := [0x20, 0, 0x9D, 0x9D], length := 4,
    placed := 1, offset := 4, lma := 0x8000, vma := 0x8000 }

/-- The linker context after gluing and the script, for one object `f` holding
`jra L | nop` and `L: nop` in text. -/
def c2w_ctx : linker_context_t :=
  { flist := []
    symbols := []
    result := { symbols := [c2w_label], sections := [c2w_text], relocations := [c2w_reloc] } }

/-- Symbols of an assembled unit: the exported label `L` at offset 3 of text and the
extern `F` of width `w16`. -/
def l0x_symbols : symbols_t :=
  [{ type := SYMBOL_TYPE_LABEL, name := [76], sect := some str_text, exp := 1, val64 := 3,
     width := 1 },
   { type := SYMBOL_TYPE_EXTERN, name := [70], sect := none, exp := 0, val64 := 0, width := 2 }]

/-- The absolute relocation of `call F` at offset 1 of text. -/
def l0x_relocations : relocations_t :=
  [{ type := RELOCATION_TYPE_ABOSULTE, sect := str_text, symbol := [70], offset := 1,
     length := 2, adjust := 0 }]

/-- Section text with `call F`, `nop` and a NOLOAD section `b` of 16 bytes. -/
def l0x_sections : sections_t :=
  [{ name := str_text, noload := 0, data := [0xCD, 0, 0, 0x9D], length := 4 },
   { name := [98], noload := 1, data := [], length := 16 }]

/-- A label whose section has the empty name, as after `.section ""`. -/
def c4_symbols : symbols_t :=
  [{ type := SYMBOL_TYPE_LABEL, name := [76], sect := some [], exp := 0, val64 := 0,
     width := 1 }]

/-- The section with the empty name, holding `nop`. -/
def c4_sections : sections_t :=
  [{ name := [], noload := 0, data := [0x9D], length := 1 }]

/-- The symbol of `.extern F.w16`. -/
def c7_extern : symbol_t :=
  { type := SYMBOL_TYPE_EXTERN, name := [70], sect := none, exp := 0, val64 := 0, width := 2 }

/-- The arguments of `jpf F` for `.extern F.w16`: kind LONGMEM from the width 2. -/
def c7_args : List arg_t := [{ type := ARG_TYPE_LONGMEM, value := 0, symbol := some c7_extern }]

/-- The section "text" as `assembler_init` creates it. -/
def c7w_text : section_t := _section_create (cstr "text")

/-- The arguments of `adc A, $1234`. -/
def c7w_args : List arg_t :=
  [{ type := ARG_TYPE_A, value := 0, symbol := none },
   { type := ARG_TYPE_LONGMEM, value := 0x1234, symbol := none }]

/-- The symbol of `.extern G.w8`. -/
def c8_extern : symbol_t :=
  { type := SYMBOL_TYPE_EXTERN, name := [71], sect := none, exp := 0, val64 := 0, width := 1 }

/-- The arguments of `call G` for `.extern G.w8`: kind SHORTMEM from the width 1. -/
def c8_args : List arg_t := [{ type := ARG_TYPE_SHORTMEM, value := 0, symbol := some c8_extern }]

/-- The symbol of `.extern H.w16`. -/
def c8w_extern : symbol_t :=
  { type := SYMBOL_TYPE_EXTERN, name := [72], sect := none, exp := 0, val64 := 0, width := 2 }

/-- The arguments of `ld A, H` for `.extern H.w16`. -/
def c8w_args : List arg_t :=
  [{ type := ARG_TYPE_A, value := 0, symbol := none },
   { type := ARG_TYPE_LONGMEM, value := 0, symbol := some c8w_extern }]

/-- The source text of four lines: `nop`, `.ifdef X`, `L:`, `.endif`. -/
def c10_source : List Nat := cstr "nop\n.ifdef X\nL:\n.endif\n"

/-- The world in which the file "a.s" holds `c10_source`. -/
def c10_app : asm_app_t := { noprint := 0, files := [(cstr "a.s", c10_source)], out := [] }

/-- The label L as pass 0 leaves it. -/
def c9_label : symbol_t := { _symbol_create [76] with type := SYMBOL_TYPE_LABEL }

/-- The section "text" with one byte in it. -/
def c9_text : section_t := { _section_create (cstr "text") with data := [0x9D], length := 1 }

/-- The context of pass 1 after one byte was assembled, with the label L not defined
yet. -/
def c9_ctx : asm_context_t :=
  { pass := 1, dbendian := DB_ENDIAN_BIG, symbols := [c9_label], sections := [c9_text],
    relocations := [], sect := cstr "text" }

/-- The token state at the start of the text `L:`, a comment and a further line. -/
def c9_token : token_t := token_prepare (cstr "L: ; entry\n nop\n")

/-- The token state at the start of the text `L.w16:` and the end of the line. -/
def c9_token_again : token_t := token_prepare (cstr " L.w16:\n")

/-- A constant as `.define` enters it in the symbol table. -/
def c11_const (name : String) (v : Int) : symbol_t :=
  { type := SYMBOL_TYPE_CONST, name := cstr name, sect := none, exp := 0, val64 := v, width := 1 }

/-- The constants a = 1, b = 6, c = 12, d = 1, e = 1, f = 1, g = -3. -/
def c11_symbols : symbols_t :=
  [c11_const "a" 1, c11_const "b" 6, c11_const "c" 12, c11_const "d" 1, c11_const "e" 1,
   c11_const "f" 1, c11_const "g" (-3)]

/-- The tree `a | (b ^ (c & (d << (e + (f * (~g))))))` of the text
`a | b ^ c & d << e + f * ~g`. -/
def c11_tree : cexpr :=
  .bin OP_OR (.sym [] (cstr "a")) [32]
    (.bin OP_XOR (.sym [32] (cstr "b")) [32]
      (.bin OP_AND (.sym [32] (cstr "c")) [32]
        (.bin OP_SHIFT_LEFT (.sym [32] (cstr "d")) [32]
          (.bin OP_ADD (.sym [32] (cstr "e")) [32]
            (.bin OP_MUL (.sym [32] (cstr "f")) [32] (.neg [32] (.sym [] (cstr "g"))))))))

/-- The tree `(a | b) & c` of the text `(a | b) & c`. -/
def c11_tree_paren : cexpr :=
  .bin OP_AND
    (.paren [] (.bin OP_OR (.sym [] (cstr "a")) [32] (.sym [32] (cstr "b"))) [])
    [32] (.sym [32] (cstr "c"))

/-- An expression that is one literal of 1024 digits, 1023 zeros and a 1, and the
end of the line. -/
def c11_long : List Nat := 123 :: (List.replicate 1023 48 ++ [49, 125, 10])

/-- The tree `(10 - 3) - 2` of the text `10 - 3 - 2`. -/
def c12_tree : cexpr :=
  .bin OP_SUBSTRUCT (.bin OP_SUBSTRUCT (.num [] (cstr "10")) [32] (.num [32] (cstr "3"))) [32]
    (.num [32] (cstr "2"))

/-- The context with the constant K of width w16 and value 5, as `.define K.w16 5`
leaves it. -/
def c14_ctx : asm_context_t :=
  { assembler_init with
    symbols := [{ type := SYMBOL_TYPE_CONST, name := cstr "K", sect := none, exp := 0,
                  val64 := 5, width := 2 }] }

/-- The label T as pass 0 leaves it. -/
def c16_label : symbol_t := { _symbol_create (cstr "T") with type := SYMBOL_TYPE_LABEL }

/-- The section "text" of `jra T`, `nop`, `T:`, `nop`, placed at the VMA `vma`. -/
def c16_text (vma : Nat) : section_t :=
  { name := cstr "text", noload := 0, data := [0x20, 0, 0x9D, 0x9D], length := 4, placed := 1,
    offset := 4, lma := 0x8000, vma := vma }

/-- The operands of `bset $1000, #3`. -/
def c17_args : List arg_t :=
  [{ type := ARG_TYPE_LONGMEM, value := 0x1000, symbol := none },
   { type := ARG_TYPE_BYTE, value := 3, symbol := none }]

/-- The operands of `btjf $50, #2, T` with the label T. -/
def c17_args_jump : List arg_t :=
  [{ type := ARG_TYPE_SHORTMEM, value := 0x50, symbol := none },
   { type := ARG_TYPE_BYTE, value := 2, symbol := none },
   { type := ARG_TYPE_SHORTMEM, value := 0, symbol := some c16_label }]

/-- The operands of `mov $1000, #$12`. -/
def c20_args : List arg_t :=
  [{ type := ARG_TYPE_LONGMEM, value := 0x1000, symbol := none },
   { type := ARG_TYPE_BYTE, value := 0x12, symbol := none }]

/-- The operands of `mov H, $2000` with the extern H of width w16. -/
def c20_args_symbol : List arg_t :=
  [{ type := ARG_TYPE_LONGMEM, value := 0, symbol := some c8w_extern },
   { type := ARG_TYPE_LONGMEM, value := 0x2000, symbol := none }]

/-- The constant SZ after `.define SZ.w16 $1000`. -/
def c22_symbol : symbol_t :=
  { type := SYMBOL_TYPE_CONST, name := cstr "SZ", sect := none, exp := 0, val64 := 0x1000,
    width := 2 }

/-- The context at the start of section "text" with the constant SZ defined. -/
def c22_ctx : asm_context_t := { assembler_init with symbols := [c22_symbol] }

/-- A source with a block that is skipped when X is not defined and holds a nested
block. -/
def c24_source : String := ".ifdef X\n nop\n.ifdef Y\n ret\n.endif\n nop\n.endif\n ret\n"

/-- The token state at the start of the source. -/
def c24_token : token_t := token_prepare (cstr c24_source)

/-- The token state after the dot of `.ifdef`. -/
def c24_t1 : token_t :=
  match token_get c24_token TOKEN_TYPE_DOT TOKEN_CURRENT with
  | .ok (_, t) => t
  | .error _ => c24_token

/-- The token state after the name `ifdef`. -/
def c24_t2 : token_t :=
  match token_get c24_t1 TOKEN_TYPE_SYMBOL TOKEN_NEXT with
  | .ok (_, t) => t
  | .error _ => c24_t1

/-- The token state after the operand `X`. -/
def c24_t3 : token_t :=
  match directive_if_value assembler_init c24_t2 (cstr "ifdef") with
  | .ok (_, t) => t
  | .error _ => c24_t2

/-- The lines of the skipped block before its `.endif`, the first being the rest
of the line of `.ifdef X`. -/
def c24_pre : List src_line :=
  [([], []), ([32], cstr "nop"), ([], cstr ".ifdef Y"), ([32], cstr "ret"),
   ([], cstr ".endif"), ([32], cstr "nop")]

/-- An application without files. -/
def c24_app : asm_app_t := { noprint := 0, files := [], out := [] }

/-- The linker context when `_glue_sections`, run on the objects `a` (section text
9D 81, exported label F at offset 1) and `b` (`.extern F.w16`, `call F`), turns to
the symbols of `b`: the symbol a:F and the merged section text are there, the
contribution of `b` starts at offset 2. -/
def c25_ctx : linker_context_t :=
  { flist := [c1_file_a, c1_file_b], symbols := [],
    result :=
      { symbols := [{ type := SYMBOL_TYPE_LABEL, name := cstr "a:F", sect := some str_text,
                      exp := 1, val64 := 1, width := 1 }],
        sections := [{ name := str_text, noload := 0, data := [0x9D, 0x81, 0xCD, 0, 0],
                       length := 5, offset := 2 }],
        relocations := [] } }

/-- The extern symbol F of the object `b`. -/
def c25_reference : symbol_t :=
  { type := SYMBOL_TYPE_EXTERN, name := [70], sect := none, exp := 0, val64 := 0, width := 2 }

/-- The exported label F of the object `a`. -/
def c25_label : symbol_t :=
  { type := SYMBOL_TYPE_LABEL, name := [70], sect := some str_text, exp := 1, val64 := 1,
    width := 1 }

/-- An object that declares F extern without a width (w8) and refers to it with
`.d16 F`: two placeholder bytes and an absolute relocation of length 2. -/
def c25_file_d16 : linker_file_data_t :=
  { fname := cstr "a"
    symbols := [{ type := SYMBOL_TYPE_EXTERN, name := [70], sect := none, exp := 0,
                  val64 := 0, width := 1 }]
    sections := [{ name := str_text, noload := 0, data := [0, 0], length := 2 }]
    relocations := [{ type := RELOCATION_TYPE_ABOSULTE, sect := str_text, symbol := [70],
                      offset := 0, length := 2, adjust := 0 }] }

/-- An object with `nop`, `ret` and the exported label F at offset 1, under the file
name `fname`. -/
def c26_file (fname : String) : linker_file_data_t :=
  { fname := cstr fname
    symbols := [{ type := SYMBOL_TYPE_LABEL, name := [70], sect := some str_text, exp := 1,
                  val64 := 1, width := 1 }]
    sections := [{ name := str_text, noload := 0, data := [0x9D, 0x81], length := 2 }]
    relocations := [] }

/-- An object that declares F extern with the width w16 and calls it. -/
def c26_file_ref : linker_file_data_t :=
  { fname := cstr "c"
    symbols := [c25_reference]
    sections := [{ name := str_text, noload := 0, data := [0xCD, 0, 0], length := 3 }]
    relocations := [{ type := RELOCATION_TYPE_ABOSULTE, sect := str_text, symbol := [70],
                      offset := 1, length := 2, adjust := 0 }] }

/-- An object with the section "data" holding the bytes 1 and 2, loadable. -/
def c27_file_load : linker_file_data_t :=
  { fname := cstr "a", symbols := [],
    sections := [{ name := cstr "data", noload := 0, data := [1, 2], length := 2 }],
    relocations := [] }

/-- An object with a NOLOAD section "data" of length 1. -/
def c27_file_noload : linker_file_data_t :=
  { fname := cstr "b", symbols := [],
    sections := [{ name := cstr "data", noload := 1, data := [], length := 1 }],
    relocations := [] }

/-- Output sections "text" (4 bytes at LMA = VMA = 0x8000) and "bss" (NOLOAD, empty,
VMA 0x8001): the address of the empty section lies in the range of the other. -/
def c28_sections_empty : sections_t :=
  [{ name := str_text, noload := 0, data := [1, 2, 3, 4], length := 4, placed := 1,
     lma := 0x8000, vma := 0x8000 },
   { name := cstr "bss", noload := 1, data := [], length := 0, placed := 1,
     lma := 0, vma := 0x8001 }]

/-- Output sections "text" (4 bytes at LMA = VMA = 0x8000), "data" (2 bytes, LMA
0x8004, VMA 0x100) and "bss" (NOLOAD, 16 bytes, LMA 0x8000, VMA 0x102). -/
def c28_sections : sections_t :=
  [{ name := str_text, noload := 0, data := [1, 2, 3, 4], length := 4, placed := 1,
     lma := 0x8000, vma := 0x8000 },
   { name := cstr "data", noload := 0, data := [5, 6], length := 2, placed := 1,
     lma := 0x8004, vma := 0x100 },
   { name := cstr "bss", noload := 1, data := [], length := 16, placed := 1,
     lma := 0x8000, vma := 0x102 }]

/-- The object of the source `nop`, `.section "data"`, `.d8 1, 2`. -/
def c28_file_two : linker_file_data_t :=
  { fname := cstr "a", symbols := [],
    sections := [{ name := str_text, noload := 0, data := [0x9D], length := 1 },
                 { name := cstr "data", noload := 0, data := [1, 2], length := 2 }],
    relocations := [] }

/-- A chunk of 4 bytes at the load address 0x12345. -/
def c29_row : memdata_row_t := { offset := 0x12345, data := [1, 2, 3, 4], length := 4 }

/-- A chunk of 32 bytes at the load address 0xFFF8, across the 64 KiB boundary. -/
def c30_row : memdata_row_t :=
  { offset := 0xFFF8, data := List.range 32, length := 32 }

/-- A loadable section "text" of 4 bytes. -/
def c36_section : section_t :=
  { name := str_text, noload := 0, data := [1, 2, 3, 4], length := 4 }

/-- An evaluator state with 1024 values on the stack, before the operand `1` of an
expression that ends there. -/
def c37_state : expr_state_t :=
  { token := token_prepare (cstr "1\x7d"), stack := List.replicate 1024 0 }

/-- An object file of 64 bytes: the file head and one block header whose fields are
all zero (magic 0, length 0, checksum 0). -/
def c39_file : List Nat := l0_file_head ++ List.replicate 32 0

/-- The lexer at the start of the line `'a+1`. -/
def c34_token : token_t := token_prepare (cstr "'a+1\n")

/-- The lexer on the line `'a+1` after the request for a character token read three
bytes ahead and returned `NULL`. -/
def c34_failed : token_t :=
  { file := [49, 10], current := [], next := [39, 97, 43], rollback := 0 }

/-- Two rows at the top of the address space: 16 bytes at 0xFFFFFFF0 and 4 bytes at
0xFFFFFFF8, inside the range of the first. -/
def c32_rows_top : List memdata_row_t :=
  [{ offset := 0xFFFFFFF0, data := List.range 16, length := 16 },
   { offset := 0xFFFFFFF8, data := [1, 2, 3, 4], length := 4 }]

/-- The 16 bytes at 0xFFFFFFF0, which end at 2^32, and 4 bytes at the address 0. -/
def c32_rows_wrap : List memdata_row_t :=
  [{ offset := 0xFFFFFFF0, data := List.range 16, length := 16 },
   { offset := 0, data := [1, 2, 3, 4], length := 4 }]

/-- Three disjoint rows, the second before and next to the first. -/
def c32_rows : List memdata_row_t :=
  [{ offset := 0x8004, data := [5, 6], length := 2 },
   { offset := 0x9000, data := [7], length := 1 },
   { offset := 0x8000, data := [1, 2, 3, 4], length := 4 }]

/-- Two rows of which the second begins inside the first. -/
def c32_rows_overlap : List memdata_row_t :=
  [{ offset := 0x8000, data := [1, 2, 3, 4], length := 4 },
   { offset := 0x8003, data := [5, 6], length := 2 }]

/-- One loadable section of 4 bytes placed at the load address 0x12345. -/
def c31_sections : sections_t :=
  [{ name := str_text, noload := 0, data := [1, 2, 3, 4], length := 4,
     lma := 0x12345, vma := 0x12345 }]

/-- Three loadable sections inside the first 64 KiB: 20 bytes at 0x8014, 20 bytes
before them at 0x8000 and 2 bytes at 0x9000; a noload section and an empty one. -/
def c31_sections_low : sections_t :=
  [{ name := str_text, noload := 0, data := (List.range 20).map (· + 20), length := 20,
     lma := 0x8014, vma := 0x8014 },
   { name := cstr "bss", noload := 1, data := [], length := 8, lma := 0, vma := 0 },
   { name := cstr "vectors", noload := 0, data := List.range 20, length := 20,
     lma := 0x8000, vma := 0x8000 },
   { name := cstr "empty", noload := 0, data := [], length := 0, lma := 0x8004,
     vma := 0x8004 },
   { name := cstr "data", noload := 0, data := [0xAA, 0xBB], length := 2,
     lma := 0x9000, vma := 0 }]

/-- A symbol of 1024 letters `a` and a line feed. -/
def c33_long_symbol : List Nat := List.replicate 1024 97 ++ [10]

/-- A line of 1024 bytes (1023 letters and the line feed), then two spaces and a line
of 1023 bytes. -/
def c33_two_lines : List Nat :=
  (List.replicate 1023 97 ++ [10]) ++ [32, 32] ++ (List.replicate 1022 97 ++ [10])

/-- The expression `1+(1+( ... (1) ... ))` of `n + 1` operands `1`, each but the
first in a parenthesis of its own. -/
def c37_tree : Nat → cexpr
  | 0 => cexpr.num [] [49]
  | n + 1 => cexpr.bin OP_ADD (cexpr.num [] [49]) [] (cexpr.paren [] (c37_tree n) [])

/-- The line with the expression of 1025 operands between `\x7b` and `\x7d`. -/
def c37_text : List Nat := 123 :: (cprint (c37_tree 1024) ++ 125 :: [10])

/-- The line with the expression of 1026 operands between `\x7b` and `\x7d`. -/
def c37_text_deep : List Nat := 123 :: (cprint (c37_tree 1025) ++ 125 :: [10])

/-! # Theorems -/


theorem memcpy_at_length_head (buf : List Nat) (off : Nat) :
    (buf.take off ++ List.replicate (off - buf.length) 0).length = off := by
  simp [List.length_take]; omega

theorem memcpy_at_length_mid (src : List Nat) (n : Nat) :
    (src.take n ++ List.replicate (n - src.length) 0).length = n := by
  simp [List.length_take]; omega

theorem getD_pad (buf : List Nat) (off i : Nat) (h : i < off) :
    (buf.take off ++ List.replicate (off - buf.length) 0).getD i 0 = buf.getD i 0 := by
  simp only [List.getD_eq_getElem?_getD]
  by_cases hi : i < buf.length
  · rw [List.getElem?_append_left (by simp [List.length_take]; omega)]
    rw [List.getElem?_take_of_lt h]
  · rw [List.getElem?_append_right (by simp [List.length_take]; omega)]
    have h1 : buf[i]? = none := List.getElem?_eq_none (by omega)
    rw [h1]
    simp only [List.length_take, Option.getD_none]
    rw [List.getElem?_replicate]
    split <;> simp

theorem memcpy_at_getD_outside (buf src : List Nat) (off n i : Nat)
    (h : i < off ∨ off + n ≤ i) :
    (memcpy_at buf off src n).getD i 0 = buf.getD i 0 := by
  unfold memcpy_at
  rcases h with h | h
  · rw [List.append_assoc]
    simp only [List.getD_eq_getElem?_getD]
    rw [List.getElem?_append_left (by rw [memcpy_at_length_head]; exact h)]
    have := getD_pad buf off i h
    simpa only [List.getD_eq_getElem?_getD] using this
  · simp only [List.getD_eq_getElem?_getD]
    rw [List.getElem?_append_right (by
      rw [List.length_append, memcpy_at_length_head, memcpy_at_length_mid]; exact h)]
    rw [List.length_append, memcpy_at_length_head, memcpy_at_length_mid]
    rw [List.getElem?_drop]
    congr 2
    omega

theorem memcpy_at_getD_first (buf src : List Nat) (off n : Nat) (hn : 0 < n) :
    (memcpy_at buf off src n).getD off 0 = src.getD 0 0 := by
  unfold memcpy_at
  simp only [List.getD_eq_getElem?_getD]
  rw [List.getElem?_append_left (by
      rw [List.length_append, memcpy_at_length_head, memcpy_at_length_mid]; omega)]
  rw [List.getElem?_append_right (by rw [memcpy_at_length_head])]
  rw [memcpy_at_length_head, Nat.sub_self]
  cases src with
  | nil => cases n with
    | zero => omega
    | succ k => simp [List.replicate_succ]
  | cons a t => cases n with
    | zero => omega
    | succ k => simp


theorem symbol_find_update (sl : symbols_t) (n m : CStr) (s0 s1 : symbol_t)
    (h0 : symbol_find sl n = some s0) (h1 : s1.name = n) :
    symbol_find (symbol_update sl n (fun _ => s1)) m
      = if m = n then some s1 else symbol_find sl m := by
  induction sl with
  | nil => simp [symbol_find] at h0
  | cons a t ih =>
    unfold symbol_update
    by_cases ha : a.name = n
    · simp only [ha, if_true]
      by_cases hm : m = n
      · simp [symbol_find, List.find?_cons, h1, hm]
      · simp only [hm, if_false]
        have h1m : ¬ s1.name = m := by rw [h1]; exact fun h => hm h.symm
        have ham : ¬ a.name = m := by rw [ha]; exact fun h => hm h.symm
        simp [symbol_find, List.find?_cons, h1m, ham]
    · simp only [ha, if_false]
      have h0t : symbol_find t n = some s0 := by
        simpa [symbol_find, List.find?_cons, ha] using h0
      have := ih h0t
      by_cases ham : a.name = m
      · have hmn : ¬ m = n := by rw [← ham]; exact ha
        simp [symbol_find, List.find?_cons, ham, hmn]
      · simp only [symbol_find, List.find?_cons, ham, decide_False] at this ⊢
        exact this

theorem symbol_update_self (sl : symbols_t) (n : CStr) (s0 : symbol_t)
    (h0 : symbol_find sl n = some s0) :
    symbol_update sl n (fun _ => s0) = sl := by
  induction sl with
  | nil => rfl
  | cons a t ih =>
    unfold symbol_update
    by_cases ha : a.name = n
    · simp [symbol_find, List.find?_cons, ha] at h0
      subst h0
      simp [ha]
    · have h0t : symbol_find t n = some s0 := by
        simpa [symbol_find, List.find?_cons, ha] using h0
      simp [ha, ih h0t]

theorem symbol_find_name (sl : symbols_t) (n : CStr) (s0 : symbol_t)
    (h0 : symbol_find sl n = some s0) : s0.name = n := by
  have := List.find?_some h0
  simpa using this

theorem section_find_name (sl : sections_t) (n : CStr) (s0 : section_t)
    (h0 : section_find sl n = some s0) : s0.name = n := by
  have := List.find?_some h0
  simpa using this


theorem section_update_frame (sl : sections_t) (n : CStr) (s0 s1 : section_t)
    (h0 : section_find sl n = some s0) (h1 : section_frame s1 = section_frame s0) :
    (section_update sl n (fun _ => s1)).map section_frame = sl.map section_frame := by
  induction sl with
  | nil => rfl
  | cons a t ih =>
    unfold section_update
    by_cases ha : a.name = n
    · simp [section_find, List.find?_cons, ha] at h0
      subst h0
      simp [ha, h1]
    · have h0t : section_find t n = some s0 := by
        simpa [section_find, List.find?_cons, ha] using h0
      simp [ha, ih h0t]

theorem section_find_update (sl : sections_t) (n m : CStr) (s0 s1 : section_t)
    (h0 : section_find sl n = some s0) (h1 : s1.name = n) :
    section_find (section_update sl n (fun _ => s1)) m
      = if m = n then some s1 else section_find sl m := by
  induction sl with
  | nil => simp [section_find] at h0
  | cons a t ih =>
    unfold section_update
    by_cases ha : a.name = n
    · simp only [ha, if_true]
      by_cases hm : m = n
      · simp [section_find, List.find?_cons, h1, hm]
      · simp only [hm, if_false]
        have h1m : ¬ s1.name = m := by rw [h1]; exact fun h => hm h.symm
        have ham : ¬ a.name = m := by rw [ha]; exact fun h => hm h.symm
        simp [section_find, List.find?_cons, h1m, ham]
    · simp only [ha, if_false]
      have h0t : section_find t n = some s0 := by
        simpa [section_find, List.find?_cons, ha] using h0
      have := ih h0t
      by_cases ham : a.name = m
      · have hmn : ¬ m = n := by rw [← ham]; exact ha
        simp [section_find, List.find?_cons, ham, hmn]
      · simp only [section_find, List.find?_cons, ham, decide_False] at this ⊢
        exact this

theorem section_find_of_frame (a b : sections_t) (n : CStr) (R : section_t)
    (hf : b.map section_frame = a.map section_frame)
    (h : section_find a n = some R) :
    ∃ R1, section_find b n = some R1 ∧ section_frame R1 = section_frame R := by
  induction a generalizing b with
  | nil => simp [section_find] at h
  | cons x t ih =>
    cases b with
    | nil => simp at hf
    | cons y u =>
      simp only [List.map_cons, List.cons.injEq] at hf
      obtain ⟨hxy, htu⟩ := hf
      have hname : y.name = x.name := by
        have := congrArg section_t.name hxy
        simpa [section_frame] using this
      by_cases hx : x.name = n
      · have hR : x = R := by simpa [section_find, List.find?_cons, hx] using h
        refine ⟨y, ?_, ?_⟩
        · simp [section_find, List.find?_cons, hname, hx]
        · rw [← hR]; exact hxy
      · have ht : section_find t n = some R := by
          simpa [section_find, List.find?_cons, hx] using h
        obtain ⟨R1, h1, h2⟩ := ih u htu ht
        refine ⟨R1, ?_, h2⟩
        have hy : ¬ y.name = n := by rw [hname]; exact hx
        simpa [section_find, List.find?_cons, hy] using h1

theorem section_patch_frame (s s1 : section_t) (off : Nat) (src : List Nat) (n : Nat)
    (h : section_patch s off src n = .ok s1) :
    section_frame s1 = section_frame s ∧ s1.name = s.name ∧
    (∀ i, i < off ∨ off + n ≤ i → s1.data.getD i 0 = s.data.getD i 0) := by
  unfold section_patch at h
  split at h
  · cases h; exact ⟨rfl, rfl, fun _ _ => rfl⟩
  · split at h
    · cases h
    · cases h
      refine ⟨rfl, rfl, fun i hi => ?_⟩
      exact memcpy_at_getD_outside _ _ _ _ _ hi

theorem apply_relocation_frame (ctx ctx1 : linker_context_t) (q : relocation_t)
    (h : _apply_relocation ctx q = .ok ctx1) :
    ctx1.symbols = ctx.symbols ∧
    ctx1.result.sections.map section_frame = ctx.result.sections.map section_frame ∧
    (∀ n T, symbol_find ctx.result.symbols n = some T → T.type = SYMBOL_TYPE_LABEL →
        symbol_find ctx1.result.symbols n = some T) ∧
    (∀ n i R, section_find ctx.result.sections n = some R →
        ¬ (n = q.sect ∧ q.offset ≤ i ∧ i < q.offset + q.length) →
        ∃ R1, section_find ctx1.result.sections n = some R1 ∧
          R1.data.getD i 0 = R.data.getD i 0) := by
  unfold _apply_relocation at h
  split at h
  · cases h
  · rename_i symbol0 hsym0
    simp only at h
    split at h
    · cases h
    · rename_i symbol hres
      split at h
      · cases h
      · rename_i rsection hrs
        split at h
        · cases h
        · rename_i patch hpatch
          split at h
          · cases h
          · rename_i rsection1 hsp
            cases h
            obtain ⟨hfr, hnm, hout⟩ := section_patch_frame _ _ _ _ _ hsp
            have hrsname := section_find_name _ _ _ hrs
            have hsname : symbol.name = q.symbol := by
              have h0 := symbol_find_name _ _ _ hsym0
              split at hres
              · split at hres
                · cases hres
                · cases hres; exact h0
              · cases hres; exact h0
            refine ⟨rfl, ?_, ?_, ?_⟩
            · exact section_update_frame _ _ _ _ hrs hfr
            · intro n T hT hlab
              simp only
              rw [symbol_find_update _ _ _ _ _ hsym0 hsname]
              by_cases hn : n = q.symbol
              · subst hn
                rw [hsym0] at hT
                cases hT
                have hne : ¬ symbol0.type = SYMBOL_TYPE_EXTERN := by rw [hlab]; decide
                simp only [hne, if_false] at hres
                cases hres
                simp
              · simp [hn, hT]
            · intro n i R hR hno
              simp only
              rw [section_find_update _ _ _ _ _ hrs (hnm.trans hrsname)]
              by_cases hn : n = q.sect
              · subst hn
                rw [hrs] at hR
                cases hR
                refine ⟨rsection1, by simp, ?_⟩
                apply hout
                have : ¬ (q.offset ≤ i ∧ i < q.offset + q.length) := fun hh => hno ⟨rfl, hh⟩
                omega
              · exact ⟨R, by simp [hn, hR], rfl⟩

theorem u64_mod_256 (x : Int) : u64 x % 256 = u8 x := by
  unfold u64 u8
  omega

theorem i64_of_range (x : Int) (h1 : -9223372036854775808 ≤ x) (h2 : x < 9223372036854775808) :
    i64 x = x := by
  unfold i64
  omega

theorem apply_relocation_relative_label (ctx : linker_context_t) (r : relocation_t)
    (T : symbol_t) (R S : section_t) (ts : CStr)
    (hT : symbol_find ctx.result.symbols r.symbol = some T)
    (hlab : T.type = SYMBOL_TYPE_LABEL) (hw : T.width = 1)
    (hTs : T.sect = some ts) (hS : section_find ctx.result.sections ts = some S)
    (hR : section_find ctx.result.sections r.sect = some R) (hload : R.noload = 0)
    (hty : r.type = RELOCATION_TYPE_RELATIVE) (hlen : r.length = 1) :
    ((i64 (T.val64 - u32 (R.vma + r.offset + r.adjust)) < -128 ∨
      127 < i64 (T.val64 - u32 (R.vma + r.offset + r.adjust))) →
        ∃ e, _apply_relocation ctx r = .error e) ∧
    (∀ ctx1, _apply_relocation ctx r = .ok ctx1 →
      -128 ≤ i64 (T.val64 - u32 (R.vma + r.offset + r.adjust)) ∧
      i64 (T.val64 - u32 (R.vma + r.offset + r.adjust)) ≤ 127 ∧
      ∃ R1, section_find ctx1.result.sections r.sect = some R1 ∧
        R1.data.getD r.offset 0 = u8 (i64 (T.val64 - u32 (R.vma + r.offset + r.adjust)))) := by
  have hne : ¬ T.type = SYMBOL_TYPE_EXTERN := by rw [hlab]; decide
  have hnc : ¬ T.type = SYMBOL_TYPE_CONST := by rw [hlab]; decide
  have hrel : ¬ r.type = RELOCATION_TYPE_ABOSULTE := by rw [hty]; decide
  generalize hj : i64 (T.val64 - u32 (R.vma + r.offset + r.adjust)) = jump
  have hpatch : _relocation_patch ctx.result.sections T R r =
      if jump < -128 ∨ 127 < jump then .error "Symbol jump too long" else .ok (u64 jump) := by
    unfold _relocation_patch
    simp only [hnc, if_false, hTs, Option.bind_some, hS, hrel, hlen, _sminnum, _smaxnum,
      if_true, hj, hw, _mkpatch, host_tole32]
    by_cases h0 : jump < 0
    · simp only [h0, if_true]
      by_cases h1 : jump < -128
      · simp [h1, hS]
      · have : ¬ (jump < -128 ∨ 127 < jump) := by omega
        have h2 : ¬ 127 < jump := by omega
        simp [h1, h2, hS]
    · simp only [h0, if_false]
      by_cases h1 : jump > 127
      · have : (jump < -128 ∨ 127 < jump) := by omega
        simp [h1, hS]
      · have : ¬ (jump < -128 ∨ 127 < jump) := by omega
        have h2 : ¬ jump < -128 := by omega
        simp [h1, h2, hS]
  have hstep : _apply_relocation ctx r =
      if jump < -128 ∨ 127 < jump then .error "Symbol jump too long"
      else match section_patch R r.offset (le_bytes (u64 jump) 8) 1 with
        | .error e => .error e
        | .ok rsection1 => .ok { ctx with result :=
              { ctx.result with
                symbols := symbol_update ctx.result.symbols r.symbol (fun _ => T)
                sections := section_update ctx.result.sections r.sect (fun _ => rsection1) } } := by
    unfold _apply_relocation
    simp only [hT, hne, if_false, hR, hpatch, hlen]
    by_cases hc : jump < -128 ∨ 127 < jump
    · simp only [hc, if_true]
    · simp only [hc, if_false]
  constructor
  · intro hout
    exact ⟨_, by rw [hstep, if_pos hout]⟩
  · intro ctx1 h1
    rw [hstep] at h1
    split at h1
    · cases h1
    · rename_i hin
      split at h1
      · cases h1
      · rename_i rsection1 hsp
        cases h1
        refine ⟨by omega, by omega, rsection1, ?_, ?_⟩
        · have hnm : rsection1.name = r.sect := by
            have := (section_patch_frame _ _ _ _ _ hsp).2.1
            rw [this]; exact section_find_name _ _ _ hR
          simp only
          rw [section_find_update _ _ _ _ _ hR hnm]
          simp
        · unfold section_patch at hsp
          simp only [hload, ne_eq, not_true_eq_false, if_false] at hsp
          split at hsp
          · cases hsp
          · cases hsp
            simp only
            rw [memcpy_at_getD_first _ _ _ _ (by omega)]
            simp [le_bytes, u64_mod_256]

theorem fix_symbols_find_label (secs : sections_t) (sl out : symbols_t)
    (h : _fix_symbols secs sl = .ok out) (n ts : CStr) (T : symbol_t) (S : section_t)
    (hT : symbol_find sl n = some T) (hlab : T.type = SYMBOL_TYPE_LABEL)
    (hTs : T.sect = some ts) (hS : section_find secs ts = some S) :
    symbol_find out n = some { T with val64 := i64 (T.val64 + S.vma) } := by
  induction sl generalizing out with
  | nil => simp [symbol_find] at hT
  | cons a t ih =>
    unfold _fix_symbols at h
    by_cases ha : a.name = n
    · have haT : a = T := by simpa [symbol_find, List.find?_cons, ha] using hT
      subst haT
      simp only [hlab, ne_eq, not_true_eq_false, if_false, hTs, Option.some_bind, hS] at h
      cases hrest : _fix_symbols secs t with
      | error e => rw [hrest] at h; cases h
      | ok out1 =>
        rw [hrest] at h
        cases h
        simp [symbol_find, List.find?_cons, ha, hlab, hTs]
    · have hTt : symbol_find t n = some T := by
        simpa [symbol_find, List.find?_cons, ha] using hT
      split at h
      · split at h
        · cases h
        · rename_i out1 hout1
          cases h
          have := ih out1 hout1 hTt
          simpa [symbol_find, List.find?_cons, ha] using this
      · split at h
        · cases h
        · split at h
          · cases h
          · rename_i out1 hout1
            cases h
            have := ih out1 hout1 hTt
            simpa [symbol_find, List.find?_cons, ha] using this

theorem apply_relocations_append (pre post : relocations_t) (r : relocation_t)
    (ctx : linker_context_t) :
    _apply_relocations (pre ++ r :: post) ctx =
      match _apply_relocations pre ctx with
      | .error e => .error e
      | .ok c1 =>
        match _apply_relocation c1 r with
        | .error e => .error e
        | .ok c2 => _apply_relocations post c2 := by
  induction pre generalizing ctx with
  | nil => simp [_apply_relocations]
  | cons q t ih =>
    simp only [List.cons_append, _apply_relocations]
    cases hq : _apply_relocation ctx q with
    | error e => simp
    | ok c => exact ih c

theorem apply_relocations_frame (rs : relocations_t) (ctx ctx1 : linker_context_t)
    (h : _apply_relocations rs ctx = .ok ctx1) :
    ctx1.symbols = ctx.symbols ∧
    ctx1.result.sections.map section_frame = ctx.result.sections.map section_frame ∧
    (∀ n T, symbol_find ctx.result.symbols n = some T → T.type = SYMBOL_TYPE_LABEL →
        symbol_find ctx1.result.symbols n = some T) ∧
    (∀ n i R, section_find ctx.result.sections n = some R →
        (∀ q ∈ rs, ¬ (n = q.sect ∧ q.offset ≤ i ∧ i < q.offset + q.length)) →
        ∃ R1, section_find ctx1.result.sections n = some R1 ∧
          R1.data.getD i 0 = R.data.getD i 0) := by
  induction rs generalizing ctx with
  | nil =>
    simp only [_apply_relocations] at h
    cases h
    exact ⟨rfl, rfl, fun _ _ h _ => h, fun n i R hR _ => ⟨R, hR, rfl⟩⟩
  | cons q t ih =>
    simp only [_apply_relocations] at h
    split at h
    · cases h
    · rename_i c hc
      obtain ⟨a1, a2, a3, a4⟩ := apply_relocation_frame _ _ _ hc
      obtain ⟨b1, b2, b3, b4⟩ := ih c h
      refine ⟨b1.trans a1, b2.trans a2, ?_, ?_⟩
      · intro n T hT hlab
        exact b3 n T (a3 n T hT hlab) hlab
      · intro n i R hR hall
        obtain ⟨R1, hR1, hd1⟩ := a4 n i R hR (hall q (List.mem_cons_self _ _))
        obtain ⟨R2, hR2, hd2⟩ := b4 n i R1 hR1 (fun q1 hq1 => hall q1 (List.mem_cons_of_mem _ hq1))
        exact ⟨R2, hR2, hd2.trans hd1⟩


/-! ## Linker: relocation patching and section gluing -/

/-- C1, evaluation at the failing input. Object `a` defines the exported label `F`
with the default width at offset 1 of text, object `b` calls the extern `F.w16`;
text is placed at 0x8000, so `F` resolves to 0x8001. The two bytes of the absolute
relocation of length 2 (offsets 3 and 4 of the merged section) come out as
0x01 0x80, least significant byte first: `_mkpatch` is driven by the width of the
symbol in the defining file (1), not by the relocation length (2). -/
theorem C1_absolute_patch_follows_symbol_width :
    (linker_run [c1_file_a, c1_file_b] script_text_8000).map
        (fun ctx => ((symbol_find ctx.result.symbols [97, 58, 70]).map (fun s => s.val64),
                     (section_find ctx.result.sections str_text).map (fun s => s.data)))
      = .ok (some 0x8001, some [0x9D, 0x81, 0xCD, 0x01, 0x80])
    ∧ be_bytes 0x8001 2 = [0x80, 0x01] := by
  decide

/-- C2, counterexample. `jra T` with `T` an extern that the script defines as the
constant 0x1234, text placed at 0x8000: the difference
0x1234 - (0x8000 + 1 + 1) is far outside -128..127, yet the link succeeds and the
displacement byte is 0x34, the low byte of the constant itself. -/
theorem C2_relative_against_constant_unchecked :
    (linker_run [c2_file_b] c2_script).map
        (fun ctx => (section_find ctx.result.sections str_text).map (fun s => s.data))
      = .ok (some [0x20, 0x34])
    ∧ ((0x1234 : Int) - (0x8000 + 1 + 1) < -128) := by
  decide

/-- C2 as amended. A relative relocation `r` of length 1 in the loadable output
section `R`, against a label `T` of width 1 that lies in section `S`; the value of
`T` is its merged offset plus the VMA of `S`, the patch site is
`R.vma + r.offset + r.adjust` (below 2^32), and no later relocation covers the
byte at `r.offset`. When the difference is outside -128..127, `_patch_sections`
fails; when `_patch_sections` succeeds, the difference is in range and the byte at
offset `r.offset` of `R` is the difference modulo 256. -/
theorem C2_relative_patch_of_label (ctx : linker_context_t) (pre post : relocations_t)
    (r : relocation_t) (T : symbol_t) (R S : section_t) (ts : CStr)
    (hrs : ctx.result.relocations = pre ++ r :: post)
    (hty : r.type = RELOCATION_TYPE_RELATIVE) (hlen : r.length = 1)
    (hT : symbol_find ctx.result.symbols r.symbol = some T)
    (hlab : T.type = SYMBOL_TYPE_LABEL) (hw : T.width = 1)
    (hTs : T.sect = some ts) (hS : section_find ctx.result.sections ts = some S)
    (hR : section_find ctx.result.sections r.sect = some R) (hload : R.noload = 0)
    (hval : -9223372036854775808 ≤ T.val64 + S.vma ∧ T.val64 + S.vma < 9223372036854775808)
    (hsite : 0 ≤ R.vma + r.offset + r.adjust ∧ R.vma + r.offset + r.adjust < 4294967296)
    (hpost : ∀ q ∈ post, ¬ (r.sect = q.sect ∧ q.offset ≤ r.offset ∧
        r.offset < q.offset + q.length)) :
    ((T.val64 + S.vma - (R.vma + r.offset + r.adjust) < -128 ∨
      127 < T.val64 + S.vma - (R.vma + r.offset + r.adjust)) →
        ∃ e, _patch_sections ctx = .error e) ∧
    (∀ ctx1, _patch_sections ctx = .ok ctx1 →
      -128 ≤ T.val64 + S.vma - (R.vma + r.offset + r.adjust) ∧
      T.val64 + S.vma - (R.vma + r.offset + r.adjust) ≤ 127 ∧
      ∃ R1, section_find ctx1.result.sections r.sect = some R1 ∧
        R1.data.getD r.offset 0 = u8 (T.val64 + S.vma - (R.vma + r.offset + r.adjust))) := by
  -- the state in which the relocation loop reaches `r`
  have key : ∀ sl c1,
      _fix_symbols ctx.result.sections ctx.result.symbols = .ok sl →
      _apply_relocations pre { ctx with result := { ctx.result with symbols := sl } } = .ok c1 →
      ∃ R0, symbol_find c1.result.symbols r.symbol
              = some { T with val64 := i64 (T.val64 + S.vma) } ∧
            section_find c1.result.sections ts ≠ none ∧
            section_find c1.result.sections r.sect = some R0 ∧
            R0.noload = 0 ∧ R0.vma = R.vma := by
    intro sl c1 hfix hpre
    obtain ⟨_, b2, b3, _⟩ := apply_relocations_frame _ _ _ hpre
    have hT1 := fix_symbols_find_label _ _ _ hfix _ _ _ _ hT hlab hTs hS
    obtain ⟨S0, hS0, _⟩ := section_find_of_frame _ _ _ _ b2 hS
    obtain ⟨R0, hR0, hfr⟩ := section_find_of_frame _ _ _ _ b2 hR
    refine ⟨R0, b3 _ _ hT1 hlab, by simp [hS0], hR0, ?_, ?_⟩
    · have := congrArg section_t.noload hfr
      simp only [section_frame] at this
      rw [this]; exact hload
    · have := congrArg section_t.vma hfr
      simpa only [section_frame] using this
  have hjump : i64 (i64 (T.val64 + S.vma) - u32 (R.vma + r.offset + r.adjust))
      = i64 (T.val64 + S.vma - (R.vma + r.offset + r.adjust)) := by
    rw [i64_of_range _ hval.1 hval.2]
    have : ((u32 (R.vma + r.offset + r.adjust) : Nat) : Int) = R.vma + r.offset + r.adjust := by
      unfold u32; omega
    rw [this]
  unfold _patch_sections
  rw [hrs]
  cases hov : _overlap_outer ctx.result.sections ctx.result.sections with
  | error e => exact ⟨fun _ => ⟨e, rfl⟩, fun _ h => by cases h⟩
  | ok u =>
    simp only
    cases hfix : _fix_symbols ctx.result.sections ctx.result.symbols with
    | error e => exact ⟨fun _ => ⟨e, rfl⟩, fun _ h => by cases h⟩
    | ok sl =>
      simp only
      rw [apply_relocations_append]
      cases hpre : _apply_relocations pre
          { ctx with result := { ctx.result with symbols := sl } } with
      | error e => exact ⟨fun _ => ⟨e, rfl⟩, fun _ h => by cases h⟩
      | ok c1 =>
        simp only
        obtain ⟨R0, hT1, hS1, hR0, hload0, hvma0⟩ := key sl c1 hfix hpre
        obtain ⟨S1, hS1⟩ := Option.ne_none_iff_exists'.mp hS1
        have hstep := apply_relocation_relative_label c1 r
          { T with val64 := i64 (T.val64 + S.vma) } R0 S1 ts hT1 hlab hw hTs hS1 hR0 hload0
          hty hlen
        simp only [hvma0, hjump] at hstep
        obtain ⟨hfail, hok⟩ := hstep
        constructor
        · intro hout
          have hout1 : i64 (T.val64 + S.vma - (R.vma + r.offset + r.adjust)) < -128 ∨
              127 < i64 (T.val64 + S.vma - (R.vma + r.offset + r.adjust)) := by
            unfold i64; omega
          obtain ⟨e, he⟩ := hfail hout1
          exact ⟨e, by rw [he]⟩
        · intro ctx1 h1
          cases hc2 : _apply_relocation c1 r with
          | error e => rw [hc2] at h1; cases h1
          | ok c2 =>
            rw [hc2] at h1
            simp only at h1
            obtain ⟨hlo, hhi, R1, hR1, hbyte⟩ := hok c2 hc2
            have hd : i64 (T.val64 + S.vma - (R.vma + r.offset + r.adjust))
                = T.val64 + S.vma - (R.vma + r.offset + r.adjust) := by
              unfold i64 at hlo hhi ⊢; omega
            rw [hd] at hlo hhi hbyte
            obtain ⟨_, _, _, c4⟩ := apply_relocations_frame _ _ _ h1
            obtain ⟨R2, hR2, hd2⟩ := c4 r.sect r.offset R1 hR1 hpost
            exact ⟨hlo, hhi, R2, hR2, hd2.trans hbyte⟩

/-- Witness of `C2_relative_patch_of_label`: `jra L` whose target lies 3 bytes after
the opcode, text at 0x8000. The link succeeds and the displacement byte is 1. -/
theorem C2_relative_patch_of_label_witness :
    (∃ out, _patch_sections c2w_ctx = .ok out) ∧
    ((-128 : Int) ≤ 3 + 0x8000 - (0x8000 + 1 + 1) ∧
     (3 : Int) + 0x8000 - (0x8000 + 1 + 1) ≤ 127 ∧
     ∃ R1, section_find
          ((_patch_sections c2w_ctx).toOption.getD c2w_ctx).result.sections str_text = some R1 ∧
        R1.data.getD 1 0 = 1) :=
  ⟨⟨_, rfl⟩,
   (C2_relative_patch_of_label c2w_ctx [] [] c2w_reloc c2w_label c2w_text c2w_text str_text
      rfl rfl rfl rfl rfl rfl rfl rfl rfl rfl (by decide) (by decide)
      (by intro q hq; cases hq)).2
      ((_patch_sections c2w_ctx).toOption.getD c2w_ctx) (by decide)⟩

/-- C3, evaluation at the failing input. Three objects contribute one byte each to
section text. For the third object (index 2) `_glue_sections` uses the starting
offset 3, while the objects before it contributed 2 bytes; its label `c:L`, stored
at offset 2 of the merged data, gets the value 3. The offsets of the first two
objects (0 and 1) are right. -/
theorem C3_third_file_offset_accumulates :
    glue_start_offset c3_files 0 str_text = .ok (some 0)
    ∧ glue_start_offset c3_files 1 str_text = .ok (some 1)
    ∧ glue_start_offset c3_files 2 str_text = .ok (some 3)
    ∧ ((c3_files.take 2).map
        (fun fd => ((section_find fd.sections str_text).map (fun s => s.length)).getD 0)).sum = 2
    ∧ (_glue_sections (linker_init c3_files)).map
        (fun ctx => ((symbol_find ctx.result.symbols [99, 58, 76]).map (fun s => s.val64),
                     (section_find ctx.result.sections str_text).map (fun s => s.data)))
      = .ok (some 3, some [1, 2, 3]) := by
  decide

/-! ## Object codec: l0_save and l0_load -/

theorem le_bytes_length (v n : Nat) : (le_bytes v n).length = n := by
  induction n generalizing v with
  | zero => rfl
  | succ k ih => simp [le_bytes, ih]

theorem le_value_le_bytes (v n : Nat) : le_value (le_bytes v n) = v % 256 ^ n := by
  induction n generalizing v with
  | zero => simp [le_bytes, le_value, Nat.mod_one]
  | succ k ih =>
    simp only [le_bytes, le_value, ih]
    rw [pow_succ, Nat.mul_comm (256 ^ k) 256, Nat.mod_mul]

theorem l0_block_info_length (m l c : Nat) : (l0_block_info m l c).length = 32 := by
  simp [l0_block_info, le_bytes_length]

theorem l0_block_info_eq (m l c : Nat) :
    l0_block_info m l c = le_bytes m 2 ++ (le_bytes l 4 ++ (le_bytes c 2 ++ List.replicate 24 0)) := by
  simp [l0_block_info]

theorem block_length_info (m l c : Nat) (Y : List Nat) (hl : l < 4294967296) :
    block_length (l0_block_info m l c ++ Y) = l := by
  unfold block_length
  rw [l0_block_info_eq, List.append_assoc, List.drop_left' (le_bytes_length m 2),
    List.append_assoc, List.take_left' (le_bytes_length l 4), le_value_le_bytes]
  exact Nat.mod_eq_of_lt (by norm_num; exact hl)

theorem block_cs_field_info (m l c : Nat) (Y : List Nat) (hc : c < 65536) :
    block_cs_field (l0_block_info m l c ++ Y) = c := by
  unfold block_cs_field
  have h6 : (le_bytes m 2 ++ le_bytes l 4).length = 6 := by simp [le_bytes_length]
  have : l0_block_info m l c ++ Y
      = (le_bytes m 2 ++ le_bytes l 4) ++ (le_bytes c 2 ++ (List.replicate 24 0 ++ Y)) := by
    simp [l0_block_info]
  rw [this, List.drop_left' h6, List.take_left' (le_bytes_length c 2), le_value_le_bytes]
  exact Nat.mod_eq_of_lt (by norm_num; exact hc)

theorem block_magic_info (m l c : Nat) (Y : List Nat) (hm : m < 65536) :
    block_magic (l0_block_info m l c ++ Y) = m := by
  unfold block_magic
  rw [l0_block_info_eq, List.append_assoc, List.take_left' (le_bytes_length m 2),
    le_value_le_bytes]
  exact Nat.mod_eq_of_lt (by norm_num; exact hm)

theorem block_zero_cs_info (m l c : Nat) (Y : List Nat) :
    block_zero_cs (l0_block_info m l c ++ Y) = l0_block_info m l 0 ++ Y := by
  have h6 : (le_bytes m 2 ++ le_bytes l 4).length = 6 := by simp [le_bytes_length]
  have e1 : l0_block_info m l c ++ Y
      = (le_bytes m 2 ++ le_bytes l 4) ++ (le_bytes c 2 ++ (List.replicate 24 0 ++ Y)) := by
    simp [l0_block_info]
  have e2 : l0_block_info m l 0 ++ Y
      = (le_bytes m 2 ++ le_bytes l 4) ++ ([0, 0] ++ (List.replicate 24 0 ++ Y)) := by
    simp [l0_block_info, le_bytes]
  have h8 : ((le_bytes m 2 ++ le_bytes l 4) ++ le_bytes c 2).length = 6 + 2 := by
    simp [le_bytes_length]
  rw [e1, e2]
  unfold block_zero_cs memcpy_at
  rw [List.take_left' h6]
  have hdrop : ((le_bytes m 2 ++ le_bytes l 4) ++ (le_bytes c 2 ++ (List.replicate 24 0 ++ Y))).drop
      (6 + 2) = List.replicate 24 0 ++ Y := by
    rw [← List.append_assoc, List.drop_left' h8]
  rw [hdrop]
  have hz : 6 - ((le_bytes m 2 ++ le_bytes l 4) ++
      (le_bytes c 2 ++ (List.replicate 24 0 ++ Y))).length = 0 := by
    simp only [List.length_append, le_bytes_length]; omega
  rw [hz]
  simp

theorem block_cs_of_info (m l c : Nat) (body X : List Nat) (hl : l = 32 + body.length)
    (hl2 : l < 4294967296) :
    _block_cs (l0_block_info m l c ++ body ++ X) = (l0_block_info m l 0 ++ body).sum % 65536 := by
  unfold _block_cs
  rw [List.append_assoc, block_length_info _ _ _ _ hl2, block_zero_cs_info, ← List.append_assoc]
  have hlen : (l0_block_info m l 0 ++ body).length = l := by
    simp [l0_block_info_length, hl]
  rw [List.take_left' hlen]

theorem l0_make_block_ok (magic : Nat) (body : List Nat) (h : 32 + body.length < 4294967296) :
    l0_make_block magic body = .ok (block_of magic body) := by
  unfold l0_make_block block_of
  have hn : ¬ (32 + body.length ≥ 4294967296) := by omega
  simp only [hn, if_false]
  have := block_cs_of_info magic (32 + body.length) 0 body [] rfl h
  rw [List.append_nil] at this
  rw [this]

theorem l0_make_block_inv (magic : Nat) (body b : List Nat)
    (h : l0_make_block magic body = .ok b) :
    32 + body.length < 4294967296 ∧ b = block_of magic body := by
  by_cases hn : 32 + body.length < 4294967296
  · rw [l0_make_block_ok magic body hn] at h
    cases h
    exact ⟨hn, rfl⟩
  · unfold l0_make_block at h
    have : 32 + body.length ≥ 4294967296 := by omega
    simp [this] at h

theorem block_of_length (magic : Nat) (body : List Nat) :
    (block_of magic body).length = 32 + body.length := by
  simp [block_of, l0_block_info_length]

theorem block_of_block_length (magic : Nat) (body X : List Nat)
    (h : 32 + body.length < 4294967296) :
    block_length (block_of magic body ++ X) = 32 + body.length := by
  unfold block_of
  rw [List.append_assoc]
  exact block_length_info _ _ _ _ h

theorem block_of_cs_ok (magic : Nat) (body X : List Nat) (h : 32 + body.length < 4294967296) :
    block_cs_field (block_of magic body ++ X) = _block_cs (block_of magic body ++ X) := by
  unfold block_of
  rw [block_cs_of_info magic (32 + body.length) _ body X rfl h, List.append_assoc]
  exact block_cs_field_info _ _ _ _ (Nat.mod_lt _ (by norm_num))

theorem block_of_magic (magic : Nat) (body X : List Nat) (h : magic < 65536) :
    block_magic (block_of magic body ++ X) = magic := by
  unfold block_of
  rw [List.append_assoc]
  exact block_magic_info _ _ _ _ h

theorem block_of_drop (magic : Nat) (body X : List Nat) (k : Nat) :
    (block_of magic body ++ X).drop (32 + k) = (body ++ X).drop k := by
  unfold block_of
  rw [List.append_assoc, ← List.drop_drop, List.drop_left' (l0_block_info_length _ _ _)]

theorem block_of_getD (magic : Nat) (body X : List Nat) (k : Nat) :
    (block_of magic body ++ X).getD (32 + k) 0 = (body ++ X).getD k 0 := by
  unfold block_of
  rw [List.append_assoc]
  simp only [List.getD_eq_getElem?_getD]
  rw [List.getElem?_append_right (by rw [l0_block_info_length]; omega), l0_block_info_length]
  congr 2
  omega

theorem bmem_after_buf (bm : bmem_t) (b : List Nat) :
    ∃ X, (bmem_after bm b).buf = b ++ X := ⟨_, rfl⟩

theorem l0_load_loop_block (magic : Nat) (body rest : List Nat) (bm : bmem_t) (st : l0_data_t)
    (fuel : Nat) (h : 32 + body.length < 2147483648) :
    l0_load_loop (fuel + 1) (block_of magic body ++ rest) bm st =
      match l0_load_block (bmem_after bm (block_of magic body)).buf st with
      | .error e => some (.error e)
      | .ok st1 => l0_load_loop fuel rest (bmem_after bm (block_of magic body)) st1 := by
  have h32 : 32 + body.length < 4294967296 := by omega
  have hlen := block_of_length magic body
  have hb32 : (block_of magic body).take 32
      = l0_block_info magic (32 + body.length)
          ((l0_block_info magic (32 + body.length) 0 ++ body).sum % 65536) := by
    unfold block_of
    rw [List.take_left' (l0_block_info_length _ _ _)]
  have htake32 : (block_of magic body ++ rest).take 32 = (block_of magic body).take 32 := by
    rw [List.take_append_of_le_length (by rw [hlen]; omega)]
  have htake : (block_of magic body ++ rest).take (32 + body.length) = block_of magic body :=
    List.take_left' hlen
  have hdrop : (block_of magic body ++ rest).drop (32 + body.length) = rest :=
    List.drop_left' hlen
  obtain ⟨X, hX⟩ := bmem_after_buf bm (block_of magic body)
  rw [l0_load_loop]
  have c1 : ¬ (block_of magic body ++ rest).length = 0 := by
    rw [List.length_append, hlen]; omega
  have c2 : ¬ (block_of magic body ++ rest).length < 32 := by
    rw [List.length_append, hlen]; omega
  simp only [c1, c2, if_false]
  have hbl : block_length (bmem_read (bmem_alloc bm 32)
      ((block_of magic body ++ rest).take 32)).buf = 32 + body.length := by
    rw [htake32, hb32]
    simp only [bmem_read]
    exact block_length_info _ _ _ _ h32
  rw [hbl]
  have c3 : ¬ (32 + body.length ≥ 2147483648 ∨
      (block_of magic body ++ rest).length < 32 + body.length) := by
    rw [List.length_append, hlen]; omega
  simp only [c3, if_false, htake, hdrop, htake32]
  have hB : bmem_read (bmem_alloc (bmem_read (bmem_alloc bm 32) ((block_of magic body).take 32))
      (32 + body.length)) (block_of magic body) = bmem_after bm (block_of magic body) := by
    unfold bmem_after
    rw [hlen]
  rw [hB]
  have hcs : block_cs_field (bmem_after bm (block_of magic body)).buf
      = _block_cs (bmem_after bm (block_of magic body)).buf := by
    rw [hX]
    exact block_of_cs_ok magic body X h32
  simp only [hcs, ne_eq, not_true_eq_false, if_false]

theorem takeWhile_cstr (s : CStr) (Y : List Nat) (h : cstr_ok s) :
    (s ++ 0 :: Y).takeWhile (fun b => b ≠ 0) = s := by
  induction s with
  | nil => simp
  | cons a t ih =>
    have ha : a ≠ 0 := h a (List.mem_cons_self _ _)
    have ht : cstr_ok t := fun b hb => h b (List.mem_cons_of_mem _ hb)
    rw [List.cons_append, List.takeWhile_cons]
    have hp : (decide (a ≠ 0)) = true := by simp [ha]
    rw [hp]
    simp only [if_true]
    rw [ih ht]

theorem cstr_at_block (m : Nat) (body X P Y : List Nat) (s : CStr) (k : Nat)
    (hbody : body ++ X = P ++ (s ++ 0 :: Y)) (hP : P.length = k) (hs : cstr_ok s) :
    cstr_at (block_of m body ++ X) (32 + k) = s := by
  unfold cstr_at
  rw [block_of_drop, hbody, List.drop_left' hP, takeWhile_cstr s Y hs]

theorem bytes_at_block (m : Nat) (body X P D Y : List Nat) (k n : Nat)
    (hbody : body ++ X = P ++ (D ++ Y)) (hP : P.length = k) (hD : D.length = n) :
    bytes_at (block_of m body ++ X) (32 + k) n = D := by
  unfold bytes_at
  rw [block_of_drop, hbody, List.drop_left' hP, List.take_left' hD]
  have hlen : (block_of m body ++ X).length = 32 + (k + (n + Y.length)) := by
    have := congrArg List.length hbody
    simp only [List.length_append] at this
    rw [List.length_append, block_of_length]
    omega
  rw [hlen]
  have : n - (32 + (k + (n + Y.length)) - (32 + k)) = 0 := by omega
  rw [this]
  simp

theorem getD_block (m : Nat) (body X P Y : List Nat) (a : Nat) (k : Nat)
    (hbody : body ++ X = P ++ (a :: Y)) (hP : P.length = k) :
    (block_of m body ++ X).getD (32 + k) 0 = a := by
  rw [block_of_getD, hbody]
  simp only [List.getD_eq_getElem?_getD]
  rw [List.getElem?_append_right (by omega), hP]
  simp

theorem i64_u64 (v : Int) (h1 : -9223372036854775808 ≤ v) (h2 : v < 9223372036854775808) :
    i64 (u64 v) = v := by
  unfold i64 u64
  omega

theorem i32_u32 (v : Int) (h1 : -2147483648 ≤ v) (h2 : v < 2147483648) :
    i32 (u32 v) = v := by
  unfold i32 u32
  omega

theorem l0_load_block_symbol (s : symbol_t) (X : List Nat) (st : l0_data_t)
    (hs : l0_symbol_ok s) :
    l0_load_block (block_of L0_SYMBOL_MAGIC (l0_symbol_body s (s.sect.getD [])) ++ X) st =
      match symbol_find st.symbols s.name with
      | some _ => .error "Symbol redefined"
      | none => .ok { st with symbols := st.symbols ++ [l0_symbol_image s] } := by
  obtain ⟨hty, hname, hexp, hw, hv1, hv2, hsect, hnone, _⟩ := hs
  have hsn : cstr_ok (s.sect.getD []) := by
    cases hsc : s.sect with
    | none => intro b hb; simp at hb
    | some n => exact (hsect n hsc).1
  -- the layout of the body
  have hb0 : ∀ Z, l0_symbol_body s (s.sect.getD []) ++ Z =
      [] ++ ((s.exp % 2 + 2 * (if s.type = SYMBOL_TYPE_EXTERN then 1 else 0)) ::
        (0 :: s.width % 256 :: (le_bytes (u64 s.val64) 8 ++
          (s.name ++ 0 :: (s.sect.getD [] ++ 0 :: Z))))) := by
    intro Z; simp [l0_symbol_body, l0_symbol_head, cstr_bytes]
  have hb2 : ∀ Z, l0_symbol_body s (s.sect.getD []) ++ Z =
      [s.exp % 2 + 2 * (if s.type = SYMBOL_TYPE_EXTERN then 1 else 0), 0] ++
        (s.width % 256 :: (le_bytes (u64 s.val64) 8 ++
          (s.name ++ 0 :: (s.sect.getD [] ++ 0 :: Z)))) := by
    intro Z; simp [l0_symbol_body, l0_symbol_head, cstr_bytes]
  have hb3 : ∀ Z, l0_symbol_body s (s.sect.getD []) ++ Z =
      [s.exp % 2 + 2 * (if s.type = SYMBOL_TYPE_EXTERN then 1 else 0), 0, s.width % 256] ++
        (le_bytes (u64 s.val64) 8 ++ (s.name ++ 0 :: (s.sect.getD [] ++ 0 :: Z))) := by
    intro Z; simp [l0_symbol_body, l0_symbol_head, cstr_bytes]
  have hb11 : ∀ Z, l0_symbol_body s (s.sect.getD []) ++ Z =
      (l0_symbol_head s) ++ (s.name ++ 0 :: (s.sect.getD [] ++ 0 :: Z)) := by
    intro Z; simp [l0_symbol_body, cstr_bytes]
  have hb12 : ∀ Z, l0_symbol_body s (s.sect.getD []) ++ Z =
      (l0_symbol_head s ++ s.name ++ [0]) ++ (s.sect.getD [] ++ 0 :: Z) := by
    intro Z; simp [l0_symbol_body, cstr_bytes]
  have hhead : (l0_symbol_head s).length = 11 := by simp [l0_symbol_head, le_bytes_length]
  have e32 := getD_block L0_SYMBOL_MAGIC _ X [] _ _ 0 (hb0 X) rfl
  have e34 := getD_block L0_SYMBOL_MAGIC _ X _ _ _ 2 (hb2 X) rfl
  have e35 := bytes_at_block L0_SYMBOL_MAGIC _ X _ _ _ 3 8 (hb3 X) rfl (le_bytes_length _ 8)
  have e43 := cstr_at_block L0_SYMBOL_MAGIC _ X _ _ _ 11 (hb11 X) hhead hname
  have e44 := cstr_at_block L0_SYMBOL_MAGIC _ X _ _ _ (11 + s.name.length + 1) (hb12 X)
    (by simp only [List.length_append, hhead, List.length_singleton]) hsn
  have hmagic := block_of_magic L0_SYMBOL_MAGIC (l0_symbol_body s (s.sect.getD [])) X
    (by decide)
  unfold l0_load_block
  simp only [hmagic, if_true]
  rw [show (43 : Nat) = 32 + 11 from rfl, e43,
    show 32 + 11 + s.name.length + 1 = 32 + (11 + s.name.length + 1) by omega, e44,
    show (34 : Nat) = 32 + 2 from rfl, e34, show (35 : Nat) = 32 + 3 from rfl, e35,
    show (32 : Nat) = 32 + 0 from rfl, e32]
  unfold symbols_add
  cases hfind : symbol_find st.symbols s.name with
  | some x => rfl
  | none =>
    simp only
    congr 3
    have hval : i64 (le_value (le_bytes (u64 s.val64) 8)) = s.val64 := by
      rw [le_value_le_bytes]
      have : u64 s.val64 % 256 ^ 8 = u64 s.val64 := by
        apply Nat.mod_eq_of_lt
        unfold u64; norm_num; omega
      rw [this]
      exact i64_u64 _ hv1 hv2
    have hwid : s.width % 256 = s.width := Nat.mod_eq_of_lt hw
    have hsect2 : (if (s.sect.getD []).length ≠ 0 then some (s.sect.getD []) else none) = s.sect := by
      cases hsc : s.sect with
      | none => simp
      | some n =>
        have := (hsect n hsc).2
        simp [this]
    unfold l0_symbol_image _symbol_create
    rcases hty with hty | hty
    · have hnx : ¬ s.type = SYMBOL_TYPE_EXTERN := by rw [hty]; decide
      simp only [hnx, if_false, hval, hwid, hsect2]
      have h1 : (s.exp % 2 + 2 * 0) % 2 = s.exp := by omega
      have h2 : ¬ ((s.exp % 2 + 2 * 0) / 2 % 2 = 1) := by omega
      simp only [h1, h2, if_false]
      rw [hty]
    · simp only [hty, if_true, hval, hwid, hsect2]
      have h1 : (s.exp % 2 + 2 * 1) % 2 = s.exp := by omega
      have h2 : ((s.exp % 2 + 2 * 1) / 2 % 2 = 1) := by omega
      simp only [h1, h2, if_true]

theorem l0_load_block_relocation (r : relocation_t) (X : List Nat) (st : l0_data_t)
    (hr : l0_relocation_ok r) :
    l0_load_block (block_of L0_RELOCATION_MAGIC (l0_relocation_body r) ++ X) st =
      .ok { st with relocations := st.relocations ++ [r] } := by
  obtain ⟨hty, hoff, hlen, ha1, ha2, hsym, hsect, _⟩ := hr
  have hb0 : ∀ Z, l0_relocation_body r ++ Z =
      [] ++ ((r.type % 256) :: (le_bytes (r.offset % 4294967296) 4 ++
        (le_bytes (r.length % 4294967296) 4 ++ (le_bytes (u32 r.adjust) 4 ++
          (r.symbol ++ 0 :: (r.sect ++ 0 :: Z)))))) := by
    intro Z; simp [l0_relocation_body, l0_relocation_head, cstr_bytes]
  have hb1 : ∀ Z, l0_relocation_body r ++ Z =
      [r.type % 256] ++ (le_bytes (r.offset % 4294967296) 4 ++
        (le_bytes (r.length % 4294967296) 4 ++ (le_bytes (u32 r.adjust) 4 ++
          (r.symbol ++ 0 :: (r.sect ++ 0 :: Z))))) := by
    intro Z; simp [l0_relocation_body, l0_relocation_head, cstr_bytes]
  have hb5 : ∀ Z, l0_relocation_body r ++ Z =
      ([r.type % 256] ++ le_bytes (r.offset % 4294967296) 4) ++
        (le_bytes (r.length % 4294967296) 4 ++ (le_bytes (u32 r.adjust) 4 ++
          (r.symbol ++ 0 :: (r.sect ++ 0 :: Z)))) := by
    intro Z; simp [l0_relocation_body, l0_relocation_head, cstr_bytes]
  have hb9 : ∀ Z, l0_relocation_body r ++ Z =
      ([r.type % 256] ++ le_bytes (r.offset % 4294967296) 4 ++
        le_bytes (r.length % 4294967296) 4) ++ (le_bytes (u32 r.adjust) 4 ++
          (r.symbol ++ 0 :: (r.sect ++ 0 :: Z))) := by
    intro Z; simp [l0_relocation_body, l0_relocation_head, cstr_bytes]
  have hb13 : ∀ Z, l0_relocation_body r ++ Z =
      (l0_relocation_head r) ++ (r.symbol ++ 0 :: (r.sect ++ 0 :: Z)) := by
    intro Z; simp [l0_relocation_body, cstr_bytes]
  have hb14 : ∀ Z, l0_relocation_body r ++ Z =
      (l0_relocation_head r ++ r.symbol ++ [0]) ++ (r.sect ++ 0 :: Z) := by
    intro Z; simp [l0_relocation_body, cstr_bytes]
  have hhead : (l0_relocation_head r).length = 13 := by
    simp [l0_relocation_head, le_bytes_length]
  have e32 := getD_block L0_RELOCATION_MAGIC _ X [] _ _ 0 (hb0 X) rfl
  have e33 := bytes_at_block L0_RELOCATION_MAGIC _ X _ _ _ 1 4 (hb1 X) rfl (le_bytes_length _ 4)
  have e37 := bytes_at_block L0_RELOCATION_MAGIC _ X _ _ _ 5 4 (hb5 X)
    (by simp [le_bytes_length]) (le_bytes_length _ 4)
  have e41 := bytes_at_block L0_RELOCATION_MAGIC _ X _ _ _ 9 4 (hb9 X)
    (by simp [le_bytes_length]) (le_bytes_length _ 4)
  have e45 := cstr_at_block L0_RELOCATION_MAGIC _ X _ _ _ 13 (hb13 X) hhead hsym
  have e46 := cstr_at_block L0_RELOCATION_MAGIC _ X _ _ _ (13 + r.symbol.length + 1) (hb14 X)
    (by simp only [List.length_append, hhead, List.length_singleton]) hsect
  have hmagic := block_of_magic L0_RELOCATION_MAGIC (l0_relocation_body r) X (by decide)
  have hne : ¬ L0_RELOCATION_MAGIC = L0_SYMBOL_MAGIC := by decide
  unfold l0_load_block
  simp only [hmagic, hne, if_true, if_false]
  rw [show (45 : Nat) = 32 + 13 from rfl, e45,
    show 32 + 13 + r.symbol.length + 1 = 32 + (13 + r.symbol.length + 1) by omega, e46,
    show (33 : Nat) = 32 + 1 from rfl, e33, show (37 : Nat) = 32 + 5 from rfl, e37,
    show (41 : Nat) = 32 + 9 from rfl, e41, show (32 : Nat) = 32 + 0 from rfl, e32]
  simp only [le_value_le_bytes]
  have h1 : r.offset % 4294967296 % 256 ^ 4 = r.offset := by norm_num; omega
  have h2 : r.length % 4294967296 % 256 ^ 4 = r.length := by norm_num; omega
  have h3 : i32 ((u32 r.adjust % 256 ^ 4 : Nat) : Int) = r.adjust := by
    have : u32 r.adjust % 256 ^ 4 = u32 r.adjust := by
      apply Nat.mod_eq_of_lt
      unfold u32; norm_num; omega
    rw [this]
    exact i32_u32 _ ha1 ha2
  have h4 : r.type % 256 = r.type := Nat.mod_eq_of_lt hty
  rw [h1, h2, h3, h4]
  unfold relocations_add
  rfl

theorem section_update_select_fresh (sl : sections_t) (n : CStr) (f : section_t → section_t)
    (h : section_find sl n = none) :
    section_update (section_select sl n) n f = sl ++ [f (_section_create n)] := by
  unfold section_select
  rw [h]
  simp only
  induction sl with
  | nil => simp [section_update, _section_create]
  | cons a t ih =>
    have ha : ¬ a.name = n := by
      intro ha
      simp [section_find, List.find?_cons, ha] at h
    have ht : section_find t n = none := by
      simpa [section_find, List.find?_cons, ha] using h
    have := ih ht
    simp only [List.cons_append, section_update, ha, if_false]
    exact congrArg (List.cons a) this

theorem l0_load_block_section (s : section_t) (X : List Nat) (st : l0_data_t)
    (hs : l0_section_ok s) (hfresh : section_find st.sections s.name = none) :
    l0_load_block (block_of L0_SECTION_MAGIC (l0_section_body s) ++ X) st =
      .ok { st with sections := st.sections ++ [l0_section_image s] } := by
  obtain ⟨hname, hnl, hpos, hlen, hdata, _⟩ := hs
  have hb0 : ∀ Z, l0_section_body s ++ Z =
      [] ++ ((s.noload % 2) :: (0 :: (le_bytes (s.length % 4294967296) 4 ++
        (s.name ++ 0 :: ((if s.noload = 0 then s.data else []) ++ Z))))) := by
    intro Z
    by_cases h0 : s.noload = 0
    · have := hdata h0
      simp [l0_section_body, l0_section_head, cstr_bytes, h0, this]
    · simp [l0_section_body, l0_section_head, cstr_bytes, h0]
  have hb2 : ∀ Z, l0_section_body s ++ Z =
      [s.noload % 2, 0] ++ (le_bytes (s.length % 4294967296) 4 ++
        (s.name ++ 0 :: ((if s.noload = 0 then s.data else []) ++ Z))) := by
    intro Z; rw [hb0 Z]; rfl
  have hhead : (l0_section_head s).length = 6 := by
    simp [l0_section_head, le_bytes_length]
  have hb6 : ∀ Z, l0_section_body s ++ Z =
      (l0_section_head s) ++ (s.name ++ 0 :: ((if s.noload = 0 then s.data else []) ++ Z)) := by
    intro Z; rw [hb0 Z]; simp [l0_section_head]
  have hb7 : ∀ Z, l0_section_body s ++ Z =
      (l0_section_head s ++ s.name ++ [0]) ++ ((if s.noload = 0 then s.data else []) ++ Z) := by
    intro Z; rw [hb6 Z]; simp
  have e32 := getD_block L0_SECTION_MAGIC _ X [] _ _ 0 (hb0 X) rfl
  have e34 := bytes_at_block L0_SECTION_MAGIC _ X _ _ _ 2 4 (hb2 X) rfl (le_bytes_length _ 4)
  have e38 := cstr_at_block L0_SECTION_MAGIC _ X _ _ _ 6 (hb6 X) hhead hname
  have hmagic := block_of_magic L0_SECTION_MAGIC (l0_section_body s) X (by decide)
  have hne1 : ¬ L0_SECTION_MAGIC = L0_SYMBOL_MAGIC := by decide
  have hne2 : ¬ L0_SECTION_MAGIC = L0_RELOCATION_MAGIC := by decide
  unfold l0_load_block
  simp only [hmagic, hne1, hne2, if_true, if_false]
  rw [show (38 : Nat) = 32 + 6 from rfl, e38, show (34 : Nat) = 32 + 2 from rfl, e34,
    show (32 : Nat) = 32 + 0 from rfl, e32]
  rw [section_update_select_fresh _ _ _ hfresh]
  have hl : le_value (le_bytes (s.length % 4294967296) 4) = s.length := by
    rw [le_value_le_bytes]; norm_num; omega
  rw [hl]
  congr 3
  unfold l0_section_image _section_create
  by_cases h0 : s.noload = 0
  · have hd := hdata h0
    have hb7x : l0_section_body s ++ X = (l0_section_head s ++ s.name ++ [0]) ++ (s.data ++ X) := by
      rw [hb7 X]; simp [h0]
    have e39 := bytes_at_block L0_SECTION_MAGIC _ X (l0_section_head s ++ s.name ++ [0]) s.data X
      (6 + s.name.length + 1) s.length hb7x
      (by simp only [List.length_append, hhead, List.length_singleton]) hd
    rw [show 32 + 6 + s.name.length + 1 = 32 + (6 + s.name.length + 1) by omega, e39]
    have hm : s.noload % 2 = 0 := by omega
    simp only [hm, if_true, h0]
    unfold section_pushdata
    have hc : (0 : Nat) = 0 ∧ 0 < s.length := ⟨rfl, hpos⟩
    simp only [hc, and_self, if_true]
    have hmc : memcpy_at [] 0 s.data s.length = s.data := by
      unfold memcpy_at
      simp [hd]
    simp only [hmc, Nat.zero_add, Nat.mod_eq_of_lt hlen]
  · have h1 : s.noload = 1 := by omega
    rw [h1]
    simp

theorem l0_save_symbols_ok (syms : symbols_t) (h : ∀ s ∈ syms, l0_symbol_ok s) :
    l0_save_symbols syms
      = .ok (syms.map (fun s => block_of L0_SYMBOL_MAGIC (l0_symbol_body s (s.sect.getD [])))) := by
  induction syms with
  | nil => rfl
  | cons s t ih =>
    have hs := h s (List.mem_cons_self _ _)
    have ht := ih (fun x hx => h x (List.mem_cons_of_mem _ hx))
    obtain ⟨hty, _, _, _, _, _, _, hnone, hfit⟩ := hs
    have h1 : ¬ s.type = SYMBOL_TYPE_NONE := by rcases hty with h | h <;> rw [h] <;> decide
    have h2 : ¬ (s.type ≠ SYMBOL_TYPE_LABEL ∧ s.type ≠ SYMBOL_TYPE_EXTERN) := by
      rcases hty with h | h <;> simp [h]
    have h3 : (match s.sect with
        | some n => some n
        | none => if s.type ≠ SYMBOL_TYPE_LABEL then some [] else none)
        = some (s.sect.getD []) := by
      cases hsc : s.sect with
      | some n => rfl
      | none => simp [hnone hsc]
    unfold l0_save_symbols
    simp only [h1, h2, if_false, h3, ht, l0_make_block_ok _ _ (by omega : 32 +
      (l0_symbol_body s (s.sect.getD [])).length < 4294967296), List.map_cons]

theorem l0_save_relocations_ok (rels : relocations_t) (h : ∀ r ∈ rels, l0_relocation_ok r) :
    l0_save_relocations rels
      = .ok (rels.map (fun r => block_of L0_RELOCATION_MAGIC (l0_relocation_body r))) := by
  induction rels with
  | nil => rfl
  | cons r t ih =>
    have hr := h r (List.mem_cons_self _ _)
    have ht := ih (fun x hx => h x (List.mem_cons_of_mem _ hx))
    have hfit := hr.2.2.2.2.2.2.2
    unfold l0_save_relocations
    simp only [ht, l0_make_block_ok _ _ (by omega : 32 +
      (l0_relocation_body r).length < 4294967296), List.map_cons]

theorem l0_save_sections_ok (secs : sections_t) (h : ∀ s ∈ secs, l0_section_ok s) :
    l0_save_sections secs
      = .ok (secs.map (fun s => block_of L0_SECTION_MAGIC (l0_section_body s))) := by
  induction secs with
  | nil => rfl
  | cons s t ih =>
    have hs := h s (List.mem_cons_self _ _)
    have ht := ih (fun x hx => h x (List.mem_cons_of_mem _ hx))
    obtain ⟨_, _, hpos, _, _, hfit⟩ := hs
    have h0 : ¬ s.length = 0 := by omega
    unfold l0_save_sections
    simp only [h0, if_false, ht, l0_make_block_ok _ _ (by omega : 32 +
      (l0_section_body s).length < 4294967296), List.map_cons]

theorem symbol_find_append_none (sl : symbols_t) (x : symbol_t) (n : CStr)
    (h1 : symbol_find sl n = none) (h2 : x.name ≠ n) :
    symbol_find (sl ++ [x]) n = none := by
  unfold symbol_find at h1 ⊢
  rw [List.find?_append, h1]
  simp [h2]

theorem section_find_append_none (sl : sections_t) (x : section_t) (n : CStr)
    (h1 : section_find sl n = none) (h2 : x.name ≠ n) :
    section_find (sl ++ [x]) n = none := by
  unfold section_find at h1 ⊢
  rw [List.find?_append, h1]
  simp [h2]

theorem l0_load_symbols_phase (syms : symbols_t) (hok : ∀ s ∈ syms, l0_symbol_ok s)
    (hnd : (syms.map (fun s => s.name)).Nodup) (fuel : Nat) (rest : List Nat) :
    ∀ (bm : bmem_t) (st : l0_data_t), (∀ s ∈ syms, symbol_find st.symbols s.name = none) →
    ∃ bm1, l0_load_loop (fuel + syms.length)
        ((syms.map (fun s => block_of L0_SYMBOL_MAGIC
          (l0_symbol_body s (s.sect.getD [])))).flatten ++ rest) bm st
      = l0_load_loop fuel rest bm1
          { st with symbols := st.symbols ++ syms.map l0_symbol_image } := by
  induction syms with
  | nil => intro bm st _; exact ⟨bm, by simp⟩
  | cons s t ih =>
    intro bm st hfresh
    have hs := hok s (List.mem_cons_self _ _)
    have hnd2 := List.nodup_cons.mp hnd
    have hfit := hs.2.2.2.2.2.2.2.2
    obtain ⟨X, hX⟩ := bmem_after_buf bm
      (block_of L0_SYMBOL_MAGIC (l0_symbol_body s (s.sect.getD [])))
    have hfresh_t : ∀ x ∈ t, symbol_find (st.symbols ++ [l0_symbol_image s]) x.name = none := by
      intro x hx
      apply symbol_find_append_none _ _ _ (hfresh x (List.mem_cons_of_mem _ hx))
      intro heq
      apply hnd2.1
      have : (l0_symbol_image s).name = s.name := rfl
      rw [this] at heq
      show s.name ∈ _
      rw [heq]
      exact List.mem_map_of_mem (fun s => s.name) hx
    obtain ⟨bm1, h1⟩ := ih (fun x hx => hok x (List.mem_cons_of_mem _ hx)) hnd2.2 _
      { st with symbols := st.symbols ++ [l0_symbol_image s] } hfresh_t
    refine ⟨bm1, ?_⟩
    simp only [List.map_cons, List.flatten_cons, List.length_cons, List.append_assoc]
    rw [← Nat.add_assoc, l0_load_loop_block _ _ _ _ _ _ hfit, hX, l0_load_block_symbol s X st hs,
      hfresh s (List.mem_cons_self _ _)]
    simp only
    rw [h1]
    simp

theorem l0_load_relocations_phase (rels : relocations_t) (hok : ∀ r ∈ rels, l0_relocation_ok r)
    (fuel : Nat) (rest : List Nat) :
    ∀ (bm : bmem_t) (st : l0_data_t),
    ∃ bm1, l0_load_loop (fuel + rels.length)
        ((rels.map (fun r => block_of L0_RELOCATION_MAGIC (l0_relocation_body r))).flatten
          ++ rest) bm st
      = l0_load_loop fuel rest bm1 { st with relocations := st.relocations ++ rels } := by
  induction rels with
  | nil => intro bm st; exact ⟨bm, by simp⟩
  | cons r t ih =>
    intro bm st
    have hr := hok r (List.mem_cons_self _ _)
    have hfit := hr.2.2.2.2.2.2.2
    obtain ⟨X, hX⟩ := bmem_after_buf bm (block_of L0_RELOCATION_MAGIC (l0_relocation_body r))
    obtain ⟨bm1, h1⟩ := ih (fun x hx => hok x (List.mem_cons_of_mem _ hx)) _
      { st with relocations := st.relocations ++ [r] }
    refine ⟨bm1, ?_⟩
    simp only [List.map_cons, List.flatten_cons, List.length_cons, List.append_assoc]
    rw [← Nat.add_assoc, l0_load_loop_block _ _ _ _ _ _ hfit, hX,
      l0_load_block_relocation r X st hr]
    simp only
    rw [h1]
    simp

theorem l0_load_sections_phase (secs : sections_t) (hok : ∀ s ∈ secs, l0_section_ok s)
    (hnd : (secs.map (fun s => s.name)).Nodup) (fuel : Nat) (rest : List Nat) :
    ∀ (bm : bmem_t) (st : l0_data_t), (∀ s ∈ secs, section_find st.sections s.name = none) →
    ∃ bm1, l0_load_loop (fuel + secs.length)
        ((secs.map (fun s => block_of L0_SECTION_MAGIC (l0_section_body s))).flatten ++ rest)
        bm st
      = l0_load_loop fuel rest bm1
          { st with sections := st.sections ++ secs.map l0_section_image } := by
  induction secs with
  | nil => intro bm st _; exact ⟨bm, by simp⟩
  | cons s t ih =>
    intro bm st hfresh
    have hs := hok s (List.mem_cons_self _ _)
    have hnd2 := List.nodup_cons.mp hnd
    have hfit := hs.2.2.2.2.2
    obtain ⟨X, hX⟩ := bmem_after_buf bm (block_of L0_SECTION_MAGIC (l0_section_body s))
    have hfresh_t : ∀ x ∈ t,
        section_find (st.sections ++ [l0_section_image s]) x.name = none := by
      intro x hx
      apply section_find_append_none _ _ _ (hfresh x (List.mem_cons_of_mem _ hx))
      intro heq
      apply hnd2.1
      have : (l0_section_image s).name = s.name := rfl
      rw [this] at heq
      show s.name ∈ _
      rw [heq]
      exact List.mem_map_of_mem (fun s => s.name) hx
    obtain ⟨bm1, h1⟩ := ih (fun x hx => hok x (List.mem_cons_of_mem _ hx)) hnd2.2 _
      { st with sections := st.sections ++ [l0_section_image s] } hfresh_t
    refine ⟨bm1, ?_⟩
    simp only [List.map_cons, List.flatten_cons, List.length_cons, List.append_assoc]
    rw [← Nat.add_assoc, l0_load_loop_block _ _ _ _ _ _ hfit, hX,
      l0_load_block_section s X st hs (hfresh s (List.mem_cons_self _ _))]
    simp only
    rw [h1]
    simp

theorem l0_load_head (fuel : Nat) (sbuf rest : List Nat) (st : l0_data_t) :
    ∃ bm, l0_load fuel sbuf (l0_file_head ++ rest) st = l0_load_loop fuel rest bm st := by
  have hlen : l0_file_head.length = 32 := by decide
  have htake : (l0_file_head ++ rest).take 32 = l0_file_head := List.take_left' hlen
  have hdrop : (l0_file_head ++ rest).drop 32 = rest := List.drop_left' hlen
  refine ⟨bmem_read (bmem_alloc (bmem_init sbuf) 32) l0_file_head, ?_⟩
  unfold l0_load
  have c1 : ¬ (l0_file_head ++ rest).length < 32 := by
    rw [List.length_append, hlen]; omega
  simp only [c1, if_false, htake, hdrop]
  have hm : le_value ((bmem_read (bmem_alloc (bmem_init sbuf) 32) l0_file_head).buf.take 4)
      = L0_HEAD_MAGIC := by
    simp only [bmem_read]
    have : l0_file_head = [46, 108, 48, 0] ++ (le_bytes CURRENT_VERSION 2 ++ List.replicate 26 0) := by
      decide
    rw [this, List.append_assoc, List.take_left' (by rfl : [46, 108, 48, 0].length = 4)]
    decide
  have hv : le_value (((bmem_read (bmem_alloc (bmem_init sbuf) 32) l0_file_head).buf.drop 4).take 2)
      = CURRENT_VERSION := by
    simp only [bmem_read]
    have : l0_file_head = [46, 108, 48, 0] ++ ([1, 0] ++ List.replicate 26 0) := by
      decide
    rw [this, List.append_assoc, List.drop_left' (by rfl : [46, 108, 48, 0].length = 4),
      List.append_assoc, List.take_left' (by rfl : [1, 0].length = 2)]
    decide
  simp only [hm, hv, ne_eq, not_true_eq_false, if_false]

theorem l0_load_loop_done (fuel : Nat) (bm : bmem_t) (st : l0_data_t) :
    l0_load_loop (fuel + 1) [] bm st = some (.ok st) := by
  simp [l0_load_loop]

/-- C4 as amended. Symbols that are labels or externs with pairwise different names,
every section name non-empty (a label has one); relocations; non-empty sections
with pairwise different names; all of them within the ranges of the C types and
every block shorter than 2^31 bytes. Then `l0_save` writes a file, every block of
it passes the checksum test, and `l0_load`, started on empty lists with any content
of the static buffer and enough iterations, succeeds and yields the same symbols
(attributes apart), the same relocations and the same sections (name, flag, length,
and the bytes of the loadable ones), in the same order. -/
theorem C4_l0_round_trip (symbols : symbols_t) (relocations : relocations_t)
    (sections : sections_t)
    (hsym : ∀ s ∈ symbols, l0_symbol_ok s)
    (hsymn : (symbols.map (fun s => s.name)).Nodup)
    (hrel : ∀ r ∈ relocations, l0_relocation_ok r)
    (hsec : ∀ s ∈ sections, l0_section_ok s)
    (hsecn : (sections.map (fun s => s.name)).Nodup) :
    ∃ file blocks,
      l0_save symbols relocations sections = .ok file ∧
      l0_save_blocks symbols relocations sections = .ok blocks ∧
      file = l0_file_head ++ blocks.flatten ∧
      (∀ b ∈ blocks, block_cs_field b = _block_cs b) ∧
      ∀ fuel sbuf, symbols.length + relocations.length + sections.length < fuel →
        l0_load fuel sbuf file { symbols := [], sections := [], relocations := [] }
          = some (.ok { symbols := symbols.map l0_symbol_image,
                        sections := sections.map l0_section_image,
                        relocations := relocations }) := by
  have hb : l0_save_blocks symbols relocations sections = .ok
      (symbols.map (fun s => block_of L0_SYMBOL_MAGIC (l0_symbol_body s (s.sect.getD [])))
        ++ relocations.map (fun r => block_of L0_RELOCATION_MAGIC (l0_relocation_body r))
        ++ sections.map (fun s => block_of L0_SECTION_MAGIC (l0_section_body s))) := by
    unfold l0_save_blocks
    rw [l0_save_symbols_ok _ hsym, l0_save_relocations_ok _ hrel, l0_save_sections_ok _ hsec]
  refine ⟨_, _, ?_, hb, rfl, ?_, ?_⟩
  · unfold l0_save
    rw [hb]
  · intro b hbm
    simp only [List.mem_append, List.mem_map] at hbm
    have key : ∀ m body, 32 + body.length < 2147483648 →
        block_cs_field (block_of m body) = _block_cs (block_of m body) := by
      intro m body hfit
      have := block_of_cs_ok m body [] (by omega)
      simpa using this
    rcases hbm with (⟨s, hs, rfl⟩ | ⟨r, hr, rfl⟩) | ⟨s, hs, rfl⟩
    · exact key _ _ (hsym s hs).2.2.2.2.2.2.2.2
    · exact key _ _ (hrel r hr).2.2.2.2.2.2.2
    · exact key _ _ (hsec s hs).2.2.2.2.2
  · intro fuel sbuf hfuel
    obtain ⟨f0, rfl⟩ : ∃ f0, fuel = f0 + 1 + sections.length + relocations.length
        + symbols.length := ⟨fuel - 1 - sections.length - relocations.length - symbols.length,
          by omega⟩
    obtain ⟨bm0, h0⟩ := l0_load_head (f0 + 1 + sections.length + relocations.length
      + symbols.length) sbuf ((symbols.map (fun s => block_of L0_SYMBOL_MAGIC
        (l0_symbol_body s (s.sect.getD [])))
        ++ relocations.map (fun r => block_of L0_RELOCATION_MAGIC (l0_relocation_body r))
        ++ sections.map (fun s => block_of L0_SECTION_MAGIC (l0_section_body s))).flatten)
      { symbols := [], sections := [], relocations := [] }
    rw [h0]
    simp only [List.flatten_append, List.append_assoc]
    obtain ⟨bm1, h1⟩ := l0_load_symbols_phase symbols hsym hsymn
      (f0 + 1 + sections.length + relocations.length) _ bm0
      { symbols := [], sections := [], relocations := [] } (fun _ _ => rfl)
    rw [h1]
    obtain ⟨bm2, h2⟩ := l0_load_relocations_phase relocations hrel
      (f0 + 1 + sections.length) _ bm1
      { symbols := [] ++ symbols.map l0_symbol_image, sections := [], relocations := [] }
    rw [h2]
    obtain ⟨bm3, h3⟩ := l0_load_sections_phase sections hsec hsecn (f0 + 1) [] bm2
      { symbols := [] ++ symbols.map l0_symbol_image, sections := [],
        relocations := [] ++ relocations } (fun _ _ => rfl)
    rw [List.append_nil] at h3
    rw [h3, l0_load_loop_done]
    simp

theorem block_zero_cs_length (b : List Nat) (h : 8 ≤ b.length) :
    (block_zero_cs b).length = b.length := by
  unfold block_zero_cs memcpy_at
  simp [List.length_take, List.length_drop]
  omega

theorem block_zero_cs_sum (b : List Nat) (h : 8 ≤ b.length) :
    (block_zero_cs b).sum = (b.take 6).sum + (b.drop 8).sum := by
  unfold block_zero_cs memcpy_at
  have h2 : 6 - b.length = 0 := by omega
  rw [h2]
  simp

theorem l0_save_symbols_blocks (syms : symbols_t) (bs : List (List Nat))
    (h : l0_save_symbols syms = .ok bs) :
    ∀ b ∈ bs, ∃ m body, b = block_of m body ∧ 32 + body.length < 4294967296 := by
  induction syms generalizing bs with
  | nil =>
    simp only [l0_save_symbols] at h
    cases h
    intro b hb; cases hb
  | cons s t ih =>
    unfold l0_save_symbols at h
    split at h
    · exact ih bs h
    · split at h
      · exact ih bs h
      · simp only at h
        split at h
        · cases h
        · split at h
          · cases h
          · rename_i b0 hb0
            split at h
            · cases h
            · rename_i bs0 hbs0
              cases h
              intro b hb
              rcases List.mem_cons.mp hb with rfl | hb
              · obtain ⟨h1, h2⟩ := l0_make_block_inv _ _ _ hb0
                exact ⟨_, _, h2, h1⟩
              · exact ih bs0 hbs0 b hb

theorem l0_save_relocations_blocks (rels : relocations_t) (bs : List (List Nat))
    (h : l0_save_relocations rels = .ok bs) :
    ∀ b ∈ bs, ∃ m body, b = block_of m body ∧ 32 + body.length < 4294967296 := by
  induction rels generalizing bs with
  | nil =>
    simp only [l0_save_relocations] at h
    cases h
    intro b hb; cases hb
  | cons r t ih =>
    unfold l0_save_relocations at h
    split at h
    · cases h
    · rename_i b0 hb0
      split at h
      · cases h
      · rename_i bs0 hbs0
        cases h
        intro b hb
        rcases List.mem_cons.mp hb with rfl | hb
        · obtain ⟨h1, h2⟩ := l0_make_block_inv _ _ _ hb0
          exact ⟨_, _, h2, h1⟩
        · exact ih bs0 hbs0 b hb

theorem l0_save_sections_blocks (secs : sections_t) (bs : List (List Nat))
    (h : l0_save_sections secs = .ok bs) :
    ∀ b ∈ bs, ∃ m body, b = block_of m body ∧ 32 + body.length < 4294967296 := by
  induction secs generalizing bs with
  | nil =>
    simp only [l0_save_sections] at h
    cases h
    intro b hb; cases hb
  | cons s t ih =>
    unfold l0_save_sections at h
    split at h
    · exact ih bs h
    · split at h
      · cases h
      · rename_i b0 hb0
        split at h
        · cases h
        · rename_i bs0 hbs0
          cases h
          intro b hb
          rcases List.mem_cons.mp hb with rfl | hb
          · obtain ⟨h1, h2⟩ := l0_make_block_inv _ _ _ hb0
            exact ⟨_, _, h2, h1⟩
          · exact ih bs0 hbs0 b hb

theorem l0_save_blocks_blocks (symbols : symbols_t) (relocations : relocations_t)
    (sections : sections_t) (blocks : List (List Nat))
    (h : l0_save_blocks symbols relocations sections = .ok blocks) :
    ∀ b ∈ blocks, ∃ m body, b = block_of m body ∧ 32 + body.length < 4294967296 := by
  unfold l0_save_blocks at h
  split at h
  · cases h
  · rename_i b1 h1
    split at h
    · cases h
    · rename_i b2 h2
      split at h
      · cases h
      · rename_i b3 h3
        cases h
        intro b hb
        simp only [List.mem_append] at hb
        rcases hb with (hb | hb) | hb
        · exact l0_save_symbols_blocks _ _ h1 b hb
        · exact l0_save_relocations_blocks _ _ h2 b hb
        · exact l0_save_sections_blocks _ _ h3 b hb

/-- C5. Every block that `l0_save` writes consists of the 32-byte header and the
body; its length field is the number of bytes of the whole block, and its checksum
field is the sum modulo 2^16 of all bytes of the block except the two checksum
bytes (bytes 6 and 7), which count as zero. That sum is what `_block_cs` computes,
so the block passes the test of `l0_load`. -/
theorem C5_block_checksum_and_length (symbols : symbols_t) (relocations : relocations_t)
    (sections : sections_t) (blocks : List (List Nat)) (b : List Nat)
    (hsave : l0_save_blocks symbols relocations sections = .ok blocks) (hb : b ∈ blocks) :
    32 ≤ b.length ∧ block_length b = b.length ∧
    block_cs_field b = ((b.take 6).sum + (b.drop 8).sum) % 65536 ∧
    block_cs_field b = _block_cs b := by
  obtain ⟨m, body, rfl, hfit⟩ := l0_save_blocks_blocks _ _ _ _ hsave b hb
  have hlen := block_of_length m body
  have h1 := block_of_block_length m body [] hfit
  have h2 := block_of_cs_ok m body [] hfit
  rw [List.append_nil] at h1 h2
  refine ⟨by omega, by rw [h1, hlen], ?_, h2⟩
  rw [h2]
  unfold _block_cs
  rw [h1, ← hlen, List.take_of_length_le (by rw [block_zero_cs_length _ (by omega)]),
    block_zero_cs_sum _ (by omega)]

/-- C4, counterexample. After `.section ""` a label carries the section with the empty
name. `l0_save` writes that name as an empty string, which is the encoding of "no
section", and `l0_load` gives the label back without a section. -/
theorem C4_empty_section_name_is_lost :
    (match l0_save c4_symbols [] c4_sections with
      | .ok file => l0_load 3 [] file { symbols := [], sections := [], relocations := [] }
      | .error e => some (.error e))
      = some (.ok { symbols := [{ type := SYMBOL_TYPE_LABEL, name := [76], sect := none,
                                  exp := 0, val64 := 0, width := 1 }],
                    sections := c4_sections, relocations := [] })
    ∧ c4_symbols.map (fun s => s.sect) = [some []] := by
  decide

/-- Witness of `C4_l0_round_trip`: a label, an extern, a relocation, a loadable and a
NOLOAD section are saved and loaded back unchanged. -/
theorem C4_l0_round_trip_witness :
    ∃ file, l0_save l0x_symbols l0x_relocations l0x_sections = .ok file ∧
      l0_load 6 [] file { symbols := [], sections := [], relocations := [] }
        = some (.ok { symbols := l0x_symbols, sections := l0x_sections,
                      relocations := l0x_relocations }) := by
  have hsym : ∀ s ∈ l0x_symbols, l0_symbol_ok s := by
    intro s hs
    simp only [l0x_symbols, List.mem_cons, List.mem_singleton, List.not_mem_nil, or_false] at hs
    rcases hs with rfl | rfl
    · refine ⟨by decide, by unfold cstr_ok; decide, by decide, by decide, by decide, by decide,
        ?_, ?_, by decide⟩
      · intro n hn; cases hn; exact ⟨by unfold cstr_ok; decide, by decide⟩
      · intro hn; cases hn
    · refine ⟨by decide, by unfold cstr_ok; decide, by decide, by decide, by decide, by decide,
        ?_, ?_, by decide⟩
      · intro n hn; cases hn
      · intro _; rfl
  have hrel : ∀ r ∈ l0x_relocations, l0_relocation_ok r := by
    intro r hr
    simp only [l0x_relocations, List.mem_singleton] at hr
    subst hr
    exact ⟨by decide, by decide, by decide, by decide, by decide, by unfold cstr_ok; decide,
      by unfold cstr_ok; decide, by decide⟩
  have hsec : ∀ s ∈ l0x_sections, l0_section_ok s := by
    intro s hs
    simp only [l0x_sections, List.mem_cons, List.mem_singleton, List.not_mem_nil, or_false] at hs
    rcases hs with rfl | rfl
    · exact ⟨by unfold cstr_ok; decide, by decide, by decide, by decide, by decide, by decide⟩
    · exact ⟨by unfold cstr_ok; decide, by decide, by decide, by decide, by decide, by decide⟩
  obtain ⟨file, _, h1, _, _, _, h5⟩ :=
    C4_l0_round_trip l0x_symbols l0x_relocations l0x_sections hsym (by decide) hrel hsec
      (by decide)
  exact ⟨file, h1, h5 6 [] (by decide)⟩

/-- Witness of `C5_block_checksum_and_length`: the block of the extern `F` in the file
saved for the example unit has length 46 and checksum 0x0134. -/
theorem C5_block_checksum_and_length_witness :
    l0_save_blocks l0x_symbols l0x_relocations l0x_sections
      = .ok ((l0_save_blocks l0x_symbols l0x_relocations l0x_sections).toOption.getD []) ∧
    (32 ≤ (block_of L0_SYMBOL_MAGIC (l0_symbol_body (l0x_symbols.getD 1 (_symbol_create [])) [])).length ∧
     block_length (block_of L0_SYMBOL_MAGIC (l0_symbol_body (l0x_symbols.getD 1 (_symbol_create [])) []))
       = 46 ∧
     block_cs_field (block_of L0_SYMBOL_MAGIC (l0_symbol_body (l0x_symbols.getD 1 (_symbol_create [])) []))
       = 0x0134) := by
  have hsave : l0_save_blocks l0x_symbols l0x_relocations l0x_sections
      = .ok ((l0_save_blocks l0x_symbols l0x_relocations l0x_sections).toOption.getD []) := by
    decide
  have hmem : block_of L0_SYMBOL_MAGIC (l0_symbol_body (l0x_symbols.getD 1 (_symbol_create [])) [])
      ∈ (l0_save_blocks l0x_symbols l0x_relocations l0x_sections).toOption.getD [] := by
    decide
  have h := C5_block_checksum_and_length l0x_symbols l0x_relocations l0x_sections _ _ hsave hmem
  refine ⟨hsave, h.1, ?_, ?_⟩
  · rw [h.2.1]; decide
  · rw [h.2.2.1]; decide

theorem section_pushdata_eq (s : section_t) (d : List Nat) (n : Nat)
    (h1 : s.noload = 0 → s.data.length = s.length) (h2 : s.length + n < 4294967296)
    (h3 : n ≤ d.length) :
    section_pushdata s d n = push_bytes s (d.take n) := by
  unfold section_pushdata push_bytes
  have hl : (s.length + n) % 4294967296 = s.length + (d.take n).length := by
    rw [Nat.mod_eq_of_lt h2, List.length_take]; omega
  by_cases hc : s.noload = 0 ∧ 0 < n
  · have hd := h1 hc.1
    have hm : memcpy_at s.data s.length d n = s.data ++ d.take n := by
      unfold memcpy_at
      have e1 : s.length - s.data.length = 0 := by omega
      have e2 : n - d.length = 0 := by omega
      rw [e1, e2, List.take_of_length_le (by omega), List.drop_of_length_le (by omega)]
      simp
    simp only [hc, and_self, if_true, hm, hl, hc.1]
  · simp only [hc, if_false, hl]
    by_cases h0 : s.noload = 0
    · have hn : n = 0 := by
        by_contra hne
        exact hc ⟨h0, by omega⟩
      subst hn
      simp [h0]
    · simp [h0]

theorem push_bytes_push_bytes (s : section_t) (a b : List Nat) :
    push_bytes (push_bytes s a) b = push_bytes s (a ++ b) := by
  unfold push_bytes
  by_cases h0 : s.noload = 0
  · simp [h0, Nat.add_assoc]
  · simp [h0, Nat.add_assoc]

theorem push_bytes_nil (s : section_t) : push_bytes s [] = s := by
  cases s
  unfold push_bytes
  simp

theorem push_bytes_wf (s : section_t) (a : List Nat) (h1 : s.noload = 0 → s.data.length = s.length) :
    (push_bytes s a).noload = 0 → (push_bytes s a).data.length = (push_bytes s a).length := by
  unfold push_bytes
  intro h0
  simp only at h0
  simp [h0, h1 h0]

theorem section_update_congr (sl : sections_t) (n : CStr) (f : section_t → section_t)
    (s0 : section_t) (h0 : section_find sl n = some s0) :
    section_update sl n f = section_update sl n (fun _ => f s0) := by
  induction sl with
  | nil => rfl
  | cons a t ih =>
    unfold section_update
    by_cases ha : a.name = n
    · simp [section_find, List.find?_cons, ha] at h0
      subst h0
      simp [ha]
    · have h0t : section_find t n = some s0 := by
        simpa [section_find, List.find?_cons, ha] using h0
      simp only [ha, if_false, ih h0t]

theorem section_update_twice (sl : sections_t) (n : CStr) (s1 s2 : section_t)
    (h1 : s1.name = n) :
    section_update (section_update sl n (fun _ => s1)) n (fun _ => s2)
      = section_update sl n (fun _ => s2) := by
  induction sl with
  | nil => rfl
  | cons a t ih =>
    by_cases ha : a.name = n
    · simp [section_update, ha, h1]
    · simp [section_update, ha, ih]

theorem push_bytes_name (s : section_t) (a : List Nat) : (push_bytes s a).name = s.name := rfl

theorem push_bytes_length (s : section_t) (a : List Nat) :
    (push_bytes s a).length = s.length + a.length := rfl

theorem ctx_append_find (ctx : asm_context_t) (sec : section_t) (b : List Nat)
    (hsec : section_find ctx.sections ctx.sect = some sec) :
    section_find (ctx_append ctx sec b).sections (ctx_append ctx sec b).sect
      = some (push_bytes sec b) := by
  unfold ctx_append
  simp only
  rw [section_find_update ctx.sections ctx.sect ctx.sect sec (push_bytes sec b) hsec
    (section_find_name _ _ sec hsec)]
  simp

theorem ctx_append_other (ctx : asm_context_t) (sec : section_t) (b : List Nat) (m : CStr)
    (hsec : section_find ctx.sections ctx.sect = some sec) (hm : m ≠ ctx.sect) :
    section_find (ctx_append ctx sec b).sections m = section_find ctx.sections m := by
  unfold ctx_append
  simp only
  rw [section_find_update ctx.sections ctx.sect m sec (push_bytes sec b) hsec
    (section_find_name _ _ sec hsec)]
  simp [hm]

theorem ctx_append_append (ctx : asm_context_t) (sec : section_t) (a b : List Nat)
    (hsec : section_find ctx.sections ctx.sect = some sec) :
    ctx_append (ctx_append ctx sec a) (push_bytes sec a) b = ctx_append ctx sec (a ++ b) := by
  unfold ctx_append
  simp only [push_bytes_push_bytes]
  rw [section_update_twice ctx.sections ctx.sect (push_bytes sec a) (push_bytes sec (a ++ b))
    (section_find_name _ _ sec hsec)]

theorem ctx_append_nil (ctx : asm_context_t) (sec : section_t)
    (hsec : section_find ctx.sections ctx.sect = some sec) :
    ctx_append ctx sec [] = ctx := by
  unfold ctx_append
  rw [push_bytes_nil, ← section_update_congr ctx.sections ctx.sect (fun s => s) sec hsec]
  have : ∀ sl : sections_t, section_update sl ctx.sect (fun s => s) = sl := by
    intro sl
    induction sl with
    | nil => rfl
    | cons a t ih =>
      by_cases ha : a.name = ctx.sect <;> simp [section_update, ha, ih]
  rw [this]

theorem ctx_pushdata_eq (ctx : asm_context_t) (d : List Nat) (n : Nat) (sec : section_t)
    (hsec : section_find ctx.sections ctx.sect = some sec)
    (h1 : sec.noload = 0 → sec.data.length = sec.length) (h2 : sec.length + n < 4294967296)
    (h3 : n ≤ d.length) :
    ctx_pushdata ctx d n = ctx_append ctx sec (d.take n) := by
  unfold ctx_pushdata ctx_append
  simp only
  rw [section_update_congr _ _ _ _ hsec, section_pushdata_eq _ _ _ h1 h2 h3]

theorem le_bytes_take (v : Nat) (n k : Nat) (h : k ≤ n) :
    (le_bytes v n).take k = le_bytes v k := by
  induction k generalizing v n with
  | zero => simp [le_bytes]
  | succ j ih =>
    cases n with
    | zero => omega
    | succ m =>
      simp only [le_bytes, List.take_succ_cons]
      rw [ih _ _ (by omega)]

theorem le_bytes_zero (n : Nat) : le_bytes 0 n = List.replicate n 0 := by
  induction n with
  | zero => rfl
  | succ k ih => simp [le_bytes, ih, List.replicate_succ]

theorem uni_payload_bytes (v : Nat) (n : Nat) (h0 : n ≠ 0) (h3 : n ≤ 3) :
    (le_bytes (if n = 2 then host_tobe16 v else if n = 3 then host_tobe24 v else v) 8).take n
      = be_bytes v n := by
  have hn : n = 1 ∨ n = 2 ∨ n = 3 := by omega
  rcases hn with rfl | rfl | rfl
  · simp [le_bytes, be_bytes]
  · simp only [if_true, host_tobe16, be_bytes, le_bytes, le_value, List.reverse_cons,
      List.reverse_nil, List.nil_append, List.singleton_append, List.take_succ_cons,
      List.take_zero]
    have e1 : (v / 256 % 256 + 256 * (v % 256 + 256 * 0)) % 256 = v / 256 % 256 := by omega
    have e2 : (v / 256 % 256 + 256 * (v % 256 + 256 * 0)) / 256 % 256 = v % 256 := by omega
    rw [e1, e2]
  · simp only [host_tobe24, be_bytes, le_bytes, le_value, List.reverse_cons,
      List.reverse_nil, List.nil_append, List.singleton_append, List.take_succ_cons,
      List.take_zero, List.cons_append]
    have hne : ¬ (3 = 2) := by decide
    simp only [hne, if_false, if_true]
    have e1 : (v / 256 / 256 % 256 + 256 * (v / 256 % 256 + 256 * (v % 256 + 256 * 0))) % 256
        = v / 256 / 256 % 256 := by omega
    have e2 : (v / 256 / 256 % 256 + 256 * (v / 256 % 256 + 256 * (v % 256 + 256 * 0))) / 256
        % 256 = v / 256 % 256 := by omega
    have e3 : (v / 256 / 256 % 256 + 256 * (v / 256 % 256 + 256 * (v % 256 + 256 * 0))) / 256
        / 256 % 256 = v % 256 := by omega
    rw [e1, e2, e3]

theorem assemble_uni_find (ctx : asm_context_t) (args : List arg_t)
    (table : List gen_info_t) :
    _assemble_uni ctx args table =
      match uni_first_row args table with
      | none => .error "no row"
      | some g => _assemble_uni_row ctx args g := by
  induction table with
  | nil => rfl
  | cons a t ih =>
    unfold _assemble_uni uni_first_row
    by_cases he : gen_flag a GEN_FLAG_END = true
    · simp [he, List.takeWhile_cons]
    · have he2 : gen_flag a GEN_FLAG_END = false := by simpa using he
      by_cases hm : gen_match args a = true
      · simp [he2, hm, List.takeWhile_cons, List.find?_cons]
      · have hm2 : gen_match args a = false := by simpa using hm
        simp only [he2, hm2, Bool.false_eq_true, if_false, List.takeWhile_cons,
          Bool.not_false, if_true, List.find?_cons]
        exact ih

theorem uni_first_row_spec (args : List arg_t) (table : List gen_info_t) (g : gen_info_t)
    (h : uni_first_row args table = some g) :
    gen_match args g = true ∧ gen_flag g GEN_FLAG_END = false ∧
    ∃ pre post, table = pre ++ g :: post ∧
      ∀ r ∈ pre, gen_match args r = false ∧ gen_flag r GEN_FLAG_END = false := by
  induction table with
  | nil => simp [uni_first_row] at h
  | cons a t ih =>
    unfold uni_first_row at h
    by_cases he : gen_flag a GEN_FLAG_END = true
    · simp [he, List.takeWhile_cons] at h
    · have he2 : gen_flag a GEN_FLAG_END = false := by simpa using he
      by_cases hm : gen_match args a = true
      · simp only [he2, hm, List.takeWhile_cons, Bool.not_false, if_true, List.find?_cons,
          Option.some.injEq] at h
        subst h
        exact ⟨hm, he2, [], t, rfl, fun r hr => by cases hr⟩
      · have hm2 : gen_match args a = false := by simpa using hm
        simp only [he2, hm2, List.takeWhile_cons, Bool.not_false, if_true,
          List.find?_cons] at h
        obtain ⟨h1, h2, pre, post, h3, h4⟩ := ih h
        refine ⟨h1, h2, a :: pre, post, by rw [h3]; rfl, ?_⟩
        intro r hr
        rcases List.mem_cons.1 hr with rfl | hr
        · exact ⟨hm2, he2⟩
        · exact h4 r hr

theorem uni_head_length (g : gen_info_t) : (uni_head g).length ≤ 2 := by
  unfold uni_head
  by_cases h : g.prebyte ≠ PREBYTE_NONE <;> simp [h]

/-- The context after the prebyte and the opcode were pushed. -/
theorem assemble_uni_head (ctx : asm_context_t) (g : gen_info_t) (sec : section_t)
    (hsec : section_find ctx.sections ctx.sect = some sec) (hwf : section_wf sec) :
    ctx_pushdata (if g.prebyte ≠ PREBYTE_NONE then ctx_pushdata ctx [g.prebyte] 1 else ctx)
      [g.opcode] 1 = ctx_append ctx sec (uni_head g) := by
  obtain ⟨hw1, hw2⟩ := hwf
  have h1 : (if g.prebyte ≠ PREBYTE_NONE then ctx_pushdata ctx [g.prebyte] 1 else ctx)
      = ctx_append ctx sec (if g.prebyte ≠ PREBYTE_NONE then [g.prebyte] else []) := by
    by_cases hp : g.prebyte ≠ PREBYTE_NONE
    · rw [if_pos hp, if_pos hp,
        ctx_pushdata_eq ctx [g.prebyte] 1 sec hsec hw1 (by omega) (by simp)]
      rfl
    · rw [if_neg hp, if_neg hp]
      exact (ctx_append_nil ctx sec hsec).symm
  rw [h1]
  have hlen : (if g.prebyte ≠ PREBYTE_NONE then [g.prebyte] else []).length ≤ 1 := by
    by_cases hp : g.prebyte ≠ PREBYTE_NONE <;> simp [hp]
  rw [ctx_pushdata_eq _ [g.opcode] 1 _ (ctx_append_find ctx sec _ hsec)
    (push_bytes_wf sec _ hw1) (by rw [push_bytes_length]; omega) (by simp),
    ctx_append_append ctx sec _ _ hsec]
  rfl

theorem assemble_uni_row_nolen (ctx : asm_context_t) (args : List arg_t) (g : gen_info_t)
    (sec : section_t) (hsec : section_find ctx.sections ctx.sect = some sec)
    (hwf : section_wf sec) (hlen : g.arglen = 0) :
    _assemble_uni_row ctx args g = .ok (ctx_append ctx sec (uni_head g)) := by
  have hh := assemble_uni_head ctx g sec hsec hwf
  unfold _assemble_uni_row
  simp only [hlen, ne_eq, not_true_eq_false, if_false]
  simp only [ne_eq] at hh
  rw [hh]

theorem assemble_uni_row_const (ctx : asm_context_t) (args : List arg_t) (g : gen_info_t)
    (sec : section_t) (hsec : section_find ctx.sections ctx.sect = some sec)
    (hwf : section_wf sec) (hlen : g.arglen ≠ 0) (h3 : g.arglen ≤ 3)
    (hsym : (uni_arg args g).symbol = none) :
    _assemble_uni_row ctx args g = .ok (ctx_append ctx sec
      (uni_head g ++ be_bytes (u64 (uni_arg args g).value) g.arglen)) := by
  have hh := assemble_uni_head ctx g sec hsec hwf
  simp only [ne_eq] at hh
  have hul := uni_head_length g
  unfold uni_arg at hsym
  unfold _assemble_uni_row
  simp only [hlen, ne_eq, not_false_eq_true, if_true, hsym, hh]
  rw [ctx_pushdata_eq _ _ g.arglen _ (ctx_append_find ctx sec _ hsec)
    (push_bytes_wf sec _ hwf.1) (by rw [push_bytes_length]; have := hwf.2; omega)
    (by rw [le_bytes_length]; omega),
    ctx_append_append ctx sec _ _ hsec, uni_payload_bytes _ _ hlen h3]
  rfl

theorem assemble_uni_row_reject (ctx : asm_context_t) (args : List arg_t) (g : gen_info_t)
    (sym : symbol_t) (hlen : g.arglen ≠ 0) (hsym : (uni_arg args g).symbol = some sym)
    (hrej : uni_rejects g (uni_arg args g)) :
    _assemble_uni_row ctx args g = .error "Symbol not longmem" ∨
    _assemble_uni_row ctx args g = .error "Symbol not extmem" := by
  unfold uni_arg at hsym
  unfold uni_rejects uni_arg at hrej
  unfold _assemble_uni_row
  simp only [hlen, ne_eq, not_false_eq_true, if_true, hsym]
  by_cases hl : gen_flag g GEN_FLAG_CHECK_LONG = true ∧
      (if gen_flag g GEN_FLAG_ARG_DST = true then arg_at args 0 else arg_at args 1).type
        ≠ ARG_TYPE_LONGMEM
  · left
    simp only [hl, ne_eq, not_false_eq_true, and_self, if_true]
  · right
    rcases hrej with h | h
    · exact absurd h hl
    · simp only [hl, if_false, h, ne_eq, not_false_eq_true, and_self, if_true]

theorem assemble_uni_row_symbol (ctx : asm_context_t) (args : List arg_t) (g : gen_info_t)
    (sec : section_t) (sym : symbol_t)
    (hsec : section_find ctx.sections ctx.sect = some sec)
    (hwf : section_wf sec) (hlen : g.arglen ≠ 0) (h3 : g.arglen ≤ 3)
    (hsym : (uni_arg args g).symbol = some sym)
    (hok : ¬ uni_rejects g (uni_arg args g)) :
    _assemble_uni_row ctx args g = .ok
      { ctx_append ctx sec (uni_head g ++ List.replicate g.arglen 0) with
        relocations := ctx.relocations ++
          [uni_relocation ctx sym (sec.length + (uni_head g).length) g.arglen] } := by
  have hh := assemble_uni_head ctx g sec hsec hwf
  simp only [ne_eq] at hh
  have hul := uni_head_length g
  unfold uni_arg at hsym
  unfold uni_rejects uni_arg at hok
  have hok1 : ¬ (gen_flag g GEN_FLAG_CHECK_LONG = true ∧
      ¬ (if gen_flag g GEN_FLAG_ARG_DST = true then arg_at args 0 else arg_at args 1).type
        = ARG_TYPE_LONGMEM) := fun h => hok (Or.inl h)
  have hok2 : ¬ (gen_flag g GEN_FLAG_CHECK_EXT = true ∧
      ¬ (if gen_flag g GEN_FLAG_ARG_DST = true then arg_at args 0 else arg_at args 1).type
        = ARG_TYPE_EXTMEM) := fun h => hok (Or.inr h)
  unfold _assemble_uni_row
  simp only [hlen, ne_eq, not_false_eq_true, if_true, hsym, hok1, hok2, if_false, hh]
  have hfind : section_find (ctx_relocations_add (ctx_append ctx sec (uni_head g)) sym
      g.arglen 0 RELOCATION_TYPE_ABOSULTE).sections
      (ctx_relocations_add (ctx_append ctx sec (uni_head g)) sym
      g.arglen 0 RELOCATION_TYPE_ABOSULTE).sect = some (push_bytes sec (uni_head g)) :=
    ctx_append_find ctx sec _ hsec
  rw [ctx_pushdata_eq _ _ g.arglen _ hfind
    (push_bytes_wf sec _ hwf.1) (by rw [push_bytes_length]; have := hwf.2; omega)
    (by rw [le_bytes_length]; omega), le_bytes_take _ _ _ (by omega), le_bytes_zero]
  have hlen2 : ctx_section_length (ctx_append ctx sec (uni_head g))
      = sec.length + (uni_head g).length := by
    have := ctx_append_find ctx sec (uni_head g) hsec
    unfold ctx_section_length
    rw [this]
    rfl
  simp only [ctx_relocations_add, relocations_add, hlen2]
  unfold ctx_append uni_relocation
  simp only [push_bytes_push_bytes]
  rw [section_update_twice ctx.sections ctx.sect (push_bytes sec (uni_head g))
    (push_bytes sec (uni_head g ++ List.replicate g.arglen 0))
    (section_find_name _ _ sec hsec)]

set_option maxRecDepth 1000000 in
theorem gen_functions_arglen :
    ∀ gf ∈ _gen_functions, ∀ g ∈ gf.geninfo, g.arglen ≤ 3 := by
  decide

set_option maxRecDepth 1000000 in
theorem gen_functions_lookup :
    ∀ gf ∈ _gen_functions, _gen_functions.find? (fun x => x.name = gf.name) = some gf := by
  decide

theorem assemble_in_find (gfs : List gen_functions_t) (ctx : asm_context_t) (name : CStr)
    (args : List arg_t) :
    _assemble_in gfs ctx name args =
      match gfs.find? (fun x => x.name = name) with
      | none => .error "Unknown instruction"
      | some gf =>
        match gen_func_call gf.func ctx args gf.geninfo with
        | .error _ => .error "Invalid arguments to instruction"
        | .ok ctx1 => .ok ctx1 := by
  induction gfs with
  | nil => rfl
  | cons a t ih =>
    unfold _assemble_in
    by_cases ha : a.name = name
    · simp [ha, List.find?_cons]
    · simp only [ne_eq, ha, not_false_eq_true, if_true, List.find?_cons, decide_False]
      exact ih

theorem assemble_of_uni (gf : gen_functions_t) (hgf : gf ∈ _gen_functions)
    (huni : gf.func = gen_func_t._assemble_uni) (ctx : asm_context_t) (args : List arg_t) :
    _assemble ctx gf.name args =
      match _assemble_uni ctx args gf.geninfo with
      | .error _ => .error "Invalid arguments to instruction"
      | .ok ctx1 => .ok ctx1 := by
  unfold _assemble
  rw [assemble_in_find, gen_functions_lookup gf hgf]
  simp only [huni, gen_func_call]

theorem uni_first_row_mem (args : List arg_t) (table : List gen_info_t) (g : gen_info_t)
    (h : uni_first_row args table = some g) : g ∈ table := by
  obtain ⟨_, _, pre, post, h3, _⟩ := uni_first_row_spec args table g h
  rw [h3]
  simp

/-- C7, counterexample. `jpf F` after `.extern F.w16`: the operand has kind LONGMEM,
the second row of the table of `jpf` is the first whose kinds match, yet nothing is
encoded: the row carries `GEN_FLAG_CHECK_EXT`, the operand is a symbol that is not of
kind EXTMEM, `_assemble_uni` returns -1 ("Symbol not extmem") and `_assemble` reports
"Invalid arguments to instruction". -/
theorem C7_matching_row_can_fail :
    uni_first_row c7_args _gen_info_jpf = _gen_info_jpf.get? 1
    ∧ (_gen_info_jpf.get? 1).map (fun g => gen_match c7_args g) = some true
    ∧ _assemble_uni assembler_init c7_args _gen_info_jpf = .error "Symbol not extmem"
    ∧ _assemble assembler_init (cstr "jpf") c7_args
        = .error "Invalid arguments to instruction" := by
  decide

/-- C7 (amended). For every mnemonic of `_gen_functions` encoded by `_assemble_uni`
and every argument list, with `sec` the current section: when no row before the end
marker has the four kinds of the arguments, `_assemble` fails; otherwise let `g` be
the first such row and `arg` argument 0 when `g` is flagged `ARG_DST`, argument 1
otherwise. When `g.arglen` is not 0, `arg` is a symbol and the `CHECK_LONG` or
`CHECK_EXT` flag of `g` rejects its kind, `_assemble` fails. In every other case
`_assemble` succeeds and the resulting context is the given one with, appended to
the current section in this order, the prebyte (when the row has one), the opcode
and `g.arglen` payload bytes: zeros for a symbol, and for a constant the `g.arglen`
low bytes of its value, most significant byte first. -/
theorem C7_universal_encoder_first_row (gf : gen_functions_t) (hgf : gf ∈ _gen_functions)
    (huni : gf.func = gen_func_t._assemble_uni) (ctx : asm_context_t) (args : List arg_t)
    (sec : section_t) (hsec : section_find ctx.sections ctx.sect = some sec)
    (hwf : section_wf sec) :
    (uni_first_row args gf.geninfo = none →
      _assemble ctx gf.name args = .error "Invalid arguments to instruction") ∧
    (∀ g, uni_first_row args gf.geninfo = some g →
      (g.arglen ≠ 0 ∧ (uni_arg args g).symbol.isSome ∧ uni_rejects g (uni_arg args g) →
        _assemble ctx gf.name args = .error "Invalid arguments to instruction") ∧
      (¬ (g.arglen ≠ 0 ∧ (uni_arg args g).symbol.isSome ∧ uni_rejects g (uni_arg args g)) →
        (uni_payload args g).length = g.arglen ∧
        ((uni_arg args g).symbol = none →
          uni_payload args g = be_bytes (u64 (uni_arg args g).value) g.arglen) ∧
        ∃ ctx1, _assemble ctx gf.name args = .ok ctx1 ∧
          ctx1.sections = (ctx_append ctx sec (uni_head g ++ uni_payload args g)).sections ∧
          ctx1.sect = ctx.sect ∧
          section_find ctx1.sections ctx.sect
            = some (push_bytes sec (uni_head g ++ uni_payload args g)))) := by
  have hA := assemble_of_uni gf hgf huni ctx args
  rw [assemble_uni_find] at hA
  refine ⟨?_, ?_⟩
  · intro hnone
    rw [hA, hnone]
  · intro g hg
    rw [hg] at hA
    simp only at hA
    have h3 : g.arglen ≤ 3 :=
      gen_functions_arglen gf hgf g (uni_first_row_mem args gf.geninfo g hg)
    refine ⟨?_, ?_⟩
    · rintro ⟨hlen, hsome, hrej⟩
      obtain ⟨sym, hsym⟩ := Option.isSome_iff_exists.1 hsome
      rcases assemble_uni_row_reject ctx args g sym hlen hsym hrej with h | h <;>
        rw [hA, h]
    · intro hnot
      have hpl : (uni_payload args g).length = g.arglen := by
        unfold uni_payload
        cases (uni_arg args g).symbol <;> simp [be_bytes, le_bytes_length]
      have hpc : (uni_arg args g).symbol = none →
          uni_payload args g = be_bytes (u64 (uni_arg args g).value) g.arglen := by
        intro hs
        unfold uni_payload
        rw [hs]
      refine ⟨hpl, hpc, ?_⟩
      by_cases hlen : g.arglen = 0
      · have hp0 : uni_payload args g = [] := List.length_eq_zero.1 (hpl.trans hlen)
        rw [hA, assemble_uni_row_nolen ctx args g sec hsec hwf hlen, hp0, List.append_nil]
        exact ⟨_, rfl, rfl, rfl, ctx_append_find ctx sec _ hsec⟩
      · cases hs : (uni_arg args g).symbol with
        | none =>
          rw [hA, assemble_uni_row_const ctx args g sec hsec hwf hlen h3 hs, hpc hs]
          exact ⟨_, rfl, rfl, rfl, ctx_append_find ctx sec _ hsec⟩
        | some sym =>
          have hok : ¬ uni_rejects g (uni_arg args g) :=
            fun hr => hnot ⟨hlen, by rw [hs]; rfl, hr⟩
          have hp : uni_payload args g = List.replicate g.arglen 0 := by
            unfold uni_payload
            rw [hs]
          rw [hA, assemble_uni_row_symbol ctx args g sec sym hsec hwf hlen h3 hs hok, hp]
          exact ⟨_, rfl, rfl, rfl, ctx_append_find ctx sec _ hsec⟩

set_option maxRecDepth 100000 in
/-- Witness of `C7_universal_encoder_first_row`: `adc A, $1234` at the start of
section "text" is encoded by the third row of the table of `adc` as C9 12 34. -/
theorem C7_universal_encoder_first_row_witness :
    ∃ ctx1, _assemble assembler_init (cstr "adc") c7w_args = .ok ctx1 ∧
      ctx1.sections
        = (ctx_append assembler_init c7w_text ([0xC9] ++ [0x12, 0x34])).sections ∧
      ctx1.sect = cstr "text" ∧
      section_find ctx1.sections (cstr "text")
        = some (push_bytes c7w_text ([0xC9] ++ [0x12, 0x34])) :=
  ((((C7_universal_encoder_first_row ⟨cstr "adc", gen_func_t._assemble_uni, _gen_info_adc⟩
      (by decide) rfl assembler_init c7w_args c7w_text (by decide)
      ⟨by decide, by decide⟩).2
    ⟨ARG_TYPE_A, ARG_TYPE_LONGMEM, ARG_TYPE_NONE, ARG_TYPE_NONE, PREBYTE_NONE, 0xC9, 2,
      GEN_FLAG_NONE⟩ (by decide)).2 (by decide)).2).2

/-- C8, counterexample. `call G` after `.extern G.w8`: the operand is an extern symbol
of kind SHORTMEM and the first row of the table of `call` matches, but the row
carries `GEN_FLAG_CHECK_LONG`: `_assemble_uni` returns -1 ("Symbol not longmem"), so
no payload is appended and no relocation is recorded. -/
theorem C8_symbol_operand_can_fail :
    uni_first_row c8_args _gen_info_call = _gen_info_call.get? 0
    ∧ ((uni_first_row c8_args _gen_info_call).map
        (fun g => ((uni_arg c8_args g).symbol, g.arglen))) = some (some c8_extern, 2)
    ∧ _assemble_uni assembler_init c8_args _gen_info_call = .error "Symbol not longmem" := by
  decide

/-- C8 (amended). For every mnemonic of `_gen_functions` encoded by `_assemble_uni`:
when the operand of the first matching row `g` (argument 0 for `ARG_DST`, else
argument 1) is a symbol and `g.arglen` is not 0, then `_assemble_uni` fails when the
`CHECK_LONG` or `CHECK_EXT` flag of `g` rejects the kind of the operand, and
otherwise succeeds with, appended to the current section, the prebyte (when the
row has one), the opcode and `g.arglen` zero bytes, and with exactly one more
relocation at the end of the list: absolute, of length `g.arglen`, no adjustment,
against that symbol, in the current section, at the offset that is the length of the
section after the prebyte and the opcode were appended. -/
theorem C8_symbol_operand_relocation (gf : gen_functions_t) (hgf : gf ∈ _gen_functions)
    (ctx : asm_context_t) (args : List arg_t) (g : gen_info_t) (sec : section_t)
    (sym : symbol_t) (hrow : uni_first_row args gf.geninfo = some g)
    (hsec : section_find ctx.sections ctx.sect = some sec) (hwf : section_wf sec)
    (hlen : g.arglen ≠ 0) (hsym : (uni_arg args g).symbol = some sym) :
    (uni_rejects g (uni_arg args g) →
      ∃ e, _assemble_uni ctx args gf.geninfo = .error e) ∧
    (¬ uni_rejects g (uni_arg args g) →
      ∃ ctx1, _assemble_uni ctx args gf.geninfo = .ok ctx1 ∧
        section_find ctx1.sections ctx.sect
          = some (push_bytes sec (uni_head g ++ List.replicate g.arglen 0)) ∧
        ctx1.sect = ctx.sect ∧
        ctx1.relocations = ctx.relocations ++
          [{ type := RELOCATION_TYPE_ABOSULTE, sect := ctx.sect, symbol := sym.name,
             offset := (push_bytes sec (uni_head g)).length, length := g.arglen,
             adjust := 0 }]) := by
  have h3 : g.arglen ≤ 3 :=
    gen_functions_arglen gf hgf g (uni_first_row_mem args gf.geninfo g hrow)
  rw [assemble_uni_find, hrow]
  simp only
  refine ⟨?_, ?_⟩
  · intro hrej
    rcases assemble_uni_row_reject ctx args g sym hlen hsym hrej with h | h <;>
      exact ⟨_, h⟩
  · intro hok
    rw [assemble_uni_row_symbol ctx args g sec sym hsec hwf hlen h3 hsym hok]
    exact ⟨_, rfl, ctx_append_find ctx sec _ hsec, rfl, rfl⟩

set_option maxRecDepth 100000 in
/-- Witness of `C8_symbol_operand_relocation`: `ld A, H` after `.extern H.w16` at the
start of section "text" gives C6 00 00 and one absolute relocation of length 2 at
offset 1 against H. -/
theorem C8_symbol_operand_relocation_witness :
    ∃ ctx1, _assemble_uni assembler_init c8w_args _gen_info_ld = .ok ctx1 ∧
      section_find ctx1.sections (cstr "text")
        = some (push_bytes c7w_text ([0xC6] ++ [0, 0])) ∧
      ctx1.sect = cstr "text" ∧
      ctx1.relocations = [] ++
        [{ type := RELOCATION_TYPE_ABOSULTE, sect := cstr "text", symbol := [72],
           offset := 1, length := 2, adjust := 0 }] :=
  (C8_symbol_operand_relocation ⟨cstr "ld", gen_func_t._assemble_uni, _gen_info_ld⟩
    (by decide) assembler_init c8w_args
    ⟨ARG_TYPE_A, ARG_TYPE_LONGMEM, ARG_TYPE_NONE, ARG_TYPE_NONE, PREBYTE_NONE, 0xC6, 2,
      GEN_FLAG_NONE⟩ c7w_text c8w_extern (by decide) (by decide) ⟨by decide, by decide⟩
    (by decide) (by decide)).2 (by decide)

/-! ## Labels -/

theorem lang_label_of_lexed (ctx : asm_context_t) (token t : token_t) (name attr : CStr)
    (hlex : label_lexed token name attr t)
    (hclash : ∀ s, symbol_find ctx.symbols name = some s →
      s.type = SYMBOL_TYPE_LABEL ∧ ctx.pass ≠ 0) :
    lang_label ctx token = lang_label_define ctx t name attr := by
  obtain ⟨t1, h1, h⟩ := hlex
  unfold lang_label
  rw [h1]
  simp only
  have hc : (match symbol_find ctx.symbols name with
      | some s => decide ((s.type = SYMBOL_TYPE_LABEL ∧ ctx.pass = 0) ∨
          s.type ≠ SYMBOL_TYPE_LABEL)
      | none => false) = false := by
    cases hs : symbol_find ctx.symbols name with
    | none => rfl
    | some s =>
      obtain ⟨a, b⟩ := hclash s hs
      simp [a, b]
  rw [hc]
  simp only [Bool.false_eq_true, if_false]
  rcases h with ⟨ha, t2, c, h2, h3⟩ | ⟨d, t2, t3, c, h2, h3, h4⟩
  · rw [h2]
    simp only
    rw [h3, ha]
  · rw [h2]
    simp only
    rw [h3]
    simp only
    rw [h4]

theorem lang_label_define_pass1 (ctx : asm_context_t) (t t4 : token_t) (name attr cm : CStr)
    (s : symbol_t) (hpass : ctx.pass ≠ 0)
    (hs : symbol_find ctx.symbols name = some s) (hty : s.type = SYMBOL_TYPE_LABEL)
    (hcm : token_get t TOKEN_TYPE_COMMENT TOKEN_NEXT = .ok (some cm, t4)) :
    lang_label_define ctx t name attr =
      match s.sect with
      | some _ => .error "Symbol already assigned to section"
      | none => .ok (0, ctx_with_symbol ctx name
          (symbol_placed s (ctx_section_length ctx) ctx.sect), t4) := by
  unfold lang_label_define
  simp only [hpass, if_false, hs, hty, ne_eq, not_true_eq_false, symbol_set_section]
  cases hsect : s.sect with
  | some n => simp
  | none =>
    simp only [lang_comment, hcm]
    simp [ctx_with_symbol, symbol_placed, hty]

theorem lang_label_define_again (ctx : asm_context_t) (t : token_t) (name attr n : CStr)
    (s : symbol_t) (hpass : ctx.pass ≠ 0)
    (hs : symbol_find ctx.symbols name = some s) (hty : s.type = SYMBOL_TYPE_LABEL)
    (hsect : s.sect = some n) :
    lang_label_define ctx t name attr = .error "Symbol already assigned to section" := by
  unfold lang_label_define
  simp only [hpass, if_false, hs, hty, ne_eq, not_true_eq_false, symbol_set_section, hsect]

theorem lang_label_pass0_exists (ctx : asm_context_t) (token t1 : token_t) (name : CStr)
    (s : symbol_t) (hpass : ctx.pass = 0) (hs : symbol_find ctx.symbols name = some s)
    (h1 : token_get token TOKEN_TYPE_SYMBOL TOKEN_CURRENT = .ok (some name, t1)) :
    lang_label ctx token = .error "Symbol already exists" := by
  unfold lang_label
  rw [h1]
  simp only [hs, hpass]
  by_cases hty : s.type = SYMBOL_TYPE_LABEL <;> simp [hty]

/-- C9. In a pass other than pass 0, `lang_label` on a label definition (the name,
an optional attribute, a colon, then a comment or the end of the line) whose
symbol is a label without a section sets the value of the label to the length of
the current section and its section to the current section, and changes nothing
else; a byte pushed to the current section next is stored at the offset that is
this value. A second definition of that name is fatal: "Symbol already assigned to
section" in the same pass, and in pass 0 "Symbol already exists" for every name
that is in the table. -/
theorem C9_label_definition (ctx : asm_context_t) (token t t4 : token_t)
    (name attr cm : CStr) (s : symbol_t) (sec : section_t)
    (hpass : ctx.pass ≠ 0) (hlex : label_lexed token name attr t)
    (hcm : token_get t TOKEN_TYPE_COMMENT TOKEN_NEXT = .ok (some cm, t4))
    (hs : symbol_find ctx.symbols name = some s) (hty : s.type = SYMBOL_TYPE_LABEL)
    (hfresh : s.sect = none)
    (hsec : section_find ctx.sections ctx.sect = some sec) (hwf : section_wf sec) :
    lang_label ctx token
      = .ok (0, ctx_with_symbol ctx name (symbol_placed s sec.length ctx.sect), t4) ∧
    symbol_find (ctx_with_symbol ctx name (symbol_placed s sec.length ctx.sect)).symbols name
      = some { s with val64 := sec.length, sect := some sec.name } ∧
    (sec.noload = 0 → ∀ b, ∃ sec1,
      section_find (ctx_pushdata (ctx_with_symbol ctx name
        (symbol_placed s sec.length ctx.sect)) [b] 1).sections ctx.sect = some sec1 ∧
      sec1.data = sec.data ++ [b] ∧ sec1.data.getD sec.length 0 = b) ∧
    (∀ token2 attr2 u, label_lexed token2 name attr2 u →
      lang_label (ctx_with_symbol ctx name (symbol_placed s sec.length ctx.sect)) token2
        = .error "Symbol already assigned to section") ∧
    (∀ ctx0 token2 u s0, ctx0.pass = 0 → symbol_find ctx0.symbols name = some s0 →
      token_get token2 TOKEN_TYPE_SYMBOL TOKEN_CURRENT = .ok (some name, u) →
      lang_label ctx0 token2 = .error "Symbol already exists") := by
  have hlen : ctx_section_length ctx = sec.length := by
    unfold ctx_section_length
    rw [hsec]
    rfl
  have hname : sec.name = ctx.sect := section_find_name _ _ sec hsec
  have hsname : s.name = name := symbol_find_name _ _ s hs
  have hfind : symbol_find
      (ctx_with_symbol ctx name (symbol_placed s sec.length ctx.sect)).symbols name
      = some (symbol_placed s sec.length ctx.sect) := by
    unfold ctx_with_symbol
    simp only
    rw [symbol_find_update ctx.symbols name name s (symbol_placed s sec.length ctx.sect) hs
      hsname]
    simp
  refine ⟨?_, ?_, ?_, ?_, ?_⟩
  · rw [lang_label_of_lexed ctx token t name attr hlex
        (fun s2 h2 => by rw [hs] at h2; cases h2; exact ⟨hty, hpass⟩),
      lang_label_define_pass1 ctx t t4 name attr cm s hpass hs hty hcm, hfresh, hlen]
  · rw [hfind, hname]
    rfl
  · intro hload b
    have hsec1 : section_find (ctx_with_symbol ctx name
        (symbol_placed s sec.length ctx.sect)).sections
        (ctx_with_symbol ctx name (symbol_placed s sec.length ctx.sect)).sect = some sec := hsec
    rw [ctx_pushdata_eq _ [b] 1 sec hsec1 hwf.1 (by have := hwf.2; omega) (by simp)]
    refine ⟨_, ctx_append_find _ sec _ hsec1, ?_, ?_⟩
    · simp [push_bytes, hload]
    · have hd := hwf.1 hload
      simp [push_bytes, hload, ← hd]
  · intro token2 attr2 u hlex2
    rw [lang_label_of_lexed _ token2 u name attr2 hlex2
        (fun s2 h2 => by
          rw [hfind] at h2
          cases h2
          exact ⟨hty, hpass⟩)]
    exact lang_label_define_again _ u name attr2 ctx.sect _ hpass hfind hty rfl
  · intro ctx0 token2 u s0 hp0 hs0 h1
    exact lang_label_pass0_exists ctx0 token2 u name s0 hp0 hs0 h1

/-- Witness of `C9_label_definition`: in pass 1, with one byte in section "text", the
line `L: ; entry` gives the label L the value 1 and the section "text"; a second
definition `L.w16:` is then fatal. -/
theorem C9_label_definition_witness :
    lang_label c9_ctx c9_token
      = .ok (0, ctx_with_symbol c9_ctx [76] (symbol_placed c9_label 1 (cstr "text")),
          { file := cstr " nop\n", current := cstr "; entry\n", next := [], rollback := 0 }) ∧
    lang_label (ctx_with_symbol c9_ctx [76] (symbol_placed c9_label 1 (cstr "text")))
      c9_token_again = .error "Symbol already assigned to section" :=
  ⟨(C9_label_definition c9_ctx c9_token
      { file := cstr " ; entry\n nop\n", current := [58], next := [], rollback := 0 }
      { file := cstr " nop\n", current := cstr "; entry\n", next := [], rollback := 0 }
      [76] [] (cstr "; entry\n") c9_label c9_text (by decide)
      ⟨{ file := cstr " ; entry\n nop\n", current := [76], next := [58], rollback := 0 },
        by decide, Or.inl ⟨rfl,
          { file := cstr " ; entry\n nop\n", current := [76], next := [58], rollback := 0 },
          [58], by decide, by decide⟩⟩
      (by decide) (by decide) rfl rfl (by decide) ⟨by decide, by decide⟩).1,
   (C9_label_definition c9_ctx c9_token
      { file := cstr " ; entry\n nop\n", current := [58], next := [], rollback := 0 }
      { file := cstr " nop\n", current := cstr "; entry\n", next := [], rollback := 0 }
      [76] [] (cstr "; entry\n") c9_label c9_text (by decide)
      ⟨{ file := cstr " ; entry\n nop\n", current := [76], next := [58], rollback := 0 },
        by decide, Or.inl ⟨rfl,
          { file := cstr " ; entry\n nop\n", current := [76], next := [58], rollback := 0 },
          [58], by decide, by decide⟩⟩
      (by decide) (by decide) rfl rfl (by decide) ⟨by decide, by decide⟩).2.2.2.1
      c9_token_again (cstr "w16")
      { file := [10], current := [58], next := [], rollback := 0 }
      ⟨{ file := cstr "w16:\n", current := [76], next := [46], rollback := 0 }, by decide,
        Or.inr ⟨[46], { file := cstr "w16:\n", current := [46], next := [], rollback := 0 },
          { file := [10], current := cstr "w16", next := [58], rollback := 0 }, [58],
          by decide, by decide, by decide⟩⟩⟩

/-! ## The two passes -/

/-- C10, evaluation at the failing input. The source `nop`, `.ifdef X`, `L:`,
`.endif` (X not defined): both passes of `assembler` end without error, the
section "text" holds the byte 9D, and the symbol table holds the label L without a
section: pass 0 reads `L:` as a label since it runs no directive, pass 1 skips the
line. `app_run` then stops in `l0_save` with "Symbol has not section attribute". -/
theorem C10_label_in_skipped_block :
    ((assembler 100 c10_app assembler_init (cstr "a.s")).bind
        (fun r => assembler 100 r.1 { r.2 with pass := r.2.pass + 1 } (cstr "a.s"))).map
      (fun r => r.2.symbols.map (fun s => (s.name, s.type, s.sect)))
      = .ok [(cstr "L", SYMBOL_TYPE_LABEL, none)]
    ∧ ((assembler 100 c10_app assembler_init (cstr "a.s")).bind
        (fun r => assembler 100 r.1 { r.2 with pass := r.2.pass + 1 } (cstr "a.s"))).map
      (fun r => r.2.sections.map (fun s => (s.name, s.data)))
      = .ok [(cstr "text", [0x9D])]
    ∧ app_run 100 c10_app assembler_init (cstr "a.s")
      = .error "Symbol has not section attribute" := by
  decide!

/-! ## The lexer on the bytes ahead -/

theorem token_scan_pos (type : token_type_t) (c : Nat) (s : List Nat) (st : token_scan_t)
    (r : Option token_scan_t) (m : Nat)
    (h : token_scan type (c :: s) st = .ok (r, m)) : 1 ≤ m := by
  unfold token_scan at h
  split at h
  · cases h
  · split at h
    · split at h
      · cases h
      · cases h; omega
    · split at h
      · split at h
        · cases h
        · cases h; omega
      · cases h; omega
      · cases h; omega
      · cases h

theorem token_pending_nil (a : token_t) (hr : a.rollback ≤ (a.current ++ a.next).length)
    (h : token_pending a = []) : a.rollback = 0 ∧ a.file = [] := by
  unfold token_pending at h
  rw [List.append_eq_nil] at h
  refine ⟨?_, h.2⟩
  have := congrArg List.length h.1
  simp only [List.length_drop, List.length_nil] at this
  omega

theorem token_getchar_replay (a : token_t) (c : Nat) (s : List Nat)
    (hr : a.rollback ≤ (a.current ++ a.next).length) (h0 : a.rollback ≠ 0)
    (h : token_pending a = c :: s) :
    token_getchar a = .ok (some c, { a with rollback := a.rollback - 1 }) ∧
    token_pending { a with rollback := a.rollback - 1 } = s := by
  unfold token_pending at h
  have hlt : (a.current ++ a.next).length - a.rollback < (a.current ++ a.next).length := by
    omega
  have hd : (a.current ++ a.next).drop ((a.current ++ a.next).length - a.rollback)
      = (a.current ++ a.next).getD ((a.current ++ a.next).length - a.rollback) 0 ::
        (a.current ++ a.next).drop ((a.current ++ a.next).length - a.rollback + 1) := by
    rw [List.getD_eq_getElem _ _ hlt]
    exact List.drop_eq_getElem_cons hlt
  rw [hd, List.cons_append] at h
  injection h with h1 h2
  constructor
  · unfold token_getchar
    simp only [h0, ne_eq, not_false_eq_true, if_true, h1]
  · unfold token_pending
    simp only
    have e : (a.current ++ a.next).length - (a.rollback - 1)
        = (a.current ++ a.next).length - a.rollback + 1 := by omega
    rw [e]
    exact h2

theorem token_getchar_file (a : token_t) (c : Nat) (s : List Nat)
    (h0 : a.rollback = 0) (h : token_pending a = c :: s)
    (hb : a.next.length + 1 + a.current.length ≤ TOKEN_TRACE_SIZE) :
    a.file = c :: s ∧
    token_getchar a = .ok (some c, { a with file := s, next := a.next ++ [c] }) ∧
    token_pending { a with file := s, next := a.next ++ [c] } = s := by
  unfold token_pending at h
  rw [h0] at h
  simp only [Nat.sub_zero, List.drop_length, List.nil_append] at h
  refine ⟨h, ?_, ?_⟩
  · unfold token_getchar
    simp only [h0, ne_eq, not_true_eq_false, if_false, h, List.length_append,
      List.length_singleton]
    have : ¬ (a.next.length + 1 + a.current.length > TOKEN_TRACE_SIZE) := by omega
    simp only [this, if_false]
  · unfold token_pending
    simp only [h0, Nat.sub_zero, List.drop_length, List.nil_append]

theorem token_taken_zero (a : token_t) : token_taken a 0 = a := by
  cases a
  simp [token_taken]

theorem token_taken_replay (a : token_t) (m : Nat) (h0 : a.rollback ≠ 0) :
    token_taken { a with rollback := a.rollback - 1 } m = token_taken a (m + 1) := by
  unfold token_taken
  simp only
  have e1 : m - (a.rollback - 1) = m + 1 - a.rollback := by omega
  have e2 : a.rollback - 1 - m = a.rollback - (m + 1) := by omega
  rw [e1, e2]

theorem token_taken_file (a : token_t) (c : Nat) (s : List Nat) (m : Nat)
    (h0 : a.rollback = 0) (hf : a.file = c :: s) :
    token_taken { a with file := s, next := a.next ++ [c] } m = token_taken a (m + 1) := by
  unfold token_taken
  simp [h0, hf]

theorem token_get_loop_scan (type : token_type_t) :
    ∀ (s : List Nat) (fuel : Nat) (a : token_t) (st : token_scan_t)
      (r : Option token_scan_t) (m : Nat),
      token_pending a = s → a.rollback ≤ (a.current ++ a.next).length →
      s.length < fuel →
      token_scan type s st = .ok (r, m) →
      a.current.length + a.next.length + (m - a.rollback) ≤ TOKEN_TRACE_SIZE →
      token_get_loop type fuel a st = .ok (r, token_taken a m) := by
  intro s
  induction s with
  | nil =>
    intro fuel a st r m hp hr hf hs hb
    obtain ⟨h0, hfile⟩ := token_pending_nil a hr hp
    cases fuel with
    | zero => simp at hf
    | succ f =>
      unfold token_scan at hs
      injection hs with hs
      injection hs with hs1 hs2
      subst hs2
      rw [token_taken_zero]
      unfold token_get_loop token_getchar
      simp only [h0, ne_eq, not_true_eq_false, if_false, hfile]
      by_cases he : type = TOKEN_TYPE_EOF
      · simp only [he, if_true] at hs1 ⊢
        rw [← hs1]
      · simp only [he, if_false] at hs1 ⊢
        rw [← hs1]
  | cons c s ih =>
    intro fuel a st r m hp hr hf hs hb
    have hm := token_scan_pos type c s st r m hs
    cases fuel with
    | zero => simp at hf
    | succ f =>
      have hf2 : s.length < f := by simpa using hf
      -- the byte read and the state after it
      have hg : ∃ a1, token_getchar a = .ok (some c, a1) ∧ token_pending a1 = s ∧
          a1.rollback ≤ (a1.current ++ a1.next).length ∧
          (∀ k, token_taken a1 k = token_taken a (k + 1)) ∧
          (∀ k, a.current.length + a.next.length + (k + 1 - a.rollback) ≤ TOKEN_TRACE_SIZE →
            a1.current.length + a1.next.length + (k - a1.rollback) ≤ TOKEN_TRACE_SIZE) := by
        by_cases h0 : a.rollback = 0
        · have hb1 : a.next.length + 1 + a.current.length ≤ TOKEN_TRACE_SIZE := by
            rw [h0] at hb; omega
          obtain ⟨hfile, h1, h2⟩ := token_getchar_file a c s h0 hp hb1
          refine ⟨_, h1, h2, ?_, fun k => token_taken_file a c s k h0 hfile, ?_⟩
          · simp [h0]
          · intro k hk
            simp only [List.length_append, List.length_singleton, h0] at hk ⊢
            omega
        · obtain ⟨h1, h2⟩ := token_getchar_replay a c s hr h0 hp
          refine ⟨_, h1, h2, ?_, fun k => token_taken_replay a k h0, ?_⟩
          · simp only; omega
          · intro k hk
            simp only at hk ⊢
            omega
      obtain ⟨a1, hg1, hg2, hg3, hg4, hg5⟩ := hg
      unfold token_get_loop
      rw [hg1]
      simp only
      unfold token_scan at hs
      by_cases hsz : st.name.length ≥ TOKEN_MAX_NAME_SIZE
      · rw [if_pos hsz] at hs
        cases hs
      · rw [if_neg hsz] at hs ⊢
        by_cases hbl : st.tlength = 0 ∧ (c = 32 ∨ c = 9 ∨ c = 13)
        · rw [if_pos hbl] at hs ⊢
          cases hrec : token_scan type s { st with drop := st.drop + 1 } with
          | error e => rw [hrec] at hs; cases hs
          | ok p =>
            obtain ⟨r1, m1⟩ := p
            rw [hrec] at hs
            injection hs with hs
            injection hs with hs1 hs2
            subst hs1 hs2
            rw [ih f a1 _ r1 m1 hg2 hg3 hf2 hrec (hg5 m1 hb), hg4]
        · rw [if_neg hbl] at hs ⊢
          cases hstep : token_step type c st with
          | next st1 =>
            rw [hstep] at hs
            simp only at hs ⊢
            cases hrec : token_scan type s st1 with
            | error e => rw [hrec] at hs; cases hs
            | ok p =>
              obtain ⟨r1, m1⟩ := p
              rw [hrec] at hs
              injection hs with hs
              injection hs with hs1 hs2
              subst hs1 hs2
              rw [ih f a1 _ r1 m1 hg2 hg3 hf2 hrec (hg5 m1 hb), hg4]
          | brk st1 =>
            rw [hstep] at hs
            injection hs with hs
            injection hs with hs1 hs2
            subst hs1 hs2
            simp only
            rw [← hg4 0, token_taken_zero]
          | ret_null =>
            rw [hstep] at hs
            injection hs with hs
            injection hs with hs1 hs2
            subst hs1 hs2
            simp only
            rw [← hg4 0, token_taken_zero]
          | fatal e =>
            rw [hstep] at hs
            cases hs

theorem token_scan_le (type : token_type_t) :
    ∀ (s : List Nat) (st : token_scan_t) (r : Option token_scan_t) (m : Nat),
      token_scan type s st = .ok (r, m) → m ≤ s.length := by
  intro s
  induction s with
  | nil =>
    intro st r m h
    unfold token_scan at h
    injection h with h
    injection h with h1 h2
    omega
  | cons c s ih =>
    intro st r m h
    unfold token_scan at h
    split at h
    · cases h
    · split at h
      · split at h
        · cases h
        · rename_i r1 m1 hrec
          injection h with h
          injection h with h1 h2
          have := ih _ _ _ hrec
          simp only [List.length_cons]
          omega
      · split at h
        · split at h
          · cases h
          · rename_i r1 m1 hrec
            injection h with h
            injection h with h1 h2
            have := ih _ _ _ hrec
            simp only [List.length_cons]
            omega
        · injection h with h
          injection h with h1 h2
          simp only [List.length_cons]
          omega
        · injection h with h
          injection h with h1 h2
          simp only [List.length_cons]
          omega
        · cases h

theorem token_get_next_loop (t : token_t) (type : token_type_t) (r : Option token_scan_t)
    (m : Nat) (hs : token_scan type (token_stream t) token_scan_init = .ok (r, m))
    (hb : t.current.length + max t.next.length m ≤ TOKEN_TRACE_SIZE) :
    token_get_loop type (t.next.length + t.file.length + 1)
      { t with rollback := t.next.length } token_scan_init
      = .ok (r, token_taken { t with rollback := t.next.length } m) := by
  apply token_get_loop_scan type (token_stream t)
  · unfold token_pending token_stream
    simp
  · simp
  · unfold token_stream
    simp
  · exact hs
  · simp only
    have := Nat.le_max_left t.next.length m
    have := Nat.le_max_right t.next.length m
    omega

theorem token_get_next_none (t : token_t) (type : token_type_t) (m : Nat)
    (hs : token_scan type (token_stream t) token_scan_init = .ok (none, m))
    (hb : t.current.length + max t.next.length m ≤ TOKEN_TRACE_SIZE) :
    ∃ t1, token_get t type TOKEN_NEXT = .ok (none, t1) ∧
      token_stream t1 = token_stream t ∧ t1.current = t.current ∧
      t1.next.length = max t.next.length m := by
  have hm := token_scan_le type _ _ _ _ hs
  have hl := token_get_next_loop t type none m hs hb
  refine ⟨token_taken { t with rollback := t.next.length } m, ?_, ?_, rfl, ?_⟩
  · unfold token_get
    have hn : ¬ (TOKEN_NEXT = TOKEN_CURRENT) := by decide
    simp only [hn, if_false]
    rw [hl]
  · unfold token_stream token_taken
    simp
  · unfold token_stream at hm
    unfold token_taken
    simp only [List.length_append, List.length_take] at hm ⊢
    omega

theorem token_get_next_some (t : token_t) (type : token_type_t) (st : token_scan_t) (m : Nat)
    (hs : token_scan type (token_stream t) token_scan_init = .ok (some st, m))
    (hb : t.current.length + max t.next.length m ≤ TOKEN_TRACE_SIZE)
    (hd : st.drop + st.tlength ≤ m) :
    ∃ t1, token_get t type TOKEN_NEXT = .ok (some (c_string st.name), t1) ∧
      token_stream t1 = (token_stream t).drop (st.drop + st.tlength) ∧
      t1.current = ((token_stream t).drop st.drop).take st.tlength ∧
      t1.next.length = max t.next.length m - (st.drop + st.tlength) := by
  have hm := token_scan_le type _ _ _ _ hs
  have hl := token_get_next_loop t type (some st) m hs hb
  have hw : (token_taken { t with rollback := t.next.length } m).next
      = (token_stream t).take (max t.next.length m) := by
    unfold token_taken token_stream
    simp only
    by_cases hc : m ≤ t.next.length
    · rw [Nat.max_eq_left hc, Nat.sub_eq_zero_of_le hc]
      simp
    · have hc2 : t.next.length ≤ m := by omega
      rw [Nat.max_eq_right hc2, List.take_append_eq_append_take,
        List.take_of_length_le hc2]
  have hwl : ((token_stream t).take (max t.next.length m)).length = max t.next.length m := by
    rw [List.length_take]
    unfold token_stream at hm ⊢
    simp only [List.length_append] at hm ⊢
    have := Nat.le_max_left t.next.length m
    omega
  have hfile : (token_taken { t with rollback := t.next.length } m).file
      = (token_stream t).drop (max t.next.length m) := by
    unfold token_taken token_stream
    simp only
    by_cases hc : m ≤ t.next.length
    · rw [Nat.max_eq_left hc, Nat.sub_eq_zero_of_le hc]
      simp
    · have hc2 : t.next.length ≤ m := by omega
      rw [Nat.max_eq_right hc2, List.drop_append_eq_append_drop,
        List.drop_of_length_le hc2]
      simp
  have hle : st.drop + st.tlength ≤ max t.next.length m := by
    have := Nat.le_max_right t.next.length m
    omega
  refine ⟨token_t.mk (token_taken { t with rollback := t.next.length } m).file
      ((((token_taken { t with rollback := t.next.length } m).next).drop
        st.drop).take st.tlength)
      (((token_taken { t with rollback := t.next.length } m).next).drop
        (st.drop + st.tlength))
      (token_taken { t with rollback := t.next.length } m).rollback,
    ?_, ?_, ?_, ?_⟩
  · unfold token_get
    have hn : ¬ (TOKEN_NEXT = TOKEN_CURRENT) := by decide
    simp only [hn, if_false]
    rw [hl]
    simp only
    rw [hw, hwl]
    have : ¬ (st.drop + st.tlength > max t.next.length m) := by omega
    simp only [this, if_false]
  · show ((token_taken { t with rollback := t.next.length } m).next).drop
      (st.drop + st.tlength) ++
      (token_taken { t with rollback := t.next.length } m).file = _
    rw [hfile, hw]
    conv_rhs => rw [← List.take_append_drop (max t.next.length m) (token_stream t)]
    rw [List.drop_append_of_le_length (by rw [hwl]; exact hle)]
  · show (((token_taken { t with rollback := t.next.length } m).next).drop
      st.drop).take st.tlength = _
    rw [hw, List.drop_take, List.take_take]
    congr 1
    omega
  · show (((token_taken { t with rollback := t.next.length } m).next).drop
      (st.drop + st.tlength)).length = _
    rw [hw, List.length_drop, hwl]

theorem token_scan_blanks (type : token_type_t) :
    ∀ (ws s : List Nat) (d : Nat), ws.all is_blank = true →
      token_scan type (ws ++ s) (token_scan_at d) =
        match token_scan type s (token_scan_at (d + ws.length)) with
        | .error e => .error e
        | .ok (r, m) => .ok (r, m + ws.length) := by
  intro ws
  induction ws with
  | nil =>
    intro s d _
    simp only [List.nil_append, List.length_nil, Nat.add_zero]
    cases token_scan type s (token_scan_at d) with
    | error e => rfl
    | ok p => rfl
  | cons c ws ih =>
    intro s d h
    simp only [List.all_cons, Bool.and_eq_true] at h
    have hc : c = 32 ∨ c = 9 ∨ c = 13 := by
      simpa [is_blank] using h.1
    rw [List.cons_append, token_scan]
    have h1 : ¬ ((token_scan_at d).name.length ≥ TOKEN_MAX_NAME_SIZE) := by
      simp [token_scan_at, token_scan_init, TOKEN_MAX_NAME_SIZE]
    have h2 : (token_scan_at d).tlength = 0 ∧ (c = 32 ∨ c = 9 ∨ c = 13) := ⟨rfl, hc⟩
    rw [if_neg h1, if_pos h2]
    have h3 : ({ token_scan_at d with drop := (token_scan_at d).drop + 1 } : token_scan_t)
        = token_scan_at (d + 1) := rfl
    rw [h3, ih s (d + 1) h.2]
    have e : d + 1 + ws.length = d + (c :: ws).length := by
      simp only [List.length_cons]; omega
    rw [e]
    cases token_scan type s (token_scan_at (d + (c :: ws).length)) with
    | error e => rfl
    | ok p =>
      obtain ⟨r, m⟩ := p
      simp only [List.length_cons]
      rfl

theorem token_scan_nil (type : token_type_t) (st : token_scan_t)
    (h : type ≠ TOKEN_TYPE_EOF) : token_scan type [] st = .ok (none, 0) := by
  unfold token_scan
  rw [if_neg h]

theorem token_cmp_not_blank (type : token_type_t) (c : Nat) (h : token_cmp type = some c) :
    ¬ (c = 32 ∨ c = 9 ∨ c = 13) := by
  cases type <;> simp [token_cmp] at h <;> subst h <;> decide

theorem token_step_single (type : token_type_t) (c ch : Nat) (st : token_scan_t)
    (h : token_cmp type = some c) :
    token_step type ch st = if ch ≠ c then .ret_null else .brk (token_push st ch) := by
  cases type <;> simp [token_cmp] at h <;> simp [token_step, token_cmp, h]

theorem token_scan_single_ok (type : token_type_t) (c : Nat) (rest : List Nat) (d : Nat)
    (h : token_cmp type = some c) :
    token_scan type (c :: rest) (token_scan_at d)
      = .ok (some (token_push (token_scan_at d) c), 1) := by
  have hb := token_cmp_not_blank type c h
  unfold token_scan
  have h1 : ¬ ((token_scan_at d).name.length ≥ TOKEN_MAX_NAME_SIZE) := by
    simp [token_scan_at, token_scan_init, TOKEN_MAX_NAME_SIZE]
  have h2 : ¬ ((token_scan_at d).tlength = 0 ∧ (c = 32 ∨ c = 9 ∨ c = 13)) := fun x => hb x.2
  rw [if_neg h1, if_neg h2, token_step_single type c c _ h]
  simp

theorem token_scan_single_fail (type : token_type_t) (c ch : Nat) (rest : List Nat) (d : Nat)
    (h : token_cmp type = some c) (hne : ch ≠ c) (hb : is_blank ch = false) :
    token_scan type (ch :: rest) (token_scan_at d) = .ok (none, 1) := by
  unfold token_scan
  have h1 : ¬ ((token_scan_at d).name.length ≥ TOKEN_MAX_NAME_SIZE) := by
    simp [token_scan_at, token_scan_init, TOKEN_MAX_NAME_SIZE]
  have h2 : ¬ ((token_scan_at d).tlength = 0 ∧ (ch = 32 ∨ ch = 9 ∨ ch = 13)) := by
    intro x
    simp [is_blank] at hb
    rcases x.2 with e | e | e <;> simp [e] at hb
  rw [if_neg h1, if_neg h2, token_step_single type c ch _ h]
  simp [hne]

theorem stream_split (s : List Nat) :
    ∃ ws body, s = ws ++ body ∧ ws.all is_blank = true ∧ ws.length = blank_run s ∧
      body.head? = stream_head s ∧ (∀ ch r, body = ch :: r → is_blank ch = false) := by
  refine ⟨s.takeWhile is_blank, s.dropWhile is_blank, (List.takeWhile_append_dropWhile _ _).symm,
    ?_, rfl, rfl, ?_⟩
  · rw [List.all_eq_true]
    intro x hx
    exact (List.mem_takeWhile_imp hx)
  · intro ch r h
    have := List.head_dropWhile_not is_blank s
    rw [h] at this
    simpa using this (by simp)

theorem stream_head_blanks (ws : List Nat) (c : Nat) (rest : List Nat)
    (hw : ws.all is_blank = true) (hc : is_blank c = false) :
    stream_head (ws ++ c :: rest) = some c ∧ blank_run (ws ++ c :: rest) = ws.length := by
  unfold stream_head blank_run
  induction ws with
  | nil => simp [List.dropWhile_cons, List.takeWhile_cons, hc]
  | cons a t ih =>
    simp only [List.all_cons, Bool.and_eq_true] at hw
    simp only [List.cons_append, List.dropWhile_cons, List.takeWhile_cons, hw.1, if_true,
      List.length_cons]
    have := ih hw.2
    exact ⟨this.1, by rw [this.2]⟩

theorem token_cmp_c_string (type : token_type_t) (c : Nat) (h : token_cmp type = some c) :
    c_string [c] = [c] ∧ is_blank c = false := by
  cases type <;> simp [token_cmp] at h <;> subst h <;> decide

/-- A one-character token that is there is taken, blanks before it included. -/
theorem tok_single_ok (t : token_t) (type : token_type_t) (c : Nat) (ws rest : List Nat)
    (hsm : token_small t) (hst : token_stream t = ws ++ c :: rest) (hw : blanks ws)
    (hc : token_cmp type = some c) :
    ∃ t1, token_get t type TOKEN_NEXT = .ok (some [c], t1) ∧ token_stream t1 = rest ∧
      token_small t1 := by
  have hscan : token_scan type (token_stream t) token_scan_init
      = .ok (some (token_push (token_scan_at ws.length) c), 1 + ws.length) := by
    rw [hst]
    have := token_scan_blanks type ws (c :: rest) 0 hw.1
    rw [show token_scan_at 0 = token_scan_init from rfl] at this
    rw [this, Nat.zero_add, token_scan_single_ok type c rest ws.length hc]
  have hb : t.current.length + max t.next.length (1 + ws.length) ≤ TOKEN_TRACE_SIZE := by
    have h1 := hsm.1
    have h2 := hsm.2
    have h3 := hw.2
    have : max t.next.length (1 + ws.length) ≤ 1002 := Nat.max_le.2 ⟨h2, by omega⟩
    unfold TOKEN_TRACE_SIZE
    omega
  obtain ⟨t1, h1, h2, h3, h4⟩ := token_get_next_some t type _ _ hscan hb
    (by simp [token_push, token_scan_at, token_scan_init]; omega)
  have hd : (token_push (token_scan_at ws.length) c).drop = ws.length := rfl
  have htl : (token_push (token_scan_at ws.length) c).tlength = 1 := rfl
  have hn : (token_push (token_scan_at ws.length) c).name = [c] := rfl
  rw [hd, htl] at h2 h3 h4
  rw [hn, (token_cmp_c_string type c hc).1] at h1
  refine ⟨t1, h1, ?_, ?_, ?_⟩
  · rw [h2, hst, List.drop_append_eq_append_drop]
    simp
  · rw [h3]
    simp only [List.length_take]
    omega
  · rw [h4]
    have := hsm.2
    have := hw.2
    have : max t.next.length (1 + ws.length) ≤ 1002 := Nat.max_le.2 ⟨hsm.2, by omega⟩
    omega

/-- A one-character token that is not there: nothing is taken. -/
theorem tok_single_fail (t : token_t) (type : token_type_t) (c : Nat)
    (hsm : token_small t) (hrun : blank_run (token_stream t) ≤ 500)
    (hc : token_cmp type = some c) (hne : stream_head (token_stream t) ≠ some c) :
    ∃ t1, token_get t type TOKEN_NEXT = .ok (none, t1) ∧
      token_stream t1 = token_stream t ∧ token_small t1 := by
  obtain ⟨ws, body, hs, hws, hlen, hhead, hnb⟩ := stream_split (token_stream t)
  have hty : type ≠ TOKEN_TYPE_EOF := by
    intro e
    rw [e] at hc
    simp [token_cmp] at hc
  have hscan : ∃ m, m ≤ 1 ∧ token_scan type (token_stream t) token_scan_init
      = .ok (none, m + ws.length) := by
    rw [hs]
    have := token_scan_blanks type ws body 0 hws
    rw [show token_scan_at 0 = token_scan_init from rfl] at this
    rw [this, Nat.zero_add]
    cases body with
    | nil =>
      refine ⟨0, by omega, ?_⟩
      rw [token_scan_nil type _ hty]
    | cons ch r =>
      refine ⟨1, by omega, ?_⟩
      have hch : ch ≠ c := by
        intro e
        apply hne
        rw [← hhead, e]
        rfl
      rw [token_scan_single_fail type c ch r _ hc hch (hnb ch r rfl)]
  obtain ⟨m, hm, hscan⟩ := hscan
  have hmax : max t.next.length (m + ws.length) ≤ 1002 :=
    Nat.max_le.2 ⟨hsm.2, by omega⟩
  have hb : t.current.length + max t.next.length (m + ws.length) ≤ TOKEN_TRACE_SIZE := by
    have h1 := hsm.1
    unfold TOKEN_TRACE_SIZE
    omega
  obtain ⟨t1, h1, h2, h3, h4⟩ := token_get_next_none t type _ hscan hb
  exact ⟨t1, h1, h2, by rw [token_small, h3, h4]; exact ⟨hsm.1, hmax⟩⟩

theorem token_scan_symbol_tail (rest : List Nat) (d0 : Nat) (hd0 : is_symbol_char d0 = false) :
    ∀ (cs : List Nat) (st : token_scan_t), cs.all is_symbol_char = true →
      st.tlength ≠ 0 → st.name.length + cs.length < TOKEN_MAX_NAME_SIZE →
      token_scan TOKEN_TYPE_SYMBOL (cs ++ d0 :: rest) st
        = .ok (some { st with name := st.name ++ cs, tlength := st.tlength + cs.length },
            cs.length + 1) := by
  intro cs
  induction cs with
  | nil =>
    intro st _ ht hn
    simp only [List.nil_append, List.length_nil, Nat.add_zero, List.append_nil]
    unfold token_scan
    have h1 : ¬ (st.name.length ≥ TOKEN_MAX_NAME_SIZE) := by
      simp only [List.length_nil, Nat.add_zero] at hn; omega
    have h2 : ¬ (st.tlength = 0 ∧ (d0 = 32 ∨ d0 = 9 ∨ d0 = 13)) := fun x => ht x.1
    rw [if_neg h1, if_neg h2]
    have hs : token_step TOKEN_TYPE_SYMBOL d0 st = .brk st := by
      simp only [is_symbol_char, Bool.or_eq_false_iff] at hd0
      simp [token_step, ht, hd0.1, hd0.2]
    rw [hs]
  | cons c cs ih =>
    intro st hall ht hn
    simp only [List.all_cons, Bool.and_eq_true] at hall
    simp only [List.length_cons] at hn
    rw [List.cons_append, token_scan]
    have h1 : ¬ (st.name.length ≥ TOKEN_MAX_NAME_SIZE) := by omega
    have h2 : ¬ (st.tlength = 0 ∧ (c = 32 ∨ c = 9 ∨ c = 13)) := fun x => ht x.1
    rw [if_neg h1, if_neg h2]
    have hs : token_step TOKEN_TYPE_SYMBOL c st = .next (token_push st c) := by
      have := hall.1
      simp only [is_symbol_char, Bool.or_eq_true] at this
      simp [token_step, ht, this]
    rw [hs]
    simp only
    rw [ih (token_push st c) hall.2 (by simp [token_push])
      (by simp only [token_push, List.length_append, List.length_singleton]; omega)]
    simp only [token_push, List.append_assoc, List.singleton_append, List.length_cons]
    have e1 : st.tlength + 1 + cs.length = st.tlength + (cs.length + 1) := by omega
    rw [e1]

theorem token_scan_symbol_ok (name rest : List Nat) (d0 d : Nat)
    (hn : symbol_text name = true) (hl : name.length < TOKEN_MAX_NAME_SIZE)
    (hd0 : is_symbol_char d0 = false) :
    token_scan TOKEN_TYPE_SYMBOL (name ++ d0 :: rest) (token_scan_at d)
      = .ok (some { token_scan_at d with name := name, tlength := name.length },
          name.length + 1) := by
  cases name with
  | nil => simp [symbol_text] at hn
  | cons c cs =>
    simp only [symbol_text, Bool.and_eq_true] at hn
    simp only [List.length_cons] at hl
    rw [List.cons_append, token_scan]
    have h1 : ¬ ((token_scan_at d).name.length ≥ TOKEN_MAX_NAME_SIZE) := by
      simp [token_scan_at, token_scan_init, TOKEN_MAX_NAME_SIZE]
    have hnb : ¬ (c = 32 ∨ c = 9 ∨ c = 13) := by
      intro x
      have := hn.1
      rcases x with e | e | e <;> simp [e, is_symbol_start] at this
    have h2 : ¬ ((token_scan_at d).tlength = 0 ∧ (c = 32 ∨ c = 9 ∨ c = 13)) :=
      fun x => hnb x.2
    rw [if_neg h1, if_neg h2]
    have hs : token_step TOKEN_TYPE_SYMBOL c (token_scan_at d)
        = .next (token_push (token_scan_at d) c) := by
      simp [token_step, token_scan_at, token_scan_init, hn.1]
    rw [hs]
    simp only
    rw [token_scan_symbol_tail rest d0 hd0 cs _ hn.2 (by simp [token_push])
      (by simp only [token_push, token_scan_at, token_scan_init, List.nil_append,
            List.length_singleton]; omega)]
    simp only [token_push, token_scan_at, token_scan_init, List.nil_append,
      List.singleton_append, List.length_cons]
    have e1 : 0 + 1 + cs.length = cs.length + 1 := by omega
    rw [e1]

theorem token_scan_symbol_fail (ch : Nat) (rest : List Nat) (d : Nat)
    (hb : is_blank ch = false) (hs : is_symbol_start ch = false) :
    token_scan TOKEN_TYPE_SYMBOL (ch :: rest) (token_scan_at d) = .ok (none, 1) := by
  unfold token_scan
  have h1 : ¬ ((token_scan_at d).name.length ≥ TOKEN_MAX_NAME_SIZE) := by
    simp [token_scan_at, token_scan_init, TOKEN_MAX_NAME_SIZE]
  have h2 : ¬ ((token_scan_at d).tlength = 0 ∧ (ch = 32 ∨ ch = 9 ∨ ch = 13)) := by
    intro x
    simp [is_blank] at hb
    rcases x.2 with e | e | e <;> simp [e] at hb
  rw [if_neg h1, if_neg h2]
  simp [token_step, token_scan_at, token_scan_init, hs]

theorem c_string_of_pos (name : List Nat) (h : ∀ c ∈ name, c ≠ 0) : c_string name = name := by
  unfold c_string
  rw [List.takeWhile_eq_self_iff]
  intro c hc
  simpa using h c hc

theorem symbol_text_pos (name : List Nat) (h : symbol_text name = true) :
    ∀ c ∈ name, c ≠ 0 := by
  cases name with
  | nil => simp [symbol_text] at h
  | cons a cs =>
    simp only [symbol_text, Bool.and_eq_true, List.all_eq_true] at h
    intro c hc
    rcases List.mem_cons.1 hc with e | e
    · subst e
      intro e0
      have := h.1
      simp [e0, is_symbol_start] at this
    · intro e0
      have := h.2 c e
      simp [e0, is_symbol_char, is_symbol_start, is_digit] at this

theorem number_digit_symbol_char (f : token_number_format_t) (c : Nat)
    (h : number_digit f c = true) : is_symbol_char c = true ∧ c ≠ 95 ∧ c ≠ 0 := by
  cases f <;>
    simp only [number_digit, decide_eq_true_eq, Bool.or_eq_true, Bool.and_eq_true,
      Bool.decide_or, Bool.decide_and] at h <;>
    simp only [is_symbol_char, is_symbol_start, is_digit, Bool.or_eq_true, decide_eq_true_eq,
      Bool.decide_or, Bool.decide_and, Bool.and_eq_true] <;>
    omega

theorem token_step_number_digit (c : Nat) (st : token_scan_t) (ht : st.tlength ≠ 0)
    (hc : number_digit st.number c = true) :
    token_step TOKEN_TYPE_NUMBER c st = .next (token_push st c) := by
  have h95 := (number_digit_symbol_char _ c hc).2.1
  simp only [token_step, token_step_number, ht, if_false, h95]
  cases hf : st.number <;> rw [hf] at hc <;>
    simp only [number_digit] at hc <;> simp only [hc, if_true]

theorem token_step_number_end (d0 : Nat) (st : token_scan_t) (ht : st.tlength ≠ 0)
    (hd0 : is_symbol_char d0 = false) :
    token_step TOKEN_TYPE_NUMBER d0 st = .brk st := by
  have h95 : d0 ≠ 95 := by
    intro e
    simp [e, is_symbol_char, is_symbol_start] at hd0
  have hnd : ∀ f, number_digit f d0 = false := by
    intro f
    cases hx : number_digit f d0 with
    | false => rfl
    | true =>
      have := (number_digit_symbol_char f d0 hx).1
      rw [hd0] at this
      cases this
  simp only [token_step, token_step_number, ht, if_false, h95]
  cases hf : st.number <;> have := hnd st.number <;> rw [hf] at this <;>
    simp only [number_digit] at this <;> simp only [this, Bool.false_eq_true, if_false]

theorem token_scan_number_tail (rest : List Nat) (d0 : Nat) (hd0 : is_symbol_char d0 = false) :
    ∀ (ds : List Nat) (st : token_scan_t), ds.all (number_digit st.number) = true →
      st.tlength ≠ 0 → st.name.length + ds.length < TOKEN_MAX_NAME_SIZE →
      token_scan TOKEN_TYPE_NUMBER (ds ++ d0 :: rest) st
        = .ok (some { st with name := st.name ++ ds, tlength := st.tlength + ds.length },
            ds.length + 1) := by
  intro ds
  induction ds with
  | nil =>
    intro st _ ht hn
    simp only [List.nil_append, List.length_nil, Nat.add_zero, List.append_nil]
    unfold token_scan
    have h1 : ¬ (st.name.length ≥ TOKEN_MAX_NAME_SIZE) := by
      simp only [List.length_nil, Nat.add_zero] at hn; omega
    have h2 : ¬ (st.tlength = 0 ∧ (d0 = 32 ∨ d0 = 9 ∨ d0 = 13)) := fun x => ht x.1
    rw [if_neg h1, if_neg h2, token_step_number_end d0 st ht hd0]
  | cons c ds ih =>
    intro st hall ht hn
    simp only [List.all_cons, Bool.and_eq_true] at hall
    simp only [List.length_cons] at hn
    rw [List.cons_append, token_scan]
    have h1 : ¬ (st.name.length ≥ TOKEN_MAX_NAME_SIZE) := by omega
    have h2 : ¬ (st.tlength = 0 ∧ (c = 32 ∨ c = 9 ∨ c = 13)) := fun x => ht x.1
    rw [if_neg h1, if_neg h2, token_step_number_digit c st ht hall.1]
    simp only
    rw [ih (token_push st c) hall.2 (by simp [token_push])
      (by simp only [token_push, List.length_append, List.length_singleton]; omega)]
    simp only [token_push, List.append_assoc, List.singleton_append, List.length_cons]
    have e1 : st.tlength + 1 + ds.length = st.tlength + (ds.length + 1) := by omega
    rw [e1]

theorem number_format_not_blank (p : Nat) (f : token_number_format_t)
    (h : number_format p = some f) : ¬ (p = 32 ∨ p = 9 ∨ p = 13) ∧ p ≠ 0 := by
  unfold number_format at h
  constructor
  · intro x
    rcases x with e | e | e <;> subst e <;> simp [is_digit] at h
  · intro e
    subst e
    simp [is_digit] at h

theorem token_step_number_first (p : Nat) (f : token_number_format_t) (d : Nat)
    (h : number_format p = some f) :
    token_step TOKEN_TYPE_NUMBER p (token_scan_at d)
      = .next (token_push { token_scan_at d with number := f } p) := by
  unfold number_format at h
  simp only [token_step, token_step_number, token_scan_at, token_scan_init, if_true]
  by_cases h1 : p = 36
  · simp only [h1, if_true] at h ⊢
    injection h with h
    rw [← h]
  · by_cases h2 : p = 37
    · simp only [h2, if_true] at h ⊢
      simp only [show ¬ (37 = 36) by decide, if_false] at h ⊢
      injection h with h
      rw [← h]
    · by_cases h3 : p = 64
      · simp only [h3, if_true] at h ⊢
        simp only [show ¬ (64 = 36) by decide, show ¬ (64 = 37) by decide, if_false] at h ⊢
        injection h with h
        rw [← h]
      · simp only [h1, h2, h3, if_false] at h ⊢
        by_cases h4 : is_digit p = true
        · simp only [h4, if_true] at h ⊢
          injection h with h
          rw [← h]
        · simp only [h4, if_false] at h
          cases h

theorem token_scan_number_ok (text rest : List Nat) (d0 d : Nat)
    (hn : number_text text = true) (hl : text.length < TOKEN_MAX_NAME_SIZE)
    (hd0 : is_symbol_char d0 = false) :
    ∃ f, token_scan TOKEN_TYPE_NUMBER (text ++ d0 :: rest) (token_scan_at d)
      = .ok (some { token_scan_at d with name := text, tlength := text.length, number := f },
          text.length + 1) := by
  cases text with
  | nil => simp [number_text] at hn
  | cons p ds =>
    simp only [number_text] at hn
    cases hf : number_format p with
    | none => rw [hf] at hn; cases hn
    | some f =>
      rw [hf] at hn
      simp only at hn
      refine ⟨f, ?_⟩
      simp only [List.length_cons] at hl
      rw [List.cons_append, token_scan]
      have h1 : ¬ ((token_scan_at d).name.length ≥ TOKEN_MAX_NAME_SIZE) := by
        simp [token_scan_at, token_scan_init, TOKEN_MAX_NAME_SIZE]
      have h2 : ¬ ((token_scan_at d).tlength = 0 ∧ (p = 32 ∨ p = 9 ∨ p = 13)) :=
        fun x => (number_format_not_blank p f hf).1 x.2
      rw [if_neg h1, if_neg h2, token_step_number_first p f d hf]
      simp only
      rw [token_scan_number_tail rest d0 hd0 ds _ (by simpa [token_push] using hn)
        (by simp [token_push])
        (by simp only [token_push, token_scan_at, token_scan_init, List.nil_append,
              List.length_singleton]; omega)]
      simp only [token_push, token_scan_at, token_scan_init, List.nil_append,
        List.singleton_append, List.length_cons]
      have e1 : 0 + 1 + ds.length = ds.length + 1 := by omega
      rw [e1]

theorem token_scan_number_fail (ch : Nat) (rest : List Nat) (d : Nat)
    (hb : is_blank ch = false) (hs : number_format ch = none) :
    token_scan TOKEN_TYPE_NUMBER (ch :: rest) (token_scan_at d) = .ok (none, 1) := by
  unfold token_scan
  have h1 : ¬ ((token_scan_at d).name.length ≥ TOKEN_MAX_NAME_SIZE) := by
    simp [token_scan_at, token_scan_init, TOKEN_MAX_NAME_SIZE]
  have h2 : ¬ ((token_scan_at d).tlength = 0 ∧ (ch = 32 ∨ ch = 9 ∨ ch = 13)) := by
    intro x
    simp [is_blank] at hb
    rcases x.2 with e | e | e <;> simp [e] at hb
  rw [if_neg h1, if_neg h2]
  unfold number_format at hs
  by_cases h36 : ch = 36
  · simp [h36] at hs
  · by_cases h37 : ch = 37
    · simp [h37] at hs
    · by_cases h64 : ch = 64
      · simp [h64] at hs
      · simp only [h36, h37, h64, if_false] at hs
        by_cases hd : is_digit ch = true
        · simp [hd] at hs
        · simp [token_step, token_step_number, token_scan_at, token_scan_init, h36, h37, h64,
            hd]

theorem number_text_pos (text : List Nat) (h : number_text text = true) :
    ∀ c ∈ text, c ≠ 0 := by
  cases text with
  | nil => simp [number_text] at h
  | cons p ds =>
    simp only [number_text] at h
    cases hf : number_format p with
    | none => rw [hf] at h; cases h
    | some f =>
      rw [hf] at h
      simp only [List.all_eq_true] at h
      intro c hc
      rcases List.mem_cons.1 hc with e | e
      · subst e
        exact (number_format_not_blank c f hf).2
      · exact (number_digit_symbol_char f c (h c e)).2.2

/-- A token that the scan finds after the blanks `ws` is taken by `token_get`. -/
theorem tok_some_gen (t : token_t) (type : token_type_t) (ws text rest : List Nat)
    (st : token_scan_t) (m : Nat)
    (hsm : token_small t) (hst : token_stream t = ws ++ (text ++ rest)) (hw : blanks ws)
    (hscan : token_scan type (text ++ rest) (token_scan_at ws.length) = .ok (some st, m))
    (hd : st.drop = ws.length) (hl : st.tlength = text.length) (hm : m ≤ text.length + 1)
    (hm2 : text.length ≤ m) (ht : text.length ≤ 500) :
    ∃ t1, token_get t type TOKEN_NEXT = .ok (some (c_string st.name), t1) ∧
      token_stream t1 = rest ∧ token_small t1 := by
  have hscan2 : token_scan type (token_stream t) token_scan_init
      = .ok (some st, m + ws.length) := by
    rw [hst]
    have := token_scan_blanks type ws (text ++ rest) 0 hw.1
    rw [show token_scan_at 0 = token_scan_init from rfl] at this
    rw [this, Nat.zero_add, hscan]
  have hmax : max t.next.length (m + ws.length) ≤ 1002 :=
    Nat.max_le.2 ⟨hsm.2, by have := hw.2; omega⟩
  have hb : t.current.length + max t.next.length (m + ws.length) ≤ TOKEN_TRACE_SIZE := by
    have h1 := hsm.1
    unfold TOKEN_TRACE_SIZE
    omega
  obtain ⟨t1, h1, h2, h3, h4⟩ := token_get_next_some t type _ _ hscan2 hb (by omega)
  rw [hd, hl] at h2 h3 h4
  refine ⟨t1, h1, ?_, ?_, ?_⟩
  · rw [h2, hst, ← List.append_assoc, List.drop_append_eq_append_drop]
    simp
  · rw [h3]
    simp only [List.length_take]
    omega
  · rw [h4]
    omega

/-- A token whose scan fails within two bytes after the blanks: nothing is taken. -/
theorem tok_none_gen (t : token_t) (type : token_type_t)
    (hsm : token_small t) (hrun : blank_run (token_stream t) ≤ 500)
    (hty : type ≠ TOKEN_TYPE_EOF)
    (hfail : ∀ ch r d, is_blank ch = false → stream_head (token_stream t) = some ch →
      ∃ m, m ≤ 2 ∧ token_scan type (ch :: r) (token_scan_at d) = .ok (none, m)) :
    ∃ t1, token_get t type TOKEN_NEXT = .ok (none, t1) ∧
      token_stream t1 = token_stream t ∧ token_small t1 := by
  obtain ⟨ws, body, hs, hws, hlen, hhead, hnb⟩ := stream_split (token_stream t)
  have hscan : ∃ m, m ≤ 2 ∧ token_scan type (token_stream t) token_scan_init
      = .ok (none, m + ws.length) := by
    have := token_scan_blanks type ws body 0 hws
    rw [show token_scan_at 0 = token_scan_init from rfl] at this
    cases body with
    | nil =>
      refine ⟨0, by omega, ?_⟩
      rw [hs, this, Nat.zero_add, token_scan_nil type _ hty]
      simp
    | cons ch r =>
      obtain ⟨m, hm, hsc⟩ := hfail ch r ws.length (hnb ch r rfl) (by rw [← hhead]; rfl)
      refine ⟨m, hm, ?_⟩
      rw [hs, this, Nat.zero_add, hsc]
  obtain ⟨m, hm, hscan⟩ := hscan
  have hmax : max t.next.length (m + ws.length) ≤ 1002 :=
    Nat.max_le.2 ⟨hsm.2, by omega⟩
  have hb : t.current.length + max t.next.length (m + ws.length) ≤ TOKEN_TRACE_SIZE := by
    have h1 := hsm.1
    unfold TOKEN_TRACE_SIZE
    omega
  obtain ⟨t1, h1, h2, h3, h4⟩ := token_get_next_none t type _ hscan hb
  exact ⟨t1, h1, h2, by rw [token_small, h3, h4]; exact ⟨hsm.1, hmax⟩⟩

/-- A symbol that is there is taken, up to the first byte that cannot continue it. -/
theorem tok_symbol_ok (t : token_t) (ws name rest : List Nat) (d0 : Nat)
    (hsm : token_small t) (hst : token_stream t = ws ++ (name ++ d0 :: rest)) (hw : blanks ws)
    (hn : symbol_text name = true) (hl : name.length ≤ 500)
    (hd0 : is_symbol_char d0 = false) :
    ∃ t1, token_get t TOKEN_TYPE_SYMBOL TOKEN_NEXT = .ok (some name, t1) ∧
      token_stream t1 = d0 :: rest ∧ token_small t1 := by
  have hscan := token_scan_symbol_ok name rest d0 ws.length hn
    (by unfold TOKEN_MAX_NAME_SIZE; omega) hd0
  obtain ⟨t1, h1, h2, h3⟩ := tok_some_gen t TOKEN_TYPE_SYMBOL ws name (d0 :: rest) _ _
    hsm hst hw hscan rfl rfl (by omega) (by omega) hl
  refine ⟨t1, ?_, h2, h3⟩
  rw [h1]
  simp only [c_string_of_pos name (symbol_text_pos name hn)]

/-- No symbol starts at the next byte: nothing is taken. -/
theorem tok_symbol_fail (t : token_t)
    (hsm : token_small t) (hrun : blank_run (token_stream t) ≤ 500)
    (hne : ∀ ch, stream_head (token_stream t) = some ch → is_symbol_start ch = false) :
    ∃ t1, token_get t TOKEN_TYPE_SYMBOL TOKEN_NEXT = .ok (none, t1) ∧
      token_stream t1 = token_stream t ∧ token_small t1 := by
  apply tok_none_gen t TOKEN_TYPE_SYMBOL hsm hrun (by decide)
  intro ch r d hb hh
  exact ⟨1, by omega, token_scan_symbol_fail ch r d hb (hne ch hh)⟩

/-- A number that is there is taken, up to the first byte that cannot continue it. -/
theorem tok_number_ok (t : token_t) (ws text rest : List Nat) (d0 : Nat)
    (hsm : token_small t) (hst : token_stream t = ws ++ (text ++ d0 :: rest)) (hw : blanks ws)
    (hn : number_text text = true) (hl : text.length ≤ 500)
    (hd0 : is_symbol_char d0 = false) :
    ∃ t1, token_get t TOKEN_TYPE_NUMBER TOKEN_NEXT = .ok (some text, t1) ∧
      token_stream t1 = d0 :: rest ∧ token_small t1 := by
  obtain ⟨f, hscan⟩ := token_scan_number_ok text rest d0 ws.length hn
    (by unfold TOKEN_MAX_NAME_SIZE; omega) hd0
  obtain ⟨t1, h1, h2, h3⟩ := tok_some_gen t TOKEN_TYPE_NUMBER ws text (d0 :: rest) _ _
    hsm hst hw hscan rfl rfl (by omega) (by omega) hl
  refine ⟨t1, ?_, h2, h3⟩
  rw [h1]
  simp only [c_string_of_pos text (number_text_pos text hn)]

/-- No number starts at the next byte: nothing is taken. -/
theorem tok_number_fail (t : token_t)
    (hsm : token_small t) (hrun : blank_run (token_stream t) ≤ 500)
    (hne : ∀ ch, stream_head (token_stream t) = some ch → number_format ch = none) :
    ∃ t1, token_get t TOKEN_TYPE_NUMBER TOKEN_NEXT = .ok (none, t1) ∧
      token_stream t1 = token_stream t ∧ token_small t1 := by
  apply tok_none_gen t TOKEN_TYPE_NUMBER hsm hrun (by decide)
  intro ch r d hb hh
  exact ⟨1, by omega, token_scan_number_fail ch r d hb (hne ch hh)⟩

theorem token_scan_shift_left_ok (rest : List Nat) (d : Nat) :
    token_scan TOKEN_TYPE_SHIFT_LEFT ([60, 60] ++ rest) (token_scan_at d)
      = .ok (some { token_scan_at d with name := [60, 60], tlength := 2 }, 2) := by
  simp [token_scan, token_step, token_scan_at, token_scan_init, token_push,
    TOKEN_MAX_NAME_SIZE]

theorem token_scan_shift_right_ok (rest : List Nat) (d : Nat) :
    token_scan TOKEN_TYPE_SHIFT_RIGHT ([62, 62] ++ rest) (token_scan_at d)
      = .ok (some { token_scan_at d with name := [62, 62], tlength := 2 }, 2) := by
  simp [token_scan, token_step, token_scan_at, token_scan_init, token_push,
    TOKEN_MAX_NAME_SIZE]

theorem token_scan_shift_left_fail (ch : Nat) (rest : List Nat) (d : Nat)
    (hb : is_blank ch = false) (hs : ch ≠ 60) :
    token_scan TOKEN_TYPE_SHIFT_LEFT (ch :: rest) (token_scan_at d) = .ok (none, 1) := by
  unfold token_scan
  have h1 : ¬ ((token_scan_at d).name.length ≥ TOKEN_MAX_NAME_SIZE) := by
    simp [token_scan_at, token_scan_init, TOKEN_MAX_NAME_SIZE]
  have h2 : ¬ ((token_scan_at d).tlength = 0 ∧ (ch = 32 ∨ ch = 9 ∨ ch = 13)) := by
    intro x
    simp [is_blank] at hb
    rcases x.2 with e | e | e <;> simp [e] at hb
  rw [if_neg h1, if_neg h2]
  simp [token_step, hs]

theorem token_scan_shift_right_fail (ch : Nat) (rest : List Nat) (d : Nat)
    (hb : is_blank ch = false) (hs : ch ≠ 62) :
    token_scan TOKEN_TYPE_SHIFT_RIGHT (ch :: rest) (token_scan_at d) = .ok (none, 1) := by
  unfold token_scan
  have h1 : ¬ ((token_scan_at d).name.length ≥ TOKEN_MAX_NAME_SIZE) := by
    simp [token_scan_at, token_scan_init, TOKEN_MAX_NAME_SIZE]
  have h2 : ¬ ((token_scan_at d).tlength = 0 ∧ (ch = 32 ∨ ch = 9 ∨ ch = 13)) := by
    intro x
    simp [is_blank] at hb
    rcases x.2 with e | e | e <;> simp [e] at hb
  rw [if_neg h1, if_neg h2]
  simp [token_step, hs]

/-- The token `<<` that is there is taken. -/
theorem tok_shift_left_ok (t : token_t) (ws rest : List Nat)
    (hsm : token_small t) (hst : token_stream t = ws ++ ([60, 60] ++ rest)) (hw : blanks ws) :
    ∃ t1, token_get t TOKEN_TYPE_SHIFT_LEFT TOKEN_NEXT = .ok (some [60, 60], t1) ∧
      token_stream t1 = rest ∧ token_small t1 := by
  obtain ⟨t1, h1, h2, h3⟩ := tok_some_gen t TOKEN_TYPE_SHIFT_LEFT ws [60, 60] rest _ _
    hsm hst hw (token_scan_shift_left_ok rest ws.length) rfl rfl (by simp) (by simp) (by simp)
  exact ⟨t1, h1, h2, h3⟩

/-- The token `>>` that is there is taken. -/
theorem tok_shift_right_ok (t : token_t) (ws rest : List Nat)
    (hsm : token_small t) (hst : token_stream t = ws ++ ([62, 62] ++ rest)) (hw : blanks ws) :
    ∃ t1, token_get t TOKEN_TYPE_SHIFT_RIGHT TOKEN_NEXT = .ok (some [62, 62], t1) ∧
      token_stream t1 = rest ∧ token_small t1 := by
  obtain ⟨t1, h1, h2, h3⟩ := tok_some_gen t TOKEN_TYPE_SHIFT_RIGHT ws [62, 62] rest _ _
    hsm hst hw (token_scan_shift_right_ok rest ws.length) rfl rfl (by simp) (by simp) (by simp)
  exact ⟨t1, h1, h2, h3⟩

/-- No `<` is the next byte: the token `<<` is not taken. -/
theorem tok_shift_left_fail (t : token_t)
    (hsm : token_small t) (hrun : blank_run (token_stream t) ≤ 500)
    (hne : stream_head (token_stream t) ≠ some 60) :
    ∃ t1, token_get t TOKEN_TYPE_SHIFT_LEFT TOKEN_NEXT = .ok (none, t1) ∧
      token_stream t1 = token_stream t ∧ token_small t1 := by
  apply tok_none_gen t TOKEN_TYPE_SHIFT_LEFT hsm hrun (by decide)
  intro ch r d hb hh
  exact ⟨1, by omega, token_scan_shift_left_fail ch r d hb
    (by intro e; apply hne; rw [hh, e])⟩

/-- No `>` is the next byte: the token `>>` is not taken. -/
theorem tok_shift_right_fail (t : token_t)
    (hsm : token_small t) (hrun : blank_run (token_stream t) ≤ 500)
    (hne : stream_head (token_stream t) ≠ some 62) :
    ∃ t1, token_get t TOKEN_TYPE_SHIFT_RIGHT TOKEN_NEXT = .ok (none, t1) ∧
      token_stream t1 = token_stream t ∧ token_small t1 := by
  apply tok_none_gen t TOKEN_TYPE_SHIFT_RIGHT hsm hrun (by decide)
  intro ch r d hb hh
  exact ⟨1, by omega, token_scan_shift_right_fail ch r d hb
    (by intro e; apply hne; rw [hh, e])⟩

theorem blanks_of_ok (ws : List Nat) (h : blanks_ok ws = true) : blanks ws := by
  simp only [blanks_ok, Bool.and_eq_true, decide_eq_true_eq] at h
  exact h

theorem expr_token_eq (s : expr_state_t) (type : token_type_t) (r : Option CStr) (t1 : token_t)
    (h : token_get s.token type TOKEN_NEXT = .ok (r, t1)) :
    expr_token s type = .ok (r, { s with token := t1 }) := by
  unfold expr_token
  rw [h]

theorem EvN_mono (F : Nat → expr_state_t → Run expr_state_t) (n m : Nat) (s r : expr_state_t)
    (h : EvN F n s r) (hnm : n ≤ m) : EvN F m s r :=
  fun f hf => h f (Nat.le_trans hnm hf)

theorem parses_mono (sl : symbols_t) (k c c2 : Nat) (t : token_t) (st : List Int) (v : Int)
    (rest : List Nat) (h : parses sl k c t st v rest) (hc : c ≤ c2) :
    parses sl k c2 t st v rest := by
  obtain ⟨u, h1, h2, h3⟩ := h
  exact ⟨u, h1, h2, fun n r hr => EvN_mono _ _ _ _ _ (h3 n r hr) (by omega)⟩

theorem stream_head_ne (s : List Nat) (c : Nat)
    (h : ∀ x, stream_head s = some x → x ≠ c) : stream_head s ≠ some c :=
  fun e => h c e rfl

/-- No operator of the level `k` follows: the function of that level returns with
nothing taken. -/
theorem expr_R_noop (sl : symbols_t) (k : Nat) (u : token_t) (hsm : token_small u)
    (hrun : blank_run (token_stream u) ≤ 500)
    (hne : ∀ c, stream_head (token_stream u) = some c → op_char k c = false) :
    ∃ u1, token_stream u1 = token_stream u ∧ token_small u1 ∧
      ∀ stk f, expr_R sl k (f + 1) { token := u, stack := stk }
        = .ok { token := u1, stack := stk } := by
  match k with
  | 0 =>
    have hn : stream_head (token_stream u) ≠ some 124 :=
      stream_head_ne _ _ (fun x hx e => by have := hne x hx; simp [op_char, e] at this)
    obtain ⟨u1, h1, h2, h3⟩ := tok_single_fail u TOKEN_TYPE_OR 124 hsm hrun rfl hn
    refine ⟨u1, h2, h3, ?_⟩
    intro stk f
    show _exprr sl (f + 1) _ = _
    rw [_exprr, expr_token_eq _ _ _ _ h1]
    rfl
  | 1 =>
    have hn : stream_head (token_stream u) ≠ some 94 :=
      stream_head_ne _ _ (fun x hx e => by have := hne x hx; simp [op_char, e] at this)
    obtain ⟨u1, h1, h2, h3⟩ := tok_single_fail u TOKEN_TYPE_XOR 94 hsm hrun rfl hn
    refine ⟨u1, h2, h3, ?_⟩
    intro stk f
    show _or_opdr sl (f + 1) _ = _
    rw [_or_opdr, expr_token_eq _ _ _ _ h1]
    rfl
  | 2 =>
    have hn : stream_head (token_stream u) ≠ some 38 :=
      stream_head_ne _ _ (fun x hx e => by have := hne x hx; simp [op_char, e] at this)
    obtain ⟨u1, h1, h2, h3⟩ := tok_single_fail u TOKEN_TYPE_AND 38 hsm hrun rfl hn
    refine ⟨u1, h2, h3, ?_⟩
    intro stk f
    show _xor_opdr sl (f + 1) _ = _
    rw [_xor_opdr, expr_token_eq _ _ _ _ h1]
    rfl
  | 3 =>
    have hn1 : stream_head (token_stream u) ≠ some 60 :=
      stream_head_ne _ _ (fun x hx e => by have := hne x hx; simp [op_char, e] at this)
    have hn2 : stream_head (token_stream u) ≠ some 62 :=
      stream_head_ne _ _ (fun x hx e => by have := hne x hx; simp [op_char, e] at this)
    obtain ⟨u1, h1, h2, h3⟩ := tok_shift_left_fail u hsm hrun hn1
    obtain ⟨u2, k1, k2, k3⟩ := tok_shift_right_fail u1 h3 (by rw [h2]; exact hrun)
      (by rw [h2]; exact hn2)
    refine ⟨u2, by rw [k2, h2], k3, ?_⟩
    intro stk f
    show _and_opdr sl (f + 1) _ = _
    rw [_and_opdr, expr_token_eq _ _ _ _ h1]
    simp only [Except.bind, bind, pure, Except.pure]
    rw [expr_token_eq _ _ _ _ k1]
  | 4 =>
    have hn1 : stream_head (token_stream u) ≠ some 43 :=
      stream_head_ne _ _ (fun x hx e => by have := hne x hx; simp [op_char, e] at this)
    have hn2 : stream_head (token_stream u) ≠ some 45 :=
      stream_head_ne _ _ (fun x hx e => by have := hne x hx; simp [op_char, e] at this)
    obtain ⟨u1, h1, h2, h3⟩ := tok_single_fail u TOKEN_TYPE_PLUS 43 hsm hrun rfl hn1
    obtain ⟨u2, k1, k2, k3⟩ := tok_single_fail u1 TOKEN_TYPE_MINUS 45 h3
      (by rw [h2]; exact hrun) rfl (by rw [h2]; exact hn2)
    refine ⟨u2, by rw [k2, h2], k3, ?_⟩
    intro stk f
    show _shift_opdr sl (f + 1) _ = _
    rw [_shift_opdr, expr_token_eq _ _ _ _ h1]
    simp only [Except.bind, bind, pure, Except.pure]
    rw [expr_token_eq _ _ _ _ k1]
  | 5 =>
    have hn1 : stream_head (token_stream u) ≠ some 42 :=
      stream_head_ne _ _ (fun x hx e => by have := hne x hx; simp [op_char, e] at this)
    have hn2 : stream_head (token_stream u) ≠ some 47 :=
      stream_head_ne _ _ (fun x hx e => by have := hne x hx; simp [op_char, e] at this)
    have hn3 : stream_head (token_stream u) ≠ some 37 :=
      stream_head_ne _ _ (fun x hx e => by have := hne x hx; simp [op_char, e] at this)
    obtain ⟨u1, h1, h2, h3⟩ := tok_single_fail u TOKEN_TYPE_MUL 42 hsm hrun rfl hn1
    obtain ⟨u2, k1, k2, k3⟩ := tok_single_fail u1 TOKEN_TYPE_DIV 47 h3
      (by rw [h2]; exact hrun) rfl (by rw [h2]; exact hn2)
    obtain ⟨u3, l1, l2, l3⟩ := tok_single_fail u2 TOKEN_TYPE_MOD 37 k3
      (by rw [k2, h2]; exact hrun) rfl (by rw [k2, h2]; exact hn3)
    refine ⟨u3, by rw [l2, k2, h2], l3, ?_⟩
    intro stk f
    show _add_opdr sl (f + 1) _ = _
    rw [_add_opdr, expr_token_eq _ _ _ _ h1]
    simp only [Except.bind, bind, pure, Except.pure]
    rw [expr_token_eq _ _ _ _ k1]
    simp only
    rw [expr_token_eq _ _ _ _ l1]
  | n + 6 =>
    exact ⟨u, rfl, hsm, fun stk f => rfl⟩

theorem stream_op_head (u : token_t) (ws : List Nat) (c : Nat) (rest : List Nat)
    (hst : token_stream u = ws ++ c :: rest) (hw : blanks ws) (hc : is_blank c = false) :
    blank_run (token_stream u) ≤ 500 ∧ ∀ x, x ≠ c → stream_head (token_stream u) ≠ some x := by
  have := stream_head_blanks ws c rest hw.1 hc
  rw [hst, this.1, this.2]
  exact ⟨hw.2, fun x hx e => hx (Option.some.inj e).symm⟩

/-- An operator follows: the function of its level reads the right operand one
level tighter, applies the operator and goes on. -/
theorem expr_R_op (sl : symbols_t) (op : expr_op_t) (u : token_t) (ws s2 : List Nat)
    (hsm : token_small u) (hst : token_stream u = ws ++ (op_text op ++ s2)) (hw : blanks ws) :
    ∃ u2, token_stream u2 = s2 ∧ token_small u2 ∧
      ∀ stk f, expr_R sl (op_level op) (f + 1) { token := u, stack := stk }
        = (do
            let s3 ← expr_F sl (op_level op + 1) f { token := u2, stack := stk }
            let s4 ← expr_binary s3 op
            expr_R sl (op_level op) f s4) := by
  cases op with
  | OP_OR =>
    obtain ⟨u1, h1, h2, h3⟩ := tok_single_ok u TOKEN_TYPE_OR 124 ws s2 hsm hst hw rfl
    refine ⟨u1, h2, h3, ?_⟩
    intro stk f
    show _exprr sl (f + 1) _ = _
    rw [_exprr, expr_token_eq _ _ _ _ h1]
    rfl
  | OP_XOR =>
    obtain ⟨u1, h1, h2, h3⟩ := tok_single_ok u TOKEN_TYPE_XOR 94 ws s2 hsm hst hw rfl
    refine ⟨u1, h2, h3, ?_⟩
    intro stk f
    show _or_opdr sl (f + 1) _ = _
    rw [_or_opdr, expr_token_eq _ _ _ _ h1]
    rfl
  | OP_AND =>
    obtain ⟨u1, h1, h2, h3⟩ := tok_single_ok u TOKEN_TYPE_AND 38 ws s2 hsm hst hw rfl
    refine ⟨u1, h2, h3, ?_⟩
    intro stk f
    show _xor_opdr sl (f + 1) _ = _
    rw [_xor_opdr, expr_token_eq _ _ _ _ h1]
    rfl
  | OP_SHIFT_LEFT =>
    obtain ⟨u1, h1, h2, h3⟩ := tok_shift_left_ok u ws s2 hsm hst hw
    refine ⟨u1, h2, h3, ?_⟩
    intro stk f
    show _and_opdr sl (f + 1) _ = _
    rw [_and_opdr, expr_token_eq _ _ _ _ h1]
    rfl
  | OP_SHIFT_RIGHT =>
    have hh := stream_op_head u ws 62 (62 :: s2) hst hw (by decide)
    obtain ⟨u0, g1, g2, g3⟩ := tok_shift_left_fail u hsm hh.1 (hh.2 60 (by decide))
    obtain ⟨u1, h1, h2, h3⟩ := tok_shift_right_ok u0 ws s2 g3 (by rw [g2]; exact hst) hw
    refine ⟨u1, h2, h3, ?_⟩
    intro stk f
    show _and_opdr sl (f + 1) _ = _
    rw [_and_opdr, expr_token_eq _ _ _ _ g1]
    simp only [Except.bind, bind, pure, Except.pure]
    rw [expr_token_eq _ _ _ _ h1]
    rfl
  | OP_ADD =>
    obtain ⟨u1, h1, h2, h3⟩ := tok_single_ok u TOKEN_TYPE_PLUS 43 ws s2 hsm hst hw rfl
    refine ⟨u1, h2, h3, ?_⟩
    intro stk f
    show _shift_opdr sl (f + 1) _ = _
    rw [_shift_opdr, expr_token_eq _ _ _ _ h1]
    rfl
  | OP_SUBSTRUCT =>
    have hh := stream_op_head u ws 45 s2 hst hw (by decide)
    obtain ⟨u0, g1, g2, g3⟩ := tok_single_fail u TOKEN_TYPE_PLUS 43 hsm hh.1 rfl
      (hh.2 43 (by decide))
    obtain ⟨u1, h1, h2, h3⟩ := tok_single_ok u0 TOKEN_TYPE_MINUS 45 ws s2 g3
      (by rw [g2]; exact hst) hw rfl
    refine ⟨u1, h2, h3, ?_⟩
    intro stk f
    show _shift_opdr sl (f + 1) _ = _
    rw [_shift_opdr, expr_token_eq _ _ _ _ g1]
    simp only [Except.bind, bind, pure, Except.pure]
    rw [expr_token_eq _ _ _ _ h1]
    rfl
  | OP_MUL =>
    obtain ⟨u1, h1, h2, h3⟩ := tok_single_ok u TOKEN_TYPE_MUL 42 ws s2 hsm hst hw rfl
    refine ⟨u1, h2, h3, ?_⟩
    intro stk f
    show _add_opdr sl (f + 1) _ = _
    rw [_add_opdr, expr_token_eq _ _ _ _ h1]
    rfl
  | OP_DIV =>
    have hh := stream_op_head u ws 47 s2 hst hw (by decide)
    obtain ⟨u0, g1, g2, g3⟩ := tok_single_fail u TOKEN_TYPE_MUL 42 hsm hh.1 rfl
      (hh.2 42 (by decide))
    obtain ⟨u1, h1, h2, h3⟩ := tok_single_ok u0 TOKEN_TYPE_DIV 47 ws s2 g3
      (by rw [g2]; exact hst) hw rfl
    refine ⟨u1, h2, h3, ?_⟩
    intro stk f
    show _add_opdr sl (f + 1) _ = _
    rw [_add_opdr, expr_token_eq _ _ _ _ g1]
    simp only [Except.bind, bind, pure, Except.pure]
    rw [expr_token_eq _ _ _ _ h1]
    rfl
  | OP_MOD =>
    have hh := stream_op_head u ws 37 s2 hst hw (by decide)
    obtain ⟨u0, g1, g2, g3⟩ := tok_single_fail u TOKEN_TYPE_MUL 42 hsm hh.1 rfl
      (hh.2 42 (by decide))
    obtain ⟨u00, e1, e2, e3⟩ := tok_single_fail u0 TOKEN_TYPE_DIV 47 g3
      (by rw [g2]; exact hh.1) rfl (by rw [g2]; exact hh.2 47 (by decide))
    obtain ⟨u1, h1, h2, h3⟩ := tok_single_ok u00 TOKEN_TYPE_MOD 37 ws s2 e3
      (by rw [e2, g2]; exact hst) hw rfl
    refine ⟨u1, h2, h3, ?_⟩
    intro stk f
    show _add_opdr sl (f + 1) _ = _
    rw [_add_opdr, expr_token_eq _ _ _ _ g1]
    simp only [Except.bind, bind, pure, Except.pure]
    rw [expr_token_eq _ _ _ _ e1]
    simp only
    rw [expr_token_eq _ _ _ _ h1]
    rfl

theorem expr_F_step (sl : symbols_t) (k : Nat) (hk : k ≤ 5) (f : Nat) (s : expr_state_t) :
    expr_F sl k (f + 1) s = (do
      let s1 ← expr_F sl (k + 1) f s
      expr_R sl k f s1) := by
  match k, hk with
  | 0, _ => show _expr sl (f + 1) s = _; rw [_expr]; rfl
  | 1, _ => show _or_opd sl (f + 1) s = _; rw [_or_opd]; rfl
  | 2, _ => show _xor_opd sl (f + 1) s = _; rw [_xor_opd]; rfl
  | 3, _ => show _and_opd sl (f + 1) s = _; rw [_and_opd]; rfl
  | 4, _ => show _shift_opd sl (f + 1) s = _; rw [_shift_opd]; rfl
  | 5, _ => show _add_opd sl (f + 1) s = _; rw [_add_opd]; rfl

/-- An operand read at the level `k + 1` is an operand of the level `k` when no
operator of the level `k + 1` follows it. -/
theorem parses_lift (sl : symbols_t) (k c : Nat) (t : token_t) (st : List Int) (v : Int)
    (rest : List Nat) (hk : k ≤ 5) (h : parses sl (k + 1) c t st v rest)
    (hrun : blank_run rest ≤ 500)
    (hne : ∀ x, stream_head rest = some x → op_char (k + 1) x = false) :
    parses sl k (c + 2) t st v rest := by
  obtain ⟨u, hu1, hu2, hu3⟩ := h
  obtain ⟨u1, h1, h2, h3⟩ := expr_R_noop sl (k + 1) u hu2 (by rw [hu1]; exact hrun)
    (by rw [hu1]; exact hne)
  have hR : EvN (expr_R sl (k + 1)) 1 { token := u, stack := st ++ [v] }
      { token := u1, stack := st ++ [v] } := by
    intro f hf
    obtain ⟨g, rfl⟩ : ∃ g, f = g + 1 := ⟨f - 1, by omega⟩
    exact h3 _ g
  have hF := hu3 1 _ hR
  refine ⟨u1, by rw [h1, hu1], h2, ?_⟩
  intro n r hr f hf
  obtain ⟨g, rfl⟩ : ∃ g, f = g + 1 := ⟨f - 1, by omega⟩
  rw [expr_F_step sl k hk, hF g (by omega)]
  exact hr g (by omega)

/-- The same over several levels. -/
theorem parses_lift_many (sl : symbols_t) (t : token_t) (st : List Int) (v : Int)
    (rest : List Nat) (hrun : blank_run rest ≤ 500) :
    ∀ (d k c : Nat), k + d ≤ 6 → parses sl (k + d) c t st v rest →
      (∀ x, stream_head rest = some x → ∀ j, k < j → op_char j x = false) →
      parses sl k (c + 2 * d) t st v rest := by
  intro d
  induction d with
  | zero => intro k c _ h _; exact h
  | succ d ih =>
    intro k c hk h hne
    have h1 : parses sl (k + 1 + d) c t st v rest := by
      rw [show k + 1 + d = k + (d + 1) by omega]; exact h
    have h2 := ih (k + 1) c (by omega) h1 (fun x hx j hj => hne x hx j (by omega))
    have h3 := parses_lift sl k _ t st v rest (by omega) h2 hrun
      (fun x hx => hne x hx (k + 1) (by omega))
    exact parses_mono sl k _ _ t st v rest h3 (by omega)

/-- No `~` is next: `_mul_opd` goes on with `_not_opd`. -/
theorem mul_opd_plain (sl : symbols_t) (t : token_t) (hsm : token_small t)
    (hrun : blank_run (token_stream t) ≤ 500)
    (hne : stream_head (token_stream t) ≠ some 126) :
    ∃ t1, token_stream t1 = token_stream t ∧ token_small t1 ∧
      ∀ stk f, _mul_opd sl (f + 1) { token := t, stack := stk }
        = _not_opd sl f { token := t1, stack := stk } := by
  obtain ⟨t1, h1, h2, h3⟩ := tok_single_fail t TOKEN_TYPE_NEGATE 126 hsm hrun rfl hne
  refine ⟨t1, h2, h3, ?_⟩
  intro stk f
  rw [_mul_opd, expr_token_eq _ _ _ _ h1]
  rfl

/-- A `~` is next: `_mul_opd` complements the operand that `_not_opd` reads. -/
theorem mul_opd_negate (sl : symbols_t) (t : token_t) (ws s1 : List Nat)
    (hsm : token_small t) (hst : token_stream t = ws ++ 126 :: s1) (hw : blanks ws) :
    ∃ t1, token_stream t1 = s1 ∧ token_small t1 ∧
      ∀ stk f, _mul_opd sl (f + 1) { token := t, stack := stk }
        = (do
            let s2 ← _not_opd sl f { token := t1, stack := stk }
            let (operand, s3) ← _exprstack_pop s2
            _exprstack_push s3 (-operand - 1)) := by
  obtain ⟨t1, h1, h2, h3⟩ := tok_single_ok t TOKEN_TYPE_NEGATE 126 ws s1 hsm hst hw rfl
  refine ⟨t1, h2, h3, ?_⟩
  intro stk f
  rw [_mul_opd, expr_token_eq _ _ _ _ h1]
  rfl

theorem exprstack_push_ok (u : token_t) (st : List Int) (v : Int)
    (h : st.length ≤ EXPR_STACK_SIZE) :
    _exprstack_push { token := u, stack := st } v = .ok { token := u, stack := st ++ [v] } := by
  unfold _exprstack_push
  have : ¬ (st.length > EXPR_STACK_SIZE) := by omega
  simp only [this, if_false]

theorem exprstack_pop_ok (u : token_t) (st : List Int) (v : Int) :
    _exprstack_pop { token := u, stack := st ++ [v] }
      = .ok (v, { token := u, stack := st }) := by
  unfold _exprstack_pop
  simp

theorem expr_binary_ok (u : token_t) (st : List Int) (a b v : Int) (op : expr_op_t)
    (h : st.length ≤ EXPR_STACK_SIZE) (hv : expr_apply op a b = .ok v) :
    expr_binary { token := u, stack := st ++ [a] ++ [b] } op
      = .ok { token := u, stack := st ++ [v] } := by
  unfold expr_binary
  rw [exprstack_pop_ok u (st ++ [a]) b]
  simp only [Except.bind, bind]
  rw [exprstack_pop_ok u st a]
  simp only [hv]
  exact exprstack_push_ok u st v h

/-- A numeric literal is next: `_not_opd` pushes its value. -/
theorem not_opd_num (sl : symbols_t) (t : token_t) (ws text rest : List Nat) (d0 : Nat)
    (st : List Int) (v : Int)
    (hsm : token_small t) (hst : token_stream t = ws ++ (text ++ d0 :: rest)) (hw : blanks ws)
    (hn : number_text text = true) (hl : text.length ≤ 500)
    (hd0 : is_symbol_char d0 = false) (hv : lang_util_str2num text = .ok v)
    (hstk : st.length ≤ EXPR_STACK_SIZE) :
    ∃ u, token_stream u = d0 :: rest ∧ token_small u ∧
      ∀ f, _not_opd sl (f + 1) { token := t, stack := st }
        = .ok { token := u, stack := st ++ [v] } := by
  obtain ⟨u, h1, h2, h3⟩ := tok_number_ok t ws text rest d0 hsm hst hw hn hl hd0
  refine ⟨u, h2, h3, ?_⟩
  intro f
  rw [_not_opd, expr_token_eq _ _ _ _ h1]
  simp only [Except.bind, bind, hv]
  exact exprstack_push_ok u st v hstk

theorem symbol_start_not_number (c : Nat) (h : is_symbol_start c = true) :
    number_format c = none ∧ is_blank c = false ∧ c ≠ 126 := by
  simp only [is_symbol_start, Bool.decide_or, Bool.decide_and, Bool.or_eq_true,
    Bool.and_eq_true, decide_eq_true_eq] at h
  refine ⟨?_, ?_, ?_⟩
  · unfold number_format
    have h1 : ¬ (c = 36) := by omega
    have h2 : ¬ (c = 37) := by omega
    have h3 : ¬ (c = 64) := by omega
    have h4 : ¬ (is_digit c = true) := by
      simp only [is_digit, Bool.decide_and, Bool.and_eq_true, decide_eq_true_eq]
      omega
    simp [h1, h2, h3, h4]
  · simp only [is_blank, Bool.decide_or, Bool.or_eq_false_iff, decide_eq_false_iff_not]
    omega
  · omega

theorem number_start_not_negate (c : Nat) (f : token_number_format_t)
    (h : number_format c = some f) : is_blank c = false ∧ c ≠ 126 := by
  unfold number_format at h
  by_cases h1 : c = 36
  · subst h1; exact ⟨by decide, by decide⟩
  · by_cases h2 : c = 37
    · subst h2; exact ⟨by decide, by decide⟩
    · by_cases h3 : c = 64
      · subst h3; exact ⟨by decide, by decide⟩
      · simp only [h1, h2, h3, if_false] at h
        by_cases h4 : is_digit c = true
        · simp only [is_digit, Bool.decide_and, Bool.and_eq_true, decide_eq_true_eq] at h4
          refine ⟨?_, by omega⟩
          simp only [is_blank, Bool.decide_or, Bool.or_eq_false_iff, decide_eq_false_iff_not]
          omega
        · simp only [h4, if_false] at h
          cases h

/-- A symbol is next: `_not_opd` pushes the value of the constant. -/
theorem not_opd_sym (sl : symbols_t) (t : token_t) (ws name rest : List Nat) (d0 : Nat)
    (st : List Int) (v : Int)
    (hsm : token_small t) (hst : token_stream t = ws ++ (name ++ d0 :: rest)) (hw : blanks ws)
    (hn : symbol_text name = true) (hl : name.length ≤ 500)
    (hd0 : is_symbol_char d0 = false) (hv : ceval sl (cexpr.sym ws name) = .ok v)
    (hstk : st.length ≤ EXPR_STACK_SIZE) :
    ∃ u, token_stream u = d0 :: rest ∧ token_small u ∧
      ∀ f, _not_opd sl (f + 1) { token := t, stack := st }
        = .ok { token := u, stack := st ++ [v] } := by
  cases name with
  | nil => simp [symbol_text] at hn
  | cons c cs =>
    have hc : is_symbol_start c = true := by
      simp only [symbol_text, Bool.and_eq_true] at hn
      exact hn.1
    have hcn := symbol_start_not_number c hc
    have hh := stream_op_head t ws c (cs ++ d0 :: rest) hst hw hcn.2.1
    have hhead : stream_head (token_stream t) = some c := by
      rw [hst]
      exact (stream_head_blanks ws c _ hw.1 hcn.2.1).1
    obtain ⟨t1, g1, g2, g3⟩ := tok_number_fail t hsm hh.1
      (by intro ch hch; rw [hhead] at hch; cases hch; exact hcn.1)
    obtain ⟨u, h1, h2, h3⟩ := tok_symbol_ok t1 ws (c :: cs) rest d0 g3
      (by rw [g2]; exact hst) hw hn hl hd0
    refine ⟨u, h2, h3, ?_⟩
    intro f
    rw [_not_opd, expr_token_eq _ _ _ _ g1]
    simp only [Except.bind, bind]
    rw [expr_token_eq _ _ _ _ h1]
    simp only
    unfold ceval at hv
    cases hq : lang_util_question_expand sl (c :: cs) with
    | error e => rw [hq] at hv; cases hv
    | ok nm =>
      rw [hq] at hv
      simp only [Except.bind, bind] at hv ⊢
      cases hg : symbol_get_const sl nm with
      | error e => rw [hg] at hv; cases hv
      | ok r =>
        rw [hg] at hv
        simp only at hv ⊢
        cases r with
        | none => cases hv
        | some value =>
          simp only [pure, Except.pure] at hv
          injection hv with hv
          subst hv
          exact exprstack_push_ok u st value hstk

/-- A `(` is next: `_not_opd` reads an expression and the `)`. -/
theorem not_opd_paren (sl : symbols_t) (t : token_t) (ws s1 : List Nat)
    (hsm : token_small t) (hst : token_stream t = ws ++ 40 :: s1) (hw : blanks ws) :
    ∃ t1, token_stream t1 = s1 ∧ token_small t1 ∧
      ∀ stk f, _not_opd sl (f + 1) { token := t, stack := stk }
        = (do
            let s4 ← _expr sl f { token := t1, stack := stk }
            let (r4, s5) ← expr_token s4 TOKEN_TYPE_ROUND_CLOSE
            match r4 with
            | none => .error "Missing \")\" in expr"
            | some _ => pure s5) := by
  have hh := stream_op_head t ws 40 s1 hst hw (by decide)
  have hhead : stream_head (token_stream t) = some 40 := by
    rw [hst]
    exact (stream_head_blanks ws 40 _ hw.1 (by decide)).1
  obtain ⟨t0, g1, g2, g3⟩ := tok_number_fail t hsm hh.1
    (by intro ch hch; rw [hhead] at hch; cases hch; decide)
  obtain ⟨t00, e1, e2, e3⟩ := tok_symbol_fail t0 g3 (by rw [g2]; exact hh.1)
    (by intro ch hch; rw [g2, hhead] at hch; cases hch; decide)
  obtain ⟨t1, h1, h2, h3⟩ := tok_single_ok t00 TOKEN_TYPE_ROUND_OPEN 40 ws s1 e3
    (by rw [e2, g2]; exact hst) hw rfl
  refine ⟨t1, h2, h3, ?_⟩
  intro stk f
  rw [_not_opd, expr_token_eq _ _ _ _ g1]
  simp only [Except.bind, bind]
  rw [expr_token_eq _ _ _ _ e1]
  simp only
  rw [expr_token_eq _ _ _ _ h1]

theorem blank_not_symbol_char (c : Nat) (h : is_blank c = true) : is_symbol_char c = false := by
  simp only [is_blank, Bool.decide_or, Bool.or_eq_true, decide_eq_true_eq] at h
  rcases h with e | e | e <;> subst e <;> decide

theorem follows_char (k : Nat) (ws : List Nat) (c : Nat) (s : List Nat) (hw : blanks ws)
    (hb : is_blank c = false) (hs : is_symbol_char c = false)
    (ho : ∀ j, k < j → op_char j c = false) : follows k (ws ++ c :: s) := by
  have hh := stream_head_blanks ws c s hw.1 hb
  refine ⟨?_, by rw [hh.2]; exact hw.2, ?_⟩
  · cases ws with
    | nil => exact ⟨c, s, rfl, hs⟩
    | cons a tl =>
      refine ⟨a, tl ++ c :: s, rfl, ?_⟩
      have := hw.1
      simp only [List.all_cons, Bool.and_eq_true] at this
      exact blank_not_symbol_char a this.1
  · intro x hx j hj
    rw [hh.1] at hx
    cases hx
    exact ho j hj

theorem follows_weaken (k k2 : Nat) (rest : List Nat) (h : follows k rest) (hk : k ≤ k2) :
    follows k2 rest :=
  ⟨h.1, h.2.1, fun c hc j hj => h.2.2 c hc j (by omega)⟩

theorem op_char_high (j c : Nat) (hj : 6 ≤ j) : op_char j c = false := by
  match j, hj with
  | n + 6, _ => rfl

theorem follows_op (op : expr_op_t) (ws s : List Nat) (hw : blanks ws) :
    follows (op_level op) (ws ++ (op_text op ++ s)) := by
  cases op <;>
    exact follows_char _ ws _ _ hw (by decide) (by decide)
      (fun j hj => by
        match j, hj with
        | 0, h => exact absurd h (by decide)
        | 1, h => first | exact absurd h (by decide) | decide
        | 2, h => first | exact absurd h (by decide) | decide
        | 3, h => first | exact absurd h (by decide) | decide
        | 4, h => first | exact absurd h (by decide) | decide
        | 5, h => first | exact absurd h (by decide) | decide
        | n + 6, _ => rfl)

theorem EvN_R_high (sl : symbols_t) (k : Nat) (hk : 6 ≤ k) (s : expr_state_t) :
    EvN (expr_R sl k) 0 s s := by
  intro f _
  match k, hk with
  | n + 6, _ => rfl

theorem expr_R_high (sl : symbols_t) (k : Nat) (hk : 6 ≤ k) (n : Nat) (s r : expr_state_t)
    (h : EvN (expr_R sl k) n s r) : r = s := by
  have h1 := h n (Nat.le_refl n)
  have h2 := EvN_R_high sl k hk s n (Nat.zero_le n)
  rw [h2] at h1
  injection h1 with h1
  exact h1.symm

/-- An operand that `_not_opd` reads at each token state of the stream `s`, and that
does not start with `~`, is an operand of every level. -/
theorem parses_primary (sl : symbols_t) (k c0 : Nat) (s rest : List Nat) (st : List Int)
    (v : Int) (hk : k ≤ 7)
    (h : ∀ t, token_small t → token_stream t = s →
      ∃ u, token_stream u = rest ∧ token_small u ∧
        ∀ f, c0 ≤ f → _not_opd sl (f + 1) { token := t, stack := st }
          = .ok { token := u, stack := st ++ [v] })
    (hrun : blank_run s ≤ 500) (hne : stream_head s ≠ some 126) (hf : follows k rest)
    (t : token_t) (hsm : token_small t) (hst : token_stream t = s) :
    parses sl k (c0 + 14) t st v rest := by
  have h7 : ∀ t, token_small t → token_stream t = s → parses sl 7 (c0 + 1) t st v rest := by
    intro t hsm hst
    obtain ⟨u, h1, h2, h3⟩ := h t hsm hst
    refine ⟨u, h1, h2, ?_⟩
    intro n r hr f hf
    rw [expr_R_high sl 7 (by omega) n _ _ hr]
    obtain ⟨g, rfl⟩ : ∃ g, f = g + 1 := ⟨f - 1, by omega⟩
    exact h3 g (by omega)
  have h6 : parses sl 6 (c0 + 2) t st v rest := by
    obtain ⟨t1, g1, g2, g3⟩ := mul_opd_plain sl t hsm (by rw [hst]; exact hrun)
      (by rw [hst]; exact hne)
    obtain ⟨u, h1, h2, h3⟩ := h7 t1 g2 (by rw [g1, hst])
    refine ⟨u, h1, h2, ?_⟩
    intro n r hr f hf
    have hr7 : EvN (expr_R sl 7) 0 { token := u, stack := st ++ [v] } r := by
      rw [expr_R_high sl 6 (by omega) n _ _ hr]
      exact EvN_R_high sl 7 (by omega) _
    obtain ⟨g, rfl⟩ : ∃ g, f = g + 1 := ⟨f - 1, by omega⟩
    show _mul_opd sl (g + 1) _ = _
    rw [g3]
    exact h3 0 r hr7 g (by omega)
  by_cases hk7 : k = 7
  · subst hk7
    exact parses_mono sl 7 _ _ t st v rest (h7 t hsm hst) (by omega)
  · have hk6 : k ≤ 6 := by omega
    have := parses_lift_many sl t st v rest hf.2.1 (6 - k) k (c0 + 2) (by omega)
      (by rw [show k + (6 - k) = 6 by omega]; exact h6) hf.2.2
    exact parses_mono sl k _ _ t st v rest this (by omega)

theorem ceval_bin (sl : symbols_t) (op : expr_op_t) (l r : cexpr) (ws : List Nat) (v : Int)
    (h : ceval sl (cexpr.bin op l ws r) = .ok v) :
    ∃ a b, ceval sl l = .ok a ∧ ceval sl r = .ok b ∧ expr_apply op a b = .ok v := by
  simp only [ceval] at h
  cases ha : ceval sl l with
  | error e => rw [ha] at h; cases h
  | ok a =>
    cases hb : ceval sl r with
    | error e => rw [ha, hb] at h; cases h
    | ok b =>
      rw [ha, hb] at h
      exact ⟨a, b, rfl, rfl, h⟩

theorem ceval_neg (sl : symbols_t) (e : cexpr) (ws : List Nat) (v : Int)
    (h : ceval sl (cexpr.neg ws e) = .ok v) :
    ∃ a, ceval sl e = .ok a ∧ v = -a - 1 := by
  simp only [ceval] at h
  cases ha : ceval sl e with
  | error e => rw [ha] at h; cases h
  | ok a =>
    rw [ha] at h
    simp only [Except.bind, bind, pure, Except.pure] at h
    injection h with h
    exact ⟨a, rfl, h.symm⟩

theorem parses_num (sl : symbols_t) (k : Nat) (ws text : List Nat) (t : token_t)
    (st : List Int) (v : Int) (rest : List Nat)
    (hfit : cfits k (cexpr.num ws text) = true) (hk : k ≤ 7) (hsm : token_small t)
    (hst : token_stream t = cprint (cexpr.num ws text) ++ rest) (hf : follows k rest)
    (hv : ceval sl (cexpr.num ws text) = .ok v)
    (hstk : st.length + cdepth (cexpr.num ws text) ≤ EXPR_STACK_SIZE + 1) :
    parses sl k (cfuel (cexpr.num ws text)) t st v rest := by
  simp only [cfits, Bool.and_eq_true, decide_eq_true_eq] at hfit
  obtain ⟨⟨hw, hn⟩, hl⟩ := hfit
  have hw := blanks_of_ok ws hw
  obtain ⟨d0, r0, hr0, hd0⟩ := hf.1
  simp only [cdepth] at hstk
  simp only [ceval] at hv
  cases text with
  | nil => simp [number_text] at hn
  | cons c cs =>
    have hnf : ∃ f, number_format c = some f := by
      simp only [number_text] at hn
      cases hx : number_format c with
      | none => rw [hx] at hn; cases hn
      | some f => exact ⟨f, rfl⟩
    obtain ⟨f0, hf0⟩ := hnf
    have hcn := number_start_not_negate c f0 hf0
    have hsh := stream_head_blanks ws c (cs ++ rest) hw.1 hcn.1
    have hs2 : cprint (cexpr.num ws (c :: cs)) ++ rest = ws ++ c :: (cs ++ rest) := by
      simp [cprint]
    have := parses_primary sl k 0 (ws ++ c :: (cs ++ rest)) rest st v hk
      (by
        intro t2 hsm2 hst2
        obtain ⟨u, h1, h2, h3⟩ := not_opd_num sl t2 ws (c :: cs) r0 d0 st v hsm2
          (by rw [hst2, hr0]; simp) hw hn hl hd0 hv (by omega)
        exact ⟨u, by rw [h1, hr0], h2, fun f _ => h3 f⟩)
      (by rw [hsh.2]; exact hw.2)
      (by rw [hsh.1]; intro e; exact hcn.2 (Option.some.inj e))
      hf t hsm (by rw [hst, hs2])
    exact parses_mono sl k _ _ t st v rest this (by simp [cfuel])

theorem parses_sym (sl : symbols_t) (k : Nat) (ws name : List Nat) (t : token_t)
    (st : List Int) (v : Int) (rest : List Nat)
    (hfit : cfits k (cexpr.sym ws name) = true) (hk : k ≤ 7) (hsm : token_small t)
    (hst : token_stream t = cprint (cexpr.sym ws name) ++ rest) (hf : follows k rest)
    (hv : ceval sl (cexpr.sym ws name) = .ok v)
    (hstk : st.length + cdepth (cexpr.sym ws name) ≤ EXPR_STACK_SIZE + 1) :
    parses sl k (cfuel (cexpr.sym ws name)) t st v rest := by
  simp only [cfits, Bool.and_eq_true, decide_eq_true_eq] at hfit
  obtain ⟨⟨hw, hn⟩, hl⟩ := hfit
  have hw := blanks_of_ok ws hw
  obtain ⟨d0, r0, hr0, hd0⟩ := hf.1
  simp only [cdepth] at hstk
  cases name with
  | nil => simp [symbol_text] at hn
  | cons c cs =>
    have hc : is_symbol_start c = true := by
      simp only [symbol_text, Bool.and_eq_true] at hn
      exact hn.1
    have hcn := symbol_start_not_number c hc
    have hsh := stream_head_blanks ws c (cs ++ rest) hw.1 hcn.2.1
    have hs2 : cprint (cexpr.sym ws (c :: cs)) ++ rest = ws ++ c :: (cs ++ rest) := by
      simp [cprint]
    have := parses_primary sl k 0 (ws ++ c :: (cs ++ rest)) rest st v hk
      (by
        intro t2 hsm2 hst2
        obtain ⟨u, h1, h2, h3⟩ := not_opd_sym sl t2 ws (c :: cs) r0 d0 st v hsm2
          (by rw [hst2, hr0]; simp) hw hn hl hd0 hv (by omega)
        exact ⟨u, by rw [h1, hr0], h2, fun f _ => h3 f⟩)
      (by rw [hsh.2]; exact hw.2)
      (by rw [hsh.1]; intro e; exact hcn.2.2 (Option.some.inj e))
      hf t hsm (by rw [hst, hs2])
    exact parses_mono sl k _ _ t st v rest this (by simp [cfuel])

theorem cdepth_pos : ∀ e : cexpr, 1 ≤ cdepth e := by
  intro e
  induction e with
  | num _ _ => simp [cdepth]
  | sym _ _ => simp [cdepth]
  | paren _ e _ ih => simpa [cdepth] using ih
  | neg _ e ih => simpa [cdepth] using ih
  | bin _ l _ r ihl ihr => simp only [cdepth]; omega

theorem parses_paren (sl : symbols_t) (ws ws2 : List Nat) (e : cexpr)
    (ih : ∀ (k : Nat) (t : token_t) (st : List Int) (v : Int) (rest : List Nat),
      cfits k e = true → k ≤ 7 → token_small t → token_stream t = cprint e ++ rest →
      follows k rest → ceval sl e = .ok v → st.length + cdepth e ≤ EXPR_STACK_SIZE + 1 →
      parses sl k (cfuel e) t st v rest)
    (k : Nat) (t : token_t) (st : List Int) (v : Int) (rest : List Nat)
    (hfit : cfits k (cexpr.paren ws e ws2) = true) (hk : k ≤ 7) (hsm : token_small t)
    (hst : token_stream t = cprint (cexpr.paren ws e ws2) ++ rest) (hf : follows k rest)
    (hv : ceval sl (cexpr.paren ws e ws2) = .ok v)
    (hstk : st.length + cdepth (cexpr.paren ws e ws2) ≤ EXPR_STACK_SIZE + 1) :
    parses sl k (cfuel (cexpr.paren ws e ws2)) t st v rest := by
  simp only [cfits, Bool.and_eq_true] at hfit
  obtain ⟨⟨hw, hw2⟩, hfe⟩ := hfit
  have hw := blanks_of_ok ws hw
  have hw2 := blanks_of_ok ws2 hw2
  simp only [cdepth] at hstk
  simp only [ceval] at hv
  have hs2 : cprint (cexpr.paren ws e ws2) ++ rest
      = ws ++ 40 :: (cprint e ++ (ws2 ++ 41 :: rest)) := by
    simp [cprint]
  have hsh := stream_head_blanks ws 40 (cprint e ++ (ws2 ++ 41 :: rest)) hw.1 (by decide)
  have hfc : follows 0 (ws2 ++ 41 :: rest) :=
    follows_char 0 ws2 41 rest hw2 (by decide) (by decide) (fun j _ => by
      match j with
      | 0 => decide
      | 1 => decide
      | 2 => decide
      | 3 => decide
      | 4 => decide
      | 5 => decide
      | n + 6 => rfl)
  have := parses_primary sl k (cfuel e + 1) (ws ++ 40 :: (cprint e ++ (ws2 ++ 41 :: rest)))
    rest st v hk
    (by
      intro t2 hsm2 hst2
      obtain ⟨t3, g1, g2, g3⟩ := not_opd_paren sl t2 ws _ hsm2 hst2 hw
      obtain ⟨u, h1, h2, h3⟩ := ih 0 t3 st v (ws2 ++ 41 :: rest) hfe (by omega) g2 g1 hfc hv
        hstk
      have hhd := stream_op_head u ws2 41 rest h1 hw2 (by decide)
      obtain ⟨u1, e1, e2, e3⟩ := expr_R_noop sl 0 u h2 hhd.1
        (by
          intro c hc
          by_cases hc41 : c = 41
          · subst hc41; decide
          · exact absurd hc (hhd.2 c hc41))
      have hR : EvN (expr_R sl 0) 1 { token := u, stack := st ++ [v] }
          { token := u1, stack := st ++ [v] } := by
        intro f hf
        obtain ⟨g, rfl⟩ : ∃ g, f = g + 1 := ⟨f - 1, by omega⟩
        exact e3 _ g
      have hF := h3 1 _ hR
      obtain ⟨u2, k1, k2, k3⟩ := tok_single_ok u1 TOKEN_TYPE_ROUND_CLOSE 41 ws2 rest e2
        (by rw [e1, h1]) hw2 rfl
      refine ⟨u2, k2, k3, ?_⟩
      intro f hf
      rw [g3]
      have hF2 : _expr sl f { token := t3, stack := st }
          = .ok { token := u1, stack := st ++ [v] } := hF f (by omega)
      rw [hF2]
      simp only [Except.bind, bind]
      rw [expr_token_eq _ _ _ _ k1]
      rfl)
    (by rw [hsh.2]; exact hw.2)
    (by rw [hsh.1]; decide)
    hf t hsm (by rw [hst, hs2])
  exact parses_mono sl k _ _ t st v rest this (by simp [cfuel])

theorem parses_neg (sl : symbols_t) (ws : List Nat) (e : cexpr)
    (ih : ∀ (k : Nat) (t : token_t) (st : List Int) (v : Int) (rest : List Nat),
      cfits k e = true → k ≤ 7 → token_small t → token_stream t = cprint e ++ rest →
      follows k rest → ceval sl e = .ok v → st.length + cdepth e ≤ EXPR_STACK_SIZE + 1 →
      parses sl k (cfuel e) t st v rest)
    (k : Nat) (t : token_t) (st : List Int) (v : Int) (rest : List Nat)
    (hfit : cfits k (cexpr.neg ws e) = true) (hk : k ≤ 7) (hsm : token_small t)
    (hst : token_stream t = cprint (cexpr.neg ws e) ++ rest) (hf : follows k rest)
    (hv : ceval sl (cexpr.neg ws e) = .ok v)
    (hstk : st.length + cdepth (cexpr.neg ws e) ≤ EXPR_STACK_SIZE + 1) :
    parses sl k (cfuel (cexpr.neg ws e)) t st v rest := by
  simp only [cfits, Bool.and_eq_true, decide_eq_true_eq] at hfit
  obtain ⟨⟨hk6, hw⟩, hfe⟩ := hfit
  have hw := blanks_of_ok ws hw
  simp only [cdepth] at hstk
  obtain ⟨a, ha, hva⟩ := ceval_neg sl e ws v hv
  have hs2 : cprint (cexpr.neg ws e) ++ rest = ws ++ 126 :: (cprint e ++ rest) := by
    simp [cprint]
  obtain ⟨t1, g1, g2, g3⟩ := mul_opd_negate sl t ws _ hsm (by rw [hst, hs2]) hw
  have hf7 : follows 7 rest := follows_weaken k 7 rest hf hk
  obtain ⟨u, h1, h2, h3⟩ := ih 7 t1 st a rest hfe (by omega) g2 g1 hf7 ha hstk
  have hd : 1 ≤ cdepth e := cdepth_pos e
  have h6 : parses sl 6 (cfuel e + 1) t st v rest := by
    refine ⟨u, h1, h2, ?_⟩
    intro n r hr f hf
    rw [expr_R_high sl 6 (by omega) n _ _ hr]
    obtain ⟨g, rfl⟩ : ∃ g, f = g + 1 := ⟨f - 1, by omega⟩
    show _mul_opd sl (g + 1) _ = _
    rw [g3]
    have hF : _not_opd sl g { token := t1, stack := st }
        = .ok { token := u, stack := st ++ [a] } :=
      h3 0 _ (EvN_R_high sl 7 (by omega) _) g (by omega)
    rw [hF]
    simp only [Except.bind, bind]
    rw [exprstack_pop_ok u st a]
    simp only
    rw [hva]
    exact exprstack_push_ok u st _ (by omega)
  have := parses_lift_many sl t st v rest hf.2.1 (6 - k) k (cfuel e + 1) (by omega)
    (by rw [show k + (6 - k) = 6 by omega]; exact h6) hf.2.2
  exact parses_mono sl k _ _ t st v rest this (by simp only [cfuel]; omega)

theorem op_level_le (op : expr_op_t) : op_level op ≤ 5 := by
  cases op <;> decide

theorem parses_bin (sl : symbols_t) (op : expr_op_t) (l r : cexpr) (ws : List Nat)
    (ihl : ∀ (k : Nat) (t : token_t) (st : List Int) (v : Int) (rest : List Nat),
      cfits k l = true → k ≤ 7 → token_small t → token_stream t = cprint l ++ rest →
      follows k rest → ceval sl l = .ok v → st.length + cdepth l ≤ EXPR_STACK_SIZE + 1 →
      parses sl k (cfuel l) t st v rest)
    (ihr : ∀ (k : Nat) (t : token_t) (st : List Int) (v : Int) (rest : List Nat),
      cfits k r = true → k ≤ 7 → token_small t → token_stream t = cprint r ++ rest →
      follows k rest → ceval sl r = .ok v → st.length + cdepth r ≤ EXPR_STACK_SIZE + 1 →
      parses sl k (cfuel r) t st v rest)
    (k : Nat) (t : token_t) (st : List Int) (v : Int) (rest : List Nat)
    (hfit : cfits k (cexpr.bin op l ws r) = true) (hsm : token_small t)
    (hst : token_stream t = cprint (cexpr.bin op l ws r) ++ rest) (hf : follows k rest)
    (hv : ceval sl (cexpr.bin op l ws r) = .ok v)
    (hstk : st.length + cdepth (cexpr.bin op l ws r) ≤ EXPR_STACK_SIZE + 1) :
    parses sl k (cfuel (cexpr.bin op l ws r)) t st v rest := by
  simp only [cfits, Bool.and_eq_true, decide_eq_true_eq] at hfit
  obtain ⟨⟨⟨hkj, hw⟩, hfl⟩, hfr⟩ := hfit
  have hw := blanks_of_ok ws hw
  have hj := op_level_le op
  simp only [cdepth] at hstk
  obtain ⟨a, b, ha, hb, hab⟩ := ceval_bin sl op l r ws v hv
  have hs2 : cprint (cexpr.bin op l ws r) ++ rest
      = cprint l ++ (ws ++ (op_text op ++ (cprint r ++ rest))) := by
    simp [cprint]
  obtain ⟨u1, h1, h2, h3⟩ := ihl (op_level op) t st a _ hfl (by omega) hsm
    (by rw [hst, hs2]) (follows_op op ws _ hw) ha (by omega)
  obtain ⟨u2, g1, g2, g3⟩ := expr_R_op sl op u1 ws _ h2 h1 hw
  obtain ⟨u3, e1, e2, e3⟩ := ihr (op_level op + 1) u2 (st ++ [a]) b rest hfr (by omega) g2 g1
    (follows_weaken k _ rest hf (by omega)) hb
    (by simp only [List.length_append, List.length_singleton]; omega)
  obtain ⟨u4, k1, k2, k3⟩ := expr_R_noop sl (op_level op + 1) u3 e2
    (by rw [e1]; exact hf.2.1)
    (by rw [e1]; intro c hc; exact hf.2.2 c hc _ (by omega))
  have hR : EvN (expr_R sl (op_level op + 1)) 1 { token := u3, stack := st ++ [a] ++ [b] }
      { token := u4, stack := st ++ [a] ++ [b] } := by
    intro f hf
    obtain ⟨g, rfl⟩ : ∃ g, f = g + 1 := ⟨f - 1, by omega⟩
    exact k3 _ g
  have hF := e3 1 _ hR
  have hj0 : parses sl (op_level op) (cfuel l + cfuel r + 2) t st v rest := by
    refine ⟨u4, by rw [k1, e1], k2, ?_⟩
    intro n r0 hr0
    have hRj : EvN (expr_R sl (op_level op)) (n + cfuel r + 2)
        { token := u1, stack := st ++ [a] } r0 := by
      intro f hf
      obtain ⟨g, rfl⟩ : ∃ g, f = g + 1 := ⟨f - 1, by omega⟩
      rw [g3, hF g (by omega)]
      simp only [Except.bind, bind]
      rw [expr_binary_ok u4 st a b v op (by omega) hab]
      exact hr0 g (by omega)
    exact EvN_mono _ _ _ _ _ (h3 _ r0 hRj) (by omega)
  have := parses_lift_many sl t st v rest hf.2.1 (op_level op - k) k _ (by omega)
    (by rw [show k + (op_level op - k) = op_level op by omega]; exact hj0) hf.2.2
  exact parses_mono sl k _ _ t st v rest this (by simp only [cfuel]; omega)

/-- The evaluator reads the text of a tree at the level `k`, whatever follows it
that is no part of an operand of that level, and leaves the tree's value on the
stack. -/
theorem cexpr_parses (sl : symbols_t) :
    ∀ (e : cexpr) (k : Nat) (t : token_t) (st : List Int) (v : Int) (rest : List Nat),
      cfits k e = true → k ≤ 7 → token_small t → token_stream t = cprint e ++ rest →
      follows k rest → ceval sl e = .ok v → st.length + cdepth e ≤ EXPR_STACK_SIZE + 1 →
      parses sl k (cfuel e) t st v rest := by
  intro e
  induction e with
  | num ws text =>
    intro k t st v rest h1 h2 h3 h4 h5 h6 h7
    exact parses_num sl k ws text t st v rest h1 h2 h3 h4 h5 h6 h7
  | sym ws name =>
    intro k t st v rest h1 h2 h3 h4 h5 h6 h7
    exact parses_sym sl k ws name t st v rest h1 h2 h3 h4 h5 h6 h7
  | paren ws e ws2 ih =>
    intro k t st v rest h1 h2 h3 h4 h5 h6 h7
    exact parses_paren sl ws ws2 e ih k t st v rest h1 h2 h3 h4 h5 h6 h7
  | neg ws e ih =>
    intro k t st v rest h1 h2 h3 h4 h5 h6 h7
    exact parses_neg sl ws e ih k t st v rest h1 h2 h3 h4 h5 h6 h7
  | bin op l ws r ihl ihr =>
    intro k t st v rest h1 _ h3 h4 h5 h6 h7
    exact parses_bin sl op l r ws ihl ihr k t st v rest h1 h3 h4 h5 h6 h7

theorem cfuel_le : ∀ (e : cexpr) (k : Nat), cfits k e = true →
    cfuel e ≤ 16 * (cprint e).length := by
  intro e
  induction e with
  | num ws text =>
    intro k h
    simp only [cfits, Bool.and_eq_true, decide_eq_true_eq] at h
    cases text with
    | nil => simp [number_text] at h
    | cons c cs => simp only [cfuel, cprint, List.length_append, List.length_cons]; omega
  | sym ws name =>
    intro k h
    simp only [cfits, Bool.and_eq_true, decide_eq_true_eq] at h
    cases name with
    | nil => simp [symbol_text] at h
    | cons c cs => simp only [cfuel, cprint, List.length_append, List.length_cons]; omega
  | paren ws e ws2 ih =>
    intro k h
    simp only [cfits, Bool.and_eq_true] at h
    have := ih 0 h.2
    simp only [cfuel, cprint, List.length_append, List.length_cons, List.length_nil]
    omega
  | neg ws e ih =>
    intro k h
    simp only [cfits, Bool.and_eq_true] at h
    have := ih 7 h.2
    simp only [cfuel, cprint, List.length_append, List.length_cons]
    omega
  | bin op l ws r ihl ihr =>
    intro k h
    simp only [cfits, Bool.and_eq_true] at h
    have h1 := ihl _ h.1.2
    have h2 := ihr _ h.2
    have h3 : 1 ≤ (op_text op).length := by cases op <;> decide
    simp only [cfuel, cprint, List.length_append]
    omega

theorem token_stream_length (t : token_t) :
    (token_stream t).length = t.next.length + t.file.length := by
  simp [token_stream]

/-- The function `lang_constexpr` on the text of a tree between `{` and `}`, for a
tree whose evaluation takes up to `EXPR_STACK_SIZE + 1` entries (the test of
`_exprstack_push` lets the push at the depth `EXPR_STACK_SIZE` through): the result
is the value of the tree, and the stream stands after the `}`. -/
theorem lang_constexpr_tree_deep (sl : symbols_t) (e : cexpr) (t : token_t)
    (ws0 ws1 rest : List Nat) (v : Int)
    (hsm : token_small t)
    (hst : token_stream t = ws0 ++ 123 :: (cprint e ++ (ws1 ++ 125 :: rest)))
    (hw0 : blanks ws0) (hw1 : blanks ws1) (hfit : cfits 0 e = true)
    (hv : ceval sl e = .ok v) (hd : cdepth e ≤ EXPR_STACK_SIZE + 1) :
    ∃ t1, lang_constexpr sl t = .ok (some v, t1) ∧ token_stream t1 = rest ∧
      token_small t1 := by
  obtain ⟨t1, a1, a2, a3⟩ := tok_single_ok t TOKEN_TYPE_CURLY_OPEN 123 ws0 _ hsm hst hw0 rfl
  have hfc : follows 0 (ws1 ++ 125 :: rest) :=
    follows_char 0 ws1 125 rest hw1 (by decide) (by decide) (fun j _ => by
      match j with
      | 0 => decide
      | 1 => decide
      | 2 => decide
      | 3 => decide
      | 4 => decide
      | 5 => decide
      | n + 6 => rfl)
  obtain ⟨u, h1, h2, h3⟩ := cexpr_parses sl e 0 t1 [] v _ hfit (by omega) a3 a2 hfc hv
    (by simpa using hd)
  have hhd := stream_op_head u ws1 125 rest h1 hw1 (by decide)
  obtain ⟨u1, e1, e2, e3⟩ := expr_R_noop sl 0 u h2 hhd.1
    (by
      intro c hc
      by_cases hc2 : c = 125
      · subst hc2; decide
      · exact absurd hc (hhd.2 c hc2))
  have hR : EvN (expr_R sl 0) 1 { token := u, stack := [] ++ [v] }
      { token := u1, stack := [] ++ [v] } := by
    intro f hf
    obtain ⟨g, rfl⟩ : ∃ g, f = g + 1 := ⟨f - 1, by omega⟩
    exact e3 _ g
  have hF := h3 1 _ hR
  obtain ⟨u2, k1, k2, k3⟩ := tok_single_ok u1 TOKEN_TYPE_CURLY_CLOSE 125 ws1 rest e2
    (by rw [e1, h1]) hw1 rfl
  have hlen : 1 + cfuel e ≤ 16 * (t1.next.length + t1.file.length + 2) := by
    have h4 := cfuel_le e 0 hfit
    have h5 := token_stream_length t1
    rw [a2] at h5
    simp only [List.length_append, List.length_cons] at h5
    omega
  have hF2 : _expr sl (16 * (t1.next.length + t1.file.length + 2)) { token := t1, stack := [] }
      = .ok { token := u1, stack := [] ++ [v] } := hF _ hlen
  refine ⟨token_drop u2, ?_, ?_, ?_⟩
  · unfold lang_constexpr
    rw [a1]
    simp only [Except.bind, bind]
    rw [hF2]
    simp only
    rw [exprstack_pop_ok u1 [] v]
    simp only
    rw [k1]
    rfl
  · rw [← k2]
    rfl
  · exact ⟨Nat.zero_le _, k3.2⟩

/-- The function `lang_constexpr` on the text of a tree between `{` and `}`: the
result is the value of the tree, and the stream stands after the `}`. -/
theorem lang_constexpr_tree (sl : symbols_t) (e : cexpr) (t : token_t)
    (ws0 ws1 rest : List Nat) (v : Int)
    (hsm : token_small t)
    (hst : token_stream t = ws0 ++ 123 :: (cprint e ++ (ws1 ++ 125 :: rest)))
    (hw0 : blanks ws0) (hw1 : blanks ws1) (hfit : cfits 0 e = true)
    (hv : ceval sl e = .ok v) (hd : cdepth e ≤ EXPR_STACK_SIZE) :
    ∃ t1, lang_constexpr sl t = .ok (some v, t1) ∧ token_stream t1 = rest ∧
      token_small t1 :=
  lang_constexpr_tree_deep sl e t ws0 ws1 rest v hsm hst hw0 hw1 hfit hv
    (Nat.le_succ_of_le hd)

/-! ## The constant expressions -/

theorem cfits_primary (e : cexpr) (k : Nat) (h : cfits 7 e = true) : cfits k e = true := by
  cases e with
  | num ws text => simpa [cfits] using h
  | sym ws name => simpa [cfits] using h
  | paren ws e ws2 => simpa [cfits] using h
  | neg ws e => simp [cfits] at h
  | bin op l ws r =>
    have := op_level_le op
    simp only [cfits, Bool.and_eq_true, decide_eq_true_eq] at h
    omega

/-- C11, the limit of the claim. An expression that is one numeric literal of 1024
digits (1023 zeros and a 1) has no result: the lexer stops the program with "Token
size exceed". -/
theorem C11_oversized_literal_is_fatal :
    lang_constexpr [] (token_prepare c11_long) = .error "Token size exceed" := by
  decide!

/-- C11. For every tree `e` that is the grouping by precedence of its text (`~`
tightest, then `* / %`, `+ -`, `<< >>`, `&`, `^`, and `|` loosest, operators of one
level grouping to the left, a parenthesised expression as a unit, `~` applied to a
literal, a symbol or a parenthesised expression), whose literals and symbols take at
most 500 bytes each, with at most 500 blanks before a token, whose evaluation takes
at most 1024 stack entries and whose value `v` is defined: `lang_constexpr` on the
text `{`, the text of `e`, `}` returns `v` and leaves the stream after the `}`. -/
theorem C11_precedence (sl : symbols_t) (e : cexpr) (t : token_t)
    (ws0 ws1 rest : List Nat) (v : Int)
    (hsm : token_small t)
    (hst : token_stream t = ws0 ++ 123 :: (cprint e ++ (ws1 ++ 125 :: rest)))
    (hw0 : blanks ws0) (hw1 : blanks ws1) (hfit : cfits 0 e = true)
    (hv : ceval sl e = .ok v) (hd : cdepth e ≤ EXPR_STACK_SIZE) :
    ∃ t1, lang_constexpr sl t = .ok (some v, t1) ∧ token_stream t1 = rest := by
  obtain ⟨t1, h1, h2, _⟩ := lang_constexpr_tree sl e t ws0 ws1 rest v hsm hst hw0 hw1 hfit hv hd
  exact ⟨t1, h1, h2⟩

/-- Witness of `C11_precedence`: with a = 1, b = 6, c = 12, d = 1, e = 1, f = 1 and
g = -3 the text `{a | b ^ c & d << e + f * ~g}` has the value 15 of
`a | (b ^ (c & (d << (e + (f * (~g))))))`, and `{(a | b) & c}` has the value 4 of
`(a | b) & c`. -/
theorem C11_precedence_witness :
    (∃ t1, lang_constexpr c11_symbols (token_prepare (cstr "{a | b ^ c & d << e + f * ~g}\n"))
        = .ok (some 15, t1) ∧ token_stream t1 = [10]) ∧
    (∃ t1, lang_constexpr c11_symbols (token_prepare (cstr "{(a | b) & c}\n"))
        = .ok (some 4, t1) ∧ token_stream t1 = [10]) :=
  ⟨C11_precedence c11_symbols c11_tree
      (token_prepare (cstr "{a | b ^ c & d << e + f * ~g}\n")) [] [] [10] 15
      ⟨by decide, by decide⟩ (by decide) ⟨rfl, by decide⟩ ⟨rfl, by decide⟩ (by decide)
      (by decide!) (by decide),
   C11_precedence c11_symbols c11_tree_paren
      (token_prepare (cstr "{(a | b) & c}\n")) [] [] [10] 4
      ⟨by decide, by decide⟩ (by decide) ⟨rfl, by decide⟩ ⟨rfl, by decide⟩ (by decide)
      (by decide!) (by decide)⟩

/-- C12. Operators of one precedence level group to the left: for operands `x`, `y`
and `z` (each a literal, a symbol or a parenthesised expression) with the values
`a`, `b` and `c`, and operators `op1` and `op2` of the same level for which
`a op1 b` is defined with the value `ab` and `ab op2 c` is defined with the value
`v`, `lang_constexpr` on the text `{x op1 y op2 z}` returns `v`, the value of
`(a op1 b) op2 c` in the arithmetic of `int64_t`: `i64 (i64 (a - b) - c)` for
`a - b - c`, the quotient of the quotient for `a / b / c`, the remainder of the
remainder for `a % b % c`, and the shifted `a << b` shifted right for
`a << b >> c`. -/
theorem C12_left_associative (sl : symbols_t) (op1 op2 : expr_op_t) (x y z : cexpr)
    (t : token_t) (ws0 w1 w2 ws1 rest : List Nat) (a b c ab v : Int)
    (hlev : op_level op1 = op_level op2)
    (hx : cfits 7 x = true) (hy : cfits 7 y = true) (hz : cfits 7 z = true)
    (hsm : token_small t)
    (hst : token_stream t = ws0 ++ 123 ::
      (cprint x ++ (w1 ++ (op_text op1 ++ cprint y)) ++ (w2 ++ (op_text op2 ++ cprint z))
        ++ (ws1 ++ 125 :: rest)))
    (hw0 : blanks ws0) (hw1 : blanks_ok w1 = true) (hw2 : blanks_ok w2 = true)
    (hws1 : blanks ws1)
    (ha : ceval sl x = .ok a) (hb : ceval sl y = .ok b) (hc : ceval sl z = .ok c)
    (hab : expr_apply op1 a b = .ok ab) (hv : expr_apply op2 ab c = .ok v)
    (hdx : cdepth x ≤ EXPR_STACK_SIZE) (hdy : cdepth y < EXPR_STACK_SIZE)
    (hdz : cdepth z < EXPR_STACK_SIZE) :
    (∃ t1, lang_constexpr sl t = .ok (some v, t1) ∧ token_stream t1 = rest) ∧
    (op1 = OP_SUBSTRUCT → op2 = OP_SUBSTRUCT → v = i64 (i64 (a - b) - c)) ∧
    (op1 = OP_DIV → op2 = OP_DIV → v = Int.tdiv (Int.tdiv a b) c) ∧
    (op1 = OP_MOD → op2 = OP_MOD → v = Int.tmod (Int.tmod a b) c) ∧
    (op1 = OP_SHIFT_LEFT → op2 = OP_SHIFT_RIGHT →
      v = i64 (a * 2 ^ (u64 b % 64)) / 2 ^ (u64 c % 64)) := by
  refine ⟨?_, ?_, ?_, ?_, ?_⟩
  · have hle := op_level_le op2
    have hex : ∀ (P : Prop), P → (P → ∃ t1, lang_constexpr sl t = .ok (some v, t1) ∧
        token_stream t1 = rest ∧ token_small t1) →
        ∃ t1, lang_constexpr sl t = .ok (some v, t1) ∧ token_stream t1 = rest :=
      fun _ hp h => (h hp).imp (fun t1 h1 => ⟨h1.1, h1.2.1⟩)
    apply hex (cdepth (cexpr.bin op2 (cexpr.bin op1 x w1 y) w2 z) ≤ EXPR_STACK_SIZE)
    · simp only [cdepth]
      omega
    intro hdep
    apply lang_constexpr_tree sl (cexpr.bin op2 (cexpr.bin op1 x w1 y) w2 z) t ws0 ws1 rest v
      hsm (by rw [hst]; simp [cprint]) hw0 hws1 ?_ ?_ hdep
    · simp only [cfits, Bool.and_eq_true, decide_eq_true_eq]
      exact ⟨⟨⟨Nat.zero_le _, hw2⟩, ⟨⟨⟨by omega, hw1⟩, cfits_primary x _ hx⟩,
        cfits_primary y _ hy⟩⟩, cfits_primary z _ hz⟩
    · simp only [ceval, ha, hb, hc, Except.bind, bind, hab, hv]
  · intro e1 e2
    subst e1; subst e2
    simp only [expr_apply] at hab hv
    injection hab with hab
    injection hv with hv
    rw [← hv, ← hab]
  · intro e1 e2
    subst e1; subst e2
    simp only [expr_apply] at hab hv
    split at hab
    · cases hab
    · injection hab with hab
      split at hv
      · cases hv
      · injection hv with hv
        rw [← hv, ← hab]
  · intro e1 e2
    subst e1; subst e2
    simp only [expr_apply] at hab hv
    split at hab
    · cases hab
    · injection hab with hab
      split at hv
      · cases hv
      · injection hv with hv
        rw [← hv, ← hab]
  · intro e1 e2
    subst e1; subst e2
    simp only [expr_apply] at hab hv
    injection hab with hab
    injection hv with hv
    rw [← hv, ← hab]

/-- Witness of `C12_left_associative`: the text `{10 - 3 - 2}` has the value 5 of
`(10 - 3) - 2`, not the value 9 of `10 - (3 - 2)`. -/
theorem C12_left_associative_witness :
    ∃ t1, lang_constexpr [] (token_prepare (cstr "{10 - 3 - 2}\n")) = .ok (some 5, t1) ∧
      token_stream t1 = [10] :=
  (C12_left_associative [] OP_SUBSTRUCT OP_SUBSTRUCT (.num [] (cstr "10"))
    (.num [32] (cstr "3")) (.num [32] (cstr "2")) (token_prepare (cstr "{10 - 3 - 2}\n"))
    [] [32] [32] [] [10] 10 3 2 7 5 rfl (by decide) (by decide) (by decide)
    ⟨by decide, by decide⟩ (by decide) ⟨rfl, by decide⟩ (by decide) (by decide)
    ⟨rfl, by decide⟩ (by decide!) (by decide!) (by decide!) (by decide!) (by decide!)
    (by decide) (by decide) (by decide)).1

/-- C13, evaluation at the failing input. The text `{~~5}` has no value:
`_mul_opd` reads one `~` and then calls `_not_opd`, which finds no literal, symbol
or `(` at the second `~` and stops the program with "Empty expression". One `~`
is accepted (`{~5}` is -6), and so is `~` before a parenthesised `~5`
(`{~(~5)}` is 5). -/
theorem C13_double_complement_is_fatal :
    lang_constexpr [] (token_prepare (cstr "{~~5}\n")) = .error "Empty expression" ∧
    (lang_constexpr [] (token_prepare (cstr "{~5}\n"))).map Prod.fst = .ok (some (-6)) ∧
    (lang_constexpr [] (token_prepare (cstr "{~(~5)}\n"))).map Prod.fst = .ok (some 5) := by
  decide!

theorem stream_head_cons (u : token_t) (ws : List Nat) (c : Nat) (rest : List Nat)
    (hst : token_stream u = ws ++ c :: rest) (hw : blanks ws) (hc : is_blank c = false) :
    stream_head (token_stream u) = some c ∧ blank_run (token_stream u) ≤ 500 := by
  have := stream_head_blanks ws c rest hw.1 hc
  rw [hst, this.1, this.2]
  exact ⟨rfl, hw.2⟩

/-- A numeric literal is the operand: `_get_arg` takes it with the kind of its
value. -/
theorem get_arg_literal (ctx : asm_context_t) (arg : arg_t) (t : token_t)
    (ws text rest : List Nat) (d0 : Nat) (v : Int)
    (hsm : token_small t) (hst : token_stream t = ws ++ (text ++ d0 :: rest)) (hw : blanks ws)
    (hn : number_text text = true) (hl : text.length ≤ 500)
    (hd0 : is_symbol_char d0 = false) (hv : lang_util_str2num text = .ok v) :
    ∃ t1, _get_arg ctx arg t
        = .ok (GETARG_RESULT_OK, { arg with value := v, type := value_kind v }, t1) ∧
      token_stream t1 = d0 :: rest ∧ token_small t1 := by
  cases text with
  | nil => simp [number_text] at hn
  | cons c cs =>
    have hnf : ∃ f, number_format c = some f := by
      simp only [number_text] at hn
      cases hx : number_format c with
      | none => rw [hx] at hn; cases hn
      | some f => exact ⟨f, rfl⟩
    obtain ⟨f0, hf0⟩ := hnf
    have hcn := number_start_not_negate c f0 hf0
    have hh := stream_head_cons t ws c (cs ++ d0 :: rest) hst hw hcn.1
    have hns : is_symbol_start c = false := by
      cases hx : is_symbol_start c with
      | false => rfl
      | true =>
        have := (symbol_start_not_number c hx).1
        rw [hf0] at this
        cases this
    obtain ⟨t1, g1, g2, g3⟩ := tok_symbol_fail t hsm hh.2
      (by intro ch hch; rw [hh.1] at hch; cases hch; exact hns)
    obtain ⟨t2, h1, h2, h3⟩ := tok_number_ok t1 ws (c :: cs) rest d0 g3
      (by rw [g2]; exact hst) hw hn hl hd0
    refine ⟨t2, ?_, h2, h3⟩
    unfold _get_arg
    rw [g1]
    simp only [Except.bind, bind]
    rw [h1]
    simp only [hv]
    rfl

/-- A symbol that is no register name is the operand: `_get_arg` takes it with the
kind of its declared width. -/
theorem get_arg_symbol (ctx : asm_context_t) (arg : arg_t) (t : token_t)
    (ws name rest : List Nat) (d0 : Nat) (s : symbol_t) (k : arg_type_t)
    (hsm : token_small t) (hst : token_stream t = ws ++ (name ++ d0 :: rest)) (hw : blanks ws)
    (hn : symbol_text name = true) (hl : name.length ≤ 500)
    (hd0 : is_symbol_char d0 = false) (hreg : arg_register name = none)
    (hs : symbol_find ctx.symbols name = some s)
    (hty : s.type = SYMBOL_TYPE_CONST ∨ s.type = SYMBOL_TYPE_EXTERN ∨ s.type = SYMBOL_TYPE_LABEL)
    (hk : width_kind s.width = some k) :
    ∃ t1, _get_arg ctx arg t
        = .ok (GETARG_RESULT_OK, { symbol_operand arg s with type := k }, t1) ∧
      token_stream t1 = d0 :: rest ∧ token_small t1 := by
  obtain ⟨t1, h1, h2, h3⟩ := tok_symbol_ok t ws name rest d0 hsm hst hw hn hl hd0
  refine ⟨t1, ?_, h2, h3⟩
  have hq : lang_util_question_expand ctx.symbols name = .ok name := by
    unfold lang_util_question_expand
    cases name with
    | nil => simp [symbol_text] at hn
    | cons c cs =>
      have hc : is_symbol_start c = true := by
        simp only [symbol_text, Bool.and_eq_true] at hn
        exact hn.1
      have : c ≠ 63 := by
        intro e
        rw [e] at hc
        revert hc
        decide
      simp [this]
  unfold _get_arg
  rw [h1]
  simp only [Except.bind, bind, hreg, _get_arg_symbol, hq, hs]
  unfold width_kind at hk
  unfold symbol_operand
  rcases hty with e | e | e
  · simp only [e, if_true]
    by_cases h1 : s.width = 1
    · simp only [h1, if_true] at hk ⊢
      injection hk with hk
      rw [← hk]
      rfl
    · by_cases h2 : s.width = 2
      · simp only [h2, if_true] at hk ⊢
        simp only [show ¬ (2 = 1) by decide, if_false] at hk ⊢
        injection hk with hk
        rw [← hk]
        rfl
      · by_cases h3 : s.width = 3
        · simp only [h3, if_true] at hk ⊢
          simp only [show ¬ (3 = 1) by decide, show ¬ (3 = 2) by decide, if_false] at hk ⊢
          injection hk with hk
          rw [← hk]
          rfl
        · simp [h1, h2, h3] at hk
  · have e2 : ¬ (SYMBOL_TYPE_EXTERN = SYMBOL_TYPE_CONST) := by decide
    simp only [e, e2, if_true, if_false]
    by_cases h1 : s.width = 1
    · simp only [h1, if_true] at hk ⊢
      injection hk with hk
      rw [← hk]
      rfl
    · by_cases h2 : s.width = 2
      · simp only [h2, if_true] at hk ⊢
        simp only [show ¬ (2 = 1) by decide, if_false] at hk ⊢
        injection hk with hk
        rw [← hk]
        rfl
      · by_cases h3 : s.width = 3
        · simp only [h3, if_true] at hk ⊢
          simp only [show ¬ (3 = 1) by decide, show ¬ (3 = 2) by decide, if_false] at hk ⊢
          injection hk with hk
          rw [← hk]
          rfl
        · simp [h1, h2, h3] at hk
  · have e2 : ¬ (SYMBOL_TYPE_LABEL = SYMBOL_TYPE_CONST) := by decide
    have e3 : ¬ (SYMBOL_TYPE_LABEL = SYMBOL_TYPE_EXTERN) := by decide
    simp only [e, e2, e3, if_true, if_false]
    by_cases h1 : s.width = 1
    · simp only [h1, if_true] at hk ⊢
      injection hk with hk
      rw [← hk]
      rfl
    · by_cases h2 : s.width = 2
      · simp only [h2, if_true] at hk ⊢
        simp only [show ¬ (2 = 1) by decide, if_false] at hk ⊢
        injection hk with hk
        rw [← hk]
        rfl
      · by_cases h3 : s.width = 3
        · simp only [h3, if_true] at hk ⊢
          simp only [show ¬ (3 = 1) by decide, show ¬ (3 = 2) by decide, if_false] at hk ⊢
          injection hk with hk
          rw [← hk]
          rfl
        · simp [h1, h2, h3] at hk

/-- The start of `_get_arg` at a byte that starts neither a symbol nor a number:
the function goes on with `lang_constexpr`. -/
theorem get_arg_to_constexpr (ctx : asm_context_t) (arg : arg_t) (t : token_t) (c : Nat)
    (hsm : token_small t) (hrun : blank_run (token_stream t) ≤ 500)
    (hh : stream_head (token_stream t) = some c)
    (hns : is_symbol_start c = false) (hnn : number_format c = none) :
    ∃ t2, token_stream t2 = token_stream t ∧ token_small t2 ∧
      _get_arg ctx arg t = (do
        let (v, t3) ← lang_constexpr ctx.symbols t2
        match v with
        | none => pure (GETARG_RESULT_NOTOKEN, arg, t3)
        | some value =>
          let arg1 := { arg with type := ARG_TYPE_SHORTMEM, value := value }
          let (r4, t4) ← token_get t3 TOKEN_TYPE_DOT TOKEN_NEXT
          match r4 with
          | none => pure (GETARG_RESULT_OK, arg1, t4)
          | some _ =>
            let (r5, t5) ← token_get t4 TOKEN_TYPE_SYMBOL TOKEN_NEXT
            match r5 with
            | none => pure (GETARG_RESULT_ERROR, arg1, t5)
            | some tname =>
              if tname = SYMBOL_WIDTH_SHORT then
                pure (GETARG_RESULT_OK, { arg1 with type := ARG_TYPE_SHORTMEM }, t5)
              else if tname = SYMBOL_WIDTH_LONG then
                pure (GETARG_RESULT_OK, { arg1 with type := ARG_TYPE_LONGMEM }, t5)
              else if tname = SYMBOL_WIDTH_EXT then
                pure (GETARG_RESULT_OK, { arg1 with type := ARG_TYPE_EXTMEM }, t5)
              else pure (GETARG_RESULT_ERROR, arg1, t5)) := by
  obtain ⟨t1, g1, g2, g3⟩ := tok_symbol_fail t hsm hrun
    (by intro ch hch; rw [hh] at hch; cases hch; exact hns)
  obtain ⟨t2, h1, h2, h3⟩ := tok_number_fail t1 g3 (by rw [g2]; exact hrun)
    (by intro ch hch; rw [g2, hh] at hch; cases hch; exact hnn)
  refine ⟨t2, by rw [h2, g2], h3, ?_⟩
  unfold _get_arg
  rw [g1]
  simp only [Except.bind, bind]
  rw [h1]

/-- No operand starts at the next byte: `_get_arg` takes nothing. -/
theorem get_arg_notoken (ctx : asm_context_t) (arg : arg_t) (t : token_t) (c : Nat)
    (hsm : token_small t) (hrun : blank_run (token_stream t) ≤ 500)
    (hh : stream_head (token_stream t) = some c)
    (hns : is_symbol_start c = false) (hnn : number_format c = none) (hc : c ≠ 123) :
    ∃ t1, _get_arg ctx arg t = .ok (GETARG_RESULT_NOTOKEN, arg, t1) ∧
      token_stream t1 = token_stream t ∧ token_small t1 := by
  obtain ⟨t2, h1, h2, h3⟩ := get_arg_to_constexpr ctx arg t c hsm hrun hh hns hnn
  obtain ⟨t3, k1, k2, k3⟩ := tok_single_fail t2 TOKEN_TYPE_CURLY_OPEN 123 h2
    (by rw [h1]; exact hrun) rfl
    (by rw [h1, hh]; intro e; exact hc (Option.some.inj e))
  refine ⟨t3, ?_, by rw [k2, h1], k3⟩
  rw [h3]
  unfold lang_constexpr
  rw [k1]
  rfl

/-- An expression in braces is the operand and no `.` follows it: `_get_arg` takes
it with the kind SHORTMEM, whatever its value. -/
theorem get_arg_expr (ctx : asm_context_t) (arg : arg_t) (t : token_t) (e : cexpr)
    (ws0 ws1 rest : List Nat) (v : Int)
    (hsm : token_small t)
    (hst : token_stream t = ws0 ++ 123 :: (cprint e ++ (ws1 ++ 125 :: rest)))
    (hw0 : blanks ws0) (hw1 : blanks ws1) (hfit : cfits 0 e = true)
    (hv : ceval ctx.symbols e = .ok v) (hd : cdepth e ≤ EXPR_STACK_SIZE)
    (hrun : blank_run rest ≤ 500) (hdot : stream_head rest ≠ some 46) :
    ∃ t1, _get_arg ctx arg t
        = .ok (GETARG_RESULT_OK, { arg with type := ARG_TYPE_SHORTMEM, value := v }, t1) ∧
      token_stream t1 = rest ∧ token_small t1 := by
  have hh := stream_head_cons t ws0 123 _ hst hw0 (by decide)
  obtain ⟨t2, h1, h2, h3⟩ := get_arg_to_constexpr ctx arg t 123 hsm hh.2 hh.1
    (by decide) (by decide)
  obtain ⟨t3, k1, k2, k3⟩ := lang_constexpr_tree ctx.symbols e t2 ws0 ws1 rest v h2
    (by rw [h1]; exact hst) hw0 hw1 hfit hv hd
  obtain ⟨t4, l1, l2, l3⟩ := tok_single_fail t3 TOKEN_TYPE_DOT 46 k3
    (by rw [k2]; exact hrun) rfl (by rw [k2]; exact hdot)
  refine ⟨t4, ?_, by rw [l2, k2], l3⟩
  rw [h3, k1]
  simp only [Except.bind, bind]
  rw [l1]
  rfl

/-- An expression in braces with the attribute `w8`, `w16` or `w24` is the operand:
`_get_arg` takes it with the kind of the attribute. -/
theorem get_arg_expr_suffix (ctx : asm_context_t) (arg : arg_t) (t : token_t) (e : cexpr)
    (ws0 ws1 ws2 ws3 sfx rest : List Nat) (d0 : Nat) (v : Int) (k : arg_type_t)
    (hsm : token_small t)
    (hst : token_stream t = ws0 ++ 123 :: (cprint e ++ (ws1 ++ 125 ::
      (ws2 ++ 46 :: (ws3 ++ (sfx ++ d0 :: rest))))))
    (hw0 : blanks ws0) (hw1 : blanks ws1) (hw2 : blanks ws2) (hw3 : blanks ws3)
    (hfit : cfits 0 e = true)
    (hv : ceval ctx.symbols e = .ok v) (hd : cdepth e ≤ EXPR_STACK_SIZE)
    (hk : suffix_kind sfx = some k) (hd0 : is_symbol_char d0 = false) :
    ∃ t1, _get_arg ctx arg t
        = .ok (GETARG_RESULT_OK, { arg with type := k, value := v }, t1) ∧
      token_stream t1 = d0 :: rest ∧ token_small t1 := by
  have hh := stream_head_cons t ws0 123 _ hst hw0 (by decide)
  obtain ⟨t2, h1, h2, h3⟩ := get_arg_to_constexpr ctx arg t 123 hsm hh.2 hh.1
    (by decide) (by decide)
  obtain ⟨t3, k1, k2, k3⟩ := lang_constexpr_tree ctx.symbols e t2 ws0 ws1 _ v h2
    (by rw [h1]; exact hst) hw0 hw1 hfit hv hd
  obtain ⟨t4, l1, l2, l3⟩ := tok_single_ok t3 TOKEN_TYPE_DOT 46 ws2 _ k3 k2 hw2 rfl
  have hsx : symbol_text sfx = true ∧ sfx.length ≤ 500 := by
    unfold suffix_kind at hk
    by_cases e1 : sfx = SYMBOL_WIDTH_SHORT
    · rw [e1]; exact ⟨by decide, by decide⟩
    · by_cases e2 : sfx = SYMBOL_WIDTH_LONG
      · rw [e2]; exact ⟨by decide, by decide⟩
      · by_cases e3 : sfx = SYMBOL_WIDTH_EXT
        · rw [e3]; exact ⟨by decide, by decide⟩
        · simp [e1, e2, e3] at hk
  obtain ⟨t5, m1, m2, m3⟩ := tok_symbol_ok t4 ws3 sfx rest d0 l3 l2 hw3 hsx.1 hsx.2 hd0
  refine ⟨t5, ?_, m2, m3⟩
  rw [h3, k1]
  simp only [Except.bind, bind]
  rw [l1]
  simp only
  rw [m1]
  simp only
  unfold suffix_kind at hk
  by_cases e1 : sfx = SYMBOL_WIDTH_SHORT
  · simp only [e1, if_true] at hk ⊢
    injection hk with hk
    rw [← hk]
    rfl
  · by_cases e2 : sfx = SYMBOL_WIDTH_LONG
    · simp only [e1, e2, if_true, if_false] at hk ⊢
      injection hk with hk
      rw [← hk]
      rfl
    · by_cases e3 : sfx = SYMBOL_WIDTH_EXT
      · simp only [e1, e2, e3, if_true, if_false] at hk ⊢
        injection hk with hk
        rw [← hk]
        rfl
      · simp [e1, e2, e3] at hk

/-- An operand that `_get_arg` takes is an operand of `_get_args`. -/
theorem get_args_one_plain (ctx : asm_context_t) (arg a : arg_t) (t t1 : token_t)
    (h : _get_arg ctx arg t = .ok (GETARG_RESULT_OK, a, t1)) :
    _get_args_one ctx arg t = .ok (some (a, t1)) := by
  unfold _get_args_one
  rw [h]
  rfl

/-- After `#` the operand that `_get_arg` takes becomes a BYTE when it is SHORTMEM and
a WORD when it is LONGMEM; an operand of another kind is refused. -/
theorem get_args_one_hash (ctx : asm_context_t) (arg a : arg_t) (t : token_t)
    (ws s r : List Nat) (hsm : token_small t) (hst : token_stream t = ws ++ 35 :: s)
    (hw : blanks ws)
    (h : ∀ t2, token_small t2 → token_stream t2 = s →
      ∃ t3, _get_arg ctx arg t2 = .ok (GETARG_RESULT_OK, a, t3) ∧ token_stream t3 = r) :
    (∀ k, hash_kind a.type = some k →
      ∃ t1, _get_args_one ctx arg t = .ok (some ({ a with type := k }, t1)) ∧
        token_stream t1 = r) ∧
    (hash_kind a.type = none → _get_args_one ctx arg t = .ok none) := by
  have hh := stream_head_cons t ws 35 s hst hw (by decide)
  obtain ⟨t1, g1, g2, g3⟩ := get_arg_notoken ctx arg t 35 hsm hh.2 hh.1 (by decide) (by decide)
    (by decide)
  obtain ⟨t2, h1, h2, h3⟩ := tok_single_ok t1 TOKEN_TYPE_HASH 35 ws s g3
    (by rw [g2]; exact hst) hw rfl
  obtain ⟨t3, k1, k2⟩ := h t2 h3 h2
  have hone : _get_args_one ctx arg t
      = (if a.type = ARG_TYPE_SHORTMEM then
          pure (some ({ a with type := ARG_TYPE_BYTE }, t3))
        else if a.type = ARG_TYPE_LONGMEM then
          pure (some ({ a with type := ARG_TYPE_WORD }, t3))
        else pure none) := by
    unfold _get_args_one
    rw [g1]
    simp only [Except.bind, bind]
    have e1 : ¬ (GETARG_RESULT_NOTOKEN = GETARG_RESULT_OK) := by decide
    have e2 : ¬ (GETARG_RESULT_NOTOKEN = GETARG_RESULT_ERROR) := by decide
    simp only [e1, e2, if_false]
    rw [h1]
    simp only [_get_arg_required, Except.bind, bind]
    rw [k1]
    rfl
  constructor
  · intro k hk
    refine ⟨t3, ?_, k2⟩
    rw [hone]
    unfold hash_kind at hk
    by_cases c1 : a.type = ARG_TYPE_SHORTMEM
    · simp only [c1, if_true] at hk ⊢
      injection hk with hk
      rw [← hk]
      rfl
    · by_cases c2 : a.type = ARG_TYPE_LONGMEM
      · simp only [c1, c2, if_true, if_false] at hk ⊢
        injection hk with hk
        rw [← hk]
        rfl
      · simp [c1, c2] at hk
  · intro hk
    rw [hone]
    unfold hash_kind at hk
    by_cases c1 : a.type = ARG_TYPE_SHORTMEM
    · simp [c1] at hk
    · by_cases c2 : a.type = ARG_TYPE_LONGMEM
      · simp [c1, c2] at hk
      · simp only [c1, c2, if_false]
        rfl

/-! ## The kinds of the operands -/

/-- C14, the operand that the claim classifies otherwise. The operand `{$1234}` is
taken with the kind SHORTMEM although its value is not below 0x100, and so
`ld A, {$1234}` is assembled as the short form B6 34, while `ld A, $1234` gives the
long form C6 12 34; after `#` the expression `{$1234}` is a BYTE. -/
theorem C14_bare_expression_is_short :
    (_get_arg assembler_init arg_zero (token_prepare (cstr "{$1234}\n"))).map
        (fun r => (r.1, r.2.1.type, r.2.1.value))
      = .ok (GETARG_RESULT_OK, ARG_TYPE_SHORTMEM, 0x1234) ∧
    (_get_args_one assembler_init arg_zero (token_prepare (cstr "#{$1234}\n"))).map
        (fun r => r.map (fun x => (x.1.type, x.1.value)))
      = .ok (some (ARG_TYPE_BYTE, 0x1234)) ∧
    assemble_text "ld A, {$1234}\n" = .ok [0xB6, 0x34] ∧
    assemble_text "ld A, $1234\n" = .ok [0xC6, 0x12, 0x34] := by
  decide!

/-- C14. The kinds that `_get_arg` and `_get_args` give to an operand at the token
state `t`. A numeric literal has the kind of its value: SHORTMEM below 0x100,
LONGMEM below 0x10000, EXTMEM otherwise; after `#` it is a BYTE below 0x100, a WORD
below 0x10000 and refused otherwise. An expression in braces is SHORTMEM whatever
its value, and a BYTE after `#`; followed by `.w8`, `.w16` or `.w24` it is
SHORTMEM, LONGMEM or EXTMEM. A symbol (constant, extern or label) has the kind of
its declared width, SHORTMEM for 1 byte, LONGMEM for 2 and EXTMEM for 3, whatever
its value. -/
theorem C14_operand_kinds (ctx : asm_context_t) (arg : arg_t) (t : token_t)
    (hsm : token_small t) :
    (∀ ws text d0 rest v, token_stream t = ws ++ (text ++ d0 :: rest) → blanks ws →
      number_text text = true → text.length ≤ 500 → is_symbol_char d0 = false →
      lang_util_str2num text = .ok v →
      ∃ t1, _get_arg ctx arg t
          = .ok (GETARG_RESULT_OK, { arg with value := v, type := value_kind v }, t1) ∧
        token_stream t1 = d0 :: rest) ∧
    (∀ ws ws2 text d0 rest v, token_stream t = ws ++ 35 :: (ws2 ++ (text ++ d0 :: rest)) →
      blanks ws → blanks ws2 → number_text text = true → text.length ≤ 500 →
      is_symbol_char d0 = false → lang_util_str2num text = .ok v →
      (v < 0x100 → ∃ t1, _get_args_one ctx arg t
          = .ok (some ({ arg with value := v, type := ARG_TYPE_BYTE }, t1)) ∧
        token_stream t1 = d0 :: rest) ∧
      (0x100 ≤ v → v < 0x10000 → ∃ t1, _get_args_one ctx arg t
          = .ok (some ({ arg with value := v, type := ARG_TYPE_WORD }, t1)) ∧
        token_stream t1 = d0 :: rest) ∧
      (0x10000 ≤ v → _get_args_one ctx arg t = .ok none)) ∧
    (∀ e ws0 ws1 rest v,
      token_stream t = ws0 ++ 123 :: (cprint e ++ (ws1 ++ 125 :: rest)) →
      blanks ws0 → blanks ws1 → cfits 0 e = true → ceval ctx.symbols e = .ok v →
      cdepth e ≤ EXPR_STACK_SIZE → blank_run rest ≤ 500 → stream_head rest ≠ some 46 →
      ∃ t1, _get_arg ctx arg t
          = .ok (GETARG_RESULT_OK, { arg with type := ARG_TYPE_SHORTMEM, value := v }, t1) ∧
        token_stream t1 = rest) ∧
    (∀ e ws ws0 ws1 rest v,
      token_stream t = ws ++ 35 :: (ws0 ++ 123 :: (cprint e ++ (ws1 ++ 125 :: rest))) →
      blanks ws → blanks ws0 → blanks ws1 → cfits 0 e = true →
      ceval ctx.symbols e = .ok v → cdepth e ≤ EXPR_STACK_SIZE → blank_run rest ≤ 500 →
      stream_head rest ≠ some 46 →
      ∃ t1, _get_args_one ctx arg t
          = .ok (some ({ arg with type := ARG_TYPE_BYTE, value := v }, t1)) ∧
        token_stream t1 = rest) ∧
    (∀ e ws0 ws1 ws2 ws3 sfx d0 rest v k,
      token_stream t = ws0 ++ 123 :: (cprint e ++ (ws1 ++ 125 ::
        (ws2 ++ 46 :: (ws3 ++ (sfx ++ d0 :: rest))))) →
      blanks ws0 → blanks ws1 → blanks ws2 → blanks ws3 → cfits 0 e = true →
      ceval ctx.symbols e = .ok v → cdepth e ≤ EXPR_STACK_SIZE →
      suffix_kind sfx = some k → is_symbol_char d0 = false →
      ∃ t1, _get_arg ctx arg t
          = .ok (GETARG_RESULT_OK, { arg with type := k, value := v }, t1) ∧
        token_stream t1 = d0 :: rest) ∧
    (∀ ws name d0 rest s k, token_stream t = ws ++ (name ++ d0 :: rest) → blanks ws →
      symbol_text name = true → name.length ≤ 500 → is_symbol_char d0 = false →
      arg_register name = none → symbol_find ctx.symbols name = some s →
      (s.type = SYMBOL_TYPE_CONST ∨ s.type = SYMBOL_TYPE_EXTERN ∨ s.type = SYMBOL_TYPE_LABEL) →
      width_kind s.width = some k →
      ∃ t1, _get_arg ctx arg t
          = .ok (GETARG_RESULT_OK, { symbol_operand arg s with type := k }, t1) ∧
        token_stream t1 = d0 :: rest) := by
  refine ⟨?_, ?_, ?_, ?_, ?_, ?_⟩
  · intro ws text d0 rest v hst hw hn hl hd0 hv
    obtain ⟨t1, h1, h2, _⟩ := get_arg_literal ctx arg t ws text rest d0 v hsm hst hw hn hl hd0 hv
    exact ⟨t1, h1, h2⟩
  · intro ws ws2 text d0 rest v hst hw hw2 hn hl hd0 hv
    have hh := get_args_one_hash ctx arg { arg with value := v, type := value_kind v } t ws _
      (d0 :: rest) hsm hst hw
      (fun t2 hsm2 hst2 => by
        obtain ⟨t3, h1, h2, _⟩ := get_arg_literal ctx arg t2 ws2 text rest d0 v hsm2 hst2 hw2
          hn hl hd0 hv
        exact ⟨t3, h1, h2⟩)
    refine ⟨?_, ?_, ?_⟩
    · intro hlt
      have hk : value_kind v = ARG_TYPE_SHORTMEM := by simp [value_kind, hlt]
      obtain ⟨t1, h1, h2⟩ := hh.1 ARG_TYPE_BYTE (by simp only [hk]; rfl)
      exact ⟨t1, h1, h2⟩
    · intro hge hlt
      have hk : value_kind v = ARG_TYPE_LONGMEM := by
        have : ¬ (v < 0x100) := by omega
        simp [value_kind, this, hlt]
      obtain ⟨t1, h1, h2⟩ := hh.1 ARG_TYPE_WORD (by simp only [hk]; rfl)
      exact ⟨t1, h1, h2⟩
    · intro hge
      have hk : value_kind v = ARG_TYPE_EXTMEM := by
        have h1 : ¬ (v < 0x100) := by omega
        have h2 : ¬ (v < 0x10000) := by omega
        simp [value_kind, h1, h2]
      exact hh.2 (by simp only [hk]; rfl)
  · intro e ws0 ws1 rest v hst hw0 hw1 hfit hv hd hrun hdot
    obtain ⟨t1, h1, h2, _⟩ := get_arg_expr ctx arg t e ws0 ws1 rest v hsm hst hw0 hw1 hfit hv hd
      hrun hdot
    exact ⟨t1, h1, h2⟩
  · intro e ws ws0 ws1 rest v hst hw hw0 hw1 hfit hv hd hrun hdot
    have hh := get_args_one_hash ctx arg { arg with type := ARG_TYPE_SHORTMEM, value := v } t ws
      _ rest hsm hst hw
      (fun t2 hsm2 hst2 => by
        obtain ⟨t3, h1, h2, _⟩ := get_arg_expr ctx arg t2 e ws0 ws1 rest v hsm2 hst2 hw0 hw1
          hfit hv hd hrun hdot
        exact ⟨t3, h1, h2⟩)
    obtain ⟨t1, h1, h2⟩ := hh.1 ARG_TYPE_BYTE rfl
    exact ⟨t1, h1, h2⟩
  · intro e ws0 ws1 ws2 ws3 sfx d0 rest v k hst hw0 hw1 hw2 hw3 hfit hv hd hk hd0
    obtain ⟨t1, h1, h2, _⟩ := get_arg_expr_suffix ctx arg t e ws0 ws1 ws2 ws3 sfx rest d0 v k
      hsm hst hw0 hw1 hw2 hw3 hfit hv hd hk hd0
    exact ⟨t1, h1, h2⟩
  · intro ws name d0 rest s k hst hw hn hl hd0 hreg hs hty hk
    obtain ⟨t1, h1, h2, _⟩ := get_arg_symbol ctx arg t ws name rest d0 s k hsm hst hw hn hl hd0
      hreg hs hty hk
    exact ⟨t1, h1, h2⟩

/-- Witness of `C14_operand_kinds`: the literal `$1234` is LONGMEM; `#$12` is a BYTE;
`{$12}.w16` is LONGMEM; the constant K of width w16 and value 5 is LONGMEM. -/
theorem C14_operand_kinds_witness :
    (∃ t1, _get_arg c14_ctx arg_zero (token_prepare (cstr "$1234\n"))
        = .ok (GETARG_RESULT_OK, { arg_zero with value := 0x1234, type := ARG_TYPE_LONGMEM }, t1) ∧
      token_stream t1 = [10]) ∧
    (∃ t1, _get_args_one c14_ctx arg_zero (token_prepare (cstr "#$12\n"))
        = .ok (some ({ arg_zero with value := 0x12, type := ARG_TYPE_BYTE }, t1)) ∧
      token_stream t1 = [10]) ∧
    (∃ t1, _get_arg c14_ctx arg_zero (token_prepare (cstr "{$12}.w16\n"))
        = .ok (GETARG_RESULT_OK, { arg_zero with type := ARG_TYPE_LONGMEM, value := 0x12 }, t1) ∧
      token_stream t1 = [10]) ∧
    (∃ t1, _get_arg c14_ctx arg_zero (token_prepare (cstr "K\n"))
        = .ok (GETARG_RESULT_OK, { arg_zero with type := ARG_TYPE_LONGMEM, value := 5 }, t1) ∧
      token_stream t1 = [10]) :=
  ⟨(C14_operand_kinds c14_ctx arg_zero (token_prepare (cstr "$1234\n"))
      ⟨by decide, by decide⟩).1 [] (cstr "$1234") 10 [] 0x1234 (by decide) ⟨rfl, by decide⟩
      (by decide) (by decide) (by decide) (by decide!),
   ((C14_operand_kinds c14_ctx arg_zero (token_prepare (cstr "#$12\n"))
      ⟨by decide, by decide⟩).2.1 [] [] (cstr "$12") 10 [] 0x12 (by decide) ⟨rfl, by decide⟩
      ⟨rfl, by decide⟩ (by decide) (by decide) (by decide) (by decide!)).1 (by decide),
   (C14_operand_kinds c14_ctx arg_zero (token_prepare (cstr "{$12}.w16\n"))
      ⟨by decide, by decide⟩).2.2.2.2.1 (.num [] (cstr "$12")) [] [] [] [] (cstr "w16") 10 []
      0x12 ARG_TYPE_LONGMEM (by decide) ⟨rfl, by decide⟩ ⟨rfl, by decide⟩ ⟨rfl, by decide⟩
      ⟨rfl, by decide⟩ (by decide) (by decide!) (by decide) (by decide) (by decide),
   (C14_operand_kinds c14_ctx arg_zero (token_prepare (cstr "K\n"))
      ⟨by decide, by decide⟩).2.2.2.2.2 [] (cstr "K") 10 []
      { type := SYMBOL_TYPE_CONST, name := cstr "K", sect := none, exp := 0, val64 := 5,
        width := 2 }
      ARG_TYPE_LONGMEM (by decide) ⟨rfl, by decide⟩ (by decide) (by decide) (by decide)
      (by decide) (by decide) (Or.inl rfl) (by decide)⟩

/-! ## The flags CHECK_LONG and CHECK_EXT -/

set_option maxRecDepth 1000000 in
theorem gen_functions_check_arglen :
    ∀ gf ∈ _gen_functions, ∀ g ∈ gf.geninfo,
      (gen_flag g GEN_FLAG_CHECK_LONG = true ∨ gen_flag g GEN_FLAG_CHECK_EXT = true) →
        g.arglen ≠ 0 := by
  decide

theorem width_kind_long (w : Nat) (h : width_kind w = some ARG_TYPE_LONGMEM) : w = 2 := by
  unfold width_kind at h
  by_cases h1 : w = 1
  · simp [h1] at h
  · by_cases h2 : w = 2
    · exact h2
    · by_cases h3 : w = 3
      · simp [h3] at h
      · simp [h1, h2, h3] at h

theorem width_kind_ext (w : Nat) (h : width_kind w = some ARG_TYPE_EXTMEM) : w = 3 := by
  unfold width_kind at h
  by_cases h1 : w = 1
  · simp [h1] at h
  · by_cases h2 : w = 2
    · simp [h2] at h
    · by_cases h3 : w = 3
      · exact h3
      · simp [h1, h2, h3] at h

theorem assemble_uni_rejected (gf : gen_functions_t) (hgf : gf ∈ _gen_functions)
    (huni : gf.func = gen_func_t._assemble_uni) (ctx : asm_context_t) (args : List arg_t)
    (g : gen_info_t) (s : symbol_t) (hrow : uni_first_row args gf.geninfo = some g)
    (hsym : (uni_arg args g).symbol = some s) (hrej : uni_rejects g (uni_arg args g)) :
    _assemble ctx gf.name args = .error "Invalid arguments to instruction" := by
  have hmem := uni_first_row_mem args gf.geninfo g hrow
  have hlen : g.arglen ≠ 0 := by
    apply gen_functions_check_arglen gf hgf g hmem
    rcases hrej with h | h
    · exact Or.inl h.1
    · exact Or.inr h.1
  rw [assemble_of_uni gf hgf huni, assemble_uni_find, hrow]
  simp only
  rcases assemble_uni_row_reject ctx args g s hlen hsym hrej with h | h <;> rw [h]

/-- C15. For every mnemonic that `_assemble_uni` encodes, when the operand of the
first matching row is a symbol `s` with the kind of its declared width (as
`_get_arg` gives it): a row flagged CHECK_LONG makes `_assemble` fail when the width
of `s` is not 2 bytes (w16), and a row flagged CHECK_EXT when it is not 3 bytes
(w24). For `call`: with an operand that is a symbol `f` of width 1 (w8, the
default) and kind SHORTMEM, `_assemble` fails; with `f` of width 2 (w16) and kind
LONGMEM it appends CD 00 00 to the current section and records one absolute
relocation of length 2 against `f` at the offset of the first zero byte. -/
theorem C15_check_flags (gf : gen_functions_t) (hgf : gf ∈ _gen_functions)
    (huni : gf.func = gen_func_t._assemble_uni) (ctx : asm_context_t) (args : List arg_t)
    (g : gen_info_t) (s : symbol_t) (hrow : uni_first_row args gf.geninfo = some g)
    (hsym : (uni_arg args g).symbol = some s)
    (hkind : width_kind s.width = some (uni_arg args g).type) :
    (gen_flag g GEN_FLAG_CHECK_LONG = true → s.width ≠ 2 →
      _assemble ctx gf.name args = .error "Invalid arguments to instruction") ∧
    (gen_flag g GEN_FLAG_CHECK_EXT = true → s.width ≠ 3 →
      _assemble ctx gf.name args = .error "Invalid arguments to instruction") ∧
    (∀ (f : symbol_t) (a : arg_t) (sec : section_t), a.symbol = some f →
      section_find ctx.sections ctx.sect = some sec → section_wf sec →
      (f.width = 1 → a.type = ARG_TYPE_SHORTMEM →
        _assemble ctx (cstr "call") [a, arg_zero, arg_zero, arg_zero]
          = .error "Invalid arguments to instruction") ∧
      (f.width = 2 → a.type = ARG_TYPE_LONGMEM →
        ∃ ctx1, _assemble ctx (cstr "call") [a, arg_zero, arg_zero, arg_zero] = .ok ctx1 ∧
          section_find ctx1.sections ctx.sect = some (push_bytes sec [0xCD, 0, 0]) ∧
          ctx1.relocations = ctx.relocations ++
            [{ type := RELOCATION_TYPE_ABOSULTE, sect := ctx.sect, symbol := f.name,
               offset := sec.length + 1, length := 2, adjust := 0 }])) := by
  refine ⟨?_, ?_, ?_⟩
  · intro hflag hw
    apply assemble_uni_rejected gf hgf huni ctx args g s hrow hsym
    left
    refine ⟨hflag, ?_⟩
    intro hty
    rw [hty] at hkind
    exact hw (width_kind_long _ hkind)
  · intro hflag hw
    apply assemble_uni_rejected gf hgf huni ctx args g s hrow hsym
    right
    refine ⟨hflag, ?_⟩
    intro hty
    rw [hty] at hkind
    exact hw (width_kind_ext _ hkind)
  · intro f a sec hf hsec hwf
    have hcall : (⟨cstr "call", gen_func_t._assemble_uni, _gen_info_call⟩ : gen_functions_t)
        ∈ _gen_functions := by decide
    constructor
    · intro _ hty
      have hua : uni_arg [a, arg_zero, arg_zero, arg_zero]
          ⟨ARG_TYPE_SHORTMEM, ARG_TYPE_NONE, ARG_TYPE_NONE, ARG_TYPE_NONE, PREBYTE_NONE, 0xCD,
            2, GEN_FLAG_ARG_DST ||| GEN_FLAG_CHECK_LONG⟩ = a := by
        unfold uni_arg
        rw [if_pos (by decide)]
        rfl
      have hrow1 : uni_first_row [a, arg_zero, arg_zero, arg_zero] _gen_info_call
          = some ⟨ARG_TYPE_SHORTMEM, ARG_TYPE_NONE, ARG_TYPE_NONE, ARG_TYPE_NONE, PREBYTE_NONE,
              0xCD, 2, GEN_FLAG_ARG_DST ||| GEN_FLAG_CHECK_LONG⟩ := by
        simp [uni_first_row, _gen_info_call, gen_match, arg_at, hty, gen_flag, arg_zero,
          List.takeWhile_cons, List.find?_cons]
        decide
      exact assemble_uni_rejected ⟨cstr "call", gen_func_t._assemble_uni, _gen_info_call⟩ hcall
        rfl ctx [a, arg_zero, arg_zero, arg_zero] _ f hrow1 (by rw [hua]; exact hf)
        (Or.inl ⟨by decide, by rw [hua, hty]; decide⟩)
    · intro _ hty
      have hua : uni_arg [a, arg_zero, arg_zero, arg_zero]
          ⟨ARG_TYPE_LONGMEM, ARG_TYPE_NONE, ARG_TYPE_NONE, ARG_TYPE_NONE, PREBYTE_NONE, 0xCD,
            2, GEN_FLAG_ARG_DST ||| GEN_FLAG_NONE⟩ = a := by
        unfold uni_arg
        rw [if_pos (by decide)]
        rfl
      have hrow2 : uni_first_row [a, arg_zero, arg_zero, arg_zero] _gen_info_call
          = some ⟨ARG_TYPE_LONGMEM, ARG_TYPE_NONE, ARG_TYPE_NONE, ARG_TYPE_NONE, PREBYTE_NONE,
              0xCD, 2, GEN_FLAG_ARG_DST ||| GEN_FLAG_NONE⟩ := by
        simp [uni_first_row, _gen_info_call, gen_match, arg_at, hty, gen_flag, arg_zero,
          List.takeWhile_cons, List.find?_cons]
        decide
      rw [assemble_of_uni ⟨cstr "call", gen_func_t._assemble_uni, _gen_info_call⟩ hcall rfl,
        assemble_uni_find]
      simp only [hrow2]
      rw [assemble_uni_row_symbol ctx _ _ sec f hsec hwf (by decide) (by decide)
        (by rw [hua]; exact hf)
        (by
          intro hr
          rcases hr with h | h
          · exact absurd h.1 (by decide)
          · exact absurd h.1 (by decide))]
      exact ⟨_, rfl, ctx_append_find ctx sec _ hsec, rfl⟩

set_option maxRecDepth 100000 in
/-- Witness of `C15_check_flags`: `call G` with the extern G of width w8 fails at the
first row of the table of `call`, which is flagged CHECK_LONG; `call F` with the
extern F of width w16 at the start of section "text" gives CD 00 00 and one
absolute relocation of length 2 at offset 1 against F. From source text: `call F`
fails after `.extern F` and after the label `F:`, and after `.extern F.w16` or the
label `F.w16:` it is assembled to CD 00 00. -/
theorem C15_check_flags_witness :
    _assemble assembler_init (cstr "call") c8_args
      = .error "Invalid arguments to instruction" ∧
    (∃ ctx1, _assemble assembler_init (cstr "call")
        [{ type := ARG_TYPE_LONGMEM, value := 0, symbol := some c7_extern }, arg_zero,
          arg_zero, arg_zero] = .ok ctx1 ∧
      section_find ctx1.sections (cstr "text") = some (push_bytes c7w_text [0xCD, 0, 0]) ∧
      ctx1.relocations = [] ++
        [{ type := RELOCATION_TYPE_ABOSULTE, sect := cstr "text", symbol := [70],
           offset := 0 + 1, length := 2, adjust := 0 }]) ∧
    assemble_text ".extern F\n call F\n" = .error "Invalid arguments to instruction" ∧
    assemble_text "F:\n call F\n" = .error "Invalid arguments to instruction" ∧
    assemble_text ".extern F.w16\n call F\n" = .ok [0xCD, 0, 0] ∧
    assemble_relocations ".extern F.w16\n call F\n"
      = .ok [(RELOCATION_TYPE_ABOSULTE, cstr "F", 1, 2, 0)] ∧
    assemble_text "F.w16:\n call F\n" = .ok [0xCD, 0, 0] :=
  ⟨(C15_check_flags ⟨cstr "call", gen_func_t._assemble_uni, _gen_info_call⟩ (by decide) rfl
      assembler_init c8_args
      ⟨ARG_TYPE_SHORTMEM, ARG_TYPE_NONE, ARG_TYPE_NONE, ARG_TYPE_NONE, PREBYTE_NONE, 0xCD, 2,
        GEN_FLAG_ARG_DST ||| GEN_FLAG_CHECK_LONG⟩ c8_extern (by decide) (by decide)
      (by decide)).1 (by decide) (by decide),
   ((C15_check_flags ⟨cstr "call", gen_func_t._assemble_uni, _gen_info_call⟩ (by decide) rfl
      assembler_init c8_args
      ⟨ARG_TYPE_SHORTMEM, ARG_TYPE_NONE, ARG_TYPE_NONE, ARG_TYPE_NONE, PREBYTE_NONE, 0xCD, 2,
        GEN_FLAG_ARG_DST ||| GEN_FLAG_CHECK_LONG⟩ c8_extern (by decide) (by decide)
      (by decide)).2.2 c7_extern
      { type := ARG_TYPE_LONGMEM, value := 0, symbol := some c7_extern } c7w_text rfl
      (by decide) ⟨by decide, by decide⟩).2 (by decide) rfl,
   by decide!, by decide!, by decide!, by decide!, by decide!⟩

/-! ## The relative jump `jra` -/

theorem assemble_of_entry (gf : gen_functions_t) (hgf : gf ∈ _gen_functions)
    (ctx : asm_context_t) (args : List arg_t) :
    _assemble ctx gf.name args =
      match gen_func_call gf.func ctx args gf.geninfo with
      | .error _ => .error "Invalid arguments to instruction"
      | .ok ctx1 => .ok ctx1 := by
  unfold _assemble
  rw [assemble_in_find, gen_functions_lookup gf hgf]

theorem ctx_push_one (ctx : asm_context_t) (sec : section_t) (b : Nat)
    (hsec : section_find ctx.sections ctx.sect = some sec) (hwf : section_wf sec) :
    ctx_pushdata ctx [b] 1 = ctx_append ctx sec [b] :=
  ctx_pushdata_eq ctx [b] 1 sec hsec hwf.1 (by have := hwf.2; omega) (by simp)

/-- The encoder of `jra` for a symbol operand of kind SHORTMEM: the opcode 0x20, one
zero byte, and a relative relocation of length 1 with adjust 1 at the offset of the
zero byte. -/
theorem assemble_jra_symbol (ctx : asm_context_t) (sec : section_t) (T : symbol_t) (a : arg_t)
    (ha : a.symbol = some T) (hty : a.type = ARG_TYPE_SHORTMEM)
    (hsec : section_find ctx.sections ctx.sect = some sec) (hwf : section_wf sec) :
    _assemble ctx (cstr "jra") [a, arg_zero, arg_zero, arg_zero] = .ok
      { ctx_append ctx sec [0x20, 0] with
        relocations := ctx.relocations ++
          [{ type := RELOCATION_TYPE_RELATIVE, sect := ctx.sect, symbol := T.name,
             offset := sec.length + 1, length := 1, adjust := 1 }] } := by
  have hjra : (⟨cstr "jra", gen_func_t._assemble_jr, _gen_info_jra⟩ : gen_functions_t)
      ∈ _gen_functions := by decide
  rw [assemble_of_entry ⟨cstr "jra", gen_func_t._assemble_jr, _gen_info_jra⟩ hjra]
  have hm : gen_match [a, arg_zero, arg_zero, arg_zero]
      ⟨ARG_TYPE_SHORTMEM, ARG_TYPE_NONE, ARG_TYPE_NONE, ARG_TYPE_NONE, PREBYTE_NONE, 0x20, 1,
        GEN_FLAG_NONE⟩ = true := by
    simp [gen_match, arg_at, hty, arg_zero]
  have h2 : ¬ ((arg_at [a, arg_zero, arg_zero, arg_zero] 2).type ≠ ARG_TYPE_NONE) := by
    simp [arg_at, arg_zero]
  have h0 : arg_at [a, arg_zero, arg_zero, arg_zero] 0 = a := rfl
  have hp : ¬ ((0 : Nat) ≠ PREBYTE_NONE) := by decide
  simp only [gen_func_call, _assemble_jr, _gen_info_jra, h2, if_false, hm, if_true, h0, ha]
  have hne : ¬ (PREBYTE_NONE ≠ PREBYTE_NONE) := by simp
  have h1 : (1 : Nat) ≠ 0 := by decide
  simp only [hne, if_false, h1, ne_eq, not_false_eq_true, if_true]
  rw [ctx_push_one ctx sec 0x20 hsec hwf]
  have hfind : section_find (ctx_relocations_add (ctx_append ctx sec [0x20]) T 1 1
      RELOCATION_TYPE_RELATIVE).sections
      (ctx_relocations_add (ctx_append ctx sec [0x20]) T 1 1 RELOCATION_TYPE_RELATIVE).sect
      = some (push_bytes sec [0x20]) := ctx_append_find ctx sec _ hsec
  rw [ctx_pushdata_eq _ _ 1 _ hfind (push_bytes_wf sec _ hwf.1)
    (by rw [push_bytes_length]; have := hwf.2; simp only [List.length_singleton]; omega)
    (by rw [le_bytes_length]; omega)]
  have hlen2 : ctx_section_length (ctx_append ctx sec [0x20]) = sec.length + 1 := by
    have := ctx_append_find ctx sec [0x20] hsec
    unfold ctx_section_length
    rw [this]
    rfl
  simp only [ctx_relocations_add, relocations_add, hlen2]
  unfold ctx_append
  simp only [push_bytes_push_bytes]
  rw [section_update_twice ctx.sections ctx.sect (push_bytes sec [0x20])
    (push_bytes sec ([0x20] ++ List.take 1 (le_bytes 0 8)))
    (section_find_name _ _ sec hsec)]
  rfl

theorem apply_relocation_relative_eq (ctx : linker_context_t) (r : relocation_t)
    (T : symbol_t) (R S : section_t) (ts : CStr)
    (hT : symbol_find ctx.result.symbols r.symbol = some T)
    (hlab : T.type = SYMBOL_TYPE_LABEL) (hw : T.width = 1)
    (hTs : T.sect = some ts) (hS : section_find ctx.result.sections ts = some S)
    (hR : section_find ctx.result.sections r.sect = some R)
    (hty : r.type = RELOCATION_TYPE_RELATIVE) (hlen : r.length = 1) (jump : Int)
    (hj : i64 (T.val64 - u32 (R.vma + r.offset + r.adjust)) = jump)
    (hin : ¬ (jump < -128 ∨ 127 < jump)) :
    _apply_relocation ctx r =
      match section_patch R r.offset (le_bytes (u64 jump) 8) 1 with
      | .error e => .error e
      | .ok rsection1 => .ok { ctx with result :=
            { ctx.result with
              symbols := symbol_update ctx.result.symbols r.symbol (fun _ => T)
              sections := section_update ctx.result.sections r.sect (fun _ => rsection1) } } := by
  have hne : ¬ T.type = SYMBOL_TYPE_EXTERN := by rw [hlab]; decide
  have hnc : ¬ T.type = SYMBOL_TYPE_CONST := by rw [hlab]; decide
  have hrel : ¬ r.type = RELOCATION_TYPE_ABOSULTE := by rw [hty]; decide
  have hpatch : _relocation_patch ctx.result.sections T R r = .ok (u64 jump) := by
    unfold _relocation_patch
    simp only [hnc, if_false, hTs, Option.bind_some, hS, hrel, hlen, _sminnum, _smaxnum,
      if_true, hj, hw, _mkpatch, host_tole32]
    by_cases h0 : jump < 0
    · simp only [h0, if_true]
      have h1 : ¬ jump < -128 := by omega
      simp [h1, hS]
    · simp only [h0, if_false]
      have h1 : ¬ jump > 127 := by omega
      simp [h1, hS]
  unfold _apply_relocation
  simp only [hT, hne, if_false, hR, hpatch, hlen]

/-- Linking `jra` to the label three bytes on, whatever the VMA of the section: the
displacement byte becomes 1. -/
theorem patch_sections_jra (R : section_t) (tn : CStr) (o : Nat)
    (hload : R.noload = 0) (hlen : o + 2 ≤ R.length)
    (hvma : R.vma + o + 2 < 4294967296) (hop : R.data.getD o 0 = 0x20) :
    ∃ ctx1 R1, _patch_sections (jra_linked R tn o) = .ok ctx1 ∧
      section_find ctx1.result.sections R.name = some R1 ∧
      R1.data.getD o 0 = 0x20 ∧ R1.data.getD (o + 1) 0 = 0x01 := by
  have hov : _overlap_outer [R] [R] = .ok () := by
    simp [_overlap_outer, _overlap_inner, _overlap_pair]
  have hsf : section_find [R] R.name = some R := by
    simp [section_find]
  have hfix : _fix_symbols [R] [jra_label tn R.name o]
      = .ok [{ jra_label tn R.name o with val64 := i64 ((o : Int) + 3 + R.vma) }] := by
    simp [_fix_symbols, jra_label, hsf]
  have hval : i64 ((o : Int) + 3 + R.vma) = (o : Int) + 3 + R.vma := by
    apply i64_of_range <;> omega
  have hjump : i64 (i64 ((o : Int) + 3 + R.vma) -
      u32 ((R.vma : Int) + ((o + 1 : Nat) : Int) + 1)) = 1 := by
    rw [hval]
    have : ((u32 ((R.vma : Int) + ((o + 1 : Nat) : Int) + 1) : Nat) : Int)
        = (R.vma : Int) + o + 2 := by
      unfold u32
      omega
    rw [this]
    unfold i64
    omega
  have hpatch : section_patch R (o + 1) (le_bytes (u64 1) 8) 1
      = .ok { R with data := memcpy_at R.data (o + 1) (le_bytes (u64 1) 8) 1 } := by
    unfold section_patch
    have h1 : ¬ (R.noload ≠ 0) := by simp [hload]
    have h2 : ¬ ((o + 1 + 1) % 4294967296 > R.length) := by omega
    simp only [h1, h2, if_false]
  have hstep := apply_relocation_relative_eq
    { jra_linked R tn o with
      result := { (jra_linked R tn o).result with
        symbols := [{ jra_label tn R.name o with val64 := i64 ((o : Int) + 3 + R.vma) }] } }
    (jra_relocation tn R.name o)
    { jra_label tn R.name o with val64 := i64 ((o : Int) + 3 + R.vma) } R R R.name
    (by simp [symbol_find, jra_relocation, jra_label]) rfl rfl rfl
    (by simpa [jra_linked] using hsf) (by simpa [jra_linked, jra_relocation] using hsf)
    rfl rfl 1 (by simpa [jra_relocation, jra_label] using hjump) (by omega)
  have hrun : ∃ ctx1, _patch_sections (jra_linked R tn o) = .ok ctx1 ∧
      ctx1.result.sections = section_update [R] R.name
        (fun _ => { R with data := memcpy_at R.data (o + 1) (le_bytes (u64 1) 8) 1 }) := by
    unfold _patch_sections
    simp only [jra_linked, hov, hfix, _apply_relocations]
    simp only [jra_linked] at hstep
    rw [hstep]
    simp only [jra_relocation]
    rw [hpatch]
    exact ⟨_, rfl, rfl⟩
  obtain ⟨ctx1, h1, h2⟩ := hrun
  refine ⟨ctx1, { R with data := memcpy_at R.data (o + 1) (le_bytes (u64 1) 8) 1 }, h1, ?_, ?_, ?_⟩
  · rw [h2]
    simp [section_update, section_find]
  · show (memcpy_at R.data (o + 1) (le_bytes (u64 1) 8) 1).getD o 0 = 0x20
    rw [memcpy_at_getD_outside _ _ _ _ _ (Or.inl (by omega))]
    exact hop
  · show (memcpy_at R.data (o + 1) (le_bytes (u64 1) 8) 1).getD (o + 1) 0 = 0x01
    rw [memcpy_at_getD_first _ _ _ _ (by omega)]
    decide

/-- C16, the limit of the claim. The source `jra T`, `nop`, `T:`, `nop`, linked with
the section "text" at the VMA 0xFFFFFFFE: the address of the byte after the
displacement, computed in `uint32_t`, wraps to 0, the label has the 64-bit value
0x100000001, and the link stops with "Symbol jump too long". At the VMA 0xFFFFFFFD
the address is 0xFFFFFFFF and the displacement byte becomes 1. -/
theorem C16_jra_at_the_top_of_the_address_space :
    link_source "jra T\n nop\nT:\n nop\n" [script_item.place (cstr "text") 0x8000 0xFFFFFFFE]
      = .error "Symbol jump too long" ∧
    link_source "jra T\n nop\nT:\n nop\n" [script_item.place (cstr "text") 0x8000 0xFFFFFFFD]
      = .ok [0x20, 1, 0x9D, 0x9D] := by
  decide!

/-- C16. `jra` with an operand that is the symbol `T` of kind SHORTMEM (a label of
the default width), at the end of the current section `sec`: `_assemble` appends the
opcode 0x20 and one zero byte and records one relative relocation of length 1 and
adjust 1 against `T` at the offset of the zero byte. Linking: for an output section
`R` that holds the opcode at offset `o`, with the label at offset `o + 3` of `R` and
that relocation, `_patch_sections` succeeds for every VMA of `R` at which the address
of the byte after the displacement is below 2^32, and then the two bytes at the
offsets `o` and `o + 1` are 0x20 0x01. -/
theorem C16_jra_to_label (ctx : asm_context_t) (sec : section_t) (T : symbol_t) (a : arg_t)
    (ha : a.symbol = some T) (hty : a.type = ARG_TYPE_SHORTMEM)
    (hsec : section_find ctx.sections ctx.sect = some sec) (hwf : section_wf sec) :
    (∃ ctx1, _assemble ctx (cstr "jra") [a, arg_zero, arg_zero, arg_zero] = .ok ctx1 ∧
      section_find ctx1.sections ctx.sect = some (push_bytes sec [0x20, 0]) ∧
      ctx1.relocations = ctx.relocations ++ [jra_relocation T.name ctx.sect sec.length]) ∧
    (∀ (R : section_t) (tn : CStr) (o : Nat), R.noload = 0 → o + 2 ≤ R.length →
      R.vma + o + 2 < 4294967296 → R.data.getD o 0 = 0x20 →
      ∃ ctx1 R1, _patch_sections (jra_linked R tn o) = .ok ctx1 ∧
        section_find ctx1.result.sections R.name = some R1 ∧
        R1.data.getD o 0 = 0x20 ∧ R1.data.getD (o + 1) 0 = 0x01) := by
  constructor
  · rw [assemble_jra_symbol ctx sec T a ha hty hsec hwf]
    exact ⟨_, rfl, ctx_append_find ctx sec _ hsec, rfl⟩
  · intro R tn o hload hlen hvma hop
    exact patch_sections_jra R tn o hload hlen hvma hop

/-- Witness of `C16_jra_to_label`: `jra T` at the start of the empty section "text"
gives 20 00 and the relocation at offset 1; the section 20 00 9D 9D with the label
at offset 3, placed at the VMA 0x12345, is patched to 20 01. From the source text
`jra T`, `nop`, `T:`, `nop`: both passes give 20 00 9D 9D and that relocation, and
the object, written, read back and linked at the VMA 0x8000 or 0x12345, gives
20 01 9D 9D. -/
theorem C16_jra_to_label_witness :
    (∃ ctx1, _assemble assembler_init (cstr "jra")
        [{ type := ARG_TYPE_SHORTMEM, value := 0, symbol := some c16_label }, arg_zero,
          arg_zero, arg_zero] = .ok ctx1 ∧
      section_find ctx1.sections (cstr "text") = some (push_bytes c7w_text [0x20, 0]) ∧
      ctx1.relocations = [] ++ [jra_relocation (cstr "T") (cstr "text") 0]) ∧
    (∃ ctx1 R1, _patch_sections (jra_linked (c16_text 0x12345) (cstr "a:T") 0) = .ok ctx1 ∧
      section_find ctx1.result.sections (cstr "text") = some R1 ∧
      R1.data.getD 0 0 = 0x20 ∧ R1.data.getD (0 + 1) 0 = 0x01) ∧
    assemble_text "jra T\n nop\nT:\n nop\n" = .ok [0x20, 0, 0x9D, 0x9D] ∧
    assemble_relocations "jra T\n nop\nT:\n nop\n"
      = .ok [(RELOCATION_TYPE_RELATIVE, cstr "T", 1, 1, 1)] ∧
    link_source "jra T\n nop\nT:\n nop\n" [script_item.place (cstr "text") 0x8000 0x8000]
      = .ok [0x20, 1, 0x9D, 0x9D] ∧
    link_source "jra T\n nop\nT:\n nop\n" [script_item.place (cstr "text") 0x8000 0x12345]
      = .ok [0x20, 1, 0x9D, 0x9D] :=
  ⟨(C16_jra_to_label assembler_init c7w_text c16_label
      { type := ARG_TYPE_SHORTMEM, value := 0, symbol := some c16_label } rfl rfl
      (by decide) ⟨by decide, by decide⟩).1,
   (C16_jra_to_label assembler_init c7w_text c16_label
      { type := ARG_TYPE_SHORTMEM, value := 0, symbol := some c16_label } rfl rfl
      (by decide) ⟨by decide, by decide⟩).2 (c16_text 0x12345) (cstr "a:T") 0 rfl
      (by decide) (by decide) (by decide),
   by decide!, by decide!, by decide!, by decide!⟩

/-! ## The encoders of the bit instructions and of `mov` -/

/-- A push to a context whose current section is `sec` with `bs` appended. -/
theorem ctx_pushdata_after (ctx c : asm_context_t) (sec : section_t) (bs d : List Nat) (n : Nat)
    (hsec : section_find ctx.sections ctx.sect = some sec)
    (hw : sec.noload = 0 → sec.data.length = sec.length)
    (hc1 : c.sect = ctx.sect) (hc2 : c.sections = (ctx_append ctx sec bs).sections)
    (hlen : sec.length + bs.length + n < 4294967296) (hn : n ≤ d.length) :
    ctx_pushdata c d n = { c with sections := (ctx_append ctx sec (bs ++ d.take n)).sections } := by
  have hfind : section_find c.sections c.sect = some (push_bytes sec bs) := by
    rw [hc1, hc2]
    exact ctx_append_find ctx sec bs hsec
  rw [ctx_pushdata_eq c d n _ hfind (push_bytes_wf sec bs hw)
    (by rw [push_bytes_length]; exact hlen) hn]
  unfold ctx_append
  simp only [hc1, hc2]
  congr 1
  simp only [ctx_append, push_bytes_push_bytes]
  rw [section_update_twice ctx.sections ctx.sect (push_bytes sec bs)
    (push_bytes sec (bs ++ List.take n d)) (section_find_name _ _ sec hsec)]

theorem ctx_section_length_after (ctx c : asm_context_t) (sec : section_t) (bs : List Nat)
    (hsec : section_find ctx.sections ctx.sect = some sec)
    (hc1 : c.sect = ctx.sect) (hc2 : c.sections = (ctx_append ctx sec bs).sections) :
    ctx_section_length c = sec.length + bs.length := by
  have h2 : section_find (ctx_append ctx sec bs).sections ctx.sect
      = some (push_bytes sec bs) := ctx_append_find ctx sec bs hsec
  unfold ctx_section_length
  rw [hc1, hc2, h2]
  rfl

theorem be16_bytes (v : Nat) : (le_bytes (host_tobe16 v) 8).take 2 = be_bytes v 2 := by
  have := uni_payload_bytes v 2 (by decide) (by decide)
  simpa using this

theorem le1_bytes (v : Nat) : (le_bytes (host_tole64 v) 8).take 1 = be_bytes v 1 := by
  simp [le_bytes, be_bytes, host_tole64]

theorem ctx_append_push (ctx : asm_context_t) (sec : section_t) (bs d : List Nat) (n : Nat)
    (hsec : section_find ctx.sections ctx.sect = some sec)
    (hw : sec.noload = 0 → sec.data.length = sec.length)
    (hlen : sec.length + bs.length + n < 4294967296) (hn : n ≤ d.length) :
    ctx_pushdata (ctx_append ctx sec bs) d n = ctx_append ctx sec (bs ++ d.take n) :=
  ctx_pushdata_after ctx (ctx_append ctx sec bs) sec bs d n hsec hw rfl rfl hlen hn

/-- A push after a relocation was added to a context whose current section is `sec`
with `bs` appended. -/
theorem ctx_append_reloc_push (ctx : asm_context_t) (sec : section_t) (bs d : List Nat)
    (n : Nat) (rl : relocations_t) (s : symbol_t) (len : Nat) (adj : Int) (ty : Nat)
    (hsec : section_find ctx.sections ctx.sect = some sec)
    (hw : sec.noload = 0 → sec.data.length = sec.length)
    (hlen : sec.length + bs.length + n < 4294967296) (hn : n ≤ d.length) :
    ctx_pushdata (ctx_relocations_add { ctx_append ctx sec bs with relocations := rl } s len adj
        ty) d n
      = { ctx_append ctx sec (bs ++ d.take n) with
          relocations := rl ++ [{ type := ty, sect := ctx.sect, symbol := s.name,
                                  offset := sec.length + bs.length, length := len,
                                  adjust := adj }] } := by
  have hl := ctx_section_length_after ctx { ctx_append ctx sec bs with relocations := rl } sec bs
    hsec rfl rfl
  rw [ctx_pushdata_after ctx
    (ctx_relocations_add { ctx_append ctx sec bs with relocations := rl } s len adj ty)
    sec bs d n hsec hw rfl rfl hlen hn]
  simp only [ctx_relocations_add, relocations_add, hl]
  rfl

/-- The parity bit of a row of the bit instructions. -/
theorem bit_opcode_eq (op b : Nat) (odd : Bool) (hop : op = 0 ∨ op = 0x10) (hb : b ≤ 7) :
    (if odd = true then (op ||| (1 + 2 * b)) % 256 else (op ||| (2 * b)) % 256)
      = op ||| (2 * b + (if odd = true then 1 else 0)) := by
  have hb8 : b < 8 := by omega
  rcases hop with rfl | rfl <;> cases odd <;> interval_cases b <;> decide

/-- The encoder of the bit instructions on a constant address and a constant bit
number in 0..7: prebyte, opcode with the bit number and the parity of the row, the
address as two bytes, most significant first, and then the displacement byte when
there is a third operand. -/
theorem assemble_bit_row (ctx : asm_context_t) (args : List arg_t) (g : gen_info_t)
    (rest : List gen_info_t) (sec : section_t)
    (hsec : section_find ctx.sections ctx.sect = some sec) (hwf : section_wf sec)
    (hpre : g.prebyte ≠ PREBYTE_NONE) (hop : g.opcode = 0 ∨ g.opcode = 0x10)
    (h0 : (arg_at args 0).type ≠ ARG_TYPE_NONE)
    (h1 : (arg_at args 1).type = ARG_TYPE_BYTE) (hg1 : g.arg1 = ARG_TYPE_BYTE)
    (h2 : g.arg2 = (arg_at args 2).type)
    (hbs : (arg_at args 1).symbol = none) (b : Nat) (hb : u8 (arg_at args 1).value = b)
    (hb7 : b ≤ 7)
    (hms : (arg_at args 0).symbol = none) (hm0 : 0 ≤ (arg_at args 0).value)
    (hm1 : (arg_at args 0).value ≤ 0xffff) :
    _assemble_bit ctx args (g :: rest) =
      if (arg_at args 2).type = ARG_TYPE_NONE then
        .ok (ctx_append ctx sec
          ([g.prebyte, g.opcode ||| (2 * b + (if gen_flag g GEN_FLAG_ODD = true then 1 else 0))]
            ++ be_bytes (u64 (arg_at args 0).value) 2))
      else
        match (arg_at args 2).symbol with
        | none =>
          .ok (ctx_append ctx sec
            ([g.prebyte,
              g.opcode ||| (2 * b + (if gen_flag g GEN_FLAG_ODD = true then 1 else 0))]
              ++ be_bytes (u64 (arg_at args 0).value) 2
              ++ be_bytes (u64 (arg_at args 2).value) 1))
        | some s =>
          if (arg_at args 2).type ≠ ARG_TYPE_SHORTMEM then .error "Symbol not shortmem"
          else
            .ok { ctx_append ctx sec
                ([g.prebyte,
                  g.opcode ||| (2 * b + (if gen_flag g GEN_FLAG_ODD = true then 1 else 0))]
                  ++ be_bytes (u64 (arg_at args 0).value) 2 ++ [0]) with
              relocations := ctx.relocations ++
                [{ type := RELOCATION_TYPE_RELATIVE, sect := ctx.sect, symbol := s.name,
                   offset := sec.length + 4, length := 1, adjust := 1 }] } := by
  have hmatch : ¬ ((g.arg0 ≠ ARG_TYPE_NONE ∧ (arg_at args 0).type = ARG_TYPE_NONE) ∨
      g.arg1 ≠ (arg_at args 1).type ∨ g.arg2 ≠ (arg_at args 2).type) := by
    intro h
    rcases h with h | h | h
    · exact h0 h.2
    · exact h (by rw [hg1, h1])
    · exact h h2
  have hnb : ¬ ((arg_at args 1).type ≠ ARG_TYPE_BYTE) := by simp [h1]
  have hb7b : ¬ (b > 7) := by omega
  have hrange : ¬ ((arg_at args 0).value < 0 ∨ (arg_at args 0).value > 0xffff) := by omega
  have hw := hwf.1
  have hl := hwf.2
  unfold _assemble_bit
  simp only [hmatch, hnb, if_false, hpre, ne_eq, not_false_eq_true, if_true, hbs, hb, hb7b, hms,
    hrange]
  rw [bit_opcode_eq g.opcode b (gen_flag g GEN_FLAG_ODD) hop hb7]
  rw [ctx_push_one ctx sec g.prebyte hsec hwf]
  rw [ctx_append_push ctx sec [g.prebyte] _ 1 hsec hw
    (by simp only [List.length_singleton]; omega) (by simp)]
  rw [ctx_append_push ctx sec _ _ 2 hsec hw
    (by simp only [List.length_append, List.length_singleton, List.take_succ_cons,
          List.take_zero, List.length_nil]; omega)
    (by rw [le_bytes_length]; omega), be16_bytes]
  have hl4 : ([g.prebyte] ++ List.take 1
      [g.opcode ||| (2 * b + if gen_flag g GEN_FLAG_ODD = true then 1 else 0)]
      ++ be_bytes (u64 (arg_at args 0).value) 2).length = 4 := by
    simp [be_bytes, le_bytes_length]
  by_cases hn : (arg_at args 2).type = ARG_TYPE_NONE
  · simp only [hn, not_true_eq_false, if_false, if_true]
    rfl
  · simp only [hn, not_false_eq_true, if_true, if_false]
    cases hsym : (arg_at args 2).symbol with
    | none =>
      simp only
      rw [ctx_append_push ctx sec _ _ 1 hsec hw (by rw [hl4]; omega)
        (by rw [le_bytes_length]; omega), le1_bytes]
      rfl
    | some s =>
      simp only
      by_cases hs : (arg_at args 2).type = ARG_TYPE_SHORTMEM
      · simp only [hs, not_true_eq_false, if_false]
        have := ctx_append_reloc_push ctx sec
          ([g.prebyte] ++ List.take 1
            [g.opcode ||| (2 * b + if gen_flag g GEN_FLAG_ODD = true then 1 else 0)]
            ++ be_bytes (u64 (arg_at args 0).value) 2) (le_bytes 0 8) 1 ctx.relocations s 1 1
          RELOCATION_TYPE_RELATIVE hsec hw (by rw [hl4]; omega) (by rw [le_bytes_length]; omega)
        rw [hl4] at this
        exact congrArg Except.ok this
      · simp only [hs, not_false_eq_true, if_true]

/-- The six entries of the bit instructions in `_gen_functions`, with their
encoding. -/
theorem bit_form_entry (name : CStr) (pre base par : Nat) (jmp : Bool)
    (h : bit_form name = some (pre, base, par, jmp)) :
    ∃ g, (⟨name, gen_func_t._assemble_bit, [g]⟩ : gen_functions_t) ∈ _gen_functions ∧
      g.prebyte = pre ∧ g.opcode = base ∧ pre ≠ PREBYTE_NONE ∧ (base = 0 ∨ base = 0x10) ∧
      g.arg1 = ARG_TYPE_BYTE ∧
      g.arg2 = (if jmp = true then ARG_TYPE_SHORTMEM else ARG_TYPE_NONE) ∧
      (if gen_flag g GEN_FLAG_ODD = true then 1 else 0) = par := by
  unfold bit_form at h
  by_cases h1 : name = cstr "btjt"
  · simp only [h1, if_true] at h
    injection h with h
    simp only [Prod.mk.injEq] at h
    obtain ⟨rfl, rfl, rfl, rfl⟩ := h
    rw [h1]
    exact ⟨⟨ARG_TYPE_LONGMEM, ARG_TYPE_BYTE, ARG_TYPE_SHORTMEM, ARG_TYPE_NONE, PREBYTE_PWSP, 0x00, 0, GEN_FLAG_EVEN⟩,
      by decide, rfl, rfl, by decide, by decide, rfl, rfl, by decide⟩
  · by_cases h2 : name = cstr "btjf"
    · simp only [h2, if_true] at h
      rw [if_neg (by decide)] at h
      injection h with h
      simp only [Prod.mk.injEq] at h
      obtain ⟨rfl, rfl, rfl, rfl⟩ := h
      rw [h2]
      exact ⟨⟨ARG_TYPE_LONGMEM, ARG_TYPE_BYTE, ARG_TYPE_SHORTMEM, ARG_TYPE_NONE, PREBYTE_PWSP, 0x00, 0, GEN_FLAG_ODD⟩,
        by decide, rfl, rfl, by decide, by decide, rfl, rfl, by decide⟩
    · by_cases h3 : name = cstr "bset"
      · simp only [h3, if_true] at h
        rw [if_neg (by decide), if_neg (by decide)] at h
        injection h with h
        simp only [Prod.mk.injEq] at h
        obtain ⟨rfl, rfl, rfl, rfl⟩ := h
        rw [h3]
        exact ⟨⟨ARG_TYPE_LONGMEM, ARG_TYPE_BYTE, ARG_TYPE_NONE, ARG_TYPE_NONE, PREBYTE_PWSP, 0x10, 0, GEN_FLAG_EVEN⟩,
          by decide, rfl, rfl, by decide, by decide, rfl, rfl, by decide⟩
      · by_cases h4 : name = cstr "bres"
        · simp only [h4, if_true] at h
          rw [if_neg (by decide), if_neg (by decide), if_neg (by decide)] at h
          injection h with h
          simp only [Prod.mk.injEq] at h
          obtain ⟨rfl, rfl, rfl, rfl⟩ := h
          rw [h4]
          exact ⟨⟨ARG_TYPE_LONGMEM, ARG_TYPE_BYTE, ARG_TYPE_NONE, ARG_TYPE_NONE, PREBYTE_PWSP, 0x10, 0, GEN_FLAG_ODD⟩,
            by decide, rfl, rfl, by decide, by decide, rfl, rfl, by decide⟩
        · by_cases h5 : name = cstr "bccm"
          · simp only [h5, if_true] at h
            rw [if_neg (by decide), if_neg (by decide), if_neg (by decide), if_neg (by decide)] at h
            injection h with h
            simp only [Prod.mk.injEq] at h
            obtain ⟨rfl, rfl, rfl, rfl⟩ := h
            rw [h5]
            exact ⟨⟨ARG_TYPE_LONGMEM, ARG_TYPE_BYTE, ARG_TYPE_NONE, ARG_TYPE_NONE, PREBYTE_PDY, 0x10, 0, GEN_FLAG_ODD⟩,
              by decide, rfl, rfl, by decide, by decide, rfl, rfl, by decide⟩
          · by_cases h6 : name = cstr "bcpl"
            · simp only [h6, if_true] at h
              rw [if_neg (by decide), if_neg (by decide), if_neg (by decide), if_neg (by decide), if_neg (by decide)] at h
              injection h with h
              simp only [Prod.mk.injEq] at h
              obtain ⟨rfl, rfl, rfl, rfl⟩ := h
              rw [h6]
              exact ⟨⟨ARG_TYPE_LONGMEM, ARG_TYPE_BYTE, ARG_TYPE_NONE, ARG_TYPE_NONE, PREBYTE_PDY, 0x10, 0, GEN_FLAG_EVEN⟩,
                by decide, rfl, rfl, by decide, by decide, rfl, rfl, by decide⟩
            · simp [h1, h2, h3, h4, h5, h6] at h

theorem be_bytes_word (m : Nat) (h : m ≤ 0xffff) : be_bytes m 2 = [m / 256, m % 256] := by
  simp only [be_bytes, le_bytes, List.reverse_cons, List.reverse_nil, List.nil_append,
    List.singleton_append]
  have : m / 256 % 256 = m / 256 := by omega
  rw [this]

theorem u64_of_small (m : Nat) (h : m ≤ 0xffff) : u64 (m : Int) = m := by
  unfold u64
  omega

theorem u8_of_small (b : Nat) (h : b ≤ 7) : u8 (b : Int) = b := by
  unfold u8
  omega

/-- C17. For btjt, btjf, bset, bres, bccm and bcpl (`bit_form` gives the prebyte, the
base of the opcode, the parity and whether a displacement follows), with a first
operand that is a constant `m` in 0..0xFFFF and a second operand that is the
immediate constant `b` in 0..7: `_assemble` appends to the current section the
prebyte, the opcode `base | (2 * b + parity)` and `m` as two bytes, most
significant first; for btjt and btjf, whose third operand is of kind SHORTMEM, one
more byte follows: the low byte of a constant operand, or a zero byte with a
relative relocation of length 1 and adjust 1 for a symbol. -/
theorem C17_bit_encoding (name : CStr) (pre base par : Nat) (jmp : Bool)
    (hform : bit_form name = some (pre, base, par, jmp))
    (ctx : asm_context_t) (args : List arg_t) (sec : section_t)
    (hsec : section_find ctx.sections ctx.sect = some sec) (hwf : section_wf sec)
    (m b : Nat)
    (h0t : (arg_at args 0).type ≠ ARG_TYPE_NONE) (h0s : (arg_at args 0).symbol = none)
    (h0v : (arg_at args 0).value = m) (hm : m ≤ 0xFFFF)
    (h1t : (arg_at args 1).type = ARG_TYPE_BYTE) (h1s : (arg_at args 1).symbol = none)
    (h1v : (arg_at args 1).value = b) (hb : b ≤ 7)
    (h2t : (arg_at args 2).type = if jmp = true then ARG_TYPE_SHORTMEM else ARG_TYPE_NONE) :
    (jmp = false →
      _assemble ctx name args
        = .ok (ctx_append ctx sec [pre, base ||| (2 * b + par), m / 256, m % 256])) ∧
    (jmp = true → (arg_at args 2).symbol = none →
      _assemble ctx name args
        = .ok (ctx_append ctx sec
            [pre, base ||| (2 * b + par), m / 256, m % 256,
             u64 (arg_at args 2).value % 256])) ∧
    (jmp = true → ∀ s, (arg_at args 2).symbol = some s →
      _assemble ctx name args
        = .ok { ctx_append ctx sec [pre, base ||| (2 * b + par), m / 256, m % 256, 0] with
            relocations := ctx.relocations ++
              [{ type := RELOCATION_TYPE_RELATIVE, sect := ctx.sect, symbol := s.name,
                 offset := sec.length + 4, length := 1, adjust := 1 }] }) := by
  obtain ⟨g, hgf, hg1, hg2, hpre, hbase, hga1, hga2, hpar⟩ :=
    bit_form_entry name pre base par jmp hform
  have hrow := assemble_bit_row ctx args g [] sec hsec hwf (by rw [hg1]; exact hpre)
    (by rw [hg2]; exact hbase) h0t h1t hga1 (by rw [hga2, h2t]) h1s b
    (by rw [h1v]; exact u8_of_small b hb) hb h0s (by rw [h0v]; omega) (by rw [h0v]; omega)
  rw [h0v, u64_of_small m hm, be_bytes_word m hm, hg1, hg2, hpar] at hrow
  have hasm := assemble_of_entry ⟨name, gen_func_t._assemble_bit, [g]⟩ hgf ctx args
  simp only [gen_func_call] at hasm
  rw [hrow] at hasm
  refine ⟨?_, ?_, ?_⟩
  · intro hj
    rw [hj] at h2t
    simp only [Bool.false_eq_true, if_false] at h2t
    rw [hasm]
    simp only [h2t, if_true]
    rfl
  · intro hj hs
    rw [hj] at h2t
    simp only [if_true] at h2t
    rw [hasm]
    have hne : ¬ (ARG_TYPE_SHORTMEM = ARG_TYPE_NONE) := by decide
    simp only [h2t, hne, if_false, hs]
    simp [be_bytes, le_bytes]
  · intro hj s hs
    rw [hj] at h2t
    simp only [if_true] at h2t
    rw [hasm]
    have hne : ¬ (ARG_TYPE_SHORTMEM = ARG_TYPE_NONE) := by decide
    simp only [h2t, hne, if_false, hs, ne_eq, not_true_eq_false]
    rfl

/-- Witness of `C17_bit_encoding`: `bset $1000, #3` at the start of section "text"
gives 72 16 10 00; `btjf $50, #2, T` gives 72 05 00 50 00 and a relative relocation
at offset 4. From source text, the six instructions give 72 04, 72 05, 72 1E, 72 1F,
90 11 and 90 10 before the address 10 00. -/
theorem C17_bit_encoding_witness :
    _assemble assembler_init (cstr "bset") c17_args
      = .ok (ctx_append assembler_init c7w_text [0x72, 0x10 ||| (2 * 3 + 0), 0x1000 / 256,
          0x1000 % 256]) ∧
    _assemble assembler_init (cstr "btjf") c17_args_jump
      = .ok { ctx_append assembler_init c7w_text
                [0x72, 0x00 ||| (2 * 2 + 1), 0x50 / 256, 0x50 % 256, 0] with
              relocations := [] ++
                [{ type := RELOCATION_TYPE_RELATIVE, sect := cstr "text", symbol := cstr "T",
                   offset := 0 + 4, length := 1, adjust := 1 }] } ∧
    assemble_text ("btjt $1000, #2, T\n btjf $1000, #2, T\nT:\n bset $1000, #7\n"
        ++ " bres $1000, #7\n bccm $1000, #0\n bcpl $1000, #0\n")
      = .ok [0x72, 0x04, 0x10, 0, 0, 0x72, 0x05, 0x10, 0, 0, 0x72, 0x1E, 0x10, 0,
             0x72, 0x1F, 0x10, 0, 0x90, 0x11, 0x10, 0, 0x90, 0x10, 0x10, 0] :=
  ⟨(C17_bit_encoding (cstr "bset") 0x72 0x10 0 false (by decide) assembler_init c17_args
      c7w_text (by decide) ⟨by decide, by decide⟩ 0x1000 3 (by decide) rfl rfl (by decide) rfl
      rfl rfl (by decide) rfl).1 rfl,
   (C17_bit_encoding (cstr "btjf") 0x72 0x00 1 true (by decide) assembler_init c17_args_jump
      c7w_text (by decide) ⟨by decide, by decide⟩ 0x50 2 (by decide) rfl rfl (by decide) rfl
      rfl rfl (by decide) rfl).2.2 rfl c16_label rfl,
   by decide!⟩

/-- C18, evaluation at the failing input. `bset $1000, #{256}` is assembled to
72 10 10 00, the encoding of bit 0: `_assemble_bit` holds the bit number in a
`uint8_t`, so 256 becomes 0 before the test `bit > 7`. The same for the constant
`B` defined as 256, and `#{257}` is encoded as bit 1. The operands `#8` and `#256`
are refused, the first by the test, the second as a WORD. -/
theorem C18_bit_number_wraps :
    assemble_text "bset $1000, #{256}\n" = .ok [0x72, 0x10, 0x10, 0] ∧
    assemble_text ".define B 256\n bset $1000, #B\n" = .ok [0x72, 0x10, 0x10, 0] ∧
    assemble_text "bset $1000, #{257}\n" = .ok [0x72, 0x12, 0x10, 0] ∧
    assemble_text "bset $1000, #8\n" = .error "Invalid arguments to instruction" ∧
    assemble_text "bset $1000, #256\n" = .error "Invalid arguments to instruction" := by
  decide!

/-- C19, evaluation at the failing input. `bset A, #1` is assembled to 72 12 00 00,
the encoding of `bset $0000, #1`: `_assemble_bit` tests of the first operand only
that it is there, and a register operand has no symbol and the value 0. The same
for the operand `(X)`. A symbol of width w8 as first operand is refused. -/
theorem C19_register_as_address :
    assemble_text "bset A, #1\n" = .ok [0x72, 0x12, 0, 0] ∧
    assemble_text "bset (X), #1\n" = .ok [0x72, 0x12, 0, 0] ∧
    assemble_text "bset $0000, #1\n" = .ok [0x72, 0x12, 0, 0] ∧
    assemble_text ".extern F\n bset F, #1\n" = .error "Invalid arguments to instruction" := by
  decide!

/-- One operand of `mov`: its bytes are appended, and its relocation when it is a
symbol. -/
theorem assemble_mov_operand_eq (ctx : asm_context_t) (sec : section_t) (bs : List Nat)
    (rl : relocations_t) (a : arg_t) (n : Nat) (conv : Nat → Nat)
    (hsec : section_find ctx.sections ctx.sect = some sec)
    (hw : sec.noload = 0 → sec.data.length = sec.length)
    (hlen : sec.length + bs.length + n < 4294967296)
    (hconv : (n = 1 ∧ conv = host_tole64) ∨ (n = 2 ∧ conv = host_tobe16)) :
    _assemble_mov_operand { ctx_append ctx sec bs with relocations := rl } a n conv
      = { ctx_append ctx sec (bs ++ mov_bytes a n) with
          relocations := rl ++ mov_relocations ctx.sect a (sec.length + bs.length) n } := by
  have hn : n ≤ 8 := by rcases hconv with h | h <;> omega
  unfold _assemble_mov_operand mov_bytes mov_relocations
  cases hs : a.symbol with
  | some s =>
    simp only
    rw [ctx_append_reloc_push ctx sec bs _ n rl s n 0 RELOCATION_TYPE_ABOSULTE hsec hw hlen
      (by rw [le_bytes_length]; exact hn)]
    have hz : List.take n (le_bytes (conv 0) 8) = List.replicate n 0 := by
      rcases hconv with ⟨rfl, rfl⟩ | ⟨rfl, rfl⟩
      · decide
      · decide
    rw [hz]
  | none =>
    simp only
    have hpush := ctx_pushdata_after ctx { ctx_append ctx sec bs with relocations := rl } sec bs
      (le_bytes (conv (u64 a.value)) 8) n hsec hw rfl rfl hlen
      (by rw [le_bytes_length]; exact hn)
    rw [hpush]
    have hb : List.take n (le_bytes (conv (u64 a.value)) 8) = be_bytes (u64 a.value) n := by
      rcases hconv with ⟨rfl, rfl⟩ | ⟨rfl, rfl⟩
      · exact le1_bytes _
      · exact be16_bytes _
    rw [hb]
    simp [ctx_append]

theorem assemble_mov_entry (ctx : asm_context_t) (args : List arg_t) :
    _assemble ctx (cstr "mov") args =
      match _assemble_mov ctx args [] with
      | .error _ => .error "Invalid arguments to instruction"
      | .ok ctx1 => .ok ctx1 := by
  have hmov : (⟨cstr "mov", gen_func_t._assemble_mov, []⟩ : gen_functions_t)
      ∈ _gen_functions := by decide
  have := assemble_of_entry ⟨cstr "mov", gen_func_t._assemble_mov, []⟩ hmov ctx args
  simpa only [gen_func_call] using this

/-- C20. The encoder of `mov` with two operands `a0` (destination) and `a1`
(source), `mov_bytes` being `n` zero bytes for a symbol and the `n` low bytes of the
value, most significant first, for a constant, and `mov_relocations` one absolute
relocation of `n` bytes at the given offset for a symbol: for LONGMEM and BYTE it
appends 0x35, the byte of `a1` and the two bytes of `a0`; for SHORTMEM and
SHORTMEM 0x45, the byte of `a1` and the byte of `a0`; for LONGMEM and LONGMEM 0x55,
the two bytes of `a1` and the two bytes of `a0`. The relocation of each symbolic
operand is recorded at the offset of the operand's own bytes. -/
theorem C20_mov_encoding (ctx : asm_context_t) (args : List arg_t) (sec : section_t)
    (hsec : section_find ctx.sections ctx.sect = some sec) (hwf : section_wf sec)
    (h2 : (arg_at args 2).type = ARG_TYPE_NONE) :
    ((arg_at args 0).type = ARG_TYPE_LONGMEM → (arg_at args 1).type = ARG_TYPE_BYTE →
      _assemble ctx (cstr "mov") args = .ok
        { ctx_append ctx sec
            ([0x35] ++ mov_bytes (arg_at args 1) 1 ++ mov_bytes (arg_at args 0) 2) with
          relocations := ctx.relocations
            ++ mov_relocations ctx.sect (arg_at args 1) (sec.length + 1) 1
            ++ mov_relocations ctx.sect (arg_at args 0) (sec.length + 2) 2 }) ∧
    ((arg_at args 0).type = ARG_TYPE_SHORTMEM → (arg_at args 1).type = ARG_TYPE_SHORTMEM →
      _assemble ctx (cstr "mov") args = .ok
        { ctx_append ctx sec
            ([0x45] ++ mov_bytes (arg_at args 1) 1 ++ mov_bytes (arg_at args 0) 1) with
          relocations := ctx.relocations
            ++ mov_relocations ctx.sect (arg_at args 1) (sec.length + 1) 1
            ++ mov_relocations ctx.sect (arg_at args 0) (sec.length + 2) 1 }) ∧
    ((arg_at args 0).type = ARG_TYPE_LONGMEM → (arg_at args 1).type = ARG_TYPE_LONGMEM →
      _assemble ctx (cstr "mov") args = .ok
        { ctx_append ctx sec
            ([0x55] ++ mov_bytes (arg_at args 1) 2 ++ mov_bytes (arg_at args 0) 2) with
          relocations := ctx.relocations
            ++ mov_relocations ctx.sect (arg_at args 1) (sec.length + 1) 2
            ++ mov_relocations ctx.sect (arg_at args 0) (sec.length + 3) 2 }) := by
  have hw := hwf.1
  have hl := hwf.2
  have hlen1 : ∀ a, (mov_bytes a 1).length = 1 := by
    intro a
    unfold mov_bytes
    cases a.symbol <;> simp [be_bytes, le_bytes_length]
  have hlen2 : ∀ a, (mov_bytes a 2).length = 2 := by
    intro a
    unfold mov_bytes
    cases a.symbol <;> simp [be_bytes, le_bytes_length]
  have hstart : ∀ b : Nat, ctx_pushdata ctx [b] 1
      = { ctx_append ctx sec [b] with relocations := ctx.relocations } :=
    fun b => ctx_push_one ctx sec b hsec hwf
  refine ⟨?_, ?_, ?_⟩
  · intro h0 h1
    have hn0 : ¬ ((arg_at args 0).type = ARG_TYPE_NONE ∨ (arg_at args 1).type = ARG_TYPE_NONE ∨
        (arg_at args 2).type ≠ ARG_TYPE_NONE) := by
      rw [h0, h1, h2]
      decide
    rw [assemble_mov_entry]
    unfold _assemble_mov
    simp only [hn0, if_false, h0, h1, if_true]
    rw [hstart, assemble_mov_operand_eq ctx sec [0x35] _ _ 1 _ hsec hw
        (by simp only [List.length_singleton]; omega) (Or.inl ⟨rfl, rfl⟩),
      assemble_mov_operand_eq ctx sec _ _ _ 2 _ hsec hw
        (by simp only [List.length_append, List.length_singleton, hlen1]; omega)
        (Or.inr ⟨rfl, rfl⟩)]
    simp [h2, hlen1]
  · intro h0 h1
    have hn0 : ¬ ((arg_at args 0).type = ARG_TYPE_NONE ∨ (arg_at args 1).type = ARG_TYPE_NONE ∨
        (arg_at args 2).type ≠ ARG_TYPE_NONE) := by
      rw [h0, h1, h2]
      decide
    have e1 : ¬ (ARG_TYPE_SHORTMEM = ARG_TYPE_LONGMEM) := by decide
    have e2 : ¬ (ARG_TYPE_SHORTMEM = ARG_TYPE_BYTE) := by decide
    rw [assemble_mov_entry]
    unfold _assemble_mov
    simp only [hn0, if_false, h0, h1, if_true, e1, e2, and_false]
    rw [hstart, assemble_mov_operand_eq ctx sec [0x45] _ _ 1 _ hsec hw
        (by simp only [List.length_singleton]; omega) (Or.inl ⟨rfl, rfl⟩),
      assemble_mov_operand_eq ctx sec _ _ _ 1 _ hsec hw
        (by simp only [List.length_append, List.length_singleton, hlen1]; omega)
        (Or.inl ⟨rfl, rfl⟩)]
    simp [h2, hlen1]
  · intro h0 h1
    have hn0 : ¬ ((arg_at args 0).type = ARG_TYPE_NONE ∨ (arg_at args 1).type = ARG_TYPE_NONE ∨
        (arg_at args 2).type ≠ ARG_TYPE_NONE) := by
      rw [h0, h1, h2]
      decide
    have e1 : ¬ (ARG_TYPE_LONGMEM = ARG_TYPE_BYTE) := by decide
    have e3 : ¬ (ARG_TYPE_LONGMEM ≠ ARG_TYPE_LONGMEM ∧ (arg_at args 1).symbol.isSome = true) := by
      simp
    rw [assemble_mov_entry]
    unfold _assemble_mov
    simp only [hn0, if_false, h0, h1, if_true, e1, e3, or_true]
    rw [hstart, assemble_mov_operand_eq ctx sec [0x55] _ _ 2 _ hsec hw
        (by simp only [List.length_singleton]; omega) (Or.inr ⟨rfl, rfl⟩),
      assemble_mov_operand_eq ctx sec _ _ _ 2 _ hsec hw
        (by simp only [List.length_append, List.length_singleton, hlen2]; omega)
        (Or.inr ⟨rfl, rfl⟩)]
    simp [h2, hlen2]

/-- Witness of `C20_mov_encoding`: `mov $1000, #$12` at the start of section "text"
gives 35 12 10 00; `mov H, $2000` with the extern H of width w16 gives 55 20 00 00 00
and one absolute relocation of length 2 at offset 3. From source text: the three
forms with constants, and with externs in every position. -/
theorem C20_mov_encoding_witness :
    _assemble assembler_init (cstr "mov") c20_args
      = .ok { ctx_append assembler_init c7w_text ([0x35] ++ [0x12] ++ [0x10, 0]) with
              relocations := [] ++ [] ++ [] } ∧
    _assemble assembler_init (cstr "mov") c20_args_symbol
      = .ok { ctx_append assembler_init c7w_text ([0x55] ++ [0x20, 0] ++ [0, 0]) with
              relocations := [] ++ [] ++
                [{ type := RELOCATION_TYPE_ABOSULTE, sect := cstr "text", symbol := [72],
                   offset := 0 + 3, length := 2, adjust := 0 }] } ∧
    assemble_text "mov $1000, #$12\n mov $10, $20\n mov $1000, $2000\n"
      = .ok [0x35, 0x12, 0x10, 0, 0x45, 0x20, 0x10, 0x55, 0x20, 0, 0x10, 0] ∧
    assemble_text
        ".extern S\n.extern D.w16\n.extern E.w16\n mov D, #S\n mov S, S\n mov D, E\n"
      = .ok [0x35, 0, 0, 0, 0x45, 0, 0, 0x55, 0, 0, 0, 0] ∧
    assemble_relocations
        ".extern S\n.extern D.w16\n.extern E.w16\n mov D, #S\n mov S, S\n mov D, E\n"
      = .ok [(RELOCATION_TYPE_ABOSULTE, cstr "S", 1, 1, 0),
             (RELOCATION_TYPE_ABOSULTE, cstr "D", 2, 2, 0),
             (RELOCATION_TYPE_ABOSULTE, cstr "S", 5, 1, 0),
             (RELOCATION_TYPE_ABOSULTE, cstr "S", 6, 1, 0),
             (RELOCATION_TYPE_ABOSULTE, cstr "E", 8, 2, 0),
             (RELOCATION_TYPE_ABOSULTE, cstr "D", 10, 2, 0)] :=
  ⟨(C20_mov_encoding assembler_init c20_args c7w_text (by decide) ⟨by decide, by decide⟩
      rfl).1 rfl rfl,
   (C20_mov_encoding assembler_init c20_args_symbol c7w_text (by decide)
      ⟨by decide, by decide⟩ rfl).2.2 rfl rfl,
   by decide!, by decide!, by decide!⟩

theorem token_scan_string_fail (ch : Nat) (rest : List Nat) (d : Nat)
    (hb : is_blank ch = false) (hs : ch ≠ 34) :
    token_scan TOKEN_TYPE_STRING (ch :: rest) (token_scan_at d) = .ok (none, 1) := by
  unfold token_scan
  have h1 : ¬ ((token_scan_at d).name.length ≥ TOKEN_MAX_NAME_SIZE) := by
    simp [token_scan_at, token_scan_init, TOKEN_MAX_NAME_SIZE]
  have h2 : ¬ ((token_scan_at d).tlength = 0 ∧ (ch = 32 ∨ ch = 9 ∨ ch = 13)) := by
    intro x
    simp [is_blank] at hb
    rcases x.2 with e | e | e <;> simp [e] at hb
  rw [if_neg h1, if_neg h2]
  simp [token_step, token_step_string, token_scan_at, token_scan_init, hs]

theorem token_scan_char_fail (ch : Nat) (rest : List Nat) (d : Nat)
    (hb : is_blank ch = false) (hs : ch ≠ 39) :
    token_scan TOKEN_TYPE_CHAR (ch :: rest) (token_scan_at d) = .ok (none, 1) := by
  unfold token_scan
  have h1 : ¬ ((token_scan_at d).name.length ≥ TOKEN_MAX_NAME_SIZE) := by
    simp [token_scan_at, token_scan_init, TOKEN_MAX_NAME_SIZE]
  have h2 : ¬ ((token_scan_at d).tlength = 0 ∧ (ch = 32 ∨ ch = 9 ∨ ch = 13)) := by
    intro x
    simp [is_blank] at hb
    rcases x.2 with e | e | e <;> simp [e] at hb
  rw [if_neg h1, if_neg h2]
  simp [token_step, token_step_char, token_scan_at, token_scan_init, hs]

/-- No string starts at the next byte: nothing is taken. -/
theorem tok_string_fail (t : token_t)
    (hsm : token_small t) (hrun : blank_run (token_stream t) ≤ 500)
    (hne : ∀ ch, stream_head (token_stream t) = some ch → ch ≠ 34) :
    ∃ t1, token_get t TOKEN_TYPE_STRING TOKEN_NEXT = .ok (none, t1) ∧
      token_stream t1 = token_stream t ∧ token_small t1 := by
  apply tok_none_gen t TOKEN_TYPE_STRING hsm hrun (by decide)
  intro ch r d hb hh
  exact ⟨1, by omega, token_scan_string_fail ch r d hb (hne ch hh)⟩

/-- No character literal starts at the next byte: nothing is taken. -/
theorem tok_char_fail (t : token_t)
    (hsm : token_small t) (hrun : blank_run (token_stream t) ≤ 500)
    (hne : ∀ ch, stream_head (token_stream t) = some ch → ch ≠ 39) :
    ∃ t1, token_get t TOKEN_TYPE_CHAR TOKEN_NEXT = .ok (none, t1) ∧
      token_stream t1 = token_stream t ∧ token_small t1 := by
  apply tok_none_gen t TOKEN_TYPE_CHAR hsm hrun (by decide)
  intro ch r d hb hh
  exact ⟨1, by omega, token_scan_char_fail ch r d hb (hne ch hh)⟩

theorem token_scan_line_tail (rest : List Nat) :
    ∀ (cs : List Nat) (st : token_scan_t), (∀ c ∈ cs, c ≠ 10) →
      st.tlength ≠ 0 → st.name.length + cs.length < TOKEN_MAX_NAME_SIZE →
      token_scan TOKEN_TYPE_LINE (cs ++ 10 :: rest) st
        = .ok (some { st with name := st.name ++ (cs ++ [10]),
                              tlength := st.tlength + (cs.length + 1) },
            cs.length + 1) := by
  intro cs
  induction cs with
  | nil =>
    intro st _ ht hn
    simp only [List.nil_append, List.length_nil, Nat.add_zero, Nat.zero_add]
    unfold token_scan
    have h1 : ¬ (st.name.length ≥ TOKEN_MAX_NAME_SIZE) := by
      simp only [List.length_nil, Nat.add_zero] at hn; omega
    have h2 : ¬ (st.tlength = 0 ∧ ((10 : Nat) = 32 ∨ (10 : Nat) = 9 ∨ (10 : Nat) = 13)) :=
      fun x => ht x.1
    rw [if_neg h1, if_neg h2]
    simp [token_step, token_push]
  | cons c cs ih =>
    intro st hall ht hn
    simp only [List.length_cons] at hn
    rw [List.cons_append, token_scan]
    have h1 : ¬ (st.name.length ≥ TOKEN_MAX_NAME_SIZE) := by omega
    have h2 : ¬ (st.tlength = 0 ∧ (c = 32 ∨ c = 9 ∨ c = 13)) := fun x => ht x.1
    rw [if_neg h1, if_neg h2]
    have hc : c ≠ 10 := hall c (List.mem_cons_self _ _)
    have hs : token_step TOKEN_TYPE_LINE c st = .next (token_push st c) := by
      simp [token_step, hc]
    rw [hs]
    simp only
    rw [ih (token_push st c) (fun x hx => hall x (List.mem_cons_of_mem _ hx))
      (by simp [token_push])
      (by simp only [token_push, List.length_append, List.length_singleton]; omega)]
    simp only [token_push, List.append_assoc, List.singleton_append, List.length_cons,
      List.cons_append]
    have e1 : st.tlength + 1 + (cs.length + 1) = st.tlength + (cs.length + 1 + 1) := by omega
    rw [e1]
    simp

theorem token_scan_line_ok (body rest : List Nat) (d : Nat) (hb : line_text body = true) :
    token_scan TOKEN_TYPE_LINE (body ++ 10 :: rest) (token_scan_at d)
      = .ok (some { token_scan_at d with name := body ++ [10], tlength := body.length + 1 },
          body.length + 1) := by
  simp only [line_text, Bool.and_eq_true, decide_eq_true_eq, List.all_eq_true] at hb
  obtain ⟨⟨hh, hall⟩, hl⟩ := hb
  have h1 : ¬ ((token_scan_at d).name.length ≥ TOKEN_MAX_NAME_SIZE) := by
    simp [token_scan_at, token_scan_init, TOKEN_MAX_NAME_SIZE]
  cases body with
  | nil =>
    simp only [List.nil_append, List.length_nil, Nat.zero_add]
    unfold token_scan
    have h2 : ¬ ((token_scan_at d).tlength = 0 ∧
        ((10 : Nat) = 32 ∨ (10 : Nat) = 9 ∨ (10 : Nat) = 13)) := by
      intro x
      rcases x.2 with e | e | e <;> simp at e
    rw [if_neg h1, if_neg h2]
    simp [token_step, token_push, token_scan_at, token_scan_init]
  | cons c cs =>
    simp only [List.length_cons] at hl
    rw [List.cons_append, token_scan]
    have hnb : ¬ (c = 32 ∨ c = 9 ∨ c = 13) := by
      intro x
      simp only [Bool.not_eq_true', is_blank] at hh
      rcases x with e | e | e <;> simp [e] at hh
    have h2 : ¬ ((token_scan_at d).tlength = 0 ∧ (c = 32 ∨ c = 9 ∨ c = 13)) :=
      fun x => hnb x.2
    rw [if_neg h1, if_neg h2]
    have hc : c ≠ 10 := by
      have := hall c (List.mem_cons_self _ _)
      simp only [ne_eq, decide_eq_true_eq] at this
      exact this.1
    have hs : token_step TOKEN_TYPE_LINE c (token_scan_at d)
        = .next (token_push (token_scan_at d) c) := by
      simp [token_step, hc]
    rw [hs]
    simp only
    rw [token_scan_line_tail rest cs _
      (fun x hx => by
        have := hall x (List.mem_cons_of_mem _ hx)
        simp only [ne_eq, decide_eq_true_eq] at this
        exact this.1)
      (by simp [token_push])
      (by simp only [token_push, token_scan_at, token_scan_init, List.nil_append,
            List.length_singleton, TOKEN_MAX_NAME_SIZE]; omega)]
    simp only [token_push, token_scan_at, token_scan_init, List.nil_append,
      List.singleton_append, List.length_cons, List.cons_append]
    have e1 : 0 + 1 + (cs.length + 1) = cs.length + 1 + 1 := by omega
    rw [e1]

/-- A line that is there is taken with its line feed. -/
theorem tok_line_ok (t : token_t) (ws body rest : List Nat)
    (hsm : token_small t) (hst : token_stream t = ws ++ (body ++ 10 :: rest)) (hw : blanks ws)
    (hb : line_text body = true) :
    ∃ t1, token_get t TOKEN_TYPE_LINE TOKEN_NEXT = .ok (some (body ++ [10]), t1) ∧
      token_stream t1 = rest ∧ token_small t1 := by
  have hscan := token_scan_line_ok body rest ws.length hb
  have hb2 := hb
  simp only [line_text, Bool.and_eq_true, decide_eq_true_eq, List.all_eq_true] at hb2
  obtain ⟨⟨_, hall⟩, hl⟩ := hb2
  have hst2 : token_stream t = ws ++ ((body ++ [10]) ++ rest) := by
    rw [hst]; simp
  have hscan2 : token_scan TOKEN_TYPE_LINE ((body ++ [10]) ++ rest) (token_scan_at ws.length)
      = .ok (some { token_scan_at ws.length with name := body ++ [10],
                                                 tlength := body.length + 1 },
          body.length + 1) := by
    rw [← hscan]; simp
  obtain ⟨t1, h1, h2, h3⟩ := tok_some_gen t TOKEN_TYPE_LINE ws (body ++ [10]) rest _ _
    hsm hst2 hw hscan2 rfl (by simp) (by simp) (by simp) (by simp; omega)
  refine ⟨t1, ?_, h2, h3⟩
  rw [h1]
  simp only
  rw [c_string_of_pos]
  intro c hc
  rcases List.mem_append.1 hc with e | e
  · have := hall c e
    simp only [ne_eq, decide_eq_true_eq] at this
    exact this.2
  · simp at e
    rw [e]
    decide

theorem le_bytes_lt (n : Nat) : ∀ (v : Nat), ∀ b ∈ le_bytes v n, b < 256 := by
  induction n with
  | zero => intro v b hb; simp [le_bytes] at hb
  | succ k ih =>
    intro v b hb
    simp only [le_bytes, List.mem_cons] at hb
    rcases hb with e | e
    · rw [e]; exact Nat.mod_lt _ (by decide)
    · exact ih _ b e

theorem le_bytes_le_value (bs : List Nat) (hb : ∀ b ∈ bs, b < 256) :
    ∀ m, bs.length ≤ m → (le_bytes (le_value bs) m).take bs.length = bs := by
  induction bs with
  | nil => intro m _; simp
  | cons b t ih =>
    intro m hm
    obtain ⟨k, rfl⟩ : ∃ k, m = k + 1 := ⟨m - 1, by simp at hm; omega⟩
    have hb0 : b < 256 := hb b (List.mem_cons_self _ _)
    simp only [le_value, le_bytes, List.length_cons, List.take_succ_cons]
    have e1 : (b + 256 * le_value t) % 256 = b := by omega
    have e2 : (b + 256 * le_value t) / 256 = le_value t := by omega
    rw [e1, e2, ih (fun x hx => hb x (List.mem_cons_of_mem _ hx)) k (by simp at hm; omega)]

theorem be_bytes_length (v n : Nat) : (be_bytes v n).length = n := by
  simp [be_bytes, le_bytes_length]

theorem be_bytes_lt (v n : Nat) : ∀ b ∈ be_bytes v n, b < 256 := by
  intro b hb
  simp only [be_bytes, List.mem_reverse] at hb
  exact le_bytes_lt n v b hb

theorem host_tobe_bytes (x n : Nat) (hn : n ≤ 8) :
    (le_bytes (le_value (be_bytes x n)) 8).take n = be_bytes x n := by
  have := le_bytes_le_value (be_bytes x n) (be_bytes_lt x n) 8 (by rw [be_bytes_length]; exact hn)
  rw [be_bytes_length] at this
  exact this

/-- The bytes that `_cutvalue` and `section_pushdata` store for a value. -/
theorem cutvalue_bytes (ctx : asm_context_t) (x w : Nat)
    (hw : w = 1 ∨ w = 2 ∨ w = 3 ∨ w = 4 ∨ w = 8) :
    (le_bytes (_cutvalue ctx x w) 8).take w =
      if w ≠ 1 ∧ ctx.dbendian = DB_ENDIAN_BIG then be_bytes x w else le_bytes x w := by
  unfold _cutvalue host_tobe16 host_tobe24 host_tobe32 host_tobe64 host_tole16 host_tole24
    host_tole32 host_tole64
  by_cases hb : ctx.dbendian = DB_ENDIAN_BIG
  · rcases hw with e | e | e | e | e <;> subst e <;>
      simp only [hb, if_true, and_true, ne_eq, OfNat.ofNat_ne_one, not_false_eq_true,
        not_true_eq_false, if_false, OfNat.ofNat_eq_ofNat, Nat.reduceEqDiff, Nat.succ_ne_self,
        Nat.reduceEqDiff, reduceCtorEq]
    · exact le_bytes_take x 8 1 (by decide)
    · exact host_tobe_bytes x 2 (by decide)
    · exact host_tobe_bytes x 3 (by decide)
    · exact host_tobe_bytes x 4 (by decide)
    · exact host_tobe_bytes x 8 (by decide)
  · rcases hw with e | e | e | e | e <;> subst e <;>
      simp only [hb, if_false, and_false, ne_eq, OfNat.ofNat_ne_one, not_false_eq_true,
        not_true_eq_false, OfNat.ofNat_eq_ofNat, Nat.reduceEqDiff, Nat.succ_ne_self, if_true,
        reduceCtorEq]
    · exact le_bytes_take x 8 1 (by decide)
    · exact le_bytes_take x 8 2 (by decide)
    · exact le_bytes_take x 8 3 (by decide)
    · exact le_bytes_take x 8 4 (by decide)
    · exact le_bytes_take x 8 8 (by decide)

theorem db_push_value_eq (ctx : asm_context_t) (sec : section_t) (v : Int) (w : Nat)
    (hsec : section_find ctx.sections ctx.sect = some sec)
    (hw1 : sec.noload = 0 → sec.data.length = sec.length)
    (hw2 : sec.length + 8 < 4294967296)
    (hw : w = 1 ∨ w = 2 ∨ w = 3 ∨ w = 4 ∨ w = 8) :
    db_push_value ctx v w = ctx_append ctx sec
      (if w ≠ 1 ∧ ctx.dbendian = DB_ENDIAN_BIG then be_bytes (u64 v) w
       else le_bytes (u64 v) w) := by
  unfold db_push_value
  have hw8 : w ≤ 8 := by omega
  rw [ctx_pushdata_eq ctx _ w sec hsec hw1 (by omega) (by rw [le_bytes_length]; exact hw8),
    cutvalue_bytes ctx (u64 v) w hw]

theorem pow_256 (w : Nat) : 256 ^ w = 2 ^ (8 * w) := by
  rw [pow_mul]
  norm_num

/-- The start of `_lang_db_item` at a byte that opens neither a string nor a
character literal: the item goes on with `lang_constexpr`. -/
theorem lang_db_item_to_constexpr (ctx : asm_context_t) (t : token_t) (width : Nat) (c : Nat)
    (hsm : token_small t) (hrun : blank_run (token_stream t) ≤ 500)
    (hh : stream_head (token_stream t) = some c) (h34 : c ≠ 34) (h39 : c ≠ 39) :
    ∃ t2, token_stream t2 = token_stream t ∧ token_small t2 ∧
      _lang_db_item ctx t width = (do
        let (v, t3) ← lang_constexpr ctx.symbols t2
        match v with
        | some value => pure (some (db_push_value ctx value width, t3))
        | none =>
          let (r4, t4) ← token_get t3 TOKEN_TYPE_NUMBER TOKEN_NEXT
          match r4 with
          | some tname =>
            match lang_util_str2num tname with
            | .error _ => pure none
            | .ok value => pure (some (db_push_value ctx value width, t4))
          | none =>
            let (r5, t5) ← token_get t4 TOKEN_TYPE_SYMBOL TOKEN_NEXT
            match r5 with
            | none => pure none
            | some tname =>
              match symbol_find ctx.symbols tname with
              | none => pure none
              | some s =>
                if s.type = SYMBOL_TYPE_CONST then
                  pure (some (db_push_value ctx s.val64 width, t5))
                else if s.type = SYMBOL_TYPE_LABEL ∨ s.type = SYMBOL_TYPE_EXTERN then
                  let ctx1 := ctx_relocations_add ctx s width 0 RELOCATION_TYPE_ABOSULTE
                  pure (some (ctx_pushdata ctx1 (le_bytes 0 8) width, t5))
                else pure none) := by
  obtain ⟨t1, g1, g2, g3⟩ := tok_string_fail t hsm hrun
    (by intro ch hch; rw [hh] at hch; cases hch; exact h34)
  obtain ⟨t2, k1, k2, k3⟩ := tok_char_fail t1 g3 (by rw [g2]; exact hrun)
    (by intro ch hch; rw [g2, hh] at hch; cases hch; exact h39)
  refine ⟨t2, by rw [k2, g2], k3, ?_⟩
  unfold _lang_db_item
  rw [g1]
  simp only [Except.bind, bind]
  rw [k1]

/-- An expression in braces as an item of a data directive. -/
theorem lang_db_item_expr (ctx : asm_context_t) (t : token_t) (width : Nat) (e : cexpr)
    (ws0 ws1 rest : List Nat) (v : Int)
    (hsm : token_small t)
    (hst : token_stream t = ws0 ++ 123 :: (cprint e ++ (ws1 ++ 125 :: rest)))
    (hw0 : blanks ws0) (hw1 : blanks ws1) (hfit : cfits 0 e = true)
    (hv : ceval ctx.symbols e = .ok v) (hd : cdepth e ≤ EXPR_STACK_SIZE) :
    ∃ t1, _lang_db_item ctx t width = .ok (some (db_push_value ctx v width, t1)) ∧
      token_stream t1 = rest ∧ token_small t1 := by
  have hh := stream_head_cons t ws0 123 _ hst hw0 (by decide)
  obtain ⟨t2, a1, a2, a3⟩ := lang_db_item_to_constexpr ctx t width 123 hsm hh.2 hh.1
    (by decide) (by decide)
  obtain ⟨t3, b1, b2, b3⟩ := lang_constexpr_tree ctx.symbols e t2 ws0 ws1 rest v a2
    (by rw [a1]; exact hst) hw0 hw1 hfit hv hd
  refine ⟨t3, ?_, b2, b3⟩
  rw [a3, b1]
  rfl

/-- A numeric literal as an item of a data directive. -/
theorem lang_db_item_number (ctx : asm_context_t) (t : token_t) (width : Nat)
    (ws text rest : List Nat) (d0 : Nat) (v : Int)
    (hsm : token_small t) (hst : token_stream t = ws ++ (text ++ d0 :: rest)) (hw : blanks ws)
    (hn : number_text text = true) (hl : text.length ≤ 500)
    (hd0 : is_symbol_char d0 = false) (hv : lang_util_str2num text = .ok v) :
    ∃ t1, _lang_db_item ctx t width = .ok (some (db_push_value ctx v width, t1)) ∧
      token_stream t1 = d0 :: rest ∧ token_small t1 := by
  cases text with
  | nil => simp [number_text] at hn
  | cons c cs =>
    have hnf : ∃ f, number_format c = some f := by
      simp only [number_text] at hn
      cases hx : number_format c with
      | none => rw [hx] at hn; cases hn
      | some f => exact ⟨f, rfl⟩
    obtain ⟨f0, hf0⟩ := hnf
    have hcn := number_start_not_negate c f0 hf0
    have hh := stream_head_cons t ws c (cs ++ d0 :: rest) hst hw hcn.1
    have hc : c ≠ 34 ∧ c ≠ 39 ∧ c ≠ 123 := by
      refine ⟨?_, ?_, ?_⟩ <;> (intro e; subst e; simp [number_format, is_digit] at hf0)
    obtain ⟨t2, a1, a2, a3⟩ := lang_db_item_to_constexpr ctx t width c hsm hh.2 hh.1
      hc.1 hc.2.1
    obtain ⟨t3, b1, b2, b3⟩ := tok_single_fail t2 TOKEN_TYPE_CURLY_OPEN 123 a2
      (by rw [a1]; exact hh.2) rfl
      (by rw [a1, hh.1]; intro e; injection e with e; exact hc.2.2 e)
    obtain ⟨t4, h1, h2, h3⟩ := tok_number_ok t3 ws (c :: cs) rest d0 b3
      (by rw [b2, a1]; exact hst) hw hn hl hd0
    refine ⟨t4, ?_, h2, h3⟩
    rw [a3]
    unfold lang_constexpr
    simp only [Except.bind, bind, b1, pure, Except.pure, h1, hv]

/-- A constant as an item of a data directive. -/
theorem lang_db_item_const (ctx : asm_context_t) (t : token_t) (width : Nat)
    (ws name rest : List Nat) (d0 : Nat) (s : symbol_t)
    (hsm : token_small t) (hst : token_stream t = ws ++ (name ++ d0 :: rest)) (hw : blanks ws)
    (hn : symbol_text name = true) (hl : name.length ≤ 500)
    (hd0 : is_symbol_char d0 = false)
    (hs : symbol_find ctx.symbols name = some s) (hty : s.type = SYMBOL_TYPE_CONST) :
    ∃ t1, _lang_db_item ctx t width = .ok (some (db_push_value ctx s.val64 width, t1)) ∧
      token_stream t1 = d0 :: rest ∧ token_small t1 := by
  cases name with
  | nil => simp [symbol_text] at hn
  | cons c cs =>
    have hc0 : is_symbol_start c = true := by
      simp only [symbol_text, Bool.and_eq_true] at hn
      exact hn.1
    have hsn := symbol_start_not_number c hc0
    have hh := stream_head_cons t ws c (cs ++ d0 :: rest) hst hw hsn.2.1
    have hc : c ≠ 34 ∧ c ≠ 39 ∧ c ≠ 123 := by
      refine ⟨?_, ?_, ?_⟩ <;> (intro e; subst e; revert hc0; decide)
    obtain ⟨t2, a1, a2, a3⟩ := lang_db_item_to_constexpr ctx t width c hsm hh.2 hh.1
      hc.1 hc.2.1
    obtain ⟨t3, b1, b2, b3⟩ := tok_single_fail t2 TOKEN_TYPE_CURLY_OPEN 123 a2
      (by rw [a1]; exact hh.2) rfl
      (by rw [a1, hh.1]; intro e; injection e with e; exact hc.2.2 e)
    obtain ⟨t4, g1, g2, g3⟩ := tok_number_fail t3 b3 (by rw [b2, a1]; exact hh.2)
      (by intro ch hch; rw [b2, a1, hh.1] at hch; cases hch; exact hsn.1)
    obtain ⟨t5, h1, h2, h3⟩ := tok_symbol_ok t4 ws (c :: cs) rest d0 g3
      (by rw [g2, b2, a1]; exact hst) hw hn hl hd0
    refine ⟨t5, ?_, h2, h3⟩
    rw [a3]
    unfold lang_constexpr
    simp only [Except.bind, bind, b1, pure, Except.pure, g1, h1, hs, hty, if_true]

/-- C21. An item of `.d8`, `.d16`, `.d24`, `.d32` or `.d64` (width `w` = 1, 2, 3, 4
or 8 bytes) with the 64-bit value `v`, the current section `sec` having room for 8
more bytes. The statements `_cutvalue` and `section_pushdata` append exactly `w`
bytes `bs` to the section and change nothing else: they are the bytes of
v mod 2^(8w), most significant byte first when the setting is big, least
significant byte first otherwise, and for `w` = 1 the single low byte under either
setting. `_lang_db` reaches these statements with the value of the item for an
expression in braces, for a numeric literal and for the name of a constant. The
setting is big at the start. -/
theorem C21_data_item (ctx : asm_context_t) (sec : section_t) (v : Int) (w : Nat)
    (hsec : section_find ctx.sections ctx.sect = some sec)
    (hw1 : sec.noload = 0 → sec.data.length = sec.length)
    (hw2 : sec.length + 8 < 4294967296)
    (hw : w = 1 ∨ w = 2 ∨ w = 3 ∨ w = 4 ∨ w = 8) :
    (∃ bs, db_push_value ctx v w = ctx_append ctx sec bs ∧ bs.length = w ∧
      (∀ b ∈ bs, b < 256) ∧
      (ctx.dbendian = DB_ENDIAN_BIG → le_value bs.reverse = u64 v % 2 ^ (8 * w)) ∧
      (ctx.dbendian ≠ DB_ENDIAN_BIG → le_value bs = u64 v % 2 ^ (8 * w)) ∧
      (w = 1 → bs = [u64 v % 256])) ∧
    (∀ t e ws0 ws1 rest, token_small t →
      token_stream t = ws0 ++ 123 :: (cprint e ++ (ws1 ++ 125 :: rest)) →
      blanks ws0 → blanks ws1 → cfits 0 e = true → ceval ctx.symbols e = .ok v →
      cdepth e ≤ EXPR_STACK_SIZE →
      ∃ t1, _lang_db_item ctx t w = .ok (some (db_push_value ctx v w, t1)) ∧
        token_stream t1 = rest) ∧
    (∀ t ws text rest d0, token_small t → token_stream t = ws ++ (text ++ d0 :: rest) →
      blanks ws → number_text text = true → text.length ≤ 500 →
      is_symbol_char d0 = false → lang_util_str2num text = .ok v →
      ∃ t1, _lang_db_item ctx t w = .ok (some (db_push_value ctx v w, t1)) ∧
        token_stream t1 = d0 :: rest) ∧
    (∀ t ws name rest d0 s, token_small t → token_stream t = ws ++ (name ++ d0 :: rest) →
      blanks ws → symbol_text name = true → name.length ≤ 500 →
      is_symbol_char d0 = false → symbol_find ctx.symbols name = some s →
      s.type = SYMBOL_TYPE_CONST → s.val64 = v →
      ∃ t1, _lang_db_item ctx t w = .ok (some (db_push_value ctx v w, t1)) ∧
        token_stream t1 = d0 :: rest) ∧
    assembler_init.dbendian = DB_ENDIAN_BIG := by
  refine ⟨?_, ?_, ?_, ?_, rfl⟩
  · have hpush := db_push_value_eq ctx sec v w hsec hw1 hw2 hw
    by_cases hb : ctx.dbendian = DB_ENDIAN_BIG
    · by_cases h1 : w = 1
      · subst h1
        refine ⟨le_bytes (u64 v) 1, ?_, le_bytes_length _ _, le_bytes_lt _ _, ?_, ?_, ?_⟩
        · rw [hpush]; simp
        · intro _
          simp only [le_bytes, List.reverse_cons, List.reverse_nil, List.nil_append, le_value]
          omega
        · intro h; exact absurd hb h
        · intro _; rfl
      · refine ⟨be_bytes (u64 v) w, ?_, be_bytes_length _ _, be_bytes_lt _ _, ?_, ?_, ?_⟩
        · rw [hpush, if_pos ⟨h1, hb⟩]
        · intro _
          simp only [be_bytes, List.reverse_reverse]
          rw [le_value_le_bytes, pow_256]
        · intro h; exact absurd hb h
        · intro h; exact absurd h h1
    · refine ⟨le_bytes (u64 v) w, ?_, le_bytes_length _ _, le_bytes_lt _ _, ?_, ?_, ?_⟩
      · rw [hpush, if_neg (fun x => hb x.2)]
      · intro h; exact absurd h hb
      · intro _
        rw [le_value_le_bytes, pow_256]
      · intro h; subst h; rfl
  · intro t e ws0 ws1 rest hsm hst h0 h1 hfit hv hd
    obtain ⟨t1, a, b, _⟩ := lang_db_item_expr ctx t w e ws0 ws1 rest v hsm hst h0 h1 hfit hv hd
    exact ⟨t1, a, b⟩
  · intro t ws text rest d0 hsm hst hws hn hl hd0 hv
    obtain ⟨t1, a, b, _⟩ := lang_db_item_number ctx t w ws text rest d0 v hsm hst hws hn hl
      hd0 hv
    exact ⟨t1, a, b⟩
  · intro t ws name rest d0 s hsm hst hws hn hl hd0 hs hty hval
    obtain ⟨t1, a, b, _⟩ := lang_db_item_const ctx t w ws name rest d0 s hsm hst hws hn hl
      hd0 hs hty
    rw [hval] at a
    exact ⟨t1, a, b⟩

set_option maxRecDepth 100000 in
/-- Witness of `C21_data_item`: the value 0x1234 and the width 2 at the start of
section "text". Under the setting big the two bytes appended are 12 34; the item
` $1234` of a source line reaches them. From source texts: `.d16 $1234` gives
12 34, after `.dbendian "little"` it gives 34 12, `.d8 $1234` gives 34 under either
setting, and `.d24`, `.d32`, `.d64` give the 3, 4 and 8 low bytes in the order of
the setting. -/
theorem C21_data_item_witness :
    (∃ bs, db_push_value assembler_init 0x1234 2 = ctx_append assembler_init c7w_text bs ∧
      bs.length = 2 ∧ (∀ b ∈ bs, b < 256) ∧
      (assembler_init.dbendian = DB_ENDIAN_BIG →
        le_value bs.reverse = u64 0x1234 % 2 ^ (8 * 2)) ∧
      (assembler_init.dbendian ≠ DB_ENDIAN_BIG → le_value bs = u64 0x1234 % 2 ^ (8 * 2)) ∧
      (2 = 1 → bs = [u64 0x1234 % 256])) ∧
    (∃ t1, _lang_db_item assembler_init (token_prepare (cstr " $1234\n")) 2
        = .ok (some (db_push_value assembler_init 0x1234 2, t1)) ∧
      token_stream t1 = 10 :: []) ∧
    db_push_value assembler_init 0x1234 2 = ctx_append assembler_init c7w_text [0x12, 0x34] ∧
    assemble_text ".d16 $1234\n" = .ok [0x12, 0x34] ∧
    assemble_text ".dbendian \"little\"\n.d16 $1234\n" = .ok [0x34, 0x12] ∧
    assemble_text ".d8 $1234\n.dbendian \"little\"\n.d8 $1234\n" = .ok [0x34, 0x34] ∧
    assemble_text ".d24 $123456\n.d32 $12345678\n.d64 {0 - 2}\n"
      = .ok [0x12, 0x34, 0x56, 0x12, 0x34, 0x56, 0x78,
             0xFF, 0xFF, 0xFF, 0xFF, 0xFF, 0xFF, 0xFF, 0xFE] ∧
    assemble_text ".dbendian \"little\"\n.d24 $123456\n.d32 $12345678\n.d64 {0 - 2}\n"
      = .ok [0x56, 0x34, 0x12, 0x78, 0x56, 0x34, 0x12,
             0xFE, 0xFF, 0xFF, 0xFF, 0xFF, 0xFF, 0xFF, 0xFF] :=
  ⟨(C21_data_item assembler_init c7w_text 0x1234 2 (by decide) (by decide) (by decide)
      (by decide)).1,
   (C21_data_item assembler_init c7w_text 0x1234 2 (by decide) (by decide) (by decide)
      (by decide)).2.2.1 (token_prepare (cstr " $1234\n")) [32] (cstr "$1234") [] 10
      ⟨by decide, by decide⟩ (by decide) ⟨by decide, by decide⟩ (by decide) (by decide)
      (by decide) (by decide!),
   by decide!, by decide!, by decide!, by decide!, by decide!, by decide!⟩

/-- C22, counterexample. `.define SZ.w16 $1000` followed by `ld A, SZ`: the LONGMEM
row of `ld` is taken, but the two bytes after the opcode 0xC6 are the value of the
constant, 0x10 0x00, and no relocation is recorded; the bytes are not the zero
placeholders of the claim. -/
theorem C22_defined_constant_is_inlined :
    assemble_text ".define SZ.w16 $1000\nld A, SZ\n" = .ok [0xC6, 0x10, 0x00] ∧
    assemble_relocations ".define SZ.w16 $1000\nld A, SZ\n" = .ok [] ∧
    assemble_text ".define SZ.w16 $1000\nld A, SZ\n" ≠ .ok [0xC6, 0, 0] ∧
    assemble_relocations ".define SZ.w16 $1000\nld A, SZ\n"
      ≠ .ok [(RELOCATION_TYPE_ABOSULTE, cstr "SZ", 1, 2, 0)] :=
  ⟨by decide!, by decide!, by decide!, by decide!⟩

/-- C22 (amended). A symbol operand whose symbol is a constant of width w16 is the
operand of kind LONGMEM that carries the value of the constant and no symbol, and
`ld A` with that operand takes the LONGMEM row of `ld`: the opcode 0xC6 and the two
low bytes of the value, most significant byte first, are appended to the current
section, and the relocations stay as they were. -/
theorem C22_constant_operand_long (ctx : asm_context_t) (arg : arg_t) (t : token_t)
    (ws name rest : List Nat) (d0 : Nat) (s : symbol_t) (sec : section_t)
    (hsm : token_small t) (hst : token_stream t = ws ++ (name ++ d0 :: rest)) (hw : blanks ws)
    (hn : symbol_text name = true) (hl : name.length ≤ 500)
    (hd0 : is_symbol_char d0 = false) (hreg : arg_register name = none)
    (hs : symbol_find ctx.symbols name = some s)
    (hty : s.type = SYMBOL_TYPE_CONST) (hwd : s.width = 2)
    (hsec : section_find ctx.sections ctx.sect = some sec) (hwf : section_wf sec) :
    (∃ t1, _get_arg ctx arg t
        = .ok (GETARG_RESULT_OK, { arg with type := ARG_TYPE_LONGMEM, value := s.val64 }, t1) ∧
      token_stream t1 = d0 :: rest) ∧
    (∃ ctx1, _assemble ctx (cstr "ld")
        [{ arg_zero with type := ARG_TYPE_A },
         { arg_zero with type := ARG_TYPE_LONGMEM, value := s.val64 }, arg_zero, arg_zero]
        = .ok ctx1 ∧
      ctx1 = ctx_append ctx sec ([0xC6] ++ be_bytes (u64 s.val64) 2) ∧
      section_find ctx1.sections ctx1.sect
        = some (push_bytes sec ([0xC6] ++ be_bytes (u64 s.val64) 2)) ∧
      ctx1.relocations = ctx.relocations) := by
  constructor
  · obtain ⟨t1, h1, h2, _⟩ := get_arg_symbol ctx arg t ws name rest d0 s ARG_TYPE_LONGMEM
      hsm hst hw hn hl hd0 hreg hs (Or.inl hty) (by rw [hwd]; rfl)
    refine ⟨t1, ?_, h2⟩
    rw [h1]
    simp [symbol_operand, hty]
  · have hld : (⟨cstr "ld", gen_func_t._assemble_uni, _gen_info_ld⟩ : gen_functions_t)
        ∈ _gen_functions := by decide
    have hrow : uni_first_row
        [{ arg_zero with type := ARG_TYPE_A },
         { arg_zero with type := ARG_TYPE_LONGMEM, value := s.val64 }, arg_zero, arg_zero]
        _gen_info_ld
        = some ⟨ARG_TYPE_A, ARG_TYPE_LONGMEM, ARG_TYPE_NONE, ARG_TYPE_NONE, PREBYTE_NONE, 0xC6, 2,
            GEN_FLAG_NONE⟩ := by
      simp [uni_first_row, _gen_info_ld, gen_match, arg_at, gen_flag, arg_zero,
        List.takeWhile_cons, List.find?_cons]
      decide
    have hua : uni_arg
        [{ arg_zero with type := ARG_TYPE_A },
         { arg_zero with type := ARG_TYPE_LONGMEM, value := s.val64 }, arg_zero, arg_zero]
        ⟨ARG_TYPE_A, ARG_TYPE_LONGMEM, ARG_TYPE_NONE, ARG_TYPE_NONE, PREBYTE_NONE, 0xC6, 2,
            GEN_FLAG_NONE⟩
        = { arg_zero with type := ARG_TYPE_LONGMEM, value := s.val64 } := by
      unfold uni_arg
      rw [if_neg (by decide)]
      rfl
    rw [assemble_of_uni ⟨cstr "ld", gen_func_t._assemble_uni, _gen_info_ld⟩ hld rfl,
      assemble_uni_find]
    simp only [hrow]
    rw [assemble_uni_row_const ctx _ _ sec hsec hwf (by decide) (by decide)
      (by rw [hua]; rfl)]
    rw [hua]
    refine ⟨_, rfl, ?_, ?_, rfl⟩
    · rfl
    · exact ctx_append_find ctx sec _ hsec

/-- Witness of `C22_constant_operand_long`: after `.define SZ.w16 $1000` the operand
`SZ` is the LONGMEM operand with the value 0x1000 and no symbol, `ld A` with it puts
C6 10 00 at the start of section "text" and leaves the relocations empty; the whole
source gives the same in both passes. -/
theorem C22_constant_operand_long_witness :
    ((∃ t1, _get_arg c22_ctx arg_zero (token_prepare (cstr " SZ\n"))
        = .ok (GETARG_RESULT_OK,
            { arg_zero with type := ARG_TYPE_LONGMEM, value := (0x1000 : Int) }, t1) ∧
      token_stream t1 = 10 :: []) ∧
    (∃ ctx1, _assemble c22_ctx (cstr "ld")
        [{ arg_zero with type := ARG_TYPE_A },
         { arg_zero with type := ARG_TYPE_LONGMEM, value := (0x1000 : Int) }, arg_zero, arg_zero]
        = .ok ctx1 ∧
      ctx1 = ctx_append c22_ctx c7w_text ([0xC6] ++ be_bytes (u64 (0x1000 : Int)) 2) ∧
      section_find ctx1.sections ctx1.sect
        = some (push_bytes c7w_text ([0xC6] ++ be_bytes (u64 (0x1000 : Int)) 2)) ∧
      ctx1.relocations = c22_ctx.relocations)) ∧
    be_bytes (u64 (0x1000 : Int)) 2 = [0x10, 0x00] ∧
    assemble_text ".define SZ.w16 $1000\nld A, SZ\n" = .ok [0xC6, 0x10, 0x00] :=
  ⟨C22_constant_operand_long c22_ctx arg_zero (token_prepare (cstr " SZ\n")) [32] (cstr "SZ")
      [] 10 c22_symbol c7w_text
      ⟨by decide, by decide⟩ (by decide) ⟨by decide, by decide⟩ (by decide) (by decide)
      (by decide) (by decide) (by decide) rfl rfl (by decide) (by decide),
   by decide, by decide!⟩

/-- C23, counterexample. The source whose only line is `L: nop | ret` is refused:
after the colon of a label `lang_label` accepts only a comment or the end of the
line, so the first pass already stops with "Unexpected symbols after label". -/
theorem C23_label_and_instruction_on_one_line :
    assemble_source "L: nop | ret\n" = .error "Unexpected symbols after label" ∧
    assembler 100 { noprint := 0, files := [(cstr "a.s", cstr "L: nop | ret\n")], out := [] }
      assembler_init (cstr "a.s") = .error "Unexpected symbols after label" ∧
    lang_label assembler_init (token_drop (token_prepare (cstr "L: nop | ret\n")))
      = .error "Unexpected symbols after label" :=
  ⟨by decide!, by decide!, by decide!⟩

/-- C23 (amended). With the label on a line of its own, the source `L:` / `nop | ret`
is assembled in both passes: section "text" is the only section and holds exactly
the bytes 9D 81, no relocation is recorded, and the only symbol is the label L with
the value 0 in section "text". The line `nop | ret` alone gives the same bytes. -/
theorem C23_label_line_then_instructions :
    (assemble_source "L:\n nop | ret\n").map
        (fun c => c.sections.map (fun s => (s.name, s.data, s.length)))
      = .ok [(cstr "text", [0x9D, 0x81], 2)] ∧
    assemble_relocations "L:\n nop | ret\n" = .ok [] ∧
    (assemble_source "L:\n nop | ret\n").map
        (fun c => c.symbols.map (fun s => (s.name, s.type, s.val64, s.sect)))
      = .ok [(cstr "L", SYMBOL_TYPE_LABEL, 0, some (cstr "text"))] ∧
    (assembler 100 { noprint := 0, files := [(cstr "a.s", cstr "L:\n nop | ret\n")], out := [] }
      assembler_init (cstr "a.s")).toBool = true ∧
    assemble_text "nop | ret\n" = .ok [0x9D, 0x81] :=
  ⟨by decide!, by decide!, by decide!, by decide!, by decide!⟩

theorem take_snoc_eq (body p : List Nat) (hp : ∀ c ∈ p, c ≠ 10) :
    (body ++ [10]).take p.length = p ↔ body.take p.length = p := by
  by_cases h : p.length ≤ body.length
  · rw [List.take_append_of_le_length h]
  · have hlt : body.length < p.length := by omega
    constructor
    · intro e
      exfalso
      have hm : (10 : Nat) ∈ (body ++ [10]).take p.length := by
        rw [List.take_append_eq_append_take, List.take_of_length_le (by omega)]
        have : p.length - body.length = (p.length - body.length - 1) + 1 := by omega
        rw [this]
        simp
      rw [e] at hm
      exact hp 10 hm rfl
    · intro e
      exfalso
      have := congrArg List.length e
      rw [List.length_take] at this
      omega

theorem line_text_no_nl (body : List Nat) (h : line_text body = true) : ∀ c ∈ body, c ≠ 10 := by
  simp only [line_text, Bool.and_eq_true, decide_eq_true_eq, List.all_eq_true] at h
  intro c hc
  have := h.1.2 c hc
  simp only [ne_eq, decide_eq_true_eq] at this
  exact this.1

theorem opens_not_closes (l : src_line) (h : opens_if l = true) : closes_if l = false := by
  simp only [opens_if, closes_if, decide_eq_true_eq, decide_eq_false_iff_not] at h ⊢
  intro e
  have := congrArg (List.take 3) e
  rw [List.take_take] at this
  simp only [show min 3 6 = 3 from rfl] at this
  rw [h] at this
  revert this
  decide

/-- One pass of the skipping loop at a line. -/
theorem directive_skip_step (fuel d : Nat) (t : token_t) (l : src_line) (rest : List Nat)
    (hsm : token_small t) (hst : token_stream t = l.1 ++ (l.2 ++ 10 :: rest))
    (hok : line_ok l = true) :
    ∃ t1, token_stream t1 = rest ∧ token_small t1 ∧
      directive_skip_loop (fuel + 1) d t =
        (if closes_if l = true then
          (if (if opens_if l = true then d + 1 else d) = 0 then .ok t1
           else directive_skip_loop fuel ((if opens_if l = true then d + 1 else d) - 1) t1)
        else directive_skip_loop fuel (if opens_if l = true then d + 1 else d) t1) := by
  simp only [line_ok, Bool.and_eq_true] at hok
  obtain ⟨t1, h1, h2, h3⟩ := tok_line_ok t l.1 l.2 rest hsm hst (blanks_of_ok _ hok.1) hok.2
  refine ⟨t1, h2, h3, ?_⟩
  have hnl := line_text_no_nl _ hok.2
  have e3 : ((l.2 ++ [10]).take 3 = cstr ".if") ↔ (l.2.take 3 = cstr ".if") :=
    take_snoc_eq l.2 (cstr ".if") (by decide)
  have e6 : ((l.2 ++ [10]).take 6 = cstr ".endif") ↔ (l.2.take 6 = cstr ".endif") :=
    take_snoc_eq l.2 (cstr ".endif") (by decide)
  rw [directive_skip_loop]
  simp only [h1, bind, Except.bind, pure, Except.pure]
  simp only [opens_if, closes_if, decide_eq_true_eq, e3, e6]

theorem lines_text_append (a b : List src_line) :
    lines_text (a ++ b) = lines_text a ++ lines_text b := by
  induction a with
  | nil => rfl
  | cons x t ih => simp [lines_text, ih]

/-- The skipping loop over the lines of a block and its `.endif`. -/
theorem directive_skip_lines (last : src_line) (rest : List Nat)
    (hlast : closes_if last = true) (hlok : line_ok last = true) :
    ∀ (pre : List src_line) (d fuel : Nat) (t : token_t),
      token_small t → token_stream t = lines_text (pre ++ [last]) ++ rest →
      (∀ l ∈ pre, line_ok l = true) → block_body d pre → pre.length + 1 ≤ fuel →
      ∃ t1, directive_skip_loop fuel d t = .ok t1 ∧ token_stream t1 = rest ∧
        token_small t1 := by
  intro pre
  induction pre with
  | nil =>
    intro d fuel t hsm hst _ hb hf
    obtain ⟨n, rfl⟩ : ∃ n, fuel = n + 1 := ⟨fuel - 1, by simp at hf; omega⟩
    have hst2 : token_stream t = last.1 ++ (last.2 ++ 10 :: rest) := by
      rw [hst]; simp [lines_text]
    obtain ⟨t1, h1, h2, h3⟩ := directive_skip_step n d t last rest hsm hst2 hlok
    refine ⟨t1, ?_, h1, h2⟩
    have hd : d = 0 := by
      have := hb.1
      simp [count_if, count_endif] at this
      exact this
    have hno : opens_if last = false := by
      cases ho : opens_if last with
      | false => rfl
      | true => rw [opens_not_closes last ho] at hlast; simp at hlast
    rw [h3, if_pos hlast, hno, hd]
    simp
  | cons l pre ih =>
    intro d fuel t hsm hst hall hb hf
    obtain ⟨n, rfl⟩ : ∃ n, fuel = n + 1 := ⟨fuel - 1, by simp at hf; omega⟩
    have hst2 : token_stream t
        = l.1 ++ (l.2 ++ 10 :: (lines_text (pre ++ [last]) ++ rest)) := by
      rw [hst]; simp [lines_text]
    obtain ⟨t1, h1, h2, h3⟩ := directive_skip_step n d t l _ hsm hst2
      (hall l (List.mem_cons_self _ _))
    have hall' : ∀ x ∈ pre, line_ok x = true := fun x hx => hall x (List.mem_cons_of_mem _ hx)
    have hfuel : pre.length + 1 ≤ n := by simp at hf; omega
    obtain ⟨hb1, hb2⟩ := hb
    rw [h3]
    by_cases ho : opens_if l = true
    · have hc := opens_not_closes l ho
      rw [hc, ho]
      simp only [if_true, Bool.false_eq_true, if_false]
      apply ih (d + 1) n t1 h2 h1 hall' _ hfuel
      constructor
      · simp only [count_if, count_endif, List.countP_cons, ho, hc, if_true,
          Bool.false_eq_true, if_false, Nat.add_zero] at hb1 ⊢
        omega
      · intro j hj hcx
        have := hb2 (j + 1) (by simp; omega) (by simpa using hcx)
        simp only [List.take_succ_cons, count_if, count_endif, List.countP_cons, ho, hc,
          if_true, Bool.false_eq_true, if_false, Nat.add_zero] at this ⊢
        omega
    · have ho' : opens_if l = false := by simpa using ho
      rw [ho']
      simp only [Bool.false_eq_true, if_false]
      by_cases hc : closes_if l = true
      · have hd0 : d ≠ 0 := by
          have := hb2 0 (by simp) (by simpa using hc)
          simp [count_if, count_endif] at this
          omega
        rw [if_pos hc, if_neg hd0]
        apply ih (d - 1) n t1 h2 h1 hall' _ hfuel
        constructor
        · simp only [count_if, count_endif, List.countP_cons, ho', hc, if_true,
            Bool.false_eq_true, if_false, Nat.add_zero] at hb1 ⊢
          omega
        · intro j hj hcx
          have := hb2 (j + 1) (by simp; omega) (by simpa using hcx)
          simp only [List.take_succ_cons, count_if, count_endif, List.countP_cons, ho', hc,
            if_true, Bool.false_eq_true, if_false, Nat.add_zero] at this ⊢
          omega
      · have hc' : closes_if l = false := by simpa using hc
        rw [if_neg hc]
        apply ih d n t1 h2 h1 hall' _ hfuel
        constructor
        · simp only [count_if, count_endif, List.countP_cons, ho', hc', if_true,
            Bool.false_eq_true, if_false, Nat.add_zero] at hb1 ⊢
          omega
        · intro j hj hcx
          have := hb2 (j + 1) (by simp; omega) (by simpa using hcx)
          simp only [List.take_succ_cons, count_if, count_endif, List.countP_cons, ho', hc',
            if_true, Bool.false_eq_true, if_false, Nat.add_zero] at this ⊢
          omega

theorem lines_text_length (ls : List src_line) : ls.length ≤ (lines_text ls).length := by
  induction ls with
  | nil => simp
  | cons l t ih =>
    simp only [lines_text, List.length_cons, List.length_append]
    omega

/-- The skipping of `lang_directive` over the lines of a block and its `.endif`. -/
theorem directive_skip_block (pre : List src_line) (last : src_line) (rest : List Nat)
    (t : token_t) (hsm : token_small t)
    (hst : token_stream t = lines_text (pre ++ [last]) ++ rest)
    (hall : ∀ l ∈ pre, line_ok l = true) (hlok : line_ok last = true)
    (hlast : closes_if last = true) (hb : block_body 0 pre) :
    ∃ t1, directive_skip t = .ok t1 ∧ token_stream t1 = rest ∧ token_small t1 := by
  unfold directive_skip
  apply directive_skip_lines last rest hlast hlok pre 0 _ t hsm hst hall hb
  have := lines_text_length (pre ++ [last])
  have h2 : (token_stream t).length = t.next.length + t.file.length := by
    simp [token_stream]
  rw [hst, List.length_append] at h2
  simp only [List.length_append, List.length_singleton] at this
  omega

theorem directive_is_if_cases (tname : CStr) (h : directive_is_if tname = true) :
    tname = cstr "ifdef" ∨ tname = cstr "ifndef" ∨ tname = cstr "if" ∨ tname = cstr "ifeq" ∨
      tname = cstr "ifneq" := by
  simpa [directive_is_if] using h

/-- The branch of the `.if` family of `lang_directive`. -/
theorem lang_directive_if (fuel : Nat) (app : asm_app_t) (ctx : asm_context_t)
    (token t1 t2 : token_t) (dot tname : CStr)
    (h1 : token_get token TOKEN_TYPE_DOT TOKEN_CURRENT = .ok (some dot, t1))
    (h2 : token_get t1 TOKEN_TYPE_SYMBOL TOKEN_NEXT = .ok (some tname, t2))
    (hif : directive_is_if tname = true) :
    lang_directive (fuel + 1) app ctx token =
      (match directive_if_value ctx t2 tname with
       | .error e => .error e
       | .ok (value, t3) =>
         if value = 0 then
           match directive_skip t3 with
           | .error e => .error e
           | .ok t4 => .ok (0, app, ctx, t4)
         else directive_end app ctx t3) := by
  rw [lang_directive]
  simp only [h1, h2, bind, Except.bind, pure, Except.pure]
  have hn : tname ≠ cstr "define" ∧ tname ≠ cstr "print" ∧ tname ≠ cstr "extern" ∧
      tname ≠ cstr "export" ∧ tname ≠ cstr "section" ∧ tname ≠ cstr "include" ∧
      tname ≠ cstr "dbendian" ∧ (directive_db_width tname).isSome = false ∧
      tname ≠ cstr "fill" := by
    rcases directive_is_if_cases tname hif with e | e | e | e | e <;> (rw [e]; decide)
  obtain ⟨n1, n2, n3, n4, n5, n6, n7, n8, n9⟩ := hn
  simp only [n1, n2, n3, n4, n5, n6, n7, n8, n9, hif, if_false, if_true, Bool.false_eq_true]
  cases hv : directive_if_value ctx t2 tname with
  | error e => rfl
  | ok r =>
    obtain ⟨value, t3⟩ := r
    simp only
    by_cases h0 : value = 0
    · simp only [h0, if_true]
      cases directive_skip t3 <;> rfl
    · simp only [h0, if_false]

/-- The directive `.endif` when it is reached: nothing but the end of the line. -/
theorem lang_directive_endif (fuel : Nat) (app : asm_app_t) (ctx : asm_context_t)
    (token t1 t2 : token_t) (dot : CStr)
    (h1 : token_get token TOKEN_TYPE_DOT TOKEN_CURRENT = .ok (some dot, t1))
    (h2 : token_get t1 TOKEN_TYPE_SYMBOL TOKEN_NEXT = .ok (some (cstr "endif"), t2)) :
    lang_directive (fuel + 1) app ctx token = directive_end app ctx t2 := by
  rw [lang_directive]
  simp only [h1, h2, bind, Except.bind, pure, Except.pure]
  have n1 : cstr "endif" ≠ cstr "define" := by decide
  have n2 : cstr "endif" ≠ cstr "print" := by decide
  have n3 : cstr "endif" ≠ cstr "extern" := by decide
  have n4 : cstr "endif" ≠ cstr "export" := by decide
  have n5 : cstr "endif" ≠ cstr "section" := by decide
  have n6 : cstr "endif" ≠ cstr "include" := by decide
  have n7 : cstr "endif" ≠ cstr "dbendian" := by decide
  have n8 : (directive_db_width (cstr "endif")).isSome = false := by decide
  have n9 : cstr "endif" ≠ cstr "fill" := by decide
  have n10 : directive_is_if (cstr "endif") = false := by decide
  simp only [n1, n2, n3, n4, n5, n6, n7, n8, n9, n10, if_false, if_true, Bool.false_eq_true]

theorem if_value_ifdef (ctx : asm_context_t) (t : token_t) (ws name rest : List Nat) (d0 : Nat)
    (hsm : token_small t) (hst : token_stream t = ws ++ (name ++ d0 :: rest)) (hw : blanks ws)
    (hn : symbol_text name = true) (hl : name.length ≤ 500)
    (hd0 : is_symbol_char d0 = false) :
    (∃ t1, directive_if_value ctx t (cstr "ifdef")
        = .ok (if symbol_find ctx.symbols name = none then 0 else 1, t1) ∧
      token_stream t1 = d0 :: rest ∧ token_small t1) ∧
    (∃ t1, directive_if_value ctx t (cstr "ifndef")
        = .ok (if symbol_find ctx.symbols name = none then 1 else 0, t1) ∧
      token_stream t1 = d0 :: rest ∧ token_small t1) := by
  obtain ⟨t1, h1, h2, h3⟩ := tok_symbol_ok t ws name rest d0 hsm hst hw hn hl hd0
  constructor
  · refine ⟨t1, ?_, h2, h3⟩
    unfold directive_if_value
    have n0 : ¬ (cstr "ifdef" = cstr "ifndef") := by decide
    simp only [h1, bind, Except.bind, pure, Except.pure, true_or, if_true, n0, if_false]
    cases symbol_find ctx.symbols name <;> simp
  · refine ⟨t1, ?_, h2, h3⟩
    unfold directive_if_value
    simp only [h1, bind, Except.bind, pure, Except.pure, or_true, if_true]
    cases symbol_find ctx.symbols name <;> simp

theorem if_value_if (ctx : asm_context_t) (t : token_t) (e : cexpr)
    (ws0 ws1 rest : List Nat) (v : Int)
    (hsm : token_small t)
    (hst : token_stream t = ws0 ++ 123 :: (cprint e ++ (ws1 ++ 125 :: rest)))
    (hw0 : blanks ws0) (hw1 : blanks ws1) (hfit : cfits 0 e = true)
    (hv : ceval ctx.symbols e = .ok v) (hd : cdepth e ≤ EXPR_STACK_SIZE) :
    ∃ t1, directive_if_value ctx t (cstr "if") = .ok (v, t1) ∧
      token_stream t1 = rest ∧ token_small t1 := by
  obtain ⟨t1, h1, h2, h3⟩ := lang_constexpr_tree ctx.symbols e t ws0 ws1 rest v hsm hst hw0 hw1
    hfit hv hd
  refine ⟨t1, ?_, h2, h3⟩
  unfold directive_if_value
  have n1 : ¬ (cstr "if" = cstr "ifdef" ∨ cstr "if" = cstr "ifndef") := by decide
  have n2 : ¬ (cstr "if" = cstr "ifeq" ∨ cstr "if" = cstr "ifneq") := by decide
  simp only [n1, n2, if_false, h1, bind, Except.bind, pure, Except.pure]

theorem if_value_ifeq (ctx : asm_context_t) (t : token_t) (e0 e1 : cexpr)
    (ws0 ws1 ws2 ws3 rest : List Nat) (v0 v1 : Int)
    (hsm : token_small t)
    (hst : token_stream t = ws0 ++ 123 :: (cprint e0 ++ (ws1 ++ 125 ::
      (ws2 ++ 123 :: (cprint e1 ++ (ws3 ++ 125 :: rest))))))
    (hw0 : blanks ws0) (hw1 : blanks ws1) (hw2 : blanks ws2) (hw3 : blanks ws3)
    (hfit0 : cfits 0 e0 = true) (hfit1 : cfits 0 e1 = true)
    (hv0 : ceval ctx.symbols e0 = .ok v0) (hv1 : ceval ctx.symbols e1 = .ok v1)
    (hd0 : cdepth e0 ≤ EXPR_STACK_SIZE) (hd1 : cdepth e1 ≤ EXPR_STACK_SIZE) :
    (∃ t1, directive_if_value ctx t (cstr "ifeq")
        = .ok (if v0 = v1 then 1 else 0, t1) ∧
      token_stream t1 = rest ∧ token_small t1) ∧
    (∃ t1, directive_if_value ctx t (cstr "ifneq")
        = .ok (if v0 = v1 then 0 else 1, t1) ∧
      token_stream t1 = rest ∧ token_small t1) := by
  obtain ⟨t1, h1, h2, h3⟩ := lang_constexpr_tree ctx.symbols e0 t ws0 ws1 _ v0 hsm hst hw0 hw1
    hfit0 hv0 hd0
  obtain ⟨t2, k1, k2, k3⟩ := lang_constexpr_tree ctx.symbols e1 t1 ws2 ws3 rest v1 h3 h2 hw2 hw3
    hfit1 hv1 hd1
  constructor
  · refine ⟨t2, ?_, k2, k3⟩
    unfold directive_if_value
    have n1 : ¬ (cstr "ifeq" = cstr "ifdef" ∨ cstr "ifeq" = cstr "ifndef") := by decide
    have n3 : ¬ (cstr "ifeq" = cstr "ifneq") := by decide
    simp only [n1, n3, if_false, true_or, if_true, h1, k1, bind, Except.bind, pure, Except.pure]
    by_cases hv : v0 = v1 <;> simp [hv]
  · refine ⟨t2, ?_, k2, k3⟩
    unfold directive_if_value
    have n1 : ¬ (cstr "ifneq" = cstr "ifdef" ∨ cstr "ifneq" = cstr "ifndef") := by decide
    simp only [n1, if_false, or_true, if_true, h1, k1, bind, Except.bind, pure, Except.pure]
    by_cases hv : v0 = v1 <;> simp [hv]

/-- C24. The directives `.if`, `.ifdef`, `.ifndef`, `.ifeq` and `.ifneq` in
`lang_directive`, the dot and the name `tname` of the directive being lexed at the
token state `token`. The value of the predicate: for `.ifdef NAME` it is 0 exactly
when the name is not in the symbol table, for `.ifndef NAME` exactly when it is; for
`.if` it is the value of the expression; for `.ifeq` it is 0 exactly when the two
values differ, for `.ifneq` exactly when they are equal. When the value is 0 and the
text that follows is the lines `pre`, the first of them the rest of the line of the
directive, then a line `last` that starts with `.endif` and matches (as many lines
starting with `.endif` as lines starting with `.if` before it, and no earlier such
`.endif` line), `lang_directive` returns 0 with the application and the context,
and so the sections and the relocations, unchanged, and the text goes on behind
the line `last`. When the value is not 0, `lang_directive` only checks the end of
the line, as it does for `.endif` when it is reached, so that the lines that follow
are read by the loop of `assembler`. -/
theorem C24_conditional_blocks (fuel : Nat) (app : asm_app_t) (ctx : asm_context_t)
    (token t1 t2 : token_t) (dot tname : CStr)
    (h1 : token_get token TOKEN_TYPE_DOT TOKEN_CURRENT = .ok (some dot, t1))
    (h2 : token_get t1 TOKEN_TYPE_SYMBOL TOKEN_NEXT = .ok (some tname, t2))
    (hsm : token_small t2) :
    (∀ ws name rest d0, token_stream t2 = ws ++ (name ++ d0 :: rest) → blanks ws →
      symbol_text name = true → name.length ≤ 500 → is_symbol_char d0 = false →
      (tname = cstr "ifdef" → ∃ t3, directive_if_value ctx t2 tname
          = .ok (if symbol_find ctx.symbols name = none then 0 else 1, t3) ∧
        token_stream t3 = d0 :: rest ∧ token_small t3) ∧
      (tname = cstr "ifndef" → ∃ t3, directive_if_value ctx t2 tname
          = .ok (if symbol_find ctx.symbols name = none then 1 else 0, t3) ∧
        token_stream t3 = d0 :: rest ∧ token_small t3)) ∧
    (∀ e ws0 ws1 rest v,
      token_stream t2 = ws0 ++ 123 :: (cprint e ++ (ws1 ++ 125 :: rest)) →
      blanks ws0 → blanks ws1 → cfits 0 e = true → ceval ctx.symbols e = .ok v →
      cdepth e ≤ EXPR_STACK_SIZE → tname = cstr "if" →
      ∃ t3, directive_if_value ctx t2 tname = .ok (v, t3) ∧
        token_stream t3 = rest ∧ token_small t3) ∧
    (∀ e0 e1 ws0 ws1 ws2 ws3 rest v0 v1,
      token_stream t2 = ws0 ++ 123 :: (cprint e0 ++ (ws1 ++ 125 ::
        (ws2 ++ 123 :: (cprint e1 ++ (ws3 ++ 125 :: rest))))) →
      blanks ws0 → blanks ws1 → blanks ws2 → blanks ws3 →
      cfits 0 e0 = true → cfits 0 e1 = true →
      ceval ctx.symbols e0 = .ok v0 → ceval ctx.symbols e1 = .ok v1 →
      cdepth e0 ≤ EXPR_STACK_SIZE → cdepth e1 ≤ EXPR_STACK_SIZE →
      (tname = cstr "ifeq" → ∃ t3, directive_if_value ctx t2 tname
          = .ok (if v0 = v1 then 1 else 0, t3) ∧
        token_stream t3 = rest ∧ token_small t3) ∧
      (tname = cstr "ifneq" → ∃ t3, directive_if_value ctx t2 tname
          = .ok (if v0 = v1 then 0 else 1, t3) ∧
        token_stream t3 = rest ∧ token_small t3)) ∧
    (directive_is_if tname = true →
      ∀ t3 pre last rest, directive_if_value ctx t2 tname = .ok (0, t3) → token_small t3 →
      token_stream t3 = lines_text (pre ++ [last]) ++ rest →
      (∀ l ∈ pre, line_ok l = true) → line_ok last = true →
      closes_if last = true → block_body 0 pre →
      ∃ t4, lang_directive (fuel + 1) app ctx token = .ok (0, app, ctx, t4) ∧
        token_stream t4 = rest ∧ token_small t4) ∧
    (directive_is_if tname = true →
      ∀ v t3, directive_if_value ctx t2 tname = .ok (v, t3) → v ≠ 0 →
      lang_directive (fuel + 1) app ctx token = directive_end app ctx t3) ∧
    (tname = cstr "endif" →
      lang_directive (fuel + 1) app ctx token = directive_end app ctx t2) := by
  refine ⟨?_, ?_, ?_, ?_, ?_, ?_⟩
  · intro ws name rest d0 hst hw hn hl hd0
    have := if_value_ifdef ctx t2 ws name rest d0 hsm hst hw hn hl hd0
    constructor
    · intro e; rw [e]; exact this.1
    · intro e; rw [e]; exact this.2
  · intro e ws0 ws1 rest v hst hw0 hw1 hfit hv hd ht
    rw [ht]
    exact if_value_if ctx t2 e ws0 ws1 rest v hsm hst hw0 hw1 hfit hv hd
  · intro e0 e1 ws0 ws1 ws2 ws3 rest v0 v1 hst hw0 hw1 hw2 hw3 hf0 hf1 hv0 hv1 hd0 hd1
    have := if_value_ifeq ctx t2 e0 e1 ws0 ws1 ws2 ws3 rest v0 v1 hsm hst hw0 hw1 hw2 hw3
      hf0 hf1 hv0 hv1 hd0 hd1
    constructor
    · intro e; rw [e]; exact this.1
    · intro e; rw [e]; exact this.2
  · intro hif t3 pre last rest hv hsm3 hst hall hlok hlast hb
    obtain ⟨t4, k1, k2, k3⟩ := directive_skip_block pre last rest t3 hsm3 hst hall hlok hlast hb
    refine ⟨t4, ?_, k2, k3⟩
    rw [lang_directive_if fuel app ctx token t1 t2 dot tname h1 h2 hif, hv]
    simp only [if_true, k1]
  · intro hif v t3 hv hne
    rw [lang_directive_if fuel app ctx token t1 t2 dot tname h1 h2 hif, hv]
    simp only [hne, if_false]
  · intro he
    rw [he] at h2
    exact lang_directive_endif fuel app ctx token t1 t2 dot h1 h2

set_option maxRecDepth 100000 in
/-- Witness of `C24_conditional_blocks`: the source `.ifdef X`, `nop`, `.ifdef Y`,
`ret`, `.endif`, `nop`, `.endif`, `ret` with X not defined. The value of `.ifdef X`
is 0, the six lines up to the second `.endif` are the block (the first `.endif`
closes the nested `.ifdef Y`), and `lang_directive` leaves the context as it was,
with the text ` ret` ahead. Both passes over the source give the single byte 81;
with X defined before, the nested block alone is skipped and the bytes are
9D 9D 81. -/
theorem C24_conditional_blocks_witness :
    (∃ t3, directive_if_value assembler_init c24_t2 (cstr "ifdef")
        = .ok (if symbol_find assembler_init.symbols (cstr "X") = none then 0 else 1, t3) ∧
      token_stream t3 = 10 :: cstr " nop\n.ifdef Y\n ret\n.endif\n nop\n.endif\n ret\n" ∧
      token_small t3) ∧
    (∃ t4, lang_directive (0 + 1) c24_app assembler_init c24_token
        = .ok (0, c24_app, assembler_init, t4) ∧
      token_stream t4 = cstr " ret\n" ∧ token_small t4) ∧
    assemble_text c24_source = .ok [0x81] ∧
    assemble_relocations c24_source = .ok [] ∧
    assemble_text (".define X 1\n" ++ c24_source) = .ok [0x9D, 0x9D, 0x81] :=
  ⟨((C24_conditional_blocks 0 c24_app assembler_init c24_token c24_t1 c24_t2 (cstr ".")
      (cstr "ifdef") (by decide!) (by decide!) ⟨by decide!, by decide!⟩).1
      [32] (cstr "X") (cstr " nop\n.ifdef Y\n ret\n.endif\n nop\n.endif\n ret\n") 10
      (by decide!) ⟨by decide, by decide⟩ (by decide) (by decide) (by decide)).1 rfl,
   (C24_conditional_blocks 0 c24_app assembler_init c24_token c24_t1 c24_t2 (cstr ".")
      (cstr "ifdef") (by decide!) (by decide!) ⟨by decide!, by decide!⟩).2.2.2.1
      (by decide) c24_t3 c24_pre ([], cstr ".endif") (cstr " ret\n")
      (by decide!) ⟨by decide!, by decide!⟩ (by decide!) (by decide) (by decide) (by decide)
      (by decide),
   by decide!, by decide!, by decide!⟩

theorem find_fold_append (a b : List (CStr × symbol_t)) (acc : Option symbol_t × Option CStr) :
    find_fold acc (a ++ b) =
      match find_fold acc a with
      | .error e => .error e
      | .ok acc1 => find_fold acc1 b := by
  induction a generalizing acc with
  | nil => rfl
  | cons x t ih =>
    obtain ⟨g, s⟩ := x
    simp only [List.cons_append, find_fold]
    cases acc.1 with
    | some _ => rfl
    | none => exact ih _

theorem symbol_find_extern_syms_eq (sname fname : CStr) (syms : symbols_t)
    (acc : Option symbol_t × Option CStr) :
    _symbol_find_extern_syms sname fname syms acc
      = find_fold acc ((syms.filter (fun s => s.name = sname ∧ s.exp ≠ 0)).map
          (fun s => (fname, s))) := by
  induction syms generalizing acc with
  | nil => rfl
  | cons s t ih =>
    unfold _symbol_find_extern_syms
    by_cases h : s.name = sname ∧ s.exp ≠ 0
    · rw [if_pos h, List.filter_cons_of_pos (by simpa using h)]
      simp only [List.map_cons, find_fold]
      cases acc.1 with
      | some _ => rfl
      | none => exact ih _
    · rw [if_neg h, List.filter_cons_of_neg (by simpa using h)]
      exact ih _

theorem symbol_find_extern_files_eq (sname fexclude : CStr) (files : List linker_file_data_t)
    (acc : Option symbol_t × Option CStr) :
    _symbol_find_extern_files sname fexclude files acc
      = find_fold acc (exported_defs sname fexclude files) := by
  induction files generalizing acc with
  | nil => rfl
  | cons fd t ih =>
    unfold _symbol_find_extern_files exported_defs
    by_cases h : fd.fname = fexclude
    · rw [if_pos h, List.filter_cons_of_neg (by simpa using h)]
      exact ih _
    · rw [if_neg h, List.filter_cons_of_pos (by simpa using h)]
      simp only [List.flatMap_cons]
      rw [find_fold_append, ← symbol_find_extern_syms_eq]
      cases _symbol_find_extern_syms sname fd.fname fd.symbols acc with
      | error e => rfl
      | ok acc1 => exact ih _

theorem find_fold_two (acc : Option symbol_t × Option CStr) (l : List (CStr × symbol_t))
    (h : 2 ≤ l.length) : find_fold acc l = .error "Symbol redefined" := by
  match l, h with
  | (g1, s1) :: (g2, s2) :: rest, _ =>
    simp only [find_fold]
    cases acc.1 with
    | some _ => rfl
    | none => rfl

theorem find_fold_some (acc : Option symbol_t × Option CStr) (l : List (CStr × symbol_t))
    (sym : symbol_t) (g : CStr)
    (h : find_fold acc l = .ok (some sym, some g)) (ha : acc = (none, none)) :
    l = [(g, sym)] := by
  subst ha
  match l, h with
  | [], h => simp [find_fold] at h
  | [(g1, s1)], h =>
    simp only [find_fold] at h
    injection h with h
    simp only [Prod.mk.injEq, Option.some.injEq] at h
    rw [h.1, h.2]
  | (g1, s1) :: (g2, s2) :: rest, h => simp [find_fold] at h

theorem symbol_find_extern_ctx_ffound (sname : CStr) (sl : symbols_t)
    (acc r : Option symbol_t × Option CStr)
    (h : _symbol_find_extern_ctx sname sl acc = .ok r) : r.2 = acc.2 := by
  induction sl generalizing acc with
  | nil =>
    simp only [_symbol_find_extern_ctx] at h
    injection h with h
    rw [h]
  | cons s t ih =>
    unfold _symbol_find_extern_ctx at h
    by_cases hn : s.name = sname
    · rw [if_pos hn] at h
      cases ha : acc.1 with
      | some _ => rw [ha] at h; simp at h
      | none =>
        rw [ha] at h
        exact ih (some s, acc.2) h
    · rw [if_neg hn] at h
      exact ih _ h

theorem symbol_find_extern_ctx_none (sname : CStr) (sl : symbols_t)
    (acc : Option symbol_t × Option CStr) (h : ∀ x ∈ sl, x.name ≠ sname) :
    _symbol_find_extern_ctx sname sl acc = .ok acc := by
  induction sl with
  | nil => rfl
  | cons s t ih =>
    unfold _symbol_find_extern_ctx
    rw [if_neg (h s (List.mem_cons_self _ _))]
    exact ih (fun x hx => h x (List.mem_cons_of_mem _ hx))

theorem mem_exported_defs (sname fexclude : CStr) (files : List linker_file_data_t)
    (g : CStr) (sym : symbol_t) :
    (g, sym) ∈ exported_defs sname fexclude files ↔
      ∃ f ∈ files, f.fname = g ∧ f.fname ≠ fexclude ∧ sym ∈ f.symbols ∧ sym.name = sname ∧
        sym.exp ≠ 0 := by
  unfold exported_defs
  simp only [List.mem_flatMap, List.mem_filter, List.mem_map, decide_eq_true_eq,
    Prod.mk.injEq]
  constructor
  · rintro ⟨f, ⟨hf, hne⟩, s, ⟨hs, hx⟩, hg, rfl⟩
    exact ⟨f, hf, hg, by simpa using hne, hs, hx.1, hx.2⟩
  · rintro ⟨f, hf, hg, hne, hs, hn, he⟩
    exact ⟨f, ⟨hf, by simpa using hne⟩, sym, ⟨hs, hn, he⟩, hg, rfl⟩


theorem add_relocation_loop_ok (rsections : sections_t) (s : symbol_t) (rsname : CStr)
    (rl out : relocations_t)
    (h : ∀ r ∈ rl, r.symbol = s.name →
      (section_find rsections r.sect).isSome = true ∧ r.length = s.width) :
    _add_relocation_loop rsections s rsname rl out
      = .ok (out ++ retarget rsections s.name rsname rl) := by
  induction rl generalizing out with
  | nil => simp [_add_relocation_loop, retarget]
  | cons r t ih =>
    have ht : ∀ r ∈ t, r.symbol = s.name →
        (section_find rsections r.sect).isSome = true ∧ r.length = s.width :=
      fun x hx => h x (List.mem_cons_of_mem _ hx)
    unfold _add_relocation_loop
    by_cases hn : r.symbol = s.name
    · obtain ⟨h1, h2⟩ := h r (List.mem_cons_self _ _) hn
      rw [if_neg (by simpa using hn)]
      cases hf : section_find rsections r.sect with
      | none => rw [hf] at h1; simp at h1
      | some sect =>
        simp only
        rw [if_neg (by simpa using h2), ih _ ht]
        have hname := section_find_name _ _ _ hf
        unfold retarget relocations_add section_offset
        rw [List.filter_cons_of_pos (by simpa using hn)]
        simp only [List.map_cons, hf, Option.map_some', Option.getD_some, hname,
          List.append_assoc, List.singleton_append]
    · rw [if_pos (by simpa using hn), ih _ ht]
      unfold retarget
      rw [List.filter_cons_of_neg (by simpa using hn)]

theorem add_relocation_loop_mismatch (rsections : sections_t) (s : symbol_t) (rsname : CStr)
    (rl out : relocations_t) (r : relocation_t) (hr : r ∈ rl) (hn : r.symbol = s.name)
    (hl : r.length ≠ s.width) :
    ∃ e, _add_relocation_loop rsections s rsname rl out = .error e := by
  induction rl generalizing out with
  | nil => simp at hr
  | cons a t ih =>
    unfold _add_relocation_loop
    by_cases ha : a.symbol = s.name
    · rw [if_neg (by simpa using ha)]
      cases hf : section_find rsections a.sect with
      | none => exact ⟨_, rfl⟩
      | some sect =>
        simp only
        by_cases hw : a.length = s.width
        · rw [if_neg (by simpa using hw)]
          rcases List.mem_cons.1 hr with e | e
          · rw [e] at hl; exact absurd hw hl
          · exact ih _ e
        · rw [if_pos (by simpa using hw)]
          exact ⟨_, rfl⟩
    · rw [if_pos (by simpa using ha)]
      rcases List.mem_cons.1 hr with e | e
      · rw [e] at hn; exact absurd hn ha
      · exact ih _ e

theorem add_relocation_flist (ctx ctx1 : linker_context_t) (fd : linker_file_data_t)
    (s : symbol_t) (rsname : CStr) (h : _add_relocation ctx fd s rsname = .ok ctx1) :
    ctx1.flist = ctx.flist ∧ ctx1.symbols = ctx.symbols := by
  unfold _add_relocation at h
  split at h
  · simp at h
  · injection h with h
    rw [← h]
    exact ⟨rfl, rfl⟩

theorem add_symbols_step_flist (ctx ctx1 : linker_context_t) (fd : linker_file_data_t)
    (s : symbol_t) (h : _add_symbols_step ctx fd s = .ok ctx1) :
    ctx1.flist = ctx.flist ∧ ctx1.symbols = ctx.symbols := by
  unfold _add_symbols_step at h
  split at h
  · split at h
    · simp at h
    · exact add_relocation_flist _ _ _ _ _ h
    · split at h
      · exact add_relocation_flist _ _ _ _ _ h
      · split at h
        · simp at h
        · have h1 := add_relocation_flist _ _ _ _ _ h
          exact h1
    · split at h
      · exact add_relocation_flist _ _ _ _ _ h
      · split at h
        · simp at h
        · have h1 := add_relocation_flist _ _ _ _ _ h
          exact h1
  · split at h
    · simp at h
    · split at h
      · simp at h
      · split at h
        · simp at h
        · have h1 := add_relocation_flist _ _ _ _ _ h
          exact h1

theorem add_symbols_loop_flist (fd : linker_file_data_t) (syms : symbols_t)
    (ctx ctx1 : linker_context_t) (h : _add_symbols_loop fd syms ctx = .ok ctx1) :
    ctx1.flist = ctx.flist ∧ ctx1.symbols = ctx.symbols := by
  induction syms generalizing ctx with
  | nil =>
    simp only [_add_symbols_loop] at h
    injection h with h
    rw [h]
    exact ⟨rfl, rfl⟩
  | cons s t ih =>
    unfold _add_symbols_loop at h
    cases hs : _add_symbols_step ctx fd s with
    | error e => rw [hs] at h; simp at h
    | ok c1 =>
      rw [hs] at h
      have h1 := add_symbols_step_flist _ _ _ _ hs
      have h2 := ih c1 h
      exact ⟨h2.1.trans h1.1, h2.2.trans h1.2⟩

theorem glue_file_flist (ctx ctx1 : linker_context_t) (fd : linker_file_data_t)
    (h : _glue_file ctx fd = .ok ctx1) :
    ctx1.flist = ctx.flist ∧ ctx1.symbols = ctx.symbols := by
  unfold _glue_file at h
  split at h
  · simp at h
  · split at h
    · simp at h
    · rename_i c1 hc
      injection h with h
      rw [← h]
      have h1 := add_symbols_loop_flist _ _ _ _ hc
      exact h1

/-- An extern symbol whose name two other files export stops `_add_symbols_step`. -/
theorem add_symbols_step_redefined (ctx : linker_context_t) (fd : linker_file_data_t)
    (s : symbol_t) (hs : s.type = SYMBOL_TYPE_EXTERN)
    (h2 : 2 ≤ (exported_defs s.name fd.fname ctx.flist).length) :
    _add_symbols_step ctx fd s = .error "Symbol redefined" := by
  unfold _add_symbols_step _symbol_find_extern
  rw [if_pos hs, symbol_find_extern_files_eq, find_fold_two _ _ h2]

theorem add_symbols_loop_redefined (fd : linker_file_data_t) (s : symbol_t)
    (hs : s.type = SYMBOL_TYPE_EXTERN) (syms : symbols_t) (hmem : s ∈ syms)
    (ctx : linker_context_t)
    (h2 : 2 ≤ (exported_defs s.name fd.fname ctx.flist).length) :
    ∃ e, _add_symbols_loop fd syms ctx = .error e := by
  induction syms generalizing ctx with
  | nil => simp at hmem
  | cons a t ih =>
    unfold _add_symbols_loop
    cases ha : _add_symbols_step ctx fd a with
    | error e => exact ⟨e, rfl⟩
    | ok c1 =>
      simp only
      rcases List.mem_cons.1 hmem with e | e
      · rw [← e, add_symbols_step_redefined ctx fd s hs h2] at ha
        simp at ha
      · have hf := (add_symbols_step_flist _ _ _ _ ha).1
        exact ih e c1 (by rw [hf]; exact h2)

theorem glue_files_redefined (fd : linker_file_data_t) (s : symbol_t)
    (hs : s.type = SYMBOL_TYPE_EXTERN) (hmem : s ∈ fd.symbols)
    (rest : List linker_file_data_t) (hfd : fd ∈ rest) (ctx : linker_context_t)
    (h2 : 2 ≤ (exported_defs s.name fd.fname ctx.flist).length) :
    ∃ e, _glue_files rest ctx = .error e := by
  induction rest generalizing ctx with
  | nil => simp at hfd
  | cons a t ih =>
    unfold _glue_files
    cases ha : _glue_file ctx a with
    | error e => exact ⟨e, rfl⟩
    | ok c1 =>
      simp only
      rcases List.mem_cons.1 hfd with e | e
      · exfalso
        rw [← e] at ha
        unfold _glue_file at ha
        split at ha
        · simp at ha
        · rename_i x rsl heq
          obtain ⟨e1, he1⟩ := add_symbols_loop_redefined fd s hs fd.symbols hmem
            { ctx with result := { ctx.result with sections := rsl } } h2
          unfold _add_symbols at ha
          rw [he1] at ha
          simp at ha
      · have hf := (glue_file_flist _ _ _ ha).1
        exact ih e c1 (by rw [hf]; exact h2)

theorem exported_defs_append (sname fexclude : CStr) (l1 l2 : List linker_file_data_t) :
    exported_defs sname fexclude (l1 ++ l2)
      = exported_defs sname fexclude l1 ++ exported_defs sname fexclude l2 := by
  simp [exported_defs, List.filter_append, List.flatMap_append]

theorem exported_defs_one (sname fexclude : CStr) (A : linker_file_data_t) (a : symbol_t)
    (hA : A.fname ≠ fexclude) (ha : a ∈ A.symbols) (han : a.name = sname) (hae : a.exp ≠ 0) :
    1 ≤ (exported_defs sname fexclude [A]).length :=
  List.length_pos_of_mem
    ((mem_exported_defs sname fexclude [A] A.fname a).2
      ⟨A, List.mem_singleton_self A, rfl, hA, ha, han, hae⟩)

theorem exported_defs_two (sname fexclude : CStr) (p1 p2 p3 : List linker_file_data_t)
    (A B : linker_file_data_t) (a b : symbol_t)
    (hA : A.fname ≠ fexclude) (hB : B.fname ≠ fexclude)
    (ha : a ∈ A.symbols) (hb : b ∈ B.symbols) (han : a.name = sname) (hbn : b.name = sname)
    (hae : a.exp ≠ 0) (hbe : b.exp ≠ 0) :
    2 ≤ (exported_defs sname fexclude (p1 ++ A :: (p2 ++ B :: p3))).length := by
  have e : p1 ++ A :: (p2 ++ B :: p3) = p1 ++ ([A] ++ (p2 ++ ([B] ++ p3))) := by simp
  rw [e, exported_defs_append, exported_defs_append, exported_defs_append,
    exported_defs_append]
  simp only [List.length_append]
  have h1 := exported_defs_one sname fexclude A a hA ha han hae
  have h2 := exported_defs_one sname fexclude B b hB hb hbn hbe
  omega

/-- C25 (code at the failing input). The object b exports the label F and the object
a declares F extern, so the reference is satisfied by b and the relocation of a
against F is to be re-targeted to b:F. But a declares F without a width and refers
to it with `.d16 F`, for which the assembler records a relocation of length 2:
`_add_relocation` runs into its test `r->length != s->width`, which the code marks
as not reached, the link stops with "Relocation mismatch symbol width" and no
relocation is re-targeted. With `.extern F.w16` in a the same link goes through and
the relocation is against b:F. -/
theorem C25_relocation_of_other_length_stops_the_link :
    object_of_source "a" ".extern F\n.d16 F\n" = .ok c25_file_d16 ∧
    object_of_source "b" "nop\nF:\n ret\n.export F\n" = .ok (c26_file "b") ∧
    (link_sources [("a", ".extern F\n.d16 F\n"), ("b", "nop\nF:\n ret\n.export F\n")]
        script_text_8000).map (fun _ => ())
      = .error "Relocation mismatch symbol width" ∧
    (_glue_sections (linker_init [c25_file_d16, c26_file "b"])).map (fun _ => ())
      = .error "Relocation mismatch symbol width" ∧
    (link_sources [("a", ".extern F.w16\n.d16 F\n"), ("b", "nop\nF:\n ret\n.export F\n")]
        script_text_8000).map
        (fun c => c.result.relocations.map (fun r => (r.symbol, r.offset, r.length)))
      = .ok [(cstr "b:F", 0, 2)] :=
  ⟨by decide!, by decide!, by decide!, by decide!, by decide!⟩

/-- The function `_add_symbols` at an extern symbol `s` of the file `fd`.
`_symbol_find_extern` reports a file only for a symbol of that name with the export
flag in a file other than `fd`; when every symbol of that name in the other files
is not exported it reports no file, and nothing at all when no constant of the
linker has the name either. When exactly one symbol of the other files is an
exported symbol of that name, `sym` of the file `g`, and no constant of the linker
has the name, that symbol and file are reported; then, if every relocation of `fd`
against the name has the length of the width of `s` and an output section, the step
adds them to the output relocations with the symbol `g:name` and the offset moved by
the offset of the output section and changes nothing else. -/
theorem extern_reference_resolution (ctx : linker_context_t) (fd : linker_file_data_t)
    (s : symbol_t) (hs : s.type = SYMBOL_TYPE_EXTERN) :
    (∀ sym g, _symbol_find_extern ctx s.name fd.fname = .ok (some sym, some g) →
      ∃ f ∈ ctx.flist, f.fname = g ∧ f.fname ≠ fd.fname ∧ sym ∈ f.symbols ∧
        sym.name = s.name ∧ sym.exp ≠ 0) ∧
    ((∀ f ∈ ctx.flist, f.fname ≠ fd.fname →
        ∀ sym ∈ f.symbols, sym.name = s.name → sym.exp = 0) →
      (∀ r, _symbol_find_extern ctx s.name fd.fname = .ok r → r.2 = none) ∧
      ((∀ x ∈ ctx.symbols, x.name ≠ s.name) →
        _symbol_find_extern ctx s.name fd.fname = .ok (none, none))) ∧
    (∀ g sym, exported_defs s.name fd.fname ctx.flist = [(g, sym)] →
      (∀ x ∈ ctx.symbols, x.name ≠ s.name) →
      _symbol_find_extern ctx s.name fd.fname = .ok (some sym, some g) ∧
      ((∀ r ∈ fd.relocations, r.symbol = s.name →
          (section_find ctx.result.sections r.sect).isSome = true ∧ r.length = s.width) →
        _add_symbols_step ctx fd s = .ok (with_relocations ctx (ctx.result.relocations ++
          retarget ctx.result.sections s.name (_mkname g s.name) fd.relocations)))) := by
  have hfiles := symbol_find_extern_files_eq s.name fd.fname ctx.flist (none, none)
  refine ⟨?_, ?_, ?_⟩
  · intro sym g h
    unfold _symbol_find_extern at h
    rw [hfiles] at h
    cases hf : find_fold (none, none) (exported_defs s.name fd.fname ctx.flist) with
    | error e => rw [hf] at h; simp at h
    | ok acc =>
      rw [hf] at h
      simp only at h
      have h2 := symbol_find_extern_ctx_ffound _ _ _ _ h
      simp only at h2
      obtain ⟨a1, a2⟩ := acc
      simp only at h2
      subst h2
      cases a1 with
      | none =>
        -- a file is never reported without a symbol
        exfalso
        have : ∀ (l : List (CStr × symbol_t)) (x : Option CStr),
            find_fold (none, none) l = .ok (none, x) → x = none := by
          intro l x hl
          match l, hl with
          | [], hl =>
            simp only [find_fold] at hl
            injection hl with hl
            simp only [Prod.mk.injEq] at hl
            exact hl.2.symm
          | [(g1, s1)], hl => simp [find_fold] at hl
          | (g1, s1) :: (g2, s2) :: rest, hl => simp [find_fold] at hl
        have := this _ _ hf
        simp at this
      | some a =>
        have hl := find_fold_some _ _ a g hf rfl
        have hmem : (g, a) ∈ exported_defs s.name fd.fname ctx.flist := by
          rw [hl]; exact List.mem_singleton_self _
        have hsa : sym = a := by
          -- the linker constants cannot replace a symbol found in a file
          have : ∀ (sl : symbols_t) (r : Option symbol_t × Option CStr),
              _symbol_find_extern_ctx s.name sl (some a, some g) = .ok r →
                r = (some a, some g) := by
            intro sl
            induction sl with
            | nil =>
              intro r hr
              simp only [_symbol_find_extern_ctx] at hr
              injection hr with hr
              exact hr.symm
            | cons x t ih =>
              intro r hr
              unfold _symbol_find_extern_ctx at hr
              by_cases hx : x.name = s.name
              · rw [if_pos hx] at hr
                simp at hr
              · rw [if_neg hx] at hr
                exact ih r hr
          have := this _ _ h
          simp only [Prod.mk.injEq, Option.some.injEq] at this
          exact this.1
        rw [hsa]
        exact (mem_exported_defs _ _ _ _ _).1 hmem
  · intro hno
    have hnil : exported_defs s.name fd.fname ctx.flist = [] := by
      rw [List.eq_nil_iff_forall_not_mem]
      rintro ⟨g, sym⟩ hm
      obtain ⟨f, hf, _, hne, hsym, hn, he⟩ := (mem_exported_defs _ _ _ _ _).1 hm
      exact he (hno f hf hne sym hsym hn)
    constructor
    · intro r h
      unfold _symbol_find_extern at h
      rw [hfiles, hnil] at h
      simp only [find_fold] at h
      have := symbol_find_extern_ctx_ffound _ _ _ _ h
      exact this
    · intro hc
      unfold _symbol_find_extern
      rw [hfiles, hnil]
      simp only [find_fold]
      exact symbol_find_extern_ctx_none _ _ _ hc
  · intro g sym hone hc
    have hfind : _symbol_find_extern ctx s.name fd.fname = .ok (some sym, some g) := by
      unfold _symbol_find_extern
      rw [hfiles, hone]
      simp only [find_fold]
      exact symbol_find_extern_ctx_none _ _ _ hc
    refine ⟨hfind, ?_⟩
    intro hrel
    unfold _add_symbols_step
    rw [if_pos hs, hfind]
    simp only
    unfold _add_relocation
    rw [add_relocation_loop_ok _ _ _ _ _ hrel]
    rfl

/-- An instance of `extern_reference_resolution`: the objects a (exported label F) and b
(`.extern F.w16`, `call F`) of which a was glued already. The only exported F of the
other files is that of a, so the relocation of b at offset 1 of its text becomes the
output relocation at offset 3 against a:F. -/
theorem extern_reference_resolution_at_call :
    exported_defs c25_reference.name c1_file_b.fname c25_ctx.flist = [(cstr "a", c25_label)] ∧
    _symbol_find_extern c25_ctx c25_reference.name c1_file_b.fname
      = .ok (some c25_label, some (cstr "a")) ∧
    _add_symbols_step c25_ctx c1_file_b c25_reference = .ok (with_relocations c25_ctx
      (c25_ctx.result.relocations ++ retarget c25_ctx.result.sections c25_reference.name
        (_mkname (cstr "a") c25_reference.name) c1_file_b.relocations)) ∧
    retarget c25_ctx.result.sections c25_reference.name (_mkname (cstr "a") c25_reference.name)
        c1_file_b.relocations
      = [{ type := RELOCATION_TYPE_ABOSULTE, sect := str_text, symbol := cstr "a:F",
           offset := 3, length := 2, adjust := 0 }] ∧
    ((_glue_file (linker_init [c1_file_a, c1_file_b]) c1_file_a).bind
        (fun c => (_glue_file_sections c1_file_b.sections c.result.sections).map
          (fun rsl => { c with result := { c.result with sections := rsl } })))
      = .ok c25_ctx :=
  ⟨by decide,
   ((extern_reference_resolution c25_ctx c1_file_b c25_reference rfl).2.2 (cstr "a") c25_label
      (by decide) (by decide)).1,
   ((extern_reference_resolution c25_ctx c1_file_b c25_reference rfl).2.2 (cstr "a") c25_label
      (by decide) (by decide)).2 (by decide),
   by decide, by decide⟩

/-- C26, counterexample. Two objects that each define and export the label F, and
nothing that refers to F: the link goes through, the output holds both labels as
a:F and b:F. `_symbol_find_extern`, the only place that compares exported names
across files, runs only for an extern symbol. -/
theorem C26_unreferenced_duplicate_links :
    object_of_source "a" "nop\nF:\n ret\n.export F\n" = .ok (c26_file "a") ∧
    object_of_source "b" "nop\nF:\n ret\n.export F\n" = .ok (c26_file "b") ∧
    (linker_run [c26_file "a", c26_file "b"] script_text_8000).map
        (fun c => (c.result.symbols.map (fun s => (s.name, s.val64, s.exp)),
          c.result.sections.map (fun s => (s.name, s.data))))
      = .ok ([(cstr "a:F", 0x8001, 1), (cstr "b:F", 0x8003, 1)],
          [(str_text, [0x9D, 0x81, 0x9D, 0x81])]) ∧
    (link_sources [("a", "nop\nF:\n ret\n.export F\n"), ("b", "nop\nF:\n ret\n.export F\n")]
        script_text_8000).map
        (fun c => c.result.symbols.map (fun s => (s.name, s.val64, s.exp)))
      = .ok [(cstr "a:F", 0x8001, 1), (cstr "b:F", 0x8003, 1)] :=
  ⟨by decide!, by decide!, by decide!, by decide!⟩

/-- C26 (amended). Among the input files, in any order, let `A` and `B` be two files
that each hold a symbol with the export flag and the same name, and let another
file `fd`, whose name differs from theirs, hold an extern symbol `s` of that name:
`linker_run` ends in a fatal error under every script. -/
theorem C26_duplicate_export_referenced (p1 p2 p3 : List linker_file_data_t)
    (A B fd : linker_file_data_t) (a b s : symbol_t) (script : List script_item)
    (hfd : fd ∈ p1 ++ A :: (p2 ++ B :: p3))
    (hs : s ∈ fd.symbols) (hty : s.type = SYMBOL_TYPE_EXTERN)
    (hA : A.fname ≠ fd.fname) (hB : B.fname ≠ fd.fname)
    (ha : a ∈ A.symbols) (hb : b ∈ B.symbols) (han : a.name = s.name) (hbn : b.name = s.name)
    (hae : a.exp ≠ 0) (hbe : b.exp ≠ 0) :
    ∃ e, linker_run (p1 ++ A :: (p2 ++ B :: p3)) script = .error e := by
  have h2 := exported_defs_two s.name fd.fname p1 p2 p3 A B a b hA hB ha hb han hbn hae hbe
  obtain ⟨e, he⟩ := glue_files_redefined fd s hty hs (p1 ++ A :: (p2 ++ B :: p3)) hfd
    (linker_init (p1 ++ A :: (p2 ++ B :: p3))) h2
  refine ⟨e, ?_⟩
  unfold linker_run _glue_sections
  have : (linker_init (p1 ++ A :: (p2 ++ B :: p3))).flist = p1 ++ A :: (p2 ++ B :: p3) := rfl
  rw [this, he]

/-- Witness of `C26_duplicate_export_referenced`: the objects a and b, which both
export the label F, and the object c with `.extern F.w16` and `call F`; the link
stops with "Symbol redefined", also from the source texts. -/
theorem C26_duplicate_export_referenced_witness :
    (∃ e, linker_run ([] ++ c26_file "a" :: ([] ++ c26_file "b" :: [c26_file_ref]))
        script_text_8000 = .error e) ∧
    (linker_run [c26_file "a", c26_file "b", c26_file_ref] script_text_8000).map (fun _ => ())
      = .error "Symbol redefined" ∧
    (link_sources [("a", "nop\nF:\n ret\n.export F\n"), ("b", "nop\nF:\n ret\n.export F\n"),
        ("c", ".extern F.w16\ncall F\n")] script_text_8000).map (fun _ => ())
      = .error "Symbol redefined" :=
  ⟨C26_duplicate_export_referenced [] [] [c26_file_ref] (c26_file "a") (c26_file "b")
      c26_file_ref c25_label c25_label c25_reference script_text_8000
      (by decide) (by decide) rfl (by decide) (by decide) (by decide) (by decide) rfl rfl
      (by decide) (by decide),
   by decide!, by decide!⟩

/-- C27 (code at the failing input). The objects a, with a loadable section "data",
and b, with a NOLOAD section "data": linked in the order b, a the gluing stops with
"NOLOAD attribute of section mismatch", but in the order a, b it goes through: the
statement `if (!rsection->noload) rsection->noload = section->noload` turns the
merged section, which already holds the bytes of a, into a NOLOAD section of
length 3. The same from the source texts, through assembler and object file. -/
theorem C27_noload_mismatch_depends_on_order :
    (_glue_sections (linker_init [c27_file_noload, c27_file_load])).map (fun _ => ())
      = .error "NOLOAD attribute of section mismatch" ∧
    (_glue_sections (linker_init [c27_file_load, c27_file_noload])).map
        (fun c => c.result.sections.map (fun s => (s.name, s.noload, s.data, s.length)))
      = .ok [(cstr "data", 1, [1, 2], 3)] ∧
    object_of_source "a" ".section \"data\"\n.d8 1, 2\n" = .ok c27_file_load ∧
    object_of_source "b" ".section \"data\" NOLOAD\n.d8 3\n" = .ok c27_file_noload ∧
    (link_sources [("b", ".section \"data\" NOLOAD\n.d8 3\n"),
        ("a", ".section \"data\"\n.d8 1, 2\n")]
        [script_item.place (cstr "data") 0x8000 0x8000]).map (fun _ => ())
      = .error "NOLOAD attribute of section mismatch" ∧
    (link_sources [("a", ".section \"data\"\n.d8 1, 2\n"),
        ("b", ".section \"data\" NOLOAD\n.d8 3\n")]
        [script_item.place (cstr "data") 0x8000 0x8000]).map
        (fun c => c.result.sections.map (fun s => (s.name, s.noload, s.data, s.length)))
      = .ok [(cstr "data", 1, [1, 2], 3)] :=
  ⟨by decide!, by decide!, by decide!, by decide!, by decide!, by decide!⟩

theorem ico_disjoint_iff (a0 l0 a1 l1 : Nat) (h0 : 0 < l0) (h1 : 0 < l1) :
    Disjoint (Set.Ico a0 (a0 + l0)) (Set.Ico a1 (a1 + l1)) ↔
      ¬ ((a0 < a1 ∧ a0 + l0 > a1) ∨ (a0 ≥ a1 ∧ a1 + l1 > a0)) := by
  rw [Set.Ico_disjoint_Ico]
  simp only [min_def, max_def]
  split_ifs <;> omega

theorem overlap_pair_iff (s0 s1 : section_t) (h0 : 0 < s0.length) (h1 : 0 < s1.length)
    (hl0 : s0.lma + s0.length < 4294967296) (hl1 : s1.lma + s1.length < 4294967296)
    (hv0 : s0.vma + s0.length < 4294967296) (hv1 : s1.vma + s1.length < 4294967296) :
    _overlap_pair s0 s1 = .ok () ↔
      (s0.name ≠ s1.name →
        Disjoint (Set.Ico s0.vma (s0.vma + s0.length)) (Set.Ico s1.vma (s1.vma + s1.length)) ∧
        (s0.noload = 0 → s1.noload = 0 →
          Disjoint (Set.Ico s0.lma (s0.lma + s0.length))
            (Set.Ico s1.lma (s1.lma + s1.length)))) := by
  rw [ico_disjoint_iff _ _ _ _ h0 h1, ico_disjoint_iff _ _ _ _ h0 h1]
  unfold _overlap_pair
  rw [Nat.mod_eq_of_lt hl0, Nat.mod_eq_of_lt hl1, Nat.mod_eq_of_lt hv0, Nat.mod_eq_of_lt hv1]
  by_cases hn : s0.name = s1.name
  · simp [hn]
  · rw [if_neg hn]
    by_cases hL : s0.noload = 0 ∧ s1.noload = 0 ∧
        ((s0.lma < s1.lma ∧ s0.lma + s0.length > s1.lma) ∨
         (s0.lma ≥ s1.lma ∧ s1.lma + s1.length > s0.lma))
    · rw [if_pos hL]
      constructor
      · intro h; simp at h
      · intro h
        exact absurd hL.2.2 ((h hn).2 hL.1 hL.2.1)
    · rw [if_neg hL]
      by_cases hV : (s0.vma < s1.vma ∧ s0.vma + s0.length > s1.vma) ∨
          (s0.vma ≥ s1.vma ∧ s1.vma + s1.length > s0.vma)
      · rw [if_pos hV]
        constructor
        · intro h; simp at h
        · intro h
          exact absurd hV (h hn).1
      · rw [if_neg hV]
        constructor
        · intro _ _
          refine ⟨hV, ?_⟩
          intro a b c
          exact hL ⟨a, b, c⟩
        · intro _; rfl

theorem overlap_inner_iff (s0 : section_t) (l : sections_t) :
    _overlap_inner s0 l = .ok () ↔ ∀ s1 ∈ l, _overlap_pair s0 s1 = .ok () := by
  induction l with
  | nil => simp [_overlap_inner]
  | cons a t ih =>
    unfold _overlap_inner
    cases ha : _overlap_pair s0 a with
    | error e =>
      simp only [List.mem_cons, forall_eq_or_imp, ha]
      constructor
      · intro h; simp at h
      · intro h; simp at h
    | ok u =>
      simp only [List.mem_cons, forall_eq_or_imp, ha, ih]
      constructor
      · intro h; exact ⟨trivial, h⟩
      · intro h; exact h.2

theorem overlap_outer_iff (all l : sections_t) :
    _overlap_outer all l = .ok () ↔
      ∀ s0 ∈ l, ∀ s1 ∈ all, _overlap_pair s0 s1 = .ok () := by
  induction l with
  | nil => simp [_overlap_outer]
  | cons a t ih =>
    unfold _overlap_outer
    cases ha : _overlap_inner a all with
    | error e =>
      simp only [List.mem_cons, forall_eq_or_imp]
      constructor
      · intro h; simp at h
      · intro h
        have := (overlap_inner_iff a all).2 h.1
        rw [ha] at this
        simp at this
    | ok u =>
      simp only [List.mem_cons, forall_eq_or_imp, ih]
      constructor
      · intro h; exact ⟨(overlap_inner_iff a all).1 (by rw [ha]), h⟩
      · intro h; exact h.2

/-- C28, counterexample. (1) An empty section "bss" at the VMA 0x8001 and a section
"text" of 4 bytes at 0x8000: the range of "bss" is empty, hence disjoint from every
range, yet the check stops with "VMA of sections overlaps", since it tests whether
the start of one section lies in the range of the other. (2) A source with the
sections "text" and "data" linked under the empty script: no section is placed, both
are at LMA = VMA = 0, and the check stops with "LMA of sections overlaps"; with
only "text" placed the same link passes. -/
theorem C28_empty_and_unplaced_sections :
    _overlap_outer c28_sections_empty c28_sections_empty
      = .error "VMA of sections overlaps" ∧
    Disjoint (Set.Ico 0x8000 (0x8000 + 4)) (Set.Ico 0x8001 (0x8001 + 0)) ∧
    (link_sources [("a", "nop\n.section \"data\"\n.d8 1, 2\n")] []).map (fun _ => ())
      = .error "LMA of sections overlaps" ∧
    object_of_source "a" "nop\n.section \"data\"\n.d8 1, 2\n" = .ok c28_file_two ∧
    (_glue_sections (linker_init [c28_file_two])).map
        (fun c => c.result.sections.map (fun s => (s.name, s.placed, s.lma, s.vma, s.length)))
      = .ok [(str_text, 0, 0, 0, 1), (cstr "data", 0, 0, 0, 2)] ∧
    (link_sources [("a", "nop\n.section \"data\"\n.d8 1, 2\n")] script_text_8000).map
        (fun c => c.result.sections.map (fun s => (s.name, s.placed, s.lma, s.vma, s.length)))
      = .ok [(str_text, 1, 0x8000, 0x8000, 1), (cstr "data", 0, 0, 0, 2)] :=
  ⟨by decide, by simp, by decide!, by decide!, by decide, by decide!⟩

/-- C28 (amended). For output sections of non-zero length whose LMA and VMA ranges
do not wrap in 32 bits, placed or not: the overlap check of `_patch_sections` passes
if and only if, for every two sections of different names, the VMA ranges
[vma, vma + length) are disjoint and, when neither is NOLOAD, the LMA ranges
[lma, lma + length) are disjoint; when it does not pass, `_patch_sections` stops with
its error. A single section passes the check wherever it lies, also beyond 64 KiB. -/
theorem C28_overlap_check (secs : sections_t)
    (hpos : ∀ s ∈ secs, 0 < s.length ∧ s.lma + s.length < 4294967296 ∧
      s.vma + s.length < 4294967296) :
    (_overlap_outer secs secs = .ok () ↔
      ∀ s0 ∈ secs, ∀ s1 ∈ secs, s0.name ≠ s1.name →
        Disjoint (Set.Ico s0.vma (s0.vma + s0.length)) (Set.Ico s1.vma (s1.vma + s1.length)) ∧
        (s0.noload = 0 → s1.noload = 0 →
          Disjoint (Set.Ico s0.lma (s0.lma + s0.length))
            (Set.Ico s1.lma (s1.lma + s1.length)))) ∧
    (∀ ctx : linker_context_t, ctx.result.sections = secs →
      ∀ e, _overlap_outer secs secs = .error e → _patch_sections ctx = .error e) ∧
    (∀ s : section_t, _overlap_outer [s] [s] = .ok ()) := by
  refine ⟨?_, ?_, ?_⟩
  · rw [overlap_outer_iff]
    constructor
    · intro h s0 h0 s1 h1
      obtain ⟨a0, b0, c0⟩ := hpos s0 h0
      obtain ⟨a1, b1, c1⟩ := hpos s1 h1
      exact (overlap_pair_iff s0 s1 a0 a1 b0 b1 c0 c1).1 (h s0 h0 s1 h1)
    · intro h s0 h0 s1 h1
      obtain ⟨a0, b0, c0⟩ := hpos s0 h0
      obtain ⟨a1, b1, c1⟩ := hpos s1 h1
      exact (overlap_pair_iff s0 s1 a0 a1 b0 b1 c0 c1).2 (h s0 h0 s1 h1)
  · intro ctx hc e he
    unfold _patch_sections
    rw [hc, he]
  · intro s
    simp [_overlap_outer, _overlap_inner, _overlap_pair]

/-- Witness of `C28_overlap_check`: "text" at 0x8000, "data" loaded behind it and run
at 0x100, and a NOLOAD "bss" whose LMA is that of "text": all VMA ranges are apart
and the only two loadable sections are apart in LMA, so the check passes. -/
theorem C28_overlap_check_witness :
    _overlap_outer c28_sections c28_sections = .ok () ∧
    (_overlap_outer c28_sections c28_sections = .ok () ↔
      ∀ s0 ∈ c28_sections, ∀ s1 ∈ c28_sections, s0.name ≠ s1.name →
        Disjoint (Set.Ico s0.vma (s0.vma + s0.length)) (Set.Ico s1.vma (s1.vma + s1.length)) ∧
        (s0.noload = 0 → s1.noload = 0 →
          Disjoint (Set.Ico s0.lma (s0.lma + s0.length))
            (Set.Ico s1.lma (s1.lma + s1.length)))) :=
  ⟨by decide, (C28_overlap_check c28_sections (by decide)).1⟩

/-- The writer always gives a file: `length` passes of the record loop are enough. -/
theorem write_data_loop_total (rchar addrwidth : Nat) :
    ∀ (fuel address : Nat) (pdata : List Nat) (length : Nat), length ≤ fuel →
      (_write_data_loop rchar addrwidth fuel address pdata length).isSome = true := by
  intro fuel
  induction fuel with
  | zero =>
    intro address pdata length h
    have : length = 0 := by omega
    simp [_write_data_loop, this]
  | succ n ih =>
    intro address pdata length h
    unfold _write_data_loop
    by_cases h0 : length = 0
    · simp [h0]
    · simp only [h0, if_false]
      have hb : (if length > DATASPLIT then DATASPLIT else length) ≥ 1 := by
        unfold DATASPLIT
        split <;> omega
      have := ih ((address + (if length > DATASPLIT then DATASPLIT else length)) % 4294967296)
        (pdata.drop (if length > DATASPLIT then DATASPLIT else length))
        (length - (if length > DATASPLIT then DATASPLIT else length)) (by omega)
      cases hr : _write_data_loop rchar addrwidth n
        ((address + (if length > DATASPLIT then DATASPLIT else length)) % 4294967296)
        (pdata.drop (if length > DATASPLIT then DATASPLIT else length))
        (length - (if length > DATASPLIT then DATASPLIT else length)) with
      | none => rw [hr] at this; simp at this
      | some r => simp

/-- The function `_write_data` returns for every chunk. -/
theorem write_data_total (rtype address : Nat) (data : List Nat) (length : Nat) :
    (_write_data rtype address data length).isSome = true := by
  unfold _write_data
  exact write_data_loop_total _ _ _ _ _ _ (Nat.le_refl _)

/-- C29 (code at the failing input). An image of one chunk of 4 bytes at the load
address 0x12345: `_write_data` takes the record type from the length of the chunk
(`length < 0x010000`), not from its address, so the file is the single S1 record
with the 2-byte address field 2345; the load address 0x012345 of the first payload
byte is not in the record, which the claim requires to be an S2 record. -/
theorem C29_record_type_follows_chunk_length :
    srec_write [c29_row] none = some (cstr "S10723450102030486\r\n") ∧
    _write_data RTYPE_S1 0x12345 [1, 2, 3, 4] 4
      = _write_data_loop 49 2 4 0x12345 [1, 2, 3, 4] 4 ∧
    _num2str 0x12345 2 = cstr "2345" ∧
    _num2str 0x12345 3 = cstr "012345" :=
  ⟨by decide!, by decide!, by decide!, by decide!⟩

/-- C30 (code at the failing input). One chunk of 32 bytes at the load address
0xFFF8: the two records are S1 records (the chunk is shorter than 64 KiB), the first
with the address field FFF8 and 16 payload bytes, the second with the address field
0008, which is not the address of the first record plus 16 (0x10008); byte count,
payload, checksum and line ends are as the claim says. -/
theorem C30_record_address_wraps :
    srec_write [c30_row] none
      = some (cstr ("S113FFF8000102030405060708090A0B0C0D0E0F7D\r\n" ++
                    "S1130008101112131415161718191A1B1C1D1E1F6C\r\n")) :=
  by decide!

/-! ## The bound test of `section_patch` -/

/-- C36 (code at the failing input). On a loadable section of 4 bytes the call
`section_patch(s, 0xFFFFFFFF, data, 2)` is not a fatal error: the test
`offset + length > s->length` is made on the `uint32_t` sum, which is 1, so the call
goes on to `memcpy(&s->data[0xFFFFFFFF], data, 2)`, although offset + n exceeds the
length as unbounded integers. Without the wrap the test works: offset 3 with 2 bytes
is fatal, offset 2 with 2 bytes overwrites the bytes 2 and 3. -/
theorem C36_patch_bound_wraps :
    section_patch c36_section 0xFFFFFFFF [0xAA, 0xBB] 2
      = .ok { c36_section with
              data := memcpy_at c36_section.data 0xFFFFFFFF [0xAA, 0xBB] 2 } ∧
    (0xFFFFFFFF + 2) % 4294967296 = 1 ∧
    section_patch c36_section 3 [0xAA, 0xBB] 2 = .error "Failed to patch section" ∧
    section_patch c36_section 2 [0xAA, 0xBB] 2
      = .ok { c36_section with data := [1, 2, 0xAA, 0xBB] } := by
  refine ⟨?_, by decide, by decide!, by decide!⟩
  unfold section_patch
  simp [c36_section]

/-! ## The depth test of `_exprstack_push` -/

theorem c37_tree_facts (n : Nat) (hn : n + 1 < 2 ^ 63) :
    cfits 0 (c37_tree n) = true ∧ ceval [] (c37_tree n) = .ok ((n : Int) + 1) ∧
      cdepth (c37_tree n) = n + 1 := by
  induction n with
  | zero =>
    refine ⟨by decide, by decide!, rfl⟩
  | succ n ih =>
    obtain ⟨h1, h2, h3⟩ := ih (by omega)
    refine ⟨?_, ?_, ?_⟩
    · have a : cfits 4 (cexpr.num [] [49]) = true := by decide
      simp only [c37_tree, cfits, op_level, a, h1, blanks_ok, List.all_nil, List.length_nil,
        Nat.zero_le, decide_True, Bool.and_self, Nat.le_refl]
      decide
    · have a : lang_util_str2num [49] = .ok 1 := by decide!
      simp only [c37_tree, ceval, a, h2, bind, Except.bind, expr_apply]
      have e : i64 (1 + ((n : Int) + 1)) = ((n + 1 : Nat) : Int) + 1 := by
        unfold i64
        push_cast
        omega
      rw [e]
    · simp only [c37_tree, cdepth, h3]
      omega

theorem c37_text_evaluates :
    ∃ t1, lang_constexpr [] (token_prepare c37_text) = .ok (some 1025, t1) ∧
      token_stream t1 = [10] := by
  obtain ⟨h1, h2, h3⟩ := c37_tree_facts 1024 (by norm_num)
  obtain ⟨t1, a, b, _⟩ := lang_constexpr_tree_deep [] (c37_tree 1024) (token_prepare c37_text)
    [] [] [10] 1025 ⟨by decide, by decide⟩ rfl ⟨rfl, by decide⟩ ⟨rfl, by decide⟩ h1
    (by rw [h2]; rfl) (by rw [h3]; decide)
  exact ⟨t1, a, b⟩

/-- An error of the operand read at a tighter level is the error of the looser
level. -/
theorem expr_F_error_lift (sl : symbols_t) (s : expr_state_t) (e : String) :
    ∀ (d k c : Nat), k + d ≤ 6 → (∀ f, c ≤ f → expr_F sl (k + d) f s = .error e) →
      ∀ f, c + d ≤ f → expr_F sl k f s = .error e := by
  intro d
  induction d with
  | zero => intro k c _ h f hf; exact h f hf
  | succ d ih =>
    intro k c hk h f hf
    obtain ⟨g, rfl⟩ : ∃ g, f = g + 1 := ⟨f - 1, by omega⟩
    have h1 := ih (k + 1) c (by omega)
      (by rw [show k + 1 + d = k + (d + 1) by omega]; exact h) g (by omega)
    rw [expr_F_step sl k (by omega), h1]
    rfl

/-- The literal `1` before a byte that is no operator of the level 5 and cannot
continue a number: `_add_opd` pushes 1 and returns in front of that byte. -/
theorem add_opd_one (sl : symbols_t) (t : token_t) (d0 : Nat) (rest : List Nat)
    (st : List Int) (hsm : token_small t) (hst : token_stream t = 49 :: d0 :: rest)
    (hd0 : is_symbol_char d0 = false) (hb : is_blank d0 = false)
    (hop : op_char 5 d0 = false) (hstk : st.length ≤ EXPR_STACK_SIZE) :
    ∃ u1, token_stream u1 = d0 :: rest ∧ token_small u1 ∧
      ∀ f, 3 ≤ f → expr_F sl 5 f { token := t, stack := st }
        = .ok { token := u1, stack := st ++ [1] } := by
  have hh := stream_op_head t [] 49 (d0 :: rest) hst ⟨rfl, by decide⟩ (by decide)
  obtain ⟨t1, a1, a2, a3⟩ := mul_opd_plain sl t hsm hh.1 (hh.2 126 (by decide))
  obtain ⟨u, b1, b2, b3⟩ := not_opd_num sl t1 [] [49] rest d0 st 1 a2
    (by rw [a1, hst]; rfl) ⟨rfl, by decide⟩ (by decide) (by decide) hd0 (by decide!) hstk
  have hu := stream_op_head u [] d0 rest b1 ⟨rfl, by decide⟩ hb
  obtain ⟨u1, c1, c2, c3⟩ := expr_R_noop sl 5 u b2 hu.1
    (by
      intro c hc
      by_cases hc2 : c = d0
      · rw [hc2]; exact hop
      · exact absurd hc (hu.2 c hc2))
  refine ⟨u1, by rw [c1, b1], c2, ?_⟩
  intro f hf
  obtain ⟨g, rfl⟩ : ∃ g, f = g + 3 := ⟨f - 3, by omega⟩
  rw [expr_F_step sl 5 (by omega)]
  have e1 : expr_F sl 6 (g + 2) { token := t, stack := st }
      = .ok { token := u, stack := st ++ [1] } := by
    show _mul_opd sl (g + 1 + 1) _ = _
    rw [a3 st (g + 1), b3 g]
  rw [e1]
  exact c3 _ (g + 1)

/-- The literal `1` when the stack holds more than `EXPR_STACK_SIZE` values: the
push is the fatal error. -/
theorem expr_one_overflow (sl : symbols_t) (t : token_t) (d0 : Nat) (rest : List Nat)
    (st : List Int) (hsm : token_small t) (hst : token_stream t = 49 :: d0 :: rest)
    (hd0 : is_symbol_char d0 = false) (hstk : st.length > EXPR_STACK_SIZE) :
    ∀ f, 8 ≤ f → _expr sl f { token := t, stack := st }
      = .error "Expression stack overflow" := by
  have hh := stream_op_head t [] 49 (d0 :: rest) hst ⟨rfl, by decide⟩ (by decide)
  obtain ⟨t1, a1, a2, a3⟩ := mul_opd_plain sl t hsm hh.1 (hh.2 126 (by decide))
  obtain ⟨u, b1, _, _⟩ := tok_number_ok t1 [] [49] rest d0 a2 (by rw [a1, hst]; rfl)
    ⟨rfl, by decide⟩ (by decide) (by decide) hd0
  have hv : lang_util_str2num [49] = .ok 1 := by decide!
  have e6 : ∀ f, 2 ≤ f → expr_F sl (0 + 6) f { token := t, stack := st }
      = .error "Expression stack overflow" := by
    intro f hf
    obtain ⟨g, rfl⟩ : ∃ g, f = g + 2 := ⟨f - 2, by omega⟩
    show _mul_opd sl (g + 1 + 1) _ = _
    rw [a3 st (g + 1), _not_opd, expr_token_eq _ _ _ _ b1]
    simp only [Except.bind, bind, hv]
    unfold _exprstack_push
    simp only [hstk, if_true]
  intro f hf
  exact expr_F_error_lift sl _ _ 6 0 2 (by omega) e6 f (by omega)

theorem c37_tree_text (n : Nat) (tail : List Nat) :
    cprint (c37_tree (n + 1)) ++ tail
      = 49 :: 43 :: 40 :: (cprint (c37_tree n) ++ 41 :: tail) := by
  simp [c37_tree, cprint, op_text]

theorem c37_tree_length (n : Nat) : (cprint (c37_tree n)).length = 4 * n + 1 := by
  induction n with
  | zero => rfl
  | succ n ih =>
    have := c37_tree_text n []
    rw [List.append_nil] at this
    rw [this]
    simp only [List.length_cons, List.length_append, ih, List.length_nil]
    omega

/-- The expression of `n + 1` nested operands on a stack that holds
`EXPR_STACK_SIZE + 1 - n` values: the push of the last operand is the fatal error. -/
theorem c37_tree_overflow (sl : symbols_t) :
    ∀ (n : Nat) (t : token_t) (st : List Int) (d0 : Nat) (rest : List Nat),
      token_small t → token_stream t = cprint (c37_tree n) ++ d0 :: rest →
      d0 = 41 ∨ d0 = 125 → st.length + n = EXPR_STACK_SIZE + 1 →
      ∀ f, 12 * n + 8 ≤ f → _expr sl f { token := t, stack := st }
        = .error "Expression stack overflow" := by
  intro n
  induction n with
  | zero =>
    intro t st d0 rest hsm hst hd hstk f hf
    have hd0 : is_symbol_char d0 = false := by rcases hd with h | h <;> subst h <;> decide
    exact expr_one_overflow sl t d0 rest st hsm hst hd0 (by omega) f (by omega)
  | succ n ih =>
    intro t st d0 rest hsm hst hd hstk f hf
    rw [c37_tree_text] at hst
    obtain ⟨u1, a1, a2, a3⟩ := add_opd_one sl t 43 _ st hsm hst (by decide) (by decide)
      (by decide) (by omega)
    obtain ⟨u2, b1, b2, b3⟩ := expr_R_op sl OP_ADD u1 [] _ a2 (by rw [a1]; rfl)
      ⟨rfl, by decide⟩
    have hh := stream_op_head u2 [] 40 _ b1 ⟨rfl, by decide⟩ (by decide)
    obtain ⟨u3, c1, c2, c3⟩ := mul_opd_plain sl u2 b2 hh.1 (hh.2 126 (by decide))
    obtain ⟨u4, d1, d2, d3⟩ := not_opd_paren sl u3 [] _ c2 (by rw [c1, b1]; rfl)
      ⟨rfl, by decide⟩
    have hin := ih u4 (st ++ [1]) 41 (d0 :: rest) d2 d1 (Or.inl rfl)
      (by rw [List.length_append, List.length_singleton]; omega)
    have e5 : ∀ g, 12 * n + 8 + 3 ≤ g → expr_F sl 5 g { token := u2, stack := st ++ [1] }
        = .error "Expression stack overflow" := by
      intro g hg
      obtain ⟨h, rfl⟩ : ∃ h, g = h + 3 := ⟨g - 3, by omega⟩
      rw [expr_F_step sl 5 (by omega)]
      have e6 : expr_F sl 6 (h + 2) { token := u2, stack := st ++ [1] }
          = .error "Expression stack overflow" := by
        show _mul_opd sl (h + 1 + 1) _ = _
        rw [c3 (st ++ [1]) (h + 1), d3 (st ++ [1]) h, hin h (by omega)]
        rfl
      rw [e6]
      rfl
    have e4 : ∀ g, 12 * n + 13 ≤ g → expr_F sl (0 + 4) g { token := t, stack := st }
        = .error "Expression stack overflow" := by
      intro g hg
      obtain ⟨h, rfl⟩ : ∃ h, g = h + 2 := ⟨g - 2, by omega⟩
      rw [show 0 + 4 = 4 from rfl, expr_F_step sl 4 (by omega), a3 (h + 1) (by omega)]
      show expr_R sl (op_level OP_ADD) (h + 1) _ = _
      have e5h : expr_F sl (op_level OP_ADD + 1) h { token := u2, stack := st ++ [1] }
          = .error "Expression stack overflow" := e5 h (by omega)
      rw [b3 (st ++ [1]) h, e5h]
      rfl
    exact expr_F_error_lift sl _ _ 4 0 _ (by omega) e4 f (by omega)

theorem c37_deep_overflows :
    lang_constexpr [] (token_prepare c37_text_deep) = .error "Expression stack overflow" := by
  show lang_constexpr [] (token_prepare (123 :: (cprint (c37_tree 1025) ++ 125 :: [10])))
    = _
  obtain ⟨t1, a1, a2, a3⟩ := tok_single_ok
    (token_prepare (123 :: (cprint (c37_tree 1025) ++ 125 :: [10]))) TOKEN_TYPE_CURLY_OPEN
    123 [] _ ⟨by decide, by decide⟩ rfl ⟨rfl, by decide⟩ rfl
  have hlen := token_stream_length t1
  rw [a2, List.length_append, c37_tree_length] at hlen
  simp only [List.length_cons, List.length_nil] at hlen
  have hF := c37_tree_overflow [] 1025 t1 [] 125 [10] a3 a2 (Or.inr rfl) (by decide)
    (16 * (t1.next.length + t1.file.length + 2)) (by omega)
  unfold lang_constexpr
  rw [a1]
  simp only [Except.bind, bind]
  rw [hF]

/-- C37 (code at the failing input). With 1024 values on the stack
(`exprstack.depth` = 1024 = `EXPR_STACK_SIZE`) a push is not a fatal error: the test
is `depth > EXPR_STACK_SIZE`, so the value is stored at index 1024, behind the last
entry of the array, and the stack holds 1025 values; `_not_opd` reads the literal
`1` in that state and pushes it. Only the push after that one is fatal. The state
is reached by `lang_constexpr`: the expression `1+(1+( ... (1) ... ))` of 1025
operands, each pushed while all operands before it are on the stack, has the value
1025, and the overflow is reported for the expression of 1026 operands. -/
theorem C37_push_at_full_stack :
    (∀ (t : token_t) (v : Int),
      _exprstack_push { token := t, stack := List.replicate 1024 0 } v
        = .ok { token := t, stack := List.replicate 1024 0 ++ [v] }) ∧
    (List.replicate 1024 (0 : Int)).length = EXPR_STACK_SIZE ∧
    (∃ t, _not_opd [] 1 c37_state
        = .ok { token := t, stack := List.replicate 1024 0 ++ [1] }) ∧
    (∀ (t : token_t) (v : Int),
      _exprstack_push { token := t, stack := List.replicate 1025 0 } v
        = .error "Expression stack overflow") ∧
    (∃ t1, lang_constexpr [] (token_prepare c37_text) = .ok (some 1025, t1) ∧
      token_stream t1 = [10]) ∧
    lang_constexpr [] (token_prepare c37_text_deep) = .error "Expression stack overflow" := by
  refine ⟨?_, ?_, ?_, ?_, c37_text_evaluates, c37_deep_overflows⟩
  · intro t v
    unfold _exprstack_push
    have h : ¬ ((List.replicate 1024 (0 : Int)).length > EXPR_STACK_SIZE) := by
      rw [List.length_replicate]; unfold EXPR_STACK_SIZE; omega
    simp only [h, if_false]
  · rw [List.length_replicate]; rfl
  · have hg : token_get c37_state.token TOKEN_TYPE_NUMBER TOKEN_NEXT
        = .ok (some [49], { file := [], current := [49], next := [125], rollback := 0 }) := by
      decide!
    have hn : lang_util_str2num [49] = .ok 1 := by decide!
    have h : ¬ ((List.replicate 1024 (0 : Int)).length > EXPR_STACK_SIZE) := by
      rw [List.length_replicate]; unfold EXPR_STACK_SIZE; omega
    refine ⟨{ file := [], current := [49], next := [125], rollback := 0 }, ?_⟩
    unfold _not_opd expr_token
    simp only [hg, bind, Except.bind, hn]
    unfold _exprstack_push
    simp only [c37_state, h, if_false]
  · intro t v
    unfold _exprstack_push
    have h : (List.replicate 1025 (0 : Int)).length > EXPR_STACK_SIZE := by
      rw [List.length_replicate]; unfold EXPR_STACK_SIZE; omega
    simp only [h, if_true]

/-! ## The octal format of `.print` -/

/-- C38 (code at the failing input). For the value 8 in octal format `.print` writes
`@18`, not `@10`: the loop of `lang_util_num2str` takes the digit `num / weight`
and then subtracts the weight once, and only when `num > weight`, so at the weight 8
the number stays 8 and the last digit is the character `8`; `lang_util_str2num`
rejects that text. For 16 the text is `@28`, rejected as well. The binary format
gives `%1000` for 8 and the octal format is right for 7 and 9. -/
theorem C38_octal_print_of_eight :
    print_output " \"%~\" \x7b8\x7d\n" = .ok (cstr "@18\n") ∧
    lang_util_num2str 8 TOKEN_NUMBER_FORMAT_OCTAL = cstr "@18" ∧
    lang_util_str2num (cstr "@18") = .error "Failed to convert to number" ∧
    lang_util_num2str 16 TOKEN_NUMBER_FORMAT_OCTAL = cstr "@28" ∧
    lang_util_str2num (cstr "@28") = .error "Failed to convert to number" ∧
    print_output " \"%%\" \x7b8\x7d\n" = .ok (cstr "%1000\n") ∧
    lang_util_num2str 7 TOKEN_NUMBER_FORMAT_OCTAL = cstr "@7" ∧
    lang_util_num2str 9 TOKEN_NUMBER_FORMAT_OCTAL = cstr "@11" :=
  ⟨by decide!, by decide!, by decide!, by decide!, by decide!, by decide!, by decide!,
    by decide!⟩

/-! ## The block loop of `l0_load` on a block of length 0 -/

theorem c39_zero_block (Y : List Nat) :
    block_length (List.replicate 32 0 ++ Y) = 0 ∧
    block_cs_field (List.replicate 32 0 ++ Y) = 0 ∧
    _block_cs (List.replicate 32 0 ++ Y) = 0 ∧
    block_magic (List.replicate 32 0 ++ Y) = 0 := by
  have e : List.replicate 32 0 ++ Y
      = 0 :: 0 :: 0 :: 0 :: 0 :: 0 :: 0 :: 0 :: (List.replicate 24 0 ++ Y) := rfl
  have h1 : block_length (List.replicate 32 0 ++ Y) = 0 := by
    rw [e]; rfl
  refine ⟨h1, ?_, ?_, ?_⟩
  · rw [e]; rfl
  · unfold _block_cs
    rw [h1]
    rfl
  · rw [e]; rfl

theorem c39_loop_runs (st : l0_data_t) :
    ∀ (fuel : Nat) (bm : bmem_t), l0_load_loop fuel (List.replicate 32 0) bm st = none := by
  intro fuel
  induction fuel with
  | zero => intro bm; rfl
  | succ n ih =>
    intro bm
    unfold l0_load_loop
    have hb : (bmem_read (bmem_alloc bm 32) ((List.replicate 32 0).take 32)).buf
        = List.replicate 32 0 ++ (bmem_alloc bm 32).buf.drop 32 := by
      simp [bmem_read]
    obtain ⟨hl, hc, hs, hm⟩ := c39_zero_block ((bmem_alloc bm 32).buf.drop 32)
    have hb3 : ∀ X : bmem_t,
        (bmem_read (bmem_alloc X 0) ((List.replicate 32 0).take 0)).buf = X.buf := by
      intro X
      simp [bmem_read, bmem_alloc]
    have hblk : l0_load_block (List.replicate 32 0 ++ (bmem_alloc bm 32).buf.drop 32) st
        = .ok st := by
      unfold l0_load_block
      simp only [hm, show ¬ (0 = L0_SYMBOL_MAGIC) from by decide,
        show ¬ (0 = L0_RELOCATION_MAGIC) from by decide,
        show ¬ (0 = L0_SECTION_MAGIC) from by decide, if_false]
    simp only [List.length_replicate]
    rw [hb]
    simp only [hl]
    rw [hb3, hb]
    simp only [hc, hs, hblk, List.drop_zero]
    simpa using ih _

/-- C39 (code at the failing input). On the file of 64 bytes that holds the file head
and one block header of zero bytes, `l0_load` never returns: the block loop reads the
header, takes the length 0 from it, reads the "whole block" of 0 bytes at the same
position, finds the checksum 0 right and the magic 0 unknown, and starts again at the
same file position. No number of iterations ends the loop, whatever the static
buffer holds. -/
theorem C39_zero_length_block_loops :
    ∀ (fuel : Nat) (sbuf : List Nat) (st : l0_data_t),
      l0_load fuel sbuf c39_file st = none := by
  intro fuel sbuf st
  unfold l0_load
  have h1 : c39_file.length = 64 := by decide
  have h2 : c39_file.take 32 = l0_file_head := by decide
  have h3 : c39_file.drop 32 = List.replicate 32 0 := by decide
  have hb : (bmem_read (bmem_alloc (bmem_init sbuf) 32) l0_file_head).buf
      = l0_file_head ++ sbuf.drop 32 := by
    have hl : l0_file_head.length = 32 := by decide
    simp [bmem_read, bmem_alloc, bmem_init, BMEM_STATIC_BUF_SIZE, hl]
  have e : l0_file_head ++ sbuf.drop 32
      = 0x2E :: 0x6C :: 0x30 :: 0 :: 1 :: 0 :: (List.replicate 26 0 ++ sbuf.drop 32) := by
    rfl
  have hmagic : le_value ((l0_file_head ++ sbuf.drop 32).take 4) = L0_HEAD_MAGIC := by
    rw [e]; simp [le_value, L0_HEAD_MAGIC]
  have hver : le_value (((l0_file_head ++ sbuf.drop 32).drop 4).take 2) = CURRENT_VERSION := by
    rw [e]; simp [le_value, CURRENT_VERSION]
  rw [h1, h2, h3]
  simp only [hb, hmagic, hver]
  simpa using c39_loop_runs st fuel _

/-! ## Division by zero in the evaluator -/

/-- C40 (code at the failing input). The expressions `{1/0}` and `{1%0}` are not
ended by an error report of the evaluator: `_add_opdr` pops the two operands and
computes `operand1 / operand2` (`operand1 % operand2`) without a test of the right
operand, so the division instruction is executed with the divisor 0 and the program
is stopped by the signal SIGFPE, which `expr_apply` records. Every dividend gives
that outcome; `{1/1}` is 1. -/
theorem C40_division_by_zero_is_executed :
    lang_constexpr [] (token_prepare (cstr "\x7b1/0\x7d")) = .error "SIGFPE" ∧
    lang_constexpr [] (token_prepare (cstr "\x7b1%0\x7d")) = .error "SIGFPE" ∧
    (∀ a : Int, expr_apply OP_DIV a 0 = .error "SIGFPE") ∧
    (∀ a : Int, expr_apply OP_MOD a 0 = .error "SIGFPE") ∧
    (∀ (t : token_t) (st : List Int) (a : Int),
      expr_binary { token := t, stack := st ++ [a, 0] } OP_DIV = .error "SIGFPE") ∧
    (lang_constexpr [] (token_prepare (cstr "\x7b1/1\x7d"))).map Prod.fst = .ok (some 1) := by
  refine ⟨by decide!, by decide!, ?_, ?_, ?_, by decide!⟩
  · intro a; simp [expr_apply]
  · intro a; simp [expr_apply]
  · intro t st a
    simp [expr_binary, _exprstack_pop, bind, Except.bind, expr_apply]

/-! ## `lang_util_str2num` -/

theorem str2num_loop_value (digit : Nat → Option Nat) (base : Nat) (ch : Nat → Nat) :
    ∀ (lv : List Nat) (w r : Nat), (∀ d ∈ lv, digit (ch d) = some d) →
      r < 18446744073709551616 →
      str2num_loop digit (fun w => w * base) (lv.map ch) w r
        = some ((r + w * Nat.ofDigits base lv) % 18446744073709551616) := by
  intro lv
  induction lv with
  | nil =>
    intro w r _ hr
    simp [str2num_loop, Nat.ofDigits, Nat.mod_eq_of_lt hr]
  | cons d rest ih =>
    intro w r hd hr
    have h1 := hd d (List.mem_cons_self _ _)
    simp only [List.map_cons, str2num_loop, h1]
    rw [ih _ _ (fun x hx => hd x (List.mem_cons_of_mem _ hx)) (Nat.mod_lt _ (by norm_num))]
    congr 1
    rw [Nat.ofDigits_cons]
    have e : r + w * (d + base * Nat.ofDigits base rest)
        = (r + d * w) + (w * base) * Nat.ofDigits base rest := by ring
    rw [e]
    conv_rhs => rw [Nat.add_mod, Nat.mul_mod]
    conv_lhs => rw [Nat.add_mod]
    simp

theorem str2num_loop_invalid (digit : Nat → Option Nat) (adv : Nat → Nat) :
    ∀ (l : List Nat) (w r : Nat), (∃ c ∈ l, digit c = none) →
      str2num_loop digit adv l w r = none := by
  intro l
  induction l with
  | nil => intro w r h; obtain ⟨c, hc, _⟩ := h; cases hc
  | cons c rest ih =>
    intro w r h
    unfold str2num_loop
    cases hd : digit c with
    | none => rfl
    | some d =>
      simp only
      apply ih
      obtain ⟨x, hx, hx2⟩ := h
      rcases List.mem_cons.1 hx with e | e
      · rw [e, hd] at hx2; cases hx2
      · exact ⟨x, e, hx2⟩

theorem ofDigits_zeros (base k : Nat) : Nat.ofDigits base (List.replicate k 0) = 0 := by
  induction k with
  | zero => rfl
  | succ n ih => rw [List.replicate_succ, Nat.ofDigits_cons, ih]; simp

theorem spelling_value (digit : Nat → Option Nat) (base : Nat) (ch : Nat → Nat) (k n : Nat)
    (hb : 1 < base) (hch : ∀ d, d < base → digit (ch d) = some d) (h0 : ch 0 = 48) :
    ∃ lv, (spelling base ch k n).reverse = lv.map ch ∧
      (∀ d ∈ lv, digit (ch d) = some d) ∧ Nat.ofDigits base lv = n := by
  by_cases hn : n = 0
  · refine ⟨List.replicate (k + 1) 0, ?_, ?_, ?_⟩
    · simp only [spelling, hn, if_true, List.reverse_append, List.reverse_replicate,
        List.reverse_singleton, List.map_replicate, h0]
      rfl
    · intro d hd
      rw [List.eq_of_mem_replicate hd]
      exact hch 0 (by omega)
    · rw [ofDigits_zeros, hn]
  · refine ⟨Nat.digits base n ++ List.replicate k 0, ?_, ?_, ?_⟩
    · simp only [spelling, hn, if_false, List.reverse_append, List.reverse_replicate,
        List.map_append, List.map_replicate, h0, List.map_reverse, List.reverse_reverse]
    · intro d hd
      rcases List.mem_append.1 hd with h | h
      · exact hch d (Nat.digits_lt_base hb h)
      · rw [List.eq_of_mem_replicate h]
        exact hch 0 (by omega)
    · rw [Nat.ofDigits_append, ofDigits_zeros, Nat.ofDigits_digits]
      simp

theorem spelling_ne_nil (base : Nat) (ch : Nat → Nat) (k n : Nat) :
    1 ≤ (spelling base ch k n).length := by
  unfold spelling
  rw [List.length_append]
  by_cases hn : n = 0
  · simp [hn]
  · simp only [hn, if_false, List.length_map, List.length_reverse]
    have : Nat.digits base n ≠ [] := by
      intro h
      exact hn (Nat.digits_eq_nil_iff_eq_zero.1 h)
    have := List.length_pos.2 this
    omega

theorem i64_of_small (n : Nat) (h : n < 2 ^ 63) :
    i64 (((0 + 1 * n) % 18446744073709551616 : Nat) : Int) = (n : Int) := by
  have h1 : (0 + 1 * n) % 18446744073709551616 = n := by
    rw [Nat.zero_add, Nat.one_mul]
    exact Nat.mod_eq_of_lt (by omega)
  rw [h1]
  unfold i64
  have : ((n : Int) + 9223372036854775808) % 18446744073709551616
      = (n : Int) + 9223372036854775808 := by
    apply Int.emod_eq_of_lt <;> omega
  rw [this]
  omega

/-- A number spelled after the prefix of its base is read with its value. -/
theorem str2num_prefixed (digit : Nat → Option Nat) (base : Nat) (ch : Nat → Nat)
    (p k n : Nat) (hb : 1 < base) (hch : ∀ d, d < base → digit (ch d) = some d)
    (h0 : ch 0 = 48) (hn : n < 2 ^ 63)
    (hp : (p = 36 ∧ digit = digit_hex ∧ base = 16) ∨ (p = 37 ∧ digit = digit_binary ∧ base = 2)
      ∨ (p = 64 ∧ digit = digit_octal ∧ base = 8)) :
    lang_util_str2num (p :: spelling base ch k n) = .ok (n : Int) := by
  obtain ⟨lv, h1, h2, h3⟩ := spelling_value digit base ch k n hb hch h0
  have hl := spelling_ne_nil base ch k n
  have hl2 : ¬ ((spelling base ch k n).length < 1) := by omega
  have hloop := str2num_loop_value digit base ch lv 1 0 h2 (by norm_num)
  rw [← h1, h3] at hloop
  unfold lang_util_str2num
  rcases hp with ⟨e1, e2, e3⟩ | ⟨e1, e2, e3⟩ | ⟨e1, e2, e3⟩
  · subst e1 e2 e3
    simp only [if_true, hl2, if_false, hloop, i64_of_small n hn]
  · subst e1 e2 e3
    simp only [show ¬ (37 = 36) from by decide, if_true, hl2, if_false, hloop,
      i64_of_small n hn]
  · subst e1 e2 e3
    simp only [show ¬ (64 = 36) from by decide, show ¬ (64 = 37) from by decide, if_true, hl2,
      if_false, hloop, i64_of_small n hn]

/-- A number spelled in decimal digits is read with its value. -/
theorem str2num_decimal (k n : Nat) (hn : n < 2 ^ 63) :
    lang_util_str2num (spelling 10 digit_char k n) = .ok (n : Int) := by
  have hch : ∀ d, d < 10 → digit_decimal (digit_char d) = some d := by
    intro d hd
    unfold digit_decimal digit_char
    simp only [hd, if_true]
    have : 48 ≤ 48 + d ∧ 48 + d ≤ 57 := by omega
    simp only [this, and_self, if_true]
    congr 1
    omega
  obtain ⟨lv, h1, h2, h3⟩ := spelling_value digit_decimal 10 digit_char k n (by norm_num) hch rfl
  have hloop := str2num_loop_value digit_decimal 10 digit_char lv 1 0 h2 (by norm_num)
  rw [← h1, h3] at hloop
  have hl := spelling_ne_nil 10 digit_char k n
  cases hs : spelling 10 digit_char k n with
  | nil => rw [hs] at hl; simp at hl
  | cons c rest =>
    have hc : digit_decimal c ≠ none := by
      have hm : c ∈ (spelling 10 digit_char k n).reverse := by
        rw [hs]; simp
      rw [h1] at hm
      obtain ⟨d, hd, e⟩ := List.mem_map.1 hm
      rw [← e, h2 d hd]
      simp
    have hc2 : 48 ≤ c ∧ c ≤ 57 := by
      unfold digit_decimal at hc
      by_contra hx
      simp [hx] at hc
    rw [hs] at hloop
    unfold lang_util_str2num
    simp only [show ¬ (c = 36) from by omega, show ¬ (c = 37) from by omega,
      show ¬ (c = 64) from by omega, if_false, hloop, i64_of_small n hn]

/-- A text with a character that is no digit of the format is rejected. -/
theorem str2num_invalid (s : List Nat) (c : Nat) (hc : c ∈ s) :
    (digit_hex c = none → lang_util_str2num (36 :: s) = .error "Failed to convert to number") ∧
    (digit_binary c = none →
      lang_util_str2num (37 :: s) = .error "Failed to convert to number") ∧
    (digit_octal c = none →
      lang_util_str2num (64 :: s) = .error "Failed to convert to number") ∧
    (digit_decimal c = none → s.head? ≠ some 36 → s.head? ≠ some 37 → s.head? ≠ some 64 →
      lang_util_str2num s = .error "Failed to convert to number") := by
  have hl : ¬ (s.length < 1) := by
    have := List.length_pos_of_mem hc
    omega
  have hr : c ∈ s.reverse := List.mem_reverse.2 hc
  refine ⟨?_, ?_, ?_, ?_⟩
  · intro h
    unfold lang_util_str2num
    simp only [if_true, hl, if_false, str2num_loop_invalid _ _ _ 1 0 ⟨c, hr, h⟩]
  · intro h
    unfold lang_util_str2num
    simp only [show ¬ (37 = 36) from by decide, if_true, hl, if_false,
      str2num_loop_invalid _ _ _ 1 0 ⟨c, hr, h⟩]
  · intro h
    unfold lang_util_str2num
    simp only [show ¬ (64 = 36) from by decide, show ¬ (64 = 37) from by decide, if_true, hl,
      if_false, str2num_loop_invalid _ _ _ 1 0 ⟨c, hr, h⟩]
  · intro h h1 h2 h3
    cases s with
    | nil => cases hc
    | cons a rest =>
      simp only [List.head?_cons, ne_eq, Option.some.injEq] at h1 h2 h3
      unfold lang_util_str2num
      simp only [h1, h2, h3, if_false, str2num_loop_invalid _ _ _ 1 0 ⟨c, hr, h⟩]

theorem digit_none_of_number_digit (c : Nat) :
    (number_digit TOKEN_NUMBER_FORMAT_HEX c = false → digit_hex c = none) ∧
    (number_digit TOKEN_NUMBER_FORMAT_BINARY c = false → digit_binary c = none) ∧
    (number_digit TOKEN_NUMBER_FORMAT_OCTAL c = false → digit_octal c = none) ∧
    (number_digit TOKEN_NUMBER_FORMAT_DECIMAL c = false → digit_decimal c = none) := by
  refine ⟨?_, ?_, ?_, ?_⟩
  · intro h
    simp only [number_digit, decide_eq_false_iff_not] at h
    unfold digit_hex
    have h1 : ¬ (48 ≤ c ∧ c ≤ 57) := fun x => h (Or.inr (Or.inr x))
    have h2 : ¬ (97 ≤ c ∧ c ≤ 102) := fun x => h (Or.inl x)
    have h3 : ¬ (65 ≤ c ∧ c ≤ 70) := fun x => h (Or.inr (Or.inl x))
    simp only [h1, h2, h3, if_false]
  · intro h
    simp only [number_digit, decide_eq_false_iff_not] at h
    unfold digit_binary
    have h1 : ¬ (48 ≤ c ∧ c ≤ 49) := by omega
    simp only [h1, if_false]
  · intro h
    simp only [number_digit, decide_eq_false_iff_not] at h
    unfold digit_octal
    simp only [h, if_false]
  · intro h
    simp only [number_digit, decide_eq_false_iff_not] at h
    unfold digit_decimal
    simp only [h, if_false]

/-- C35. For every n below 2^63 and every number k of leading zeros,
`lang_util_str2num` returns n for the decimal digits of n, for its hexadecimal
digits after `$` with the letters in upper case and in lower case, for its binary
digits after `%` and for its octal digits after `@` (the digits are those of
`Nat.digits`, most significant first, the number 0 being the digit `0`). It returns
an error for the empty string, for a prefix alone, and for every text that holds a
character which is no digit of the base (after a prefix; without one when the text
does not start with a prefix). -/
theorem C35_str2num (n k : Nat) (hn : n < 2 ^ 63) :
    lang_util_str2num (spelling 10 digit_char k n) = .ok (n : Int) ∧
    lang_util_str2num (36 :: spelling 16 digit_char k n) = .ok (n : Int) ∧
    lang_util_str2num (36 :: spelling 16 digit_lower k n) = .ok (n : Int) ∧
    lang_util_str2num (37 :: spelling 2 digit_char k n) = .ok (n : Int) ∧
    lang_util_str2num (64 :: spelling 8 digit_char k n) = .ok (n : Int) ∧
    lang_util_str2num [] = .error "Failed to convert to number" ∧
    lang_util_str2num [36] = .error "Failed to convert to number" ∧
    lang_util_str2num [37] = .error "Failed to convert to number" ∧
    lang_util_str2num [64] = .error "Failed to convert to number" ∧
    (∀ (s : List Nat) (c : Nat), c ∈ s →
      (number_digit TOKEN_NUMBER_FORMAT_HEX c = false →
        lang_util_str2num (36 :: s) = .error "Failed to convert to number") ∧
      (number_digit TOKEN_NUMBER_FORMAT_BINARY c = false →
        lang_util_str2num (37 :: s) = .error "Failed to convert to number") ∧
      (number_digit TOKEN_NUMBER_FORMAT_OCTAL c = false →
        lang_util_str2num (64 :: s) = .error "Failed to convert to number") ∧
      (number_digit TOKEN_NUMBER_FORMAT_DECIMAL c = false →
        s.head? ≠ some 36 → s.head? ≠ some 37 → s.head? ≠ some 64 →
        lang_util_str2num s = .error "Failed to convert to number")) := by
  have hup : ∀ b, b ≤ 16 → ∀ d, d < b → digit_hex (digit_char d) = some d := by
    intro b hb d hd
    unfold digit_hex digit_char
    by_cases h : d < 10
    · have : 48 ≤ 48 + d ∧ 48 + d ≤ 57 := by omega
      simp only [h, if_true, this, and_self]
      congr 1; omega
    · have h1 : ¬ (48 ≤ 55 + d ∧ 55 + d ≤ 57) := by omega
      have h2 : ¬ (97 ≤ 55 + d ∧ 55 + d ≤ 102) := by omega
      have h3 : 65 ≤ 55 + d ∧ 55 + d ≤ 70 := by omega
      simp only [h, if_false, h1, h2, h3, and_self, if_true]
      congr 1; omega
  have hlow : ∀ d, d < 16 → digit_hex (digit_lower d) = some d := by
    intro d hd
    unfold digit_hex digit_lower
    by_cases h : d < 10
    · have : 48 ≤ 48 + d ∧ 48 + d ≤ 57 := by omega
      simp only [h, if_true, this, and_self]
      congr 1; omega
    · have h1 : ¬ (48 ≤ 87 + d ∧ 87 + d ≤ 57) := by omega
      have h2 : 97 ≤ 87 + d ∧ 87 + d ≤ 102 := by omega
      simp only [h, if_false, h1, h2, and_self, if_true]
      congr 1; omega
  have hbin : ∀ d, d < 2 → digit_binary (digit_char d) = some d := by
    intro d hd
    unfold digit_binary digit_char
    have h : d < 10 := by omega
    have : 48 ≤ 48 + d ∧ 48 + d ≤ 49 := by omega
    simp only [h, if_true, this, and_self]
    congr 1; omega
  have hoct : ∀ d, d < 8 → digit_octal (digit_char d) = some d := by
    intro d hd
    unfold digit_octal digit_char
    have h : d < 10 := by omega
    have : 48 ≤ 48 + d ∧ 48 + d ≤ 55 := by omega
    simp only [h, if_true, this, and_self]
    congr 1; omega
  refine ⟨str2num_decimal k n hn,
    str2num_prefixed digit_hex 16 digit_char 36 k n (by norm_num) (hup 16 (by omega)) rfl hn
      (Or.inl ⟨rfl, rfl, rfl⟩),
    str2num_prefixed digit_hex 16 digit_lower 36 k n (by norm_num) hlow rfl hn
      (Or.inl ⟨rfl, rfl, rfl⟩),
    str2num_prefixed digit_binary 2 digit_char 37 k n (by norm_num) hbin rfl hn
      (Or.inr (Or.inl ⟨rfl, rfl, rfl⟩)),
    str2num_prefixed digit_octal 8 digit_char 64 k n (by norm_num) hoct rfl hn
      (Or.inr (Or.inr ⟨rfl, rfl, rfl⟩)),
    by decide, by decide, by decide, by decide, ?_⟩
  intro s c hc
  obtain ⟨a1, a2, a3, a4⟩ := str2num_invalid s c hc
  obtain ⟨b1, b2, b3, b4⟩ := digit_none_of_number_digit c
  exact ⟨fun h => a1 (b1 h), fun h => a2 (b2 h), fun h => a3 (b3 h), fun h => a4 (b4 h)⟩

/-- Witness of `C35_str2num`: the number 255 with two leading zeros is read from
`00255`, `$00FF`, `$00ff`, `%0011111111` and `@00377`; the number 0 from `0`; the
greatest value 2^63 - 1 from `$7FFFFFFFFFFFFFFF`; `%2`, `@8`, `$G` and `12a` are
rejected. -/
theorem C35_str2num_witness :
    255 < 2 ^ 63 ∧
    lang_util_str2num (spelling 10 digit_char 2 255) = .ok 255 ∧
    lang_util_str2num (36 :: spelling 16 digit_lower 2 255) = .ok 255 ∧
    spelling 10 digit_char 2 255 = cstr "00255" ∧
    36 :: spelling 16 digit_char 2 255 = cstr "$00FF" ∧
    36 :: spelling 16 digit_lower 2 255 = cstr "$00ff" ∧
    37 :: spelling 2 digit_char 2 255 = cstr "%0011111111" ∧
    64 :: spelling 8 digit_char 2 255 = cstr "@00377" ∧
    spelling 10 digit_char 0 0 = cstr "0" ∧
    lang_util_str2num (cstr "$7FFFFFFFFFFFFFFF") = .ok 9223372036854775807 ∧
    lang_util_str2num (cstr "%2") = .error "Failed to convert to number" ∧
    lang_util_str2num (cstr "@8") = .error "Failed to convert to number" ∧
    lang_util_str2num (cstr "$G") = .error "Failed to convert to number" ∧
    lang_util_str2num (cstr "12a") = .error "Failed to convert to number" :=
  ⟨by decide, (C35_str2num 255 2 (by decide)).1, (C35_str2num 255 2 (by decide)).2.2.1,
    by decide!, by decide!, by decide!, by decide!, by decide!, by decide!, by decide!,
    by decide!, by decide!, by decide!, by decide!⟩

theorem token_step_len (type : token_type_t) (ch : Nat) (st st1 : token_scan_t)
    (h : token_step type ch st = .next st1 ∨ token_step type ch st = .brk st1) :
    st1.drop = st.drop ∧ st1.tlength ≤ st.tlength + 1 := by
  cases type <;>
    simp only [token_step, token_step_number, token_step_string, token_step_char,
      token_cmp] at h <;>
    (repeat' split at h) <;>
    (rcases h with h | h <;> cases h <;>
      first
        | exact ⟨rfl, Nat.le_refl _⟩
        | exact ⟨rfl, Nat.le_succ _⟩)

theorem token_scan_lim_spec (type : token_type_t) :
    ∀ (s : List Nat) (st : token_scan_t) (lim : Nat) (r : Option token_scan_t) (m : Nat),
      token_scan_lim type s st lim = .ok (r, m) →
      m ≤ s.length ∧ m ≤ lim ∧
      ∀ st1, r = some st1 → st1.drop + st1.tlength ≤ st.drop + st.tlength + m := by
  intro s
  induction s with
  | nil =>
    intro st lim r m h
    unfold token_scan_lim at h
    injection h with h
    injection h with h1 h2
    subst h2
    refine ⟨Nat.le_refl _, Nat.zero_le _, ?_⟩
    intro st1 e
    rw [e] at h1
    split at h1
    · injection h1 with h1; rw [h1]; omega
    · cases h1
  | cons c s ih =>
    intro st lim r m h
    cases lim with
    | zero => unfold token_scan_lim at h; cases h
    | succ l =>
      unfold token_scan_lim at h
      split at h
      · cases h
      · split at h
        · split at h
          · cases h
          · rename_i r1 m1 hrec
            injection h with h
            injection h with h1 h2
            subst h1 h2
            obtain ⟨a, b, c1⟩ := ih _ _ _ _ hrec
            refine ⟨by simp only [List.length_cons]; omega, by omega, ?_⟩
            intro st1 e
            have := c1 st1 e
            simp only at this
            omega
        · split at h
          · rename_i st2 hstep
            split at h
            · cases h
            · rename_i r1 m1 hrec
              injection h with h
              injection h with h1 h2
              subst h1 h2
              obtain ⟨a, b, c1⟩ := ih _ _ _ _ hrec
              obtain ⟨d1, d2⟩ := token_step_len type c st st2 (Or.inl hstep)
              refine ⟨by simp only [List.length_cons]; omega, by omega, ?_⟩
              intro st1 e
              have := c1 st1 e
              omega
          · rename_i st2 hstep
            injection h with h
            injection h with h1 h2
            subst h1 h2
            obtain ⟨d1, d2⟩ := token_step_len type c st st2 (Or.inr hstep)
            refine ⟨by simp only [List.length_cons]; omega, by omega, ?_⟩
            intro st1 e
            injection e with e
            subst e
            omega
          · injection h with h
            injection h with h1 h2
            subst h1 h2
            refine ⟨by simp only [List.length_cons]; omega, by omega, ?_⟩
            intro st1 e
            cases e
          · cases h

/-! ## The lexer with the bound of its window -/

theorem token_loop_result_shift (a a1 : token_t) (x : Run (Option token_scan_t × Nat))
    (h : ∀ k, token_taken a1 k = token_taken a (k + 1)) :
    token_loop_result a1 x
      = token_loop_result a (match x with
          | .error e => .error e
          | .ok (r, m) => .ok (r, m + 1)) := by
  cases x with
  | error e => rfl
  | ok p =>
    obtain ⟨r, m⟩ := p
    simp only [token_loop_result, h]

theorem token_get_loop_lim (type : token_type_t) :
    ∀ (s : List Nat) (fuel : Nat) (a : token_t) (st : token_scan_t),
      token_pending a = s → a.rollback ≤ (a.current ++ a.next).length →
      s.length < fuel →
      token_get_loop type fuel a st
        = token_loop_result a (token_scan_lim type s st (token_limit a)) := by
  intro s
  induction s with
  | nil =>
    intro fuel a st hp hr hf
    obtain ⟨h0, hfile⟩ := token_pending_nil a hr hp
    cases fuel with
    | zero => simp at hf
    | succ f =>
      unfold token_scan_lim token_loop_result
      simp only [token_taken_zero]
      unfold token_get_loop token_getchar
      simp only [h0, ne_eq, not_true_eq_false, if_false, hfile]
      by_cases he : type = TOKEN_TYPE_EOF
      · simp only [he, if_true]
      · simp only [he, if_false]
  | cons c s ih =>
    intro fuel a st hp hr hf
    cases fuel with
    | zero => simp at hf
    | succ f =>
      have hf2 : s.length < f := by simpa using hf
      by_cases hlim : token_limit a = 0
      · -- no room: the byte comes from the file and overflows the window
        have h0 : a.rollback = 0 := by unfold token_limit at hlim; omega
        have hfile : a.file = c :: s := by
          unfold token_pending at hp
          rw [h0] at hp
          simpa using hp
        rw [hlim]
        unfold token_scan_lim token_loop_result
        unfold token_get_loop token_getchar
        simp only [h0, ne_eq, not_true_eq_false, if_false, hfile, List.length_append,
          List.length_singleton]
        have : a.next.length + 1 + a.current.length > TOKEN_TRACE_SIZE := by
          unfold token_limit at hlim; omega
        simp only [this, if_true]
      · obtain ⟨l, hl⟩ : ∃ l, token_limit a = l + 1 := ⟨token_limit a - 1, by omega⟩
        have hg : ∃ a1, token_getchar a = .ok (some c, a1) ∧ token_pending a1 = s ∧
            a1.rollback ≤ (a1.current ++ a1.next).length ∧
            (∀ k, token_taken a1 k = token_taken a (k + 1)) ∧ token_limit a1 = l := by
          by_cases h0 : a.rollback = 0
          · have hb1 : a.next.length + 1 + a.current.length ≤ TOKEN_TRACE_SIZE := by
              unfold token_limit at hl; omega
            obtain ⟨hfile, h1, h2⟩ := token_getchar_file a c s h0 hp hb1
            refine ⟨_, h1, h2, ?_, fun k => token_taken_file a c s k h0 hfile, ?_⟩
            · simp [h0]
            · unfold token_limit at hl ⊢
              simp only [List.length_append, List.length_singleton]
              omega
          · obtain ⟨h1, h2⟩ := token_getchar_replay a c s hr h0 hp
            refine ⟨_, h1, h2, ?_, fun k => token_taken_replay a k h0, ?_⟩
            · simp only; omega
            · unfold token_limit at hl ⊢
              simp only
              omega
        obtain ⟨a1, hg1, hg2, hg3, hg4, hg5⟩ := hg
        rw [hl]
        unfold token_get_loop
        rw [hg1]
        simp only
        unfold token_scan_lim
        by_cases hsz : st.name.length ≥ TOKEN_MAX_NAME_SIZE
        · rw [if_pos hsz, if_pos hsz]
          rfl
        · rw [if_neg hsz, if_neg hsz]
          by_cases hbl : st.tlength = 0 ∧ (c = 32 ∨ c = 9 ∨ c = 13)
          · rw [if_pos hbl, if_pos hbl]
            rw [ih f a1 _ hg2 hg3 hf2, hg5]
            exact token_loop_result_shift a a1 _ hg4
          · rw [if_neg hbl, if_neg hbl]
            cases hstep : token_step type c st with
            | next st1 =>
              simp only
              rw [ih f a1 _ hg2 hg3 hf2, hg5]
              exact token_loop_result_shift a a1 _ hg4
            | brk st1 =>
              simp only [token_loop_result]
              rw [← hg4 0, token_taken_zero]
            | ret_null =>
              simp only [token_loop_result]
              rw [← hg4 0, token_taken_zero]
            | fatal e =>
              simp only [token_loop_result]

theorem token_taken_next (t : token_t) (m : Nat) (hm : m ≤ (token_stream t).length) :
    (token_taken { t with rollback := t.next.length } m).next
      = (token_stream t).take (max t.next.length m) ∧
    (token_taken { t with rollback := t.next.length } m).file
      = (token_stream t).drop (max t.next.length m) ∧
    ((token_stream t).take (max t.next.length m)).length = max t.next.length m := by
  refine ⟨?_, ?_, ?_⟩
  · unfold token_taken token_stream
    simp only
    by_cases hc : m ≤ t.next.length
    · rw [Nat.max_eq_left hc, Nat.sub_eq_zero_of_le hc]
      simp
    · have hc2 : t.next.length ≤ m := by omega
      rw [Nat.max_eq_right hc2, List.take_append_eq_append_take,
        List.take_of_length_le hc2]
  · unfold token_taken token_stream
    simp only
    by_cases hc : m ≤ t.next.length
    · rw [Nat.max_eq_left hc, Nat.sub_eq_zero_of_le hc]
      simp
    · have hc2 : t.next.length ≤ m := by omega
      rw [Nat.max_eq_right hc2, List.drop_append_eq_append_drop,
        List.drop_of_length_le hc2]
      simp
  · rw [List.length_take]
    unfold token_stream at hm ⊢
    simp only [List.length_append] at hm ⊢
    have := Nat.le_max_left t.next.length m
    omega

/-- The function `token_get` with `TOKEN_NEXT` is a function of the bytes ahead and
of the room of the window. -/
theorem token_get_next_eq (t : token_t) (type : token_type_t) :
    token_get t type TOKEN_NEXT
      = token_next_result t (token_scan_lim type (token_stream t) token_scan_init
          (token_limit { t with rollback := t.next.length })) := by
  have hl := token_get_loop_lim type (token_stream t) (t.next.length + t.file.length + 1)
    { t with rollback := t.next.length } token_scan_init
    (by unfold token_pending token_stream; simp) (by simp)
    (by unfold token_stream; simp)
  unfold token_get
  have hn : ¬ (TOKEN_NEXT = TOKEN_CURRENT) := by decide
  simp only [hn, if_false]
  rw [hl]
  cases hs : token_scan_lim type (token_stream t) token_scan_init
      (token_limit { t with rollback := t.next.length }) with
  | error e => rfl
  | ok p =>
    obtain ⟨r, m⟩ := p
    obtain ⟨h1, h2, h3⟩ := token_scan_lim_spec type _ _ _ _ _ hs
    cases r with
    | none => rfl
    | some st =>
      have h4 := h3 st rfl
      obtain ⟨a, b, c⟩ := token_taken_next t m h1
      simp only [token_loop_result, token_next_result]
      rw [a, c]
      have : ¬ (st.drop + st.tlength > max t.next.length m) := by
        have := Nat.le_max_right t.next.length m
        simp only [token_scan_init] at h4
        omega
      simp only [this, if_false]
      congr 2
      have e : (token_taken { t with rollback := t.next.length } m).current = t.current := rfl
      have hcur : (((token_stream t).take (max t.next.length m)).drop st.drop).take st.tlength
          = ((token_stream t).drop st.drop).take st.tlength := by
        rw [List.drop_take, List.take_take]
        congr 1
        have := Nat.le_max_right t.next.length m
        simp only [token_scan_init] at h4
        omega
      rw [hcur]

theorem token_next_result_none (t t1 : token_t) (x : Run (Option token_scan_t × Nat))
    (h : token_next_result t x = .ok (none, t1)) :
    ∃ m, x = .ok (none, m) ∧ t1 = token_taken { t with rollback := t.next.length } m := by
  cases x with
  | error e => cases h
  | ok p =>
    obtain ⟨r, m⟩ := p
    cases r with
    | none =>
      simp only [token_next_result] at h
      injection h with h
      injection h with _ h2
      exact ⟨m, rfl, h2.symm⟩
    | some st =>
      simp only [token_next_result] at h
      injection h with h
      injection h with h1 _
      cases h1

/-- After a request that returned `NULL` the bytes ahead, the current token and the
room of the window are what they were. -/
theorem token_get_none_frame (t t1 : token_t) (K : token_type_t)
    (h : token_get t K TOKEN_NEXT = .ok (none, t1)) :
    t1.current = t.current ∧ token_stream t1 = token_stream t ∧
    t.next.length ≤ t1.next.length ∧
    token_limit { t1 with rollback := t1.next.length }
      = token_limit { t with rollback := t.next.length } := by
  rw [token_get_next_eq] at h
  obtain ⟨m, hs, ht⟩ := token_next_result_none t t1 _ h
  obtain ⟨h1, h2, _⟩ := token_scan_lim_spec K _ _ _ _ _ hs
  obtain ⟨a, b, c⟩ := token_taken_next t m h1
  have hc : t1.current = t.current := by rw [ht]; rfl
  have hn : t1.next.length = max t.next.length m := by rw [ht, a, c]
  refine ⟨hc, ?_, ?_, ?_⟩
  · show t1.next ++ t1.file = _
    rw [ht, a, b, List.take_append_drop]
  · rw [hn]; exact Nat.le_max_left _ _
  · unfold token_limit at h2 ⊢
    simp only at h2 ⊢
    rw [hc, hn]
    rcases Nat.le_total m t.next.length with hm | hm
    · rw [Nat.max_eq_left hm]
    · rw [Nat.max_eq_right hm]
      omega

theorem token_next_result_same (t t1 : token_t) (x : Run (Option token_scan_t × Nat))
    (hc : t1.current = t.current) (hs : token_stream t1 = token_stream t)
    (hx : ∀ st m, x = .ok (some st, m) →
      m ≤ (token_stream t).length ∧ st.drop + st.tlength ≤ m) :
    (token_next_result t1 x).map Prod.fst = (token_next_result t x).map Prod.fst ∧
    ∀ r u, token_next_result t x = .ok (r, u) →
      ∃ u1, token_next_result t1 x = .ok (r, u1) ∧ u1.current = u.current ∧
        token_stream u1 = token_stream u := by
  have key : ∀ (a : token_t) (st : token_scan_t) (m : Nat), m ≤ (token_stream a).length →
      st.drop + st.tlength ≤ m →
      ((token_stream a).take (max a.next.length m)).drop (st.drop + st.tlength)
        ++ (token_taken { a with rollback := a.next.length } m).file
        = (token_stream a).drop (st.drop + st.tlength) := by
    intro a st m h1 h2
    obtain ⟨_, b, c⟩ := token_taken_next a m h1
    rw [b]
    conv_rhs => rw [← List.take_append_drop (max a.next.length m) (token_stream a)]
    rw [List.drop_append_of_le_length]
    rw [c]
    have := Nat.le_max_right a.next.length m
    omega
  cases x with
  | error e =>
    refine ⟨rfl, ?_⟩
    intro r u h
    cases h
  | ok p =>
    obtain ⟨r, m⟩ := p
    cases r with
    | none =>
      refine ⟨rfl, ?_⟩
      intro r u h
      simp only [token_next_result] at h
      injection h with h
      injection h with h1 h2
      subst h1 h2
      refine ⟨_, rfl, ?_, ?_⟩
      · show t1.current = t.current
        exact hc
      · have e : ∀ a : token_t, token_stream (token_taken { a with rollback := a.next.length } m)
            = token_stream a := by
          intro a
          unfold token_stream token_taken
          simp
        rw [e, e, hs]
    | some st =>
      obtain ⟨h1, h2⟩ := hx st m rfl
      refine ⟨by simp only [token_next_result, Except.map], ?_⟩
      intro r u h
      simp only [token_next_result] at h
      injection h with h
      injection h with h3 h4
      subst h3 h4
      refine ⟨_, rfl, ?_, ?_⟩
      · show ((token_stream t1).drop st.drop).take st.tlength
          = ((token_stream t).drop st.drop).take st.tlength
        rw [hs]
      · show ((token_stream t1).take (max t1.next.length m)).drop (st.drop + st.tlength)
            ++ (token_taken { t1 with rollback := t1.next.length } m).file
          = ((token_stream t).take (max t.next.length m)).drop (st.drop + st.tlength)
            ++ (token_taken { t with rollback := t.next.length } m).file
        rw [key t1 st m (by rw [hs]; exact h1) h2, key t st m h1 h2, hs]

/-- C34. When `token_get(K, TOKEN_NEXT)` returns `NULL`, the current token is what
it was and so are the bytes ahead of it; for every kind K' the next request
`token_get(K', TOKEN_NEXT)` has the result (the token text, `NULL`, or the fatal
error) that it has without the failed request, and after either the current token
and the bytes ahead are the same. -/
theorem C34_failed_request_consumes_nothing (t t1 : token_t) (K : token_type_t)
    (h : token_get t K TOKEN_NEXT = .ok (none, t1)) :
    t1.current = t.current ∧ token_stream t1 = token_stream t ∧
    ∀ K1 : token_type_t,
      (token_get t1 K1 TOKEN_NEXT).map Prod.fst = (token_get t K1 TOKEN_NEXT).map Prod.fst ∧
      ∀ r u, token_get t K1 TOKEN_NEXT = .ok (r, u) →
        ∃ u1, token_get t1 K1 TOKEN_NEXT = .ok (r, u1) ∧ u1.current = u.current ∧
          token_stream u1 = token_stream u := by
  obtain ⟨hc, hs, _, hl⟩ := token_get_none_frame t t1 K h
  refine ⟨hc, hs, ?_⟩
  intro K1
  rw [token_get_next_eq t1, token_get_next_eq t, hs, hl]
  apply token_next_result_same t t1 _ hc hs
  intro st m hx
  obtain ⟨h1, _, h3⟩ := token_scan_lim_spec K1 _ _ _ _ _ hx
  have := h3 st rfl
  simp only [token_scan_init] at this
  exact ⟨h1, by omega⟩

/-- Witness of `C34_failed_request_consumes_nothing`: on the line `'a+1` the request
for a character token returns `NULL` after it has read three bytes ahead; the bytes
ahead and the (empty) current token are unchanged, and the request for a line that
follows returns the whole line, as it does without the failed request. -/
theorem C34_failed_request_consumes_nothing_witness :
    token_get c34_token TOKEN_TYPE_CHAR TOKEN_NEXT = .ok (none, c34_failed) ∧
    (c34_failed.current = c34_token.current ∧
      token_stream c34_failed = token_stream c34_token ∧
      ∀ K1 : token_type_t,
        (token_get c34_failed K1 TOKEN_NEXT).map Prod.fst
          = (token_get c34_token K1 TOKEN_NEXT).map Prod.fst ∧
        ∀ r u, token_get c34_token K1 TOKEN_NEXT = .ok (r, u) →
          ∃ u1, token_get c34_failed K1 TOKEN_NEXT = .ok (r, u1) ∧
            u1.current = u.current ∧ token_stream u1 = token_stream u) ∧
    (token_get c34_token TOKEN_TYPE_LINE TOKEN_NEXT).map Prod.fst
      = .ok (some (cstr "'a+1\n")) ∧
    (token_get c34_failed TOKEN_TYPE_LINE TOKEN_NEXT).map Prod.fst
      = .ok (some (cstr "'a+1\n")) :=
  ⟨by decide!,
    C34_failed_request_consumes_nothing c34_token c34_failed TOKEN_TYPE_CHAR (by decide!),
    by decide!, by decide!⟩

/-! ## The lexemes of the token kinds -/

theorem token_scan_lim_of_scan (type : token_type_t) :
    ∀ (s : List Nat) (st : token_scan_t) (lim : Nat) (r : Option token_scan_t) (m : Nat),
      token_scan type s st = .ok (r, m) → m ≤ lim →
      token_scan_lim type s st lim = .ok (r, m) := by
  intro s
  induction s with
  | nil =>
    intro st lim r m h _
    unfold token_scan at h
    unfold token_scan_lim
    exact h
  | cons c s ih =>
    intro st lim r m h hm
    have hpos := token_scan_pos type c s st r m h
    cases lim with
    | zero => omega
    | succ l =>
      unfold token_scan at h
      unfold token_scan_lim
      split at h
      · cases h
      · rename_i hsz
        rw [if_neg hsz]
        split at h
        · rename_i hbl
          rw [if_pos hbl]
          split at h
          · cases h
          · rename_i r1 m1 hrec
            injection h with h
            injection h with h1 h2
            subst h1 h2
            rw [ih _ _ _ _ hrec (by omega)]
        · rename_i hbl
          rw [if_neg hbl]
          split at h
          · split at h
            · cases h
            · rename_i r1 m1 hrec
              injection h with h
              injection h with h1 h2
              subst h1 h2
              rw [ih _ _ _ _ hrec (by omega)]
          · exact h
          · exact h
          · cases h

/-- A token that the scan finds after the blanks `ws` is taken by `token_get` when
the window has room for the bytes read. -/
theorem tok_lexeme_gen (t : token_t) (type : token_type_t) (ws L rest : List Nat)
    (st : token_scan_t) (m : Nat)
    (hst : token_stream t = ws ++ (L ++ rest)) (hw : ws.all is_blank = true)
    (hscan : token_scan type (L ++ rest) (token_scan_at ws.length) = .ok (some st, m))
    (hd : st.drop = ws.length) (hl : st.tlength = L.length)
    (hroom : t.current.length + (ws.length + m) ≤ TOKEN_TRACE_SIZE ∨
      ws.length + m ≤ t.next.length) :
    ∃ t1, token_get t type TOKEN_NEXT = .ok (some (c_string st.name), t1) ∧
      t1.current = L ∧ token_stream t1 = rest := by
  have hscan2 : token_scan type (token_stream t) token_scan_init
      = .ok (some st, m + ws.length) := by
    rw [hst]
    have := token_scan_blanks type ws (L ++ rest) 0 hw
    rw [show token_scan_at 0 = token_scan_init from rfl] at this
    rw [this, Nat.zero_add, hscan]
  have hlim : m + ws.length ≤ token_limit { t with rollback := t.next.length } := by
    unfold token_limit
    simp only
    omega
  have h3 := token_scan_lim_of_scan type _ _ _ _ _ hscan2 hlim
  obtain ⟨h4, _, h6⟩ := token_scan_lim_spec type _ _ _ _ _ h3
  have h7 := h6 st rfl
  simp only [token_scan_init, Nat.zero_add] at h7
  rw [token_get_next_eq, h3]
  refine ⟨_, rfl, ?_, ?_⟩
  · show ((token_stream t).drop st.drop).take st.tlength = L
    rw [hd, hl, hst, List.drop_left, List.take_left]
  · show ((token_stream t).take (max t.next.length (m + ws.length))).drop
        (st.drop + st.tlength)
        ++ (token_taken { t with rollback := t.next.length } (m + ws.length)).file = rest
    obtain ⟨_, b, c⟩ := token_taken_next t (m + ws.length) h4
    rw [b]
    have e : ((token_stream t).take (max t.next.length (m + ws.length))).drop
          (st.drop + st.tlength) ++ (token_stream t).drop (max t.next.length (m + ws.length))
        = (token_stream t).drop (st.drop + st.tlength) := by
      conv_rhs => rw [← List.take_append_drop (max t.next.length (m + ws.length))
        (token_stream t)]
      rw [List.drop_append_of_le_length]
      rw [c]
      have := Nat.le_max_right t.next.length (m + ws.length)
      omega
    rw [e, hd, hl, hst, ← List.append_assoc, ← List.length_append, List.drop_left]

theorem token_scan_step_next (type : token_type_t) (c : Nat) (s : List Nat)
    (st st1 : token_scan_t) (h1 : st.name.length < TOKEN_MAX_NAME_SIZE)
    (h2 : st.tlength ≠ 0 ∨ is_blank c = false) (h3 : token_step type c st = .next st1) :
    token_scan type (c :: s) st
      = match token_scan type s st1 with
        | .error e => .error e
        | .ok (r, m) => .ok (r, m + 1) := by
  conv_lhs => unfold token_scan
  have a : ¬ (st.name.length ≥ TOKEN_MAX_NAME_SIZE) := by omega
  have b : ¬ (st.tlength = 0 ∧ (c = 32 ∨ c = 9 ∨ c = 13)) := by
    intro x
    rcases h2 with h | h
    · exact h x.1
    · simp only [is_blank, decide_eq_false_iff_not] at h
      exact h x.2
  rw [if_neg a, if_neg b, h3]

theorem token_scan_step_brk (type : token_type_t) (c : Nat) (s : List Nat)
    (st st1 : token_scan_t) (h1 : st.name.length < TOKEN_MAX_NAME_SIZE)
    (h2 : st.tlength ≠ 0 ∨ is_blank c = false) (h3 : token_step type c st = .brk st1) :
    token_scan type (c :: s) st = .ok (some st1, 1) := by
  conv_lhs => unfold token_scan
  have a : ¬ (st.name.length ≥ TOKEN_MAX_NAME_SIZE) := by omega
  have b : ¬ (st.tlength = 0 ∧ (c = 32 ∨ c = 9 ∨ c = 13)) := by
    intro x
    rcases h2 with h | h
    · exact h x.1
    · simp only [is_blank, decide_eq_false_iff_not] at h
      exact h x.2
  rw [if_neg a, if_neg b, h3]

/-- The digits and separators of a number after its first byte, up to a byte that
cannot continue it. -/
theorem token_scan_number_sep (rest : List Nat) (d0 : Nat) :
    ∀ (ds : List Nat) (st : token_scan_t),
      ds.all (fun c => c = 95 || number_digit st.number c) = true →
      st.tlength ≠ 0 →
      st.name.length + (ds.filter (fun c => c ≠ 95)).length < TOKEN_MAX_NAME_SIZE →
      d0 ≠ 95 → number_digit st.number d0 = false →
      token_scan TOKEN_TYPE_NUMBER (ds ++ d0 :: rest) st
        = .ok (some { st with name := st.name ++ ds.filter (fun c => c ≠ 95),
                              tlength := st.tlength + ds.length },
            ds.length + 1) := by
  intro ds
  induction ds with
  | nil =>
    intro st _ ht hn h95 hd0
    have hstep : token_step TOKEN_TYPE_NUMBER d0 st = .brk st := by
      simp only [token_step, token_step_number, ht, if_false, h95]
      cases hf : st.number <;> rw [hf] at hd0 <;>
        simp only [number_digit] at hd0 <;> simp only [hd0] <;> rfl
    simp only [List.nil_append, List.filter_nil, List.append_nil, List.length_nil,
      Nat.add_zero, Nat.zero_add]
    rw [token_scan_step_brk _ _ _ _ _ (by simpa using hn) (Or.inl ht) hstep]
  | cons c cs ih =>
    intro st hall ht hn h95 hd0
    have hlt : st.name.length < TOKEN_MAX_NAME_SIZE := by omega
    simp only [List.all_cons, Bool.and_eq_true, Bool.or_eq_true, decide_eq_true_eq] at hall
    obtain ⟨hc, hcs⟩ := hall
    by_cases h : c = 95
    · have hstep : token_step TOKEN_TYPE_NUMBER c st = .next (token_skip st) := by
        simp only [token_step, token_step_number, ht, if_false, h, if_true]
      have hf : (c :: cs).filter (fun c => c ≠ 95) = cs.filter (fun c => c ≠ 95) := by
        simp [List.filter_cons, h]
      rw [hf] at hn ⊢
      rw [List.cons_append, token_scan_step_next _ _ _ _ _ hlt (Or.inl ht) hstep,
        ih (token_skip st) hcs (by simp [token_skip]) (by simpa [token_skip] using hn) h95
          (by simpa [token_skip] using hd0)]
      simp only [token_skip, List.length_cons]
      rw [show st.tlength + 1 + cs.length = st.tlength + (cs.length + 1) from by omega]
    · have hdig : number_digit st.number c = true := by
        rcases hc with e | e
        · exact absurd e h
        · exact e
      have hstep : token_step TOKEN_TYPE_NUMBER c st = .next (token_push st c) := by
        simp only [token_step, token_step_number, ht, if_false, h]
        cases hf : st.number <;> rw [hf] at hdig <;>
          simp only [number_digit] at hdig <;> simp only [hdig] <;> rfl
      have hf : (c :: cs).filter (fun c => c ≠ 95) = c :: cs.filter (fun c => c ≠ 95) := by
        simp [List.filter_cons, h]
      rw [hf] at hn ⊢
      simp only [List.length_cons] at hn
      rw [List.cons_append, token_scan_step_next _ _ _ _ _ hlt (Or.inl ht) hstep,
        ih (token_push st c) hcs (by simp [token_push])
          (by simp only [token_push, List.length_append, List.length_singleton]; omega) h95
          (by simpa [token_push] using hd0)]
      simp only [token_push, List.length_cons, List.append_assoc, List.singleton_append]
      rw [show st.tlength + 1 + cs.length = st.tlength + (cs.length + 1) from by omega]

/-- The body of a string token after the opening quote mark, up to the closing one. -/
theorem token_scan_string_body (rest : List Nat) :
    ∀ (n : Nat) (body : List Nat), body.length ≤ n →
      ∀ (st : token_scan_t) (p : List Nat), string_body body = some p →
      st.tlength ≠ 0 → st.escape = false →
      st.name.length + p.length < TOKEN_MAX_NAME_SIZE →
      token_scan TOKEN_TYPE_STRING (body ++ 34 :: rest) st
        = .ok (some { st with name := st.name ++ p,
                              tlength := st.tlength + (body.length + 1) },
            body.length + 1) := by
  intro n
  induction n with
  | zero =>
    intro body hb st p hp ht he hn
    have e : body = [] := List.length_eq_zero.1 (by omega)
    subst e
    simp only [string_body, Option.some.injEq] at hp
    subst hp
    have hstep : token_step TOKEN_TYPE_STRING 34 st = .brk (token_skip st) := by
      simp [token_step, token_step_string, ht, he]
    rw [List.nil_append, token_scan_step_brk _ _ _ _ _ (by simpa using hn) (Or.inl ht) hstep]
    simp [token_skip]
  | succ k ih =>
    intro body hb st p hp ht he hn
    unfold string_body at hp
    split at hp
    · -- the empty body
      injection hp with hp
      subst hp
      have hstep : token_step TOKEN_TYPE_STRING 34 st = .brk (token_skip st) := by
        simp [token_step, token_step_string, ht, he]
      rw [List.nil_append,
        token_scan_step_brk _ _ _ _ _ (by simpa using hn) (Or.inl ht) hstep]
      simp [token_skip]
    · cases hp
    · rename_i c r
      cases hr : string_body r with
      | none => rw [hr] at hp; cases hp
      | some q =>
        rw [hr] at hp
        simp only [Option.map_some', Option.some.injEq] at hp
        subst hp
        simp only [List.length_cons] at hb hn
        have hlt : st.name.length < TOKEN_MAX_NAME_SIZE := by omega
        have hstep1 : token_step TOKEN_TYPE_STRING 92 st
            = .next (token_skip { st with escape := true }) := by
          simp [token_step, token_step_string, ht, he]
        have hstep2 : token_step TOKEN_TYPE_STRING c (token_skip { st with escape := true })
            = .next (token_push { token_skip { st with escape := true } with escape := false }
                (token_escape c)) := by
          simp [token_step, token_step_string, token_skip]
        rw [List.cons_append, List.cons_append,
          token_scan_step_next _ _ _ _ _ hlt (Or.inl ht) hstep1,
          token_scan_step_next _ _ _ _ _ (by simpa [token_skip] using hlt)
            (Or.inl (by simp [token_skip])) hstep2,
          ih r (by omega) _ q hr (by simp [token_push, token_skip]) rfl
            (by simp only [token_push, token_skip, List.length_append, List.length_singleton]
                omega)]
        simp only [token_push, token_skip, List.length_cons, List.append_assoc,
          List.singleton_append]
        rw [show st.tlength + 1 + 1 + (r.length + 1) = st.tlength + (r.length + 1 + 1 + 1)
          from by omega, he]
    · rename_i c r h1 h2
      split at hp
      · cases hp
      · rename_i h34
        cases hr : string_body r with
        | none => rw [hr] at hp; cases hp
        | some q =>
          rw [hr] at hp
          simp only [Option.map_some', Option.some.injEq] at hp
          subst hp
          simp only [List.length_cons] at hb hn
          have hlt : st.name.length < TOKEN_MAX_NAME_SIZE := by omega
          have h92 : c ≠ 92 := by
            intro e
            subst e
            cases r with
            | nil => exact h1 rfl rfl
            | cons a b => exact h2 a b rfl rfl
          have hstep : token_step TOKEN_TYPE_STRING c st = .next (token_push st c) := by
            simp [token_step, token_step_string, ht, he, h92, h34]
          rw [List.cons_append, token_scan_step_next _ _ _ _ _ hlt (Or.inl ht) hstep,
            ih r (by omega) _ q hr (by simp [token_push]) (by simpa [token_push] using he)
              (by simp only [token_push, List.length_append, List.length_singleton]
                  omega)]
          simp only [token_push, List.length_cons, List.append_assoc, List.singleton_append]
          rw [show st.tlength + 1 + (r.length + 1) = st.tlength + (r.length + 1 + 1)
            from by omega]

/-- The bytes of a line or of a comment after the first one, up to the line feed. -/
theorem token_scan_to_line_feed (type : token_type_t)
    (htype : type = TOKEN_TYPE_LINE ∨ type = TOKEN_TYPE_COMMENT) (rest : List Nat) :
    ∀ (cs : List Nat) (st : token_scan_t), (∀ c ∈ cs, c ≠ 10) →
      st.tlength ≠ 0 → st.name.length + cs.length < TOKEN_MAX_NAME_SIZE →
      token_scan type (cs ++ 10 :: rest) st
        = .ok (some { st with name := st.name ++ (cs ++ [10]),
                              tlength := st.tlength + (cs.length + 1) },
            cs.length + 1) := by
  intro cs
  induction cs with
  | nil =>
    intro st _ ht hn
    have hstep : token_step type 10 st = .brk (token_push st 10) := by
      rcases htype with e | e <;> subst e <;> simp [token_step]
    rw [List.nil_append, token_scan_step_brk _ _ _ _ _ (by simpa using hn) (Or.inl ht) hstep]
    simp [token_push]
  | cons c cs ih =>
    intro st hall ht hn
    simp only [List.length_cons] at hn
    have hlt : st.name.length < TOKEN_MAX_NAME_SIZE := by omega
    have hc : c ≠ 10 := hall c (List.mem_cons_self _ _)
    have hstep : token_step type c st = .next (token_push st c) := by
      rcases htype with e | e <;> subst e <;> simp [token_step, hc, ht]
    rw [List.cons_append, token_scan_step_next _ _ _ _ _ hlt (Or.inl ht) hstep,
      ih (token_push st c) (fun x hx => hall x (List.mem_cons_of_mem _ hx))
        (by simp [token_push])
        (by simp only [token_push, List.length_append, List.length_singleton]; omega)]
    simp only [token_push, List.append_assoc, List.singleton_append, List.length_cons,
      List.cons_append]
    rw [show st.tlength + 1 + (cs.length + 1) = st.tlength + (cs.length + 1 + 1) from by omega]
    simp

theorem scan_at_facts (d : Nat) :
    (token_scan_at d).name = [] ∧ (token_scan_at d).tlength = 0 ∧
    (token_scan_at d).drop = d ∧ (token_scan_at d).escape = false ∧
    (token_scan_at d).name.length < TOKEN_MAX_NAME_SIZE :=
  ⟨rfl, rfl, rfl, rfl, by simp [token_scan_at, token_scan_init, TOKEN_MAX_NAME_SIZE]⟩

theorem lexeme_scan_symbol (L rest p : List Nat) (d : Nat)
    (hL : lexeme TOKEN_TYPE_SYMBOL L = some p)
    (hend : lexeme_end TOKEN_TYPE_SYMBOL L rest = true)
    (hsize : p.length ≤ lexeme_max TOKEN_TYPE_SYMBOL) :
    ∃ st, token_scan TOKEN_TYPE_SYMBOL (L ++ rest) (token_scan_at d)
        = .ok (some st, L.length + lexeme_ahead TOKEN_TYPE_SYMBOL) ∧
      st.drop = d ∧ st.tlength = L.length ∧ st.name = p := by
  simp only [lexeme] at hL
  split at hL
  · rename_i hs
    injection hL with hL
    subst hL
    cases rest with
    | nil => simp [lexeme_end] at hend
    | cons d0 r =>
      simp only [lexeme_end, Bool.not_eq_true'] at hend
      simp only [lexeme_max, TOKEN_MAX_NAME_SIZE] at hsize
      refine ⟨_, token_scan_symbol_ok L r d0 d hs
        (by unfold TOKEN_MAX_NAME_SIZE; omega) hend, rfl, rfl, rfl⟩
  · cases hL

theorem lexeme_scan_number (L rest p : List Nat) (d : Nat)
    (hL : lexeme TOKEN_TYPE_NUMBER L = some p)
    (hend : lexeme_end TOKEN_TYPE_NUMBER L rest = true)
    (hsize : p.length ≤ lexeme_max TOKEN_TYPE_NUMBER) :
    ∃ st, token_scan TOKEN_TYPE_NUMBER (L ++ rest) (token_scan_at d)
        = .ok (some st, L.length + lexeme_ahead TOKEN_TYPE_NUMBER) ∧
      st.drop = d ∧ st.tlength = L.length ∧ st.name = p := by
  cases L with
  | nil => simp [lexeme] at hL
  | cons p0 tl =>
    simp only [lexeme] at hL
    cases hf : number_format p0 with
    | none => rw [hf] at hL; cases hL
    | some f =>
      rw [hf] at hL
      simp only at hL
      split at hL
      · rename_i hall
        injection hL with hL
        subst hL
        cases rest with
        | nil => simp [lexeme_end, hf] at hend
        | cons d0 r =>
          simp only [lexeme_end, List.head?_cons, Option.some_bind, hf] at hend
          simp only [Bool.and_eq_true, decide_eq_true_eq, Bool.not_eq_true'] at hend
          simp only [lexeme_max, TOKEN_MAX_NAME_SIZE, List.length_cons] at hsize
          obtain ⟨_, _, _, _, hlt⟩ := scan_at_facts d
          have hnb : is_blank p0 = false := by
            by_contra hx
            simp only [Bool.not_eq_false, is_blank, decide_eq_true_eq] at hx
            rcases hx with e | e | e <;> subst e <;> simp [number_format, is_digit] at hf
          have hstep : token_step TOKEN_TYPE_NUMBER p0 (token_scan_at d)
              = .next (token_push { token_scan_at d with number := f } p0) := by
            simp only [token_step, token_step_number, token_scan_at, token_scan_init, if_true]
            simp only [number_format] at hf
            split at hf
            · rename_i h; injection hf with hf; subst hf; simp [h]
            · split at hf
              · rename_i h1 h; injection hf with hf; subst hf; simp [h, h1]
              · split at hf
                · rename_i h1 h2 h; injection hf with hf; subst hf; simp [h, h1, h2]
                · split at hf
                  · rename_i h1 h2 h3 h; injection hf with hf; subst hf
                    simp [h, h1, h2, h3]
                  · cases hf
          rw [List.cons_append, token_scan_step_next _ _ _ _ _ hlt (Or.inr hnb) hstep,
            token_scan_number_sep r d0 tl _ (by simpa [token_push] using hall)
              (by simp [token_push])
              (by simp only [token_push, token_scan_at, token_scan_init, List.nil_append,
                    List.length_singleton, TOKEN_MAX_NAME_SIZE]; omega)
              hend.1 (by simpa [token_push] using hend.2)]
          refine ⟨_, rfl, rfl, ?_, ?_⟩
          · simp only [token_push, token_scan_at, token_scan_init, List.length_cons]
            omega
          · simp [token_push, token_scan_at, token_scan_init]
      · cases hL

theorem list_of_getLast (tl : List Nat) (a : Nat) (h : tl.getLast? = some a) :
    tl = tl.dropLast ++ [a] ∧ tl.length = tl.dropLast.length + 1 := by
  have e := List.dropLast_append_getLast? a h
  refine ⟨e.symm, ?_⟩
  conv_lhs => rw [← e]
  simp

theorem lexeme_scan_string (L rest p : List Nat) (d : Nat)
    (hL : lexeme TOKEN_TYPE_STRING L = some p)
    (hsize : p.length ≤ lexeme_max TOKEN_TYPE_STRING) :
    ∃ st, token_scan TOKEN_TYPE_STRING (L ++ rest) (token_scan_at d)
        = .ok (some st, L.length + lexeme_ahead TOKEN_TYPE_STRING) ∧
      st.drop = d ∧ st.tlength = L.length ∧ st.name = p := by
  simp only [lexeme] at hL
  split at hL
  · rename_i tl
    split at hL
    · rename_i hlast
      obtain ⟨e, el⟩ := list_of_getLast tl 34 hlast
      obtain ⟨_, _, _, _, hlt⟩ := scan_at_facts d
      simp only [lexeme_max, TOKEN_MAX_NAME_SIZE] at hsize
      have hstep : token_step TOKEN_TYPE_STRING 34 (token_scan_at d)
          = .next (token_skip (token_scan_at d)) := by
        simp [token_step, token_step_string, token_scan_at, token_scan_init]
      have hcat : 34 :: tl ++ rest = 34 :: (tl.dropLast ++ 34 :: rest) := by
        conv_lhs => rw [e]
        simp
      rw [hcat, token_scan_step_next _ _ _ _ _ hlt (Or.inr (by decide)) hstep,
        token_scan_string_body rest tl.dropLast.length tl.dropLast (Nat.le_refl _)
          (token_skip (token_scan_at d)) p hL (by simp [token_skip]) rfl
          (by simp only [token_skip, token_scan_at, token_scan_init, List.length_nil,
                TOKEN_MAX_NAME_SIZE]; omega)]
      refine ⟨{ token_skip (token_scan_at d) with
          name := (token_skip (token_scan_at d)).name ++ p,
          tlength := (token_skip (token_scan_at d)).tlength + (tl.dropLast.length + 1) },
        ?_, rfl, ?_, ?_⟩
      · simp only [lexeme_ahead, List.length_cons, el, Nat.add_zero]
      · simp only [token_skip, token_scan_at, token_scan_init, List.length_cons, el]
        omega
      · simp [token_skip, token_scan_at, token_scan_init]
    · cases hL
  · cases hL

theorem lexeme_scan_char (L rest p : List Nat) (d : Nat)
    (hL : lexeme TOKEN_TYPE_CHAR L = some p) :
    ∃ st, token_scan TOKEN_TYPE_CHAR (L ++ rest) (token_scan_at d)
        = .ok (some st, L.length + lexeme_ahead TOKEN_TYPE_CHAR) ∧
      st.drop = d ∧ st.tlength = L.length ∧ st.name = p := by
  obtain ⟨_, _, _, _, hlt⟩ := scan_at_facts d
  have hstep0 : token_step TOKEN_TYPE_CHAR 39 (token_scan_at d)
      = .next (token_skip (token_scan_at d)) := by
    simp [token_step, token_step_char, token_scan_at, token_scan_init]
  simp only [lexeme] at hL
  split at hL
  · rename_i c
    split at hL
    · cases hL
    · rename_i h92
      injection hL with hL
      subst hL
      have hstep1 : token_step TOKEN_TYPE_CHAR c (token_skip (token_scan_at d))
          = .next (token_push (token_skip (token_scan_at d)) c) := by
        simp [token_step, token_step_char, token_skip, token_scan_at, token_scan_init, h92]
      have hstep2 : token_step TOKEN_TYPE_CHAR 39
            (token_push (token_skip (token_scan_at d)) c)
          = .brk (token_skip (token_push (token_skip (token_scan_at d)) c)) := by
        simp [token_step, token_step_char, token_skip, token_push, token_scan_at,
          token_scan_init]
      simp only [List.cons_append, List.nil_append]
      rw [token_scan_step_next _ _ _ _ _ hlt (Or.inr (by decide)) hstep0,
        token_scan_step_next _ _ _ _ _ (by simpa [token_skip] using hlt)
          (Or.inl (by simp [token_skip])) hstep1,
        token_scan_step_brk _ _ _ _ _
          (by simp [token_push, token_skip, token_scan_at, token_scan_init,
                TOKEN_MAX_NAME_SIZE])
          (Or.inl (by simp [token_push])) hstep2]
      exact ⟨_, rfl, rfl, rfl, rfl⟩
  · rename_i c
    injection hL with hL
    subst hL
    have hstep1 : token_step TOKEN_TYPE_CHAR 92 (token_skip (token_scan_at d))
        = .next (token_skip { token_skip (token_scan_at d) with escape := true }) := by
      simp [token_step, token_step_char, token_skip, token_scan_at, token_scan_init]
    have hstep2 : token_step TOKEN_TYPE_CHAR c
          (token_skip { token_skip (token_scan_at d) with escape := true })
        = .next (token_push
            { token_skip { token_skip (token_scan_at d) with escape := true } with
              escape := false } (token_escape c)) := by
      simp [token_step, token_step_char, token_skip, token_scan_at, token_scan_init]
    have hstep3 : token_step TOKEN_TYPE_CHAR 39
          (token_push
            { token_skip { token_skip (token_scan_at d) with escape := true } with
              escape := false } (token_escape c))
        = .brk (token_skip (token_push
            { token_skip { token_skip (token_scan_at d) with escape := true } with
              escape := false } (token_escape c))) := by
      simp [token_step, token_step_char, token_skip, token_push, token_scan_at,
        token_scan_init]
    simp only [List.cons_append, List.nil_append]
    rw [token_scan_step_next _ _ _ _ _ hlt (Or.inr (by decide)) hstep0,
      token_scan_step_next _ _ _ _ _ (by simpa [token_skip] using hlt)
        (Or.inl (by simp [token_skip])) hstep1,
      token_scan_step_next _ _ _ _ _ (by simpa [token_skip] using hlt)
        (Or.inl (by simp [token_skip])) hstep2,
      token_scan_step_brk _ _ _ _ _
        (by simp [token_push, token_skip, token_scan_at, token_scan_init,
              TOKEN_MAX_NAME_SIZE])
        (Or.inl (by simp [token_push])) hstep3]
    exact ⟨_, rfl, rfl, rfl, rfl⟩
  · cases hL

theorem lexeme_scan_comment (L rest p : List Nat) (d : Nat)
    (hL : lexeme TOKEN_TYPE_COMMENT L = some p)
    (hsize : p.length ≤ lexeme_max TOKEN_TYPE_COMMENT) :
    ∃ st, token_scan TOKEN_TYPE_COMMENT (L ++ rest) (token_scan_at d)
        = .ok (some st, L.length + lexeme_ahead TOKEN_TYPE_COMMENT) ∧
      st.drop = d ∧ st.tlength = L.length ∧ st.name = p := by
  obtain ⟨_, _, _, _, hlt⟩ := scan_at_facts d
  simp only [lexeme] at hL
  split at hL
  · injection hL with hL
    subst hL
    have hstep : token_step TOKEN_TYPE_COMMENT 10 (token_scan_at d)
        = .brk (token_push (token_scan_at d) 10) := by
      simp [token_step]
    simp only [List.cons_append, List.nil_append]
    rw [token_scan_step_brk _ _ _ _ _ hlt (Or.inr (by decide)) hstep]
    exact ⟨_, rfl, rfl, rfl, rfl⟩
  · rename_i tl
    split at hL
    · rename_i h
      obtain ⟨hlast, hall⟩ := h
      injection hL with hL
      subst hL
      obtain ⟨e, el⟩ := list_of_getLast tl 10 hlast
      simp only [lexeme_max, TOKEN_MAX_NAME_SIZE, List.length_cons] at hsize
      have hstep : token_step TOKEN_TYPE_COMMENT 59 (token_scan_at d)
          = .next (token_push (token_scan_at d) 59) := by
        simp [token_step]
      have hcat : 59 :: tl ++ rest = 59 :: (tl.dropLast ++ 10 :: rest) := by
        conv_lhs => rw [e]
        simp
      have hne : ∀ c ∈ tl.dropLast, c ≠ 10 := by
        intro c hc
        have := List.all_eq_true.1 hall c hc
        simpa using this
      rw [hcat, token_scan_step_next _ _ _ _ _ hlt (Or.inr (by decide)) hstep,
        token_scan_to_line_feed TOKEN_TYPE_COMMENT (Or.inr rfl) rest tl.dropLast
          (token_push (token_scan_at d) 59) hne (by simp [token_push])
          (by simp only [token_push, token_scan_at, token_scan_init, List.nil_append,
                List.length_singleton, TOKEN_MAX_NAME_SIZE]; omega)]
      refine ⟨{ token_push (token_scan_at d) 59 with
          name := (token_push (token_scan_at d) 59).name ++ (tl.dropLast ++ [10]),
          tlength := (token_push (token_scan_at d) 59).tlength + (tl.dropLast.length + 1) },
        ?_, rfl, ?_, ?_⟩
      · simp only [lexeme_ahead, List.length_cons, el, Nat.add_zero]
      · simp only [token_push, token_scan_at, token_scan_init, List.length_cons, el]
        omega
      · simp only [token_push, token_scan_at, token_scan_init, List.nil_append,
          List.singleton_append, ← e]
    · cases hL
  · cases hL

theorem lexeme_scan_line (L rest p : List Nat) (d : Nat)
    (hL : lexeme TOKEN_TYPE_LINE L = some p)
    (hsize : p.length ≤ lexeme_max TOKEN_TYPE_LINE) :
    ∃ st, token_scan TOKEN_TYPE_LINE (L ++ rest) (token_scan_at d)
        = .ok (some st, L.length + lexeme_ahead TOKEN_TYPE_LINE) ∧
      st.drop = d ∧ st.tlength = L.length ∧ st.name = p := by
  obtain ⟨_, _, _, _, hlt⟩ := scan_at_facts d
  cases L with
  | nil => simp [lexeme] at hL
  | cons c tl =>
    simp only [lexeme] at hL
    split at hL
    · rename_i h
      obtain ⟨hnb, hlast, hall⟩ := h
      injection hL with hL
      subst hL
      have hnb2 : is_blank c = false := by simpa using hnb
      simp only [lexeme_max, TOKEN_MAX_NAME_SIZE, List.length_cons] at hsize
      cases tl with
      | nil =>
        simp only [List.getLast?_singleton, Option.some.injEq] at hlast
        subst hlast
        have hstep : token_step TOKEN_TYPE_LINE 10 (token_scan_at d)
            = .brk (token_push (token_scan_at d) 10) := by
          simp [token_step]
        simp only [List.cons_append, List.nil_append]
        rw [token_scan_step_brk _ _ _ _ _ hlt (Or.inr hnb2) hstep]
        exact ⟨_, rfl, rfl, rfl, rfl⟩
      | cons a tl2 =>
        have hlast2 : (a :: tl2).getLast? = some 10 := by
          simpa [List.getLast?_cons_cons] using hlast
        obtain ⟨e, el⟩ := list_of_getLast (a :: tl2) 10 hlast2
        simp only [List.length_cons] at hsize
        have hm : (c :: a :: tl2).length + lexeme_ahead TOKEN_TYPE_LINE
            = (a :: tl2).dropLast.length + 1 + 1 := by
          simp only [lexeme_ahead, List.length_cons] at el ⊢
          omega
        have hdl : (c :: a :: tl2).dropLast = c :: (a :: tl2).dropLast := by
          simp [List.dropLast]
        rw [hdl] at hall
        have hne : ∀ x ∈ c :: (a :: tl2).dropLast, x ≠ 10 := by
          intro x hx
          have := List.all_eq_true.1 hall x hx
          simpa using this
        have hc : c ≠ 10 := hne c (List.mem_cons_self _ _)
        have hstep : token_step TOKEN_TYPE_LINE c (token_scan_at d)
            = .next (token_push (token_scan_at d) c) := by
          simp [token_step, hc]
        have hcat : c :: a :: tl2 ++ rest = c :: ((a :: tl2).dropLast ++ 10 :: rest) := by
          conv_lhs => rw [e]
          simp
        rw [hcat, token_scan_step_next _ _ _ _ _ hlt (Or.inr hnb2) hstep,
          token_scan_to_line_feed TOKEN_TYPE_LINE (Or.inl rfl) rest (a :: tl2).dropLast
            (token_push (token_scan_at d) c)
            (fun x hx => hne x (List.mem_cons_of_mem _ hx)) (by simp [token_push])
            (by simp only [token_push, token_scan_at, token_scan_init, List.nil_append,
                  List.length_singleton, TOKEN_MAX_NAME_SIZE]
                simp only [List.length_cons] at el
                omega)]
        refine ⟨{ token_push (token_scan_at d) c with
            name := (token_push (token_scan_at d) c).name ++ ((a :: tl2).dropLast ++ [10]),
            tlength := (token_push (token_scan_at d) c).tlength
              + ((a :: tl2).dropLast.length + 1) },
          ?_, rfl, ?_, ?_⟩
        · rw [hm]
        · simp only [token_push, token_scan_at, token_scan_init, List.length_cons] at el ⊢
          omega
        · simp only [token_push, token_scan_at, token_scan_init, List.nil_append,
            List.singleton_append, ← e]
    · cases hL

/-- The scan of `token_get` on a lexeme of the kind and what follows it. -/
theorem lexeme_scan (K : token_type_t) (L rest p : List Nat) (d : Nat)
    (hL : lexeme K L = some p) (hend : lexeme_end K L rest = true)
    (hsize : p.length ≤ lexeme_max K) :
    ∃ st, token_scan K (L ++ rest) (token_scan_at d)
        = .ok (some st, L.length + lexeme_ahead K) ∧
      st.drop = d ∧ st.tlength = L.length ∧ st.name = p := by
  have single : ∀ c, token_cmp K = some c → lexeme K L = (if L = [c] then some L else none) →
      lexeme_ahead K = 0 →
      ∃ st, token_scan K (L ++ rest) (token_scan_at d)
          = .ok (some st, L.length + lexeme_ahead K) ∧
        st.drop = d ∧ st.tlength = L.length ∧ st.name = p := by
    intro c hc hdef ha
    rw [hdef] at hL
    split at hL
    · rename_i e
      injection hL with hL
      subst hL
      subst e
      rw [ha]
      exact ⟨_, token_scan_single_ok K c rest d hc, rfl, rfl, rfl⟩
    · cases hL
  cases K
  case TOKEN_TYPE_SYMBOL => exact lexeme_scan_symbol L rest p d hL hend hsize
  case TOKEN_TYPE_NUMBER => exact lexeme_scan_number L rest p d hL hend hsize
  case TOKEN_TYPE_STRING => exact lexeme_scan_string L rest p d hL hsize
  case TOKEN_TYPE_CHAR => exact lexeme_scan_char L rest p d hL
  case TOKEN_TYPE_COMMENT => exact lexeme_scan_comment L rest p d hL hsize
  case TOKEN_TYPE_LINE => exact lexeme_scan_line L rest p d hL hsize
  case TOKEN_TYPE_EOF =>
    simp only [lexeme] at hL
    split at hL
    · rename_i e
      injection hL with hL
      subst hL e
      simp only [lexeme_end, decide_eq_true_eq] at hend
      subst hend
      refine ⟨token_scan_at d, ?_, rfl, rfl, rfl⟩
      simp [token_scan, lexeme_ahead]
    · cases hL
  case TOKEN_TYPE_SHIFT_LEFT =>
    simp only [lexeme] at hL
    split at hL
    · rename_i e
      injection hL with hL
      subst hL e
      exact ⟨_, token_scan_shift_left_ok rest d, rfl, rfl, rfl⟩
    · cases hL
  case TOKEN_TYPE_SHIFT_RIGHT =>
    simp only [lexeme] at hL
    split at hL
    · rename_i e
      injection hL with hL
      subst hL e
      exact ⟨_, token_scan_shift_right_ok rest d, rfl, rfl, rfl⟩
    · cases hL
  all_goals exact single _ rfl rfl rfl

/-- C33 (amended). For every token kind K and every lexeme L of K that stands for
the bytes p (`lexeme`), on bytes ahead that are blanks (spaces, tabs, carriage
returns), then L, then `rest`, where a symbol or a number is followed by a byte
that cannot continue it and the end of the file by nothing (`lexeme_end`), p has at
most 1023 bytes (1024 for a comment or a line), and the window has room for the
bytes read (they were read before, or together with the current token they are at
most 2048): `token_get(K, TOKEN_NEXT)` returns p as a C string, the current token
is L and the bytes ahead are `rest`. -/
theorem C33_token_get_lexeme (t : token_t) (K : token_type_t) (ws L rest p : List Nat)
    (hst : token_stream t = ws ++ (L ++ rest)) (hws : ws.all is_blank = true)
    (hL : lexeme K L = some p) (hend : lexeme_end K L rest = true)
    (hsize : p.length ≤ lexeme_max K)
    (hroom : t.current.length + (ws.length + L.length + lexeme_ahead K) ≤ TOKEN_TRACE_SIZE ∨
      ws.length + L.length + lexeme_ahead K ≤ t.next.length) :
    ∃ t1, token_get t K TOKEN_NEXT = .ok (some (c_string p), t1) ∧
      t1.current = L ∧ token_stream t1 = rest := by
  obtain ⟨st, h1, h2, h3, h4⟩ := lexeme_scan K L rest p ws.length hL hend hsize
  obtain ⟨t1, a, b, c⟩ := tok_lexeme_gen t K ws L rest st _ hst hws h1 h2 h3
    (by omega)
  rw [h4] at a
  exact ⟨t1, a, b, c⟩

/-- C33 (counterexample). The symbol `abc` with no further input is not returned:
`token_get` reaches the end of the file while it looks for the byte that ends the
symbol, and returns `NULL`; so does the number `12`. Followed by a line feed both
are returned. A number with `_` separators is returned without them and a string
without its quote marks, the escapes replaced. A symbol of 1024 letters is the fatal
error "Token size exceed", and after a line of 1024 bytes the request for a line of
1023 bytes behind two spaces is the fatal error "Rollback exceed": the window of
2048 bytes cannot hold the current token and the 1025 bytes read. -/
theorem C33_symbol_at_end_of_input :
    (token_get (token_prepare (cstr "abc")) TOKEN_TYPE_SYMBOL TOKEN_NEXT).map Prod.fst
      = .ok none ∧
    lexeme TOKEN_TYPE_SYMBOL (cstr "abc") = some (cstr "abc") ∧
    (token_get (token_prepare (cstr "12")) TOKEN_TYPE_NUMBER TOKEN_NEXT).map Prod.fst
      = .ok none ∧
    (token_get (token_prepare (cstr "abc\n")) TOKEN_TYPE_SYMBOL TOKEN_NEXT).map Prod.fst
      = .ok (some (cstr "abc")) ∧
    (token_get (token_prepare (cstr "12\n")) TOKEN_TYPE_NUMBER TOKEN_NEXT).map Prod.fst
      = .ok (some (cstr "12")) ∧
    (token_get (token_prepare (cstr "1_000\n")) TOKEN_TYPE_NUMBER TOKEN_NEXT).map Prod.fst
      = .ok (some (cstr "1000")) ∧
    (token_get (token_prepare (cstr "\"a\\n\"")) TOKEN_TYPE_STRING TOKEN_NEXT).map Prod.fst
      = .ok (some (cstr "a\n")) ∧
    lexeme TOKEN_TYPE_SYMBOL (List.replicate 1024 97) = some (List.replicate 1024 97) ∧
    (token_get (token_prepare c33_long_symbol) TOKEN_TYPE_SYMBOL TOKEN_NEXT).map Prod.fst
      = .error "Token size exceed" ∧
    (token_get (token_prepare c33_two_lines) TOKEN_TYPE_LINE TOKEN_NEXT).map
        (fun r => r.1.isSome) = .ok true ∧
    (token_get (token_prepare c33_two_lines) TOKEN_TYPE_LINE TOKEN_NEXT).bind
        (fun r => (token_get r.2 TOKEN_TYPE_LINE TOKEN_NEXT).map Prod.fst)
      = .error "Rollback exceed" :=
  ⟨by decide!, by decide!, by decide!, by decide!, by decide!, by decide!, by decide!,
    by decide!, by decide!, by decide!, by decide!⟩

/-- Witness of `C33_token_get_lexeme`: at the start of the file ` \t$1F_FF+1` the
request for a number returns `$1FFF`, the current token is `$1F_FF` and `+1` and the
line feed are ahead; the request for a string on `"a\n" x` returns the byte `a` and
a line feed. -/
theorem C33_token_get_lexeme_witness :
    (token_stream (token_prepare (cstr " \t$1F_FF+1\n"))
        = [32, 9] ++ (cstr "$1F_FF" ++ cstr "+1\n") ∧
      lexeme TOKEN_TYPE_NUMBER (cstr "$1F_FF") = some (cstr "$1FFF") ∧
      lexeme_end TOKEN_TYPE_NUMBER (cstr "$1F_FF") (cstr "+1\n") = true) ∧
    (∃ t1, token_get (token_prepare (cstr " \t$1F_FF+1\n")) TOKEN_TYPE_NUMBER TOKEN_NEXT
        = .ok (some (c_string (cstr "$1FFF")), t1) ∧
      t1.current = cstr "$1F_FF" ∧ token_stream t1 = cstr "+1\n") ∧
    (∃ t1, token_get (token_prepare (cstr "\"a\\n\" x")) TOKEN_TYPE_STRING TOKEN_NEXT
        = .ok (some (c_string (cstr "a\n")), t1) ∧
      t1.current = cstr "\"a\\n\"" ∧ token_stream t1 = cstr " x") ∧
    c_string (cstr "$1FFF") = cstr "$1FFF" :=
  ⟨⟨by decide, by decide, by decide⟩,
    C33_token_get_lexeme (token_prepare (cstr " \t$1F_FF+1\n")) TOKEN_TYPE_NUMBER [32, 9]
      (cstr "$1F_FF") (cstr "+1\n") (cstr "$1FFF") (by decide) (by decide) (by decide)
      (by decide) (by decide) (Or.inl (by decide)),
    C33_token_get_lexeme (token_prepare (cstr "\"a\\n\" x")) TOKEN_TYPE_STRING []
      (cstr "\"a\\n\"") (cstr " x") (cstr "a\n") (by decide) (by decide) (by decide)
      (by decide) (by decide) (Or.inl (by decide)),
    by decide⟩

/-! ## `memdata_pack` -/

theorem memdata_row_bytes_length (x : memdata_row_t) :
    (memdata_row_bytes x).length = x.length := by
  unfold memdata_row_bytes
  simp only [List.length_append, List.length_take, List.length_replicate]
  omega

theorem memdata_row_bytes_chunk (c : memdata_row_t) (h : c.data.length = c.length) :
    memdata_row_bytes c = c.data := by
  unfold memdata_row_bytes
  rw [← h]
  simp

theorem memdata_row_bytes_mk (o : Nat) (d : List Nat) (l m : Nat) (h : d.length = l) :
    memdata_row_bytes { offset := o, data := d, length := l, mark := m } = d :=
  memdata_row_bytes_chunk _ h

theorem row_holds_clear (x : memdata_row_t) (a b : Nat) :
    row_holds (row_clear x) a b ↔ row_holds x a b := Iff.rfl

theorem row_holds_mark (x : memdata_row_t) (m : Nat) (a b : Nat) :
    row_holds { x with mark := m } a b ↔ row_holds x a b := Iff.rfl

theorem rows_disjoint_symm (x y : memdata_row_t) (h : rows_disjoint x y) :
    rows_disjoint y x := Or.symm h

theorem rows_apart_symm (x y : memdata_row_t) (h : rows_apart x y) : rows_apart y x :=
  Or.symm h

theorem rows_disjoint_iff (x y : memdata_row_t) (hx : x.length ≠ 0) (hy : y.length ≠ 0) :
    rows_disjoint x y ↔ ∀ a, ¬ (row_covers x a ∧ row_covers y a) := by
  unfold rows_disjoint row_covers
  constructor
  · intro h a ha
    omega
  · intro h
    by_contra hc
    rcases Nat.le_total x.offset y.offset with h1 | h1
    · exact h y.offset (by omega)
    · exact h x.offset (by omega)

/-- The overlap test of `memdata_pack` on a row and a chunk without wrap-around. -/
theorem pack_overlap_iff (r c : memdata_row_t) (hr : row_ok r) (hc : row_ok c) :
    ((r.offset < c.offset ∧ (r.offset + r.length) % 4294967296 > c.offset) ∨
      (r.offset ≥ c.offset ∧ r.offset < (c.offset + c.length) % 4294967296))
      ↔ ¬ rows_disjoint r c := by
  obtain ⟨hr1, hr2⟩ := hr
  obtain ⟨hc1, hc2⟩ := hc
  rw [Nat.mod_eq_of_lt hr2, Nat.mod_eq_of_lt hc2]
  unfold rows_disjoint
  omega

/-- The chunk after a row was appended. -/
theorem pack_append_holds (r c : memdata_row_t) (hr : row_ok r) (hc : chunk_ok c)
    (h : r.offset = c.offset + c.length) :
    chunk_ok { c with data := c.data ++ memdata_row_bytes r,
                      length := (c.length + r.length) % 4294967296 } ∧
    (c.length + r.length) % 4294967296 = c.length + r.length ∧
    ∀ a b, row_holds { c with data := c.data ++ memdata_row_bytes r,
                              length := (c.length + r.length) % 4294967296 } a b
      ↔ row_holds c a b ∨ row_holds r a b := by
  obtain ⟨hr1, hr2⟩ := hr
  obtain ⟨hc0, hcm, hc1, hc2⟩ := hc
  have hmod : (c.length + r.length) % 4294967296 = c.length + r.length :=
    Nat.mod_eq_of_lt (by omega)
  have hlen := memdata_row_bytes_length r
  refine ⟨⟨?_, hcm, ?_, ?_⟩, hmod, ?_⟩
  · simp only [List.length_append, hlen, hmod, hc0]
  · simp only [hmod]; omega
  · simp only [hmod]; omega
  · intro a b
    unfold row_holds row_covers row_byte
    rw [memdata_row_bytes_chunk c hc0]
    simp only [hmod]
    have e := memdata_row_bytes_mk c.offset (c.data ++ memdata_row_bytes r)
      (c.length + r.length) c.mark (by simp only [List.length_append, hlen, hc0])
    rw [e]
    constructor
    · rintro ⟨⟨h1, h2⟩, h3⟩
      by_cases hlt : a < c.offset + c.length
      · left
        refine ⟨⟨h1, hlt⟩, ?_⟩
        rw [← h3, List.getD_append _ _ _ _ (by omega)]
      · right
        refine ⟨⟨by omega, by omega⟩, ?_⟩
        rw [← h3, List.getD_append_right _ _ _ _ (by omega)]
        congr 1
        omega
    · rintro (⟨⟨h1, h2⟩, h3⟩ | ⟨⟨h1, h2⟩, h3⟩)
      · refine ⟨⟨h1, by omega⟩, ?_⟩
        rw [← h3, List.getD_append _ _ _ _ (by omega)]
      · refine ⟨⟨by omega, by omega⟩, ?_⟩
        rw [← h3, List.getD_append_right _ _ _ _ (by omega)]
        congr 1
        omega

/-- The chunk after a row was put before it. -/
theorem pack_prepend_holds (r c : memdata_row_t) (hr : row_ok r) (hc : chunk_ok c)
    (h : r.offset + r.length = c.offset) :
    chunk_ok { c with data := memdata_row_bytes r ++ c.data, offset := r.offset,
                      length := (c.length + r.length) % 4294967296 } ∧
    (c.length + r.length) % 4294967296 = c.length + r.length ∧
    ∀ a b, row_holds { c with data := memdata_row_bytes r ++ c.data, offset := r.offset,
                              length := (c.length + r.length) % 4294967296 } a b
      ↔ row_holds c a b ∨ row_holds r a b := by
  obtain ⟨hr1, hr2⟩ := hr
  obtain ⟨hc0, hcm, hc1, hc2⟩ := hc
  have hmod : (c.length + r.length) % 4294967296 = c.length + r.length :=
    Nat.mod_eq_of_lt (by omega)
  have hlen := memdata_row_bytes_length r
  refine ⟨⟨?_, hcm, ?_, ?_⟩, hmod, ?_⟩
  · simp only [List.length_append, hlen, hmod, hc0]; omega
  · simp only [hmod]; omega
  · simp only [hmod]; omega
  · intro a b
    unfold row_holds row_covers row_byte
    rw [memdata_row_bytes_chunk c hc0]
    simp only [hmod]
    have e := memdata_row_bytes_mk r.offset (memdata_row_bytes r ++ c.data)
      (c.length + r.length) c.mark (by simp only [List.length_append, hlen, hc0]; omega)
    rw [e]
    constructor
    · rintro ⟨⟨h1, h2⟩, h3⟩
      by_cases hlt : a < c.offset
      · right
        refine ⟨⟨h1, by omega⟩, ?_⟩
        rw [← h3, List.getD_append _ _ _ _ (by omega)]
      · left
        refine ⟨⟨by omega, by omega⟩, ?_⟩
        rw [← h3, List.getD_append_right _ _ _ _ (by omega)]
        congr 1
        omega
    · rintro (⟨⟨h1, h2⟩, h3⟩ | ⟨⟨h1, h2⟩, h3⟩)
      · refine ⟨⟨by omega, by omega⟩, ?_⟩
        rw [← h3, List.getD_append_right _ _ _ _ (by omega)]
        congr 1
        omega
      · refine ⟨⟨h1, by omega⟩, ?_⟩
        rw [← h3, List.getD_append _ _ _ _ (by omega)]

theorem marked_holds_append (l1 l2 : List memdata_row_t) (a b : Nat) :
    marked_holds (l1 ++ l2) a b ↔ marked_holds l1 a b ∨ marked_holds l2 a b := by
  unfold marked_holds
  constructor
  · rintro ⟨x, hx, h⟩
    rcases List.mem_append.1 hx with h1 | h1
    · exact Or.inl ⟨x, h1, h⟩
    · exact Or.inr ⟨x, h1, h⟩
  · rintro (⟨x, hx, h⟩ | ⟨x, hx, h⟩)
    · exact ⟨x, List.mem_append_left _ hx, h⟩
    · exact ⟨x, List.mem_append_right _ hx, h⟩

theorem marked_holds_cons (x : memdata_row_t) (l : List memdata_row_t) (a b : Nat) :
    marked_holds (x :: l) a b ↔ (x.mark ≠ 0 ∧ row_holds x a b) ∨ marked_holds l a b := by
  unfold marked_holds
  constructor
  · rintro ⟨y, hy, h⟩
    rcases List.mem_cons.1 hy with h1 | h1
    · subst h1; exact Or.inl h
    · exact Or.inr ⟨y, h1, h⟩
  · rintro (h | ⟨y, hy, h⟩)
    · exact ⟨x, List.mem_cons_self _ _, h⟩
    · exact ⟨y, List.mem_cons_of_mem _ hy, h⟩

/-- The row `r` without mark is marked and the chunks take its bytes. -/
theorem pack_inv_absorb (pre tl cs cs1 : List memdata_row_t) (r : memdata_row_t)
    (hok : ∀ x ∈ pre ++ r :: tl, row_ok x)
    (hinv : pack_inv (pre ++ r :: tl) cs) (hr : r.mark = 0)
    (hdis : ∀ y ∈ cs, rows_disjoint y r)
    (hcells : ∀ a b, (∃ x ∈ cs1, row_holds x a b) ↔ (∃ x ∈ cs, row_holds x a b) ∨ row_holds r a b)
    (hcs1 : ∀ x ∈ cs1, chunk_ok x) :
    pack_inv (pre ++ { r with mark := 1 } :: tl) cs1 := by
  obtain ⟨hB, hC, hA⟩ := hinv
  have hrok : row_ok r := hok r (by simp)
  -- a marked row of the list is disjoint from r
  have hmark : ∀ x, x ∈ pre ∨ x ∈ tl → x.mark ≠ 0 → rows_disjoint x r := by
    intro x hx hm
    have hxin : x ∈ pre ++ r :: tl := by
      rcases hx with h | h
      · exact List.mem_append_left _ h
      · exact List.mem_append_right _ (List.mem_cons_of_mem _ h)
    have hxok := hok x hxin
    rw [rows_disjoint_iff x r hxok.1 hrok.1]
    rintro a ⟨hxa, hra⟩
    have : marked_holds (pre ++ r :: tl) a (row_byte x a) := ⟨x, hxin, hm, hxa, rfl⟩
    obtain ⟨y, hy, hya, _⟩ := (hB a (row_byte x a)).2 this
    have hd := hdis y hy
    have hyok := (hA y hy).2.2
    rw [rows_disjoint_iff y r hyok.1 hrok.1] at hd
    exact hd a ⟨hya, hra⟩
  refine ⟨?_, ?_, hcs1⟩
  · intro a b
    rw [hcells, hB, marked_holds_append, marked_holds_append, marked_holds_cons,
      marked_holds_cons]
    simp only [hr, ne_eq, not_true_eq_false, false_and, false_or, one_ne_zero,
      not_false_eq_true, true_and]
    constructor
    · rintro ((h | h) | h)
      · exact Or.inl h
      · exact Or.inr (Or.inr h)
      · exact Or.inr (Or.inl h)
    · rintro (h | h | h)
      · exact Or.inl (Or.inl h)
      · exact Or.inr h
      · exact Or.inl (Or.inr h)
  · rw [List.pairwise_append] at hC ⊢
    obtain ⟨h1, h2, h3⟩ := hC
    rw [List.pairwise_cons] at h2 ⊢
    refine ⟨h1, ⟨?_, h2.2⟩, ?_⟩
    · intro b hb _ hbm
      exact rows_disjoint_symm _ _ (hmark b (Or.inr hb) hbm)
    · intro a ha b hb
      rcases List.mem_cons.1 hb with e | e
      · subst e
        intro ham _
        exact hmark a (Or.inl ha) ham
      · exact h3 a ha b (List.mem_cons_of_mem _ e)

/-- The chunk that took a row next to it still lies apart from a finished chunk. -/
theorem rows_apart_absorb (x c r c1 : memdata_row_t)
    (hxc : rows_apart x c) (hxr : rows_apart x r)
    (hgeo : (c1.offset = c.offset ∧ c1.offset + c1.length = r.offset + r.length ∧
        r.offset = c.offset + c.length) ∨
      (c1.offset = r.offset ∧ c1.offset + c1.length = c.offset + c.length ∧
        r.offset + r.length = c.offset)) :
    rows_apart x c1 := by
  unfold rows_apart at *
  omega

theorem pairwise_disjoint_clear (l1 l2 : List memdata_row_t)
    (h : l1.map row_clear = l2.map row_clear) (hp : l1.Pairwise rows_disjoint) :
    l2.Pairwise rows_disjoint := by
  have e : ∀ l : List memdata_row_t,
      l.Pairwise rows_disjoint ↔ (l.map row_clear).Pairwise rows_disjoint := by
    intro l
    rw [List.pairwise_map]
    exact Iff.rfl
  rw [e] at hp ⊢
  rw [← h]
  exact hp

theorem unmarked_cons (x : memdata_row_t) (l : List memdata_row_t) :
    unmarked (x :: l) = unmarked l + (if x.mark = 0 then 1 else 0) := by
  unfold unmarked
  rw [List.countP_cons]
  simp

theorem pack_pass_wrap_post (new pre tl : List memdata_row_t) (r r2 c c2 : memdata_row_t)
    (marked mk : Bool) (res : Run (List memdata_row_t × memdata_row_t × Bool))
    (hcase : (mk = marked ∧ r2 = r ∧ c2 = c ∧ (r.mark = 0 → rows_apart c r)) ∨
      (mk = true ∧ r2 = { r with mark := 1 } ∧ r.mark = 0))
    (h : pack_pass_post new (pre ++ [r2]) tl c2 mk res) :
    pack_pass_post new pre (r :: tl) c marked (pack_pass_wrap r2 res) := by
  obtain ⟨hA, hB, hC⟩ := h
  have hclear : row_clear r2 = row_clear r := by
    rcases hcase with ⟨_, e, _⟩ | ⟨_, e, _⟩
    · rw [e]
    · rw [e]; rfl
  have hun : r2.mark = 0 → r2 = r := by
    intro h0
    rcases hcase with ⟨_, e, _⟩ | ⟨_, e, _⟩
    · exact e
    · rw [e] at h0; cases h0
  refine ⟨?_, ?_, ?_⟩
  · intro rest1 c1 m1 hres
    cases res with
    | error e => cases hres
    | ok p =>
      obtain ⟨tl1, c1', m1'⟩ := p
      simp only [pack_pass_wrap] at hres
      injection hres with hres
      injection hres with e1 e2
      injection e2 with e2 e3
      subst e1 e2 e3
      obtain ⟨a1, a2, a3, a4, a5, a6, a7, a8⟩ := hA tl1 c1' m1' rfl
      refine ⟨?_, ?_, ?_, a4, ?_, ?_, ?_, ?_⟩
      · simp only [List.map_cons, hclear, a1]
      · intro x hx h0
        rcases List.mem_cons.1 hx with e | e
        · subst e
          rw [hun h0]
          exact List.mem_cons_self _ _
        · exact List.mem_cons_of_mem _ (a2 x e h0)
      · have e : pre ++ r2 :: tl1 = (pre ++ [r2]) ++ tl1 := by simp
        rw [e]
        exact a3
      · intro hm
        rcases hcase with ⟨e, _⟩ | ⟨e, _⟩
        · exact a5 (by rw [e]; exact hm)
        · exact a5 e
      · intro hm
        rcases hcase with ⟨e, e2, e3, e4⟩ | ⟨e, _⟩
        · obtain ⟨b1, b2, b3⟩ := a6 hm
          refine ⟨by rw [b1, e3], by rw [b2, e2], ?_⟩
          intro x hx h0
          rcases List.mem_cons.1 hx with ex | ex
          · subst ex; exact e4 h0
          · rw [← e3]; exact b3 x ex h0
        · have := a5 e
          rw [hm] at this
          cases this
      · rw [unmarked_cons, unmarked_cons]
        have : (if r2.mark = 0 then 1 else 0) ≤ (if r.mark = 0 then 1 else 0) := by
          by_cases h0 : r2.mark = 0
          · rw [← hun h0]
          · simp only [h0, if_false]; omega
        omega
      · intro hm hmk
        rw [unmarked_cons, unmarked_cons]
        rcases hcase with ⟨e, e2, _⟩ | ⟨_, e2, e3⟩
        · have := a8 hm (by rw [e]; exact hmk)
          rw [e2]
          omega
        · rw [e2]
          simp only [e3, if_true, one_ne_zero, if_false]
          omega
  · intro e he
    cases res with
    | error e1 =>
      simp only [pack_pass_wrap] at he
      injection he with he
      rw [← he]
      exact hB e1 rfl
    | ok p => cases he
  · intro hp
    have hp2 : ((pre ++ [r2]) ++ tl).Pairwise rows_disjoint := by
      apply pairwise_disjoint_clear (pre ++ r :: tl) _ _ hp
      simp only [List.map_append, List.map_cons, List.map_nil, hclear, List.append_assoc,
        List.singleton_append]
    obtain ⟨p, hp3⟩ := hC hp2
    subst hp3
    obtain ⟨tl1, c1', m1'⟩ := p
    exact ⟨_, rfl⟩

theorem memdata_pack_pass_cons (row : memdata_row_t) (rest : List memdata_row_t)
    (chunk : memdata_row_t) (marked : Bool) :
    memdata_pack_pass (row :: rest) chunk marked =
      if row.length = 0 then
        pack_pass_wrap { row with mark := 1 } (memdata_pack_pass rest chunk true)
      else if row.mark = 0 then
        if (row.offset < chunk.offset ∧
              (row.offset + row.length) % 4294967296 > chunk.offset) ∨
            (row.offset ≥ chunk.offset ∧
              row.offset < (chunk.offset + chunk.length) % 4294967296) then
          .error "Memory overlap at"
        else if row.offset = (chunk.offset + chunk.length) % 4294967296 then
          pack_pass_wrap { row with mark := 1 }
            (memdata_pack_pass rest
              { chunk with data := chunk.data ++ memdata_row_bytes row,
                           length := (chunk.length + row.length) % 4294967296 } true)
        else if (row.offset + row.length) % 4294967296 = chunk.offset then
          pack_pass_wrap { row with mark := 1 }
            (memdata_pack_pass rest
              { chunk with data := memdata_row_bytes row ++ chunk.data,
                           offset := row.offset,
                           length := (chunk.length + row.length) % 4294967296 } true)
        else pack_pass_wrap row (memdata_pack_pass rest chunk marked)
      else pack_pass_wrap row (memdata_pack_pass rest chunk marked) := by
  rw [memdata_pack_pass]
  split_ifs <;> rfl

theorem rows_apart_disjoint (x y : memdata_row_t) (h : rows_apart x y) : rows_disjoint x y := by
  unfold rows_apart at h
  unfold rows_disjoint
  omega

theorem pack_apart_sub (l1 l2 new : List memdata_row_t) (h : pack_apart l1 new)
    (hsub : ∀ x ∈ l2, x.mark = 0 → x ∈ l1) : pack_apart l2 new :=
  ⟨fun x hx r hr h0 => h.1 x hx r (hsub r hr h0) h0, h.2⟩

theorem row_ok_of_clear (l1 l2 : List memdata_row_t)
    (h : l1.map row_clear = l2.map row_clear) (hok : ∀ x ∈ l1, row_ok x) :
    ∀ x ∈ l2, row_ok x := by
  intro x hx
  have : row_clear x ∈ l1.map row_clear := by
    rw [h]; exact List.mem_map_of_mem _ hx
  obtain ⟨y, hy, e⟩ := List.mem_map.1 this
  have hyok := hok y hy
  have e1 : x.offset = y.offset := by
    have := congrArg memdata_row_t.offset e; exact this.symm
  have e2 : x.length = y.length := by
    have := congrArg memdata_row_t.length e; exact this.symm
  unfold row_ok at hyok ⊢
  rw [e1, e2]
  exact hyok

/-- The loop over the rows inside "find contiguous memory chunks". -/
theorem pack_pass_spec (new : List memdata_row_t) :
    ∀ (rest pre : List memdata_row_t) (c : memdata_row_t) (marked : Bool),
      (∀ x ∈ pre ++ rest, row_ok x) → pack_inv (pre ++ rest) (c :: new) →
      pack_apart (pre ++ rest) new → (∀ x ∈ new, rows_apart x c) →
      pack_pass_post new pre rest c marked (memdata_pack_pass rest c marked) := by
  intro rest
  induction rest with
  | nil =>
    intro pre c marked hok hinv hap hnc
    refine ⟨?_, ?_, ?_⟩
    · intro rest1 c1 m1 h
      simp only [memdata_pack_pass] at h
      injection h with h
      injection h with e1 e2
      injection e2 with e2 e3
      subst e1 e2 e3
      refine ⟨rfl, fun x hx _ => absurd hx (List.not_mem_nil _), hinv, hnc, fun h => h, ?_,
        Nat.le_refl _, ?_⟩
      · intro _
        exact ⟨rfl, rfl, fun r hr _ => absurd hr (List.not_mem_nil _)⟩
      · intro h1 h2
        rw [h1] at h2
        cases h2
    · intro e h
      simp only [memdata_pack_pass] at h
      cases h
    · intro _
      exact ⟨_, rfl⟩
  | cons r tl ih =>
    intro pre c marked hok hinv hap hnc
    have hrok : row_ok r := hok r (by simp)
    have hcok : chunk_ok c := hinv.2.2 c (List.mem_cons_self _ _)
    have hmodc : (c.offset + c.length) % 4294967296 = c.offset + c.length :=
      Nat.mod_eq_of_lt hcok.2.2.2
    have hmodr : (r.offset + r.length) % 4294967296 = r.offset + r.length :=
      Nat.mod_eq_of_lt hrok.2
    have hlist : ∀ r2 : memdata_row_t, (pre ++ [r2]) ++ tl = pre ++ r2 :: tl := by
      intro r2; simp
    rw [memdata_pack_pass_cons]
    rw [if_neg hrok.1]
    by_cases hm : r.mark = 0
    · rw [if_pos hm]
      by_cases hO : (r.offset < c.offset ∧ (r.offset + r.length) % 4294967296 > c.offset) ∨
          (r.offset ≥ c.offset ∧ r.offset < (c.offset + c.length) % 4294967296)
      · rw [if_pos hO]
        have hnd := (pack_overlap_iff r c hrok hcok.2.2).1 hO
        refine ⟨?_, ?_, ?_⟩
        · intro _ _ _ h
          cases h
        · intro e h
          injection h with h
          exact h.symm
        · intro hp
          exfalso
          apply hnd
          rw [rows_disjoint_iff r c hrok.1 hcok.2.2.1]
          rintro a ⟨hra, hca⟩
          have h1 : ∃ x ∈ c :: new, row_holds x a (row_byte c a) :=
            ⟨c, List.mem_cons_self _ _, hca, rfl⟩
          obtain ⟨y, hy, hym, hya, _⟩ := (hinv.1 a (row_byte c a)).1 h1
          rw [List.pairwise_append, List.pairwise_cons] at hp
          obtain ⟨_, ⟨hp2, _⟩, hp3⟩ := hp
          have hyok := hok y hy
          rcases List.mem_append.1 hy with h2 | h2
          · have hd := hp3 y h2 r (List.mem_cons_self _ _)
            rw [rows_disjoint_iff y r hyok.1 hrok.1] at hd
            exact hd a ⟨hya, hra⟩
          · rcases List.mem_cons.1 h2 with h3 | h3
            · rw [h3] at hym; exact hym hm
            · have hd := hp2 y h3
              rw [rows_disjoint_iff r y hrok.1 hyok.1] at hd
              exact hd a ⟨hra, hya⟩
      · rw [if_neg hO]
        have hdis : rows_disjoint r c := by
          by_contra hx
          exact hO ((pack_overlap_iff r c hrok hcok.2.2).2 hx)
        have hdiscs : ∀ y ∈ c :: new, rows_disjoint y r := by
          intro y hy
          rcases List.mem_cons.1 hy with e | e
          · rw [e]; exact rows_disjoint_symm _ _ hdis
          · exact rows_apart_disjoint _ _ (hap.1 y e r (by simp) hm)
        have hok2 : ∀ x ∈ (pre ++ [{ r with mark := 1 }]) ++ tl, row_ok x := by
          apply row_ok_of_clear (pre ++ r :: tl) _ _ hok
          simp only [List.map_append, List.map_cons, List.map_nil, List.append_assoc,
            List.singleton_append]
          rfl
        have hap2 : pack_apart ((pre ++ [{ r with mark := 1 }]) ++ tl) new := by
          apply pack_apart_sub (pre ++ r :: tl) _ _ hap
          intro x hx h0
          rw [hlist] at hx
          rcases List.mem_append.1 hx with h | h
          · exact List.mem_append_left _ h
          · rcases List.mem_cons.1 h with e | e
            · rw [e] at h0; cases h0
            · exact List.mem_append_right _ (List.mem_cons_of_mem _ e)
        by_cases happ : r.offset = (c.offset + c.length) % 4294967296
        · rw [if_pos happ]
          rw [hmodc] at happ
          obtain ⟨k1, k2, k3⟩ := pack_append_holds r c hrok hcok happ
          apply pack_pass_wrap_post new pre tl r _ c _ marked true _ (Or.inr ⟨rfl, rfl, hm⟩)
          apply ih _ _ _ hok2
          · rw [hlist]
            apply pack_inv_absorb pre tl (c :: new) _ r hok hinv hm hdiscs
            · intro a b
              simp only [List.exists_mem_cons_iff] 
              rw [k3 a b]
              constructor
              · rintro ((h | h) | h)
                · exact Or.inl (Or.inl h)
                · exact Or.inr h
                · exact Or.inl (Or.inr h)
              · rintro ((h | h) | h)
                · exact Or.inl (Or.inl h)
                · exact Or.inr h
                · exact Or.inl (Or.inr h)
            · intro x hx
              rcases List.mem_cons.1 hx with e | e
              · rw [e]; exact k1
              · exact hinv.2.2 x (List.mem_cons_of_mem _ e)
          · exact hap2
          · intro x hx
            apply rows_apart_absorb x c r _ (hnc x hx) (hap.1 x hx r (by simp) hm)
            refine Or.inl ⟨rfl, ?_, happ⟩
            show c.offset + (c.length + r.length) % 4294967296 = r.offset + r.length
            rw [k2]
            omega
        · rw [if_neg happ]
          by_cases hpre : (r.offset + r.length) % 4294967296 = c.offset
          · rw [if_pos hpre]
            rw [hmodr] at hpre
            obtain ⟨k1, k2, k3⟩ := pack_prepend_holds r c hrok hcok hpre
            apply pack_pass_wrap_post new pre tl r _ c _ marked true _ (Or.inr ⟨rfl, rfl, hm⟩)
            apply ih _ _ _ hok2
            · rw [hlist]
              apply pack_inv_absorb pre tl (c :: new) _ r hok hinv hm hdiscs
              · intro a b
                simp only [List.exists_mem_cons_iff]
                rw [k3 a b]
                constructor
                · rintro ((h | h) | h)
                  · exact Or.inl (Or.inl h)
                  · exact Or.inr h
                  · exact Or.inl (Or.inr h)
                · rintro ((h | h) | h)
                  · exact Or.inl (Or.inl h)
                  · exact Or.inr h
                  · exact Or.inl (Or.inr h)
              · intro x hx
                rcases List.mem_cons.1 hx with e | e
                · rw [e]; exact k1
                · exact hinv.2.2 x (List.mem_cons_of_mem _ e)
            · exact hap2
            · intro x hx
              apply rows_apart_absorb x c r _ (hnc x hx) (hap.1 x hx r (by simp) hm)
              refine Or.inr ⟨rfl, ?_, hpre⟩
              show r.offset + (c.length + r.length) % 4294967296 = c.offset + c.length
              rw [k2]
              omega
          · rw [if_neg hpre]
            have hapart : rows_apart c r := by
              rw [hmodc] at happ
              rw [hmodr] at hpre
              unfold rows_disjoint at hdis
              unfold rows_apart
              omega
            apply pack_pass_wrap_post new pre tl r r c c marked marked _
              (Or.inl ⟨rfl, rfl, rfl, fun _ => hapart⟩)
            apply ih _ _ _ (by rw [hlist]; exact hok) (by rw [hlist]; exact hinv)
              (by rw [hlist]; exact hap) hnc
    · rw [if_neg hm]
      apply pack_pass_wrap_post new pre tl r r c c marked marked _
        (Or.inl ⟨rfl, rfl, rfl, fun h => absurd h hm⟩)
      apply ih _ _ _ (by rw [hlist]; exact hok) (by rw [hlist]; exact hinv)
        (by rw [hlist]; exact hap) hnc

/-- The loop "find contiguous memory chunks". -/
theorem pack_grow_spec (new : List memdata_row_t) :
    ∀ (fuel : Nat) (R : List memdata_row_t) (c : memdata_row_t),
      unmarked R < fuel → (∀ x ∈ R, row_ok x) → pack_inv R (c :: new) →
      pack_apart R new → (∀ x ∈ new, rows_apart x c) →
      ∃ res, memdata_pack_grow fuel R c = some res ∧
        (∀ e, res = .error e → e = "Memory overlap at") ∧
        (R.Pairwise rows_disjoint → ∃ p, res = .ok p) ∧
        (∀ R1 c1, res = .ok (R1, c1) →
          R1.map row_clear = R.map row_clear ∧ pack_inv R1 (c1 :: new) ∧
          pack_apart R1 new ∧ (∀ x ∈ new, rows_apart x c1) ∧
          (∀ r ∈ R1, r.mark = 0 → rows_apart c1 r) ∧ unmarked R1 ≤ unmarked R) := by
  intro fuel
  induction fuel with
  | zero => intro R c h; omega
  | succ n ih =>
    intro R c hfuel hok hinv hap hnc
    obtain ⟨hA, hB, hC⟩ := pack_pass_spec new R [] c false hok hinv hap hnc
    rw [memdata_pack_grow]
    cases hres : memdata_pack_pass R c false with
    | error e =>
      refine ⟨.error e, rfl, ?_, ?_, ?_⟩
      · intro e1 h
        injection h with h
        rw [← h]
        exact hB e hres
      · intro hp
        obtain ⟨p, hp2⟩ := hC hp
        rw [hres] at hp2
        cases hp2
      · intro _ _ h
        cases h
    | ok p =>
      obtain ⟨R1, c1, m⟩ := p
      obtain ⟨a1, a2, a3, a4, _, a6, a7, a8⟩ := hA R1 c1 m hres
      simp only [List.nil_append] at a3
      have hap1 : pack_apart R1 new := pack_apart_sub R R1 new hap a2
      cases m with
      | false =>
        obtain ⟨b1, b2, b3⟩ := a6 rfl
        refine ⟨.ok (R1, c1), by simp, ?_, ?_, ?_⟩
        · intro e h
          cases h
        · intro _
          exact ⟨_, rfl⟩
        · intro R2 c2 h
          injection h with h
          injection h with e1 e2
          subst e1 e2
          refine ⟨a1, a3, hap1, a4, ?_, a7⟩
          rw [b1, b2]
          exact b3
      | true =>
        have hlt : unmarked R1 < n := by
          have := a8 rfl rfl
          omega
        have hok1 := row_ok_of_clear R R1 a1.symm hok
        obtain ⟨res, k1, k2, k3, k4⟩ := ih R1 c1 hlt hok1 a3 hap1 a4
        refine ⟨res, by simpa using k1, k2, ?_, ?_⟩
        · intro hp
          exact k3 (pairwise_disjoint_clear R R1 a1.symm hp)
        · intro R2 c2 h
          obtain ⟨d1, d2, d3, d4, d5, d6⟩ := k4 R2 c2 h
          exact ⟨d1.trans a1, d2, d3, d4, d5, by omega⟩

theorem memdata_add_chunk (new : List memdata_row_t) (c : memdata_row_t) (h : chunk_ok c) :
    memdata_add new c.offset c.data c.length = new ++ [c] := by
  obtain ⟨h1, h2, _⟩ := h
  unfold memdata_add
  congr 2
  cases c
  simp only at h1 h2
  subst h2
  simp [← h1]

/-- The loop "find first entry for new data block". -/
theorem pack_first_spec :
    ∀ (R : List memdata_row_t),
      (memdata_pack_first R = none → unmarked R = 0) ∧
      ∀ c R1, memdata_pack_first R = some (c, R1) →
        ∃ pre r tl, R = pre ++ r :: tl ∧ r.mark = 0 ∧
          R1 = pre ++ { r with mark := 1 } :: tl ∧
          c = { offset := r.offset, data := memdata_row_bytes r, length := r.length } ∧
          unmarked R1 + 1 = unmarked R := by
  intro R
  induction R with
  | nil =>
    refine ⟨fun _ => rfl, ?_⟩
    intro c R1 h
    simp [memdata_pack_first] at h
  | cons x l ih =>
    rw [memdata_pack_first]
    by_cases hm : x.mark = 0
    · rw [if_pos hm]
      refine ⟨fun h => (by cases h), ?_⟩
      intro c R1 h
      injection h with h
      injection h with e1 e2
      refine ⟨[], x, l, rfl, hm, e2.symm, e1.symm, ?_⟩
      rw [← e2, unmarked_cons, unmarked_cons]
      simp [hm]
    · rw [if_neg hm]
      cases hrec : memdata_pack_first l with
      | none =>
        refine ⟨?_, ?_⟩
        · intro _
          rw [unmarked_cons, ih.1 hrec]
          simp [hm]
        · intro c R1 h
          cases h
      | some p =>
        obtain ⟨c0, l1⟩ := p
        refine ⟨fun h => (by cases h), ?_⟩
        intro c R1 h
        injection h with h
        injection h with e1 e2
        obtain ⟨pre, r, tl, k1, k2, k3, k4, k5⟩ := ih.2 c0 l1 hrec
        refine ⟨x :: pre, r, tl, by rw [k1]; rfl, k2, by rw [← e2, k3]; rfl,
          by rw [← e1]; exact k4, ?_⟩
        rw [← e2, unmarked_cons, unmarked_cons]
        omega

theorem pack_inv_perm (R cs1 cs2 : List memdata_row_t) (h : ∀ x, x ∈ cs1 ↔ x ∈ cs2)
    (hinv : pack_inv R cs1) : pack_inv R cs2 := by
  obtain ⟨hB, hC, hA⟩ := hinv
  refine ⟨?_, hC, fun x hx => hA x ((h x).2 hx)⟩
  intro a b
  rw [← hB]
  constructor
  · rintro ⟨x, hx, hh⟩; exact ⟨x, (h x).2 hx, hh⟩
  · rintro ⟨x, hx, hh⟩; exact ⟨x, (h x).1 hx, hh⟩

/-- The outer loop of `memdata_pack`. -/
theorem pack_loop_spec (fuel : Nat) :
    ∀ (n : Nat) (R N : List memdata_row_t),
      unmarked R < n → unmarked R < fuel → (∀ x ∈ R, row_ok x) →
      pack_inv R N → pack_apart R N →
      ∃ res, memdata_pack_loop n fuel R N = some res ∧
        (∀ e, res = .error e → e = "Memory overlap at") ∧
        (R.Pairwise rows_disjoint → ∃ N1, res = .ok N1) ∧
        (∀ N1, res = .ok N1 →
          N1.length ≤ N.length + unmarked R ∧
          ∃ R1, R1.map row_clear = R.map row_clear ∧ unmarked R1 = 0 ∧
            pack_inv R1 N1 ∧ pack_apart R1 N1) := by
  intro n
  induction n with
  | zero => intro R N h; omega
  | succ n ih =>
    intro R N hn hfuel hok hinv hap
    rw [memdata_pack_loop]
    obtain ⟨hnone, hsome⟩ := pack_first_spec R
    cases hfirst : memdata_pack_first R with
    | none =>
      refine ⟨.ok N, rfl, ?_, ?_, ?_⟩
      · intro e h; cases h
      · intro _; exact ⟨N, rfl⟩
      · intro N1 h
        injection h with h
        subst h
        exact ⟨Nat.le_add_right _ _, R, rfl, hnone hfirst, hinv, hap⟩
    | some p =>
      obtain ⟨c, R1⟩ := p
      obtain ⟨pre, r, tl, e1, hr, e2, e3, hun⟩ := hsome c R1 hfirst
      subst e1
      have hrok : row_ok r := hok r (by simp)
      have hclear1 : R1.map row_clear = (pre ++ r :: tl).map row_clear := by
        rw [e2]
        simp only [List.map_append, List.map_cons]
        rfl
      have hcok : chunk_ok c := by
        rw [e3]
        exact ⟨memdata_row_bytes_length r, rfl, hrok⟩
      have hcr : ∀ a b, row_holds c a b ↔ row_holds r a b := by
        intro a b
        unfold row_holds row_covers row_byte
        rw [memdata_row_bytes_chunk c hcok.1, e3]
      have hinv1 : pack_inv R1 (c :: N) := by
        rw [e2]
        apply pack_inv_absorb pre tl N (c :: N) r hok hinv hr
        · intro y hy
          exact rows_apart_disjoint _ _ (hap.1 y hy r (by simp) hr)
        · intro a b
          simp only [List.exists_mem_cons_iff]
          rw [hcr]
          constructor
          · rintro (h | h)
            · exact Or.inr h
            · exact Or.inl h
          · rintro (h | h)
            · exact Or.inr h
            · exact Or.inl h
        · intro x hx
          rcases List.mem_cons.1 hx with e | e
          · rw [e]; exact hcok
          · exact hinv.2.2 x e
      have hap1 : pack_apart R1 N := by
        apply pack_apart_sub (pre ++ r :: tl) R1 N hap
        intro x hx h0
        rw [e2] at hx
        rcases List.mem_append.1 hx with h | h
        · exact List.mem_append_left _ h
        · rcases List.mem_cons.1 h with e | e
          · rw [e] at h0; cases h0
          · exact List.mem_append_right _ (List.mem_cons_of_mem _ e)
      have hnc : ∀ x ∈ N, rows_apart x c := by
        intro x hx
        have := hap.1 x hx r (by simp) hr
        rw [e3]
        exact this
      have hok1 := row_ok_of_clear _ R1 hclear1.symm hok
      obtain ⟨resg, g1, g2, g3, g4⟩ := pack_grow_spec N fuel R1 c (by omega) hok1 hinv1 hap1 hnc
      simp only [g1]
      cases resg with
      | error e =>
        refine ⟨.error e, rfl, ?_, ?_, ?_⟩
        · intro e1 h
          injection h with h
          rw [← h]
          exact g2 e rfl
        · intro hp
          obtain ⟨p, hp2⟩ := g3 (pairwise_disjoint_clear _ R1 hclear1.symm hp)
          cases hp2
        · intro N1 h; cases h
      | ok p =>
        obtain ⟨R2, c1⟩ := p
        obtain ⟨d1, d2, d3, d4, d5, d6⟩ := g4 R2 c1 rfl
        have hc1ok : chunk_ok c1 := d2.2.2 c1 (List.mem_cons_self _ _)
        simp only
        rw [memdata_add_chunk N c1 hc1ok]
        have hok2 := row_ok_of_clear R1 R2 d1.symm hok1
        have hinv2 : pack_inv R2 (N ++ [c1]) := by
          apply pack_inv_perm R2 (c1 :: N) _ _ d2
          intro x
          simp only [List.mem_cons, List.mem_append, List.mem_singleton, List.not_mem_nil,
            or_false]
          exact Or.comm
        have hap2 : pack_apart R2 (N ++ [c1]) := by
          refine ⟨?_, ?_⟩
          · intro x hx r0 hr0 h0
            rcases List.mem_append.1 hx with h | h
            · exact d3.1 x h r0 hr0 h0
            · rw [List.mem_singleton.1 h]
              exact d5 r0 hr0 h0
          · rw [List.pairwise_append]
            refine ⟨d3.2, List.pairwise_singleton _ _, ?_⟩
            intro x hx y hy
            rw [List.mem_singleton.1 hy]
            exact d4 x hx
        obtain ⟨res, k1, k2, k3, k4⟩ := ih R2 (N ++ [c1]) (by omega) (by omega) hok2 hinv2 hap2
        refine ⟨res, k1, k2, ?_, ?_⟩
        · intro hp
          apply k3
          apply pairwise_disjoint_clear _ R2 _ hp
          rw [d1, hclear1]
        · intro N1 h
          obtain ⟨m0, R3, m1, m2, m3, m4⟩ := k4 N1 h
          refine ⟨?_, R3, by rw [m1, d1, hclear1], m2, m3, m4⟩
          simp only [List.length_append, List.length_singleton] at m0
          omega

/-! ## `llist_sort` -/

theorem llist_sort_pass_some {α : Type} (f : α → α → Bool)
    (hasym : ∀ a b, f a b = true → f b a = false) :
    ∀ (l l1 : List α), llist_sort_pass f l = some l1 →
      l1.Perm l ∧ llist_inversions f l1 + 1 = llist_inversions f l := by
  intro l
  induction l with
  | nil => intro l1 h; simp [llist_sort_pass] at h
  | cons e0 t ih =>
    intro l1 h
    cases t with
    | nil => simp [llist_sort_pass] at h
    | cons e1 rest =>
      rw [llist_sort_pass] at h
      by_cases hf : f e0 e1 = true
      · rw [if_pos hf] at h
        injection h with h
        subst h
        refine ⟨List.Perm.swap _ _ _, ?_⟩
        have hf2 := hasym e0 e1 hf
        simp only [llist_inversions, List.countP_cons, hf, hf2, if_true]
        simp
        omega
      · rw [if_neg hf] at h
        cases hrec : llist_sort_pass f (e1 :: rest) with
        | none => rw [hrec] at h; cases h
        | some l2 =>
          rw [hrec] at h
          injection h with h
          subst h
          obtain ⟨hp, hi⟩ := ih l2 hrec
          refine ⟨List.Perm.cons _ hp, ?_⟩
          simp only [llist_inversions] at hi ⊢
          rw [hp.countP_eq]
          omega

theorem llist_sort_pass_none {α : Type} (f : α → α → Bool) :
    ∀ (l : List α), llist_sort_pass f l = none → l.Chain' (fun a b => f a b = false) := by
  intro l
  induction l with
  | nil => intro _; exact List.chain'_nil
  | cons e0 t ih =>
    intro h
    cases t with
    | nil => exact List.chain'_singleton _
    | cons e1 rest =>
      rw [llist_sort_pass] at h
      by_cases hf : f e0 e1 = true
      · rw [if_pos hf] at h; cases h
      · rw [if_neg hf] at h
        cases hrec : llist_sort_pass f (e1 :: rest) with
        | none =>
          rw [List.chain'_cons]
          exact ⟨by simpa using hf, ih hrec⟩
        | some l2 => rw [hrec] at h; cases h

theorem llist_inversions_le {α : Type} (f : α → α → Bool) :
    ∀ (l : List α), llist_inversions f l ≤ l.length * l.length := by
  intro l
  induction l with
  | nil => simp [llist_inversions]
  | cons a t ih =>
    simp only [llist_inversions, List.length_cons]
    have := List.countP_le_length (fun b => f a b) (l := t)
    nlinarith

/-- The function `llist_sort` returns the elements in an order in which `f` holds
for no two neighbours. -/
theorem llist_sort_spec {α : Type} (f : α → α → Bool)
    (hasym : ∀ a b, f a b = true → f b a = false) :
    ∀ (fuel : Nat) (l : List α), llist_inversions f l < fuel →
      ∃ out, llist_sort f fuel l = some out ∧ out.Perm l ∧
        out.Chain' (fun a b => f a b = false) := by
  intro fuel
  induction fuel with
  | zero => intro l h; omega
  | succ n ih =>
    intro l h
    rw [llist_sort]
    cases hp : llist_sort_pass f l with
    | none => exact ⟨l, rfl, List.Perm.refl _, llist_sort_pass_none f l hp⟩
    | some l1 =>
      obtain ⟨h1, h2⟩ := llist_sort_pass_some f hasym l l1 hp
      obtain ⟨out, k1, k2, k3⟩ := ih l1 (by omega)
      exact ⟨out, k1, k2.trans h1, k3⟩

/-! ## The result of `memdata_pack` -/

theorem holds_of_clear (l1 l2 : List memdata_row_t)
    (h : l1.map row_clear = l2.map row_clear) (a b : Nat) :
    (∃ x ∈ l1, row_holds x a b) ↔ ∃ x ∈ l2, row_holds x a b := by
  have e : ∀ l : List memdata_row_t,
      (∃ x ∈ l, row_holds x a b) ↔ ∃ y ∈ l.map row_clear, row_holds y a b := by
    intro l
    constructor
    · rintro ⟨x, hx, hh⟩
      exact ⟨row_clear x, List.mem_map_of_mem _ hx, hh⟩
    · rintro ⟨y, hy, hh⟩
      obtain ⟨x, hx, e⟩ := List.mem_map.1 hy
      rw [← e] at hh
      exact ⟨x, hx, hh⟩
  rw [e l1, e l2, h]

theorem memdata_at_iff (l : List memdata_row_t) (hp : l.Pairwise rows_disjoint)
    (hl : ∀ x ∈ l, x.length ≠ 0) (a b : Nat) :
    memdata_at l a = some b ↔ ∃ x ∈ l, row_holds x a b := by
  unfold memdata_at
  constructor
  · intro h
    cases hf : l.find? (fun x => decide (x.offset ≤ a ∧ a < x.offset + x.length)) with
    | none => rw [hf] at h; cases h
    | some x =>
      rw [hf] at h
      injection h with h
      have hx := List.find?_some hf
      simp only [decide_eq_true_eq] at hx
      exact ⟨x, List.mem_of_find?_eq_some hf, hx, h⟩
  · rintro ⟨x, hx, hc, hb⟩
    cases hf : l.find? (fun x => decide (x.offset ≤ a ∧ a < x.offset + x.length)) with
    | none =>
      have := List.find?_eq_none.1 hf x hx
      simp only [decide_eq_true_eq] at this
      exact absurd hc this
    | some y =>
      have hy := List.find?_some hf
      simp only [decide_eq_true_eq] at hy
      have hyl := List.mem_of_find?_eq_some hf
      have e : y = x := by
        by_contra hne
        have hd := hp.forall (fun _ _ h => rows_disjoint_symm _ _ h) hyl hx hne
        rw [rows_disjoint_iff y x (hl y hyl) (hl x hx)] at hd
        exact hd a ⟨hy, hc⟩
      simp only [e, hb]

theorem pairwise_unmarked (l : List memdata_row_t) (h : ∀ x ∈ l, x.mark = 0) :
    l.Pairwise (fun x y => x.mark ≠ 0 → y.mark ≠ 0 → rows_disjoint x y) := by
  induction l with
  | nil => exact List.Pairwise.nil
  | cons a t ih =>
    rw [List.pairwise_cons]
    refine ⟨?_, ih (fun x hx => h x (List.mem_cons_of_mem _ hx))⟩
    intro b _ ha
    exact absurd (h a (List.mem_cons_self _ _)) ha

theorem sorted_apart (l : List memdata_row_t) (hp : l.Pairwise rows_apart)
    (hc : l.Chain' (fun a b => _compare_row a b = false)) :
    l.Pairwise (fun x y => x.offset + x.length < y.offset) := by
  have hc2 : l.Chain' (fun a b : memdata_row_t => a.offset ≤ b.offset) := by
    apply hc.imp
    intro a b h
    simp only [_compare_row, gt_iff_lt, decide_eq_false_iff_not, not_lt] at h
    exact h
  haveI : IsTrans memdata_row_t (fun a b => a.offset ≤ b.offset) :=
    ⟨fun _ _ _ h1 h2 => Nat.le_trans h1 h2⟩
  have hp2 := List.chain'_iff_pairwise.1 hc2
  apply (hp.and hp2).imp
  intro a b h
  obtain ⟨h1, h2⟩ := h
  unfold rows_apart at h1
  omega

/-- The function `memdata_pack` on rows of non-zero length that end below 2^32. -/
theorem memdata_pack_spec (rows : List memdata_row_t) (fuel : Nat)
    (hok : ∀ x ∈ rows, row_ok x) (hfuel : rows.length * rows.length < fuel) :
    (rows.Pairwise rows_disjoint →
      ∃ out, memdata_pack fuel rows = some (.ok out) ∧
        out.Pairwise (fun x y => x.offset + x.length < y.offset) ∧
        (∀ x ∈ out, chunk_ok x) ∧
        ∀ a, memdata_at out a = memdata_at rows a) ∧
    (¬ rows.Pairwise rows_disjoint →
      memdata_pack fuel rows = some (.error "Memory overlap at")) := by
  have hR0 : rows.map (fun row => { row with mark := 0 }) = rows.map row_clear := rfl
  have hmark0 : ∀ x ∈ rows.map row_clear, x.mark = 0 := by
    intro x hx
    obtain ⟨y, _, e⟩ := List.mem_map.1 hx
    rw [← e]; rfl
  have hun0 : unmarked (rows.map row_clear) = rows.length := by
    unfold unmarked
    rw [List.countP_eq_length.2]
    · simp
    · intro x hx
      simpa using hmark0 x hx
  have hcc : (rows.map row_clear).map row_clear = rows.map row_clear := by
    rw [List.map_map]
    rfl
  have hok0 : ∀ x ∈ rows.map row_clear, row_ok x :=
    row_ok_of_clear rows _ hcc.symm hok
  have hinv0 : pack_inv (rows.map row_clear) [] := by
    refine ⟨?_, pairwise_unmarked _ hmark0, fun x hx => absurd hx (List.not_mem_nil _)⟩
    intro a b
    constructor
    · rintro ⟨x, hx, _⟩
      exact absurd hx (List.not_mem_nil _)
    · rintro ⟨x, hx, hm, _⟩
      exact absurd (hmark0 x hx) hm
  have hap0 : pack_apart (rows.map row_clear) [] :=
    ⟨fun x hx => absurd hx (List.not_mem_nil _), List.Pairwise.nil⟩
  have hn : rows.length < fuel := by
    rcases Nat.eq_zero_or_pos rows.length with h | h
    · omega
    · nlinarith
  obtain ⟨res, k1, k2, k3, k4⟩ := pack_loop_spec fuel fuel (rows.map row_clear) []
    (by omega) (by omega) hok0 hinv0 hap0
  have hasym : ∀ a b : memdata_row_t, _compare_row a b = true → _compare_row b a = false := by
    intro a b h
    simp only [_compare_row, gt_iff_lt, decide_eq_true_eq, decide_eq_false_iff_not,
      not_lt] at h ⊢
    omega
  -- what an ok result of the loop tells
  have hokres : ∀ N1, res = .ok N1 →
      rows.Pairwise rows_disjoint ∧
      ∃ out, memdata_pack fuel rows = some (.ok out) ∧
        out.Pairwise (fun x y => x.offset + x.length < y.offset) ∧
        (∀ x ∈ out, chunk_ok x) ∧
        (rows.Pairwise rows_disjoint → ∀ a, memdata_at out a = memdata_at rows a) := by
    intro N1 hres
    obtain ⟨hlen, R1, m1, m2, m3, m4⟩ := k4 N1 hres
    rw [hcc] at m1
    have hallm : ∀ x ∈ R1, x.mark ≠ 0 := by
      intro x hx
      have := (List.countP_eq_zero.1 m2) x hx
      simpa using this
    have hdisR1 : R1.Pairwise rows_disjoint := by
      apply m3.2.1.imp_of_mem
      intro a b ha hb h
      exact h (hallm a ha) (hallm b hb)
    have hdis : rows.Pairwise rows_disjoint := pairwise_disjoint_clear R1 rows m1 hdisR1
    have hN1 : N1.length ≤ rows.length := by
      simp only [List.length_nil, Nat.zero_add, hun0] at hlen
      exact hlen
    have hinvN : llist_inversions _compare_row N1 < fuel := by
      have := llist_inversions_le _compare_row N1
      have : N1.length * N1.length ≤ rows.length * rows.length := Nat.mul_le_mul hN1 hN1
      omega
    obtain ⟨out, s1, s2, s3⟩ := llist_sort_spec _compare_row hasym fuel N1 hinvN
    have hmem : ∀ x, x ∈ out ↔ x ∈ N1 := fun x => s2.mem_iff
    have hapart : out.Pairwise rows_apart :=
      (s2.pairwise_iff (fun {a b} h => rows_apart_symm a b h)).2 m4.2
    have hsorted := sorted_apart out hapart s3
    have hchunk : ∀ x ∈ out, chunk_ok x := fun x hx => m3.2.2 x ((hmem x).1 hx)
    refine ⟨hdis, out, ?_, hsorted, hchunk, ?_⟩
    · unfold memdata_pack
      rw [hR0, k1, hres]
      simp only [s1]
    · intro _ a
      apply Option.ext
      intro b
      have hdo : out.Pairwise rows_disjoint := hapart.imp (fun h => rows_apart_disjoint _ _ h)
      simp only [Option.mem_def]
      rw [memdata_at_iff out hdo (fun x hx => (hchunk x hx).2.2.1),
        memdata_at_iff rows hdis (fun x hx => (hok x hx).1)]
      rw [← holds_of_clear R1 rows m1 a b]
      have e1 : (∃ x ∈ out, row_holds x a b) ↔ ∃ x ∈ N1, row_holds x a b := by
        constructor
        · rintro ⟨x, hx, h⟩; exact ⟨x, (hmem x).1 hx, h⟩
        · rintro ⟨x, hx, h⟩; exact ⟨x, (hmem x).2 hx, h⟩
      rw [e1, m3.1 a b]
      constructor
      · rintro ⟨x, hx, _, h⟩; exact ⟨x, hx, h⟩
      · rintro ⟨x, hx, h⟩; exact ⟨x, hx, hallm x hx, h⟩
  refine ⟨?_, ?_⟩
  · intro hp
    have hp0 : (rows.map row_clear).Pairwise rows_disjoint :=
      pairwise_disjoint_clear rows _ hcc.symm hp
    obtain ⟨N1, hres⟩ := k3 hp0
    obtain ⟨_, out, h1, h2, h3, h4⟩ := hokres N1 hres
    exact ⟨out, h1, h2, h3, h4 hp⟩
  · intro hnp
    cases res with
    | ok N1 => exact absurd (hokres N1 rfl).1 hnp
    | error e =>
      have he := k2 e rfl
      unfold memdata_pack
      rw [hR0, k1, he]

/-- C32 (counterexample). Two rows at the top of the address space, 16 bytes at
0xFFFFFFF0 and 4 bytes at 0xFFFFFFF8: the second lies inside the range of the
first, yet `memdata_pack` succeeds and returns both rows, because the end of the
chunk, `chunk.offset + chunk.length`, is computed in `uint32_t` and is 0. For the
same reason the disjoint rows of 16 bytes at 0xFFFFFFF0 and 4 bytes at 0 are packed
into one row of 20 bytes at 0xFFFFFFF0, which holds no byte for the address 0. -/
theorem C32_rows_at_the_top_of_the_address_space :
    memdata_pack 5 c32_rows_top = some (.ok c32_rows_top) ∧
    ¬ c32_rows_top.Pairwise rows_disjoint ∧
    (∀ x ∈ c32_rows_top, x.length ≠ 0) ∧
    (0xFFFFFFF0 + 16) % 4294967296 = 0 ∧
    memdata_pack 5 c32_rows_wrap
      = some (.ok [{ offset := 0xFFFFFFF0, data := List.range 16 ++ [1, 2, 3, 4],
                     length := 20 }]) ∧
    c32_rows_wrap.Pairwise rows_disjoint ∧
    memdata_at c32_rows_wrap 0 = some 1 ∧
    memdata_at [{ offset := 0xFFFFFFF0, data := List.range 16 ++ [1, 2, 3, 4],
                  length := 20 }] 0 = none :=
  ⟨by decide!, by decide, by decide, by decide, by decide!, by decide, by decide!,
    by decide!⟩

/-- C32 (amended). For rows of non-zero length whose ranges end below 2^32 and a
number of passes above the square of the number of rows: when the ranges are
pairwise disjoint, `memdata_pack` succeeds, every row of the result ends below the
address where the next begins (so the rows are in strictly ascending order and no
row ends where another begins), no row of the result is empty, and the result holds
for every address the byte that the input rows hold; when two ranges intersect, it
fails with "Memory overlap at". -/
theorem C32_memdata_pack (rows : List memdata_row_t) (fuel : Nat)
    (hok : ∀ x ∈ rows, row_ok x) (hfuel : rows.length * rows.length < fuel) :
    (rows.Pairwise rows_disjoint →
      ∃ out, memdata_pack fuel rows = some (.ok out) ∧
        out.Pairwise (fun x y => x.offset + x.length < y.offset) ∧
        (∀ x ∈ out, x.length ≠ 0 ∧ x.data.length = x.length) ∧
        ∀ a, memdata_at out a = memdata_at rows a) ∧
    (¬ rows.Pairwise rows_disjoint →
      memdata_pack fuel rows = some (.error "Memory overlap at")) := by
  obtain ⟨h1, h2⟩ := memdata_pack_spec rows fuel hok hfuel
  refine ⟨?_, h2⟩
  intro hp
  obtain ⟨out, a1, a2, a3, a4⟩ := h1 hp
  exact ⟨out, a1, a2, fun x hx => ⟨(a3 x hx).2.2.1, (a3 x hx).1⟩, a4⟩

/-- Witness of `C32_memdata_pack`: the rows of 2 bytes at 0x8004, 1 byte at 0x9000
and 4 bytes at 0x8000 are packed into 6 bytes at 0x8000 and 1 byte at 0x9000; two
rows of which the second begins at the last byte of the first are refused. -/
theorem C32_memdata_pack_witness :
    ((∀ x ∈ c32_rows, row_ok x) ∧ c32_rows.length * c32_rows.length < 10 ∧
      c32_rows.Pairwise rows_disjoint) ∧
    (∃ out, memdata_pack 10 c32_rows = some (.ok out) ∧
      out.Pairwise (fun x y => x.offset + x.length < y.offset) ∧
      (∀ x ∈ out, x.length ≠ 0 ∧ x.data.length = x.length) ∧
      ∀ a, memdata_at out a = memdata_at c32_rows a) ∧
    memdata_pack 10 c32_rows
      = some (.ok [{ offset := 0x8000, data := [1, 2, 3, 4, 5, 6], length := 6 },
                   { offset := 0x9000, data := [7], length := 1 }]) ∧
    ¬ c32_rows_overlap.Pairwise rows_disjoint ∧
    memdata_pack 10 c32_rows_overlap = some (.error "Memory overlap at") :=
  ⟨⟨by decide, by decide, by decide⟩,
    (C32_memdata_pack c32_rows 10 (by decide) (by decide)).1 (by decide),
    by decide!, by decide,
    (C32_memdata_pack c32_rows_overlap 10 (by decide) (by decide)).2 (by decide)⟩

/-- C31 (code at the failing input). One loadable section of 4 bytes at the load
address 0x12345: the packed map is the row of these bytes at 0x12345, the file that
`_write_srec` writes is the single S1 record with the address field 2345, and
`srec_read` followed by `memdata_pack` gives the row of these bytes at 0x2345, not
the packed input map. Inside the first 64 KiB the map is read back as it was packed:
the sections of 20 bytes at 0x8014, 20 bytes at 0x8000 and 2 bytes at 0x9000 are
packed into 40 bytes at 0x8000 and 2 bytes at 0x9000, written as four S1 records,
and read back as these two rows. -/
theorem C31_reread_above_64k :
    (_write_srec_rows c31_sections [] false).1
      = [{ offset := 0x12345, data := [1, 2, 3, 4], length := 4 }] ∧
    memdata_pack 5 [{ offset := 0x12345, data := [1, 2, 3, 4], length := 4 }]
      = some (.ok [{ offset := 0x12345, data := [1, 2, 3, 4], length := 4 }]) ∧
    _write_srec 5 c31_sections [] = some (.ok (cstr "S10723450102030486\r\n")) ∧
    srec_reread 5 (cstr "S10723450102030486\r\n")
      = some (.ok [{ offset := 0x2345, data := [1, 2, 3, 4], length := 4 }]) ∧
    memdata_pack 10 (_write_srec_rows c31_sections_low [] false).1
      = some (.ok [{ offset := 0x8000, data := List.range 40, length := 40 },
                   { offset := 0x9000, data := [0xAA, 0xBB], length := 2 }]) ∧
    _write_srec 10 c31_sections_low []
      = some (.ok (cstr ("S1138000000102030405060708090A0B0C0D0E0FF4\r\n" ++
                         "S1138010101112131415161718191A1B1C1D1E1FE4\r\n" ++
                         "S10B8020202122232425262738\r\n" ++
                         "S1059000AABB05\r\n"))) ∧
    srec_reread 10 (cstr ("S1138000000102030405060708090A0B0C0D0E0FF4\r\n" ++
                          "S1138010101112131415161718191A1B1C1D1E1FE4\r\n" ++
                          "S10B8020202122232425262738\r\n" ++
                          "S1059000AABB05\r\n"))
      = some (.ok [{ offset := 0x8000, data := List.range 40, length := 40 },
                   { offset := 0x9000, data := [0xAA, 0xBB], length := 2 }]) :=
  ⟨by decide!, by decide!, by decide!, by decide!, by decide!, by decide!, by decide!⟩

end Stm8mu
